import Mathlib

/-! RTuinOS kernel: a shallow embedding of `code/RTOS/rtos.c`

The module-scope variables of `rtos.c` are collected in the record `Kernel`; every kernel
function becomes a function on `Kernel`.  Conventions of the embedding:

* A task object is addressed by its index into `_taskAry`; the idle task has index
  `RTOS_NO_TASKS`.  A `task_t *` in the source is a task index here.
* `_pSuspendedTaskAry` together with `_noSuspendedTasks` is the list of the first
  `_noSuspendedTasks` array entries; likewise `_pDueTaskAryAry[c]` together with
  `_noDueTasksAry[c]`.  The counters are the lengths of these lists.
* Unsigned machine integers are natural numbers; `uint16_t` event vectors are combined with
  the bit operations of `Nat`, the complement is taken in 16 Bit (`not16`), the system time
  wraps at `2 ^ timeBits` and a semaphore counter at `2 ^ semaphoreBits`.
* `ASSERT` expands to nothing (production compilation), see `rtos_assert.h`.
* The compile-time switches of `rtos.config.h` are the fields of `Config`.
-/

namespace RTuinOS

/-! ## Configuration and event masks -/

/-- Compile-time configuration, the settings of `rtos.config.h`. -/
structure Config where
  /-- Number of tasks, `RTOS_NO_TASKS`. -/
  noTasks : Nat
  /-- Number of priority classes, `RTOS_NO_PRIO_CLASSES`. -/
  noPrioClasses : Nat
  /-- Capacity of a due list, `RTOS_MAX_NO_TASKS_IN_PRIO_CLASS`. -/
  maxNoTasksInPrioClass : Nat
  /-- Number of semaphore events, `RTOS_NO_SEMAPHORE_EVENTS`. -/
  noSemaphoreEvents : Nat
  /-- Number of mutex events, `RTOS_NO_MUTEX_EVENTS`. -/
  noMutexEvents : Nat
  /-- Switch `RTOS_ROUND_ROBIN_MODE_SUPPORTED`. -/
  roundRobinModeSupported : Bool
  /-- Switch `RTOS_OVERRUN_TASK_IS_IMMEDIATELY_DUE`. -/
  overrunTaskIsImmediatelyDue : Bool
  /-- Number of bits of `uintTime_t`, the argument of `RTOS_DEFINE_TYPE_OF_SYSTEM_TIME`. -/
  timeBits : Nat
  /-- Number of bits of `uintSemaphore_t`. -/
  semaphoreBits : Nat
  deriving DecidableEq, Repr

/-- Derived switch `RTOS_USE_SEMAPHORE` of `rtos.h`. -/
def Config.useSemaphore (cfg : Config) : Bool := decide (cfg.noSemaphoreEvents > 0)

/-- Derived switch `RTOS_USE_MUTEX` of `rtos.h`. -/
def Config.useMutex (cfg : Config) : Bool := decide (cfg.noMutexEvents > 0)

/-- The constraints which `rtos.h` and `rtos.config.h` put on the configuration. -/
def Config.WellFormed (cfg : Config) : Prop :=
  cfg.noTasks ≤ 127 ∧ 1 ≤ cfg.noPrioClasses ∧ cfg.noPrioClasses ≤ 127 ∧
  cfg.noSemaphoreEvents ≤ 8 ∧ cfg.noSemaphoreEvents + cfg.noMutexEvents ≤ 14 ∧
  (cfg.timeBits = 8 ∨ cfg.timeBits = 16 ∨ cfg.timeBits = 32) ∧
  (cfg.semaphoreBits = 8 ∨ cfg.semaphoreBits = 16 ∨ cfg.semaphoreBits = 32)

instance (cfg : Config) : Decidable cfg.WellFormed := by
  unfold Config.WellFormed; infer_instance

/-- The index of the idle task in the task array, `IDLE_TASK_ID`. -/
def IDLE_TASK_ID (cfg : Config) : Nat := cfg.noTasks

/-- Event `RTOS_EVT_ABSOLUTE_TIMER`, bit 14. -/
def RTOS_EVT_ABSOLUTE_TIMER : Nat := 0x0001 <<< 14

/-- Event `RTOS_EVT_DELAY_TIMER`, bit 15. -/
def RTOS_EVT_DELAY_TIMER : Nat := 0x0001 <<< 15

/-- Mask `MASK_EVT_IS_TIMER`, which selects the timer events. -/
def MASK_EVT_IS_TIMER : Nat := RTOS_EVT_ABSOLUTE_TIMER ||| RTOS_EVT_DELAY_TIMER

/-- Mask `MASK_EVT_IS_SEMAPHORE`, which selects the semaphore events. -/
def MASK_EVT_IS_SEMAPHORE (cfg : Config) : Nat := (0x01 <<< cfg.noSemaphoreEvents) - 1

/-- Mask `MASK_EVT_IS_MUTEX`, which selects the mutex events. -/
def MASK_EVT_IS_MUTEX (cfg : Config) : Nat :=
  ((0x0001 <<< (cfg.noMutexEvents + cfg.noSemaphoreEvents)) - 1) - MASK_EVT_IS_SEMAPHORE cfg

/-- The operator `~` applied to a `uint16_t` operand. -/
def not16 (x : Nat) : Nat := (x ^^^ 0xFFFF) % 0x10000

/-- The operator `~` applied to a `uint8_t` operand, the result stored as `uint8_t`. -/
def not8 (x : Nat) : Nat := (x ^^^ 0xFF) % 0x100

/-- The cast `(intTime_t)` of an integer value: reduction modulo `2 ^ timeBits` into the
signed range. -/
def toIntTime (cfg : Config) (x : Int) : Int :=
  let r := x % (2 : Int) ^ cfg.timeBits
  if r < (2 : Int) ^ (cfg.timeBits - 1) then r else r - (2 : Int) ^ cfg.timeBits

/-! ## Task objects and the kernel state -/

/-- The scheduler relevant members of `task_t`.  (The stack related members `stackPointer`,
`taskFunction`, `pStackArea` and `stackSize` are not used by the scheduler.) -/
structure Task where
  /-- Priority class of the task. -/
  prioClass : Nat
  /-- Due time of the absolute-timer event. -/
  timeDueAt : Nat
  /-- Round robin time slice, 0 means off. -/
  timeRoundRobin : Nat
  /-- Down counter of the delay-timer event. -/
  cntDelay : Nat
  /-- Down counter of the round robin time slice. -/
  cntRoundRobin : Nat
  /-- Events posted to the task. -/
  postedEventVec : Nat
  /-- Events the task waits for. -/
  eventMask : Nat
  /-- Resume on the first event (true) or on all events (false). -/
  waitForAnyEvent : Bool
  /-- Saturating counter of recognized task overruns. -/
  cntOverrun : Nat
  deriving DecidableEq, Repr

/-- A zero initialized task object (static storage). -/
def Task.zero : Task :=
  { prioClass := 0, timeDueAt := 0, timeRoundRobin := 0, cntDelay := 0, cntRoundRobin := 0,
    postedEventVec := 0, eventMask := 0, waitForAnyEvent := false, cntOverrun := 0 }

/-- The module-scope data of `rtos.c` and the application owned `rtos_semaphoreAry`. -/
structure Kernel where
  /-- System time `_time`. -/
  time : Nat
  /-- Task objects `_taskAry`, the idle task included. -/
  taskAry : Nat → Task
  /-- The active task `_pActiveTask`. -/
  pActiveTask : Nat
  /-- The left task of a task switch `_pSuspendedTask`. -/
  pSuspendedTask : Nat
  /-- Due tasks per priority class, `_pDueTaskAryAry` with `_noDueTasksAry`. -/
  pDueTaskAryAry : Nat → List Nat
  /-- Suspended tasks, `_pSuspendedTaskAry` with `_noSuspendedTasks`. -/
  pSuspendedTaskAry : List Nat
  /-- Available mutexes `_mutexVec`. -/
  mutexVec : Nat
  /-- Semaphore counters `rtos_semaphoreAry`. -/
  semaphoreAry : Nat → Nat

/-- Counter `_noDueTasksAry[prio]`. -/
def Kernel.noDueTasksAry (k : Kernel) (prio : Nat) : Nat := (k.pDueTaskAryAry prio).length

/-- Counter `_noSuspendedTasks`. -/
def Kernel.noSuspendedTasks (k : Kernel) : Nat := k.pSuspendedTaskAry.length

/-- Write access `_taskAry[pT] = t`. -/
def Kernel.setTask (k : Kernel) (pT : Nat) (t : Task) : Kernel :=
  { k with taskAry := Function.update k.taskAry pT t }

/-! ## checkTaskForActivation and lookForActiveTask -/

/-- The resume condition evaluated by `checkTaskForActivation` for a task object. -/
def taskBecomesDue (t : Task) : Bool :=
  let eventVec := t.postedEventVec
  (t.waitForAnyEvent && eventVec != 0)
  || (!t.waitForAnyEvent
      && (((eventVec ^^^ t.eventMask) &&& not16 MASK_EVT_IS_TIMER) == 0
          || (eventVec &&& t.eventMask &&& MASK_EVT_IS_TIMER) != 0))

/-- Function `checkTaskForActivation`: the suspended task at index `idxSuspTask` is moved to
the end of the due list of its priority class if its resume condition is fulfilled. -/
def checkTaskForActivation (cfg : Config) (k : Kernel) (idxSuspTask : Nat) : Kernel × Bool :=
  let pT := k.pSuspendedTaskAry[idxSuspTask]?.getD (IDLE_TASK_ID cfg)
  let t := k.taskAry pT
  if taskBecomesDue t then
    let prio := t.prioClass
    let t1 := if cfg.roundRobinModeSupported then { t with cntRoundRobin := t.timeRoundRobin }
              else t
    ({ k with
        taskAry := Function.update k.taskAry pT t1
        pDueTaskAryAry := Function.update k.pDueTaskAryAry prio (k.pDueTaskAryAry prio ++ [pT])
        pSuspendedTaskAry := k.pSuspendedTaskAry.eraseIdx idxSuspTask }, true)
  else
    (k, false)

/-- The search loop of `lookForActiveTask`; the argument is `idxPrio + 1`. -/
def lookForActiveTaskLoop (k : Kernel) : Nat → Kernel × Bool
  | 0 => (k, false)
  | idxPrio + 1 =>
    match k.pDueTaskAryAry idxPrio with
    | pT :: _ =>
      let k1 := { k with pSuspendedTask := k.pActiveTask, pActiveTask := pT }
      (k1, k1.pActiveTask != k1.pSuspendedTask)
    | [] => lookForActiveTaskLoop k idxPrio

/-- Function `lookForActiveTask`. -/
def lookForActiveTask (cfg : Config) (k : Kernel) : Kernel × Bool :=
  lookForActiveTaskLoop k cfg.noPrioClasses

/-! ## The system timer tic -/

/-- The timer related part of the loop body of `onTimerTic` for one suspended task: the
absolute-timer and the delay-timer event are posted if they are due. -/
def onTimerTicTask (time : Nat) (t : Task) : Task :=
  let t1 := if time == t.timeDueAt
            then { t with postedEventVec :=
                            t.postedEventVec ||| (RTOS_EVT_ABSOLUTE_TIMER &&& t.eventMask) }
            else t
  if t1.cntDelay != 0 then
    let t2 := { t1 with cntDelay := t1.cntDelay - 1 }
    if t2.cntDelay == 0
    then { t2 with postedEventVec := t2.postedEventVec ||| (RTOS_EVT_DELAY_TIMER &&& t2.eventMask) }
    else t2
  else t1

/-- The loop `while(idxSuspTask<_noSuspendedTasks)` of `onTimerTic`.  The first argument bounds
the number of iterations; `_noSuspendedTasks - idxSuspTask` decreases in every iteration. -/
def onTimerTicLoop (cfg : Config) : Nat → Nat → Kernel → Bool → Kernel × Bool
  | 0, _, k, activeTaskMayChange => (k, activeTaskMayChange)
  | fuel + 1, idxSuspTask, k, activeTaskMayChange =>
    if idxSuspTask < k.noSuspendedTasks then
      let pT := k.pSuspendedTaskAry[idxSuspTask]?.getD (IDLE_TASK_ID cfg)
      let postedEventVecBefore := (k.taskAry pT).postedEventVec
      let k1 := k.setTask pT (onTimerTicTask k.time (k.taskAry pT))
      if postedEventVecBefore != (k1.taskAry pT).postedEventVec
         && (checkTaskForActivation cfg k1 idxSuspTask).2 then
        onTimerTicLoop cfg fuel idxSuspTask (checkTaskForActivation cfg k1 idxSuspTask).1 true
      else
        onTimerTicLoop cfg fuel (idxSuspTask + 1) k1 activeTaskMayChange
    else (k, activeTaskMayChange)

/-- The round robin part of `onTimerTic`, compiled if `RTOS_ROUND_ROBIN_MODE_SUPPORTED` is on. -/
def onTimerTicRoundRobin (k : Kernel) (activeTaskMayChange : Bool) : Kernel × Bool :=
  let pA := k.pActiveTask
  let tA := k.taskAry pA
  if tA.cntRoundRobin != 0 then
    let t1 := { tA with cntRoundRobin := tA.cntRoundRobin - 1 }
    if t1.cntRoundRobin == 0 then
      let t2 := { t1 with cntRoundRobin := t1.timeRoundRobin }
      let k1 := k.setTask pA t2
      let prio := t2.prioClass
      let noTasks := k1.noDueTasksAry prio
      if noTasks > 1 then
        ({ k1 with pDueTaskAryAry :=
                     Function.update k1.pDueTaskAryAry prio
                       ((k1.pDueTaskAryAry prio).drop 1 ++ [pA]) }, true)
      else (k1, activeTaskMayChange)
    else (k.setTask pA t1, activeTaskMayChange)
  else (k, activeTaskMayChange)

/-- Function `onTimerTic`. -/
def onTimerTic (cfg : Config) (k : Kernel) : Kernel × Bool :=
  let k0 := { k with time := (k.time + 1) % 2 ^ cfg.timeBits }
  let r1 := onTimerTicLoop cfg k0.noSuspendedTasks 0 k0 false
  let r2 := if cfg.roundRobinModeSupported then onTimerTicRoundRobin r1.1 r1.2 else r1
  if r2.2 then lookForActiveTask cfg r2.1 else (r2.1, false)

/-! ## Posting events -/

/-- The inner loop of `sendEvent` which passes released semaphores to one suspended task.  The
result is the new `postedEventVec` of the task and the new `semaphoreToReleaseVec`.  The first
argument bounds the number of iterations; `semMask` is a `uint8_t` and null after eight shifts. -/
def sendEventSemLoop (cfg : Config) (eventMask : Nat) : Nat → Nat → Nat → Nat → Nat × Nat
  | 0, _, postedEventVec, semaphoreToReleaseVec => (postedEventVec, semaphoreToReleaseVec)
  | fuel + 1, semMask, postedEventVec, semaphoreToReleaseVec =>
    if semaphoreToReleaseVec != 0 && (semMask &&& MASK_EVT_IS_SEMAPHORE cfg) != 0 then
      if (semaphoreToReleaseVec &&& semMask &&& eventMask &&& not16 postedEventVec) != 0 then
        sendEventSemLoop cfg eventMask fuel ((semMask <<< 1) % 0x100)
          (postedEventVec ||| semMask) (semaphoreToReleaseVec &&& not8 semMask)
      else
        sendEventSemLoop cfg eventMask fuel ((semMask <<< 1) % 0x100)
          postedEventVec semaphoreToReleaseVec
    else (postedEventVec, semaphoreToReleaseVec)

/-- The event related part of the loop body of `sendEvent` for one suspended task.  The result
is the updated task object, the new `mutexToReleaseVec` and the new `semaphoreToReleaseVec`. -/
def sendEventTask (cfg : Config) (t : Task) (postedEventVec mutexToReleaseVec
    semaphoreToReleaseVec : Nat) : Task × Nat × Nat :=
  let r1 : Task × Nat :=
    if cfg.useMutex then
      let gotEvtVec := (postedEventVec ||| mutexToReleaseVec) &&& t.eventMask
      ({ t with postedEventVec := t.postedEventVec ||| gotEvtVec },
       mutexToReleaseVec &&& not16 gotEvtVec)
    else
      ({ t with postedEventVec := t.postedEventVec ||| (postedEventVec &&& t.eventMask) },
       mutexToReleaseVec)
  if cfg.useSemaphore then
    let r2 := sendEventSemLoop cfg r1.1.eventMask 8 0x01 r1.1.postedEventVec semaphoreToReleaseVec
    ({ r1.1 with postedEventVec := r2.1 }, r1.2, r2.2)
  else (r1.1, r1.2, semaphoreToReleaseVec)

/-- The local variables of `sendEvent` which live across the loop over the suspended tasks. -/
structure SendEventLocals where
  /-- The broadcasted events, parameter `postedEventVec` after masking. -/
  postedEventVec : Nat
  /-- The mutexes not yet passed to a task. -/
  mutexToReleaseVec : Nat
  /-- The semaphores not yet passed to a task. -/
  semaphoreToReleaseVec : Nat
  /-- Flag that a task became due. -/
  activeTaskMayChange : Bool
  deriving DecidableEq, Repr

/-- The loop `while(idxSuspTask<_noSuspendedTasks)` of `sendEvent`.  The first argument bounds
the number of iterations; `_noSuspendedTasks - idxSuspTask` decreases in every iteration. -/
def sendEventLoop (cfg : Config) : Nat → Nat → Kernel → SendEventLocals →
    Kernel × SendEventLocals
  | 0, _, k, v => (k, v)
  | fuel + 1, idxSuspTask, k, v =>
    if idxSuspTask < k.noSuspendedTasks then
      let pT := k.pSuspendedTaskAry[idxSuspTask]?.getD (IDLE_TASK_ID cfg)
      let postedEventVecBefore := (k.taskAry pT).postedEventVec
      let r := sendEventTask cfg (k.taskAry pT) v.postedEventVec v.mutexToReleaseVec
                 v.semaphoreToReleaseVec
      let k1 := k.setTask pT r.1
      let v1 := { v with mutexToReleaseVec := r.2.1, semaphoreToReleaseVec := r.2.2 }
      if postedEventVecBefore != (k1.taskAry pT).postedEventVec
         && (checkTaskForActivation cfg k1 idxSuspTask).2 then
        sendEventLoop cfg fuel idxSuspTask (checkTaskForActivation cfg k1 idxSuspTask).1
          { v1 with activeTaskMayChange := true }
      else
        sendEventLoop cfg fuel (idxSuspTask + 1) k1 v1
    else (k, v)

/-- The loop `while(semaphoreToReleaseVec)` at the end of `sendEvent`, which accumulates the
remaining semaphores in `rtos_semaphoreAry`.  The first argument bounds the number of
iterations; `semaphoreToReleaseVec` is a `uint8_t` and null after eight shifts. -/
def sendEventAccumulate (cfg : Config) : Nat → Nat → Nat → (Nat → Nat) → (Nat → Nat)
  | 0, _, _, semaphoreAry => semaphoreAry
  | fuel + 1, semaphoreToReleaseVec, idxSem, semaphoreAry =>
    if semaphoreToReleaseVec != 0 then
      sendEventAccumulate cfg fuel (semaphoreToReleaseVec >>> 1) (idxSem + 1)
        (if (semaphoreToReleaseVec &&& 0x01) != 0
         then Function.update semaphoreAry idxSem
                ((semaphoreAry idxSem + 1) % 2 ^ cfg.semaphoreBits)
         else semaphoreAry)
    else semaphoreAry

/-- The initial values of the local variables of `sendEvent`. -/
def sendEventInit (cfg : Config) (postedEventVec : Nat) : SendEventLocals :=
  { postedEventVec :=
      if cfg.useMutex || cfg.useSemaphore
      then postedEventVec &&& not16 (MASK_EVT_IS_MUTEX cfg ||| MASK_EVT_IS_SEMAPHORE cfg)
      else postedEventVec
    mutexToReleaseVec := if cfg.useMutex then postedEventVec &&& MASK_EVT_IS_MUTEX cfg else 0
    semaphoreToReleaseVec :=
      if cfg.useSemaphore then (postedEventVec &&& MASK_EVT_IS_SEMAPHORE cfg) % 0x100 else 0
    activeTaskMayChange := false }

/-- The state after the loop over the suspended tasks and the return of the remaining
semaphores and mutexes to the global storage, i.e. `sendEvent` up to its return statement. -/
def sendEventDeliver (cfg : Config) (k : Kernel) (postedEventVec : Nat) : Kernel × Bool :=
  let r := sendEventLoop cfg k.noSuspendedTasks 0 k (sendEventInit cfg postedEventVec)
  let k1 := if cfg.useSemaphore
            then { r.1 with semaphoreAry :=
                     sendEventAccumulate cfg 8 r.2.semaphoreToReleaseVec 0 r.1.semaphoreAry }
            else r.1
  let k2 := if cfg.useMutex
            then { k1 with mutexVec := k1.mutexVec ||| r.2.mutexToReleaseVec }
            else k1
  (k2, r.2.activeTaskMayChange)

/-- Function `sendEvent`. -/
def sendEvent (cfg : Config) (k : Kernel) (postedEventVec : Nat) : Kernel × Bool :=
  let r := sendEventDeliver cfg k postedEventVec
  if r.2 then lookForActiveTask cfg r.1 else (r.1, false)

/-! ## Suspending a task -/

/-- Function `storeResumeCondition`, applied to the task object `t`; `time` is `_time`. -/
def storeResumeCondition (cfg : Config) (time : Nat) (t : Task) (eventMask : Nat) (all : Bool)
    (timeout : Nat) : Task :=
  let t1 : Task :=
    if (eventMask &&& RTOS_EVT_ABSOLUTE_TIMER) != 0 then
      let t2 := { t with timeDueAt := (t.timeDueAt + timeout) % 2 ^ cfg.timeBits }
      if toIntTime cfg ((t2.timeDueAt : Int) - (time : Int)) ≤ 0 then
        let t3 := if t2.cntOverrun < 0xff then { t2 with cntOverrun := t2.cntOverrun + 1 } else t2
        if cfg.overrunTaskIsImmediatelyDue
        then { t3 with timeDueAt := (time + 1) % 2 ^ cfg.timeBits }
        else t3
      else t2
    else
      { t with cntDelay := if (timeout + 1) % 2 ^ cfg.timeBits != 0 then timeout + 1 else timeout }
  { t1 with eventMask := eventMask, waitForAnyEvent := !all }

/-- The loop `while(semaphoreToAcquireVec)` of `acquireFreeSyncObjs`.  The result is the new
`postedEventVec` of the active task and the new contents of `rtos_semaphoreAry`.  The first
argument bounds the number of iterations; `semaphoreToAcquireVec` is a `uint8_t` and null after
eight shifts. -/
def acquireSemLoop : Nat → Nat → Nat → Nat → Nat → (Nat → Nat) → Nat × (Nat → Nat)
  | 0, _, _, _, postedEventVec, semaphoreAry => (postedEventVec, semaphoreAry)
  | fuel + 1, idxSem, maskSem, semaphoreToAcquireVec, postedEventVec, semaphoreAry =>
    if semaphoreToAcquireVec != 0 then
      if (semaphoreToAcquireVec &&& 0x01) != 0 && semaphoreAry idxSem > 0 then
        acquireSemLoop fuel (idxSem + 1) ((maskSem <<< 1) % 0x100) (semaphoreToAcquireVec >>> 1)
          (postedEventVec ||| maskSem)
          (Function.update semaphoreAry idxSem (semaphoreAry idxSem - 1))
      else
        acquireSemLoop fuel (idxSem + 1) ((maskSem <<< 1) % 0x100) (semaphoreToAcquireVec >>> 1)
          postedEventVec semaphoreAry
    else (postedEventVec, semaphoreAry)

/-- Function `acquireFreeSyncObjs`, compiled if semaphores or mutexes are in use. -/
def acquireFreeSyncObjs (cfg : Config) (k : Kernel) (eventMask : Nat) (all : Bool) :
    Kernel × Bool :=
  let pA := k.pActiveTask
  let k1 : Kernel :=
    if cfg.useMutex then
      { k with
          taskAry := Function.update k.taskAry pA
                       { k.taskAry pA with postedEventVec := eventMask &&& k.mutexVec }
          mutexVec := k.mutexVec &&& not16 eventMask }
    else k
  let k2 : Kernel :=
    if cfg.useSemaphore then
      let r := acquireSemLoop 8 0 0x01 ((eventMask &&& MASK_EVT_IS_SEMAPHORE cfg) % 0x100)
                 (k1.taskAry pA).postedEventVec k1.semaphoreAry
      { k1 with
          taskAry := Function.update k1.taskAry pA { k1.taskAry pA with postedEventVec := r.1 }
          semaphoreAry := r.2 }
    else k1
  let postedEventVec := (k2.taskAry pA).postedEventVec
  (k2, (!all && postedEventVec != 0)
       || (all && ((postedEventVec ^^^ eventMask) &&& not16 MASK_EVT_IS_TIMER) == 0))

/-- The search `for(idxPos=0; idxPos<_noSuspendedTasks; ++idxPos)` for the position at which a
task of priority class `prio` is inserted into the list of suspended tasks: the index of the
first entry of lower priority class, or the length of the list. -/
def findInsertPos (taskAry : Nat → Task) (prio : Nat) : List Nat → Nat
  | [] => 0
  | pT :: rest =>
    if (taskAry pT).prioClass < prio then 0 else findInsertPos taskAry prio rest + 1

/-- Insertion of `pT` at index `idxPos` after shifting the rest of the list one to the end. -/
def insertAt (l : List Nat) (idxPos : Nat) (pT : Nat) : List Nat :=
  l.take idxPos ++ pT :: l.drop idxPos

/-- The search for the task to return to at the end of `waitForEvent`; the argument is
`idxPrio + 1`.  The idle task is the fallback. -/
def waitForEventLookLoop (cfg : Config) (k : Kernel) : Nat → Nat
  | 0 => IDLE_TASK_ID cfg
  | idxPrio + 1 =>
    match k.pDueTaskAryAry idxPrio with
    | pT :: _ => pT
    | [] => waitForEventLookLoop cfg k idxPrio

/-- Function `waitForEvent`.  The result `true` means that the calling task is suspended; if
neither semaphores nor mutexes are in use the function is void and the task always suspends. -/
def waitForEvent (cfg : Config) (k : Kernel) (eventMask : Nat) (all : Bool) (timeout : Nat) :
    Kernel × Bool :=
  let r0 : Kernel × Bool :=
    if cfg.useSemaphore || cfg.useMutex then acquireFreeSyncObjs cfg k eventMask all
    else (k, false)
  if r0.2 then (r0.1, false)
  else
    let k0 := r0.1
    let pT := k0.pActiveTask
    let prio := (k0.taskAry pT).prioClass
    let k1 := { k0 with pDueTaskAryAry :=
                  Function.update k0.pDueTaskAryAry prio ((k0.pDueTaskAryAry prio).drop 1) }
    let k2 := k1.setTask pT (storeResumeCondition cfg k1.time (k1.taskAry pT) eventMask all timeout)
    let k3 : Kernel :=
      if cfg.useSemaphore || cfg.useMutex then
        let idxPos := findInsertPos k2.taskAry prio k2.pSuspendedTaskAry
        { k2 with pSuspendedTaskAry := insertAt k2.pSuspendedTaskAry idxPos pT }
      else
        { k2 with pSuspendedTaskAry := k2.pSuspendedTaskAry ++ [pT] }
    let k4 := { k3 with pSuspendedTask := k3.pActiveTask }
    ({ k4 with pActiveTask := waitForEventLookLoop cfg k4 cfg.noPrioClasses }, true)

/-! ## Software interrupts: task switch and return code -/

/-- Macro `PUSH_RET_CODE_OF_CONTEXT_SWITCH`: if the now active task has posted events they are
handed over as return value of its suspend command (the second component of the result) and
`postedEventVec` is reset. -/
def pushRetCodeOfContextSwitch (k : Kernel) : Kernel × Option Nat :=
  let t := k.taskAry k.pActiveTask
  if t.postedEventVec > 0 then
    (k.setTask k.pActiveTask { t with postedEventVec := 0 }, some t.postedEventVec)
  else (k, none)

/-- Interrupt service routine `ISR(RTOS_ISR_SYSTEM_TIMER_TIC)`. -/
def isrSystemTimerTic (cfg : Config) (k : Kernel) : Kernel :=
  let r := onTimerTic cfg k
  if r.2 then (pushRetCodeOfContextSwitch r.1).1 else r.1

/-- Software interrupt `rtos_sendEvent` (also the tail of the application interrupts). -/
def rtos_sendEvent (cfg : Config) (k : Kernel) (eventVec : Nat) : Kernel :=
  let r := sendEvent cfg k eventVec
  if r.2 then (pushRetCodeOfContextSwitch r.1).1 else r.1

/-- Software interrupt `rtos_waitForEvent`.  The second component is the return code which is
pushed onto the stack of the task that is active at the end of the call. -/
def rtos_waitForEvent (cfg : Config) (k : Kernel) (eventMask : Nat) (all : Bool)
    (timeout : Nat) : Kernel × Option Nat :=
  pushRetCodeOfContextSwitch (waitForEvent cfg k eventMask all timeout).1

/-! ## Initialization -/

/-- The arguments of one call of `rtos_initializeTask` (without the stack related ones). -/
structure TaskInit where
  /-- Argument `prioClass`. -/
  prioClass : Nat
  /-- Argument `timeRoundRobin`. -/
  timeRoundRobin : Nat
  /-- Argument `startEventMask`. -/
  startEventMask : Nat
  /-- Argument `startByAllEvents`. -/
  startByAllEvents : Bool
  /-- Argument `startTimeout`. -/
  startTimeout : Nat
  deriving DecidableEq, Repr

/-- Function `rtos_initializeTask`. -/
def rtos_initializeTask (cfg : Config) (k : Kernel) (idxTask : Nat) (a : TaskInit) : Kernel :=
  let t0 := { k.taskAry idxTask with prioClass := a.prioClass, cntDelay := 0, timeDueAt := 0 }
  let t1 := storeResumeCondition cfg k.time t0 a.startEventMask a.startByAllEvents a.startTimeout
  k.setTask idxTask
    (if cfg.roundRobinModeSupported then { t1 with timeRoundRobin := a.timeRoundRobin } else t1)

/-- The static initial values of the module-scope data; `semaphoreAry` is the application
defined initial contents of `rtos_semaphoreAry`. -/
def staticData (cfg : Config) (semaphoreAry : Nat → Nat) : Kernel :=
  { time := 2 ^ cfg.timeBits - 1
    taskAry := fun _ => Task.zero
    pActiveTask := IDLE_TASK_ID cfg
    pSuspendedTask := IDLE_TASK_ID cfg
    pDueTaskAryAry := fun _ => []
    pSuspendedTaskAry := []
    mutexVec := MASK_EVT_IS_MUTEX cfg
    semaphoreAry := semaphoreAry }

/-- The application callback `setup`: `rtos_initializeTask` is called once for each task, the
arguments for task `idxTask` are the entry `idxTask` of `tasks`. -/
def setup (cfg : Config) (tasks : List TaskInit) (k : Kernel) : Kernel :=
  (List.range cfg.noTasks).foldl
    (fun k idxTask =>
      match tasks.get? idxTask with
      | some a => rtos_initializeTask cfg k idxTask a
      | none => k) k

/-- The body of the loop `for(idxTask=0; idxTask<RTOS_NO_TASKS; ++idxTask)` of
`rtos_initRTOS`. -/
def initRTOSTask (cfg : Config) (k : Kernel) (idxTask : Nat) : Kernel :=
  let t := k.taskAry idxTask
  let t1 := if cfg.roundRobinModeSupported then { t with cntRoundRobin := 0 } else t
  let t2 := { t1 with postedEventVec := 0, cntOverrun := 0 }
  let k1 := k.setTask idxTask t2
  if cfg.useMutex then
    let idxPos := findInsertPos k1.taskAry t2.prioClass k1.pSuspendedTaskAry
    { k1 with pSuspendedTaskAry := insertAt k1.pSuspendedTaskAry idxPos idxTask }
  else
    { k1 with pSuspendedTaskAry := k1.pSuspendedTaskAry ++ [idxTask] }

/-- Function `rtos_initRTOS` up to the start of the interrupts: the kernel state in which the
idle task begins to run. -/
def rtos_initRTOS (cfg : Config) (tasks : List TaskInit) (semaphoreAry : Nat → Nat) : Kernel :=
  let k0 := setup cfg tasks (staticData cfg semaphoreAry)
  let k1 := (List.range cfg.noTasks).foldl (initRTOSTask cfg) k0
  let tI := k1.taskAry (IDLE_TASK_ID cfg)
  let tI1 := { tI with timeDueAt := 0, cntDelay := 0 }
  let tI2 := if cfg.roundRobinModeSupported then { tI1 with cntRoundRobin := 0 } else tI1
  let tI3 := { tI2 with postedEventVec := 0, eventMask := 0, waitForAnyEvent := true,
                        cntOverrun := 0 }
  let k2 := k1.setTask (IDLE_TASK_ID cfg) tI3
  { k2 with
      pDueTaskAryAry := fun idxClass =>
        if idxClass < cfg.noPrioClasses then [] else k2.pDueTaskAryAry idxClass
      pActiveTask := IDLE_TASK_ID cfg
      pSuspendedTask := IDLE_TASK_ID cfg }

/-- The kernel states which are reached from the state built by `rtos_initRTOS` by timer
tics, by posting events (from a task, the idle task or an application interrupt) and by suspend
commands of the active task, which must not be the idle task. -/
inductive Reachable (cfg : Config) (tasks : List TaskInit) (semaphoreAry : Nat → Nat) :
    Kernel → Prop
  | init : Reachable cfg tasks semaphoreAry (rtos_initRTOS cfg tasks semaphoreAry)
  | timerTic {k : Kernel} : Reachable cfg tasks semaphoreAry k →
      Reachable cfg tasks semaphoreAry (isrSystemTimerTic cfg k)
  | sendEvent {k : Kernel} (eventVec : Nat) : Reachable cfg tasks semaphoreAry k →
      Reachable cfg tasks semaphoreAry (rtos_sendEvent cfg k eventVec)
  | waitForEvent {k : Kernel} (eventMask : Nat) (all : Bool) (timeout : Nat) :
      Reachable cfg tasks semaphoreAry k → k.pActiveTask ≠ IDLE_TASK_ID cfg →
      Reachable cfg tasks semaphoreAry (rtos_waitForEvent cfg k eventMask all timeout).1

/-! ## Concrete configurations and states used to instantiate the theorems -/

/-- The configuration of the specification scenarios: two semaphores, one mutex, 16 Bit system
time, three tasks in two priority classes. -/
def cfgScenario : Config :=
  { noTasks := 3, noPrioClasses := 2, maxNoTasksInPrioClass := 2, noSemaphoreEvents := 2,
    noMutexEvents := 1, roundRobinModeSupported := false, overrunTaskIsImmediatelyDue := true,
    timeBits := 16, semaphoreBits := 8 }

/-- A task object which waits for `eventMask` and has got `postedEventVec` so far. -/
def taskWaiting (prioClass eventMask postedEventVec : Nat) (waitForAnyEvent : Bool) : Task :=
  { Task.zero with prioClass := prioClass, eventMask := eventMask,
                   postedEventVec := postedEventVec, waitForAnyEvent := waitForAnyEvent }

/-- A state of `cfgScenario`: task 0 (class 1) is active, task 1 (class 0) is suspended waiting
for all of the events 3 and 4 or the delay timer and has got event 3 and the timer event, task 2
(class 0) is suspended waiting for event 3. -/
def kCheck : Kernel :=
  { time := 7
    taskAry := fun i =>
      if i = 0 then taskWaiting 1 0x8000 0 true
      else if i = 1 then taskWaiting 0 0x8018 0x8008 false
      else if i = 2 then taskWaiting 0 0x0008 0 true
      else Task.zero
    pActiveTask := 0
    pSuspendedTask := 3
    pDueTaskAryAry := fun c => if c = 1 then [0] else []
    pSuspendedTaskAry := [1, 2]
    mutexVec := 0x0004
    semaphoreAry := fun _ => 0 }

/-! ## The common skeleton of the loops over the suspended tasks

Both `onTimerTic` and `sendEvent` visit the suspended tasks in the order of the list; a task
which becomes due is taken out of the list and the next task is found at the same index.  The
function `walkSuspended` describes this visit by recursion over the tasks still to visit; the
theorems `onTimerTicLoop_eq_walk` and `sendEventLoop_eq_walk` show that the loops of the source
compute it. -/

/-- The move of task `pT` into the due list of its priority class at the end of
`checkTaskForActivation` (without the removal from the list of suspended tasks). -/
def appendToDue (cfg : Config) (k : Kernel) (pT : Nat) : Kernel :=
  { k with
      taskAry := Function.update k.taskAry pT
        (if cfg.roundRobinModeSupported
         then { k.taskAry pT with cntRoundRobin := (k.taskAry pT).timeRoundRobin }
         else k.taskAry pT)
      pDueTaskAryAry := Function.update k.pDueTaskAryAry (k.taskAry pT).prioClass
        (k.pDueTaskAryAry (k.taskAry pT).prioClass ++ [pT]) }

/-- Visit of the suspended tasks `rest` in order.  The list `k.pSuspendedTaskAry` collects the
visited tasks which stay suspended, `f` is the update of the visited task object and of the
local variables `s` of the loop, the flag is `activeTaskMayChange`. -/
def walkSuspended {σ : Type} (cfg : Config) (f : σ → Task → Task × σ) :
    List Nat → Kernel → σ → Bool → Kernel × σ × Bool
  | [], k, s, flag => (k, s, flag)
  | pT :: rest, k, s, flag =>
    if (k.taskAry pT).postedEventVec != (f s (k.taskAry pT)).1.postedEventVec
       && taskBecomesDue (f s (k.taskAry pT)).1 then
      walkSuspended cfg f rest (appendToDue cfg (k.setTask pT (f s (k.taskAry pT)).1) pT)
        (f s (k.taskAry pT)).2 true
    else
      walkSuspended cfg f rest
        { k.setTask pT (f s (k.taskAry pT)).1 with
            pSuspendedTaskAry := k.pSuspendedTaskAry ++ [pT] }
        (f s (k.taskAry pT)).2 flag

/-- The update of a task object and of the local variables in the loop of `sendEvent`. -/
def sendEventVisit (cfg : Config) (postedEventVec : Nat) (s : Nat × Nat) (t : Task) :
    Task × (Nat × Nat) :=
  sendEventTask cfg t postedEventVec s.1 s.2

/-- The update of a task object in the loop of `onTimerTic`. -/
def onTimerTicVisit (time : Nat) (s : Unit) (t : Task) : Task × Unit :=
  (onTimerTicTask time t, s)


/-- The result of the loop of `sendEvent` expressed by `walkSuspended`: the tasks `rest` are
still to visit, `k.pSuspendedTaskAry` holds the visited tasks which stay suspended. -/
def sendEventWalk (cfg : Config) (rest : List Nat) (k : Kernel) (v : SendEventLocals) :
    Kernel × SendEventLocals :=
  let w := walkSuspended cfg (sendEventVisit cfg v.postedEventVec) rest k
             (v.mutexToReleaseVec, v.semaphoreToReleaseVec) v.activeTaskMayChange
  (w.1, { v with mutexToReleaseVec := w.2.1.1, semaphoreToReleaseVec := w.2.1.2,
                 activeTaskMayChange := w.2.2 })

/-- The result of the loop of `onTimerTic` expressed by `walkSuspended`. -/
def onTimerTicWalk (cfg : Config) (rest : List Nat) (k : Kernel) (flag : Bool) : Kernel × Bool :=
  let w := walkSuspended cfg (onTimerTicVisit k.time) rest k () flag
  (w.1, w.2.2)

/-- The visit of all suspended tasks in `sendEvent`. -/
def sendEventVisitAll (cfg : Config) (k : Kernel) (ev : Nat) : Kernel × (Nat × Nat) × Bool :=
  walkSuspended cfg (sendEventVisit cfg (sendEventInit cfg ev).postedEventVec)
    k.pSuspendedTaskAry { k with pSuspendedTaskAry := [] }
    ((sendEventInit cfg ev).mutexToReleaseVec, (sendEventInit cfg ev).semaphoreToReleaseVec) false

/-- The visit of all suspended tasks in `onTimerTic`, the system time is incremented
before. -/
def onTimerTicVisitAll (cfg : Config) (k : Kernel) : Kernel × Unit × Bool :=
  walkSuspended cfg (onTimerTicVisit ((k.time + 1) % 2 ^ cfg.timeBits))
    k.pSuspendedTaskAry
    { k with time := (k.time + 1) % 2 ^ cfg.timeBits, pSuspendedTaskAry := [] } () false

/-! ## Predicates used in the statements -/

/-- The local variables of the loop of `sendEvent` are proper: the broadcasted events contain
neither semaphores nor mutexes, the mutexes to release are mutex events, the semaphores to
release are semaphore events and fit into a `uint8_t`. -/
def SendLocalsOk (cfg : Config) (postedEventVec : Nat) (s : Nat × Nat) : Prop :=
  (∀ j, postedEventVec.testBit j = true → cfg.noSemaphoreEvents + cfg.noMutexEvents ≤ j) ∧
  (∀ j, s.1.testBit j = true →
    cfg.noSemaphoreEvents ≤ j ∧ j < cfg.noSemaphoreEvents + cfg.noMutexEvents) ∧
  (∀ j, s.2.testBit j = true → j < cfg.noSemaphoreEvents) ∧
  s.2 < 0x100

/-- The update `f` of a visited task object touches only the posted events and the delay
counter, it only adds events and only events of the event mask of the task; `J` is a
condition on the local variables of the loop which is maintained. -/
def VisitOk {σ : Type} (J : σ → Prop) (f : σ → Task → Task × σ) : Prop :=
  ∀ s t, J s →
    J (f s t).2 ∧
    (f s t).1 = { t with postedEventVec := (f s t).1.postedEventVec,
                         cntDelay := (f s t).1.cntDelay } ∧
    (∀ j, t.postedEventVec.testBit j = true → (f s t).1.postedEventVec.testBit j = true) ∧
    (∀ j, (f s t).1.postedEventVec.testBit j = true →
      t.postedEventVec.testBit j = true ∨ t.eventMask.testBit j = true)


/-- The list invariant of the kernel: the suspended list and the due lists hold task indices
below `RTOS_NO_TASKS`, a due list holds tasks of its priority class only, every task occurs
exactly once in the suspended list or the due list of its class, the priority classes are in
range, the idle task has no round robin counter, and a suspended task has got events of its
event mask only. -/
structure ListsInv (cfg : Config) (k : Kernel) : Prop where
  /-- The suspended tasks are tasks. -/
  susp_lt : ∀ t ∈ k.pSuspendedTaskAry, t < cfg.noTasks
  /-- A due task is a task of the priority class of its list. -/
  due_lt : ∀ c, ∀ t ∈ k.pDueTaskAryAry c, t < cfg.noTasks ∧ (k.taskAry t).prioClass = c
  /-- Every task is listed exactly once. -/
  once : ∀ t, t < cfg.noTasks →
    k.pSuspendedTaskAry.count t + (k.pDueTaskAryAry (k.taskAry t).prioClass).count t = 1
  /-- The priority classes are in range. -/
  prio_lt : ∀ t, t < cfg.noTasks → (k.taskAry t).prioClass < cfg.noPrioClasses
  /-- The idle task is no round robin task. -/
  idle_rr : (k.taskAry (IDLE_TASK_ID cfg)).cntRoundRobin = 0
  /-- A suspended task has got events of its mask only. -/
  posted_sub : ∀ t ∈ k.pSuspendedTaskAry, ∀ j,
    (k.taskAry t).postedEventVec.testBit j = true → (k.taskAry t).eventMask.testBit j = true

/-- The invariant of the active task: it is the head of the highest non-empty due list, or the
idle task if all due lists are empty, and it has no posted events. -/
structure ActiveInv (cfg : Config) (k : Kernel) : Prop where
  /-- The active task is the one found by the search of `waitForEvent`. -/
  active_eq : k.pActiveTask = waitForEventLookLoop cfg k cfg.noPrioClasses
  /-- The return code of the active task has been delivered. -/
  active_posted : (k.taskAry k.pActiveTask).postedEventVec = 0

/-- The requirements on the arguments of `rtos_initializeTask`: the priority class is below
`RTOS_NO_PRIO_CLASSES`. -/
def TasksOk (cfg : Config) (tasks : List TaskInit) : Prop :=
  ∀ a ∈ tasks, a.prioClass < cfg.noPrioClasses


/-- The active task is the idle task if and only if all due lists are empty; otherwise it is
the first entry of the due list of the highest non-empty priority class; no due task has a
higher priority class than the active task. -/
def ActiveIsHead (cfg : Config) (k : Kernel) : Prop :=
  (k.pActiveTask = IDLE_TASK_ID cfg ↔ ∀ c, c < cfg.noPrioClasses → k.noDueTasksAry c = 0) ∧
  (k.pActiveTask ≠ IDLE_TASK_ID cfg →
    ∃ top, top < cfg.noPrioClasses ∧ k.noDueTasksAry top > 0 ∧
      (k.pDueTaskAryAry top)[0]? = some k.pActiveTask ∧
      ∀ j, top < j → j < cfg.noPrioClasses → k.noDueTasksAry j = 0) ∧
  (∀ c, c < cfg.noPrioClasses → ∀ t ∈ k.pDueTaskAryAry c,
    (k.taskAry t).prioClass ≤ (k.taskAry k.pActiveTask).prioClass)

/-- Every task occurs exactly once in the union of the suspended list and the due lists, a
due task is in the list of its own priority class, and the counters add up to the number of
tasks. -/
def TasksListedOnce (cfg : Config) (k : Kernel) : Prop :=
  (∀ t ∈ k.pSuspendedTaskAry, t < cfg.noTasks) ∧
  (∀ c, ∀ t ∈ k.pDueTaskAryAry c,
    t < cfg.noTasks ∧ c < cfg.noPrioClasses ∧ (k.taskAry t).prioClass = c) ∧
  (∀ t, t < cfg.noTasks →
    k.pSuspendedTaskAry.count t
      + Finset.sum (Finset.range cfg.noPrioClasses) (fun c => (k.pDueTaskAryAry c).count t) = 1) ∧
  k.noSuspendedTasks
    + Finset.sum (Finset.range cfg.noPrioClasses) (fun c => k.noDueTasksAry c) = cfg.noTasks

/-- Every suspended task has got events of its event mask only,
`postedEventVec & ~eventMask == 0`. -/
def SuspendedPostedInMask (k : Kernel) : Prop :=
  ∀ t ∈ k.pSuspendedTaskAry,
    (k.taskAry t).postedEventVec &&& not16 (k.taskAry t).eventMask = 0

/-- Three tasks as in the scenarios of the specification: task 0 of class 1 starts
immediately, tasks 1 and 2 of class 0 start with a delay. -/
def tasksScenario : List TaskInit :=
  [ { prioClass := 1, timeRoundRobin := 0, startEventMask := 0x8000, startByAllEvents := false,
      startTimeout := 0 },
    { prioClass := 0, timeRoundRobin := 0, startEventMask := 0x8000, startByAllEvents := false,
      startTimeout := 3 },
    { prioClass := 0, timeRoundRobin := 0, startEventMask := 0x8008, startByAllEvents := false,
      startTimeout := 5 } ]

/-- The state of the scenario after initialization and the first timer tic: task 0 is
active. -/
def kAfterTic : Kernel :=
  isrSystemTimerTic cfgScenario (rtos_initRTOS cfgScenario tasksScenario (fun _ => 0))


/-- The local variables of a visit of the suspended tasks after the tasks of the list have
been visited; `ta` holds the task objects at the begin of the visit. -/
def visitLocals {σ : Type} (f : σ → Task → Task × σ) (ta : Nat → Task) : List Nat → σ → σ
  | [], s => s
  | p :: rest, s => visitLocals f ta rest (f s (ta p)).2

/-- The condition under which a visited task object `t`, updated to `t1`, is moved into its
due list: its posted events have changed and its resume condition is fulfilled. -/
def visitMoves (t t1 : Task) : Bool :=
  t.postedEventVec != t1.postedEventVec && taskBecomesDue t1


/-- A state of `cfgScenario`: task 0 (class 1) is active and owns the mutex (event 2), the
tasks 1 and 2 (class 0) are suspended and wait for the mutex or the delay timer. -/
def kMutexWait : Kernel :=
  { time := 7
    taskAry := fun i =>
      if i = 0 then taskWaiting 1 0x8000 0 true
      else if i = 1 then { taskWaiting 0 0x8004 0 true with cntDelay := 5 }
      else if i = 2 then { taskWaiting 0 0x8004 0 true with cntDelay := 6 }
      else Task.zero
    pActiveTask := 0
    pSuspendedTask := 3
    pDueTaskAryAry := fun c => if c = 1 then [0] else []
    pSuspendedTaskAry := [1, 2]
    mutexVec := 0
    semaphoreAry := fun _ => 0 }

/-- The configuration of test case `tc15`: four tasks in four priority classes, the events
0..7 are semaphores, no mutexes, eight Bit system time. -/
def cfgSemaphores : Config :=
  { noTasks := 4, noPrioClasses := 4, maxNoTasksInPrioClass := 1, noSemaphoreEvents := 8,
    noMutexEvents := 0, roundRobinModeSupported := false, overrunTaskIsImmediatelyDue := true,
    timeBits := 8, semaphoreBits := 8 }

/-- A state of test case `tc15`: task 0 (`taskT0C3`) is active, the tasks 1 (`taskT0C2`, waits
for any of `0x07`), 2 (`taskT0C1`, waits for any of `0x0F`) and 3 (`taskT0C0`, waits for all
of `0xF0`) are suspended in the order of falling priority, all semaphore counters are null. -/
def kSemaphores : Kernel :=
  { time := 7
    taskAry := fun i =>
      if i = 0 then taskWaiting 3 0x4000 0 true
      else if i = 1 then { taskWaiting 2 0x8007 0 true with cntDelay := 7 }
      else if i = 2 then { taskWaiting 1 0x800F 0 true with cntDelay := 7 }
      else if i = 3 then { taskWaiting 0 0x80F0 0 false with cntDelay := 7 }
      else Task.zero
    pActiveTask := 0
    pSuspendedTask := 4
    pDueTaskAryAry := fun c => if c = 3 then [0] else []
    pSuspendedTaskAry := [1, 2, 3]
    mutexVec := 0
    semaphoreAry := fun _ => 0 }


/-- The task object `t` waits for semaphore `i` and has not got it yet, the condition
`eventMask & ~postedEventVec` for bit `i` in the semaphore loop of `sendEvent`. -/
def wantsSemaphore (t : Task) (i : Nat) : Bool :=
  t.eventMask.testBit i && !t.postedEventVec.testBit i


/-- The return expression of `acquireFreeSyncObjs`: the events `postedEventVec` got so far
satisfy the resume condition `(eventMask, all)`, the timer events are not regarded in case of
`all`. -/
def resumesImmediately (postedEventVec eventMask : Nat) (all : Bool) : Bool :=
  (!all && postedEventVec != 0)
  || (all && ((postedEventVec ^^^ eventMask) &&& not16 MASK_EVT_IS_TIMER) == 0)

/-- The statement that `rtos_waitForEvent` hands the events acquired by `acquireFreeSyncObjs`
over to the caller, without suspending it and without changing a list, if and only if these
events satisfy the resume condition. -/
def ReturnsAcquiredIff (cfg : Config) (k : Kernel) (eventMask : Nat) (all : Bool)
    (timeout : Nat) : Prop :=
  ((waitForEvent cfg k eventMask all timeout).2 = false ∧
    (rtos_waitForEvent cfg k eventMask all timeout).2 =
      some ((acquireFreeSyncObjs cfg k eventMask all).1.taskAry k.pActiveTask).postedEventVec ∧
    (waitForEvent cfg k eventMask all timeout).1.pSuspendedTaskAry = k.pSuspendedTaskAry ∧
    (waitForEvent cfg k eventMask all timeout).1.pDueTaskAryAry = k.pDueTaskAryAry) ↔
  resumesImmediately
    ((acquireFreeSyncObjs cfg k eventMask all).1.taskAry k.pActiveTask).postedEventVec
    eventMask all = true


/-- A task object whose last absolute due time is 100. -/
def taskLate : Task := { Task.zero with timeDueAt := 100 }


/-- The bits of `_mutexVec` are mutex events. -/
def MutexVecOk (cfg : Config) (k : Kernel) : Prop :=
  ∀ j, k.mutexVec.testBit j = true →
    cfg.noSemaphoreEvents ≤ j ∧ j < cfg.noSemaphoreEvents + cfg.noMutexEvents

/-- The state after `n` system timer interrupts without any other kernel operation in
between. -/
def timerTics (cfg : Config) : Nat → Kernel → Kernel
  | 0, k => k
  | n + 1, k => isrSystemTimerTic cfg (timerTics cfg n k)

/-- The list of suspended tasks is ordered by falling priority class. -/
def SuspendedSorted (k : Kernel) : Prop :=
  k.pSuspendedTaskAry.Pairwise (fun a b => (k.taskAry b).prioClass ≤ (k.taskAry a).prioClass)

instance (k : Kernel) : Decidable (SuspendedSorted k) := by
  unfold SuspendedSorted
  infer_instance

/-- Four tasks of rising priority class which all start by semaphore 0 or after ten tics. -/
def tasksRising : List TaskInit :=
  [ { prioClass := 0, timeRoundRobin := 0, startEventMask := 0x8001, startByAllEvents := false,
      startTimeout := 10 },
    { prioClass := 1, timeRoundRobin := 0, startEventMask := 0x8001, startByAllEvents := false,
      startTimeout := 10 },
    { prioClass := 2, timeRoundRobin := 0, startEventMask := 0x8001, startByAllEvents := false,
      startTimeout := 10 },
    { prioClass := 3, timeRoundRobin := 0, startEventMask := 0x8001, startByAllEvents := false,
      startTimeout := 10 } ]

/-- The configuration `cfgSemaphores` with event 7 turned from a semaphore into a mutex. -/
def cfgSemaphoresAndMutex : Config :=
  { cfgSemaphores with noSemaphoreEvents := 7, noMutexEvents := 1 }

/-- A configuration with round robin: two tasks in one priority class, no semaphores and
mutexes, eight Bit system time. -/
def cfgRoundRobin : Config :=
  { noTasks := 2, noPrioClasses := 1, maxNoTasksInPrioClass := 2, noSemaphoreEvents := 0,
    noMutexEvents := 0, roundRobinModeSupported := true, overrunTaskIsImmediatelyDue := true,
    timeBits := 8, semaphoreBits := 8 }

/-- Two tasks of the same priority class with a time slice of four tics, which start
immediately and never suspend. -/
def tasksRoundRobin : List TaskInit :=
  [ { prioClass := 0, timeRoundRobin := 4, startEventMask := 0x8000, startByAllEvents := false,
      startTimeout := 0 },
    { prioClass := 0, timeRoundRobin := 4, startEventMask := 0x8000, startByAllEvents := false,
      startTimeout := 0 } ]

/-- The states of the round robin scenario: no task is suspended, task `a` is active and has
`c` tics of its time slice left, the other task follows in the due list with a full time
slice. -/
def RoundRobinState (k : Kernel) (a c : Nat) : Prop :=
  k.pSuspendedTaskAry = [] ∧ k.pActiveTask = a ∧ k.pDueTaskAryAry 0 = [a, 1 - a] ∧
  (k.taskAry a).cntRoundRobin = c ∧ (k.taskAry (1 - a)).cntRoundRobin = 4 ∧
  (∀ q, q < 2 → (k.taskAry q).timeRoundRobin = 4 ∧ (k.taskAry q).prioClass = 0)

instance (k : Kernel) (a c : Nat) : Decidable (RoundRobinState k a c) := by
  unfold RoundRobinState; infer_instance

/-- No mutex is granted twice: for each mutex event `m` at most one task in the list of
suspended tasks has `m` in its posted events, and none has if bit `m` of `_mutexVec` is set,
i.e. if the mutex is available. -/
def MutexExclusive (cfg : Config) (k : Kernel) : Prop :=
  ∀ m, cfg.noSemaphoreEvents ≤ m → m < cfg.noSemaphoreEvents + cfg.noMutexEvents →
    (∀ t1 ∈ k.pSuspendedTaskAry, ∀ t2 ∈ k.pSuspendedTaskAry,
      (k.taskAry t1).postedEventVec.testBit m = true →
      (k.taskAry t2).postedEventVec.testBit m = true → t1 = t2) ∧
    (k.mutexVec.testBit m = true →
      ∀ t ∈ k.pSuspendedTaskAry, (k.taskAry t).postedEventVec.testBit m = false)

/-- The debug assertions of `sendEvent` on the release of mutexes, which are compiled only
with `DEBUG`: no visited suspended task has got a mutex which is released
(`ASSERT((pT->postedEventVec & dbg_allMutexesToReleaseVec) == 0)`), and no released mutex is
available (`ASSERT((_mutexVec & dbg_allMutexesToReleaseVec) == 0)`). -/
def SendEventMutexAssertions (cfg : Config) (k : Kernel) (postedEventVec : Nat) : Prop :=
  (∀ t ∈ k.pSuspendedTaskAry,
    (k.taskAry t).postedEventVec &&& (sendEventInit cfg postedEventVec).mutexToReleaseVec = 0) ∧
  k.mutexVec &&& (sendEventInit cfg postedEventVec).mutexToReleaseVec = 0

instance (cfg : Config) (k : Kernel) (postedEventVec : Nat) :
    Decidable (SendEventMutexAssertions cfg k postedEventVec) := by
  unfold SendEventMutexAssertions; infer_instance

/-- The number of task objects of `_taskAry`, the idle task included, which have event `j` in
their posted events. -/
def noTasksPosted (cfg : Config) (k : Kernel) (j : Nat) : Nat :=
  (List.range (cfg.noTasks + 1)).countP (fun t => (k.taskAry t).postedEventVec.testBit j)

/-- The number of tasks with mutex `m` in their posted events plus the value of bit `m` of
`_mutexVec`. -/
def mutexUnits (cfg : Config) (k : Kernel) (m : Nat) : Nat :=
  noTasksPosted cfg k m + (if k.mutexVec.testBit m then 1 else 0)

/-- The tasks in the list of suspended tasks and in the due lists. -/
def listedTasks (cfg : Config) (k : Kernel) : List Nat :=
  k.pSuspendedTaskAry ++ (List.range cfg.noPrioClasses).flatMap k.pDueTaskAryAry

/-- The counter of semaphore `i` plus the number of tasks in the suspended and due lists which
have bit `i` in their posted events. -/
def semaphoreUnits (cfg : Config) (k : Kernel) (i : Nat) : Nat :=
  k.semaphoreAry i +
    (listedTasks cfg k).countP (fun t => (k.taskAry t).postedEventVec.testBit i)

/-- The statement that in every reachable state and for every mutex event `m` the number of
tasks with `m` in their posted events plus the value of bit `m` of `_mutexVec` is exactly 1. -/
def MutexUnitsAlwaysOne (cfg : Config) (tasks : List TaskInit) (sem : Nat → Nat) : Prop :=
  ∀ k, Reachable cfg tasks sem k →
    ∀ m, cfg.noSemaphoreEvents ≤ m → m < cfg.noSemaphoreEvents + cfg.noMutexEvents →
      mutexUnits cfg k m = 1

/-- The task object `t` waits for the synchronization object `j`: a mutex (an event from
`RTOS_NO_SEMAPHORE_EVENTS` on) is in its event mask, a semaphore is in its event mask and not
yet in its posted events.  This is the condition under which the loop of `sendEvent` passes a
released object to the task. -/
def waitsForObject (cfg : Config) (t : Task) (j : Nat) : Bool :=
  t.eventMask.testBit j && (decide (cfg.noSemaphoreEvents ≤ j) || !t.postedEventVec.testBit j)

/-- Task `a` is in the list of suspended tasks, waits for any event of its mask, has got no
event so far, and every task ahead of it in the list has at least its priority class. -/
def WaitsInOrder (k : Kernel) (a : Nat) : Prop :=
  a ∈ k.pSuspendedTaskAry ∧ (k.taskAry a).waitForAnyEvent = true ∧
  (k.taskAry a).postedEventVec = 0 ∧
  ∀ q, List.Sublist [q, a] k.pSuspendedTaskAry →
    (k.taskAry a).prioClass ≤ (k.taskAry q).prioClass

/-- A sequence of kernel operations (system timer interrupts, `rtos_sendEvent`, suspend
commands of the active task, which is not the idle task) which leads from the first state to
the second one and after each of which all tasks of `S` are in the list of suspended tasks,
i.e. none of them is resumed. -/
inductive StaySuspended (cfg : Config) (S : List Nat) : Kernel → Kernel → Prop
  | refl (k : Kernel) : StaySuspended cfg S k k
  | timerTic {k k1 : Kernel} : StaySuspended cfg S k k1 →
      (∀ a ∈ S, a ∈ (isrSystemTimerTic cfg k1).pSuspendedTaskAry) →
      StaySuspended cfg S k (isrSystemTimerTic cfg k1)
  | sendEvent {k k1 : Kernel} (eventVec : Nat) : StaySuspended cfg S k k1 →
      (∀ a ∈ S, a ∈ (rtos_sendEvent cfg k1 eventVec).pSuspendedTaskAry) →
      StaySuspended cfg S k (rtos_sendEvent cfg k1 eventVec)
  | waitForEvent {k k1 : Kernel} (eventMask : Nat) (all : Bool) (timeout : Nat) :
      StaySuspended cfg S k k1 → k1.pActiveTask ≠ IDLE_TASK_ID cfg →
      (∀ a ∈ S, a ∈ (rtos_waitForEvent cfg k1 eventMask all timeout).1.pSuspendedTaskAry) →
      StaySuspended cfg S k (rtos_waitForEvent cfg k1 eventMask all timeout).1

/-- The effect of `sendEvent(ev)` on two suspended tasks `a` and `b` waiting for the
synchronization object `j`: the object is passed to `a`, which is moved to the due list of its
priority class, while `b` stays suspended without the object. -/
def FifoDelivery (cfg : Config) (k : Kernel) (ev j a b : Nat) : Prop :=
  ((sendEvent cfg k ev).1.taskAry a).postedEventVec.testBit j = true ∧
  a ∈ (sendEvent cfg k ev).1.pDueTaskAryAry ((sendEvent cfg k ev).1.taskAry a).prioClass ∧
  b ∈ (sendEvent cfg k ev).1.pSuspendedTaskAry ∧
  ((sendEvent cfg k ev).1.taskAry b).postedEventVec.testBit j = false

instance (cfg : Config) (k : Kernel) (ev j a b : Nat) : Decidable (FifoDelivery cfg k ev j a b) := by
  unfold FifoDelivery; infer_instance

/-- The statement of first-in-first-out delivery among tasks of equal priority, for all runs of
a configuration.  In the reachable state `k0` the active task `A` calls
`rtos_waitForEvent(maskA, all=false, timeoutA)` with the synchronization object `j` in the mask
and is suspended; operations follow which lead to `k1` and do not resume `A`; in `k1` the
active task `B`, of the priority class of `A`, calls `rtos_waitForEvent(maskB, all=false,
timeoutB)` with `j` in the mask and is suspended; operations follow which lead to `k2` and
resume neither `A` nor `B`.  Then `sendEvent` of the object `j` in `k2` passes it to `A`. -/
def FifoWithinPriority (cfg : Config) (tasks : List TaskInit) (sem : Nat → Nat) : Prop :=
  ∀ (k0 k1 k2 : Kernel) (j maskA timeoutA maskB timeoutB : Nat),
    Reachable cfg tasks sem k0 → j < cfg.noSemaphoreEvents + cfg.noMutexEvents →
    k0.pActiveTask ≠ IDLE_TASK_ID cfg → maskA.testBit j = true →
    (waitForEvent cfg k0 maskA false timeoutA).2 = true →
    StaySuspended cfg [k0.pActiveTask] (rtos_waitForEvent cfg k0 maskA false timeoutA).1 k1 →
    k1.pActiveTask ≠ IDLE_TASK_ID cfg → maskB.testBit j = true →
    (k1.taskAry k1.pActiveTask).prioClass = (k1.taskAry k0.pActiveTask).prioClass →
    (waitForEvent cfg k1 maskB false timeoutB).2 = true →
    StaySuspended cfg [k0.pActiveTask, k1.pActiveTask]
      (rtos_waitForEvent cfg k1 maskB false timeoutB).1 k2 →
    FifoDelivery cfg k2 (2 ^ j) j k0.pActiveTask k1.pActiveTask

/-- A configuration with four tasks in three priority classes, one semaphore (event 0) and one
mutex (event 1), eight Bit system time. -/
def cfgFifo : Config :=
  { noTasks := 4, noPrioClasses := 3, maxNoTasksInPrioClass := 2, noSemaphoreEvents := 1,
    noMutexEvents := 1, roundRobinModeSupported := false, overrunTaskIsImmediatelyDue := true,
    timeBits := 8, semaphoreBits := 8 }

/-- Task 0 of the lowest class starts immediately, the tasks 1 and 2 of class 1 start after one
and two tics, task 3 of the highest class starts after three tics. -/
def tasksFifo : List TaskInit :=
  [ { prioClass := 0, timeRoundRobin := 0, startEventMask := 0x8000, startByAllEvents := false,
      startTimeout := 0 },
    { prioClass := 1, timeRoundRobin := 0, startEventMask := 0x8000, startByAllEvents := false,
      startTimeout := 1 },
    { prioClass := 1, timeRoundRobin := 0, startEventMask := 0x8000, startByAllEvents := false,
      startTimeout := 2 },
    { prioClass := 2, timeRoundRobin := 0, startEventMask := 0x8000, startByAllEvents := false,
      startTimeout := 3 } ]

/-- The run of `cfgFifo`: the first tic starts task 0, which acquires the mutex `0x0002`; the
second tic starts task 1.  In this state task 1 is active and the mutex is not available. -/
def kFifoA : Kernel :=
  isrSystemTimerTic cfgFifo
    (rtos_waitForEvent cfgFifo
      (isrSystemTimerTic cfgFifo (rtos_initRTOS cfgFifo tasksFifo (fun _ => 0)))
      0x0002 false 0).1

/-- The run continued: task 1 has called `rtos_waitForEvent(0x0002, all=false, 0)` and is
suspended, the third tic has started task 2, which is active. -/
def kFifoB : Kernel :=
  isrSystemTimerTic cfgFifo (rtos_waitForEvent cfgFifo kFifoA 0x0002 false 0).1

/-- The run continued: task 2 has called `rtos_waitForEvent(0x0002, all=false, 0)` and is
suspended, too. -/
def kFifoWait : Kernel := (rtos_waitForEvent cfgFifo kFifoB 0x0002 false 0).1

/-- The run continued: the fourth tic has started task 3 of the highest priority class, which
has called `rtos_waitForEvent(0x0002, all=false, 0)` and is suspended ahead of the tasks 1
and 2; task 0, the owner of the mutex, is active. -/
def kFifoThird : Kernel :=
  (rtos_waitForEvent cfgFifo (isrSystemTimerTic cfgFifo kFifoWait) 0x0002 false 0).1

/-- The statement that a suspend command without the absolute timer and with the maximum
timeout of the type of the system time leaves the delay counter at the maximum representable
value minus one. -/
def DelayAtMaximumIsDecremented (cfg : Config) : Prop :=
  ∀ (time : Nat) (t : Task) (eventMask : Nat) (all : Bool),
    eventMask &&& RTOS_EVT_ABSOLUTE_TIMER = 0 →
    (storeResumeCondition cfg time t eventMask all (2 ^ cfg.timeBits - 1)).cntDelay
      = 2 ^ cfg.timeBits - 1 - 1

/-- A state of the scenario configuration in which a task of the lower priority class is
active: in `kAfterTic` task 0 (class 1) calls `rtos_waitForEvent(0x0008, all=false, 0)`, three
timer tics follow, the last of which resumes task 1 (class 0). -/
def kPreempt : Kernel :=
  timerTics cfgScenario 3 (rtos_waitForEvent cfgScenario kAfterTic 0x0008 false 0).1

/-- The configuration of scenario S1 of the specification: the scenario configuration with
two tasks. -/
def cfgS1 : Config := { cfgScenario with noTasks := 2 }

/-- Scenario S1 as stated: task 0 is `A` of priority class 0, which waits for event 3; task 1
is `B` of priority class 1, which starts immediately. -/
def tasksS1 : List TaskInit :=
  [ { prioClass := 0, timeRoundRobin := 0, startEventMask := 0x0008, startByAllEvents := false,
      startTimeout := 0 },
    { prioClass := 1, timeRoundRobin := 0, startEventMask := 0x8000, startByAllEvents := false,
      startTimeout := 0 } ]

/-- Scenario S1 with the priority classes exchanged: `A` has class 1, `B` has class 0. -/
def tasksS1Exchanged : List TaskInit :=
  [ { prioClass := 1, timeRoundRobin := 0, startEventMask := 0x0008, startByAllEvents := false,
      startTimeout := 0 },
    { prioClass := 0, timeRoundRobin := 0, startEventMask := 0x8000, startByAllEvents := false,
      startTimeout := 0 } ]

/-- The run of scenario S1 up to the third timer tic: `B` is started by the first tic and calls
`rtos_delay(0)` after the first and after the second tic; after the third tic it is active. -/
def runS1 (tasks : List TaskInit) : Kernel :=
  isrSystemTimerTic cfgS1
    (rtos_waitForEvent cfgS1
      (isrSystemTimerTic cfgS1
        (rtos_waitForEvent cfgS1
          (isrSystemTimerTic cfgS1 (rtos_initRTOS cfgS1 tasks (fun _ => 0)))
          RTOS_EVT_DELAY_TIMER false 0).1)
      RTOS_EVT_DELAY_TIMER false 0).1

/-- The expectation of scenario S1 for the state `k`, in which `B` is active and posts
`0x0008`: afterwards `A` is in the due list of its class and is the active task, `B` is the
left task, and `0x0008` is handed over to `A` as return code of its suspend command. -/
def ScenarioS1Expectation (cfg : Config) (k : Kernel) (A B : Nat) : Prop :=
  A ∈ (sendEvent cfg k 0x0008).1.pDueTaskAryAry ((sendEvent cfg k 0x0008).1.taskAry A).prioClass ∧
  (sendEvent cfg k 0x0008).2 = true ∧
  (sendEvent cfg k 0x0008).1.pActiveTask = A ∧
  (sendEvent cfg k 0x0008).1.pSuspendedTask = B ∧
  (pushRetCodeOfContextSwitch (sendEvent cfg k 0x0008).1).2 = some 0x0008

instance (cfg : Config) (k : Kernel) (A B : Nat) : Decidable (ScenarioS1Expectation cfg k A B) := by
  unfold ScenarioS1Expectation; infer_instance

/-! ## The compilation with DEBUG: the assertions of the suspend command

The macro `ASSERT` of `rtos_assert.h` expands to nothing in the production compilation, which
the functions above describe.  Compiled with `DEBUG` a failing assertion reports file and line
and resets the controller; the functions below return `none` in this case. -/

/-- The condition of the assertion at the begin of `storeResumeCondition`:
`eventMask != 0 && (eventMask & MASK_EVT_IS_TIMER) != MASK_EVT_IS_TIMER
&& (!all || (eventMask & ~MASK_EVT_IS_TIMER) != 0)`. -/
def storeResumeConditionAssertion (eventMask : Nat) (all : Bool) : Bool :=
  eventMask != 0 && (eventMask &&& MASK_EVT_IS_TIMER) != MASK_EVT_IS_TIMER
    && (!all || (eventMask &&& not16 MASK_EVT_IS_TIMER) != 0)

/-- Function `storeResumeCondition` compiled with `DEBUG`; `none` if the assertion fires. -/
def storeResumeConditionDebug (cfg : Config) (time : Nat) (t : Task) (eventMask : Nat)
    (all : Bool) (timeout : Nat) : Option Task :=
  if storeResumeConditionAssertion eventMask all
  then some (storeResumeCondition cfg time t eventMask all timeout)
  else none

/-- Function `waitForEvent` compiled with `DEBUG`; `none` if an assertion fires: the assertion
`ASSERT(_pActiveTask != _pIdleTask)` at the begin of the function, or the assertion of
`storeResumeCondition`, which is called only if `acquireFreeSyncObjs` has not found the resume
condition fulfilled. -/
def waitForEventDebug (cfg : Config) (k : Kernel) (eventMask : Nat) (all : Bool)
    (timeout : Nat) : Option (Kernel × Bool) :=
  if k.pActiveTask == IDLE_TASK_ID cfg then none
  else
    let r0 : Kernel × Bool :=
      if cfg.useSemaphore || cfg.useMutex then acquireFreeSyncObjs cfg k eventMask all
      else (k, false)
    if r0.2 then some (r0.1, false)
    else
      let k0 := r0.1
      let pT := k0.pActiveTask
      let prio := (k0.taskAry pT).prioClass
      let k1 := { k0 with pDueTaskAryAry :=
                    Function.update k0.pDueTaskAryAry prio ((k0.pDueTaskAryAry prio).drop 1) }
      match storeResumeConditionDebug cfg k1.time (k1.taskAry pT) eventMask all timeout with
      | none => none
      | some t =>
        let k2 := k1.setTask pT t
        let k3 : Kernel :=
          if cfg.useSemaphore || cfg.useMutex then
            let idxPos := findInsertPos k2.taskAry prio k2.pSuspendedTaskAry
            { k2 with pSuspendedTaskAry := insertAt k2.pSuspendedTaskAry idxPos pT }
          else
            { k2 with pSuspendedTaskAry := k2.pSuspendedTaskAry ++ [pT] }
        let k4 := { k3 with pSuspendedTask := k3.pActiveTask }
        some ({ k4 with pActiveTask := waitForEventLookLoop cfg k4 cfg.noPrioClasses }, true)

/-- A wait condition which the assertion of `storeResumeCondition` is made to reject: the
mask is empty, or it holds both timer events, or all events are demanded and the mask holds no
event besides the timer events. -/
def IllFormedCondition (eventMask : Nat) (all : Bool) : Prop :=
  eventMask = 0 ∨ eventMask &&& MASK_EVT_IS_TIMER = MASK_EVT_IS_TIMER ∨
  (all = true ∧ eventMask &&& not16 MASK_EVT_IS_TIMER = 0)

instance (eventMask : Nat) (all : Bool) : Decidable (IllFormedCondition eventMask all) := by
  unfold IllFormedCondition; infer_instance

/-! ## The compilation with DEBUG: the assertions of `sendEvent` -/

/-- The loop `while(idxSuspTask<_noSuspendedTasks)` of `sendEvent` compiled with `DEBUG`;
`none` if `ASSERT((pT->postedEventVec & dbg_allMutexesToReleaseVec) == 0)`, which is compiled
if mutexes are in use, fires for a visited task. -/
def sendEventLoopDebug (cfg : Config) (dbg_allMutexesToReleaseVec : Nat) :
    Nat → Nat → Kernel → SendEventLocals → Option (Kernel × SendEventLocals)
  | 0, _, k, v => some (k, v)
  | fuel + 1, idxSuspTask, k, v =>
    if idxSuspTask < k.noSuspendedTasks then
      let pT := k.pSuspendedTaskAry[idxSuspTask]?.getD (IDLE_TASK_ID cfg)
      if cfg.useMutex && ((k.taskAry pT).postedEventVec &&& dbg_allMutexesToReleaseVec) != 0
      then none
      else
        let postedEventVecBefore := (k.taskAry pT).postedEventVec
        let r := sendEventTask cfg (k.taskAry pT) v.postedEventVec v.mutexToReleaseVec
                   v.semaphoreToReleaseVec
        let k1 := k.setTask pT r.1
        let v1 := { v with mutexToReleaseVec := r.2.1, semaphoreToReleaseVec := r.2.2 }
        if postedEventVecBefore != (k1.taskAry pT).postedEventVec
           && (checkTaskForActivation cfg k1 idxSuspTask).2 then
          sendEventLoopDebug cfg dbg_allMutexesToReleaseVec fuel idxSuspTask
            (checkTaskForActivation cfg k1 idxSuspTask).1 { v1 with activeTaskMayChange := true }
        else
          sendEventLoopDebug cfg dbg_allMutexesToReleaseVec fuel (idxSuspTask + 1) k1 v1
    else some (k, v)

/-- The loop `while(semaphoreToReleaseVec)` of `sendEvent` compiled with `DEBUG`; `none` if
`ASSERT(rtos_semaphoreAry[idxSem] != 0)` fires after the increment of a counter. -/
def sendEventAccumulateDebug (cfg : Config) : Nat → Nat → Nat → (Nat → Nat) →
    Option (Nat → Nat)
  | 0, _, _, semaphoreAry => some semaphoreAry
  | fuel + 1, semaphoreToReleaseVec, idxSem, semaphoreAry =>
    if semaphoreToReleaseVec != 0 then
      if (semaphoreToReleaseVec &&& 0x01) != 0 then
        if (semaphoreAry idxSem + 1) % 2 ^ cfg.semaphoreBits == 0 then none
        else
          sendEventAccumulateDebug cfg fuel (semaphoreToReleaseVec >>> 1) (idxSem + 1)
            (Function.update semaphoreAry idxSem
              ((semaphoreAry idxSem + 1) % 2 ^ cfg.semaphoreBits))
      else
        sendEventAccumulateDebug cfg fuel (semaphoreToReleaseVec >>> 1) (idxSem + 1) semaphoreAry
    else some semaphoreAry

/-- The search loop of `lookForActiveTask` compiled with `DEBUG`; the argument is
`idxPrio + 1`; `none` if no due task is found and `ASSERT(false)` is reached. -/
def lookForActiveTaskLoopDebug (k : Kernel) : Nat → Option (Kernel × Bool)
  | 0 => none
  | idxPrio + 1 =>
    match k.pDueTaskAryAry idxPrio with
    | pT :: _ =>
      let k1 := { k with pSuspendedTask := k.pActiveTask, pActiveTask := pT }
      some (k1, k1.pActiveTask != k1.pSuspendedTask)
    | [] => lookForActiveTaskLoopDebug k idxPrio

/-- Function `sendEvent` compiled with `DEBUG`; `none` if an assertion fires:
`ASSERT((postedEventVec & MASK_EVT_IS_TIMER) == 0)` at the begin, the assertion in the loop
over the suspended tasks, the assertion on the overflow of a semaphore counter,
`ASSERT((_mutexVec & dbg_allMutexesToReleaseVec) == 0)` before the remaining mutexes are
returned to `_mutexVec`, or the assertion of `lookForActiveTask`. -/
def sendEventDebug (cfg : Config) (k : Kernel) (postedEventVec : Nat) : Option (Kernel × Bool) :=
  if (postedEventVec &&& MASK_EVT_IS_TIMER) != 0 then none
  else
    match sendEventLoopDebug cfg (sendEventInit cfg postedEventVec).mutexToReleaseVec
        k.noSuspendedTasks 0 k (sendEventInit cfg postedEventVec) with
    | none => none
    | some r =>
      match (if cfg.useSemaphore
             then (sendEventAccumulateDebug cfg 8 r.2.semaphoreToReleaseVec 0
                     r.1.semaphoreAry).map (fun s => { r.1 with semaphoreAry := s })
             else some r.1) with
      | none => none
      | some k1 =>
        if cfg.useMutex
            && (k1.mutexVec &&& (sendEventInit cfg postedEventVec).mutexToReleaseVec) != 0
        then none
        else
          let k2 := if cfg.useMutex
                    then { k1 with mutexVec := k1.mutexVec ||| r.2.mutexToReleaseVec }
                    else k1
          if r.2.activeTaskMayChange then lookForActiveTaskLoopDebug k2 cfg.noPrioClasses
          else some (k2, false)

/-- Tasks of the configuration `cfgFifo`: the tasks 0 (class 0) and 1 (class 1) start with the
first timer tic, the tasks 2 and 3 wait for event 2, which is never posted. -/
def tasksRelease : List TaskInit :=
  [ { prioClass := 0, timeRoundRobin := 0, startEventMask := 0x8000, startByAllEvents := false,
      startTimeout := 0 },
    { prioClass := 1, timeRoundRobin := 0, startEventMask := 0x8000, startByAllEvents := false,
      startTimeout := 0 },
    { prioClass := 2, timeRoundRobin := 0, startEventMask := 0x0004, startByAllEvents := false,
      startTimeout := 0 },
    { prioClass := 2, timeRoundRobin := 0, startEventMask := 0x0004, startByAllEvents := false,
      startTimeout := 0 } ]

/-- A run of `cfgFifo` with `tasksRelease`: after the first tic task 1 acquires the mutex
`0x0002` and calls `rtos_delay(0)`; task 0 calls `rtos_waitForEvent(0x0002, all=false, 0)` and
is suspended; the second tic resumes task 1. -/
def kOwner : Kernel :=
  isrSystemTimerTic cfgFifo
    (rtos_waitForEvent cfgFifo
      (rtos_waitForEvent cfgFifo
        (rtos_waitForEvent cfgFifo
          (isrSystemTimerTic cfgFifo (rtos_initRTOS cfgFifo tasksRelease (fun _ => 0)))
          0x0002 false 0).1
        RTOS_EVT_DELAY_TIMER false 0).1
      0x0002 false 0).1

/-- The run continued: task 1, the owner, releases the mutex by `rtos_sendEvent(0x0002)`; it
is passed to task 0, which becomes due but not active, as task 1 has the higher priority. -/
def kReleased : Kernel := rtos_sendEvent cfgFifo kOwner 0x0002

/-- The statement that the debug compilation of `sendEvent` rejects every release of a mutex
which some task holds in its posted events, in every reachable state. -/
def DoubleReleaseAsserted (cfg : Config) (tasks : List TaskInit) (sem : Nat → Nat) : Prop :=
  ∀ (k : Kernel) (ev m t : Nat), Reachable cfg tasks sem k →
    cfg.noSemaphoreEvents ≤ m → m < cfg.noSemaphoreEvents + cfg.noMutexEvents →
    ev.testBit m = true → t < cfg.noTasks → (k.taskAry t).postedEventVec.testBit m = true →
    (sendEventDebug cfg k ev).isSome = false

/-- The statement of the description of `sendEvent` that a call which returns false has not
touched the global variables `_pActiveTask` and `_pSuspendedTask`, for the reachable states of
a configuration and every event vector. -/
def SendEventFalseKeepsTasks (cfg : Config) (tasks : List TaskInit) (sem : Nat → Nat) : Prop :=
  ∀ (k : Kernel) (ev : Nat), Reachable cfg tasks sem k → (sendEvent cfg k ev).2 = false →
    (sendEvent cfg k ev).1.pActiveTask = k.pActiveTask ∧
    (sendEvent cfg k ev).1.pSuspendedTask = k.pSuspendedTask

/-- Function `onTimerTic` compiled with `DEBUG`; `none` if `ASSERT(false)` at the end of
`lookForActiveTask` is reached, the only assertion on the path of the timer tic. -/
def onTimerTicDebug (cfg : Config) (k : Kernel) : Option (Kernel × Bool) :=
  let k0 := { k with time := (k.time + 1) % 2 ^ cfg.timeBits }
  let r1 := onTimerTicLoop cfg k0.noSuspendedTasks 0 k0 false
  let r2 := if cfg.roundRobinModeSupported then onTimerTicRoundRobin r1.1 r1.2 else r1
  if r2.2 then lookForActiveTaskLoopDebug r2.1 cfg.noPrioClasses else some (r2.1, false)

/-- A run of the scenario configuration in which a suspended task has got a part of its
events: after the first timer tic task 0 calls `rtos_waitForEvent(0x0018, all=true, 0)` and is
suspended; the idle task posts event 3 by `rtos_sendEvent(0x0008)`.  Task 0 has the posted
events `0x0008` and stays suspended. -/
def kPartlyPosted : Kernel :=
  rtos_sendEvent cfgScenario (rtos_waitForEvent cfgScenario kAfterTic 0x0018 true 0).1 0x0008

/-! ## The sequence of the visits of the loops over the suspended tasks -/

/-- The loop `while(idxSuspTask<_noSuspendedTasks)` of `onTimerTic`, reduced to the record of
its iterations: the result lists the task `pT = _pSuspendedTaskAry[idxSuspTask]` of each
iteration in the order of execution.  The loop itself is `onTimerTicLoop`. -/
def onTimerTicLoopVisits (cfg : Config) : Nat → Nat → Kernel → List Nat
  | 0, _, _ => []
  | fuel + 1, idxSuspTask, k =>
    if idxSuspTask < k.noSuspendedTasks then
      let pT := k.pSuspendedTaskAry[idxSuspTask]?.getD (IDLE_TASK_ID cfg)
      let postedEventVecBefore := (k.taskAry pT).postedEventVec
      let k1 := k.setTask pT (onTimerTicTask k.time (k.taskAry pT))
      if postedEventVecBefore != (k1.taskAry pT).postedEventVec
         && (checkTaskForActivation cfg k1 idxSuspTask).2 then
        pT :: onTimerTicLoopVisits cfg fuel idxSuspTask (checkTaskForActivation cfg k1 idxSuspTask).1
      else
        pT :: onTimerTicLoopVisits cfg fuel (idxSuspTask + 1) k1
    else []

/-- The loop `while(idxSuspTask<_noSuspendedTasks)` of `sendEvent`, reduced to the record of
its iterations: the result lists the task `pT = _pSuspendedTaskAry[idxSuspTask]` of each
iteration in the order of execution.  The loop itself is `sendEventLoop`. -/
def sendEventLoopVisits (cfg : Config) : Nat → Nat → Kernel → SendEventLocals → List Nat
  | 0, _, _, _ => []
  | fuel + 1, idxSuspTask, k, v =>
    if idxSuspTask < k.noSuspendedTasks then
      let pT := k.pSuspendedTaskAry[idxSuspTask]?.getD (IDLE_TASK_ID cfg)
      let postedEventVecBefore := (k.taskAry pT).postedEventVec
      let r := sendEventTask cfg (k.taskAry pT) v.postedEventVec v.mutexToReleaseVec
                 v.semaphoreToReleaseVec
      let k1 := k.setTask pT r.1
      let v1 := { v with mutexToReleaseVec := r.2.1, semaphoreToReleaseVec := r.2.2 }
      if postedEventVecBefore != (k1.taskAry pT).postedEventVec
         && (checkTaskForActivation cfg k1 idxSuspTask).2 then
        pT :: sendEventLoopVisits cfg fuel idxSuspTask (checkTaskForActivation cfg k1 idxSuspTask).1
          { v1 with activeTaskMayChange := true }
      else
        pT :: sendEventLoopVisits cfg fuel (idxSuspTask + 1) k1 v1
    else []

/-! ## The CPU context on the stack

The macros which save and restore the CPU context are sequences of AVR instructions.  They
are described as instruction lists which run on the registers, the status register, the stack
pointer and the RAM.  `push` stores a register at the address in `SP` and decrements `SP`,
`pop` increments `SP` and loads the register from the address in `SP`; the stack pointer is a
16 Bit register.  The register file and the variable `_tmpVarCToAsm_u16` are kept apart from
the RAM, i.e. the stack is supposed not to overlap them. -/

/-- The state the context switch acts on. -/
structure Cpu where
  /-- The general purpose registers `r0` to `r31`. -/
  reg : Nat → Nat
  /-- The status register `SREG`. -/
  sreg : Nat
  /-- The stack pointer `SP`. -/
  sp : Nat
  /-- The RAM, a byte per address. -/
  ram : Nat → Nat
  /-- The variable `_tmpVarCToAsm_u16`. -/
  tmpVarCToAsm_u16 : Nat

/-- The instructions used by the context macros. -/
inductive Instr where
  /-- Instruction `push r`. -/
  | push (r : Nat)
  /-- Instruction `pop r`. -/
  | pop (r : Nat)
  /-- Instruction `in r, __SREG__`. -/
  | inSreg (r : Nat)
  /-- Instruction `out __SREG__, r`. -/
  | outSreg (r : Nat)
  /-- Instruction `lds r, _tmpVarCToAsm_u16`, which reads the low byte. -/
  | ldsLow (r : Nat)
  /-- Instruction `lds r, _tmpVarCToAsm_u16+1`, which reads the high byte. -/
  | ldsHigh (r : Nat)
  deriving DecidableEq, Repr

/-- The effect of one instruction. -/
def Instr.exec : Instr → Cpu → Cpu
  | .push r, c =>
    { c with ram := Function.update c.ram c.sp (c.reg r), sp := (c.sp + 0xFFFF) % 0x10000 }
  | .pop r, c =>
    { c with sp := (c.sp + 1) % 0x10000,
             reg := Function.update c.reg r (c.ram ((c.sp + 1) % 0x10000)) }
  | .inSreg r, c => { c with reg := Function.update c.reg r c.sreg }
  | .outSreg r, c => { c with sreg := c.reg r }
  | .ldsLow r, c => { c with reg := Function.update c.reg r (c.tmpVarCToAsm_u16 % 0x100) }
  | .ldsHigh r, c =>
    { c with reg := Function.update c.reg r (c.tmpVarCToAsm_u16 / 0x100 % 0x100) }

/-- The effect of a sequence of instructions. -/
def execute (prog : List Instr) (c : Cpu) : Cpu := prog.foldl (fun c i => i.exec c) c

/-- Macro `PUSH_CONTEXT_WITHOUT_R24R25_ONTO_STACK`. -/
def PUSH_CONTEXT_WITHOUT_R24R25_ONTO_STACK : List Instr :=
  [ .push 0, .inSreg 0, .push 0,
    .push 1, .push 2, .push 3, .push 4, .push 5, .push 6, .push 7, .push 8, .push 9,
    .push 10, .push 11, .push 12, .push 13, .push 14, .push 15, .push 16, .push 17,
    .push 18, .push 19, .push 20, .push 21, .push 22, .push 23,
    .push 26, .push 27, .push 28, .push 29, .push 30, .push 31 ]

/-- Macro `PUSH_CONTEXT_ONTO_STACK`. -/
def PUSH_CONTEXT_ONTO_STACK : List Instr :=
  PUSH_CONTEXT_WITHOUT_R24R25_ONTO_STACK ++ [ .push 24, .push 25 ]

/-- Macro `POP_CONTEXT_FROM_STACK`. -/
def POP_CONTEXT_FROM_STACK : List Instr :=
  [ .pop 25, .pop 24,
    .pop 31, .pop 30, .pop 29, .pop 28, .pop 27, .pop 26,
    .pop 23, .pop 22, .pop 21, .pop 20, .pop 19, .pop 18, .pop 17, .pop 16, .pop 15,
    .pop 14, .pop 13, .pop 12, .pop 11, .pop 10, .pop 9, .pop 8, .pop 7, .pop 6, .pop 5,
    .pop 4, .pop 3, .pop 2, .pop 1, .pop 0,
    .outSreg 0, .pop 0 ]

/-- The assembler part of macro `PUSH_RET_CODE_OF_CONTEXT_SWITCH`, which pushes the two bytes
of `_tmpVarCToAsm_u16`, first the low byte, then the high byte. -/
def PUSH_RET_CODE_ASM : List Instr :=
  [ .ldsLow 0, .push 0, .ldsHigh 0, .push 0 ]

/-- The registers pushed by `PUSH_CONTEXT_WITHOUT_R24R25_ONTO_STACK` after `r0` and the status
register, in the order of the macro. -/
def contextRegs : List Nat :=
  [1, 2, 3, 4, 5, 6, 7, 8, 9, 10, 11, 12, 13, 14, 15, 16, 17, 18, 19, 20, 21, 22, 23,
   26, 27, 28, 29, 30, 31]

/-- A CPU state with the register contents `r`, the status register `s`, the stack pointer
`0x21FF` (the end of the RAM of the ATmega2560) and a cleared RAM. -/
def cpuOf (r : Nat → Nat) (s v : Nat) : Cpu :=
  { reg := r, sreg := s, sp := 0x21FF, ram := fun _ => 0, tmpVarCToAsm_u16 := v }

/-- Macro `PUSH_RET_CODE_OF_CONTEXT_SWITCH` with its assembler part, acting on the kernel data
and on the CPU: if the now active task has posted events they are copied to
`_tmpVarCToAsm_u16`, the posted events are reset and the two bytes are pushed onto the stack
of the task. -/
def PUSH_RET_CODE_OF_CONTEXT_SWITCH (k : Kernel) (c : Cpu) : Kernel × Cpu :=
  let t := k.taskAry k.pActiveTask
  if t.postedEventVec > 0 then
    (k.setTask k.pActiveTask { t with postedEventVec := 0 },
     execute PUSH_RET_CODE_ASM { c with tmpVarCToAsm_u16 := t.postedEventVec })
  else (k, c)

/-- Within each priority class the list of suspended tasks is ordered by rising task index. -/
def SuspendedIndexOrdered (k : Kernel) : Prop :=
  k.pSuspendedTaskAry.Pairwise
    (fun a b => (k.taskAry a).prioClass = (k.taskAry b).prioClass → a < b)

/-- The statement that whenever a timer tic makes tasks due while the idle task is active, the
task made active belongs to the highest priority class among the tasks which become due and
has the lowest task index among those of this class, for the reachable states of a
configuration: `b` is any task which becomes due by the tic. -/
def IdleTicStartsLowestIndex (cfg : Config) (tasks : List TaskInit) (sem : Nat → Nat) : Prop :=
  ∀ (k : Kernel) (b : Nat), Reachable cfg tasks sem k → k.pActiveTask = IDLE_TASK_ID cfg →
    b ∈ k.pSuspendedTaskAry → b ∉ (onTimerTic cfg k).1.pSuspendedTaskAry →
    (k.taskAry b).prioClass ≤ (k.taskAry (onTimerTic cfg k).1.pActiveTask).prioClass ∧
    ((k.taskAry b).prioClass = (k.taskAry (onTimerTic cfg k).1.pActiveTask).prioClass →
      (onTimerTic cfg k).1.pActiveTask ≤ b)

/-- A configuration with two tasks in one priority class, without semaphores, mutexes and
round robin, eight Bit system time. -/
def cfgTwoTasks : Config :=
  { noTasks := 2, noPrioClasses := 1, maxNoTasksInPrioClass := 2, noSemaphoreEvents := 0,
    noMutexEvents := 0, roundRobinModeSupported := false, overrunTaskIsImmediatelyDue := true,
    timeBits := 8, semaphoreBits := 8 }

/-- Two tasks of the same priority class: task 0 starts at the second timer tic, task 1 at
the first. -/
def tasksStaggered : List TaskInit :=
  [ { prioClass := 0, timeRoundRobin := 0, startEventMask := 0x8000, startByAllEvents := false,
      startTimeout := 1 },
    { prioClass := 0, timeRoundRobin := 0, startEventMask := 0x8000, startByAllEvents := false,
      startTimeout := 0 } ]

/-- A run of `cfgTwoTasks` with `tasksStaggered`: the first tic starts task 1, which calls
`rtos_delay(3)`; the second tic starts task 0, which calls `rtos_delay(2)`; two more tics
pass.  Both tasks are suspended, task 1 ahead of task 0 in the list, the idle task is active
and both delays elapse at the next tic. -/
def kBothDelayed : Kernel :=
  timerTics cfgTwoTasks 2
    (rtos_waitForEvent cfgTwoTasks
      (isrSystemTimerTic cfgTwoTasks
        (rtos_waitForEvent cfgTwoTasks
          (isrSystemTimerTic cfgTwoTasks (rtos_initRTOS cfgTwoTasks tasksStaggered (fun _ => 0)))
          RTOS_EVT_DELAY_TIMER false 3).1)
      RTOS_EVT_DELAY_TIMER false 2).1

/-! ## The stack area of a task

`prepareTaskStack` and `rtos_getStackReserve` act on the RAM, a byte per address.  A pointer
is a 16 Bit address; `sp--` and `++sp` wrap at `2 ^ 16`.  The loops without a bound in the
source take the number of iterations they may run as first argument and yield `none` if they
do not come to their end within this number. -/

/-- Pattern byte `UNUSED_STACK_PATTERN`. -/
def UNUSED_STACK_PATTERN : Nat := 0x29

/-- The statement `* sp-- = v`; the state is the RAM and the pointer `sp`. -/
def storeDec (s : (Nat → Nat) × Nat) (v : Nat) : (Nat → Nat) × Nat :=
  (Function.update s.1 s.2 v, (s.2 + 0xFFFF) % 0x10000)

/-- The loop `while(sp >= pEmptyTaskStack) * sp-- = UNUSED_STACK_PATTERN;` of
`prepareTaskStack`. -/
def prepareTaskStackFill (pEmptyTaskStack : Nat) :
    Nat → (Nat → Nat) × Nat → Option (Nat → Nat)
  | 0, _ => none
  | fuel + 1, s =>
    if s.2 ≥ pEmptyTaskStack
    then prepareTaskStackFill pEmptyTaskStack fuel (storeDec s UNUSED_STACK_PATTERN)
    else some s.1

/-- Function `prepareTaskStack`.  The flag `atmega2560` selects the code compiled for
`__AVR_ATmega2560__` (three byte program counter), otherwise the code for
`__AVR_ATmega328P__` (two byte program counter).  The result is the RAM after the call and
the returned pointer. -/
def prepareTaskStack (atmega2560 : Bool) (fuel : Nat) (ram : Nat → Nat)
    (pEmptyTaskStack stackSize taskEntryPoint : Nat) : Option ((Nat → Nat) × Nat) :=
  let s0 : (Nat → Nat) × Nat := (ram, (pEmptyTaskStack + stackSize + 0xFFFF) % 0x10000)
  let s1 := storeDec (storeDec s0 0x00) 0x00
  let s2 := if atmega2560 then storeDec s1 0x00 else s1
  let s3 := storeDec (storeDec s2 (taskEntryPoint &&& 0x000000ff))
              ((taskEntryPoint &&& 0x0000ff00) >>> 8)
  let s4 := if atmega2560 then storeDec s3 ((taskEntryPoint &&& 0x00ff0000) >>> 16) else s3
  let s5 := storeDec (storeDec (storeDec s4 0) 0x80) 0
  let s6 := (List.range' 2 22).foldl (fun s _ => storeDec s 0) s5
  let s7 := (List.range' 26 6).foldl (fun s _ => storeDec s 0) s6
  let retCode := s7.2
  (prepareTaskStackFill pEmptyTaskStack fuel s7).map (fun ram1 => (ram1, retCode))

/-- The loop `while(*sp == UNUSED_STACK_PATTERN) ++ sp;` of `rtos_getStackReserve`; the
result is the final value of `sp`. -/
def getStackReserveLoop (ram : Nat → Nat) : Nat → Nat → Option Nat
  | 0, _ => none
  | fuel + 1, sp =>
    if ram sp == UNUSED_STACK_PATTERN
    then getStackReserveLoop ram fuel ((sp + 1) % 0x10000)
    else some sp

/-- Function `rtos_getStackReserve`; `pStackArea` is `_taskAry[idxTask].pStackArea`.  The
result is the difference of the pointers as `uint16_t`. -/
def rtos_getStackReserve (fuel : Nat) (ram : Nat → Nat) (pStackArea : Nat) : Option Nat :=
  (getStackReserveLoop ram fuel pStackArea).map
    (fun sp => (sp + 0x10000 - pStackArea) % 0x10000)

/-- The bytes which `prepareTaskStack` writes for the ATmega2560 before it fills the rest of
the area, in the order of writing, i.e. from the highest address downwards: three bytes of
guard program counter, the three bytes of the task entry point (low byte at the highest
address), `r0`, the status register, `r1`, the registers `r2` to `r23` and `r26` to `r31`. -/
def initialStackImage (taskEntryPoint : Nat) : List Nat :=
  [0x00, 0x00, 0x00,
   taskEntryPoint &&& 0x000000ff, (taskEntryPoint &&& 0x0000ff00) >>> 8,
   (taskEntryPoint &&& 0x00ff0000) >>> 16,
   0, 0x80, 0] ++ List.replicate 28 0

/-- The statement on the stack area as it is made for a size of `n` bytes: the image of the
initial context has 36 bytes, the `n - 36` bytes below it hold the pattern, the pointer
`base + n - 37` is returned and the stack reserve computed directly afterwards is `n - 36`. -/
def StackPrimedAsStated (ram : Nat → Nat) (base n taskEntryPoint : Nat) : Prop :=
  ∃ ram1, prepareTaskStack true (n + 1) ram base n taskEntryPoint = some (ram1, base + n - 37) ∧
    (∀ a, base ≤ a → a < base + (n - 36) → ram1 a = UNUSED_STACK_PATTERN) ∧
    rtos_getStackReserve (n + 1) ram1 base = some (n - 36)

/-! ## The bounds of the task arrays

The lists `pDueTaskAryAry c` and `pSuspendedTaskAry` stand for the arrays
`_pDueTaskAryAry[RTOS_NO_PRIO_CLASSES][RTOS_MAX_NO_TASKS_IN_PRIO_CLASS]` (with the counters
`_noDueTasksAry[RTOS_NO_PRIO_CLASSES]`) and `_pSuspendedTaskAry[RTOS_NO_TASKS]` (with the counter
`_noSuspendedTasks`).  The functions below repeat the scheduler functions with a check of every
index expression which the source applies to these arrays; the result `none` means that an
index is out of bounds (or that a counter of type `uint8_t` is decremented below null). -/

/-- Function `checkTaskForActivation` with the check of its array indices. -/
def checkTaskForActivationChecked (cfg : Config) (k : Kernel) (idxSuspTask : Nat) :
    Option (Kernel × Bool) :=
  -- `_pSuspendedTaskAry[idxSuspTask]`
  if idxSuspTask < cfg.noTasks then
    let pT := k.pSuspendedTaskAry[idxSuspTask]?.getD (IDLE_TASK_ID cfg)
    let t := k.taskAry pT
    if taskBecomesDue t then
      let prio := t.prioClass
      -- `_pDueTaskAryAry[prio][_noDueTasksAry[prio]++] = pT`
      if prio < cfg.noPrioClasses ∧ k.noDueTasksAry prio < cfg.maxNoTasksInPrioClass then
        -- `-- _noSuspendedTasks`, then `_pSuspendedTaskAry[u] = _pSuspendedTaskAry[u+1]` for
        -- `idxSuspTask <= u < _noSuspendedTasks`: the highest index is the decremented counter
        if 1 ≤ k.noSuspendedTasks
            ∧ (idxSuspTask < k.noSuspendedTasks - 1 → k.noSuspendedTasks - 1 < cfg.noTasks) then
          some (checkTaskForActivation cfg k idxSuspTask)
        else none
      else none
    else some (k, false)
  else none

/-- Function `lookForActiveTask` with the check of its array indices; the argument is
`idxPrio + 1`. -/
def lookForActiveTaskLoopChecked (cfg : Config) (k : Kernel) : Nat → Option (Kernel × Bool)
  | 0 => some (k, false)
  | idxPrio + 1 =>
    -- `_noDueTasksAry[idxPrio]`
    if idxPrio < cfg.noPrioClasses then
      match k.pDueTaskAryAry idxPrio with
      | pT :: _ =>
        -- `_pDueTaskAryAry[idxPrio][0]`
        if 0 < cfg.maxNoTasksInPrioClass then
          let k1 := { k with pSuspendedTask := k.pActiveTask, pActiveTask := pT }
          some (k1, k1.pActiveTask != k1.pSuspendedTask)
        else none
      | [] => lookForActiveTaskLoopChecked cfg k idxPrio
    else none

/-- The loop over the suspended tasks of `onTimerTic` with the check of the array indices. -/
def onTimerTicLoopChecked (cfg : Config) : Nat → Nat → Kernel → Bool → Option (Kernel × Bool)
  | 0, _, k, activeTaskMayChange => some (k, activeTaskMayChange)
  | fuel + 1, idxSuspTask, k, activeTaskMayChange =>
    if idxSuspTask < k.noSuspendedTasks then
      -- `pT = _pSuspendedTaskAry[idxSuspTask]`
      if idxSuspTask < cfg.noTasks then
        let pT := k.pSuspendedTaskAry[idxSuspTask]?.getD (IDLE_TASK_ID cfg)
        let postedEventVecBefore := (k.taskAry pT).postedEventVec
        let k1 := k.setTask pT (onTimerTicTask k.time (k.taskAry pT))
        if postedEventVecBefore != (k1.taskAry pT).postedEventVec then
          match checkTaskForActivationChecked cfg k1 idxSuspTask with
          | none => none
          | some r =>
            if r.2 then onTimerTicLoopChecked cfg fuel idxSuspTask r.1 true
            else onTimerTicLoopChecked cfg fuel (idxSuspTask + 1) k1 activeTaskMayChange
        else onTimerTicLoopChecked cfg fuel (idxSuspTask + 1) k1 activeTaskMayChange
      else none
    else some (k, activeTaskMayChange)

/-- The round robin part of `onTimerTic` with the check of the array indices. -/
def onTimerTicRoundRobinChecked (cfg : Config) (k : Kernel) (activeTaskMayChange : Bool) :
    Option (Kernel × Bool) :=
  let tA := k.taskAry k.pActiveTask
  if tA.cntRoundRobin != 0 ∧ tA.cntRoundRobin - 1 == 0 then
    let prio := tA.prioClass
    -- `noTasks = _noDueTasksAry[prio]`
    if prio < cfg.noPrioClasses then
      -- if `noTasks > 1`: `_pDueTaskAryAry[prio][idxTask+1]` for `idxTask < noTasks-1` and
      -- `_pDueTaskAryAry[prio][noTasks-1]`
      if k.noDueTasksAry prio > 1 → k.noDueTasksAry prio - 1 < cfg.maxNoTasksInPrioClass then
        some (onTimerTicRoundRobin k activeTaskMayChange)
      else none
    else none
  else some (onTimerTicRoundRobin k activeTaskMayChange)

/-- Function `onTimerTic` with the check of the array indices. -/
def onTimerTicChecked (cfg : Config) (k : Kernel) : Option (Kernel × Bool) :=
  let k0 := { k with time := (k.time + 1) % 2 ^ cfg.timeBits }
  match onTimerTicLoopChecked cfg k0.noSuspendedTasks 0 k0 false with
  | none => none
  | some r1 =>
    match (if cfg.roundRobinModeSupported then onTimerTicRoundRobinChecked cfg r1.1 r1.2
           else some r1) with
    | none => none
    | some r2 =>
      if r2.2 then lookForActiveTaskLoopChecked cfg r2.1 cfg.noPrioClasses else some (r2.1, false)

/-- The loop over the suspended tasks of `sendEvent` with the check of the array indices. -/
def sendEventLoopChecked (cfg : Config) : Nat → Nat → Kernel → SendEventLocals →
    Option (Kernel × SendEventLocals)
  | 0, _, k, v => some (k, v)
  | fuel + 1, idxSuspTask, k, v =>
    if idxSuspTask < k.noSuspendedTasks then
      -- `pT = _pSuspendedTaskAry[idxSuspTask]`
      if idxSuspTask < cfg.noTasks then
        let pT := k.pSuspendedTaskAry[idxSuspTask]?.getD (IDLE_TASK_ID cfg)
        let postedEventVecBefore := (k.taskAry pT).postedEventVec
        let r := sendEventTask cfg (k.taskAry pT) v.postedEventVec v.mutexToReleaseVec
                   v.semaphoreToReleaseVec
        let k1 := k.setTask pT r.1
        let v1 := { v with mutexToReleaseVec := r.2.1, semaphoreToReleaseVec := r.2.2 }
        if postedEventVecBefore != (k1.taskAry pT).postedEventVec then
          match checkTaskForActivationChecked cfg k1 idxSuspTask with
          | none => none
          | some c =>
            if c.2 then
              sendEventLoopChecked cfg fuel idxSuspTask c.1 { v1 with activeTaskMayChange := true }
            else sendEventLoopChecked cfg fuel (idxSuspTask + 1) k1 v1
        else sendEventLoopChecked cfg fuel (idxSuspTask + 1) k1 v1
      else none
    else some (k, v)

/-- Function `sendEvent` with the check of the indices of the task arrays. -/
def sendEventChecked (cfg : Config) (k : Kernel) (postedEventVec : Nat) :
    Option (Kernel × Bool) :=
  match sendEventLoopChecked cfg k.noSuspendedTasks 0 k (sendEventInit cfg postedEventVec) with
  | none => none
  | some r =>
    let k1 := if cfg.useSemaphore
              then { r.1 with semaphoreAry :=
                       sendEventAccumulate cfg 8 r.2.semaphoreToReleaseVec 0 r.1.semaphoreAry }
              else r.1
    let k2 := if cfg.useMutex
              then { k1 with mutexVec := k1.mutexVec ||| r.2.mutexToReleaseVec }
              else k1
    if r.2.activeTaskMayChange then lookForActiveTaskLoopChecked cfg k2 cfg.noPrioClasses
    else some (k2, false)

/-- The search for the task to return to at the end of `waitForEvent` with the check of the
array indices; the argument is `idxPrio + 1`. -/
def waitForEventLookLoopChecked (cfg : Config) (k : Kernel) : Nat → Option Nat
  | 0 => some (IDLE_TASK_ID cfg)
  | idxPrio + 1 =>
    -- `_noDueTasksAry[idxPrio]`
    if idxPrio < cfg.noPrioClasses then
      match k.pDueTaskAryAry idxPrio with
      | pT :: _ =>
        -- `_pDueTaskAryAry[idxPrio][0]`
        if 0 < cfg.maxNoTasksInPrioClass then some pT else none
      | [] => waitForEventLookLoopChecked cfg k idxPrio
    else none

/-- Function `waitForEvent` with the check of the indices of the task arrays. -/
def waitForEventChecked (cfg : Config) (k : Kernel) (eventMask : Nat) (all : Bool)
    (timeout : Nat) : Option (Kernel × Bool) :=
  let r0 : Kernel × Bool :=
    if cfg.useSemaphore || cfg.useMutex then acquireFreeSyncObjs cfg k eventMask all
    else (k, false)
  if r0.2 then some (r0.1, false)
  else
    let k0 := r0.1
    let pT := k0.pActiveTask
    let prio := (k0.taskAry pT).prioClass
    -- `noDueNow = -- _noDueTasksAry[prio]`, then `_pDueTaskAryAry[prio][idxTask+1]` for
    -- `idxTask < noDueNow`: the highest index is the decremented counter
    if prio < cfg.noPrioClasses ∧ 1 ≤ k0.noDueTasksAry prio
        ∧ (1 < k0.noDueTasksAry prio → k0.noDueTasksAry prio - 1 < cfg.maxNoTasksInPrioClass) then
      let k1 := { k0 with pDueTaskAryAry :=
                    Function.update k0.pDueTaskAryAry prio ((k0.pDueTaskAryAry prio).drop 1) }
      let k2 := k1.setTask pT
                  (storeResumeCondition cfg k1.time (k1.taskAry pT) eventMask all timeout)
      -- `_pSuspendedTaskAry[idxPos]` for `idxPos < _noSuspendedTasks`, the shift
      -- `_pSuspendedTaskAry[idxTask+1] = _pSuspendedTaskAry[idxTask]` from
      -- `_noSuspendedTasks - 1` down to `idxPos` and `_pSuspendedTaskAry[idxPos] = pT`, or
      -- `_pSuspendedTaskAry[_noSuspendedTasks++] = pT`: the highest index is the counter
      if k2.noSuspendedTasks < cfg.noTasks then
        let k3 : Kernel :=
          if cfg.useSemaphore || cfg.useMutex then
            let idxPos := findInsertPos k2.taskAry prio k2.pSuspendedTaskAry
            { k2 with pSuspendedTaskAry := insertAt k2.pSuspendedTaskAry idxPos pT }
          else
            { k2 with pSuspendedTaskAry := k2.pSuspendedTaskAry ++ [pT] }
        let k4 := { k3 with pSuspendedTask := k3.pActiveTask }
        match waitForEventLookLoopChecked cfg k4 cfg.noPrioClasses with
        | none => none
        | some pA => some ({ k4 with pActiveTask := pA }, true)
      else none
    else none

/-- The requirement of the configuration that `rtos_initializeTask` is called for each of the
`RTOS_NO_TASKS` tasks and that no more than `RTOS_MAX_NO_TASKS_IN_PRIO_CLASS` tasks belong
to the same priority class. -/
def ClassesFit (cfg : Config) (tasks : List TaskInit) : Prop :=
  tasks.length = cfg.noTasks ∧
  ∀ c, c < cfg.noPrioClasses →
    tasks.countP (fun a => decide (a.prioClass = c)) ≤ cfg.maxNoTasksInPrioClass

instance (cfg : Config) (tasks : List TaskInit) : Decidable (ClassesFit cfg tasks) := by
  unfold ClassesFit; infer_instance

/-- The capacity condition of the task lists: the suspended tasks have a priority class below
`RTOS_NO_PRIO_CLASSES`, the list of suspended tasks has at most `RTOS_NO_TASKS` entries, and
for each priority class the due tasks together with the suspended tasks of this class are at
most `RTOS_MAX_NO_TASKS_IN_PRIO_CLASS`. -/
def Capacity (cfg : Config) (k : Kernel) : Prop :=
  (∀ t ∈ k.pSuspendedTaskAry, (k.taskAry t).prioClass < cfg.noPrioClasses) ∧
  k.noSuspendedTasks ≤ cfg.noTasks ∧
  ∀ c, c < cfg.noPrioClasses →
    k.noDueTasksAry c
      + k.pSuspendedTaskAry.countP (fun t => decide ((k.taskAry t).prioClass = c))
      ≤ cfg.maxNoTasksInPrioClass

/-- The round robin configuration with due lists which are too short for its two tasks of
class 0. -/
def cfgShortDueList : Config := { cfgRoundRobin with maxNoTasksInPrioClass := 1 }

end RTuinOS

namespace RTuinOS

/-! ## Bit operations -/

theorem testBit_not16 (x i : Nat) : (not16 x).testBit i = (decide (i < 16) && !x.testBit i) := by
  unfold not16
  have h1 : (0x10000 : Nat) = 2 ^ 16 := by norm_num
  have h2 : (0xFFFF : Nat) = 2 ^ 16 - 1 := by norm_num
  rw [h1, h2, Nat.testBit_mod_two_pow, Nat.testBit_xor, Nat.testBit_two_pow_sub_one]
  by_cases h : i < 16 <;> simp [h]

theorem not16_MASK_EVT_IS_TIMER : not16 MASK_EVT_IS_TIMER = 0x3FFF := by decide

theorem MASK_EVT_IS_TIMER_eq : MASK_EVT_IS_TIMER = 0xC000 := by decide

theorem xor_and_eq_zero_iff (p w n : Nat) : (p ^^^ w) &&& n = 0 ↔ p &&& n = w &&& n := by
  rw [Nat.and_xor_distrib_right, Nat.xor_eq_zero]

/-! ## checkTaskForActivation -/

theorem taskBecomesDue_iff (t : Task) :
    taskBecomesDue t = true ↔
      (t.waitForAnyEvent = true ∧ t.postedEventVec ≠ 0) ∨
      (t.waitForAnyEvent = false ∧
        (t.postedEventVec &&& not16 MASK_EVT_IS_TIMER = t.eventMask &&& not16 MASK_EVT_IS_TIMER
         ∨ t.postedEventVec &&& t.eventMask &&& MASK_EVT_IS_TIMER ≠ 0)) := by
  unfold taskBecomesDue
  cases hw : t.waitForAnyEvent <;> simp [xor_and_eq_zero_iff]

theorem checkTaskForActivation_of_due (cfg : Config) (k : Kernel) (idx : Nat)
    (h : taskBecomesDue (k.taskAry (k.pSuspendedTaskAry[idx]?.getD (IDLE_TASK_ID cfg))) = true) :
    checkTaskForActivation cfg k idx =
      ({ k with
          taskAry := Function.update k.taskAry (k.pSuspendedTaskAry[idx]?.getD (IDLE_TASK_ID cfg))
            (if cfg.roundRobinModeSupported
             then { k.taskAry (k.pSuspendedTaskAry[idx]?.getD (IDLE_TASK_ID cfg)) with
                      cntRoundRobin :=
                        (k.taskAry (k.pSuspendedTaskAry[idx]?.getD (IDLE_TASK_ID cfg))).timeRoundRobin }
             else k.taskAry (k.pSuspendedTaskAry[idx]?.getD (IDLE_TASK_ID cfg)))
          pDueTaskAryAry := Function.update k.pDueTaskAryAry
            (k.taskAry (k.pSuspendedTaskAry[idx]?.getD (IDLE_TASK_ID cfg))).prioClass
            (k.pDueTaskAryAry (k.taskAry (k.pSuspendedTaskAry[idx]?.getD (IDLE_TASK_ID cfg))).prioClass
              ++ [k.pSuspendedTaskAry[idx]?.getD (IDLE_TASK_ID cfg)])
          pSuspendedTaskAry := k.pSuspendedTaskAry.eraseIdx idx }, true) := by
  unfold checkTaskForActivation
  simp only [h, if_true]

theorem checkTaskForActivation_of_not_due (cfg : Config) (k : Kernel) (idx : Nat)
    (h : taskBecomesDue (k.taskAry (k.pSuspendedTaskAry[idx]?.getD (IDLE_TASK_ID cfg))) = false) :
    checkTaskForActivation cfg k idx = (k, false) := by
  unfold checkTaskForActivation
  simp only [h, Bool.false_eq_true, if_false]

/-- C1: for the suspended task at index `idx`, with wait mask `W = eventMask` and posted vector
`P = postedEventVec`, `checkTaskForActivation` returns true if and only if the resume predicate
holds (wait-for-any: `P != 0`; wait-for-all: `(P & ~TIMER) == (W & ~TIMER)` or
`(P & W & TIMER) != 0`).  If it holds the task is removed from the list of suspended tasks and
appended to the due list of its priority class, all other due lists are unchanged; if it does
not hold the state is unchanged. -/
theorem checkTaskForActivation_resume_predicate (cfg : Config) (k : Kernel) (idx : Nat)
    (hidx : idx < k.noSuspendedTasks) :
    let pT := k.pSuspendedTaskAry[idx]?.getD (IDLE_TASK_ID cfg)
    let W := (k.taskAry pT).eventMask
    let P := (k.taskAry pT).postedEventVec
    let resume : Prop :=
      ((k.taskAry pT).waitForAnyEvent = true ∧ P ≠ 0) ∨
      ((k.taskAry pT).waitForAnyEvent = false ∧
        (P &&& not16 MASK_EVT_IS_TIMER = W &&& not16 MASK_EVT_IS_TIMER
         ∨ P &&& W &&& MASK_EVT_IS_TIMER ≠ 0))
    let r := checkTaskForActivation cfg k idx
    MASK_EVT_IS_TIMER = 2 ^ 14 ||| 2 ^ 15 ∧
    k.pSuspendedTaskAry[idx]? = some pT ∧
    (r.2 = true ↔ resume) ∧
    (resume →
      r.1.pSuspendedTaskAry = k.pSuspendedTaskAry.eraseIdx idx ∧
      r.1.pDueTaskAryAry (k.taskAry pT).prioClass
        = k.pDueTaskAryAry (k.taskAry pT).prioClass ++ [pT] ∧
      ∀ c, c ≠ (k.taskAry pT).prioClass → r.1.pDueTaskAryAry c = k.pDueTaskAryAry c) ∧
    (¬ resume → r.2 = false ∧ r.1 = k) := by
  intro pT W P resume r
  have hiff : taskBecomesDue (k.taskAry pT) = true ↔ resume := taskBecomesDue_iff _
  refine ⟨by decide, ?_, ?_, ?_, ?_⟩
  · simp only [pT]
    rw [List.getElem?_eq_getElem hidx]
    rfl
  · constructor
    · intro h2
      by_cases hd : taskBecomesDue (k.taskAry pT) = true
      · exact hiff.mp hd
      · rw [Bool.not_eq_true] at hd
        have := checkTaskForActivation_of_not_due cfg k idx hd
        simp only [r, this] at h2
        exact absurd h2 (by simp)
    · intro hr
      have := checkTaskForActivation_of_due cfg k idx (hiff.mpr hr)
      simp only [r, this]
  · intro hr
    have := checkTaskForActivation_of_due cfg k idx (hiff.mpr hr)
    simp only [r, this, Function.update_same, true_and]
    intro c hc
    exact Function.update_noteq hc _ _
  · intro hr
    have hd : taskBecomesDue (k.taskAry pT) = false := by
      rw [← Bool.not_eq_true]
      exact fun h => hr (hiff.mp h)
    have := checkTaskForActivation_of_not_due cfg k idx hd
    simp only [r, this, and_self]

/-- C1, instance: in `kCheck` the suspended task 1 waits for all of the events 3 and 4 with the
delay timer as timeout and has got the timer event, so it becomes due. -/
theorem checkTaskForActivation_resume_predicate_witness :
    0 < kCheck.noSuspendedTasks ∧ (checkTaskForActivation cfgScenario kCheck 0).2 = true ∧
      (checkTaskForActivation cfgScenario kCheck 0).1.pDueTaskAryAry 0 = [1] :=
  ⟨by decide,
   (checkTaskForActivation_resume_predicate cfgScenario kCheck 0 (by decide)).2.2.1.mpr
     (Or.inr ⟨by decide, Or.inr (by decide)⟩),
   ((checkTaskForActivation_resume_predicate cfgScenario kCheck 0 (by decide)).2.2.2.1
     (Or.inr ⟨by decide, Or.inr (by decide)⟩)).2.1⟩

/-! ## lookForActiveTask -/

theorem lookForActiveTaskLoop_empty (k : Kernel) (n : Nat)
    (h : ∀ j, j < n → k.pDueTaskAryAry j = []) : lookForActiveTaskLoop k n = (k, false) := by
  induction n with
  | zero => rfl
  | succ n ih =>
    unfold lookForActiveTaskLoop
    rw [h n (Nat.lt_succ_self n)]
    exact ih (fun j hj => h j (Nat.lt_succ_of_lt hj))

theorem lookForActiveTaskLoop_found (k : Kernel) (n top pT : Nat) (rest : List Nat)
    (htop : top < n) (hd : k.pDueTaskAryAry top = pT :: rest)
    (hhigh : ∀ j, top < j → j < n → k.pDueTaskAryAry j = []) :
    lookForActiveTaskLoop k n =
      ({ k with pSuspendedTask := k.pActiveTask, pActiveTask := pT }, pT != k.pActiveTask) := by
  induction n with
  | zero => exact absurd htop (Nat.not_lt_zero _)
  | succ n ih =>
    unfold lookForActiveTaskLoop
    by_cases hn : top = n
    · subst hn
      rw [hd]
    · have hlt : top < n := by omega
      rw [hhigh n hlt (Nat.lt_succ_self n)]
      exact ih hlt (fun j h1 h2 => hhigh j h1 (Nat.lt_succ_of_lt h2))

theorem exists_highest_nonempty (due : Nat → List Nat) (n c : Nat) (hc : c < n)
    (hne : due c ≠ []) :
    ∃ top, top < n ∧ due top ≠ [] ∧ ∀ j, top < j → j < n → due j = [] := by
  induction n with
  | zero => exact absurd hc (Nat.not_lt_zero _)
  | succ n ih =>
    by_cases hn : due n = []
    · have hcn : c < n := by
        rcases Nat.lt_succ_iff_lt_or_eq.mp hc with h | h
        · exact h
        · subst h; exact absurd hn hne
      obtain ⟨top, h1, h2, h3⟩ := ih hcn
      refine ⟨top, Nat.lt_succ_of_lt h1, h2, ?_⟩
      intro j hj1 hj2
      rcases Nat.lt_succ_iff_lt_or_eq.mp hj2 with h | h
      · exact h3 j hj1 h
      · subst h; exact hn
    · exact ⟨n, Nat.lt_succ_self n, hn, fun j h1 h2 => absurd h2 (by omega)⟩

/-- C2: if at least one priority class has a due task, `lookForActiveTask` writes the former
active task to `_pSuspendedTask`, makes the first entry of the due list of the highest
non-empty priority class the active task, changes nothing else, and returns true if and only
if the new active task differs from the former one. -/
theorem lookForActiveTask_selects_head_of_highest_class (cfg : Config) (k : Kernel) (c : Nat)
    (hc : c < cfg.noPrioClasses) (hne : k.noDueTasksAry c > 0) :
    ∃ top pT rest,
      top < cfg.noPrioClasses ∧ k.pDueTaskAryAry top = pT :: rest ∧
      (∀ j, top < j → j < cfg.noPrioClasses → k.noDueTasksAry j = 0) ∧
      (lookForActiveTask cfg k).1.pSuspendedTask = k.pActiveTask ∧
      (lookForActiveTask cfg k).1.pActiveTask = pT ∧
      ((lookForActiveTask cfg k).2 = true ↔ (lookForActiveTask cfg k).1.pActiveTask ≠ k.pActiveTask) ∧
      (lookForActiveTask cfg k).1 = { k with pSuspendedTask := k.pActiveTask, pActiveTask := pT } := by
  have hne2 : k.pDueTaskAryAry c ≠ [] := by
    intro h
    simp [Kernel.noDueTasksAry, h] at hne
  obtain ⟨top, h1, h2, h3⟩ := exists_highest_nonempty k.pDueTaskAryAry cfg.noPrioClasses c hc hne2
  obtain ⟨pT, rest, hd⟩ := List.exists_cons_of_ne_nil h2
  have hl := lookForActiveTaskLoop_found k cfg.noPrioClasses top pT rest h1 hd h3
  refine ⟨top, pT, rest, h1, hd, ?_, ?_, ?_, ?_, ?_⟩
  · intro j hj1 hj2
    simp [Kernel.noDueTasksAry, h3 j hj1 hj2]
  · simp [lookForActiveTask, hl]
  · simp [lookForActiveTask, hl]
  · simp [lookForActiveTask, hl]
  · simp [lookForActiveTask, hl]

/-- C2, instance: in `kCheck` class 1 is the highest non-empty class and its head, task 0, is
the active task already, so `lookForActiveTask` reports no task switch. -/
theorem lookForActiveTask_selects_head_of_highest_class_witness :
    1 < cfgScenario.noPrioClasses ∧ kCheck.noDueTasksAry 1 > 0 ∧
    ∃ top pT rest,
      top < cfgScenario.noPrioClasses ∧ kCheck.pDueTaskAryAry top = pT :: rest ∧
      (∀ j, top < j → j < cfgScenario.noPrioClasses → kCheck.noDueTasksAry j = 0) ∧
      (lookForActiveTask cfgScenario kCheck).1.pSuspendedTask = kCheck.pActiveTask ∧
      (lookForActiveTask cfgScenario kCheck).1.pActiveTask = pT ∧
      ((lookForActiveTask cfgScenario kCheck).2 = true ↔
        (lookForActiveTask cfgScenario kCheck).1.pActiveTask ≠ kCheck.pActiveTask) ∧
      (lookForActiveTask cfgScenario kCheck).1 =
        { kCheck with pSuspendedTask := kCheck.pActiveTask, pActiveTask := pT } :=
  ⟨by decide, by decide,
   lookForActiveTask_selects_head_of_highest_class cfgScenario kCheck 1 (by decide) (by decide)⟩

/-! ## The loops over the suspended tasks -/

theorem getD_append_cons (kept rest : List Nat) (p d : Nat) :
    (kept ++ p :: rest)[kept.length]?.getD d = p := by
  induction kept with
  | nil => simp
  | cons a l ih => simpa using ih

theorem eraseIdx_append_cons (kept rest : List Nat) (p : Nat) :
    (kept ++ p :: rest).eraseIdx kept.length = kept ++ rest := by
  induction kept with
  | nil => rfl
  | cons a l ih => simp [List.eraseIdx, ih]

@[simp] theorem setTask_taskAry_same (k : Kernel) (p : Nat) (t : Task) :
    (k.setTask p t).taskAry p = t := by
  simp [Kernel.setTask]

theorem setTask_taskAry_ne (k : Kernel) (p q : Nat) (t : Task) (h : q ≠ p) :
    (k.setTask p t).taskAry q = k.taskAry q := by
  simp [Kernel.setTask, Function.update_noteq h]

@[simp] theorem setTask_pSuspendedTaskAry (k : Kernel) (p : Nat) (t : Task) :
    (k.setTask p t).pSuspendedTaskAry = k.pSuspendedTaskAry := rfl

@[simp] theorem setTask_pDueTaskAryAry (k : Kernel) (p : Nat) (t : Task) :
    (k.setTask p t).pDueTaskAryAry = k.pDueTaskAryAry := rfl

@[simp] theorem setTask_pActiveTask (k : Kernel) (p : Nat) (t : Task) :
    (k.setTask p t).pActiveTask = k.pActiveTask := rfl

@[simp] theorem setTask_pSuspendedTask (k : Kernel) (p : Nat) (t : Task) :
    (k.setTask p t).pSuspendedTask = k.pSuspendedTask := rfl

@[simp] theorem setTask_time (k : Kernel) (p : Nat) (t : Task) :
    (k.setTask p t).time = k.time := rfl

@[simp] theorem setTask_mutexVec (k : Kernel) (p : Nat) (t : Task) :
    (k.setTask p t).mutexVec = k.mutexVec := rfl

@[simp] theorem setTask_semaphoreAry (k : Kernel) (p : Nat) (t : Task) :
    (k.setTask p t).semaphoreAry = k.semaphoreAry := rfl

theorem checkTaskForActivation_snd (cfg : Config) (k : Kernel) (idx : Nat) :
    (checkTaskForActivation cfg k idx).2 =
      taskBecomesDue (k.taskAry (k.pSuspendedTaskAry[idx]?.getD (IDLE_TASK_ID cfg))) := by
  unfold checkTaskForActivation
  cases h : taskBecomesDue (k.taskAry (k.pSuspendedTaskAry[idx]?.getD (IDLE_TASK_ID cfg))) <;> simp [h]

theorem checkTaskForActivation_fst_of_due (cfg : Config) (k : Kernel) (idx : Nat)
    (h : taskBecomesDue (k.taskAry (k.pSuspendedTaskAry[idx]?.getD (IDLE_TASK_ID cfg))) = true) :
    (checkTaskForActivation cfg k idx).1 =
      { appendToDue cfg k (k.pSuspendedTaskAry[idx]?.getD (IDLE_TASK_ID cfg)) with
          pSuspendedTaskAry := k.pSuspendedTaskAry.eraseIdx idx } := by
  rw [checkTaskForActivation_of_due cfg k idx h]
  rfl

theorem walkSuspended_cons_move {σ : Type} (cfg : Config) (f : σ → Task → Task × σ) (p : Nat)
    (rest : List Nat) (k : Kernel) (s : σ) (flag : Bool)
    (h : ((k.taskAry p).postedEventVec != (f s (k.taskAry p)).1.postedEventVec
          && taskBecomesDue (f s (k.taskAry p)).1) = true) :
    walkSuspended cfg f (p :: rest) k s flag =
      walkSuspended cfg f rest (appendToDue cfg (k.setTask p (f s (k.taskAry p)).1) p)
        (f s (k.taskAry p)).2 true := by
  rw [walkSuspended, if_pos h]

theorem walkSuspended_cons_stay {σ : Type} (cfg : Config) (f : σ → Task → Task × σ) (p : Nat)
    (rest : List Nat) (k : Kernel) (s : σ) (flag : Bool)
    (h : ¬ ((k.taskAry p).postedEventVec != (f s (k.taskAry p)).1.postedEventVec
          && taskBecomesDue (f s (k.taskAry p)).1) = true) :
    walkSuspended cfg f (p :: rest) k s flag =
      walkSuspended cfg f rest
        { k.setTask p (f s (k.taskAry p)).1 with
            pSuspendedTaskAry := k.pSuspendedTaskAry ++ [p] }
        (f s (k.taskAry p)).2 flag := by
  rw [walkSuspended, if_neg h]

theorem sendEventLoop_eq_walk (cfg : Config) :
    ∀ (rest kept : List Nat) (k : Kernel) (v : SendEventLocals) (fuel : Nat),
      k.pSuspendedTaskAry = kept ++ rest → rest.length ≤ fuel →
      sendEventLoop cfg fuel kept.length k v =
        sendEventWalk cfg rest { k with pSuspendedTaskAry := kept } v := by
  intro rest
  induction rest with
  | nil =>
    intro kept k v fuel hk _
    rw [List.append_nil] at hk
    have hkk : ({ k with pSuspendedTaskAry := kept } : Kernel) = k := by rw [← hk]
    cases fuel with
    | zero => simp only [sendEventLoop, sendEventWalk, walkSuspended, hkk]
    | succ n =>
      simp only [sendEventLoop, sendEventWalk, walkSuspended, hkk, Kernel.noSuspendedTasks, hk,
        Nat.lt_irrefl, if_false]
  | cons p rest ih =>
    intro kept k v fuel hk hfuel
    cases fuel with
    | zero => simp at hfuel
    | succ n =>
      have hn : rest.length ≤ n := by simpa using hfuel
      have hlt : kept.length < k.noSuspendedTasks := by
        simp [Kernel.noSuspendedTasks, hk]
      have hget : k.pSuspendedTaskAry[kept.length]?.getD (IDLE_TASK_ID cfg) = p := by
        rw [hk]; exact getD_append_cons _ _ _ _
      unfold sendEventLoop
      simp only [hlt, if_true, hget, setTask_taskAry_same, checkTaskForActivation_snd,
        setTask_pSuspendedTaskAry]
      by_cases hc : ((k.taskAry p).postedEventVec !=
            (sendEventTask cfg (k.taskAry p) v.postedEventVec v.mutexToReleaseVec
              v.semaphoreToReleaseVec).1.postedEventVec
          && taskBecomesDue (sendEventTask cfg (k.taskAry p) v.postedEventVec
              v.mutexToReleaseVec v.semaphoreToReleaseVec).1) = true
      · rw [if_pos hc]
        have hdue : taskBecomesDue ((k.setTask p (sendEventTask cfg (k.taskAry p)
            v.postedEventVec v.mutexToReleaseVec v.semaphoreToReleaseVec).1).taskAry
              ((k.setTask p (sendEventTask cfg (k.taskAry p) v.postedEventVec
                v.mutexToReleaseVec v.semaphoreToReleaseVec).1).pSuspendedTaskAry[kept.length]?.getD
                  (IDLE_TASK_ID cfg))) = true := by
          rw [setTask_pSuspendedTaskAry, hget, setTask_taskAry_same]
          simp only [Bool.and_eq_true] at hc
          exact hc.2
        rw [checkTaskForActivation_fst_of_due cfg _ _ hdue]
        simp only [setTask_pSuspendedTaskAry, hk, getD_append_cons, eraseIdx_append_cons]
        rw [ih kept _ _ n rfl hn]
        unfold sendEventWalk
        rw [walkSuspended_cons_move cfg _ p rest _ _ _ hc]
        rfl
      · rw [if_neg hc]
        have hk1 : (k.setTask p (sendEventTask cfg (k.taskAry p) v.postedEventVec
            v.mutexToReleaseVec v.semaphoreToReleaseVec).1).pSuspendedTaskAry
              = (kept ++ [p]) ++ rest := by
          simp [hk]
        have hlen : kept.length + 1 = (kept ++ [p]).length := by simp
        rw [hlen, ih (kept ++ [p]) _ _ n hk1 hn]
        unfold sendEventWalk
        rw [walkSuspended_cons_stay cfg _ p rest _ _ _ hc]
        rfl


theorem onTimerTicLoop_eq_walk (cfg : Config) :
    ∀ (rest kept : List Nat) (k : Kernel) (flag : Bool) (fuel : Nat),
      k.pSuspendedTaskAry = kept ++ rest → rest.length ≤ fuel →
      onTimerTicLoop cfg fuel kept.length k flag =
        onTimerTicWalk cfg rest { k with pSuspendedTaskAry := kept } flag := by
  intro rest
  induction rest with
  | nil =>
    intro kept k flag fuel hk _
    rw [List.append_nil] at hk
    have hkk : ({ k with pSuspendedTaskAry := kept } : Kernel) = k := by rw [← hk]
    cases fuel with
    | zero => simp only [onTimerTicLoop, onTimerTicWalk, walkSuspended, hkk]
    | succ n =>
      simp only [onTimerTicLoop, onTimerTicWalk, walkSuspended, hkk, Kernel.noSuspendedTasks, hk,
        Nat.lt_irrefl, if_false]
  | cons p rest ih =>
    intro kept k flag fuel hk hfuel
    cases fuel with
    | zero => simp at hfuel
    | succ n =>
      have hn : rest.length ≤ n := by simpa using hfuel
      have hlt : kept.length < k.noSuspendedTasks := by
        simp [Kernel.noSuspendedTasks, hk]
      have hget : k.pSuspendedTaskAry[kept.length]?.getD (IDLE_TASK_ID cfg) = p := by
        rw [hk]; exact getD_append_cons _ _ _ _
      unfold onTimerTicLoop
      simp only [hlt, if_true, hget, setTask_taskAry_same, checkTaskForActivation_snd,
        setTask_pSuspendedTaskAry]
      by_cases hc : ((k.taskAry p).postedEventVec !=
            (onTimerTicTask k.time (k.taskAry p)).postedEventVec
          && taskBecomesDue (onTimerTicTask k.time (k.taskAry p))) = true
      · rw [if_pos hc]
        have hdue : taskBecomesDue ((k.setTask p (onTimerTicTask k.time (k.taskAry p))).taskAry
              ((k.setTask p (onTimerTicTask k.time
                (k.taskAry p))).pSuspendedTaskAry[kept.length]?.getD
                  (IDLE_TASK_ID cfg))) = true := by
          rw [setTask_pSuspendedTaskAry, hget, setTask_taskAry_same]
          simp only [Bool.and_eq_true] at hc
          exact hc.2
        rw [checkTaskForActivation_fst_of_due cfg _ _ hdue]
        simp only [setTask_pSuspendedTaskAry, hk, getD_append_cons, eraseIdx_append_cons]
        rw [ih kept _ _ n rfl hn]
        unfold onTimerTicWalk
        have hc2 : ((({ k with pSuspendedTaskAry := kept } : Kernel).taskAry p).postedEventVec !=
            (onTimerTicVisit k.time () (({ k with pSuspendedTaskAry := kept } : Kernel).taskAry
              p)).1.postedEventVec
          && taskBecomesDue (onTimerTicVisit k.time ()
              (({ k with pSuspendedTaskAry := kept } : Kernel).taskAry p)).1) = true := hc
        rw [walkSuspended_cons_move cfg (onTimerTicVisit k.time) p rest _ _ _ hc2]
        rfl
      · rw [if_neg hc]
        have hk1 : (k.setTask p (onTimerTicTask k.time (k.taskAry p))).pSuspendedTaskAry
              = (kept ++ [p]) ++ rest := by
          simp [hk]
        have hlen : kept.length + 1 = (kept ++ [p]).length := by simp
        rw [hlen, ih (kept ++ [p]) _ _ n hk1 hn]
        unfold onTimerTicWalk
        have hc2 : ¬ ((({ k with pSuspendedTaskAry := kept } : Kernel).taskAry p).postedEventVec !=
            (onTimerTicVisit k.time () (({ k with pSuspendedTaskAry := kept } : Kernel).taskAry
              p)).1.postedEventVec
          && taskBecomesDue (onTimerTicVisit k.time ()
              (({ k with pSuspendedTaskAry := kept } : Kernel).taskAry p)).1) = true := hc
        rw [walkSuspended_cons_stay cfg (onTimerTicVisit k.time) p rest _ _ _ hc2]
        rfl


/-! ## Bit level description of the event delivery to one task -/

theorem ne_zero_iff_exists_testBit (x : Nat) : x ≠ 0 ↔ ∃ j, x.testBit j = true := by
  constructor
  · exact Nat.ne_zero_implies_bit_true
  · rintro ⟨j, hj⟩ h
    rw [h, Nat.zero_testBit] at hj
    exact absurd hj (by simp)

theorem eq_zero_iff_testBit (x : Nat) : x = 0 ↔ ∀ j, x.testBit j = false := by
  constructor
  · intro h j
    rw [h, Nat.zero_testBit]
  · intro h
    exact Nat.eq_of_testBit_eq (fun j => by rw [h j, Nat.zero_testBit])

theorem testBit_not8 (x i : Nat) : (not8 x).testBit i = (decide (i < 8) && !x.testBit i) := by
  unfold not8
  have h1 : (0x100 : Nat) = 2 ^ 8 := by norm_num
  have h2 : (0xFF : Nat) = 2 ^ 8 - 1 := by norm_num
  rw [h1, h2, Nat.testBit_mod_two_pow, Nat.testBit_xor, Nat.testBit_two_pow_sub_one]
  by_cases h : i < 8 <;> simp [h]

theorem testBit_MASK_EVT_IS_SEMAPHORE (cfg : Config) (j : Nat) :
    (MASK_EVT_IS_SEMAPHORE cfg).testBit j = decide (j < cfg.noSemaphoreEvents) := by
  unfold MASK_EVT_IS_SEMAPHORE
  rw [Nat.one_shiftLeft, Nat.testBit_two_pow_sub_one]

theorem testBit_MASK_EVT_IS_MUTEX (cfg : Config) (j : Nat) :
    (MASK_EVT_IS_MUTEX cfg).testBit j =
      (decide (cfg.noSemaphoreEvents ≤ j) &&
       decide (j < cfg.noSemaphoreEvents + cfg.noMutexEvents)) := by
  unfold MASK_EVT_IS_MUTEX MASK_EVT_IS_SEMAPHORE
  rw [Nat.one_shiftLeft, Nat.one_shiftLeft]
  have h : 2 ^ (cfg.noMutexEvents + cfg.noSemaphoreEvents) - 1 - (2 ^ cfg.noSemaphoreEvents - 1)
      = 2 ^ cfg.noSemaphoreEvents * (2 ^ cfg.noMutexEvents - 1) := by
    have h1 : 1 ≤ 2 ^ cfg.noSemaphoreEvents := Nat.one_le_two_pow
    have h2 : 1 ≤ 2 ^ cfg.noMutexEvents := Nat.one_le_two_pow
    rw [Nat.pow_add, Nat.mul_sub, Nat.mul_one, Nat.mul_comm]
    have h3 : 2 ^ cfg.noSemaphoreEvents ≤ 2 ^ cfg.noSemaphoreEvents * 2 ^ cfg.noMutexEvents :=
      Nat.le_mul_of_pos_right _ (by omega)
    omega
  rw [h, Nat.testBit_mul_pow_two, Nat.testBit_two_pow_sub_one]
  by_cases h1 : cfg.noSemaphoreEvents ≤ j
  · simp only [h1, decide_True, Bool.true_and]
    congr 1
    apply propext
    omega
  · simp [h1]

theorem two_pow_mod_256 (i : Nat) (hi : i < 8) : 2 ^ i % 0x100 = 2 ^ i := by
  apply Nat.mod_eq_of_lt
  have : (0x100 : Nat) = 2 ^ 8 := by norm_num
  rw [this]
  exact Nat.pow_lt_pow_right (by norm_num) hi

theorem two_pow_shift_mod_256 (i : Nat) : (2 ^ i % 0x100) <<< 1 % 0x100 = 2 ^ (i + 1) % 0x100 := by
  rw [Nat.shiftLeft_eq, Nat.pow_one, Nat.pow_succ, Nat.mod_mul_mod]

theorem testBit_lt_256 (x j : Nat) (hx : x < 0x100) (hj : 8 ≤ j) : x.testBit j = false := by
  apply Nat.testBit_lt_two_pow
  calc x < 2 ^ 8 := by simpa using hx
    _ ≤ 2 ^ j := Nat.pow_le_pow_right (by norm_num) hj

theorem sendEventSemLoop_spec (cfg : Config) (hS : cfg.noSemaphoreEvents ≤ 8) (eventMask : Nat) :
    ∀ (fuel i posted sem : Nat), i + fuel = 8 → sem < 0x100 →
      (∀ j, (sendEventSemLoop cfg eventMask fuel (2 ^ i % 0x100) posted sem).1.testBit j =
          (posted.testBit j ||
            (decide (i ≤ j) && decide (j < cfg.noSemaphoreEvents) && sem.testBit j
              && eventMask.testBit j && !posted.testBit j))) ∧
      (∀ j, (sendEventSemLoop cfg eventMask fuel (2 ^ i % 0x100) posted sem).2.testBit j =
          (sem.testBit j &&
            !(decide (i ≤ j) && decide (j < cfg.noSemaphoreEvents)
              && eventMask.testBit j && !posted.testBit j))) ∧
      (sendEventSemLoop cfg eventMask fuel (2 ^ i % 0x100) posted sem).2 < 0x100 := by
  intro fuel
  induction fuel with
  | zero =>
    intro i posted sem hi hsem
    have hi8 : i = 8 := by omega
    subst hi8
    simp only [sendEventSemLoop]
    refine ⟨fun j => ?_, fun j => ?_, hsem⟩
    · by_cases h1 : 8 ≤ j
      · have : ¬ j < cfg.noSemaphoreEvents := by omega
        simp [this]
      · simp [h1]
    · by_cases h1 : 8 ≤ j
      · have : ¬ j < cfg.noSemaphoreEvents := by omega
        simp [this]
      · simp [h1]
  | succ n ih =>
    intro i posted sem hi hsem
    have hi8 : i < 8 := by omega
    rw [sendEventSemLoop, two_pow_shift_mod_256, two_pow_mod_256 i hi8]
    have hcond1 : ((2 ^ i &&& MASK_EVT_IS_SEMAPHORE cfg) != 0) = decide (i < cfg.noSemaphoreEvents) := by
      by_cases h : i < cfg.noSemaphoreEvents
      · simp only [h, decide_True, bne_iff_ne, ne_eq]
        rw [← ne_eq, ne_zero_iff_exists_testBit]
        exact ⟨i, by simp [Nat.testBit_two_pow, testBit_MASK_EVT_IS_SEMAPHORE, h]⟩
      · simp only [h, decide_False, bne_eq_false_iff_eq]
        rw [eq_zero_iff_testBit]
        intro j
        rw [Nat.testBit_and, Nat.testBit_two_pow, testBit_MASK_EVT_IS_SEMAPHORE]
        by_cases hj : i = j
        · subst hj; simp [h]
        · simp [hj]
    have hcond2 : ((sem &&& 2 ^ i &&& eventMask &&& not16 posted) != 0) =
        (sem.testBit i && eventMask.testBit i && !posted.testBit i) := by
      have hi16 : i < 16 := by omega
      by_cases h : (sem.testBit i && eventMask.testBit i && !posted.testBit i) = true
      · rw [h, bne_iff_ne, ne_zero_iff_exists_testBit]
        refine ⟨i, ?_⟩
        simp only [Bool.and_eq_true, Bool.not_eq_true'] at h
        simp [Nat.testBit_two_pow, testBit_not16, h.1.1, h.1.2, h.2, hi16]
      · rw [Bool.not_eq_true] at h
        rw [h, bne_eq_false_iff_eq, eq_zero_iff_testBit]
        intro j
        rw [Nat.testBit_and, Nat.testBit_and, Nat.testBit_and, Nat.testBit_two_pow, testBit_not16]
        by_cases hj : i = j
        · subst hj
          simp only [decide_True, Bool.and_true, hi16, Bool.true_and]
          exact h
        · simp [hj]
    rw [hcond1, hcond2]
    by_cases hz : sem = 0
    · subst hz
      simp only [bne_self_eq_false, Bool.false_and, Bool.false_eq_true, if_false, Nat.zero_testBit]
      refine ⟨fun j => by simp, fun j => by simp, by norm_num⟩
    · have hz2 : (sem != 0) = true := by simpa using hz
      rw [hz2, Bool.true_and]
      by_cases hS1 : i < cfg.noSemaphoreEvents
      · simp only [hS1, decide_True, if_true]
        by_cases hdel : (sem.testBit i && eventMask.testBit i && !posted.testBit i) = true
        · rw [if_pos hdel]
          have hsem2 : sem &&& not8 (2 ^ i) < 0x100 :=
            Nat.lt_of_le_of_lt Nat.and_le_left hsem
          obtain ⟨h1, h2, h3⟩ := ih (i + 1) (posted ||| 2 ^ i) (sem &&& not8 (2 ^ i)) (by omega) hsem2
          simp only [Bool.and_eq_true, Bool.not_eq_true'] at hdel
          refine ⟨fun j => ?_, fun j => ?_, h3⟩
          · rw [h1 j, Nat.testBit_or, Nat.testBit_and, Nat.testBit_two_pow, testBit_not8]
            by_cases hj : i = j
            · subst hj
              simp [hdel.1.1, hdel.1.2, hdel.2, hS1]
            · have e1 : decide (i + 1 ≤ j) = decide (i ≤ j) := by
                apply decide_eq_decide.mpr; omega
              by_cases hj8 : j < 8
              · simp [hj, e1, hj8]
              · have : ¬ j < cfg.noSemaphoreEvents := by omega
                simp [hj, this]
          · rw [h2 j, Nat.testBit_or, Nat.testBit_and, Nat.testBit_two_pow, testBit_not8]
            by_cases hj : i = j
            · subst hj
              simp [hdel.1.1, hdel.1.2, hdel.2, hS1]
            · have e1 : decide (i + 1 ≤ j) = decide (i ≤ j) := by
                apply decide_eq_decide.mpr; omega
              by_cases hj8 : j < 8
              · simp [hj, e1, hj8]
              · have hs : sem.testBit j = false := testBit_lt_256 sem j hsem (by omega)
                simp [hs]
        · rw [if_neg hdel]
          obtain ⟨h1, h2, h3⟩ := ih (i + 1) posted sem (by omega) hsem
          rw [Bool.not_eq_true] at hdel
          refine ⟨fun j => ?_, fun j => ?_, h3⟩
          · rw [h1 j]
            by_cases hj : i = j
            · subst hj
              have : ¬ (i + 1 ≤ i) := by omega
              simp only [this, decide_False, Bool.false_and, Bool.or_false, le_refl, decide_True,
                hS1, Bool.true_and]
              rw [hdel]; simp
            · have e1 : decide (i + 1 ≤ j) = decide (i ≤ j) := by
                apply decide_eq_decide.mpr; omega
              rw [e1]
          · rw [h2 j]
            by_cases hj : i = j
            · subst hj
              have : ¬ (i + 1 ≤ i) := by omega
              simp only [this, decide_False, Bool.false_and, Bool.not_false, Bool.and_true,
                le_refl, decide_True, hS1, Bool.true_and]
              cases hs : sem.testBit i
              · rfl
              · rw [hs] at hdel
                simp only [Bool.true_and] at hdel
                rw [hdel]; rfl
            · have e1 : decide (i + 1 ≤ j) = decide (i ≤ j) := by
                apply decide_eq_decide.mpr; omega
              rw [e1]
      · simp only [hS1, decide_False, Bool.false_eq_true, if_false]
        refine ⟨fun j => ?_, fun j => ?_, hsem⟩
        · by_cases hj : i ≤ j
          · have : ¬ j < cfg.noSemaphoreEvents := by omega
            simp [this]
          · simp [hj]
        · by_cases hj : i ≤ j
          · have : ¬ j < cfg.noSemaphoreEvents := by omega
            simp [this]
          · simp [hj]


theorem sendEventTask_spec (cfg : Config) (hS : cfg.noSemaphoreEvents ≤ 8)
    (hSM : cfg.noSemaphoreEvents + cfg.noMutexEvents ≤ 14) (t : Task) (b : Nat) (s : Nat × Nat)
    (hs : SendLocalsOk cfg b s) :
    (sendEventTask cfg t b s.1 s.2).1 =
      { t with postedEventVec := (sendEventTask cfg t b s.1 s.2).1.postedEventVec } ∧
    (∀ j, (sendEventTask cfg t b s.1 s.2).1.postedEventVec.testBit j =
      (t.postedEventVec.testBit j ||
        ((b.testBit j || s.1.testBit j || s.2.testBit j) && t.eventMask.testBit j))) ∧
    (∀ j, (sendEventTask cfg t b s.1 s.2).2.1.testBit j =
      (s.1.testBit j && !t.eventMask.testBit j)) ∧
    (∀ j, (sendEventTask cfg t b s.1 s.2).2.2.testBit j =
      (s.2.testBit j && !(t.eventMask.testBit j && !t.postedEventVec.testBit j))) ∧
    (sendEventTask cfg t b s.1 s.2).2.2 < 0x100 := by
  obtain ⟨hb, hm, hsem, hsem8⟩ := hs
  -- the state after the delivery of mutexes and broadcasted events
  have hmtx0 : cfg.useMutex = false → s.1 = 0 := by
    intro h
    rw [eq_zero_iff_testBit]
    intro j
    by_contra hj
    rw [Bool.not_eq_false] at hj
    have := hm j hj
    simp [Config.useMutex] at h
    omega
  have hr1 : (if cfg.useMutex then
        ({ t with postedEventVec := t.postedEventVec ||| ((b ||| s.1) &&& t.eventMask) },
         s.1 &&& not16 ((b ||| s.1) &&& t.eventMask))
      else
        ({ t with postedEventVec := t.postedEventVec ||| (b &&& t.eventMask) }, s.1)
        : Task × Nat) =
      ({ t with postedEventVec := t.postedEventVec ||| ((b ||| s.1) &&& t.eventMask) },
         s.1 &&& not16 ((b ||| s.1) &&& t.eventMask)) := by
    cases hu : cfg.useMutex
    · simp [hmtx0 hu]
    · simp
  have hmtx' : ∀ j, (s.1 &&& not16 ((b ||| s.1) &&& t.eventMask)).testBit j =
      (s.1.testBit j && !t.eventMask.testBit j) := by
    intro j
    rw [Nat.testBit_and, testBit_not16, Nat.testBit_and, Nat.testBit_or]
    cases h1 : s.1.testBit j
    · simp
    · have := hm j h1
      have h16 : j < 16 := by omega
      simp [h16]
  unfold sendEventTask
  rw [hr1]
  cases hu : cfg.useSemaphore
  · have hS0 : cfg.noSemaphoreEvents = 0 := by simpa [Config.useSemaphore] using hu
    have hsem0 : ∀ j, s.2.testBit j = false := by
      intro j
      by_contra hj
      rw [Bool.not_eq_false] at hj
      have := hsem j hj
      omega
    simp only [Bool.false_eq_true, if_false]
    refine ⟨trivial, fun j => ?_, hmtx', fun j => ?_, hsem8⟩
    · simp [hsem0 j]
    · simp [hsem0 j]
  · simp only [if_true]
    have h0 : (0x01 : Nat) = 2 ^ 0 % 0x100 := by norm_num
    rw [h0]
    obtain ⟨h1, h2, h3⟩ := sendEventSemLoop_spec cfg hS t.eventMask 8 0
      (t.postedEventVec ||| ((b ||| s.1) &&& t.eventMask)) s.2 (by norm_num) hsem8
    refine ⟨trivial, fun j => ?_, hmtx', fun j => ?_, h3⟩
    · simp only [h1 j, Nat.testBit_or, Nat.testBit_and, Nat.zero_le, decide_True, Bool.true_and]
      by_cases hj : j < cfg.noSemaphoreEvents
      · have hbj : b.testBit j = false := by
          by_contra h
          rw [Bool.not_eq_false] at h
          have := hb j h
          omega
        have hmj : s.1.testBit j = false := by
          by_contra h
          rw [Bool.not_eq_false] at h
          have := hm j h
          omega
        simp only [hbj, hmj, hj, decide_True, Bool.or_false, Bool.false_and, Bool.true_and,
          Bool.false_or]
        cases t.postedEventVec.testBit j <;> cases s.2.testBit j <;>
          cases t.eventMask.testBit j <;> rfl
      · have hsj : s.2.testBit j = false := by
          by_contra h
          rw [Bool.not_eq_false] at h
          exact hj (hsem j h)
        simp [hj, hsj]
    · simp only [h2 j, Nat.testBit_or, Nat.testBit_and, Nat.zero_le, decide_True, Bool.true_and]
      by_cases hj : j < cfg.noSemaphoreEvents
      · have hbj : b.testBit j = false := by
          by_contra h
          rw [Bool.not_eq_false] at h
          have := hb j h
          omega
        have hmj : s.1.testBit j = false := by
          by_contra h
          rw [Bool.not_eq_false] at h
          have := hm j h
          omega
        simp [hbj, hmj, hj]
      · have hsj : s.2.testBit j = false := by
          by_contra h
          rw [Bool.not_eq_false] at h
          exact hj (hsem j h)
        simp [hj, hsj]

theorem sendEventTask_localsOk (cfg : Config) (hS : cfg.noSemaphoreEvents ≤ 8)
    (hSM : cfg.noSemaphoreEvents + cfg.noMutexEvents ≤ 14) (t : Task) (b : Nat) (s : Nat × Nat)
    (hs : SendLocalsOk cfg b s) :
    SendLocalsOk cfg b (sendEventTask cfg t b s.1 s.2).2 := by
  obtain ⟨_, _, h3, h4, h5⟩ := sendEventTask_spec cfg hS hSM t b s hs
  obtain ⟨hb, hm, hsem, _⟩ := hs
  refine ⟨hb, fun j hj => ?_, fun j hj => ?_, h5⟩
  · rw [h3 j] at hj
    simp only [Bool.and_eq_true] at hj
    exact hm j hj.1
  · rw [h4 j] at hj
    simp only [Bool.and_eq_true] at hj
    exact hsem j hj.1

theorem sendEventVisit_ok (cfg : Config) (hS : cfg.noSemaphoreEvents ≤ 8)
    (hSM : cfg.noSemaphoreEvents + cfg.noMutexEvents ≤ 14) (b : Nat) :
    VisitOk (SendLocalsOk cfg b) (sendEventVisit cfg b) := by
  intro s t hs
  obtain ⟨h1, h2, _, _, _⟩ := sendEventTask_spec cfg hS hSM t b s hs
  refine ⟨sendEventTask_localsOk cfg hS hSM t b s hs, ?_, fun j hj => ?_, fun j hj => ?_⟩
  · unfold sendEventVisit
    rw [h1]
  · unfold sendEventVisit
    rw [h2 j, hj]
    rfl
  · unfold sendEventVisit at hj
    rw [h2 j] at hj
    simp only [Bool.or_eq_true, Bool.and_eq_true] at hj
    rcases hj with h | h
    · exact Or.inl h
    · exact Or.inr h.2

theorem sendEventInit_ok (cfg : Config) (hS : cfg.noSemaphoreEvents ≤ 8) (ev : Nat) :
    SendLocalsOk cfg (sendEventInit cfg ev).postedEventVec
      ((sendEventInit cfg ev).mutexToReleaseVec, (sendEventInit cfg ev).semaphoreToReleaseVec) := by
  unfold sendEventInit
  refine ⟨fun j hj => ?_, fun j hj => ?_, fun j hj => ?_, ?_⟩
  · simp only at hj
    by_cases hu : (cfg.useMutex || cfg.useSemaphore) = true
    · rw [if_pos hu, Nat.testBit_and, testBit_not16, Nat.testBit_or, testBit_MASK_EVT_IS_MUTEX,
        testBit_MASK_EVT_IS_SEMAPHORE] at hj
      simp only [Bool.and_eq_true, decide_eq_true_eq, Bool.not_eq_true', Bool.or_eq_false_iff,
        decide_eq_false_iff_not, Bool.and_eq_false_imp] at hj
      omega
    · simp only [Bool.or_eq_true, not_or, Bool.not_eq_true, Config.useMutex,
        Config.useSemaphore, decide_eq_false_iff_not] at hu
      omega
  · simp only at hj
    by_cases hu : cfg.useMutex = true
    · rw [if_pos hu, Nat.testBit_and, testBit_MASK_EVT_IS_MUTEX] at hj
      simp only [Bool.and_eq_true, decide_eq_true_eq] at hj
      exact hj.2
    · rw [if_neg hu] at hj
      simp at hj
  · simp only at hj
    by_cases hu : cfg.useSemaphore = true
    · have h256 : (0x100 : Nat) = 2 ^ 8 := by norm_num
      rw [if_pos hu, h256, Nat.testBit_mod_two_pow, Nat.testBit_and,
        testBit_MASK_EVT_IS_SEMAPHORE] at hj
      simp only [Bool.and_eq_true, decide_eq_true_eq] at hj
      exact hj.2.2
    · rw [if_neg hu] at hj
      simp at hj
  · simp only
    split
    · exact Nat.mod_lt _ (by norm_num)
    · norm_num


theorem onTimerTicTask_frame (time : Nat) (t : Task) :
    onTimerTicTask time t =
      { t with postedEventVec := (onTimerTicTask time t).postedEventVec,
               cntDelay := (onTimerTicTask time t).cntDelay } := by
  cases t with
  | mk a b c d e f g h i =>
    unfold onTimerTicTask
    by_cases h1 : time = b <;> by_cases h2 : d = 0 <;> by_cases h3 : d - 1 = 0 <;>
      simp [h1, h2, h3]

theorem testBit_RTOS_EVT_ABSOLUTE_TIMER (j : Nat) :
    RTOS_EVT_ABSOLUTE_TIMER.testBit j = decide (j = 14) := by
  have : RTOS_EVT_ABSOLUTE_TIMER = 2 ^ 14 := by decide
  rw [this, Nat.testBit_two_pow]
  apply decide_eq_decide.mpr
  omega

theorem testBit_RTOS_EVT_DELAY_TIMER (j : Nat) :
    RTOS_EVT_DELAY_TIMER.testBit j = decide (j = 15) := by
  have : RTOS_EVT_DELAY_TIMER = 2 ^ 15 := by decide
  rw [this, Nat.testBit_two_pow]
  apply decide_eq_decide.mpr
  omega

theorem onTimerTicTask_posted (time : Nat) (t : Task) (j : Nat) :
    (onTimerTicTask time t).postedEventVec.testBit j =
      (t.postedEventVec.testBit j ||
        (((decide (time = t.timeDueAt) && decide (j = 14)) ||
          (decide (t.cntDelay = 1) && decide (j = 15))) && t.eventMask.testBit j)) := by
  unfold onTimerTicTask
  by_cases h1 : time = t.timeDueAt <;> by_cases h2 : t.cntDelay = 0 <;>
    by_cases h3 : t.cntDelay = 1 <;> by_cases h4 : t.cntDelay - 1 = 0 <;>
    by_cases h14 : j = 14 <;> by_cases h15 : j = 15 <;>
    first
    | omega
    | simp [h1, h2, h3, h4, h14, h15, testBit_RTOS_EVT_ABSOLUTE_TIMER,
        testBit_RTOS_EVT_DELAY_TIMER]

theorem onTimerTicVisit_ok (time : Nat) :
    VisitOk (fun _ : Unit => True) (onTimerTicVisit time) := by
  intro s t _
  refine ⟨trivial, ?_, fun j hj => ?_, fun j hj => ?_⟩
  · exact onTimerTicTask_frame time t
  · show (onTimerTicTask time t).postedEventVec.testBit j = true
    rw [onTimerTicTask_posted, hj]
    rfl
  · have hj2 : (onTimerTicTask time t).postedEventVec.testBit j = true := hj
    rw [onTimerTicTask_posted] at hj2
    simp only [Bool.or_eq_true, Bool.and_eq_true] at hj2
    rcases hj2 with h | h
    · exact Or.inl h
    · exact Or.inr h.2

/-! ## Induction over the visit of the suspended tasks -/

theorem walkSuspended_rule {σ : Type} (cfg : Config) (f : σ → Task → Task × σ)
    (P : List Nat → Kernel → σ → Bool → Prop)
    (hmove : ∀ p rest k s flag, P (p :: rest) k s flag →
      ((k.taskAry p).postedEventVec != (f s (k.taskAry p)).1.postedEventVec
        && taskBecomesDue (f s (k.taskAry p)).1) = true →
      P rest (appendToDue cfg (k.setTask p (f s (k.taskAry p)).1) p) (f s (k.taskAry p)).2 true)
    (hstay : ∀ p rest k s flag, P (p :: rest) k s flag →
      ¬ ((k.taskAry p).postedEventVec != (f s (k.taskAry p)).1.postedEventVec
        && taskBecomesDue (f s (k.taskAry p)).1) = true →
      P rest { k.setTask p (f s (k.taskAry p)).1 with
                 pSuspendedTaskAry := k.pSuspendedTaskAry ++ [p] } (f s (k.taskAry p)).2 flag) :
    ∀ (rest : List Nat) (k : Kernel) (s : σ) (flag : Bool), P rest k s flag →
      P [] (walkSuspended cfg f rest k s flag).1 (walkSuspended cfg f rest k s flag).2.1
        (walkSuspended cfg f rest k s flag).2.2 := by
  intro rest
  induction rest with
  | nil =>
    intro k s flag h
    simpa [walkSuspended] using h
  | cons p rest ih =>
    intro k s flag h
    by_cases hc : ((k.taskAry p).postedEventVec != (f s (k.taskAry p)).1.postedEventVec
        && taskBecomesDue (f s (k.taskAry p)).1) = true
    · rw [walkSuspended_cons_move cfg f p rest k s flag hc]
      exact ih _ _ _ (hmove p rest k s flag h hc)
    · rw [walkSuspended_cons_stay cfg f p rest k s flag hc]
      exact ih _ _ _ (hstay p rest k s flag h hc)


/-! ## What the visit of the suspended tasks leaves unchanged -/

theorem walkSuspended_frame {σ : Type} (cfg : Config) (f : σ → Task → Task × σ)
    (rest : List Nat) (k : Kernel) (s : σ) (flag : Bool) :
    (walkSuspended cfg f rest k s flag).1.pActiveTask = k.pActiveTask ∧
    (walkSuspended cfg f rest k s flag).1.pSuspendedTask = k.pSuspendedTask ∧
    (walkSuspended cfg f rest k s flag).1.time = k.time ∧
    (walkSuspended cfg f rest k s flag).1.mutexVec = k.mutexVec ∧
    (walkSuspended cfg f rest k s flag).1.semaphoreAry = k.semaphoreAry ∧
    (∀ q, q ∉ rest → (walkSuspended cfg f rest k s flag).1.taskAry q = k.taskAry q) ∧
    ((walkSuspended cfg f rest k s flag).2.2 = false →
      flag = false ∧ (walkSuspended cfg f rest k s flag).1.pDueTaskAryAry = k.pDueTaskAryAry) ∧
    ((walkSuspended cfg f rest k s flag).2.2 = true →
      flag = true ∨ ∃ c, (walkSuspended cfg f rest k s flag).1.pDueTaskAryAry c ≠ []) ∧
    (∀ c, ∃ l, (walkSuspended cfg f rest k s flag).1.pDueTaskAryAry c = k.pDueTaskAryAry c ++ l) := by
  have h := walkSuspended_rule cfg f
    (fun rest1 k1 _ flag1 =>
      k1.pActiveTask = k.pActiveTask ∧ k1.pSuspendedTask = k.pSuspendedTask ∧
      k1.time = k.time ∧ k1.mutexVec = k.mutexVec ∧ k1.semaphoreAry = k.semaphoreAry ∧
      (∀ q, q ∉ rest → k1.taskAry q = k.taskAry q) ∧
      (∀ q, q ∈ rest1 → q ∈ rest) ∧
      (flag1 = false → flag = false ∧ k1.pDueTaskAryAry = k.pDueTaskAryAry) ∧
      (flag1 = true → flag = true ∨ ∃ c, k1.pDueTaskAryAry c ≠ []) ∧
      (∀ c, ∃ l, k1.pDueTaskAryAry c = k.pDueTaskAryAry c ++ l))
    ?_ ?_ rest k s flag ?_
  · obtain ⟨h1, h2, h3, h4, h5, h6, _, h8, h9, h11⟩ := h
    exact ⟨h1, h2, h3, h4, h5, h6, h8, h9, h11⟩
  · -- a task becomes due
    rintro p rest1 k1 s1 flag1 ⟨h1, h2, h3, h4, h5, h6, h7, h8, h9, h11⟩ _
    refine ⟨h1, h2, h3, h4, h5, ?_, fun q hq => h7 q (List.mem_cons_of_mem _ hq), ?_, ?_, ?_⟩
    · intro q hq
      have hqp : q ≠ p := fun e => hq (e ▸ h7 p (List.mem_cons_self _ _))
      simp only [appendToDue, Kernel.setTask]
      rw [Function.update_noteq hqp, Function.update_noteq hqp]
      exact h6 q hq
    · intro hf
      exact absurd hf (by simp)
    · intro _
      right
      refine ⟨((k1.setTask p (f s1 (k1.taskAry p)).1).taskAry p).prioClass, ?_⟩
      simp [appendToDue]
    · intro c
      obtain ⟨l, hl⟩ := h11 c
      by_cases hc : c = ((k1.setTask p (f s1 (k1.taskAry p)).1).taskAry p).prioClass
      · refine ⟨l ++ [p], ?_⟩
        simp only [appendToDue, setTask_pDueTaskAryAry]
        rw [← hc, Function.update_same, hl, List.append_assoc]
      · refine ⟨l, ?_⟩
        simp only [appendToDue, setTask_pDueTaskAryAry]
        rw [Function.update_noteq hc, hl]
  · -- a task stays suspended
    rintro p rest1 k1 s1 flag1 ⟨h1, h2, h3, h4, h5, h6, h7, h8, h9, h11⟩ _
    refine ⟨h1, h2, h3, h4, h5, ?_, fun q hq => h7 q (List.mem_cons_of_mem _ hq), h8, h9, h11⟩
    intro q hq
    have hqp : q ≠ p := fun e => hq (e ▸ h7 p (List.mem_cons_self _ _))
    simp only [Kernel.setTask]
    rw [Function.update_noteq hqp]
    exact h6 q hq
  · exact ⟨rfl, rfl, rfl, rfl, rfl, fun _ _ => rfl, fun _ hq => hq, fun hf => ⟨hf, rfl⟩,
      fun hf => Or.inl hf, fun c => ⟨[], by simp⟩⟩


/-! ## Preservation of the list invariant -/

theorem ListsInv.congr {cfg : Config} {k k1 : Kernel} (h : ListsInv cfg k)
    (h1 : k1.pSuspendedTaskAry = k.pSuspendedTaskAry) (h2 : k1.pDueTaskAryAry = k.pDueTaskAryAry)
    (h3 : k1.taskAry = k.taskAry) : ListsInv cfg k1 := by
  constructor
  · rw [h1]; exact h.susp_lt
  · rw [h2, h3]; exact h.due_lt
  · rw [h1, h2, h3]; exact h.once
  · rw [h3]; exact h.prio_lt
  · rw [h3]; exact h.idle_rr
  · rw [h1, h3]; exact h.posted_sub

theorem ListsInv.setTask {cfg : Config} {k : Kernel} (h : ListsInv cfg k) (p : Nat) (t1 : Task)
    (hprio : t1.prioClass = (k.taskAry p).prioClass)
    (hrr : p = IDLE_TASK_ID cfg → t1.cntRoundRobin = 0)
    (hsub : p ∈ k.pSuspendedTaskAry → ∀ j, t1.postedEventVec.testBit j = true →
      t1.eventMask.testBit j = true) :
    ListsInv cfg (k.setTask p t1) := by
  have hp : ∀ q, ((k.setTask p t1).taskAry q).prioClass = (k.taskAry q).prioClass := by
    intro q
    by_cases hq : q = p
    · subst hq; rw [setTask_taskAry_same, hprio]
    · rw [setTask_taskAry_ne k p q t1 hq]
  constructor
  · exact h.susp_lt
  · intro c t ht
    rw [hp]
    exact h.due_lt c t ht
  · intro t ht
    rw [hp]
    exact h.once t ht
  · intro t ht
    rw [hp]
    exact h.prio_lt t ht
  · by_cases hq : IDLE_TASK_ID cfg = p
    · rw [hq, setTask_taskAry_same]
      exact hrr hq.symm
    · rw [setTask_taskAry_ne k p _ t1 hq]
      exact h.idle_rr
  · intro t ht j hj
    by_cases hq : t = p
    · subst hq
      rw [setTask_taskAry_same] at hj ⊢
      exact hsub ht j hj
    · rw [setTask_taskAry_ne k p t t1 hq] at hj ⊢
      exact h.posted_sub t ht j hj

theorem appendToDue_taskAry (cfg : Config) (k : Kernel) (p q : Nat) :
    (appendToDue cfg k p).taskAry q =
      { k.taskAry q with cntRoundRobin := ((appendToDue cfg k p).taskAry q).cntRoundRobin } := by
  unfold appendToDue
  by_cases hq : q = p
  · subst hq
    simp only [Function.update_same]
    split <;> rfl
  · simp only [Function.update_noteq hq]

theorem appendToDue_taskAry_ne (cfg : Config) (k : Kernel) (p q : Nat) (h : q ≠ p) :
    (appendToDue cfg k p).taskAry q = k.taskAry q := by
  unfold appendToDue
  simp only [Function.update_noteq h]

theorem appendToDue_due (cfg : Config) (k : Kernel) (p c : Nat) :
    (appendToDue cfg k p).pDueTaskAryAry c =
      if c = (k.taskAry p).prioClass then k.pDueTaskAryAry c ++ [p] else k.pDueTaskAryAry c := by
  unfold appendToDue
  by_cases hc : c = (k.taskAry p).prioClass
  · rw [if_pos hc]
    subst hc
    simp only [Function.update_same]
  · rw [if_neg hc]
    simp only [Function.update_noteq hc]

theorem ListsInv.move {cfg : Config} {k : Kernel} (h : ListsInv cfg k) (kept rest : List Nat)
    (p : Nat) (hk : k.pSuspendedTaskAry = kept ++ p :: rest) :
    ListsInv cfg { appendToDue cfg k p with pSuspendedTaskAry := kept ++ rest } := by
  have hpN : p < cfg.noTasks := h.susp_lt p (by rw [hk]; simp)
  have hsub : ∀ t, t ∈ kept ++ rest → t ∈ k.pSuspendedTaskAry := by
    intro t ht
    rw [hk]
    simp only [List.mem_append, List.mem_cons] at ht ⊢
    tauto
  have hprio : ∀ q, ((appendToDue cfg k p).taskAry q).prioClass = (k.taskAry q).prioClass := by
    intro q; rw [appendToDue_taskAry]
  have hposted : ∀ q, ((appendToDue cfg k p).taskAry q).postedEventVec
      = (k.taskAry q).postedEventVec := by
    intro q; rw [appendToDue_taskAry]
  have hmask : ∀ q, ((appendToDue cfg k p).taskAry q).eventMask = (k.taskAry q).eventMask := by
    intro q; rw [appendToDue_taskAry]
  constructor
  · intro t ht
    exact h.susp_lt t (hsub t ht)
  · intro c t ht
    simp only at ht ⊢
    rw [hprio]
    rw [appendToDue_due] at ht
    by_cases hc : c = (k.taskAry p).prioClass
    · rw [if_pos hc, List.mem_append, List.mem_singleton] at ht
      rcases ht with ht | ht
      · exact h.due_lt c t ht
      · subst ht
        exact ⟨hpN, hc.symm⟩
    · rw [if_neg hc] at ht
      exact h.due_lt c t ht
  · intro t ht
    simp only
    rw [hprio, appendToDue_due]
    have ho := h.once t ht
    rw [hk] at ho
    by_cases htp : t = p
    · subst htp
      rw [if_pos rfl]
      simp only [List.count_append, List.count_cons_self, List.count_nil] at ho ⊢
      omega
    · have hne : (p == t) = false := by
        simp only [beq_eq_false_iff_ne, ne_eq]
        exact fun e => htp e.symm
      by_cases hc : (k.taskAry t).prioClass = (k.taskAry p).prioClass
      · rw [if_pos hc]
        simp only [List.count_append, List.count_cons, hne, List.count_nil] at ho ⊢
        simpa using ho
      · rw [if_neg hc]
        simp only [List.count_append, List.count_cons, hne] at ho ⊢
        simpa using ho
  · intro t ht
    simp only
    rw [hprio]
    exact h.prio_lt t ht
  · simp only
    have hne : IDLE_TASK_ID cfg ≠ p := by
      unfold IDLE_TASK_ID
      omega
    rw [appendToDue_taskAry_ne cfg k p _ hne]
    exact h.idle_rr
  · intro t ht j hj
    simp only at ht hj ⊢
    rw [hposted] at hj
    rw [hmask]
    exact h.posted_sub t (hsub t ht) j hj


theorem VisitOk.prioClass {σ : Type} {J : σ → Prop} {f : σ → Task → Task × σ}
    (hf : VisitOk J f) (s : σ) (t : Task) (hJ : J s) :
    (f s t).1.prioClass = t.prioClass ∧ (f s t).1.eventMask = t.eventMask ∧
    (f s t).1.waitForAnyEvent = t.waitForAnyEvent ∧
    (f s t).1.cntRoundRobin = t.cntRoundRobin ∧
    (f s t).1.timeRoundRobin = t.timeRoundRobin := by
  obtain ⟨_, h2, _, _⟩ := hf s t hJ
  refine ⟨?_, ?_, ?_, ?_, ?_⟩ <;> rw [h2]

theorem walkSuspended_listsInv {σ : Type} (cfg : Config) (J : σ → Prop)
    (f : σ → Task → Task × σ) (hf : VisitOk J f) (rest : List Nat) (k : Kernel) (s : σ)
    (flag : Bool) (hJ : J s)
    (h : ListsInv cfg { k with pSuspendedTaskAry := k.pSuspendedTaskAry ++ rest }) :
    ListsInv cfg (walkSuspended cfg f rest k s flag).1 ∧ J (walkSuspended cfg f rest k s flag).2.1 := by
  have hr := walkSuspended_rule cfg f
    (fun rest1 k1 s1 _ =>
      J s1 ∧ ListsInv cfg { k1 with pSuspendedTaskAry := k1.pSuspendedTaskAry ++ rest1 })
    ?_ ?_ rest k s flag ⟨hJ, h⟩
  · obtain ⟨h1, h2⟩ := hr
    exact ⟨h2.congr (by simp) rfl rfl, h1⟩
  · rintro p rest1 k1 s1 flag1 ⟨hJ1, hI⟩ _
    obtain ⟨hJ2, _, _, hbits⟩ := hf s1 (k1.taskAry p) hJ1
    obtain ⟨hp1, hp2, _, _, _⟩ := hf.prioClass s1 (k1.taskAry p) hJ1
    refine ⟨hJ2, ?_⟩
    have hmem : p ∈ k1.pSuspendedTaskAry ++ p :: rest1 := by simp
    have hI2 := hI.setTask p (f s1 (k1.taskAry p)).1 hp1
      (fun e => by
        have := hI.susp_lt p hmem
        unfold IDLE_TASK_ID at e
        omega)
      (fun _ j hj => by
        rw [hp2]
        rcases hbits j hj with hb | hb
        · exact hI.posted_sub p hmem j hb
        · exact hb)
    have hI3 := hI2.move k1.pSuspendedTaskAry rest1 p rfl
    exact hI3.congr rfl rfl rfl
  · rintro p rest1 k1 s1 flag1 ⟨hJ1, hI⟩ _
    obtain ⟨hJ2, _, _, hbits⟩ := hf s1 (k1.taskAry p) hJ1
    obtain ⟨hp1, hp2, _, _, _⟩ := hf.prioClass s1 (k1.taskAry p) hJ1
    refine ⟨hJ2, ?_⟩
    have hmem : p ∈ k1.pSuspendedTaskAry ++ p :: rest1 := by simp
    have hI2 := hI.setTask p (f s1 (k1.taskAry p)).1 hp1
      (fun e => by
        have := hI.susp_lt p hmem
        unfold IDLE_TASK_ID at e
        omega)
      (fun _ j hj => by
        rw [hp2]
        rcases hbits j hj with hb | hb
        · exact hI.posted_sub p hmem j hb
        · exact hb)
    exact hI2.congr (by simp) rfl rfl


/-! ## The selection of the active task -/

theorem waitForEventLookLoop_congr (cfg : Config) (k k1 : Kernel)
    (h : k1.pDueTaskAryAry = k.pDueTaskAryAry) (n : Nat) :
    waitForEventLookLoop cfg k1 n = waitForEventLookLoop cfg k n := by
  induction n with
  | zero => rfl
  | succ n ih =>
    unfold waitForEventLookLoop
    rw [h, ih]

theorem waitForEventLookLoop_cases (cfg : Config) (k : Kernel) (n : Nat) :
    (waitForEventLookLoop cfg k n = IDLE_TASK_ID cfg ∧ ∀ j, j < n → k.pDueTaskAryAry j = []) ∨
    (∃ top pT rest, top < n ∧ k.pDueTaskAryAry top = pT :: rest ∧
      (∀ j, top < j → j < n → k.pDueTaskAryAry j = []) ∧ waitForEventLookLoop cfg k n = pT) := by
  induction n with
  | zero => exact Or.inl ⟨rfl, fun j hj => absurd hj (Nat.not_lt_zero _)⟩
  | succ n ih =>
    unfold waitForEventLookLoop
    cases hd : k.pDueTaskAryAry n with
    | nil =>
      simp only
      rcases ih with ⟨h1, h2⟩ | ⟨top, pT, rest, h1, h2, h3, h4⟩
      · left
        refine ⟨h1, fun j hj => ?_⟩
        rcases Nat.lt_succ_iff_lt_or_eq.mp hj with h | h
        · exact h2 j h
        · subst h; exact hd
      · right
        refine ⟨top, pT, rest, Nat.lt_succ_of_lt h1, h2, fun j hj1 hj2 => ?_, h4⟩
        rcases Nat.lt_succ_iff_lt_or_eq.mp hj2 with h | h
        · exact h3 j hj1 h
        · subst h; exact hd
    | cons pT rest =>
      simp only
      right
      exact ⟨n, pT, rest, Nat.lt_succ_self n, hd, fun j h1 h2 => absurd h2 (by omega), rfl⟩

theorem lookForActiveTask_eq (cfg : Config) (k : Kernel) (c : Nat)
    (hc : k.pDueTaskAryAry c ≠ []) (hcn : c < cfg.noPrioClasses) :
    lookForActiveTask cfg k =
      ({ k with pSuspendedTask := k.pActiveTask,
                pActiveTask := waitForEventLookLoop cfg k cfg.noPrioClasses },
       waitForEventLookLoop cfg k cfg.noPrioClasses != k.pActiveTask) := by
  rcases waitForEventLookLoop_cases cfg k cfg.noPrioClasses with
    ⟨_, h2⟩ | ⟨top, pT, rest, h1, h2, h3, h4⟩
  · exact absurd (h2 c hcn) hc
  · unfold lookForActiveTask
    rw [lookForActiveTaskLoop_found k cfg.noPrioClasses top pT rest h1 h2 h3, h4]

theorem ListsInv.due_class_lt {cfg : Config} {k : Kernel} (h : ListsInv cfg k) (c : Nat)
    (hc : k.pDueTaskAryAry c ≠ []) : c < cfg.noPrioClasses := by
  obtain ⟨pT, rest, hd⟩ := List.exists_cons_of_ne_nil hc
  have h1 := h.due_lt c pT (by rw [hd]; simp)
  have h2 := h.prio_lt pT h1.1
  omega

theorem active_cases {cfg : Config} {k : Kernel} (h : ListsInv cfg k) (ha : ActiveInv cfg k) :
    (k.pActiveTask = IDLE_TASK_ID cfg ∧ ∀ c, k.pDueTaskAryAry c = []) ∨
    (k.pActiveTask < cfg.noTasks ∧
      (k.taskAry k.pActiveTask).prioClass < cfg.noPrioClasses ∧
      (∃ rest, k.pDueTaskAryAry (k.taskAry k.pActiveTask).prioClass = k.pActiveTask :: rest) ∧
      ∀ j, (k.taskAry k.pActiveTask).prioClass < j → k.pDueTaskAryAry j = []) := by
  rcases waitForEventLookLoop_cases cfg k cfg.noPrioClasses with
    ⟨h1, h2⟩ | ⟨top, pT, rest, h1, h2, h3, h4⟩
  · left
    refine ⟨by rw [ha.active_eq, h1], fun c => ?_⟩
    by_contra hc
    exact hc (h2 c (h.due_class_lt c hc))
  · right
    have hact : k.pActiveTask = pT := by rw [ha.active_eq, h4]
    have hd := h.due_lt top pT (by rw [h2]; simp)
    rw [hact, hd.2]
    refine ⟨hd.1, h1, ⟨rest, h2⟩, fun j hj => ?_⟩
    by_contra hc
    exact hc (h3 j hj (h.due_class_lt j hc))

theorem active_not_suspended {cfg : Config} {k : Kernel} (h : ListsInv cfg k)
    (ha : ActiveInv cfg k) : k.pActiveTask ∉ k.pSuspendedTaskAry := by
  rcases active_cases h ha with ⟨h1, _⟩ | ⟨h1, _, ⟨rest, h3⟩, _⟩
  · intro hm
    have := h.susp_lt _ hm
    rw [h1] at this
    unfold IDLE_TASK_ID at this
    omega
  · intro hm
    have ho := h.once _ h1
    rw [h3, List.count_cons_self] at ho
    have : 0 < k.pSuspendedTaskAry.count k.pActiveTask := List.count_pos_iff.mpr hm
    omega

theorem pushRetCodeOfContextSwitch_inv {cfg : Config} {k : Kernel} (h : ListsInv cfg k)
    (ha : k.pActiveTask = waitForEventLookLoop cfg k cfg.noPrioClasses) :
    ListsInv cfg (pushRetCodeOfContextSwitch k).1 ∧
    ActiveInv cfg (pushRetCodeOfContextSwitch k).1 := by
  unfold pushRetCodeOfContextSwitch
  by_cases hp : (k.taskAry k.pActiveTask).postedEventVec > 0
  · simp only [hp, if_true]
    constructor
    · exact h.setTask _ _ rfl
        (fun e => by simp only; rw [e]; exact h.idle_rr)
        (fun _ j hj => by simp at hj)
    · constructor
      · simp only [setTask_pActiveTask]
        exact ha.trans (waitForEventLookLoop_congr cfg k (k.setTask _ _) rfl _).symm
      · simp
  · simp only [hp, if_false]
    exact ⟨h, ⟨ha, by omega⟩⟩


/-! ## The end of an interrupt: selection of the active task and return code -/

theorem select_after {cfg : Config} {k k2 : Kernel} (flag : Bool) (hA : ActiveInv cfg k)
    (hI2 : ListsInv cfg k2) (hact : k2.pActiveTask = k.pActiveTask)
    (htask : (k2.taskAry k.pActiveTask).postedEventVec = 0)
    (hflagF : flag = false → k2.pDueTaskAryAry = k.pDueTaskAryAry)
    (hflagT : flag = true → ∃ c, k2.pDueTaskAryAry c ≠ []) :
    ListsInv cfg (if flag then lookForActiveTask cfg k2 else (k2, false)).1 ∧
    (if flag then lookForActiveTask cfg k2 else (k2, false)).1.pActiveTask =
      waitForEventLookLoop cfg (if flag then lookForActiveTask cfg k2 else (k2, false)).1
        cfg.noPrioClasses ∧
    ((if flag then lookForActiveTask cfg k2 else (k2, false)).2 = false →
      ((if flag then lookForActiveTask cfg k2 else (k2, false)).1.taskAry
        (if flag then lookForActiveTask cfg k2 else (k2, false)).1.pActiveTask).postedEventVec
        = 0) := by
  cases flag with
  | false =>
    simp only [Bool.false_eq_true, if_false]
    refine ⟨hI2, ?_, fun _ => ?_⟩
    · rw [hact, hA.active_eq]
      exact (waitForEventLookLoop_congr cfg k k2 (hflagF rfl) _).symm
    · rw [hact]; exact htask
  | true =>
    simp only [if_true]
    obtain ⟨c, hc⟩ := hflagT rfl
    rw [lookForActiveTask_eq cfg k2 c hc (hI2.due_class_lt c hc)]
    refine ⟨hI2.congr rfl rfl rfl, ?_, fun hsw => ?_⟩
    · exact (waitForEventLookLoop_congr cfg k2
        { k2 with pSuspendedTask := k2.pActiveTask,
                  pActiveTask := waitForEventLookLoop cfg k2 cfg.noPrioClasses } rfl _).symm
    · simp only [bne_eq_false_iff_eq] at hsw
      simp only
      rw [hsw, hact]
      exact htask

theorem finish_switch {cfg : Config} (r : Kernel × Bool) (hI : ListsInv cfg r.1)
    (ha : r.1.pActiveTask = waitForEventLookLoop cfg r.1 cfg.noPrioClasses)
    (hp : r.2 = false → (r.1.taskAry r.1.pActiveTask).postedEventVec = 0) :
    ListsInv cfg (if r.2 then (pushRetCodeOfContextSwitch r.1).1 else r.1) ∧
    ActiveInv cfg (if r.2 then (pushRetCodeOfContextSwitch r.1).1 else r.1) := by
  cases h : r.2 with
  | false =>
    simp only [Bool.false_eq_true, if_false]
    exact ⟨hI, ⟨ha, hp h⟩⟩
  | true =>
    simp only [if_true]
    exact pushRetCodeOfContextSwitch_inv hI ha

/-! ## Posting events preserves the invariants -/

theorem sendEventLoop_eq (cfg : Config) (k : Kernel) (v : SendEventLocals) :
    sendEventLoop cfg k.noSuspendedTasks 0 k v =
      sendEventWalk cfg k.pSuspendedTaskAry { k with pSuspendedTaskAry := [] } v := by
  have := sendEventLoop_eq_walk cfg k.pSuspendedTaskAry [] k v k.noSuspendedTasks
    (by simp) (le_refl _)
  simpa using this

theorem sendEventDeliver_eq (cfg : Config) (k : Kernel) (ev : Nat) :
    sendEventDeliver cfg k ev =
      ({ (sendEventVisitAll cfg k ev).1 with
          mutexVec :=
            if cfg.useMutex
            then (sendEventVisitAll cfg k ev).1.mutexVec ||| (sendEventVisitAll cfg k ev).2.1.1
            else (sendEventVisitAll cfg k ev).1.mutexVec
          semaphoreAry :=
            if cfg.useSemaphore
            then sendEventAccumulate cfg 8 (sendEventVisitAll cfg k ev).2.1.2 0
                   (sendEventVisitAll cfg k ev).1.semaphoreAry
            else (sendEventVisitAll cfg k ev).1.semaphoreAry },
       (sendEventVisitAll cfg k ev).2.2) := by
  unfold sendEventDeliver
  rw [sendEventLoop_eq]
  unfold sendEventWalk sendEventVisitAll
  cases cfg.useSemaphore <;> cases cfg.useMutex <;> rfl

theorem sendEventDeliver_inv {cfg : Config} (hcfg : cfg.WellFormed) {k : Kernel}
    (hI : ListsInv cfg k) (hA : ActiveInv cfg k) (ev : Nat) :
    ListsInv cfg (sendEventDeliver cfg k ev).1 ∧
    (sendEventDeliver cfg k ev).1.pActiveTask = k.pActiveTask ∧
    ((sendEventDeliver cfg k ev).1.taskAry k.pActiveTask).postedEventVec = 0 ∧
    ((sendEventDeliver cfg k ev).2 = false →
      (sendEventDeliver cfg k ev).1.pDueTaskAryAry = k.pDueTaskAryAry) ∧
    ((sendEventDeliver cfg k ev).2 = true →
      ∃ c, (sendEventDeliver cfg k ev).1.pDueTaskAryAry c ≠ []) := by
  obtain ⟨_, _, _, hS, hSM, _, _⟩ := hcfg
  have hwI := walkSuspended_listsInv cfg (SendLocalsOk cfg (sendEventInit cfg ev).postedEventVec)
    (sendEventVisit cfg (sendEventInit cfg ev).postedEventVec)
    (sendEventVisit_ok cfg hS hSM _) k.pSuspendedTaskAry { k with pSuspendedTaskAry := [] }
    ((sendEventInit cfg ev).mutexToReleaseVec, (sendEventInit cfg ev).semaphoreToReleaseVec)
    false (sendEventInit_ok cfg hS ev)
    (hI.congr (by simp) rfl rfl)
  obtain ⟨hf1, _, _, _, _, hf6, hf7, hf8, _⟩ := walkSuspended_frame cfg
    (sendEventVisit cfg (sendEventInit cfg ev).postedEventVec) k.pSuspendedTaskAry
    { k with pSuspendedTaskAry := [] }
    ((sendEventInit cfg ev).mutexToReleaseVec, (sendEventInit cfg ev).semaphoreToReleaseVec)
    false
  have hns := active_not_suspended hI hA
  rw [sendEventDeliver_eq]
  refine ⟨hwI.1.congr rfl rfl rfl, hf1, ?_, fun hfl => (hf7 hfl).2, fun hfl => ?_⟩
  · have := hf6 k.pActiveTask hns
    simp only at this
    show ((sendEventVisitAll cfg k ev).1.taskAry k.pActiveTask).postedEventVec = 0
    unfold sendEventVisitAll
    rw [this]
    exact hA.active_posted
  · rcases hf8 hfl with h | ⟨c, hc⟩
    · exact absurd h (by simp)
    · exact ⟨c, hc⟩

theorem sendEvent_inv {cfg : Config} (hcfg : cfg.WellFormed) {k : Kernel}
    (hI : ListsInv cfg k) (hA : ActiveInv cfg k) (ev : Nat) :
    ListsInv cfg (sendEvent cfg k ev).1 ∧
    (sendEvent cfg k ev).1.pActiveTask =
      waitForEventLookLoop cfg (sendEvent cfg k ev).1 cfg.noPrioClasses ∧
    ((sendEvent cfg k ev).2 = false →
      ((sendEvent cfg k ev).1.taskAry (sendEvent cfg k ev).1.pActiveTask).postedEventVec = 0) := by
  obtain ⟨h1, h2, h3, h4, h5⟩ := sendEventDeliver_inv hcfg hI hA ev
  exact select_after (sendEventDeliver cfg k ev).2 hA h1 h2 h3 h4 h5

theorem rtos_sendEvent_inv {cfg : Config} (hcfg : cfg.WellFormed) {k : Kernel}
    (hI : ListsInv cfg k) (hA : ActiveInv cfg k) (ev : Nat) :
    ListsInv cfg (rtos_sendEvent cfg k ev) ∧ ActiveInv cfg (rtos_sendEvent cfg k ev) := by
  obtain ⟨h1, h2, h3⟩ := sendEvent_inv hcfg hI hA ev
  exact finish_switch (sendEvent cfg k ev) h1 h2 h3


/-! ## The timer tic preserves the invariants -/

theorem onTimerTicLoop_eq (cfg : Config) (k : Kernel) :
    onTimerTicLoop cfg k.noSuspendedTasks 0
        { k with time := (k.time + 1) % 2 ^ cfg.timeBits } false =
      ((onTimerTicVisitAll cfg k).1, (onTimerTicVisitAll cfg k).2.2) := by
  have := onTimerTicLoop_eq_walk cfg k.pSuspendedTaskAry []
    { k with time := (k.time + 1) % 2 ^ cfg.timeBits } false k.noSuspendedTasks
    (by simp) (le_refl _)
  simpa [onTimerTicWalk, onTimerTicVisitAll] using this

theorem onTimerTicRoundRobin_inv {cfg : Config} {k : Kernel} (flag : Bool)
    (hI : ListsInv cfg k)
    (hhead : k.pActiveTask ≠ IDLE_TASK_ID cfg →
      ∃ rest, k.pDueTaskAryAry (k.taskAry k.pActiveTask).prioClass = k.pActiveTask :: rest) :
    ListsInv cfg (onTimerTicRoundRobin k flag).1 ∧
    (onTimerTicRoundRobin k flag).1.pActiveTask = k.pActiveTask ∧
    ((onTimerTicRoundRobin k flag).1.taskAry k.pActiveTask).postedEventVec
      = (k.taskAry k.pActiveTask).postedEventVec ∧
    ((onTimerTicRoundRobin k flag).2 = false →
      flag = false ∧ (onTimerTicRoundRobin k flag).1.pDueTaskAryAry = k.pDueTaskAryAry) ∧
    (∀ c, k.pDueTaskAryAry c ≠ [] → (onTimerTicRoundRobin k flag).1.pDueTaskAryAry c ≠ []) ∧
    ((onTimerTicRoundRobin k flag).2 = true →
      flag = true ∨ ∃ c, (onTimerTicRoundRobin k flag).1.pDueTaskAryAry c ≠ []) := by
  unfold onTimerTicRoundRobin
  by_cases h0 : (k.taskAry k.pActiveTask).cntRoundRobin = 0
  · rw [if_neg (by simp [h0])]
    exact ⟨hI, rfl, rfl, fun h => ⟨h, rfl⟩, fun _ h => h, fun h => Or.inl h⟩
  · have hne : ((k.taskAry k.pActiveTask).cntRoundRobin != 0) = true := by simpa using h0
    have hnidle : k.pActiveTask ≠ IDLE_TASK_ID cfg := by
      intro e
      rw [e] at h0
      exact h0 hI.idle_rr
    rw [if_pos hne]
    by_cases h1 : (k.taskAry k.pActiveTask).cntRoundRobin - 1 = 0
    · have h1b : ((k.taskAry k.pActiveTask).cntRoundRobin - 1 == 0) = true := by simpa using h1
      simp only []
      rw [if_pos h1b]
      have hI1 : ListsInv cfg (k.setTask k.pActiveTask
          { k.taskAry k.pActiveTask with
              cntRoundRobin := (k.taskAry k.pActiveTask).timeRoundRobin }) :=
        hI.setTask _ _ rfl (fun e => absurd e hnidle)
          (fun hm j hj => hI.posted_sub _ hm j hj)
      by_cases h2 : (k.pDueTaskAryAry (k.taskAry k.pActiveTask).prioClass).length > 1
      · have h2b : (k.setTask k.pActiveTask
            { k.taskAry k.pActiveTask with
              cntRoundRobin := (k.taskAry k.pActiveTask).timeRoundRobin }).noDueTasksAry
              (k.taskAry k.pActiveTask).prioClass > 1 := h2
        rw [if_pos h2b]
        obtain ⟨rest, hrest⟩ := hhead hnidle
        refine ⟨?_, rfl, ?_, fun h => absurd h (by simp), ?_, fun _ => Or.inr ?_⟩
        · constructor
          · exact hI1.susp_lt
          · intro c t ht
            simp only [setTask_pDueTaskAryAry] at ht
            by_cases hc : c = (k.taskAry k.pActiveTask).prioClass
            · subst hc
              rw [Function.update_same, hrest] at ht
              simp only [List.drop_succ_cons, List.drop_zero, List.mem_append,
                List.mem_singleton] at ht
              apply hI1.due_lt
              simp only [setTask_pDueTaskAryAry, hrest, List.mem_cons]
              tauto
            · rw [Function.update_noteq hc] at ht
              exact hI1.due_lt c t ht
          · intro t ht
            have ho := hI1.once t ht
            simp only [setTask_pDueTaskAryAry, setTask_pSuspendedTaskAry] at ho ⊢
            by_cases hc : ((k.setTask k.pActiveTask
                { k.taskAry k.pActiveTask with
                    cntRoundRobin := (k.taskAry k.pActiveTask).timeRoundRobin }).taskAry
                      t).prioClass = (k.taskAry k.pActiveTask).prioClass
            · rw [hc] at ho ⊢
              rw [Function.update_same, hrest]
              rw [hrest] at ho
              simp only [List.drop_succ_cons, List.drop_zero, List.count_append, List.count_cons,
                List.count_nil] at ho ⊢
              omega
            · rw [Function.update_noteq hc]
              exact ho
          · exact hI1.prio_lt
          · exact hI1.idle_rr
          · exact hI1.posted_sub
        · simp
        · intro c hc
          simp only [setTask_pDueTaskAryAry]
          by_cases hcc : c = (k.taskAry k.pActiveTask).prioClass
          · subst hcc
            rw [Function.update_same]
            simp
          · rw [Function.update_noteq hcc]
            exact hc
        · refine ⟨(k.taskAry k.pActiveTask).prioClass, ?_⟩
          simp
      · have h2b : ¬ (k.setTask k.pActiveTask
            { k.taskAry k.pActiveTask with
              cntRoundRobin := (k.taskAry k.pActiveTask).timeRoundRobin }).noDueTasksAry
              (k.taskAry k.pActiveTask).prioClass > 1 := h2
        rw [if_neg h2b]
        exact ⟨hI1, rfl, by simp, fun h => ⟨h, rfl⟩, fun _ h => h, fun h => Or.inl h⟩
    · have h1b : ((k.taskAry k.pActiveTask).cntRoundRobin - 1 == 0) = false := by simpa using h1
      simp only []
      rw [if_neg (by simp [h1b])]
      refine ⟨?_, rfl, by simp, fun h => ⟨h, rfl⟩, fun _ h => h, fun h => Or.inl h⟩
      exact hI.setTask _ _ rfl (fun e => absurd e hnidle)
        (fun hm j hj => hI.posted_sub _ hm j hj)


theorem onTimerTic_eq (cfg : Config) (k : Kernel) :
    onTimerTic cfg k =
      if (if cfg.roundRobinModeSupported
          then onTimerTicRoundRobin (onTimerTicVisitAll cfg k).1 (onTimerTicVisitAll cfg k).2.2
          else ((onTimerTicVisitAll cfg k).1, (onTimerTicVisitAll cfg k).2.2)).2
      then lookForActiveTask cfg
        (if cfg.roundRobinModeSupported
          then onTimerTicRoundRobin (onTimerTicVisitAll cfg k).1 (onTimerTicVisitAll cfg k).2.2
          else ((onTimerTicVisitAll cfg k).1, (onTimerTicVisitAll cfg k).2.2)).1
      else ((if cfg.roundRobinModeSupported
          then onTimerTicRoundRobin (onTimerTicVisitAll cfg k).1 (onTimerTicVisitAll cfg k).2.2
          else ((onTimerTicVisitAll cfg k).1, (onTimerTicVisitAll cfg k).2.2)).1, false) := by
  unfold onTimerTic
  have h := onTimerTicLoop_eq cfg k
  have h2 : ({ k with time := (k.time + 1) % 2 ^ cfg.timeBits } : Kernel).noSuspendedTasks
      = k.noSuspendedTasks := rfl
  simp only [h2, h]

theorem onTimerTicVisitAll_inv {cfg : Config} {k : Kernel}
    (hI : ListsInv cfg k) (hA : ActiveInv cfg k) :
    ListsInv cfg (onTimerTicVisitAll cfg k).1 ∧
    (onTimerTicVisitAll cfg k).1.pActiveTask = k.pActiveTask ∧
    (onTimerTicVisitAll cfg k).1.taskAry k.pActiveTask = k.taskAry k.pActiveTask ∧
    ((onTimerTicVisitAll cfg k).2.2 = false →
      (onTimerTicVisitAll cfg k).1.pDueTaskAryAry = k.pDueTaskAryAry) ∧
    ((onTimerTicVisitAll cfg k).2.2 = true →
      ∃ c, (onTimerTicVisitAll cfg k).1.pDueTaskAryAry c ≠ []) ∧
    (∀ c, ∃ l, (onTimerTicVisitAll cfg k).1.pDueTaskAryAry c = k.pDueTaskAryAry c ++ l) := by
  have hwI := walkSuspended_listsInv cfg (fun _ : Unit => True)
    (onTimerTicVisit ((k.time + 1) % 2 ^ cfg.timeBits))
    (onTimerTicVisit_ok _) k.pSuspendedTaskAry
    { k with time := (k.time + 1) % 2 ^ cfg.timeBits, pSuspendedTaskAry := [] } () false trivial
    (hI.congr (by simp) rfl rfl)
  obtain ⟨hf1, _, _, _, _, hf6, hf7, hf8, hf9⟩ := walkSuspended_frame cfg
    (onTimerTicVisit ((k.time + 1) % 2 ^ cfg.timeBits)) k.pSuspendedTaskAry
    { k with time := (k.time + 1) % 2 ^ cfg.timeBits, pSuspendedTaskAry := [] } () false
  have hns := active_not_suspended hI hA
  refine ⟨hwI.1, hf1, hf6 _ hns, fun hfl => (hf7 hfl).2, fun hfl => ?_, hf9⟩
  rcases hf8 hfl with h | ⟨c, hc⟩
  · exact absurd h (by simp)
  · exact ⟨c, hc⟩

theorem onTimerTic_inv {cfg : Config} {k : Kernel}
    (hI : ListsInv cfg k) (hA : ActiveInv cfg k) :
    ListsInv cfg (onTimerTic cfg k).1 ∧
    (onTimerTic cfg k).1.pActiveTask =
      waitForEventLookLoop cfg (onTimerTic cfg k).1 cfg.noPrioClasses ∧
    ((onTimerTic cfg k).2 = false →
      ((onTimerTic cfg k).1.taskAry (onTimerTic cfg k).1.pActiveTask).postedEventVec = 0) := by
  obtain ⟨h1, h2, h3, h4, h5, h6⟩ := onTimerTicVisitAll_inv hI hA
  rw [onTimerTic_eq]
  cases hrr : cfg.roundRobinModeSupported with
  | false =>
    simp only [Bool.false_eq_true, if_false]
    exact select_after (onTimerTicVisitAll cfg k).2.2 hA h1 h2
      (by rw [h3]; exact hA.active_posted) h4 h5
  | true =>
    simp only [if_true]
    have hhead : (onTimerTicVisitAll cfg k).1.pActiveTask ≠ IDLE_TASK_ID cfg →
        ∃ rest, (onTimerTicVisitAll cfg k).1.pDueTaskAryAry
          ((onTimerTicVisitAll cfg k).1.taskAry (onTimerTicVisitAll cfg k).1.pActiveTask).prioClass
            = (onTimerTicVisitAll cfg k).1.pActiveTask :: rest := by
      intro hne
      rw [h2] at hne ⊢
      rw [h3]
      rcases active_cases hI hA with ⟨e, _⟩ | ⟨_, _, ⟨rest, hr⟩, _⟩
      · exact absurd e hne
      · obtain ⟨l, hl⟩ := h6 (k.taskAry k.pActiveTask).prioClass
        exact ⟨rest ++ l, by rw [hl, hr]; rfl⟩
    obtain ⟨g1, g2, g3, g4, g5, g6⟩ :=
      onTimerTicRoundRobin_inv (onTimerTicVisitAll cfg k).2.2 h1 hhead
    refine select_after _ hA g1 (g2.trans h2) ?_ ?_ ?_
    · rw [h2] at g3
      rw [g3, h3]
      exact hA.active_posted
    · intro hfl
      obtain ⟨e1, e2⟩ := g4 hfl
      rw [e2]
      exact h4 e1
    · intro hfl
      rcases g6 hfl with e | e
      · obtain ⟨c, hc⟩ := h5 e
        exact ⟨c, g5 c hc⟩
      · exact e

theorem isrSystemTimerTic_inv {cfg : Config} {k : Kernel}
    (hI : ListsInv cfg k) (hA : ActiveInv cfg k) :
    ListsInv cfg (isrSystemTimerTic cfg k) ∧ ActiveInv cfg (isrSystemTimerTic cfg k) := by
  obtain ⟨h1, h2, h3⟩ := onTimerTic_inv hI hA
  exact finish_switch (onTimerTic cfg k) h1 h2 h3


/-! ## Acquisition of free synchronization objects -/

theorem acquireSemLoop_spec (v : Nat) (hv : v < 0x100) :
    ∀ (fuel i posted : Nat) (sem : Nat → Nat), i + fuel = 8 →
      (∀ j, (acquireSemLoop fuel i (2 ^ i % 0x100) (v >>> i) posted sem).1.testBit j =
        (posted.testBit j || (decide (i ≤ j) && v.testBit j && decide (sem j > 0)))) ∧
      (∀ j, (acquireSemLoop fuel i (2 ^ i % 0x100) (v >>> i) posted sem).2 j =
        if i ≤ j ∧ v.testBit j = true ∧ sem j > 0 then sem j - 1 else sem j) := by
  intro fuel
  induction fuel with
  | zero =>
    intro i posted sem hi
    have hi8 : i = 8 := by omega
    subst hi8
    simp only [acquireSemLoop]
    refine ⟨fun j => ?_, fun j => ?_⟩
    · by_cases hj : 8 ≤ j
      · rw [testBit_lt_256 v j hv hj]; simp
      · simp [hj]
    · by_cases hj : 8 ≤ j
      · rw [testBit_lt_256 v j hv hj]; simp
      · simp [hj]
  | succ n ih =>
    intro i posted sem hi
    have hi8 : i < 8 := by omega
    rw [acquireSemLoop, two_pow_shift_mod_256, two_pow_mod_256 i hi8, ← Nat.shiftRight_add]
    by_cases hz : v >>> i = 0
    · have hbits : ∀ j, i ≤ j → v.testBit j = false := by
        intro j hj
        have := (eq_zero_iff_testBit _).mp hz (j - i)
        rw [Nat.testBit_shiftRight] at this
        rwa [Nat.add_sub_cancel' hj] at this
      simp only [hz, bne_self_eq_false, Bool.false_eq_true, if_false]
      refine ⟨fun j => ?_, fun j => ?_⟩
      · by_cases hj : i ≤ j
        · rw [hbits j hj]; simp
        · simp [hj]
      · by_cases hj : i ≤ j
        · rw [hbits j hj]; simp
        · simp [hj]
    · have hz2 : (v >>> i != 0) = true := by simpa using hz
      rw [if_pos hz2]
      have hbit0 : ((v >>> i &&& 0x01) != 0) = v.testBit i := by
        rw [Nat.and_one_is_mod]
        have := Nat.testBit_shiftRight (i := i) (j := 0) v
        rw [Nat.add_zero, Nat.testBit_zero] at this
        rw [← this]
        rcases Nat.mod_two_eq_zero_or_one (v >>> i) with h | h <;> simp [h]
      rw [hbit0]
      by_cases htake : (v.testBit i && decide (sem i > 0)) = true
      · rw [if_pos htake]
        obtain ⟨h1, h2⟩ := ih (i + 1) (posted ||| 2 ^ i) (Function.update sem i (sem i - 1))
          (by omega)
        simp only [Bool.and_eq_true, decide_eq_true_eq] at htake
        refine ⟨fun j => ?_, fun j => ?_⟩
        · rw [h1 j, Nat.testBit_or, Nat.testBit_two_pow]
          by_cases hj : i = j
          · subst hj
            simp [htake.1, htake.2]
          · have e1 : decide (i + 1 ≤ j) = decide (i ≤ j) := by
              apply decide_eq_decide.mpr; omega
            have hj2 : j ≠ i := fun e => hj e.symm
            simp [hj, e1, Function.update_noteq hj2]
        · rw [h2 j]
          by_cases hj : i = j
          · subst hj
            have : ¬ (i + 1 ≤ i) := by omega
            simp [this, htake.1, htake.2]
          · have hj2 : j ≠ i := fun e => hj e.symm
            have e1 : (i + 1 ≤ j) = (i ≤ j) := by
              apply propext; omega
            simp only [Function.update_noteq hj2, e1]
      · rw [if_neg htake]
        obtain ⟨h1, h2⟩ := ih (i + 1) posted sem (by omega)
        rw [Bool.not_eq_true] at htake
        refine ⟨fun j => ?_, fun j => ?_⟩
        · rw [h1 j]
          by_cases hj : i = j
          · subst hj
            have : ¬ (i + 1 ≤ i) := by omega
            simp only [this, decide_False, Bool.false_and, le_refl, decide_True, Bool.true_and]
            rw [htake]
          · have e1 : decide (i + 1 ≤ j) = decide (i ≤ j) := by
              apply decide_eq_decide.mpr; omega
            rw [e1]
        · rw [h2 j]
          by_cases hj : i = j
          · subst hj
            have : ¬ (i + 1 ≤ i) := by omega
            simp only [Bool.and_eq_false_imp, decide_eq_false_iff_not] at htake
            have h3 : ¬ (v.testBit i = true ∧ sem i > 0) := fun ⟨a, b⟩ => htake a b
            simp [this, h3]
          · have e1 : (i + 1 ≤ j) = (i ≤ j) := by
              apply propext; omega
            simp only [e1]

theorem acquireSemLoop_zero (fuel idxSem maskSem posted : Nat) (sem : Nat → Nat) :
    acquireSemLoop fuel idxSem maskSem 0 posted sem = (posted, sem) := by
  cases fuel <;> simp [acquireSemLoop]

theorem acquireFreeSyncObjs_eq (cfg : Config) (k : Kernel) (eventMask : Nat) (all : Bool) :
    acquireFreeSyncObjs cfg k eventMask all =
      ({ k with
          taskAry := Function.update k.taskAry k.pActiveTask
            { k.taskAry k.pActiveTask with
                postedEventVec :=
                  (acquireSemLoop 8 0 0x01 ((eventMask &&& MASK_EVT_IS_SEMAPHORE cfg) % 0x100)
                    (if cfg.useMutex then eventMask &&& k.mutexVec
                     else (k.taskAry k.pActiveTask).postedEventVec) k.semaphoreAry).1 }
          mutexVec := if cfg.useMutex then k.mutexVec &&& not16 eventMask else k.mutexVec
          semaphoreAry :=
            (acquireSemLoop 8 0 0x01 ((eventMask &&& MASK_EVT_IS_SEMAPHORE cfg) % 0x100)
              (if cfg.useMutex then eventMask &&& k.mutexVec
               else (k.taskAry k.pActiveTask).postedEventVec) k.semaphoreAry).2 },
       (!all && (acquireSemLoop 8 0 0x01 ((eventMask &&& MASK_EVT_IS_SEMAPHORE cfg) % 0x100)
                    (if cfg.useMutex then eventMask &&& k.mutexVec
                     else (k.taskAry k.pActiveTask).postedEventVec) k.semaphoreAry).1 != 0)
       || (all && (((acquireSemLoop 8 0 0x01 ((eventMask &&& MASK_EVT_IS_SEMAPHORE cfg) % 0x100)
                    (if cfg.useMutex then eventMask &&& k.mutexVec
                     else (k.taskAry k.pActiveTask).postedEventVec) k.semaphoreAry).1
                    ^^^ eventMask) &&& not16 MASK_EVT_IS_TIMER) == 0)) := by
  unfold acquireFreeSyncObjs
  cases hm : cfg.useMutex <;> cases hs : cfg.useSemaphore
  · have hS0 : cfg.noSemaphoreEvents = 0 := by simpa [Config.useSemaphore] using hs
    have hv : (eventMask &&& MASK_EVT_IS_SEMAPHORE cfg) % 0x100 = 0 := by
      simp [MASK_EVT_IS_SEMAPHORE, hS0]
    simp only [Bool.false_eq_true, if_false, hv, acquireSemLoop_zero]
    have e : Function.update k.taskAry k.pActiveTask
        { k.taskAry k.pActiveTask with
            postedEventVec := (k.taskAry k.pActiveTask).postedEventVec } = k.taskAry :=
      Function.update_eq_self _ _
    rw [e]
  · simp only [Bool.false_eq_true, if_false, if_true, Function.update_same, Function.update_idem]
  · have hS0 : cfg.noSemaphoreEvents = 0 := by simpa [Config.useSemaphore] using hs
    have hv : (eventMask &&& MASK_EVT_IS_SEMAPHORE cfg) % 0x100 = 0 := by
      simp [MASK_EVT_IS_SEMAPHORE, hS0]
    simp only [Bool.false_eq_true, if_false, if_true, hv, acquireSemLoop_zero,
      Function.update_same, Function.update_idem]
  · simp only [if_true, Function.update_same, Function.update_idem]

theorem acquireFreeSyncObjs_spec (cfg : Config) (hS : cfg.noSemaphoreEvents ≤ 8) (k : Kernel)
    (eventMask : Nat) (all : Bool) :
    (acquireFreeSyncObjs cfg k eventMask all).1.pActiveTask = k.pActiveTask ∧
    (acquireFreeSyncObjs cfg k eventMask all).1.pSuspendedTask = k.pSuspendedTask ∧
    (acquireFreeSyncObjs cfg k eventMask all).1.pSuspendedTaskAry = k.pSuspendedTaskAry ∧
    (acquireFreeSyncObjs cfg k eventMask all).1.pDueTaskAryAry = k.pDueTaskAryAry ∧
    (acquireFreeSyncObjs cfg k eventMask all).1.time = k.time ∧
    (∀ q, q ≠ k.pActiveTask →
      (acquireFreeSyncObjs cfg k eventMask all).1.taskAry q = k.taskAry q) ∧
    (acquireFreeSyncObjs cfg k eventMask all).1.taskAry k.pActiveTask =
      { k.taskAry k.pActiveTask with
          postedEventVec :=
            ((acquireFreeSyncObjs cfg k eventMask all).1.taskAry k.pActiveTask).postedEventVec } ∧
    (∀ j, ((acquireFreeSyncObjs cfg k eventMask all).1.taskAry k.pActiveTask).postedEventVec.testBit j =
      ((if cfg.useMutex then eventMask &&& k.mutexVec
        else (k.taskAry k.pActiveTask).postedEventVec).testBit j ||
       (decide (j < cfg.noSemaphoreEvents) && eventMask.testBit j
          && decide (k.semaphoreAry j > 0)))) ∧
    (acquireFreeSyncObjs cfg k eventMask all).1.mutexVec =
      (if cfg.useMutex then k.mutexVec &&& not16 eventMask else k.mutexVec) ∧
    (∀ j, (acquireFreeSyncObjs cfg k eventMask all).1.semaphoreAry j =
      if j < cfg.noSemaphoreEvents ∧ eventMask.testBit j = true ∧ k.semaphoreAry j > 0
      then k.semaphoreAry j - 1 else k.semaphoreAry j) ∧
    (acquireFreeSyncObjs cfg k eventMask all).2 =
      ((!all && ((acquireFreeSyncObjs cfg k eventMask all).1.taskAry
                  k.pActiveTask).postedEventVec != 0)
       || (all && ((((acquireFreeSyncObjs cfg k eventMask all).1.taskAry
                      k.pActiveTask).postedEventVec ^^^ eventMask)
                    &&& not16 MASK_EVT_IS_TIMER) == 0)) := by
  have hv : (eventMask &&& MASK_EVT_IS_SEMAPHORE cfg) % 0x100 < 0x100 := Nat.mod_lt _ (by norm_num)
  have hvbit : ∀ j, ((eventMask &&& MASK_EVT_IS_SEMAPHORE cfg) % 0x100).testBit j =
      (decide (j < cfg.noSemaphoreEvents) && eventMask.testBit j) := by
    intro j
    have h256 : (0x100 : Nat) = 2 ^ 8 := by norm_num
    rw [h256, Nat.testBit_mod_two_pow, Nat.testBit_and, testBit_MASK_EVT_IS_SEMAPHORE]
    by_cases hj : j < cfg.noSemaphoreEvents
    · have : j < 8 := by omega
      simp [hj, this]
    · simp [hj]
  have hloop := fun posted sem => acquireSemLoop_spec _ hv 8 0 posted sem (by norm_num)
  have h0 : (2 : Nat) ^ 0 % 0x100 = 0x01 := by norm_num
  have hsh : ∀ x : Nat, x >>> 0 = x := fun x => rfl
  simp only [h0, hsh] at hloop
  rw [acquireFreeSyncObjs_eq]
  refine ⟨rfl, rfl, rfl, rfl, rfl, fun q hq => ?_, ?_, fun j => ?_, rfl, fun j => ?_, ?_⟩
  · simp only [Function.update_noteq hq]
  · simp only [Function.update_same]
  · simp only [Function.update_same]
    rw [(hloop _ _).1 j, hvbit]
    simp
  · simp only
    rw [(hloop _ _).2 j, hvbit]
    simp only [Nat.zero_le, true_and, Bool.and_eq_true, decide_eq_true_eq, and_assoc]
  · simp only [Function.update_same]

/-! ## Suspending the active task preserves the invariants -/

theorem storeResumeCondition_frame (cfg : Config) (time : Nat) (t : Task) (eventMask : Nat)
    (all : Bool) (timeout : Nat) :
    (storeResumeCondition cfg time t eventMask all timeout).prioClass = t.prioClass ∧
    (storeResumeCondition cfg time t eventMask all timeout).postedEventVec = t.postedEventVec ∧
    (storeResumeCondition cfg time t eventMask all timeout).cntRoundRobin = t.cntRoundRobin ∧
    (storeResumeCondition cfg time t eventMask all timeout).timeRoundRobin = t.timeRoundRobin ∧
    (storeResumeCondition cfg time t eventMask all timeout).eventMask = eventMask ∧
    (storeResumeCondition cfg time t eventMask all timeout).waitForAnyEvent = !all := by
  unfold storeResumeCondition
  refine ⟨?_, ?_, ?_, ?_, rfl, rfl⟩ <;>
  · simp only
    split
    · split
      · split <;> split <;> rfl
      · rfl
    · rfl

theorem mem_insertAt (l : List Nat) (i x t : Nat) : t ∈ insertAt l i x ↔ t = x ∨ t ∈ l := by
  unfold insertAt
  rw [List.mem_append, List.mem_cons]
  constructor
  · rintro (h | h | h)
    · exact Or.inr (List.mem_of_mem_take h)
    · exact Or.inl h
    · exact Or.inr (List.mem_of_mem_drop h)
  · rintro (h | h)
    · exact Or.inr (Or.inl h)
    · rw [← List.take_append_drop i l, List.mem_append] at h
      rcases h with h | h
      · exact Or.inl h
      · exact Or.inr (Or.inr h)

theorem count_insertAt (l : List Nat) (i x t : Nat) :
    (insertAt l i x).count t = l.count t + (if x = t then 1 else 0) := by
  unfold insertAt
  have h := congrArg (List.count t) (List.take_append_drop i l)
  rw [List.count_append] at h
  rw [List.count_append, List.count_cons]
  by_cases hx : x = t
  · simp only [hx, beq_self_eq_true, if_true]
    omega
  · have : (x == t) = false := by simpa using hx
    simp only [this, Bool.false_eq_true, if_false, hx]
    omega

theorem waitForEvent_acquire (cfg : Config) (hS : cfg.noSemaphoreEvents ≤ 8) (k : Kernel)
    (eventMask : Nat) (all : Bool) :
    (if cfg.useSemaphore || cfg.useMutex then acquireFreeSyncObjs cfg k eventMask all
      else (k, false)).1.pActiveTask = k.pActiveTask ∧
    (if cfg.useSemaphore || cfg.useMutex then acquireFreeSyncObjs cfg k eventMask all
      else (k, false)).1.pSuspendedTaskAry = k.pSuspendedTaskAry ∧
    (if cfg.useSemaphore || cfg.useMutex then acquireFreeSyncObjs cfg k eventMask all
      else (k, false)).1.pDueTaskAryAry = k.pDueTaskAryAry ∧
    (if cfg.useSemaphore || cfg.useMutex then acquireFreeSyncObjs cfg k eventMask all
      else (k, false)).1.time = k.time ∧
    (∀ q, q ≠ k.pActiveTask →
      (if cfg.useSemaphore || cfg.useMutex then acquireFreeSyncObjs cfg k eventMask all
        else (k, false)).1.taskAry q = k.taskAry q) ∧
    (if cfg.useSemaphore || cfg.useMutex then acquireFreeSyncObjs cfg k eventMask all
      else (k, false)).1.taskAry k.pActiveTask =
      { k.taskAry k.pActiveTask with
          postedEventVec :=
            ((if cfg.useSemaphore || cfg.useMutex then acquireFreeSyncObjs cfg k eventMask all
              else (k, false)).1.taskAry k.pActiveTask).postedEventVec } ∧
    ((cfg.useMutex = false → (k.taskAry k.pActiveTask).postedEventVec = 0) →
      ∀ j, ((if cfg.useSemaphore || cfg.useMutex then acquireFreeSyncObjs cfg k eventMask all
              else (k, false)).1.taskAry k.pActiveTask).postedEventVec.testBit j = true →
        eventMask.testBit j = true) := by
  by_cases hu : (cfg.useSemaphore || cfg.useMutex) = true
  · simp only [hu, if_true]
    obtain ⟨h1, _, h3, h4, h5, h6, h7, h8, _, _, _⟩ :=
      acquireFreeSyncObjs_spec cfg hS k eventMask all
    refine ⟨h1, h3, h4, h5, h6, h7, fun hz j hj => ?_⟩
    rw [h8 j] at hj
    simp only [Bool.or_eq_true, Bool.and_eq_true] at hj
    rcases hj with h | h
    · cases hm : cfg.useMutex
      · rw [hm] at h
        simp only [Bool.false_eq_true, if_false] at h
        rw [hz hm] at h
        simp at h
      · rw [hm] at h
        simp only [if_true, Nat.testBit_and, Bool.and_eq_true] at h
        exact h.1
    · exact h.1.2
  · simp only [hu, if_false]
    refine ⟨rfl, rfl, rfl, rfl, fun _ _ => rfl, rfl, fun hz j hj => ?_⟩
    have hm : cfg.useMutex = false := by
      simp only [Bool.or_eq_true, not_or, Bool.not_eq_true] at hu
      exact hu.2
    simp only [Bool.false_eq_true, if_false] at hj
    rw [hz hm] at hj
    simp at hj


theorem ListsInv.suspend {cfg : Config} {k : Kernel} (hI : ListsInv cfg k) (pT : Nat)
    (rest : List Nat) (t1 : Task) (susp1 : List Nat) (hpT : pT < cfg.noTasks)
    (hdue : k.pDueTaskAryAry (k.taskAry pT).prioClass = pT :: rest)
    (hprio : t1.prioClass = (k.taskAry pT).prioClass)
    (hsub : ∀ j, t1.postedEventVec.testBit j = true → t1.eventMask.testBit j = true)
    (hmem : ∀ t, t ∈ susp1 ↔ t = pT ∨ t ∈ k.pSuspendedTaskAry)
    (hcount : ∀ t, susp1.count t = k.pSuspendedTaskAry.count t + (if pT = t then 1 else 0)) :
    ListsInv cfg
      { k with
          taskAry := Function.update k.taskAry pT t1
          pDueTaskAryAry := Function.update k.pDueTaskAryAry (k.taskAry pT).prioClass rest
          pSuspendedTaskAry := susp1 } := by
  have hp : ∀ q, (Function.update k.taskAry pT t1 q).prioClass = (k.taskAry q).prioClass := by
    intro q
    by_cases hq : q = pT
    · subst hq; rw [Function.update_same, hprio]
    · rw [Function.update_noteq hq]
  constructor
  · intro t ht
    rcases (hmem t).mp ht with h | h
    · rw [h]; exact hpT
    · exact hI.susp_lt t h
  · intro c t ht
    simp only at ht ⊢
    rw [hp]
    by_cases hc : c = (k.taskAry pT).prioClass
    · subst hc
      rw [Function.update_same] at ht
      exact hI.due_lt _ t (by rw [hdue]; exact List.mem_cons_of_mem _ ht)
    · rw [Function.update_noteq hc] at ht
      exact hI.due_lt c t ht
  · intro t ht
    simp only
    rw [hp, hcount]
    have ho := hI.once t ht
    by_cases hc : (k.taskAry t).prioClass = (k.taskAry pT).prioClass
    · rw [hc, Function.update_same]
      rw [hc, hdue, List.count_cons] at ho
      by_cases htp : pT = t
      · simp only [htp, beq_self_eq_true, if_true] at ho ⊢
        omega
      · have : (pT == t) = false := by simpa using htp
        simp only [this, Bool.false_eq_true, if_false, htp] at ho ⊢
        omega
    · rw [Function.update_noteq hc]
      have htp : pT ≠ t := by
        intro e
        rw [e] at hc
        exact hc rfl
      simp only [htp, if_false]
      exact ho
  · intro t ht
    simp only
    rw [hp]
    exact hI.prio_lt t ht
  · simp only
    have hne : IDLE_TASK_ID cfg ≠ pT := by
      unfold IDLE_TASK_ID
      omega
    rw [Function.update_noteq hne]
    exact hI.idle_rr
  · intro t ht j hj
    simp only at ht hj ⊢
    by_cases hq : t = pT
    · subst hq
      rw [Function.update_same] at hj ⊢
      exact hsub j hj
    · rw [Function.update_noteq hq] at hj ⊢
      rcases (hmem t).mp ht with h | h
      · exact absurd h hq
      · exact hI.posted_sub t h j hj

theorem waitForEvent_inv {cfg : Config} (hcfg : cfg.WellFormed) {k : Kernel}
    (hI : ListsInv cfg k) (hA : ActiveInv cfg k) (hne : k.pActiveTask ≠ IDLE_TASK_ID cfg)
    (eventMask : Nat) (all : Bool) (timeout : Nat) :
    ListsInv cfg (waitForEvent cfg k eventMask all timeout).1 ∧
    (waitForEvent cfg k eventMask all timeout).1.pActiveTask =
      waitForEventLookLoop cfg (waitForEvent cfg k eventMask all timeout).1 cfg.noPrioClasses ∧
    ((waitForEvent cfg k eventMask all timeout).2 = false →
      (waitForEvent cfg k eventMask all timeout).1.pSuspendedTaskAry = k.pSuspendedTaskAry ∧
      (waitForEvent cfg k eventMask all timeout).1.pDueTaskAryAry = k.pDueTaskAryAry ∧
      (waitForEvent cfg k eventMask all timeout).1.pActiveTask = k.pActiveTask ∧
      ∀ j, ((waitForEvent cfg k eventMask all timeout).1.taskAry
              k.pActiveTask).postedEventVec.testBit j = true → eventMask.testBit j = true) := by
  obtain ⟨_, _, _, hS, _, _, _⟩ := hcfg
  obtain ⟨h1, h2, h3, h4, h5, h6, h7⟩ := waitForEvent_acquire cfg hS k eventMask all
  have h7b := h7 (fun _ => hA.active_posted)
  have hns := active_not_suspended hI hA
  rcases active_cases hI hA with ⟨e, _⟩ | ⟨hlt, _, ⟨rest, hrest⟩, _⟩
  · exact absurd e hne
  unfold waitForEvent
  generalize (if cfg.useSemaphore || cfg.useMutex then acquireFreeSyncObjs cfg k eventMask all
      else (k, false)) = r0 at h1 h2 h3 h4 h5 h6 h7b ⊢
  obtain ⟨k0, b⟩ := r0
  simp only at h1 h2 h3 h4 h5 h6 h7b ⊢
  have hta : k0.taskAry = Function.update k.taskAry k.pActiveTask (k0.taskAry k.pActiveTask) := by
    funext q
    by_cases hq : q = k.pActiveTask
    · subst hq; rw [Function.update_same]
    · rw [Function.update_noteq hq, h5 q hq]
  have hI0 : ListsInv cfg k0 := by
    have := hI.setTask k.pActiveTask (k0.taskAry k.pActiveTask) (by rw [h6])
      (fun e => absurd e hne) (fun hm => absurd hm hns)
    exact this.congr h2 h3 hta
  cases b with
  | true =>
    simp only [if_true]
    refine ⟨hI0, ?_, fun _ => ⟨h2, h3, h1, h7b⟩⟩
    rw [h1, hA.active_eq]
    exact (waitForEventLookLoop_congr cfg k k0 h3 _).symm
  | false =>
    simp only [Bool.false_eq_true, if_false]
    have hprio0 : (k0.taskAry k.pActiveTask).prioClass = (k.taskAry k.pActiveTask).prioClass := by
      rw [h6]
    have hdue0 : k0.pDueTaskAryAry (k0.taskAry k.pActiveTask).prioClass
        = k.pActiveTask :: rest := by
      rw [h3, hprio0, hrest]
    obtain ⟨f1, f2, _, _, f5, _⟩ := storeResumeCondition_frame cfg k0.time
      (k0.taskAry k.pActiveTask) eventMask all timeout
    refine ⟨?_, ?_, fun h => absurd h (by simp)⟩
    · rw [h1]
      have hsusp : ∀ susp1 : List Nat,
          (∀ t, t ∈ susp1 ↔ t = k.pActiveTask ∨ t ∈ k0.pSuspendedTaskAry) →
          (∀ t, susp1.count t = k0.pSuspendedTaskAry.count t
            + (if k.pActiveTask = t then 1 else 0)) →
          ListsInv cfg
            { k0 with
                taskAry := Function.update k0.taskAry k.pActiveTask
                  (storeResumeCondition cfg k0.time (k0.taskAry k.pActiveTask) eventMask all
                    timeout)
                pDueTaskAryAry := Function.update k0.pDueTaskAryAry
                  (k0.taskAry k.pActiveTask).prioClass rest
                pSuspendedTaskAry := susp1 } := by
        intro susp1 hm hc
        exact hI0.suspend k.pActiveTask rest _ susp1 hlt hdue0 f1
          (fun j hj => by rw [f5]; rw [f2] at hj; exact h7b j hj) hm hc
      have hdrop : (k0.pDueTaskAryAry (k0.taskAry k.pActiveTask).prioClass).drop 1 = rest := by
        rw [hdue0]; rfl
      by_cases hu : (cfg.useSemaphore || cfg.useMutex) = true
      · simp only [hu, if_true]
        exact (hsusp (insertAt k0.pSuspendedTaskAry _ k.pActiveTask)
          (fun t => mem_insertAt _ _ _ _) (fun t => count_insertAt _ _ _ _)).congr rfl
          (by simp only [Kernel.setTask, hdrop]) rfl
      · rw [Bool.not_eq_true] at hu
        simp only [hu, Bool.false_eq_true, if_false]
        exact (hsusp (k0.pSuspendedTaskAry ++ [k.pActiveTask])
          (fun t => by simp [or_comm])
          (fun t => by
            rw [List.count_append, List.count_cons, List.count_nil]
            by_cases hx : k.pActiveTask = t
            · simp [hx]
            · have : (k.pActiveTask == t) = false := by simpa using hx
              simp [this, hx])).congr rfl (by simp only [Kernel.setTask, hdrop]) rfl
    · refine waitForEventLookLoop_congr cfg _ _ ?_ _
      rfl

theorem rtos_waitForEvent_inv {cfg : Config} (hcfg : cfg.WellFormed) {k : Kernel}
    (hI : ListsInv cfg k) (hA : ActiveInv cfg k) (hne : k.pActiveTask ≠ IDLE_TASK_ID cfg)
    (eventMask : Nat) (all : Bool) (timeout : Nat) :
    ListsInv cfg (rtos_waitForEvent cfg k eventMask all timeout).1 ∧
    ActiveInv cfg (rtos_waitForEvent cfg k eventMask all timeout).1 := by
  obtain ⟨h1, h2, _⟩ := waitForEvent_inv hcfg hI hA hne eventMask all timeout
  exact pushRetCodeOfContextSwitch_inv h1 h2


/-! ## The initial state satisfies the invariants -/

theorem foldl_range_induct {α : Type} (f : α → Nat → α) (P : Nat → α → Prop) (a : α)
    (h0 : P 0 a) (hstep : ∀ n a, P n a → P (n + 1) (f a n)) :
    ∀ n, P n ((List.range n).foldl f a) := by
  intro n
  induction n with
  | zero => simpa using h0
  | succ n ih =>
    rw [List.range_succ, List.foldl_append]
    simpa using hstep n _ ih

theorem rtos_initializeTask_facts (cfg : Config) (k : Kernel) (idxTask : Nat) (a : TaskInit) :
    (rtos_initializeTask cfg k idxTask a).pSuspendedTaskAry = k.pSuspendedTaskAry ∧
    (rtos_initializeTask cfg k idxTask a).pDueTaskAryAry = k.pDueTaskAryAry ∧
    (∀ q, q ≠ idxTask → (rtos_initializeTask cfg k idxTask a).taskAry q = k.taskAry q) ∧
    ((rtos_initializeTask cfg k idxTask a).taskAry idxTask).prioClass = a.prioClass ∧
    ((rtos_initializeTask cfg k idxTask a).taskAry idxTask).cntRoundRobin
      = (k.taskAry idxTask).cntRoundRobin := by
  obtain ⟨f1, _, f3, _, _, _⟩ := storeResumeCondition_frame cfg k.time
    { k.taskAry idxTask with prioClass := a.prioClass, cntDelay := 0, timeDueAt := 0 }
    a.startEventMask a.startByAllEvents a.startTimeout
  unfold rtos_initializeTask
  refine ⟨rfl, rfl, fun q hq => setTask_taskAry_ne _ _ _ _ hq, ?_, ?_⟩
  · rw [setTask_taskAry_same]
    split
    · exact f1
    · exact f1
  · rw [setTask_taskAry_same]
    split
    · exact f3
    · exact f3

theorem setup_facts (cfg : Config) (hN : 1 ≤ cfg.noPrioClasses) (tasks : List TaskInit)
    (ht : TasksOk cfg tasks) (sem : Nat → Nat) :
    (setup cfg tasks (staticData cfg sem)).pSuspendedTaskAry = [] ∧
    (setup cfg tasks (staticData cfg sem)).pDueTaskAryAry = (fun _ => []) ∧
    (∀ t, ((setup cfg tasks (staticData cfg sem)).taskAry t).prioClass < cfg.noPrioClasses) ∧
    (∀ t, ((setup cfg tasks (staticData cfg sem)).taskAry t).cntRoundRobin = 0) := by
  unfold setup
  refine foldl_range_induct _
    (fun (_ : Nat) (k : Kernel) =>
      k.pSuspendedTaskAry = [] ∧ k.pDueTaskAryAry = (fun _ => []) ∧
      (∀ t, (k.taskAry t).prioClass < cfg.noPrioClasses) ∧
      (∀ t, (k.taskAry t).cntRoundRobin = 0)) _ ?_ ?_ cfg.noTasks
  · refine ⟨rfl, rfl, fun t => ?_, fun t => rfl⟩
    simp only [staticData, Task.zero]
    omega
  · rintro n k ⟨h1, h2, h3, h4⟩
    cases ha : tasks.get? n with
    | none => exact ⟨h1, h2, h3, h4⟩
    | some a =>
      simp only
      obtain ⟨g1, g2, g3, g4, g5⟩ := rtos_initializeTask_facts cfg k n a
      refine ⟨g1.trans h1, g2.trans h2, fun t => ?_, fun t => ?_⟩
      · by_cases hq : t = n
        · subst hq
          rw [g4]
          exact ht a (List.get?_mem ha)
        · rw [g3 t hq]; exact h3 t
      · by_cases hq : t = n
        · subst hq
          rw [g5]; exact h4 t
        · rw [g3 t hq]; exact h4 t

theorem initRTOSTask_facts (cfg : Config) (k : Kernel) (idxTask : Nat) :
    (∀ t, t ∈ (initRTOSTask cfg k idxTask).pSuspendedTaskAry ↔
      t = idxTask ∨ t ∈ k.pSuspendedTaskAry) ∧
    (∀ t, (initRTOSTask cfg k idxTask).pSuspendedTaskAry.count t =
      k.pSuspendedTaskAry.count t + (if idxTask = t then 1 else 0)) ∧
    (initRTOSTask cfg k idxTask).pDueTaskAryAry = k.pDueTaskAryAry ∧
    (∀ q, q ≠ idxTask → (initRTOSTask cfg k idxTask).taskAry q = k.taskAry q) ∧
    ((initRTOSTask cfg k idxTask).taskAry idxTask).prioClass = (k.taskAry idxTask).prioClass ∧
    ((initRTOSTask cfg k idxTask).taskAry idxTask).postedEventVec = 0 ∧
    (((initRTOSTask cfg k idxTask).taskAry idxTask).cntRoundRobin = 0 ∨
     ((initRTOSTask cfg k idxTask).taskAry idxTask).cntRoundRobin
       = (k.taskAry idxTask).cntRoundRobin) := by
  unfold initRTOSTask
  cases hm : cfg.useMutex
  · simp only [Bool.false_eq_true, if_false, setTask_pSuspendedTaskAry, setTask_pDueTaskAryAry,
      setTask_taskAry_same]
    refine ⟨fun t => by simp [or_comm], fun t => ?_, trivial,
      fun q hq => setTask_taskAry_ne _ _ _ _ hq, ?_, trivial, ?_⟩
    · rw [List.count_append, List.count_cons, List.count_nil]
      by_cases hx : idxTask = t
      · simp [hx]
      · have : (idxTask == t) = false := by simpa using hx
        simp [this, hx]
    · split <;> rfl
    · split
      · exact Or.inl rfl
      · exact Or.inr rfl
  · simp only [if_true, setTask_pSuspendedTaskAry, setTask_pDueTaskAryAry,
      setTask_taskAry_same]
    refine ⟨fun t => mem_insertAt _ _ _ _, fun t => count_insertAt _ _ _ _, trivial,
      fun q hq => setTask_taskAry_ne _ _ _ _ hq, ?_, trivial, ?_⟩
    · split <;> rfl
    · split
      · exact Or.inl rfl
      · exact Or.inr rfl

theorem waitForEventLookLoop_empty (cfg : Config) (k : Kernel) (n : Nat)
    (h : ∀ j, j < n → k.pDueTaskAryAry j = []) :
    waitForEventLookLoop cfg k n = IDLE_TASK_ID cfg := by
  induction n with
  | zero => rfl
  | succ n ih =>
    unfold waitForEventLookLoop
    rw [h n (Nat.lt_succ_self n)]
    exact ih (fun j hj => h j (Nat.lt_succ_of_lt hj))

theorem rtos_initRTOS_inv {cfg : Config} (hcfg : cfg.WellFormed) (tasks : List TaskInit)
    (ht : TasksOk cfg tasks) (sem : Nat → Nat) :
    ListsInv cfg (rtos_initRTOS cfg tasks sem) ∧ ActiveInv cfg (rtos_initRTOS cfg tasks sem) := by
  obtain ⟨_, hN, _, _, _, _, _⟩ := hcfg
  obtain ⟨s1, s2, s3, s4⟩ := setup_facts cfg hN tasks ht sem
  have hloop := foldl_range_induct (initRTOSTask cfg)
    (fun (n : Nat) (k : Kernel) => (∀ t ∈ k.pSuspendedTaskAry, t < n) ∧
      (∀ t, t < n → k.pSuspendedTaskAry.count t = 1) ∧
      k.pDueTaskAryAry = (fun _ => []) ∧
      (∀ t, (k.taskAry t).prioClass < cfg.noPrioClasses) ∧
      (∀ t, (k.taskAry t).cntRoundRobin = 0) ∧
      (∀ t, t < n → (k.taskAry t).postedEventVec = 0))
    (setup cfg tasks (staticData cfg sem))
    ⟨by rw [s1]; simp, fun t h => absurd h (Nat.not_lt_zero _), s2, s3, s4,
      fun t h => absurd h (Nat.not_lt_zero _)⟩
    (by
      rintro n k ⟨h1, h2, h3, h4, h5, h6⟩
      obtain ⟨g1, g2, g3, g4, g5, g6, g7⟩ := initRTOSTask_facts cfg k n
      refine ⟨fun t htm => ?_, fun t htn => ?_, g3.trans h3, fun t => ?_, fun t => ?_,
        fun t htn => ?_⟩
      · rcases (g1 t).mp htm with h | h
        · omega
        · exact Nat.lt_succ_of_lt (h1 t h)
      · rw [g2 t]
        by_cases hx : n = t
        · subst hx
          have hc : k.pSuspendedTaskAry.count n = 0 := by
            rw [List.count_eq_zero]
            intro hm
            exact absurd (h1 n hm) (Nat.lt_irrefl _)
          simp [hc]
        · have : t < n := by omega
          simp [hx, h2 t this]
      · by_cases hq : t = n
        · subst hq; rw [g5]; exact h4 t
        · rw [g4 t hq]; exact h4 t
      · by_cases hq : t = n
        · subst hq
          rcases g7 with h | h
          · exact h
          · rw [h]; exact h5 t
        · rw [g4 t hq]; exact h5 t
      · by_cases hq : t = n
        · subst hq; exact g6
        · rw [g4 t hq]
          exact h6 t (by omega))
    cfg.noTasks
  obtain ⟨l1, l2, l3, l4, l5, l6⟩ := hloop
  have hidle : ∀ q, q ≠ IDLE_TASK_ID cfg →
      (rtos_initRTOS cfg tasks sem).taskAry q =
        ((List.range cfg.noTasks).foldl (initRTOSTask cfg)
          (setup cfg tasks (staticData cfg sem))).taskAry q := by
    intro q hq
    unfold rtos_initRTOS
    simp only [Kernel.setTask]
    rw [Function.update_noteq hq]
  have hdue : ∀ c, (rtos_initRTOS cfg tasks sem).pDueTaskAryAry c = [] := by
    intro c
    unfold rtos_initRTOS
    simp only [setTask_pDueTaskAryAry]
    split
    · rfl
    · rw [l3]
  have hsusp : (rtos_initRTOS cfg tasks sem).pSuspendedTaskAry =
      ((List.range cfg.noTasks).foldl (initRTOSTask cfg)
          (setup cfg tasks (staticData cfg sem))).pSuspendedTaskAry := rfl
  have hact : (rtos_initRTOS cfg tasks sem).pActiveTask = IDLE_TASK_ID cfg := rfl
  have hidleT : ((rtos_initRTOS cfg tasks sem).taskAry (IDLE_TASK_ID cfg)).postedEventVec = 0 ∧
      ((rtos_initRTOS cfg tasks sem).taskAry (IDLE_TASK_ID cfg)).cntRoundRobin = 0 := by
    unfold rtos_initRTOS
    simp only [setTask_taskAry_same, true_and]
    split
    · rfl
    · exact l5 _
  have hlt : ∀ t, t < cfg.noTasks → t ≠ IDLE_TASK_ID cfg := by
    intro t h e
    unfold IDLE_TASK_ID at e
    omega
  constructor
  · constructor
    · rw [hsusp]; exact l1
    · intro c t htm
      rw [hdue c] at htm
      simp at htm
    · intro t htn
      rw [hdue, hsusp, l2 t htn]
      rfl
    · intro t htn
      rw [hidle t (hlt t htn)]
      exact l4 t
    · exact hidleT.2
    · intro t htm j hj
      rw [hsusp] at htm
      have htn := l1 t htm
      rw [hidle t (hlt t htn), l6 t htn] at hj
      simp at hj
  · constructor
    · rw [hact]
      exact (waitForEventLookLoop_empty cfg _ _ (fun j _ => hdue j)).symm
    · rw [hact]
      exact hidleT.1

/-- The invariants hold in every reachable state. -/
theorem reachable_inv {cfg : Config} (hcfg : cfg.WellFormed) {tasks : List TaskInit}
    (ht : TasksOk cfg tasks) {sem : Nat → Nat} {k : Kernel}
    (hr : Reachable cfg tasks sem k) : ListsInv cfg k ∧ ActiveInv cfg k := by
  induction hr with
  | init => exact rtos_initRTOS_inv hcfg tasks ht sem
  | timerTic _ ih => exact isrSystemTimerTic_inv ih.1 ih.2
  | sendEvent ev _ ih => exact rtos_sendEvent_inv hcfg ih.1 ih.2 ev
  | waitForEvent m a t _ hne ih => exact rtos_waitForEvent_inv hcfg ih.1 ih.2 hne m a t


/-! ## The claims on the reachable states -/

theorem active_cases_of_eq {cfg : Config} {k : Kernel} (h : ListsInv cfg k)
    (ha : k.pActiveTask = waitForEventLookLoop cfg k cfg.noPrioClasses) :
    (k.pActiveTask = IDLE_TASK_ID cfg ∧ ∀ c, k.pDueTaskAryAry c = []) ∨
    (k.pActiveTask < cfg.noTasks ∧
      (k.taskAry k.pActiveTask).prioClass < cfg.noPrioClasses ∧
      (∃ rest, k.pDueTaskAryAry (k.taskAry k.pActiveTask).prioClass = k.pActiveTask :: rest) ∧
      ∀ j, (k.taskAry k.pActiveTask).prioClass < j → k.pDueTaskAryAry j = []) := by
  rcases waitForEventLookLoop_cases cfg k cfg.noPrioClasses with
    ⟨h1, h2⟩ | ⟨top, pT, rest, h1, h2, h3, h4⟩
  · left
    refine ⟨by rw [ha, h1], fun c => ?_⟩
    by_contra hc
    exact hc (h2 c (h.due_class_lt c hc))
  · right
    have hact : k.pActiveTask = pT := by rw [ha, h4]
    have hd := h.due_lt top pT (by rw [h2]; simp)
    rw [hact, hd.2]
    refine ⟨hd.1, h1, ⟨rest, h2⟩, fun j hj => ?_⟩
    by_contra hc
    exact hc (h3 j hj (h.due_class_lt j hc))

theorem activeIsHead_of_inv {cfg : Config} {k : Kernel} (h : ListsInv cfg k)
    (ha : k.pActiveTask = waitForEventLookLoop cfg k cfg.noPrioClasses) :
    ActiveIsHead cfg k := by
  rcases active_cases_of_eq h ha with ⟨h1, h2⟩ | ⟨h1, h2, ⟨rest, h3⟩, h4⟩
  · refine ⟨⟨fun _ c _ => by simp [Kernel.noDueTasksAry, h2 c], fun _ => h1⟩,
      fun hne => absurd h1 hne, fun c _ t ht => ?_⟩
    rw [h2 c] at ht
    simp at ht
  · have hne : k.pActiveTask ≠ IDLE_TASK_ID cfg := by
      unfold IDLE_TASK_ID
      omega
    refine ⟨⟨fun e => absurd e hne, fun hall => ?_⟩, fun _ => ?_, fun c _ t ht => ?_⟩
    · have := hall _ h2
      simp [Kernel.noDueTasksAry, h3] at this
    · refine ⟨_, h2, by simp [Kernel.noDueTasksAry, h3], by simp [h3], fun j hj _ => ?_⟩
      simp [Kernel.noDueTasksAry, h4 j hj]
    · rw [(h.due_lt c t ht).2]
      by_contra hlt
      rw [h4 c (by omega)] at ht
      simp at ht

/-- C3: in every state reached from the state built by `rtos_initRTOS` by timer tics,
by posting events and by suspend commands of a non-idle active task, and also right after
`onTimerTic`, `sendEvent` and `waitForEvent` in such a state, the active task is the idle task
if and only if every due counter is zero, otherwise it is the first entry of the due list of
the highest non-empty priority class, and no due task has a higher priority class than the
active task. -/
theorem reachable_active_is_head {cfg : Config} (hcfg : cfg.WellFormed)
    {tasks : List TaskInit} (ht : TasksOk cfg tasks) {sem : Nat → Nat} {k : Kernel}
    (hr : Reachable cfg tasks sem k) :
    ActiveIsHead cfg k ∧
    ActiveIsHead cfg (onTimerTic cfg k).1 ∧
    (∀ ev, ActiveIsHead cfg (sendEvent cfg k ev).1) ∧
    (∀ eventMask all timeout, k.pActiveTask ≠ IDLE_TASK_ID cfg →
      ActiveIsHead cfg (waitForEvent cfg k eventMask all timeout).1) := by
  obtain ⟨hI, hA⟩ := reachable_inv hcfg ht hr
  refine ⟨activeIsHead_of_inv hI hA.active_eq, ?_, fun ev => ?_, fun m a t hne => ?_⟩
  · obtain ⟨h1, h2, _⟩ := onTimerTic_inv hI hA
    exact activeIsHead_of_inv h1 h2
  · obtain ⟨h1, h2, _⟩ := sendEvent_inv hcfg hI hA ev
    exact activeIsHead_of_inv h1 h2
  · obtain ⟨h1, h2, _⟩ := waitForEvent_inv hcfg hI hA hne m a t
    exact activeIsHead_of_inv h1 h2

theorem tasksScenario_ok : TasksOk cfgScenario tasksScenario := by
  intro a ha
  simp only [tasksScenario, List.mem_cons, List.mem_singleton, List.not_mem_nil, or_false] at ha
  rcases ha with h | h | h <;> subst h <;> decide

theorem kAfterTic_reachable : Reachable cfgScenario tasksScenario (fun _ => 0) kAfterTic :=
  Reachable.timerTic Reachable.init

/-- C3, instance: the scenario state after the first timer tic. -/
theorem reachable_active_is_head_witness :
    cfgScenario.WellFormed ∧ TasksOk cfgScenario tasksScenario ∧
    Reachable cfgScenario tasksScenario (fun _ => 0) kAfterTic ∧
    ActiveIsHead cfgScenario kAfterTic ∧ kAfterTic.pActiveTask = 0 :=
  ⟨by decide, tasksScenario_ok, kAfterTic_reachable,
   (reachable_active_is_head (by decide) tasksScenario_ok kAfterTic_reachable).1, by decide⟩



theorem sum_count_range (l : List Nat) (n : Nat) (h : ∀ a ∈ l, a < n) :
    Finset.sum (Finset.range n) (fun t => l.count t) = l.length := by
  have := Multiset.sum_count_eq_card (s := Finset.range n) (m := (l : Multiset Nat))
    (by
      intro a ha
      exact Finset.mem_range.mpr (h a (by simpa using ha)))
  simpa using this

theorem tasksListedOnce_of_inv {cfg : Config} {k : Kernel} (h : ListsInv cfg k) :
    TasksListedOnce cfg k := by
  have hone : ∀ t, t < cfg.noTasks →
      k.pSuspendedTaskAry.count t
        + Finset.sum (Finset.range cfg.noPrioClasses)
            (fun c => (k.pDueTaskAryAry c).count t) = 1 := by
    intro t ht
    rw [Finset.sum_eq_single (k.taskAry t).prioClass]
    · exact h.once t ht
    · intro c _ hc
      apply List.count_eq_zero_of_not_mem
      intro hmem
      exact hc (h.due_lt c t hmem).2.symm
    · intro hn
      exact absurd (Finset.mem_range.mpr (h.prio_lt t ht)) hn
  refine ⟨h.susp_lt, fun c t ht => ?_, hone, ?_⟩
  · have hd := h.due_lt c t ht
    refine ⟨hd.1, ?_, hd.2⟩
    rw [← hd.2]
    exact h.prio_lt t hd.1
  · have h1 : Finset.sum (Finset.range cfg.noTasks) (fun t =>
        k.pSuspendedTaskAry.count t
          + Finset.sum (Finset.range cfg.noPrioClasses)
              (fun c => (k.pDueTaskAryAry c).count t)) = cfg.noTasks := by
      rw [Finset.sum_congr rfl (fun t ht => hone t (Finset.mem_range.mp ht))]
      simp
    rw [Finset.sum_add_distrib, Finset.sum_comm, sum_count_range _ _ h.susp_lt] at h1
    rw [Finset.sum_congr rfl (fun c _ =>
      sum_count_range (k.pDueTaskAryAry c) cfg.noTasks (fun a ha => (h.due_lt c a ha).1))] at h1
    exact h1

/-- C4: in the state built by `rtos_initRTOS` and in every state reached from it by timer
tics, by posting events and by suspend commands of a non-idle active task, and also right
after `onTimerTic`, `sendEvent` and `waitForEvent` in such a state, every task
`0..RTOS_NO_TASKS-1` occurs exactly once in the union of the suspended list and the due lists,
a task in a due list is in the list of its own priority class, and the number of suspended
tasks plus the sum of the numbers of due tasks is `RTOS_NO_TASKS`. -/
theorem reachable_tasks_listed_once {cfg : Config} (hcfg : cfg.WellFormed)
    {tasks : List TaskInit} (ht : TasksOk cfg tasks) {sem : Nat → Nat} {k : Kernel}
    (hr : Reachable cfg tasks sem k) :
    TasksListedOnce cfg (rtos_initRTOS cfg tasks sem) ∧
    TasksListedOnce cfg k ∧
    TasksListedOnce cfg (onTimerTic cfg k).1 ∧
    (∀ ev, TasksListedOnce cfg (sendEvent cfg k ev).1) ∧
    (∀ eventMask all timeout, k.pActiveTask ≠ IDLE_TASK_ID cfg →
      TasksListedOnce cfg (waitForEvent cfg k eventMask all timeout).1) := by
  obtain ⟨hI, hA⟩ := reachable_inv hcfg ht hr
  exact ⟨tasksListedOnce_of_inv (reachable_inv hcfg ht Reachable.init).1,
    tasksListedOnce_of_inv hI,
    tasksListedOnce_of_inv (onTimerTic_inv hI hA).1,
    fun ev => tasksListedOnce_of_inv (sendEvent_inv hcfg hI hA ev).1,
    fun m a t hne => tasksListedOnce_of_inv (waitForEvent_inv hcfg hI hA hne m a t).1⟩

/-- C4, instance: the scenario state after the first timer tic, one task is due and two
tasks are suspended. -/
theorem reachable_tasks_listed_once_witness :
    cfgScenario.WellFormed ∧ TasksOk cfgScenario tasksScenario ∧
    Reachable cfgScenario tasksScenario (fun _ => 0) kAfterTic ∧
    TasksListedOnce cfgScenario kAfterTic ∧
    kAfterTic.noSuspendedTasks = 2 ∧ kAfterTic.noDueTasksAry 1 = 1 :=
  ⟨by decide, tasksScenario_ok, kAfterTic_reachable,
   (reachable_tasks_listed_once (by decide) tasksScenario_ok kAfterTic_reachable).2.1,
   by decide, by decide⟩

/-! ## Frame properties of the operations -/

theorem lookForActiveTaskLoop_frame (k : Kernel) (n : Nat) :
    (lookForActiveTaskLoop k n).1.taskAry = k.taskAry ∧
    (lookForActiveTaskLoop k n).1.pSuspendedTaskAry = k.pSuspendedTaskAry ∧
    (lookForActiveTaskLoop k n).1.pDueTaskAryAry = k.pDueTaskAryAry ∧
    (lookForActiveTaskLoop k n).1.mutexVec = k.mutexVec ∧
    (lookForActiveTaskLoop k n).1.semaphoreAry = k.semaphoreAry ∧
    (lookForActiveTaskLoop k n).1.time = k.time := by
  induction n with
  | zero => exact ⟨rfl, rfl, rfl, rfl, rfl, rfl⟩
  | succ n ih =>
    unfold lookForActiveTaskLoop
    cases hd : k.pDueTaskAryAry n with
    | nil => exact ih
    | cons pT rest => exact ⟨rfl, rfl, rfl, rfl, rfl, rfl⟩

theorem select_frame (cfg : Config) (k : Kernel) (flag : Bool) :
    (if flag then lookForActiveTask cfg k else (k, false)).1.taskAry = k.taskAry ∧
    (if flag then lookForActiveTask cfg k else (k, false)).1.pSuspendedTaskAry
      = k.pSuspendedTaskAry ∧
    (if flag then lookForActiveTask cfg k else (k, false)).1.pDueTaskAryAry
      = k.pDueTaskAryAry ∧
    (if flag then lookForActiveTask cfg k else (k, false)).1.mutexVec = k.mutexVec ∧
    (if flag then lookForActiveTask cfg k else (k, false)).1.semaphoreAry = k.semaphoreAry ∧
    (if flag then lookForActiveTask cfg k else (k, false)).1.time = k.time := by
  cases flag
  · exact ⟨rfl, rfl, rfl, rfl, rfl, rfl⟩
  · exact lookForActiveTaskLoop_frame k cfg.noPrioClasses

theorem sendEvent_frame (cfg : Config) (k : Kernel) (ev : Nat) :
    (sendEvent cfg k ev).1.taskAry = (sendEventVisitAll cfg k ev).1.taskAry ∧
    (sendEvent cfg k ev).1.pSuspendedTaskAry = (sendEventVisitAll cfg k ev).1.pSuspendedTaskAry ∧
    (sendEvent cfg k ev).1.pDueTaskAryAry = (sendEventVisitAll cfg k ev).1.pDueTaskAryAry ∧
    (sendEvent cfg k ev).1.mutexVec =
      (if cfg.useMutex then k.mutexVec ||| (sendEventVisitAll cfg k ev).2.1.1 else k.mutexVec) ∧
    (sendEvent cfg k ev).1.semaphoreAry =
      (if cfg.useSemaphore
       then sendEventAccumulate cfg 8 (sendEventVisitAll cfg k ev).2.1.2 0 k.semaphoreAry
       else k.semaphoreAry) := by
  obtain ⟨h1, h2, h3, h4, h5, _⟩ :=
    select_frame cfg (sendEventDeliver cfg k ev).1 (sendEventDeliver cfg k ev).2
  obtain ⟨_, _, _, hf4, hf5, _⟩ := walkSuspended_frame cfg
    (sendEventVisit cfg (sendEventInit cfg ev).postedEventVec) k.pSuspendedTaskAry
    { k with pSuspendedTaskAry := [] }
    ((sendEventInit cfg ev).mutexToReleaseVec, (sendEventInit cfg ev).semaphoreToReleaseVec)
    false
  have hm : (sendEventVisitAll cfg k ev).1.mutexVec = k.mutexVec := hf4
  have hs : (sendEventVisitAll cfg k ev).1.semaphoreAry = k.semaphoreAry := hf5
  have e1 : (sendEvent cfg k ev).1.taskAry = (sendEventDeliver cfg k ev).1.taskAry := h1
  have e2 : (sendEvent cfg k ev).1.pSuspendedTaskAry
      = (sendEventDeliver cfg k ev).1.pSuspendedTaskAry := h2
  have e3 : (sendEvent cfg k ev).1.pDueTaskAryAry
      = (sendEventDeliver cfg k ev).1.pDueTaskAryAry := h3
  have e4 : (sendEvent cfg k ev).1.mutexVec = (sendEventDeliver cfg k ev).1.mutexVec := h4
  have e5 : (sendEvent cfg k ev).1.semaphoreAry
      = (sendEventDeliver cfg k ev).1.semaphoreAry := h5
  rw [e1, e2, e3, e4, e5, sendEventDeliver_eq]
  refine ⟨rfl, rfl, rfl, ?_, ?_⟩
  · show (if cfg.useMutex
        then (sendEventVisitAll cfg k ev).1.mutexVec ||| (sendEventVisitAll cfg k ev).2.1.1
        else (sendEventVisitAll cfg k ev).1.mutexVec) = _
    rw [hm]
  · show (if cfg.useSemaphore
        then sendEventAccumulate cfg 8 (sendEventVisitAll cfg k ev).2.1.2 0
               (sendEventVisitAll cfg k ev).1.semaphoreAry
        else (sendEventVisitAll cfg k ev).1.semaphoreAry) = _
    rw [hs]

theorem onTimerTicRoundRobin_frame (k : Kernel) (flag : Bool) :
    (∀ q, (onTimerTicRoundRobin k flag).1.taskAry q =
      { k.taskAry q with
          cntRoundRobin := ((onTimerTicRoundRobin k flag).1.taskAry q).cntRoundRobin }) ∧
    (onTimerTicRoundRobin k flag).1.pSuspendedTaskAry = k.pSuspendedTaskAry ∧
    (onTimerTicRoundRobin k flag).1.mutexVec = k.mutexVec ∧
    (onTimerTicRoundRobin k flag).1.semaphoreAry = k.semaphoreAry := by
  unfold onTimerTicRoundRobin
  simp only
  split
  · split
    · split
      · refine ⟨fun q => ?_, rfl, rfl, rfl⟩
        by_cases hq : q = k.pActiveTask
        · subst hq
          simp [Kernel.setTask]
        · simp [Kernel.setTask, Function.update_noteq hq]
      · refine ⟨fun q => ?_, rfl, rfl, rfl⟩
        by_cases hq : q = k.pActiveTask
        · subst hq
          simp [Kernel.setTask]
        · simp [Kernel.setTask, Function.update_noteq hq]
    · refine ⟨fun q => ?_, rfl, rfl, rfl⟩
      by_cases hq : q = k.pActiveTask
      · subst hq
        simp [Kernel.setTask]
      · simp [Kernel.setTask, Function.update_noteq hq]
  · exact ⟨fun q => rfl, rfl, rfl, rfl⟩

theorem onTimerTic_frame (cfg : Config) (k : Kernel) :
    (∀ q, (onTimerTic cfg k).1.taskAry q =
      { (onTimerTicVisitAll cfg k).1.taskAry q with
          cntRoundRobin := ((onTimerTic cfg k).1.taskAry q).cntRoundRobin }) ∧
    (onTimerTic cfg k).1.pSuspendedTaskAry = (onTimerTicVisitAll cfg k).1.pSuspendedTaskAry := by
  rw [onTimerTic_eq]
  cases hrr : cfg.roundRobinModeSupported
  · simp only [Bool.false_eq_true, if_false]
    obtain ⟨h1, h2, _⟩ := select_frame cfg (onTimerTicVisitAll cfg k).1
      (onTimerTicVisitAll cfg k).2.2
    cases hfl : (onTimerTicVisitAll cfg k).2.2
    · simp only [Bool.false_eq_true, if_false]
      refine ⟨fun q => ?_, ?_⟩ <;> first | rfl | trivial
    · rw [hfl] at h1 h2
      simp only [if_true] at h1 h2 ⊢
      rw [h1, h2]
      exact ⟨fun q => rfl, rfl⟩
  · simp only [if_true]
    obtain ⟨g1, g2, _⟩ := onTimerTicRoundRobin_frame (onTimerTicVisitAll cfg k).1
      (onTimerTicVisitAll cfg k).2.2
    obtain ⟨h1, h2, _⟩ := select_frame cfg
      (onTimerTicRoundRobin (onTimerTicVisitAll cfg k).1 (onTimerTicVisitAll cfg k).2.2).1
      (onTimerTicRoundRobin (onTimerTicVisitAll cfg k).1 (onTimerTicVisitAll cfg k).2.2).2
    cases hfl : (onTimerTicRoundRobin (onTimerTicVisitAll cfg k).1
      (onTimerTicVisitAll cfg k).2.2).2
    · simp only [Bool.false_eq_true, if_false]
      exact ⟨fun q => by rw [g1 q], g2⟩
    · rw [hfl] at h1 h2
      simp only [if_true] at h1 h2 ⊢
      rw [h1, h2]
      exact ⟨fun q => by rw [g1 q], g2⟩


/-! ## The result of the visit of the suspended tasks, task by task -/

theorem visitLocals_congr {σ : Type} (f : σ → Task → Task × σ) (ta tb : Nat → Task) :
    ∀ (l : List Nat) (s : σ), (∀ q ∈ l, ta q = tb q) →
      visitLocals f ta l s = visitLocals f tb l s := by
  intro l
  induction l with
  | nil => intro s _; rfl
  | cons p rest ih =>
    intro s h
    simp only [visitLocals]
    rw [h p (by simp)]
    exact ih _ (fun q hq => h q (by simp [hq]))

theorem visitLocals_append {σ : Type} (f : σ → Task → Task × σ) (ta : Nat → Task) :
    ∀ (l1 l2 : List Nat) (s : σ),
      visitLocals f ta (l1 ++ l2) s = visitLocals f ta l2 (visitLocals f ta l1 s) := by
  intro l1
  induction l1 with
  | nil => intro l2 s; rfl
  | cons p rest ih =>
    intro l2 s
    simp only [List.cons_append, visitLocals]
    exact ih _ _

theorem walkSuspended_susp {σ : Type} (cfg : Config) (f : σ → Task → Task × σ) :
    ∀ (rest : List Nat) (k : Kernel) (s : σ) (flag : Bool),
      (∀ q, q ∈ k.pSuspendedTaskAry → q ∈ (walkSuspended cfg f rest k s flag).1.pSuspendedTaskAry) ∧
      (∀ q, q ∈ (walkSuspended cfg f rest k s flag).1.pSuspendedTaskAry →
        q ∈ k.pSuspendedTaskAry ∨ q ∈ rest) := by
  intro rest
  induction rest with
  | nil =>
    intro k s flag
    exact ⟨fun q h => h, fun q h => Or.inl h⟩
  | cons p rest ih =>
    intro k s flag
    by_cases hm : ((k.taskAry p).postedEventVec != (f s (k.taskAry p)).1.postedEventVec
          && taskBecomesDue (f s (k.taskAry p)).1) = true
    · rw [walkSuspended_cons_move cfg f p rest k s flag hm]
      obtain ⟨h1, h2⟩ := ih (appendToDue cfg (k.setTask p (f s (k.taskAry p)).1) p)
        (f s (k.taskAry p)).2 true
      refine ⟨fun q hq => h1 q hq, fun q hq => ?_⟩
      rcases h2 q hq with h | h
      · exact Or.inl h
      · exact Or.inr (List.mem_cons_of_mem _ h)
    · rw [walkSuspended_cons_stay cfg f p rest k s flag hm]
      obtain ⟨h1, h2⟩ := ih { k.setTask p (f s (k.taskAry p)).1 with
            pSuspendedTaskAry := k.pSuspendedTaskAry ++ [p] } (f s (k.taskAry p)).2 flag
      refine ⟨fun q hq => h1 q (List.mem_append_left _ hq), fun q hq => ?_⟩
      rcases h2 q hq with h | h
      · rcases List.mem_append.mp h with h | h
        · exact Or.inl h
        · rw [List.mem_singleton] at h
          rw [h]
          exact Or.inr (List.mem_cons_self _ _)
      · exact Or.inr (List.mem_cons_of_mem _ h)


theorem walkSuspended_result {σ : Type} (cfg : Config) (f : σ → Task → Task × σ) :
    ∀ (rest : List Nat) (k : Kernel) (s : σ) (flag : Bool), rest.Nodup →
      (walkSuspended cfg f rest k s flag).2.1 = visitLocals f k.taskAry rest s ∧
      ∀ pre p post, rest = pre ++ p :: post →
        (walkSuspended cfg f rest k s flag).1.taskAry p =
          { (f (visitLocals f k.taskAry pre s) (k.taskAry p)).1 with
              cntRoundRobin := ((walkSuspended cfg f rest k s flag).1.taskAry p).cntRoundRobin } ∧
        (p ∈ (walkSuspended cfg f rest k s flag).1.pSuspendedTaskAry ↔
          (p ∈ k.pSuspendedTaskAry ∨
            visitMoves (k.taskAry p)
              (f (visitLocals f k.taskAry pre s) (k.taskAry p)).1 = false)) := by
  intro rest
  induction rest with
  | nil =>
    intro k s flag _
    refine ⟨rfl, fun pre p post h => ?_⟩
    cases pre <;> simp at h
  | cons p0 rest ih =>
    intro k s flag hnd
    have hp0 : p0 ∉ rest := (List.nodup_cons.mp hnd).1
    have hnd1 : rest.Nodup := (List.nodup_cons.mp hnd).2
    by_cases hm : ((k.taskAry p0).postedEventVec != (f s (k.taskAry p0)).1.postedEventVec
          && taskBecomesDue (f s (k.taskAry p0)).1) = true
    · rw [walkSuspended_cons_move cfg f p0 rest k s flag hm]
      have hta : ∀ q, q ≠ p0 →
          (appendToDue cfg (k.setTask p0 (f s (k.taskAry p0)).1) p0).taskAry q = k.taskAry q := by
        intro q hq
        rw [appendToDue_taskAry_ne cfg _ p0 q hq, setTask_taskAry_ne k p0 q _ hq]
      have hcg : ∀ (l : List Nat) (s1 : σ), (∀ q ∈ l, q ∈ rest) →
          visitLocals f (appendToDue cfg (k.setTask p0 (f s (k.taskAry p0)).1) p0).taskAry l s1
            = visitLocals f k.taskAry l s1 := by
        intro l s1 hl
        apply visitLocals_congr
        intro q hq
        exact hta q (fun e => hp0 (e ▸ hl q hq))
      obtain ⟨h1, h2⟩ := ih (appendToDue cfg (k.setTask p0 (f s (k.taskAry p0)).1) p0)
        (f s (k.taskAry p0)).2 true hnd1
      obtain ⟨_, _, _, _, _, hfr, _⟩ := walkSuspended_frame cfg f rest
        (appendToDue cfg (k.setTask p0 (f s (k.taskAry p0)).1) p0) (f s (k.taskAry p0)).2 true
      obtain ⟨hs1, hs2⟩ := walkSuspended_susp cfg f rest
        (appendToDue cfg (k.setTask p0 (f s (k.taskAry p0)).1) p0) (f s (k.taskAry p0)).2 true
      refine ⟨?_, fun pre p post hdec => ?_⟩
      · rw [h1, hcg rest _ (fun q hq => hq)]
        rfl
      · cases pre with
        | nil =>
          simp only [List.nil_append, List.cons.injEq] at hdec
          obtain ⟨hpp, _⟩ := hdec
          subst hpp
          simp only [visitLocals]
          refine ⟨?_, ?_⟩
          · have e1 := hfr p0 hp0
            rw [e1]
            have e2 := appendToDue_taskAry cfg (k.setTask p0 (f s (k.taskAry p0)).1) p0 p0
            rw [setTask_taskAry_same] at e2
            rw [e2]
          · constructor
            · intro hin
              rcases hs2 p0 hin with h | h
              · exact Or.inl h
              · exact absurd h hp0
            · intro hin
              rcases hin with h | h
              · exact hs1 p0 h
              · unfold visitMoves at h
                rw [hm] at h
                exact absurd h (by simp)
        | cons a pre1 =>
          simp only [List.cons_append, List.cons.injEq] at hdec
          obtain ⟨ha, hrest⟩ := hdec
          subst ha
          have hpin : p ∈ rest := by rw [hrest]; simp
          have hpne : p ≠ p0 := fun e => hp0 (e ▸ hpin)
          obtain ⟨g1, g2⟩ := h2 pre1 p post hrest
          rw [hcg pre1 _ (fun q hq => by rw [hrest]; simp [hq]), hta p hpne] at g1 g2
          exact ⟨g1, g2⟩
    · rw [walkSuspended_cons_stay cfg f p0 rest k s flag hm]
      have hta : ∀ q, q ≠ p0 →
          ({ k.setTask p0 (f s (k.taskAry p0)).1 with
              pSuspendedTaskAry := k.pSuspendedTaskAry ++ [p0] } : Kernel).taskAry q
            = k.taskAry q := by
        intro q hq
        exact setTask_taskAry_ne k p0 q _ hq
      have hcg : ∀ (l : List Nat) (s1 : σ), (∀ q ∈ l, q ∈ rest) →
          visitLocals f ({ k.setTask p0 (f s (k.taskAry p0)).1 with
              pSuspendedTaskAry := k.pSuspendedTaskAry ++ [p0] } : Kernel).taskAry l s1
            = visitLocals f k.taskAry l s1 := by
        intro l s1 hl
        apply visitLocals_congr
        intro q hq
        exact hta q (fun e => hp0 (e ▸ hl q hq))
      obtain ⟨h1, h2⟩ := ih { k.setTask p0 (f s (k.taskAry p0)).1 with
              pSuspendedTaskAry := k.pSuspendedTaskAry ++ [p0] } (f s (k.taskAry p0)).2 flag hnd1
      obtain ⟨_, _, _, _, _, hfr, _⟩ := walkSuspended_frame cfg f rest
        { k.setTask p0 (f s (k.taskAry p0)).1 with
              pSuspendedTaskAry := k.pSuspendedTaskAry ++ [p0] } (f s (k.taskAry p0)).2 flag
      obtain ⟨hs1, hs2⟩ := walkSuspended_susp cfg f rest
        { k.setTask p0 (f s (k.taskAry p0)).1 with
              pSuspendedTaskAry := k.pSuspendedTaskAry ++ [p0] } (f s (k.taskAry p0)).2 flag
      refine ⟨?_, fun pre p post hdec => ?_⟩
      · rw [h1, hcg rest _ (fun q hq => hq)]
        rfl
      · cases pre with
        | nil =>
          simp only [List.nil_append, List.cons.injEq] at hdec
          obtain ⟨hpp, _⟩ := hdec
          subst hpp
          simp only [visitLocals]
          refine ⟨?_, ?_⟩
          · have e1 := hfr p0 hp0
            rw [e1]
            show (k.setTask p0 (f s (k.taskAry p0)).1).taskAry p0 = _
            rw [setTask_taskAry_same]
          · constructor
            · intro _
              right
              unfold visitMoves
              rw [Bool.not_eq_true] at hm
              exact hm
            · intro _
              exact hs1 p0 (by simp)
        | cons a pre1 =>
          simp only [List.cons_append, List.cons.injEq] at hdec
          obtain ⟨ha, hrest⟩ := hdec
          subst ha
          have hpin : p ∈ rest := by rw [hrest]; simp
          have hpne : p ≠ p0 := fun e => hp0 (e ▸ hpin)
          obtain ⟨g1, g2⟩ := h2 pre1 p post hrest
          rw [hcg pre1 _ (fun q hq => by rw [hrest]; simp [hq]), hta p hpne] at g1 g2
          refine ⟨g1, ?_⟩
          rw [g2]
          simp only [List.mem_append, List.mem_singleton, hpne, or_false]
          rfl


theorem ListsInv.nodup {cfg : Config} {k : Kernel} (h : ListsInv cfg k) :
    k.pSuspendedTaskAry.Nodup := by
  rw [List.nodup_iff_count_le_one]
  intro a
  by_cases ha : a ∈ k.pSuspendedTaskAry
  · have := h.once a (h.susp_lt a ha)
    omega
  · rw [List.count_eq_zero_of_not_mem ha]
    exact Nat.zero_le _

theorem visitLocals_inv {σ : Type} {J : σ → Prop} {f : σ → Task → Task × σ} (hf : VisitOk J f)
    (ta : Nat → Task) : ∀ (l : List Nat) (s : σ), J s → J (visitLocals f ta l s) := by
  intro l
  induction l with
  | nil => intro s h; exact h
  | cons p rest ih =>
    intro s h
    exact ih _ (hf s (ta p) h).1

theorem walkSuspended_task {σ : Type} (cfg : Config) {J : σ → Prop} {f : σ → Task → Task × σ}
    (hf : VisitOk J f) (l : List Nat) (hnd : l.Nodup) (k0 : Kernel) (s : σ) (hJ : J s)
    (flag : Bool) (hk0 : k0.pSuspendedTaskAry = []) (t : Nat) (ht : t ∈ l) :
    ((walkSuspended cfg f l k0 s flag).1.taskAry t).eventMask = (k0.taskAry t).eventMask ∧
    (∀ j, (k0.taskAry t).postedEventVec.testBit j = true →
      ((walkSuspended cfg f l k0 s flag).1.taskAry t).postedEventVec.testBit j = true) ∧
    (∀ j, ((walkSuspended cfg f l k0 s flag).1.taskAry t).postedEventVec.testBit j = true →
      (k0.taskAry t).postedEventVec.testBit j = true ∨
      (k0.taskAry t).eventMask.testBit j = true) ∧
    (t ∉ (walkSuspended cfg f l k0 s flag).1.pSuspendedTaskAry →
      ((walkSuspended cfg f l k0 s flag).1.taskAry t).postedEventVec ≠ 0) := by
  obtain ⟨pre, post, hdec⟩ := List.append_of_mem ht
  obtain ⟨_, h2⟩ := walkSuspended_result cfg f l k0 s flag hnd
  obtain ⟨g1, g2⟩ := h2 pre t post hdec
  obtain ⟨_, v2, v3, v4⟩ := hf (visitLocals f k0.taskAry pre s) (k0.taskAry t)
    (visitLocals_inv hf k0.taskAry pre s hJ)
  have e1 : ((walkSuspended cfg f l k0 s flag).1.taskAry t).postedEventVec
      = (f (visitLocals f k0.taskAry pre s) (k0.taskAry t)).1.postedEventVec := by
    rw [g1]
  have e2 : ((walkSuspended cfg f l k0 s flag).1.taskAry t).eventMask
      = (k0.taskAry t).eventMask := by
    rw [g1]
    show (f (visitLocals f k0.taskAry pre s) (k0.taskAry t)).1.eventMask = _
    rw [v2]
  refine ⟨e2, ?_, ?_, ?_⟩
  · rw [e1]
    exact v3
  · rw [e1]
    exact v4
  · intro hnot
    rw [g2, hk0] at hnot
    simp only [List.not_mem_nil, false_or, Bool.not_eq_false] at hnot
    unfold visitMoves at hnot
    rw [Bool.and_eq_true] at hnot
    have hne := hnot.1
    rw [e1]
    intro hz
    rw [hz] at hne
    have : (k0.taskAry t).postedEventVec = 0 := by
      apply Nat.eq_of_testBit_eq
      intro j
      rw [Nat.zero_testBit]
      cases hb : (k0.taskAry t).postedEventVec.testBit j
      · rfl
      · have := v3 j hb
        rw [hz, Nat.zero_testBit] at this
        exact absurd this (by simp)
    rw [this] at hne
    simp at hne


theorem sendEvent_task {cfg : Config} (hcfg : cfg.WellFormed) {k : Kernel}
    (hnd : k.pSuspendedTaskAry.Nodup) (ev : Nat) (t : Nat) (ht : t ∈ k.pSuspendedTaskAry) :
    ((sendEvent cfg k ev).1.taskAry t).eventMask = (k.taskAry t).eventMask ∧
    (∀ j, (k.taskAry t).postedEventVec.testBit j = true →
      ((sendEvent cfg k ev).1.taskAry t).postedEventVec.testBit j = true) ∧
    (∀ j, ((sendEvent cfg k ev).1.taskAry t).postedEventVec.testBit j = true →
      (k.taskAry t).postedEventVec.testBit j = true ∨
      (k.taskAry t).eventMask.testBit j = true) ∧
    (t ∉ (sendEvent cfg k ev).1.pSuspendedTaskAry →
      ((sendEvent cfg k ev).1.taskAry t).postedEventVec ≠ 0) := by
  obtain ⟨_, _, _, hS, hSM, _, _⟩ := hcfg
  obtain ⟨f1, f2, _⟩ := sendEvent_frame cfg k ev
  rw [f1, f2]
  exact walkSuspended_task cfg (sendEventVisit_ok cfg hS hSM _) k.pSuspendedTaskAry hnd
    { k with pSuspendedTaskAry := [] } _ (sendEventInit_ok cfg hS ev) false rfl t ht

theorem onTimerTic_task (cfg : Config) {k : Kernel}
    (hnd : k.pSuspendedTaskAry.Nodup) (t : Nat) (ht : t ∈ k.pSuspendedTaskAry) :
    ((onTimerTic cfg k).1.taskAry t).eventMask = (k.taskAry t).eventMask ∧
    (∀ j, (k.taskAry t).postedEventVec.testBit j = true →
      ((onTimerTic cfg k).1.taskAry t).postedEventVec.testBit j = true) ∧
    (∀ j, ((onTimerTic cfg k).1.taskAry t).postedEventVec.testBit j = true →
      (k.taskAry t).postedEventVec.testBit j = true ∨
      (k.taskAry t).eventMask.testBit j = true) ∧
    (t ∉ (onTimerTic cfg k).1.pSuspendedTaskAry →
      ((onTimerTic cfg k).1.taskAry t).postedEventVec ≠ 0) := by
  obtain ⟨f1, f2⟩ := onTimerTic_frame cfg k
  have e1 : ((onTimerTic cfg k).1.taskAry t).eventMask
      = ((onTimerTicVisitAll cfg k).1.taskAry t).eventMask := by rw [f1 t]
  have e2 : ((onTimerTic cfg k).1.taskAry t).postedEventVec
      = ((onTimerTicVisitAll cfg k).1.taskAry t).postedEventVec := by rw [f1 t]
  rw [e1, e2, f2]
  exact walkSuspended_task cfg (onTimerTicVisit_ok _) k.pSuspendedTaskAry hnd
    { k with time := (k.time + 1) % 2 ^ cfg.timeBits, pSuspendedTaskAry := [] } ()
    trivial false rfl t ht

theorem and_not16_eq_zero (a m : Nat) (h : ∀ j, a.testBit j = true → m.testBit j = true) :
    a &&& not16 m = 0 := by
  apply Nat.eq_of_testBit_eq
  intro j
  rw [Nat.testBit_and, Nat.zero_testBit]
  cases hp : a.testBit j
  · simp
  · simp [testBit_not16, h j hp]

theorem suspendedPostedInMask_of_inv {cfg : Config} {k : Kernel} (h : ListsInv cfg k) :
    SuspendedPostedInMask k :=
  fun t ht => and_not16_eq_zero _ _ (h.posted_sub t ht)

theorem pushRetCodeOfContextSwitch_snd (k : Kernel) :
    (pushRetCodeOfContextSwitch k).2 =
      if (k.taskAry k.pActiveTask).postedEventVec > 0
      then some (k.taskAry k.pActiveTask).postedEventVec else none := by
  unfold pushRetCodeOfContextSwitch
  simp only
  split <;> rfl

/-- C9: a suspended task has got events of its event mask only,
`postedEventVec & ~eventMask == 0`.  This holds for every task in the suspended list in the
state built by `rtos_initRTOS`, in every state reached from it, and right after `onTimerTic`,
`sendEvent` and `waitForEvent` in such a state; it holds for a task which is suspended at
entry into `onTimerTic` or `sendEvent` also if the operation makes it leave the suspended
list (the event mask is not changed); and if `waitForEvent` returns immediately then the
posted events of the caller, which are the return code pushed by `rtos_waitForEvent`, are a
subset of the argument `eventMask`. -/
theorem reachable_posted_in_mask {cfg : Config} (hcfg : cfg.WellFormed)
    {tasks : List TaskInit} (ht : TasksOk cfg tasks) {sem : Nat → Nat} {k : Kernel}
    (hr : Reachable cfg tasks sem k) :
    SuspendedPostedInMask (rtos_initRTOS cfg tasks sem) ∧
    SuspendedPostedInMask k ∧
    (SuspendedPostedInMask (onTimerTic cfg k).1 ∧
      ∀ t ∈ k.pSuspendedTaskAry,
        ((onTimerTic cfg k).1.taskAry t).eventMask = (k.taskAry t).eventMask ∧
        ((onTimerTic cfg k).1.taskAry t).postedEventVec
          &&& not16 ((onTimerTic cfg k).1.taskAry t).eventMask = 0) ∧
    (∀ ev, SuspendedPostedInMask (sendEvent cfg k ev).1 ∧
      ∀ t ∈ k.pSuspendedTaskAry,
        ((sendEvent cfg k ev).1.taskAry t).eventMask = (k.taskAry t).eventMask ∧
        ((sendEvent cfg k ev).1.taskAry t).postedEventVec
          &&& not16 ((sendEvent cfg k ev).1.taskAry t).eventMask = 0) ∧
    (∀ eventMask all timeout, k.pActiveTask ≠ IDLE_TASK_ID cfg →
      SuspendedPostedInMask (waitForEvent cfg k eventMask all timeout).1 ∧
      ((waitForEvent cfg k eventMask all timeout).2 = false →
        ((waitForEvent cfg k eventMask all timeout).1.taskAry k.pActiveTask).postedEventVec
          &&& not16 eventMask = 0 ∧
        ∀ v, (rtos_waitForEvent cfg k eventMask all timeout).2 = some v →
          v = ((waitForEvent cfg k eventMask all timeout).1.taskAry k.pActiveTask).postedEventVec
          ∧ v &&& not16 eventMask = 0)) := by
  obtain ⟨hI, hA⟩ := reachable_inv hcfg ht hr
  refine ⟨suspendedPostedInMask_of_inv (reachable_inv hcfg ht Reachable.init).1,
    suspendedPostedInMask_of_inv hI,
    ⟨suspendedPostedInMask_of_inv (onTimerTic_inv hI hA).1, fun t hts => ?_⟩,
    fun ev => ⟨suspendedPostedInMask_of_inv (sendEvent_inv hcfg hI hA ev).1, fun t hts => ?_⟩,
    fun m a tmo hne => ?_⟩
  · obtain ⟨g1, _, g3, _⟩ := onTimerTic_task cfg hI.nodup t hts
    refine ⟨g1, and_not16_eq_zero _ _ (fun j hj => ?_)⟩
    rw [g1]
    rcases g3 j hj with h | h
    · exact hI.posted_sub t hts j h
    · exact h
  · obtain ⟨g1, _, g3, _⟩ := sendEvent_task hcfg hI.nodup ev t hts
    refine ⟨g1, and_not16_eq_zero _ _ (fun j hj => ?_)⟩
    rw [g1]
    rcases g3 j hj with h | h
    · exact hI.posted_sub t hts j h
    · exact h
  · obtain ⟨w1, _, w3⟩ := waitForEvent_inv hcfg hI hA hne m a tmo
    refine ⟨suspendedPostedInMask_of_inv w1, fun hfl => ?_⟩
    obtain ⟨_, _, wact, wsub⟩ := w3 hfl
    have hz := and_not16_eq_zero _ _ wsub
    refine ⟨hz, fun v hv => ?_⟩
    unfold rtos_waitForEvent at hv
    rw [pushRetCodeOfContextSwitch_snd, wact] at hv
    split at hv
    · have := Option.some.inj hv
      rw [← this]
      exact ⟨rfl, hz⟩
    · exact absurd hv (by simp)

/-- C9, instance: the scenario state after the first timer tic. -/
theorem reachable_posted_in_mask_witness :
    cfgScenario.WellFormed ∧ TasksOk cfgScenario tasksScenario ∧
    Reachable cfgScenario tasksScenario (fun _ => 0) kAfterTic ∧
    SuspendedPostedInMask kAfterTic ∧ kAfterTic.pSuspendedTaskAry = [1, 2] :=
  ⟨by decide, tasksScenario_ok, kAfterTic_reachable,
   (reachable_posted_in_mask (by decide) tasksScenario_ok kAfterTic_reachable).2.1, by decide⟩


/-! ## The two paths of `waitForEvent` -/

theorem waitForEvent_of_acquired (cfg : Config) (k : Kernel) (eventMask : Nat) (all : Bool)
    (timeout : Nat) (hu : (cfg.useSemaphore || cfg.useMutex) = true)
    (hacq : (acquireFreeSyncObjs cfg k eventMask all).2 = true) :
    waitForEvent cfg k eventMask all timeout
      = ((acquireFreeSyncObjs cfg k eventMask all).1, false) := by
  unfold waitForEvent
  simp only [hu, if_true, hacq]

theorem waitForEvent_snd (cfg : Config) (k : Kernel) (eventMask : Nat) (all : Bool)
    (timeout : Nat) :
    (waitForEvent cfg k eventMask all timeout).2 =
      !((cfg.useSemaphore || cfg.useMutex) && (acquireFreeSyncObjs cfg k eventMask all).2) := by
  unfold waitForEvent
  cases hu : (cfg.useSemaphore || cfg.useMutex)
  · simp
  · cases hacq : (acquireFreeSyncObjs cfg k eventMask all).2 <;> simp [hacq]

theorem waitForEvent_false_iff (cfg : Config) (k : Kernel) (eventMask : Nat) (all : Bool)
    (timeout : Nat) :
    (waitForEvent cfg k eventMask all timeout).2 = false ↔
      ((cfg.useSemaphore || cfg.useMutex) = true ∧
        (acquireFreeSyncObjs cfg k eventMask all).2 = true) := by
  rw [waitForEvent_snd]
  cases (cfg.useSemaphore || cfg.useMutex) <;>
    cases (acquireFreeSyncObjs cfg k eventMask all).2 <;> simp

theorem posted_ne_zero_of_all (p m : Nat)
    (h : (p ^^^ m) &&& not16 MASK_EVT_IS_TIMER = 0)
    (hm : m &&& not16 MASK_EVT_IS_TIMER ≠ 0) : p ≠ 0 := by
  intro hp
  rw [hp, Nat.zero_xor] at h
  exact hm h


theorem sendEvent_task_other (cfg : Config) (k : Kernel) (ev : Nat) (q : Nat)
    (hq : q ∉ k.pSuspendedTaskAry) :
    (sendEvent cfg k ev).1.taskAry q = k.taskAry q := by
  obtain ⟨f1, _⟩ := sendEvent_frame cfg k ev
  obtain ⟨_, _, _, _, _, hf6, _⟩ := walkSuspended_frame cfg
    (sendEventVisit cfg (sendEventInit cfg ev).postedEventVec) k.pSuspendedTaskAry
    { k with pSuspendedTaskAry := [] }
    ((sendEventInit cfg ev).mutexToReleaseVec, (sendEventInit cfg ev).semaphoreToReleaseVec)
    false
  rw [f1]
  exact hf6 q hq

theorem onTimerTic_task_other (cfg : Config) (k : Kernel) (q : Nat)
    (hq : q ∉ k.pSuspendedTaskAry) :
    ((onTimerTic cfg k).1.taskAry q).postedEventVec = (k.taskAry q).postedEventVec := by
  obtain ⟨f1, _⟩ := onTimerTic_frame cfg k
  obtain ⟨_, _, _, _, _, hf6, _⟩ := walkSuspended_frame cfg
    (onTimerTicVisit ((k.time + 1) % 2 ^ cfg.timeBits)) k.pSuspendedTaskAry
    { k with time := (k.time + 1) % 2 ^ cfg.timeBits, pSuspendedTaskAry := [] } () false
  rw [f1 q]
  show ((onTimerTicVisitAll cfg k).1.taskAry q).postedEventVec = _
  unfold onTimerTicVisitAll
  rw [hf6 q hq]

/-- C10: the resume cause handed over to a task is never null.  In every state reached from
the state built by `rtos_initRTOS`: a task which `onTimerTic` or `sendEvent` takes out of the
suspended list has a posted event vector different from null, while the posted events of the
tasks which are not suspended at entry are left as they are; if `waitForEvent` is called with
a mask which has at least one event besides the timers in case of `all` and returns
immediately, then the return code pushed by `rtos_waitForEvent` is the posted event vector
of the caller and it is not null; and whatever return code `PUSH_RET_CODE_OF_CONTEXT_SWITCH`
hands over at the end of the three interrupts is not null. -/
theorem resume_cause_ne_zero {cfg : Config} (hcfg : cfg.WellFormed)
    {tasks : List TaskInit} (ht : TasksOk cfg tasks) {sem : Nat → Nat} {k : Kernel}
    (hr : Reachable cfg tasks sem k) :
    (∀ t ∈ k.pSuspendedTaskAry, t ∉ (onTimerTic cfg k).1.pSuspendedTaskAry →
      ((onTimerTic cfg k).1.taskAry t).postedEventVec ≠ 0) ∧
    (∀ q, q ∉ k.pSuspendedTaskAry →
      ((onTimerTic cfg k).1.taskAry q).postedEventVec = (k.taskAry q).postedEventVec) ∧
    (∀ ev, ∀ t ∈ k.pSuspendedTaskAry, t ∉ (sendEvent cfg k ev).1.pSuspendedTaskAry →
      ((sendEvent cfg k ev).1.taskAry t).postedEventVec ≠ 0) ∧
    (∀ ev q, q ∉ k.pSuspendedTaskAry →
      ((sendEvent cfg k ev).1.taskAry q).postedEventVec = (k.taskAry q).postedEventVec) ∧
    (∀ eventMask all timeout,
      (all = true → eventMask &&& not16 MASK_EVT_IS_TIMER ≠ 0) →
      (waitForEvent cfg k eventMask all timeout).2 = false →
        ((waitForEvent cfg k eventMask all timeout).1.taskAry
          k.pActiveTask).postedEventVec ≠ 0 ∧
        (rtos_waitForEvent cfg k eventMask all timeout).2 =
          some ((waitForEvent cfg k eventMask all timeout).1.taskAry
            k.pActiveTask).postedEventVec) ∧
    (∀ eventMask all timeout v,
      (rtos_waitForEvent cfg k eventMask all timeout).2 = some v → v ≠ 0) ∧
    (∀ v, (pushRetCodeOfContextSwitch (onTimerTic cfg k).1).2 = some v → v ≠ 0) ∧
    (∀ ev v, (pushRetCodeOfContextSwitch (sendEvent cfg k ev).1).2 = some v → v ≠ 0) := by
  obtain ⟨hI, hA⟩ := reachable_inv hcfg ht hr
  have hpush : ∀ (k1 : Kernel) (v : Nat), (pushRetCodeOfContextSwitch k1).2 = some v → v ≠ 0 := by
    intro k1 v hv
    rw [pushRetCodeOfContextSwitch_snd] at hv
    split at hv
    · have := Option.some.inj hv
      omega
    · exact absurd hv (by simp)
  refine ⟨fun t hts => (onTimerTic_task cfg hI.nodup t hts).2.2.2,
    fun q hq => onTimerTic_task_other cfg k q hq,
    fun ev t hts => (sendEvent_task hcfg hI.nodup ev t hts).2.2.2,
    fun ev q hq => by rw [sendEvent_task_other cfg k ev q hq],
    fun m a tmo hpre hfl => ?_,
    fun m a tmo v hv => hpush _ v hv,
    fun v hv => hpush _ v hv,
    fun ev v hv => hpush _ v hv⟩
  obtain ⟨hu, hacq⟩ := (waitForEvent_false_iff cfg k m a tmo).mp hfl
  obtain ⟨h1, _, _, _, _, _, _, _, _, _, h11⟩ := acquireFreeSyncObjs_spec cfg hcfg.2.2.2.1 k m a
  have hw := waitForEvent_of_acquired cfg k m a tmo hu hacq
  rw [h11] at hacq
  have hne : ((acquireFreeSyncObjs cfg k m a).1.taskAry k.pActiveTask).postedEventVec ≠ 0 := by
    cases a
    · simpa using hacq
    · simp only [Bool.not_true, Bool.false_and, Bool.true_and, Bool.false_or,
        beq_iff_eq] at hacq
      exact posted_ne_zero_of_all _ _ hacq (hpre rfl)
  unfold rtos_waitForEvent
  rw [pushRetCodeOfContextSwitch_snd, hw]
  refine ⟨hne, ?_⟩
  show (if ((acquireFreeSyncObjs cfg k m a).1.taskAry
        (acquireFreeSyncObjs cfg k m a).1.pActiveTask).postedEventVec > 0 then _ else _) = _
  rw [h1, if_pos (Nat.pos_of_ne_zero hne)]



/-- C10, instance: in the scenario state after the first timer tic the broadcasted event
`0x0008` takes task 2 out of the suspended list, its resume cause is `0x0008`. -/
theorem resume_cause_ne_zero_witness :
    cfgScenario.WellFormed ∧ TasksOk cfgScenario tasksScenario ∧
    Reachable cfgScenario tasksScenario (fun _ => 0) kAfterTic ∧
    ((sendEvent cfgScenario kAfterTic 0x0008).1.taskAry 2).postedEventVec ≠ 0 ∧
    ((sendEvent cfgScenario kAfterTic 0x0008).1.taskAry 2).postedEventVec = 0x0008 ∧
    (sendEvent cfgScenario kAfterTic 0x0008).1.pSuspendedTaskAry = [1] :=
  ⟨by decide, tasksScenario_ok, kAfterTic_reachable,
   (resume_cause_ne_zero (by decide) tasksScenario_ok kAfterTic_reachable).2.2.1 0x0008 2
     (by decide) (by decide),
   by decide, by decide⟩


/-! ## Delivery of events, mutexes and semaphores by `sendEvent`

The theorems of this section need that no task is listed twice in the list of suspended
tasks, which is the case in every reachable state. -/

theorem reachable_nodup {cfg : Config} (hcfg : cfg.WellFormed) {tasks : List TaskInit}
    (ht : TasksOk cfg tasks) {sem : Nat → Nat} {k : Kernel}
    (hr : Reachable cfg tasks sem k) : k.pSuspendedTaskAry.Nodup :=
  (reachable_inv hcfg ht hr).1.nodup

theorem visitLocals_send_bits (cfg : Config) (hS : cfg.noSemaphoreEvents ≤ 8)
    (hSM : cfg.noSemaphoreEvents + cfg.noMutexEvents ≤ 14) (b : Nat) (ta : Nat → Task) :
    ∀ (l : List Nat) (s : Nat × Nat), SendLocalsOk cfg b s →
      (∀ j, (visitLocals (sendEventVisit cfg b) ta l s).1.testBit j =
        (s.1.testBit j && l.all (fun q => !(ta q).eventMask.testBit j))) ∧
      (∀ j, (visitLocals (sendEventVisit cfg b) ta l s).2.testBit j =
        (s.2.testBit j && l.all (fun q =>
          !((ta q).eventMask.testBit j && !(ta q).postedEventVec.testBit j)))) := by
  intro l
  induction l with
  | nil =>
    intro s _
    simp [visitLocals]
  | cons p rest ih =>
    intro s hs
    obtain ⟨_, _, h3, h4, _⟩ := sendEventTask_spec cfg hS hSM (ta p) b s hs
    have hs1 := sendEventTask_localsOk cfg hS hSM (ta p) b s hs
    obtain ⟨i1, i2⟩ := ih (sendEventTask cfg (ta p) b s.1 s.2).2 hs1
    refine ⟨fun j => ?_, fun j => ?_⟩
    · show (visitLocals (sendEventVisit cfg b) ta rest
        (sendEventTask cfg (ta p) b s.1 s.2).2).1.testBit j = _
      rw [i1 j, h3 j, List.all_cons, Bool.and_assoc]
    · show (visitLocals (sendEventVisit cfg b) ta rest
        (sendEventTask cfg (ta p) b s.1 s.2).2).2.testBit j = _
      rw [i2 j, h4 j, List.all_cons, Bool.and_assoc]

theorem sendEventInit_bits (cfg : Config) (hS : cfg.noSemaphoreEvents ≤ 8) (ev : Nat) (j : Nat) :
    (sendEventInit cfg ev).mutexToReleaseVec.testBit j =
      (ev.testBit j && decide (cfg.noSemaphoreEvents ≤ j)
        && decide (j < cfg.noSemaphoreEvents + cfg.noMutexEvents)) ∧
    (sendEventInit cfg ev).semaphoreToReleaseVec.testBit j =
      (ev.testBit j && decide (j < cfg.noSemaphoreEvents)) ∧
    (cfg.noSemaphoreEvents + cfg.noMutexEvents ≤ j → j < 16 →
      (sendEventInit cfg ev).postedEventVec.testBit j = ev.testBit j) := by
  unfold sendEventInit
  refine ⟨?_, ?_, fun h1 h2 => ?_⟩
  · simp only
    cases hm : cfg.useMutex
    · have hM0 : cfg.noMutexEvents = 0 := by simpa [Config.useMutex] using hm
      simp only [Bool.false_eq_true, if_false, Nat.zero_testBit]
      by_cases h1 : cfg.noSemaphoreEvents ≤ j
      · have : ¬ j < cfg.noSemaphoreEvents + cfg.noMutexEvents := by omega
        simp [this]
      · simp [h1]
    · simp only [if_true, Nat.testBit_and, testBit_MASK_EVT_IS_MUTEX, Bool.and_assoc]
  · simp only
    cases hs : cfg.useSemaphore
    · have hS0 : cfg.noSemaphoreEvents = 0 := by simpa [Config.useSemaphore] using hs
      simp [hS0]
    · have h256 : (0x100 : Nat) = 2 ^ 8 := by norm_num
      simp only [if_true]
      rw [h256, Nat.testBit_mod_two_pow, Nat.testBit_and, testBit_MASK_EVT_IS_SEMAPHORE]
      by_cases hj : j < cfg.noSemaphoreEvents
      · have : j < 8 := by omega
        simp [hj, this]
      · simp [hj]
  · simp only
    by_cases hu : (cfg.useMutex || cfg.useSemaphore) = true
    · rw [if_pos hu, Nat.testBit_and, testBit_not16, Nat.testBit_or,
        testBit_MASK_EVT_IS_MUTEX, testBit_MASK_EVT_IS_SEMAPHORE]
      have h3 : ¬ j < cfg.noSemaphoreEvents + cfg.noMutexEvents := by omega
      have h4 : ¬ j < cfg.noSemaphoreEvents := by omega
      simp [h2, h3, h4]
    · rw [if_neg hu]


theorem sendEventAccumulate_spec (cfg : Config) :
    ∀ (fuel v i : Nat) (sem : Nat → Nat), v < 2 ^ fuel → ∀ j,
      sendEventAccumulate cfg fuel v i sem j =
        if i ≤ j ∧ v.testBit (j - i) = true then (sem j + 1) % 2 ^ cfg.semaphoreBits
        else sem j := by
  intro fuel
  induction fuel with
  | zero =>
    intro v i sem hv j
    have hv0 : v = 0 := by simpa using hv
    subst hv0
    simp [sendEventAccumulate]
  | succ fuel ih =>
    intro v i sem hv j
    unfold sendEventAccumulate
    by_cases hz : v = 0
    · subst hz
      simp
    · have hne : (v != 0) = true := by simpa using hz
      rw [if_pos hne]
      have hv1 : v >>> 1 < 2 ^ fuel := by
        rw [Nat.shiftRight_eq_div_pow, pow_one]
        rw [pow_succ] at hv
        omega
      rw [ih (v >>> 1) (i + 1) _ hv1 j]
      have hbit : ∀ n, (v >>> 1).testBit n = v.testBit (n + 1) := by
        intro n
        rw [Nat.testBit_shiftRight, Nat.add_comm]
      have h0 : ((v &&& 0x01) != 0) = v.testBit 0 := by
        rw [Nat.testBit_zero, Nat.and_one_is_mod]
        rcases Nat.mod_two_eq_zero_or_one v with h | h <;> simp [h]
      rw [h0, hbit]
      by_cases hji : j = i
      · subst hji
        have : ¬ (j + 1 ≤ j) := by omega
        simp only [this, false_and, if_false, le_refl, true_and, Nat.sub_self]
        cases hb : v.testBit 0
        · simp
        · simp
      · by_cases hlt : i < j
        · have e1 : i + 1 ≤ j := hlt
          have e2 : j - (i + 1) + 1 = j - i := by omega
          have e3 : i ≤ j := by omega
          simp only [e1, e2, e3, true_and]
          cases hb : v.testBit 0
          · simp
          · simp [Function.update_noteq hji]
        · have e1 : ¬ (i + 1 ≤ j) := by omega
          have e3 : ¬ (i ≤ j) := by omega
          simp only [e1, e3, false_and, if_false]
          cases hb : v.testBit 0
          · simp
          · simp [Function.update_noteq hji]


theorem sendEvent_bits {cfg : Config} (hcfg : cfg.WellFormed) {k : Kernel}
    (hnd : k.pSuspendedTaskAry.Nodup) (ev : Nat) :
    (∀ pre t post, k.pSuspendedTaskAry = pre ++ t :: post → ∀ j,
      ((sendEvent cfg k ev).1.taskAry t).postedEventVec.testBit j =
        ((k.taskAry t).postedEventVec.testBit j ||
          (((sendEventInit cfg ev).postedEventVec.testBit j
            || ((sendEventInit cfg ev).mutexToReleaseVec.testBit j
                && pre.all (fun q => !(k.taskAry q).eventMask.testBit j))
            || ((sendEventInit cfg ev).semaphoreToReleaseVec.testBit j
                && pre.all (fun q => !((k.taskAry q).eventMask.testBit j
                                        && !(k.taskAry q).postedEventVec.testBit j))))
           && (k.taskAry t).eventMask.testBit j))) ∧
    (∀ j, (sendEvent cfg k ev).1.mutexVec.testBit j =
      (k.mutexVec.testBit j ||
        ((sendEventInit cfg ev).mutexToReleaseVec.testBit j
          && k.pSuspendedTaskAry.all (fun q => !(k.taskAry q).eventMask.testBit j)))) ∧
    (∀ j, (sendEvent cfg k ev).1.semaphoreAry j =
      if ((sendEventInit cfg ev).semaphoreToReleaseVec.testBit j
          && k.pSuspendedTaskAry.all (fun q => !((k.taskAry q).eventMask.testBit j
                                        && !(k.taskAry q).postedEventVec.testBit j))) = true
      then (k.semaphoreAry j + 1) % 2 ^ cfg.semaphoreBits else k.semaphoreAry j) := by
  obtain ⟨_, _, _, hS, hSM, _, _⟩ := hcfg
  obtain ⟨f1, _, _, f4, f5⟩ := sendEvent_frame cfg k ev
  have hok := sendEventInit_ok cfg hS ev
  obtain ⟨r1, r2⟩ := walkSuspended_result cfg
    (sendEventVisit cfg (sendEventInit cfg ev).postedEventVec) k.pSuspendedTaskAry
    { k with pSuspendedTaskAry := [] }
    ((sendEventInit cfg ev).mutexToReleaseVec, (sendEventInit cfg ev).semaphoreToReleaseVec)
    false hnd
  have hfin : (sendEventVisitAll cfg k ev).2.1 =
      visitLocals (sendEventVisit cfg (sendEventInit cfg ev).postedEventVec) k.taskAry
        k.pSuspendedTaskAry
        ((sendEventInit cfg ev).mutexToReleaseVec, (sendEventInit cfg ev).semaphoreToReleaseVec) :=
    r1
  obtain ⟨b1, b2⟩ := visitLocals_send_bits cfg hS hSM (sendEventInit cfg ev).postedEventVec
    k.taskAry k.pSuspendedTaskAry _ hok
  refine ⟨fun pre t post hdec j => ?_, fun j => ?_, fun j => ?_⟩
  · obtain ⟨g1, _⟩ := r2 pre t post hdec
    have e1 : ((sendEvent cfg k ev).1.taskAry t).postedEventVec =
        (sendEventTask cfg (k.taskAry t) (sendEventInit cfg ev).postedEventVec
          (visitLocals (sendEventVisit cfg (sendEventInit cfg ev).postedEventVec) k.taskAry pre
            ((sendEventInit cfg ev).mutexToReleaseVec,
             (sendEventInit cfg ev).semaphoreToReleaseVec)).1
          (visitLocals (sendEventVisit cfg (sendEventInit cfg ev).postedEventVec) k.taskAry pre
            ((sendEventInit cfg ev).mutexToReleaseVec,
             (sendEventInit cfg ev).semaphoreToReleaseVec)).2).1.postedEventVec := by
      rw [f1]
      show ((sendEventVisitAll cfg k ev).1.taskAry t).postedEventVec = _
      unfold sendEventVisitAll
      rw [g1]
      rfl
    have hpre := visitLocals_inv (sendEventVisit_ok cfg hS hSM (sendEventInit cfg ev).postedEventVec)
      k.taskAry pre _ hok
    obtain ⟨_, s2, _⟩ := sendEventTask_spec cfg hS hSM (k.taskAry t)
      (sendEventInit cfg ev).postedEventVec _ hpre
    obtain ⟨p1, p2⟩ := visitLocals_send_bits cfg hS hSM (sendEventInit cfg ev).postedEventVec
      k.taskAry pre _ hok
    rw [e1, s2 j, p1 j, p2 j]
  · rw [f4]
    cases hm : cfg.useMutex
    · simp only [Bool.false_eq_true, if_false]
      have : (sendEventInit cfg ev).mutexToReleaseVec = 0 := by
        simp [sendEventInit, hm]
      rw [this]
      simp
    · simp only [if_true]
      rw [Nat.testBit_or, hfin, b1 j]
  · rw [f5]
    cases hs : cfg.useSemaphore
    · simp only [Bool.false_eq_true, if_false]
      have : (sendEventInit cfg ev).semaphoreToReleaseVec = 0 := by
        simp [sendEventInit, hs]
      rw [this]
      simp
    · simp only [if_true]
      have hlt : (sendEventVisitAll cfg k ev).2.1.2 < 2 ^ 8 := by
        rw [hfin]
        have := (visitLocals_inv
          (sendEventVisit_ok cfg hS hSM (sendEventInit cfg ev).postedEventVec)
          k.taskAry k.pSuspendedTaskAry _ hok).2.2.2
        simpa using this
      rw [sendEventAccumulate_spec cfg 8 _ 0 _ hlt j, hfin]
      simp only [Nat.zero_le, true_and, Nat.sub_zero]
      rw [b2 j]


theorem first_unique {α : Type} (P : α → Prop) :
    ∀ (pre pre1 : List α) (t q : α) (post post1 : List α),
      pre ++ t :: post = pre1 ++ q :: post1 → P t → P q →
      (∀ x ∈ pre, ¬ P x) → (∀ x ∈ pre1, ¬ P x) → q = t := by
  intro pre
  induction pre with
  | nil =>
    intro pre1 t q post post1 h ht hq _ h1
    cases pre1 with
    | nil =>
      simp only [List.nil_append, List.cons.injEq] at h
      exact h.1.symm
    | cons a rest =>
      simp only [List.nil_append, List.cons_append, List.cons.injEq] at h
      exact absurd ht (h.1 ▸ h1 a (by simp))
  | cons a rest ih =>
    intro pre1 t q post post1 h ht hq h0 h1
    cases pre1 with
    | nil =>
      simp only [List.nil_append, List.cons_append, List.cons.injEq] at h
      exact absurd hq (h.1 ▸ h0 a (by simp))
    | cons b rest1 =>
      simp only [List.cons_append, List.cons.injEq] at h
      exact ih rest1 t q post post1 h.2 ht hq
        (fun x hx => h0 x (by simp [hx])) (fun x hx => h1 x (by simp [hx]))

theorem all_not_eq_true {l : List Nat} {p : Nat → Bool} :
    l.all (fun q => !p q) = true ↔ ∀ q ∈ l, p q = false := by
  simp [List.all_eq_true]


theorem sendEvent_mutex_bit {cfg : Config} (hcfg : cfg.WellFormed) {k : Kernel}
    (hnd : k.pSuspendedTaskAry.Nodup) (ev m : Nat) (hm1 : cfg.noSemaphoreEvents ≤ m)
    (hm2 : m < cfg.noSemaphoreEvents + cfg.noMutexEvents) (hev : ev.testBit m = true) :
    (∀ pre t post, k.pSuspendedTaskAry = pre ++ t :: post →
      ((sendEvent cfg k ev).1.taskAry t).postedEventVec.testBit m =
        ((k.taskAry t).postedEventVec.testBit m ||
          (pre.all (fun q => !(k.taskAry q).eventMask.testBit m)
            && (k.taskAry t).eventMask.testBit m))) ∧
    (sendEvent cfg k ev).1.mutexVec.testBit m =
      (k.mutexVec.testBit m ||
        k.pSuspendedTaskAry.all (fun q => !(k.taskAry q).eventMask.testBit m)) := by
  obtain ⟨h1, h2, _⟩ := sendEvent_bits hcfg hnd ev
  obtain ⟨i1, i2, _⟩ := sendEventInit_bits cfg hcfg.2.2.2.1 ev m
  have hb : (sendEventInit cfg ev).postedEventVec.testBit m = false := by
    cases hbb : (sendEventInit cfg ev).postedEventVec.testBit m
    · rfl
    · have := (sendEventInit_ok cfg hcfg.2.2.2.1 ev).1 m hbb
      omega
  have hmx : (sendEventInit cfg ev).mutexToReleaseVec.testBit m = true := by
    rw [i1, hev]
    simp [hm1, hm2]
  have hsx : (sendEventInit cfg ev).semaphoreToReleaseVec.testBit m = false := by
    rw [i2]
    have : ¬ m < cfg.noSemaphoreEvents := by omega
    simp [this]
  refine ⟨fun pre t post hdec => ?_, ?_⟩
  · rw [h1 pre t post hdec m, hb, hmx, hsx]
    simp
  · rw [h2 m, hmx]
    simp

theorem sendEvent_semaphore_bit {cfg : Config} (hcfg : cfg.WellFormed) {k : Kernel}
    (hnd : k.pSuspendedTaskAry.Nodup) (ev i : Nat) (hi : i < cfg.noSemaphoreEvents)
    (hev : ev.testBit i = true) :
    (∀ pre t post, k.pSuspendedTaskAry = pre ++ t :: post →
      ((sendEvent cfg k ev).1.taskAry t).postedEventVec.testBit i =
        ((k.taskAry t).postedEventVec.testBit i ||
          (pre.all (fun q => !((k.taskAry q).eventMask.testBit i
                               && !(k.taskAry q).postedEventVec.testBit i))
            && (k.taskAry t).eventMask.testBit i))) ∧
    (sendEvent cfg k ev).1.semaphoreAry i =
      (if k.pSuspendedTaskAry.all (fun q => !((k.taskAry q).eventMask.testBit i
                               && !(k.taskAry q).postedEventVec.testBit i)) = true
       then (k.semaphoreAry i + 1) % 2 ^ cfg.semaphoreBits else k.semaphoreAry i) := by
  obtain ⟨h1, _, h3⟩ := sendEvent_bits hcfg hnd ev
  obtain ⟨i1, i2, _⟩ := sendEventInit_bits cfg hcfg.2.2.2.1 ev i
  have hb : (sendEventInit cfg ev).postedEventVec.testBit i = false := by
    cases hbb : (sendEventInit cfg ev).postedEventVec.testBit i
    · rfl
    · have := (sendEventInit_ok cfg hcfg.2.2.2.1 ev).1 i hbb
      omega
  have hmx : (sendEventInit cfg ev).mutexToReleaseVec.testBit i = false := by
    rw [i1]
    have : ¬ cfg.noSemaphoreEvents ≤ i := by omega
    simp [this]
  have hsx : (sendEventInit cfg ev).semaphoreToReleaseVec.testBit i = true := by
    rw [i2, hev]
    simp [hi]
  refine ⟨fun pre t post hdec => ?_, ?_⟩
  · rw [h1 pre t post hdec i, hb, hmx, hsx]
    simp
  · rw [h3 i, hsx]
    simp

theorem sendEvent_broadcast_bit {cfg : Config} (hcfg : cfg.WellFormed) {k : Kernel}
    (hnd : k.pSuspendedTaskAry.Nodup) (ev b : Nat)
    (hb1 : cfg.noSemaphoreEvents + cfg.noMutexEvents ≤ b) (hb2 : b < 16)
    (hev : ev.testBit b = true) (t : Nat) (ht : t ∈ k.pSuspendedTaskAry) :
    ((sendEvent cfg k ev).1.taskAry t).postedEventVec.testBit b =
      ((k.taskAry t).postedEventVec.testBit b || (k.taskAry t).eventMask.testBit b) := by
  obtain ⟨h1, _, _⟩ := sendEvent_bits hcfg hnd ev
  obtain ⟨i1, i2, i3⟩ := sendEventInit_bits cfg hcfg.2.2.2.1 ev b
  obtain ⟨pre, post, hdec⟩ := List.append_of_mem ht
  rw [h1 pre t post hdec b, i3 hb1 hb2, hev]
  simp


theorem exists_first (p : Nat → Bool) :
    ∀ (l : List Nat), (∃ q ∈ l, p q = true) →
      ∃ pre t post, l = pre ++ t :: post ∧ p t = true ∧ ∀ x ∈ pre, p x = false := by
  intro l
  induction l with
  | nil =>
    rintro ⟨q, hq, _⟩
    simp at hq
  | cons a rest ih =>
    rintro ⟨q, hq, hpq⟩
    cases ha : p a
    · have hq1 : q ∈ rest := by
        rcases List.mem_cons.mp hq with h | h
        · rw [h, ha] at hpq
          exact absurd hpq (by simp)
        · exact h
      obtain ⟨pre, t, post, h1, h2, h3⟩ := ih ⟨q, hq1, hpq⟩
      refine ⟨a :: pre, t, post, by rw [h1]; rfl, h2, fun x hx => ?_⟩
      rcases List.mem_cons.mp hx with h | h
      · rw [h]; exact ha
      · exact h3 x h
    · exact ⟨[], a, rest, rfl, ha, fun x hx => by simp at hx⟩

theorem deliver_first (res posted mask p : Nat → Bool) (l : List Nat)
    (hp1 : ∀ q, p q = true → mask q = true)
    (hp2 : ∀ q, mask q = true → posted q = false → p q = true)
    (hF : ∀ pre t post, l = pre ++ t :: post →
      res t = (posted t || (pre.all (fun q => !p q) && mask t)))
    (hO : ∀ q, q ∉ l → res q = posted q) :
    (∀ pre t post, l = pre ++ t :: post → p t = true → (∀ x ∈ pre, p x = false) →
      res t = true ∧ ∀ q, q ≠ t → res q = posted q) ∧
    ((∀ q ∈ l, p q = false) → ∀ q, res q = posted q) := by
  have hkey : ∀ q, q ∈ l → (∀ pre1 post1, l = pre1 ++ q :: post1 →
      pre1.all (fun x => !p x) = true → p q = false) → res q = posted q := by
    intro q hq hno
    obtain ⟨pre1, post1, hdec⟩ := List.append_of_mem hq
    rw [hF pre1 q post1 hdec]
    cases hpo : posted q
    · cases hmq : mask q
      · simp
      · cases hall : pre1.all (fun x => !p x)
        · simp
        · have h1 := hno pre1 post1 hdec hall
          have h2 := hp2 q hmq hpo
          rw [h1] at h2
          exact absurd h2 (by simp)
    · simp
  refine ⟨fun pre t post hdec hpt hpre => ⟨?_, fun q hqt => ?_⟩, fun hnone q => ?_⟩
  · rw [hF pre t post hdec, all_not_eq_true.mpr hpre, hp1 t hpt]
    simp
  · by_cases hq : q ∈ l
    · apply hkey q hq
      intro pre1 post1 hdec1 hall
      cases hpq : p q
      · rfl
      · exfalso
        apply hqt
        exact first_unique (fun x => p x = true) pre pre1 t q post post1
          (hdec.symm.trans hdec1) hpt hpq
          (fun x hx => by simp [hpre x hx])
          (fun x hx => by simp [all_not_eq_true.mp hall x hx])
    · exact hO q hq
  · by_cases hq : q ∈ l
    · exact hkey q hq (fun _ _ _ _ => hnone q hq)
    · exact hO q hq

/-- C5: `sendEvent` passes a released mutex to one task.  Let `m` be a mutex event contained
in the posted event vector.  If `t` is the first task in the list of suspended tasks which has
`m` in its event mask then after `sendEvent` bit `m` is set in the posted events of `t`, bit
`m` of the posted events of every other task is unchanged, and bit `m` of `_mutexVec` is
unchanged, i.e. it is still 0 for a mutex which was in use; such a first task exists if any
suspended task has `m` in its mask.  If no suspended task has `m` in its event mask then bit
`m` of the posted events of no task changes and bit `m` of `_mutexVec` is set. -/
theorem sendEvent_mutex_delivery {cfg : Config} (hcfg : cfg.WellFormed) {k : Kernel}
    (hnd : k.pSuspendedTaskAry.Nodup) (ev m : Nat) (hm1 : cfg.noSemaphoreEvents ≤ m)
    (hm2 : m < cfg.noSemaphoreEvents + cfg.noMutexEvents) (hev : ev.testBit m = true) :
    ((∃ q ∈ k.pSuspendedTaskAry, (k.taskAry q).eventMask.testBit m = true) →
      ∃ pre t post, k.pSuspendedTaskAry = pre ++ t :: post ∧
        (k.taskAry t).eventMask.testBit m = true ∧
        ∀ q ∈ pre, (k.taskAry q).eventMask.testBit m = false) ∧
    (∀ pre t post, k.pSuspendedTaskAry = pre ++ t :: post →
      (k.taskAry t).eventMask.testBit m = true →
      (∀ q ∈ pre, (k.taskAry q).eventMask.testBit m = false) →
        ((sendEvent cfg k ev).1.taskAry t).postedEventVec.testBit m = true ∧
        (∀ q, q ≠ t → ((sendEvent cfg k ev).1.taskAry q).postedEventVec.testBit m =
          (k.taskAry q).postedEventVec.testBit m) ∧
        (sendEvent cfg k ev).1.mutexVec.testBit m = k.mutexVec.testBit m ∧
        (k.mutexVec.testBit m = false → (sendEvent cfg k ev).1.mutexVec.testBit m = false)) ∧
    ((∀ q ∈ k.pSuspendedTaskAry, (k.taskAry q).eventMask.testBit m = false) →
      (∀ q, ((sendEvent cfg k ev).1.taskAry q).postedEventVec.testBit m =
        (k.taskAry q).postedEventVec.testBit m) ∧
      (sendEvent cfg k ev).1.mutexVec.testBit m = true) := by
  obtain ⟨hF, hM⟩ := sendEvent_mutex_bit hcfg hnd ev m hm1 hm2 hev
  obtain ⟨d1, d2⟩ := deliver_first
    (fun q => ((sendEvent cfg k ev).1.taskAry q).postedEventVec.testBit m)
    (fun q => (k.taskAry q).postedEventVec.testBit m)
    (fun q => (k.taskAry q).eventMask.testBit m)
    (fun q => (k.taskAry q).eventMask.testBit m)
    k.pSuspendedTaskAry (fun _ h => h) (fun _ h _ => h) hF
    (fun q hq => by simp only [sendEvent_task_other cfg k ev q hq])
  refine ⟨exists_first _ _, fun pre t post hdec hmt hpre => ?_, fun hnone => ?_⟩
  · obtain ⟨e1, e2⟩ := d1 pre t post hdec hmt hpre
    have hall : k.pSuspendedTaskAry.all (fun q => !(k.taskAry q).eventMask.testBit m) = false := by
      rw [hdec]
      simp [hmt]
    have e3 : (sendEvent cfg k ev).1.mutexVec.testBit m = k.mutexVec.testBit m := by
      rw [hM, hall, Bool.or_false]
    exact ⟨e1, e2, e3, fun h0 => by rw [e3, h0]⟩
  · refine ⟨d2 hnone, ?_⟩
    rw [hM, all_not_eq_true.mpr hnone, Bool.or_true]

/-- C5, instance: the tasks 1 and 2 wait for the mutex event 2, which is released by task 0;
the mutex goes to task 1, task 2 stays suspended and the mutex is not available. -/
theorem sendEvent_mutex_delivery_witness :
    cfgScenario.WellFormed ∧ kMutexWait.pSuspendedTaskAry.Nodup ∧
    ((sendEvent cfgScenario kMutexWait 0x0004).1.taskAry 1).postedEventVec.testBit 2 = true ∧
    ((sendEvent cfgScenario kMutexWait 0x0004).1.taskAry 2).postedEventVec = 0 ∧
    (sendEvent cfgScenario kMutexWait 0x0004).1.pSuspendedTaskAry = [2] ∧
    (sendEvent cfgScenario kMutexWait 0x0004).1.mutexVec = 0 :=
  ⟨by decide, by decide,
   ((sendEvent_mutex_delivery (by decide) (by decide) 0x0004 2 (by decide) (by decide)
      (by decide)).2.1 [] 1 [2] (by decide) (by decide) (by simp)).1,
   by decide, by decide, by decide⟩


/-- C6: `sendEvent` passes a released semaphore to one task or counts it.  Let `i` be a
semaphore event contained in the posted event vector.  If `t` is the first task in the list of
suspended tasks which has `i` in its event mask and not yet in its posted events then after
`sendEvent` bit `i` is set in the posted events of `t`, bit `i` of the posted events of every
other task is unchanged and `rtos_semaphoreAry[i]` is unchanged; such a first task exists if
any suspended task waits for `i` this way.  If there is no such task then bit `i` of the
posted events of no task changes and `rtos_semaphoreAry[i]` is incremented by one in the type
of the counter, which is the former value plus one unless the counter overflows. -/
theorem sendEvent_semaphore_delivery {cfg : Config} (hcfg : cfg.WellFormed) {k : Kernel}
    (hnd : k.pSuspendedTaskAry.Nodup) (ev i : Nat) (hi : i < cfg.noSemaphoreEvents)
    (hev : ev.testBit i = true) :
    ((∃ q ∈ k.pSuspendedTaskAry, wantsSemaphore (k.taskAry q) i = true) →
      ∃ pre t post, k.pSuspendedTaskAry = pre ++ t :: post ∧
        wantsSemaphore (k.taskAry t) i = true ∧
        ∀ q ∈ pre, wantsSemaphore (k.taskAry q) i = false) ∧
    (∀ pre t post, k.pSuspendedTaskAry = pre ++ t :: post →
      wantsSemaphore (k.taskAry t) i = true →
      (∀ q ∈ pre, wantsSemaphore (k.taskAry q) i = false) →
        ((sendEvent cfg k ev).1.taskAry t).postedEventVec.testBit i = true ∧
        (∀ q, q ≠ t → ((sendEvent cfg k ev).1.taskAry q).postedEventVec.testBit i =
          (k.taskAry q).postedEventVec.testBit i) ∧
        (sendEvent cfg k ev).1.semaphoreAry i = k.semaphoreAry i) ∧
    ((∀ q ∈ k.pSuspendedTaskAry, wantsSemaphore (k.taskAry q) i = false) →
      (∀ q, ((sendEvent cfg k ev).1.taskAry q).postedEventVec.testBit i =
        (k.taskAry q).postedEventVec.testBit i) ∧
      (sendEvent cfg k ev).1.semaphoreAry i = (k.semaphoreAry i + 1) % 2 ^ cfg.semaphoreBits ∧
      (k.semaphoreAry i + 1 < 2 ^ cfg.semaphoreBits →
        (sendEvent cfg k ev).1.semaphoreAry i = k.semaphoreAry i + 1)) := by
  obtain ⟨hF, hM⟩ := sendEvent_semaphore_bit hcfg hnd ev i hi hev
  obtain ⟨d1, d2⟩ := deliver_first
    (fun q => ((sendEvent cfg k ev).1.taskAry q).postedEventVec.testBit i)
    (fun q => (k.taskAry q).postedEventVec.testBit i)
    (fun q => (k.taskAry q).eventMask.testBit i)
    (fun q => wantsSemaphore (k.taskAry q) i)
    k.pSuspendedTaskAry
    (fun q h => by
      unfold wantsSemaphore at h
      rw [Bool.and_eq_true] at h
      exact h.1)
    (fun q h1 h2 => by
      simp only at h1 h2
      simp only [wantsSemaphore, h1, h2, Bool.not_false, Bool.and_self])
    hF
    (fun q hq => by simp only [sendEvent_task_other cfg k ev q hq])
  refine ⟨exists_first _ _, fun pre t post hdec hmt hpre => ?_, fun hnone => ?_⟩
  · obtain ⟨e1, e2⟩ := d1 pre t post hdec hmt hpre
    have hall : k.pSuspendedTaskAry.all (fun q => !((k.taskAry q).eventMask.testBit i
                               && !(k.taskAry q).postedEventVec.testBit i)) = false := by
      rw [hdec]
      unfold wantsSemaphore at hmt
      simp only [List.all_append, List.all_cons, hmt, Bool.not_true, Bool.false_and,
        Bool.and_false]
    refine ⟨e1, e2, ?_⟩
    rw [hM, hall]
    simp
  · have hall : k.pSuspendedTaskAry.all (fun q => !((k.taskAry q).eventMask.testBit i
                               && !(k.taskAry q).postedEventVec.testBit i)) = true :=
      all_not_eq_true.mpr hnone
    have e3 : (sendEvent cfg k ev).1.semaphoreAry i
        = (k.semaphoreAry i + 1) % 2 ^ cfg.semaphoreBits := by
      rw [hM, hall]
      simp
    exact ⟨d2 hnone, e3, fun hlt => by rw [e3, Nat.mod_eq_of_lt hlt]⟩

/-- C6, instance (test case `tc15`): the semaphores `0x0E` are released while task 1 of higher
priority waits for `0x07` and task 2 of lower priority waits for `0x0F`; task 1 gets `0x06`,
task 2 gets `0x08` and no counter is incremented. -/
theorem sendEvent_semaphore_delivery_witness :
    cfgSemaphores.WellFormed ∧ kSemaphores.pSuspendedTaskAry.Nodup ∧
    ((sendEvent cfgSemaphores kSemaphores 0x0E).1.taskAry 1).postedEventVec.testBit 1 = true ∧
    ((sendEvent cfgSemaphores kSemaphores 0x0E).1.taskAry 1).postedEventVec = 0x06 ∧
    ((sendEvent cfgSemaphores kSemaphores 0x0E).1.taskAry 2).postedEventVec = 0x08 ∧
    ((sendEvent cfgSemaphores kSemaphores 0x0E).1.taskAry 3).postedEventVec = 0 ∧
    (∀ i, i < 8 → (sendEvent cfgSemaphores kSemaphores 0x0E).1.semaphoreAry i = 0) :=
  ⟨by decide, by decide,
   ((sendEvent_semaphore_delivery (by decide) (by decide) 0x0E 1 (by decide)
      (by decide)).2.1 [] 1 [2, 3] (by decide) (by decide) (by simp)).1,
   by decide, by decide, by decide, by decide⟩

/-- C8: `sendEvent` broadcasts an ordinary event.  Let `b` be an event contained in the posted
event vector which is neither a semaphore nor a mutex (this includes the events up to 13, which
are no timer events).  Then every task which is suspended at entry and has `b` in its event
mask has `b` in its posted events after `sendEvent`, whether it stays suspended or not, bit
`b` of the posted events of a task whose event mask lacks `b` is unchanged, and the task
objects of the tasks which are not suspended at entry are unchanged. -/
theorem sendEvent_broadcast_delivery {cfg : Config} (hcfg : cfg.WellFormed) {k : Kernel}
    (hnd : k.pSuspendedTaskAry.Nodup) (ev b : Nat)
    (hb1 : cfg.noSemaphoreEvents + cfg.noMutexEvents ≤ b) (hb2 : b < 16)
    (hev : ev.testBit b = true) :
    (∀ t ∈ k.pSuspendedTaskAry, (k.taskAry t).eventMask.testBit b = true →
      ((sendEvent cfg k ev).1.taskAry t).postedEventVec.testBit b = true) ∧
    (∀ q, (k.taskAry q).eventMask.testBit b = false →
      ((sendEvent cfg k ev).1.taskAry q).postedEventVec.testBit b =
        (k.taskAry q).postedEventVec.testBit b) ∧
    (∀ q, q ∉ k.pSuspendedTaskAry → (sendEvent cfg k ev).1.taskAry q = k.taskAry q) := by
  refine ⟨fun t ht hmt => ?_, fun q hmq => ?_, fun q hq => sendEvent_task_other cfg k ev q hq⟩
  · rw [sendEvent_broadcast_bit hcfg hnd ev b hb1 hb2 hev t ht, hmt, Bool.or_true]
  · by_cases hq : q ∈ k.pSuspendedTaskAry
    · rw [sendEvent_broadcast_bit hcfg hnd ev b hb1 hb2 hev q hq, hmq, Bool.or_false]
    · rw [sendEvent_task_other cfg k ev q hq]

/-- C8, instance: in the scenario state after the first timer tic event 3 is broadcasted;
task 2 waits for it and gets it, task 1 does not wait for it and gets nothing. -/
theorem sendEvent_broadcast_delivery_witness :
    cfgScenario.WellFormed ∧ kAfterTic.pSuspendedTaskAry.Nodup ∧
    ((sendEvent cfgScenario kAfterTic 0x0008).1.taskAry 2).postedEventVec.testBit 3 = true ∧
    ((sendEvent cfgScenario kAfterTic 0x0008).1.taskAry 1).postedEventVec = 0 :=
  ⟨by decide, by decide,
   (sendEvent_broadcast_delivery (by decide) (by decide) 0x0008 3 (by decide) (by decide)
      (by decide)).1 2 (by decide) (by decide),
   by decide⟩


/-! ## The immediate return of `waitForEvent` -/

theorem waitForEvent_suspended (cfg : Config) (k : Kernel) (eventMask : Nat) (all : Bool)
    (timeout : Nat) (hu : (cfg.useSemaphore || cfg.useMutex) = true)
    (hs : (waitForEvent cfg k eventMask all timeout).2 = true) :
    k.pActiveTask ∈ (waitForEvent cfg k eventMask all timeout).1.pSuspendedTaskAry ∧
    ((waitForEvent cfg k eventMask all timeout).1.taskAry k.pActiveTask).postedEventVec =
      ((acquireFreeSyncObjs cfg k eventMask all).1.taskAry k.pActiveTask).postedEventVec ∧
    (waitForEvent cfg k eventMask all timeout).1.mutexVec =
      (acquireFreeSyncObjs cfg k eventMask all).1.mutexVec ∧
    (waitForEvent cfg k eventMask all timeout).1.semaphoreAry =
      (acquireFreeSyncObjs cfg k eventMask all).1.semaphoreAry := by
  have hacq : (acquireFreeSyncObjs cfg k eventMask all).2 = false := by
    rw [waitForEvent_snd, hu] at hs
    simpa using hs
  have h1 : (acquireFreeSyncObjs cfg k eventMask all).1.pActiveTask = k.pActiveTask := by
    rw [acquireFreeSyncObjs_eq]
  obtain ⟨_, f2, _⟩ := storeResumeCondition_frame cfg
    (acquireFreeSyncObjs cfg k eventMask all).1.time
    ((acquireFreeSyncObjs cfg k eventMask all).1.taskAry k.pActiveTask) eventMask all timeout
  unfold waitForEvent
  simp only [hu, if_true, hacq, Bool.false_eq_true, if_false, h1]
  refine ⟨?_, ?_, rfl, rfl⟩
  · rw [mem_insertAt]
    exact Or.inl rfl
  · simp only [Kernel.setTask, Function.update_same]
    exact f2


/-- If neither semaphores nor mutexes are in use the caller of `waitForEvent` is always
suspended: it is put at the end of the list of suspended tasks and its posted events, the
mutexes and the semaphore counters are left as they are. -/
theorem waitForEvent_suspended_plain (cfg : Config) (k : Kernel) (eventMask : Nat) (all : Bool)
    (timeout : Nat) (hu : (cfg.useSemaphore || cfg.useMutex) = false) :
    (waitForEvent cfg k eventMask all timeout).2 = true ∧
    k.pActiveTask ∈ (waitForEvent cfg k eventMask all timeout).1.pSuspendedTaskAry ∧
    ((waitForEvent cfg k eventMask all timeout).1.taskAry k.pActiveTask).postedEventVec =
      (k.taskAry k.pActiveTask).postedEventVec ∧
    (waitForEvent cfg k eventMask all timeout).1.mutexVec = k.mutexVec ∧
    (waitForEvent cfg k eventMask all timeout).1.semaphoreAry = k.semaphoreAry := by
  obtain ⟨_, f2, _⟩ := storeResumeCondition_frame cfg k.time (k.taskAry k.pActiveTask)
    eventMask all timeout
  unfold waitForEvent
  simp only [hu, Bool.false_eq_true, if_false]
  refine ⟨trivial, ?_, ?_, rfl, rfl⟩
  · exact List.mem_append.mpr (Or.inr (List.mem_singleton.mpr rfl))
  · simp only [Kernel.setTask, Function.update_same]
    exact f2

/-- If neither semaphores nor mutexes are in use `acquireFreeSyncObjs` finds nothing to
acquire. -/
theorem acquireFreeSyncObjs_plain (cfg : Config) (hS : cfg.noSemaphoreEvents ≤ 8) (k : Kernel)
    (eventMask : Nat) (all : Bool) (hu : (cfg.useSemaphore || cfg.useMutex) = false) :
    ((acquireFreeSyncObjs cfg k eventMask all).1.taskAry k.pActiveTask).postedEventVec
      = (k.taskAry k.pActiveTask).postedEventVec ∧
    (acquireFreeSyncObjs cfg k eventMask all).1.mutexVec = k.mutexVec ∧
    (acquireFreeSyncObjs cfg k eventMask all).1.semaphoreAry = k.semaphoreAry := by
  obtain ⟨_, _, _, _, _, _, _, h8, h9, h10, _⟩ := acquireFreeSyncObjs_spec cfg hS k eventMask all
  have hs : cfg.useSemaphore = false := by
    cases h : cfg.useSemaphore
    · rfl
    · rw [h] at hu; simp at hu
  have hm : cfg.useMutex = false := by
    cases h : cfg.useMutex
    · rfl
    · rw [h] at hu; simp at hu
  have h0 : cfg.noSemaphoreEvents = 0 := by
    unfold Config.useSemaphore at hs
    simpa using hs
  refine ⟨?_, ?_, ?_⟩
  · apply Nat.eq_of_testBit_eq
    intro j
    rw [h8 j, hm, h0]
    simp
  · rw [h9, hm]
    simp
  · funext j
    rw [h10 j, h0]
    simp

/-- C7: the immediate return of `rtos_waitForEvent`.  Let the caller have no posted events at
entry, as it is for the active task.  For every mask and all-flag `acquireFreeSyncObjs` sets
the posted events of the caller to `eventMask & _mutexVec` together with every semaphore bit
of the mask whose counter is greater than null, clears the bits of the mask in `_mutexVec`,
and decrements exactly these semaphore counters by one (a counter which is null is not
decremented).  For every mask which `rtos_waitForEvent` admits (if `all` is true the mask has
an event besides the timer events): `rtos_waitForEvent` hands these events over to the caller
as return code, leaves the caller active and all lists unchanged if and only if `all` is
false and the posted events are not null, or `all` is true and
`(postedEventVec ^ eventMask) & ~MASK_EVT_IS_TIMER` is null.  If the caller is suspended
instead it is in the list of suspended tasks and keeps the acquired events, and the acquired
mutexes and semaphores stay taken.  This holds for every configuration, with and without
semaphores and mutexes. -/
theorem waitForEvent_short_circuit {cfg : Config} (hcfg : cfg.WellFormed) {k : Kernel}
    (hp : (k.taskAry k.pActiveTask).postedEventVec = 0)
    (eventMask : Nat) (all : Bool) (timeout : Nat) :
    (∀ j, ((acquireFreeSyncObjs cfg k eventMask all).1.taskAry
            k.pActiveTask).postedEventVec.testBit j =
      ((cfg.useMutex && (eventMask &&& k.mutexVec).testBit j) ||
       (decide (j < cfg.noSemaphoreEvents) && eventMask.testBit j
          && decide (k.semaphoreAry j > 0)))) ∧
    (acquireFreeSyncObjs cfg k eventMask all).1.mutexVec =
      (if cfg.useMutex then k.mutexVec &&& not16 eventMask else k.mutexVec) ∧
    (∀ j, (acquireFreeSyncObjs cfg k eventMask all).1.semaphoreAry j =
      if j < cfg.noSemaphoreEvents ∧ eventMask.testBit j = true ∧ k.semaphoreAry j > 0
      then k.semaphoreAry j - 1 else k.semaphoreAry j) ∧
    ((all = true → eventMask &&& not16 MASK_EVT_IS_TIMER ≠ 0) →
      ReturnsAcquiredIff cfg k eventMask all timeout ∧
      ((waitForEvent cfg k eventMask all timeout).2 = false →
        (waitForEvent cfg k eventMask all timeout).1.pActiveTask = k.pActiveTask ∧
        ((acquireFreeSyncObjs cfg k eventMask all).1.taskAry k.pActiveTask).postedEventVec
          ≠ 0)) ∧
    ((waitForEvent cfg k eventMask all timeout).2 = true →
      k.pActiveTask ∈ (waitForEvent cfg k eventMask all timeout).1.pSuspendedTaskAry ∧
      ((waitForEvent cfg k eventMask all timeout).1.taskAry k.pActiveTask).postedEventVec =
        ((acquireFreeSyncObjs cfg k eventMask all).1.taskAry k.pActiveTask).postedEventVec ∧
      (waitForEvent cfg k eventMask all timeout).1.mutexVec =
        (acquireFreeSyncObjs cfg k eventMask all).1.mutexVec ∧
      (waitForEvent cfg k eventMask all timeout).1.semaphoreAry =
        (acquireFreeSyncObjs cfg k eventMask all).1.semaphoreAry) := by
  obtain ⟨h1, _, h3, h4, _, _, _, h8, h9, h10, h11⟩ :=
    acquireFreeSyncObjs_spec cfg hcfg.2.2.2.1 k eventMask all
  have hbits : ∀ j, ((acquireFreeSyncObjs cfg k eventMask all).1.taskAry
            k.pActiveTask).postedEventVec.testBit j =
      ((cfg.useMutex && (eventMask &&& k.mutexVec).testBit j) ||
       (decide (j < cfg.noSemaphoreEvents) && eventMask.testBit j
          && decide (k.semaphoreAry j > 0))) := by
    intro j
    rw [h8 j]
    cases hm : cfg.useMutex
    · simp only [Bool.false_eq_true, if_false, hp, Nat.zero_testBit, Bool.false_and]
    · simp only [if_true, Bool.true_and]
  refine ⟨hbits, h9, h10, ?_, ?_⟩
  · intro hlegal
    cases hu : (cfg.useSemaphore || cfg.useMutex) with
    | true =>
      have hiff : (waitForEvent cfg k eventMask all timeout).2 = false ↔
          resumesImmediately
            ((acquireFreeSyncObjs cfg k eventMask all).1.taskAry k.pActiveTask).postedEventVec
            eventMask all = true := by
        rw [waitForEvent_false_iff, h11]
        unfold resumesImmediately
        exact ⟨fun h => h.2, fun h => ⟨hu, h⟩⟩
      have hne : (waitForEvent cfg k eventMask all timeout).2 = false →
          ((acquireFreeSyncObjs cfg k eventMask all).1.taskAry
            k.pActiveTask).postedEventVec ≠ 0 := by
        intro hfl
        have hr := hiff.mp hfl
        unfold resumesImmediately at hr
        cases all
        · simpa using hr
        · simp only [Bool.not_true, Bool.false_and, Bool.true_and, Bool.false_or,
            beq_iff_eq] at hr
          exact posted_ne_zero_of_all _ _ hr (hlegal rfl)
      have hstate : (waitForEvent cfg k eventMask all timeout).2 = false →
          (waitForEvent cfg k eventMask all timeout).1
            = (acquireFreeSyncObjs cfg k eventMask all).1 := by
        intro hfl
        obtain ⟨_, hacq⟩ := (waitForEvent_false_iff cfg k eventMask all timeout).mp hfl
        rw [waitForEvent_of_acquired cfg k eventMask all timeout hu hacq]
      refine ⟨?_, fun hfl => ⟨by rw [hstate hfl]; exact h1, hne hfl⟩⟩
      unfold ReturnsAcquiredIff
      constructor
      · intro h
        exact hiff.mp h.1
      · intro hr
        have hfl := hiff.mpr hr
        refine ⟨hfl, ?_, by rw [hstate hfl]; exact h3, by rw [hstate hfl]; exact h4⟩
        unfold rtos_waitForEvent
        rw [pushRetCodeOfContextSwitch_snd, hstate hfl, h1, if_pos (Nat.pos_of_ne_zero (hne hfl))]
    | false =>
      obtain ⟨hs, _⟩ := waitForEvent_suspended_plain cfg k eventMask all timeout hu
      obtain ⟨a1, _, _⟩ := acquireFreeSyncObjs_plain cfg hcfg.2.2.2.1 k eventMask all hu
      refine ⟨?_, fun hfl => by rw [hs] at hfl; exact absurd hfl (by decide)⟩
      unfold ReturnsAcquiredIff
      constructor
      · intro h
        rw [hs] at h
        exact absurd h.1 (by decide)
      · intro hr
        exfalso
        rw [a1, hp] at hr
        unfold resumesImmediately at hr
        cases all
        · simp at hr
        · simp only [Bool.not_true, Bool.false_and, Bool.true_and, Bool.false_or,
            beq_iff_eq, Nat.zero_xor] at hr
          exact hlegal rfl hr
  · intro hsusp
    cases hu : (cfg.useSemaphore || cfg.useMutex) with
    | true => exact waitForEvent_suspended cfg k eventMask all timeout hu hsusp
    | false =>
      obtain ⟨_, s2, s3, s4, s5⟩ := waitForEvent_suspended_plain cfg k eventMask all timeout hu
      obtain ⟨a1, a2, a3⟩ := acquireFreeSyncObjs_plain cfg hcfg.2.2.2.1 k eventMask all hu
      exact ⟨s2, by rw [s3, a1], by rw [s4, a2], by rw [s5, a3]⟩

/-- C7, instance (as in test case `tc13`): in the scenario state after the first timer tic
task 0 asks for the free mutex, event 2.  With `all = false` and with `all = true` (the delay
timer is in the mask) it gets the mutex immediately: the return code is `0x0004`, the task
stays active and the mutex is taken.  It asks for the semaphore 0, which has no count, and is
suspended. -/
theorem waitForEvent_short_circuit_witness :
    cfgScenario.WellFormed ∧
    (kAfterTic.taskAry kAfterTic.pActiveTask).postedEventVec = 0 ∧
    (true = true → 0x8004 &&& not16 MASK_EVT_IS_TIMER ≠ 0) ∧
    ReturnsAcquiredIff cfgScenario kAfterTic 0x8004 false 10 ∧
    ReturnsAcquiredIff cfgScenario kAfterTic 0x8004 true 10 ∧
    (rtos_waitForEvent cfgScenario kAfterTic 0x8004 false 10).2 = some 0x0004 ∧
    (rtos_waitForEvent cfgScenario kAfterTic 0x8004 true 10).2 = some 0x0004 ∧
    (waitForEvent cfgScenario kAfterTic 0x8004 true 10).2 = false ∧
    (rtos_waitForEvent cfgScenario kAfterTic 0x8004 false 10).1.mutexVec = 0 ∧
    (waitForEvent cfgScenario kAfterTic 0x8001 false 10).2 = true ∧
    (waitForEvent cfgScenario kAfterTic 0x8001 false 10).1.pSuspendedTaskAry = [0, 1, 2] ∧
    ((waitForEvent cfgScenario kAfterTic 0x8001 false 10).1.taskAry
      kAfterTic.pActiveTask).postedEventVec =
      ((acquireFreeSyncObjs cfgScenario kAfterTic 0x8001 false).1.taskAry
        kAfterTic.pActiveTask).postedEventVec :=
  ⟨by decide, by decide, by decide,
   ((waitForEvent_short_circuit (by decide) (by decide) 0x8004 false 10).2.2.2.1
      (by decide)).1,
   ((waitForEvent_short_circuit (by decide) (by decide) 0x8004 true 10).2.2.2.1
      (by decide)).1,
   by decide, by decide, by decide, by decide, by decide, by decide,
   ((waitForEvent_short_circuit (by decide) (by decide) 0x8001 false 10).2.2.2.2
      (by decide)).2.1⟩


/-! ## The global variables under the operations -/

theorem onTimerTicRoundRobin_time (k : Kernel) (flag : Bool) :
    (onTimerTicRoundRobin k flag).1.time = k.time := by
  unfold onTimerTicRoundRobin
  simp only
  split
  · split
    · split <;> rfl
    · rfl
  · rfl

theorem onTimerTic_globals (cfg : Config) (k : Kernel) :
    (onTimerTic cfg k).1.time = (k.time + 1) % 2 ^ cfg.timeBits ∧
    (onTimerTic cfg k).1.mutexVec = k.mutexVec ∧
    (onTimerTic cfg k).1.semaphoreAry = k.semaphoreAry := by
  obtain ⟨_, _, w3, w4, w5, _⟩ := walkSuspended_frame cfg
    (onTimerTicVisit ((k.time + 1) % 2 ^ cfg.timeBits)) k.pSuspendedTaskAry
    { k with time := (k.time + 1) % 2 ^ cfg.timeBits, pSuspendedTaskAry := [] } () false
  have v3 : (onTimerTicVisitAll cfg k).1.time = (k.time + 1) % 2 ^ cfg.timeBits := w3
  have v4 : (onTimerTicVisitAll cfg k).1.mutexVec = k.mutexVec := w4
  have v5 : (onTimerTicVisitAll cfg k).1.semaphoreAry = k.semaphoreAry := w5
  rw [onTimerTic_eq]
  cases hrr : cfg.roundRobinModeSupported
  · simp only [Bool.false_eq_true, if_false]
    obtain ⟨_, _, _, h4, h5, h6⟩ := select_frame cfg (onTimerTicVisitAll cfg k).1
      (onTimerTicVisitAll cfg k).2.2
    cases hfl : (onTimerTicVisitAll cfg k).2.2
    · simp only [Bool.false_eq_true, if_false]
      exact ⟨v3, v4, v5⟩
    · rw [hfl] at h4 h5 h6
      simp only [if_true] at h4 h5 h6 ⊢
      rw [h4, h5, h6]
      exact ⟨v3, v4, v5⟩
  · simp only [if_true]
    obtain ⟨_, _, g3, g4⟩ := onTimerTicRoundRobin_frame (onTimerTicVisitAll cfg k).1
      (onTimerTicVisitAll cfg k).2.2
    have g5 := onTimerTicRoundRobin_time (onTimerTicVisitAll cfg k).1
      (onTimerTicVisitAll cfg k).2.2
    obtain ⟨_, _, _, h4, h5, h6⟩ := select_frame cfg
      (onTimerTicRoundRobin (onTimerTicVisitAll cfg k).1 (onTimerTicVisitAll cfg k).2.2).1
      (onTimerTicRoundRobin (onTimerTicVisitAll cfg k).1 (onTimerTicVisitAll cfg k).2.2).2
    cases hfl : (onTimerTicRoundRobin (onTimerTicVisitAll cfg k).1
      (onTimerTicVisitAll cfg k).2.2).2
    · simp only [Bool.false_eq_true, if_false]
      exact ⟨g5.trans v3, g3.trans v4, g4.trans v5⟩
    · rw [hfl] at h4 h5 h6
      simp only [if_true] at h4 h5 h6 ⊢
      rw [h4, h5, h6]
      exact ⟨g5.trans v3, g3.trans v4, g4.trans v5⟩

theorem pushRetCodeOfContextSwitch_frame (k : Kernel) :
    (pushRetCodeOfContextSwitch k).1.time = k.time ∧
    (pushRetCodeOfContextSwitch k).1.mutexVec = k.mutexVec ∧
    (pushRetCodeOfContextSwitch k).1.semaphoreAry = k.semaphoreAry ∧
    (pushRetCodeOfContextSwitch k).1.pSuspendedTaskAry = k.pSuspendedTaskAry ∧
    (pushRetCodeOfContextSwitch k).1.pDueTaskAryAry = k.pDueTaskAryAry ∧
    (pushRetCodeOfContextSwitch k).1.pActiveTask = k.pActiveTask ∧
    (∀ q, (pushRetCodeOfContextSwitch k).1.taskAry q =
      { k.taskAry q with
          postedEventVec := ((pushRetCodeOfContextSwitch k).1.taskAry q).postedEventVec }) ∧
    (∀ q, q ≠ k.pActiveTask → (pushRetCodeOfContextSwitch k).1.taskAry q = k.taskAry q) ∧
    (∀ q, (k.taskAry q).postedEventVec = 0 →
      (pushRetCodeOfContextSwitch k).1.taskAry q = k.taskAry q) ∧
    ((pushRetCodeOfContextSwitch k).1.taskAry k.pActiveTask).postedEventVec = 0 := by
  unfold pushRetCodeOfContextSwitch
  simp only
  split
  · rename_i hpos
    refine ⟨rfl, rfl, rfl, rfl, rfl, rfl, fun q => ?_, fun q hq => ?_, fun q hq => ?_, ?_⟩
    · by_cases hq : q = k.pActiveTask
      · subst hq
        simp [Kernel.setTask]
      · simp [Kernel.setTask, Function.update_noteq hq]
    · simp [Kernel.setTask, Function.update_noteq hq]
    · have hne : q ≠ k.pActiveTask := by
        intro e
        rw [e] at hq
        omega
      simp [Kernel.setTask, Function.update_noteq hne]
    · simp [Kernel.setTask]
  · rename_i hpos
    refine ⟨rfl, rfl, rfl, rfl, rfl, rfl, fun q => rfl, fun q _ => rfl, fun q _ => rfl, ?_⟩
    show (k.taskAry k.pActiveTask).postedEventVec = 0
    omega

theorem isrSystemTimerTic_eq (cfg : Config) (k : Kernel) :
    isrSystemTimerTic cfg k =
      if (onTimerTic cfg k).2 then (pushRetCodeOfContextSwitch (onTimerTic cfg k).1).1
      else (onTimerTic cfg k).1 := rfl

theorem isrSystemTimerTic_globals (cfg : Config) (k : Kernel) :
    (isrSystemTimerTic cfg k).time = (k.time + 1) % 2 ^ cfg.timeBits ∧
    (isrSystemTimerTic cfg k).mutexVec = k.mutexVec ∧
    (isrSystemTimerTic cfg k).semaphoreAry = k.semaphoreAry ∧
    (isrSystemTimerTic cfg k).pSuspendedTaskAry = (onTimerTic cfg k).1.pSuspendedTaskAry ∧
    (isrSystemTimerTic cfg k).pDueTaskAryAry = (onTimerTic cfg k).1.pDueTaskAryAry ∧
    (isrSystemTimerTic cfg k).pActiveTask = (onTimerTic cfg k).1.pActiveTask ∧
    (∀ q, ((onTimerTic cfg k).1.taskAry q).postedEventVec = 0 →
      (isrSystemTimerTic cfg k).taskAry q = (onTimerTic cfg k).1.taskAry q) := by
  obtain ⟨h1, h2, h3⟩ := onTimerTic_globals cfg k
  obtain ⟨p1, p2, p3, p4, p5, p6, _, _, p9, _⟩ :=
    pushRetCodeOfContextSwitch_frame (onTimerTic cfg k).1
  rw [isrSystemTimerTic_eq]
  cases (onTimerTic cfg k).2
  · rw [if_neg (by simp)]
    exact ⟨h1, h2, h3, rfl, rfl, rfl, fun _ _ => rfl⟩
  · rw [if_pos rfl]
    exact ⟨p1.trans h1, p2.trans h2, p3.trans h3, p4, p5, p6, p9⟩

theorem rtos_initRTOS_globals (cfg : Config) (tasks : List TaskInit) (sem : Nat → Nat) :
    (rtos_initRTOS cfg tasks sem).time = 2 ^ cfg.timeBits - 1 ∧
    (rtos_initRTOS cfg tasks sem).mutexVec = MASK_EVT_IS_MUTEX cfg ∧
    (rtos_initRTOS cfg tasks sem).semaphoreAry = sem := by
  have h1 := foldl_range_induct
    (fun (k : Kernel) (idxTask : Nat) =>
      match tasks.get? idxTask with
      | some a => rtos_initializeTask cfg k idxTask a
      | none => k)
    (fun (_ : Nat) (k : Kernel) => k.time = 2 ^ cfg.timeBits - 1 ∧
      k.mutexVec = MASK_EVT_IS_MUTEX cfg ∧ k.semaphoreAry = sem)
    (staticData cfg sem) ⟨rfl, rfl, rfl⟩
    (by
      rintro n k ⟨a1, a2, a3⟩
      simp only
      split
      · simp only [rtos_initializeTask, setTask_time, setTask_mutexVec, setTask_semaphoreAry]
        exact ⟨a1, a2, a3⟩
      · exact ⟨a1, a2, a3⟩)
    cfg.noTasks
  have h2 := foldl_range_induct (initRTOSTask cfg)
    (fun (_ : Nat) (k : Kernel) => k.time = 2 ^ cfg.timeBits - 1 ∧
      k.mutexVec = MASK_EVT_IS_MUTEX cfg ∧ k.semaphoreAry = sem)
    (setup cfg tasks (staticData cfg sem)) h1
    (by
      rintro n k ⟨a1, a2, a3⟩
      unfold initRTOSTask
      simp only
      split
      · exact ⟨a1, a2, a3⟩
      · exact ⟨a1, a2, a3⟩)
    cfg.noTasks
  exact h2

theorem onTimerTic_task_result (cfg : Config) {k : Kernel} (hnd : k.pSuspendedTaskAry.Nodup)
    (t : Nat) (ht : t ∈ k.pSuspendedTaskAry) :
    (onTimerTic cfg k).1.taskAry t =
      { onTimerTicTask ((k.time + 1) % 2 ^ cfg.timeBits) (k.taskAry t) with
          cntRoundRobin := ((onTimerTic cfg k).1.taskAry t).cntRoundRobin } ∧
    (t ∈ (onTimerTic cfg k).1.pSuspendedTaskAry ↔
      visitMoves (k.taskAry t)
        (onTimerTicTask ((k.time + 1) % 2 ^ cfg.timeBits) (k.taskAry t)) = false) := by
  obtain ⟨f1, f2⟩ := onTimerTic_frame cfg k
  obtain ⟨pre, post, hdec⟩ := List.append_of_mem ht
  obtain ⟨_, r2⟩ := walkSuspended_result cfg
    (onTimerTicVisit ((k.time + 1) % 2 ^ cfg.timeBits)) k.pSuspendedTaskAry
    { k with time := (k.time + 1) % 2 ^ cfg.timeBits, pSuspendedTaskAry := [] } () false hnd
  obtain ⟨g1, g2⟩ := r2 pre t post hdec
  have g1a : (onTimerTicVisitAll cfg k).1.taskAry t =
      { onTimerTicTask ((k.time + 1) % 2 ^ cfg.timeBits) (k.taskAry t) with
          cntRoundRobin := ((onTimerTicVisitAll cfg k).1.taskAry t).cntRoundRobin } := g1
  have g2a : t ∈ (onTimerTicVisitAll cfg k).1.pSuspendedTaskAry ↔
      visitMoves (k.taskAry t)
        (onTimerTicTask ((k.time + 1) % 2 ^ cfg.timeBits) (k.taskAry t)) = false := by
    have : t ∈ (onTimerTicVisitAll cfg k).1.pSuspendedTaskAry ↔
        (t ∈ ([] : List Nat) ∨ visitMoves (k.taskAry t)
          (onTimerTicTask ((k.time + 1) % 2 ^ cfg.timeBits) (k.taskAry t)) = false) := g2
    simpa using this
  refine ⟨?_, by rw [f2]; exact g2a⟩
  rw [f1 t, g1a]

/-- C13: every invocation of `onTimerTic` replaces `_time` by `(_time + 1) mod 2^W`, where `W`
is the width of the system time; `rtos_initRTOS` leaves the initial value `2^W - 1` of
`_time`, hence the time after the first invocation is 0, and the first invocation treats each
suspended task with the time 0: the task object after the invocation is the result of the
timer checks of the loop body with `_time == 0` (apart from the round robin counter, which
is reloaded when the task becomes due). -/
theorem onTimerTic_increments_time {cfg : Config} (hcfg : cfg.WellFormed)
    {tasks : List TaskInit} (ht : TasksOk cfg tasks) (sem : Nat → Nat) :
    (∀ k, (onTimerTic cfg k).1.time = (k.time + 1) % 2 ^ cfg.timeBits) ∧
    (∀ k, (isrSystemTimerTic cfg k).time = (k.time + 1) % 2 ^ cfg.timeBits) ∧
    (rtos_initRTOS cfg tasks sem).time = 2 ^ cfg.timeBits - 1 ∧
    (onTimerTic cfg (rtos_initRTOS cfg tasks sem)).1.time = 0 ∧
    (∀ t ∈ (rtos_initRTOS cfg tasks sem).pSuspendedTaskAry,
      (onTimerTic cfg (rtos_initRTOS cfg tasks sem)).1.taskAry t =
        { onTimerTicTask 0 ((rtos_initRTOS cfg tasks sem).taskAry t) with
            cntRoundRobin :=
              ((onTimerTic cfg (rtos_initRTOS cfg tasks sem)).1.taskAry t).cntRoundRobin }) := by
  obtain ⟨hI, _⟩ := rtos_initRTOS_inv hcfg tasks ht sem
  obtain ⟨g1, _, _⟩ := rtos_initRTOS_globals cfg tasks sem
  have h0 : ((rtos_initRTOS cfg tasks sem).time + 1) % 2 ^ cfg.timeBits = 0 := by
    rw [g1, Nat.sub_add_cancel Nat.one_le_two_pow, Nat.mod_self]
  refine ⟨fun k => (onTimerTic_globals cfg k).1, fun k => (isrSystemTimerTic_globals cfg k).1,
    g1, ?_, fun t hts => ?_⟩
  · rw [(onTimerTic_globals cfg _).1, h0]
  · have := (onTimerTic_task_result cfg hI.nodup t hts).1
    rw [h0] at this
    exact this

/-- C13, instance: with the 16 Bit system time of the scenario `_time` is `0xFFFF` after
`rtos_initRTOS` and 0 after the first invocation of `onTimerTic`. -/
theorem onTimerTic_increments_time_witness :
    cfgScenario.WellFormed ∧ TasksOk cfgScenario tasksScenario ∧
    (rtos_initRTOS cfgScenario tasksScenario (fun _ => 0)).time = 0xFFFF ∧
    (onTimerTic cfgScenario (rtos_initRTOS cfgScenario tasksScenario (fun _ => 0))).1.time = 0 :=
  ⟨by decide, tasksScenario_ok, by decide,
   (onTimerTic_increments_time (by decide) tasksScenario_ok (fun _ => 0)).2.2.2.1⟩



/-! ## The absolute timer in `storeResumeCondition` -/

theorem toIntTime_congr (cfg : Config) (x y : Int)
    (h : x % (2 : Int) ^ cfg.timeBits = y % (2 : Int) ^ cfg.timeBits) :
    toIntTime cfg x = toIntTime cfg y := by
  unfold toIntTime
  simp only [h]

theorem toIntTime_signed (cfg : Config) (hW : 0 < cfg.timeBits) (x : Int) :
    toIntTime cfg x % (2 : Int) ^ cfg.timeBits = x % (2 : Int) ^ cfg.timeBits ∧
    -((2 : Int) ^ (cfg.timeBits - 1)) ≤ toIntTime cfg x ∧
    toIntTime cfg x < (2 : Int) ^ (cfg.timeBits - 1) := by
  have hpow : (2 : Int) ^ cfg.timeBits = 2 * (2 : Int) ^ (cfg.timeBits - 1) := by
    conv_lhs => rw [← Nat.sub_add_cancel hW]
    rw [pow_succ]
    ring
  have hpos : (0 : Int) < (2 : Int) ^ (cfg.timeBits - 1) := by positivity
  have hM : (0 : Int) < (2 : Int) ^ cfg.timeBits := by positivity
  have h0 := Int.emod_nonneg x (ne_of_gt hM)
  have h1 := Int.emod_lt_of_pos x hM
  unfold toIntTime
  simp only
  split
  · refine ⟨Int.emod_emod_of_dvd x (dvd_refl _), ?_, ?_⟩ <;> omega
  · refine ⟨?_, ?_, ?_⟩
    · rw [Int.sub_emod, Int.emod_self, sub_zero, Int.emod_emod_of_dvd _ (dvd_refl _),
        Int.emod_emod_of_dvd _ (dvd_refl _)]
    · omega
    · omega

theorem shifted_difference (M a b c : Nat) :
    (((a + c) % M : Nat) : Int) - (((b + c) % M : Nat) : Int) ≡ (a : Int) - (b : Int)
      [ZMOD (M : Int)] := by
  have h1 : (((a + c) % M : Nat) : Int) ≡ (a : Int) + (c : Int) [ZMOD (M : Int)] := by
    rw [Int.natCast_mod]
    push_cast
    exact Int.mod_modEq _ _
  have h2 : (((b + c) % M : Nat) : Int) ≡ (b : Int) + (c : Int) [ZMOD (M : Int)] := by
    rw [Int.natCast_mod]
    push_cast
    exact Int.mod_modEq _ _
  have := Int.ModEq.sub h1 h2
  have e : (a : Int) + c - (b + c) = a - b := by ring
  rw [e] at this
  exact this


/-- C12: a suspend command which requests the absolute timer.  `storeResumeCondition` sets
`timeDueAt` to `(timeDueAt + timeout) mod 2^W` and recognizes an overrun if and only if
`(intTime_t)(timeDueAt - _time)`, which is the difference modulo `2^W` read as a signed `W`
Bit integer, is less than or equal to null.  On an overrun `cntOverrun` becomes
`min(cntOverrun + 1, 255)` and `timeDueAt` becomes `(_time + 1) mod 2^W` if
`RTOS_OVERRUN_TASK_IS_IMMEDIATELY_DUE` is on; without an overrun `cntOverrun` is unchanged.
The delay counter is not touched.  If `timeDueAt` and `_time` are both shifted by a constant
`c` modulo `2^W` the result is the same, with the new `timeDueAt` shifted by `c`. -/
theorem storeResumeCondition_absolute_timer (cfg : Config) (hW : 0 < cfg.timeBits)
    (time : Nat) (t : Task) (eventMask : Nat) (all : Bool) (timeout : Nat)
    (hm : eventMask &&& RTOS_EVT_ABSOLUTE_TIMER ≠ 0) (hc : t.cntOverrun ≤ 255) :
    (∀ x : Int, toIntTime cfg x % (2 : Int) ^ cfg.timeBits = x % (2 : Int) ^ cfg.timeBits ∧
      -((2 : Int) ^ (cfg.timeBits - 1)) ≤ toIntTime cfg x ∧
      toIntTime cfg x < (2 : Int) ^ (cfg.timeBits - 1)) ∧
    (toIntTime cfg ((((t.timeDueAt + timeout) % 2 ^ cfg.timeBits : Nat) : Int) - (time : Int)) ≤ 0 →
      (storeResumeCondition cfg time t eventMask all timeout).cntOverrun
        = min (t.cntOverrun + 1) 255 ∧
      (storeResumeCondition cfg time t eventMask all timeout).timeDueAt
        = (if cfg.overrunTaskIsImmediatelyDue then (time + 1) % 2 ^ cfg.timeBits
           else (t.timeDueAt + timeout) % 2 ^ cfg.timeBits)) ∧
    (¬ toIntTime cfg ((((t.timeDueAt + timeout) % 2 ^ cfg.timeBits : Nat) : Int) - (time : Int)) ≤ 0 →
      (storeResumeCondition cfg time t eventMask all timeout).cntOverrun = t.cntOverrun ∧
      (storeResumeCondition cfg time t eventMask all timeout).timeDueAt
        = (t.timeDueAt + timeout) % 2 ^ cfg.timeBits) ∧
    (storeResumeCondition cfg time t eventMask all timeout).cntDelay = t.cntDelay ∧
    (∀ c : Nat,
      storeResumeCondition cfg ((time + c) % 2 ^ cfg.timeBits)
          { t with timeDueAt := (t.timeDueAt + c) % 2 ^ cfg.timeBits } eventMask all timeout =
        { storeResumeCondition cfg time t eventMask all timeout with
            timeDueAt := ((storeResumeCondition cfg time t eventMask all timeout).timeDueAt + c)
                           % 2 ^ cfg.timeBits }) := by
  have hmb : ((eventMask &&& RTOS_EVT_ABSOLUTE_TIMER) != 0) = true := by simpa using hm
  refine ⟨toIntTime_signed cfg hW, fun ho => ?_, fun hno => ?_, ?_, fun c => ?_⟩
  · unfold storeResumeCondition
    simp only [hmb, if_true, ho]
    by_cases h255 : t.cntOverrun < 255
    · have hmin : min (t.cntOverrun + 1) 255 = t.cntOverrun + 1 := by omega
      cases cfg.overrunTaskIsImmediatelyDue <;> simp [h255, hmin]
    · have hmin : min (t.cntOverrun + 1) 255 = t.cntOverrun := by omega
      cases cfg.overrunTaskIsImmediatelyDue <;> simp [h255, hmin]
  · unfold storeResumeCondition
    simp only [hmb, if_true, hno, if_false]
    exact ⟨trivial, trivial⟩
  · unfold storeResumeCondition
    simp only [hmb, if_true]
    split
    · split <;> split <;> rfl
    · rfl
  · have hdue : ((t.timeDueAt + c) % 2 ^ cfg.timeBits + timeout) % 2 ^ cfg.timeBits
        = ((t.timeDueAt + timeout) % 2 ^ cfg.timeBits + c) % 2 ^ cfg.timeBits := by
      rw [Nat.mod_add_mod, Nat.mod_add_mod]
      congr 1
      omega
    have htime : ((time + c) % 2 ^ cfg.timeBits + 1) % 2 ^ cfg.timeBits
        = ((time + 1) % 2 ^ cfg.timeBits + c) % 2 ^ cfg.timeBits := by
      rw [Nat.mod_add_mod, Nat.mod_add_mod]
      congr 1
      omega
    have hdec : toIntTime cfg
        (((((t.timeDueAt + c) % 2 ^ cfg.timeBits + timeout) % 2 ^ cfg.timeBits : Nat) : Int)
          - (((time + c) % 2 ^ cfg.timeBits : Nat) : Int))
        = toIntTime cfg
            ((((t.timeDueAt + timeout) % 2 ^ cfg.timeBits : Nat) : Int) - (time : Int)) := by
      rw [hdue]
      apply toIntTime_congr
      have := shifted_difference (2 ^ cfg.timeBits) ((t.timeDueAt + timeout) % 2 ^ cfg.timeBits)
        time c
      unfold Int.ModEq at this
      push_cast at this ⊢
      exact this
    unfold storeResumeCondition
    simp only [hmb, if_true, hdec]
    by_cases ho : toIntTime cfg
        ((((t.timeDueAt + timeout) % 2 ^ cfg.timeBits : Nat) : Int) - (time : Int)) ≤ 0
    · simp only [ho, if_true]
      by_cases h255 : t.cntOverrun < 255
      · cases cfg.overrunTaskIsImmediatelyDue <;> simp [h255, hdue, htime]
      · cases cfg.overrunTaskIsImmediatelyDue <;> simp [h255, hdue, htime]
    · simp only [ho, if_false, hdue]

/-- C12, instance (16 Bit system time, overrun correction on): a task with `timeDueAt == 100`
calls `rtos_suspendTaskTillTime(100)` at the time 250; the new due time 200 is over, the
overrun is counted and the task is due at the time 251. -/
theorem storeResumeCondition_absolute_timer_witness :
    0 < cfgScenario.timeBits ∧ 0x4000 &&& RTOS_EVT_ABSOLUTE_TIMER ≠ 0 ∧
    taskLate.cntOverrun ≤ 255 ∧
    ((storeResumeCondition cfgScenario 250 taskLate 0x4000 false 100).cntOverrun
        = min (taskLate.cntOverrun + 1) 255 ∧
      (storeResumeCondition cfgScenario 250 taskLate 0x4000 false 100).timeDueAt
        = (if cfgScenario.overrunTaskIsImmediatelyDue then (250 + 1) % 2 ^ cfgScenario.timeBits
           else (taskLate.timeDueAt + 100) % 2 ^ cfgScenario.timeBits)) ∧
    (storeResumeCondition cfgScenario 250 taskLate 0x4000 false 100).cntOverrun = 1 ∧
    (storeResumeCondition cfgScenario 250 taskLate 0x4000 false 100).timeDueAt = 251 :=
  ⟨by decide, by decide, by decide,
   (storeResumeCondition_absolute_timer cfgScenario (by decide) 250 taskLate 0x4000 false 100
      (by decide) (by decide)).2.1 (by decide),
   by decide, by decide⟩

/-! ## The state after a suspend command and the invariant of `_mutexVec` -/

theorem waitForEvent_caller (cfg : Config) (hS : cfg.noSemaphoreEvents ≤ 8) (k : Kernel)
    (eventMask : Nat) (all : Bool) (timeout : Nat)
    (hs : (waitForEvent cfg k eventMask all timeout).2 = true) :
    (waitForEvent cfg k eventMask all timeout).1.taskAry k.pActiveTask =
      storeResumeCondition cfg k.time
        ((if cfg.useSemaphore || cfg.useMutex then acquireFreeSyncObjs cfg k eventMask all
          else (k, false)).1.taskAry k.pActiveTask) eventMask all timeout ∧
    k.pActiveTask ∈ (waitForEvent cfg k eventMask all timeout).1.pSuspendedTaskAry ∧
    (∀ q, q ∈ k.pSuspendedTaskAry →
      q ∈ (waitForEvent cfg k eventMask all timeout).1.pSuspendedTaskAry) ∧
    (waitForEvent cfg k eventMask all timeout).1.time = k.time ∧
    (∀ q, q ≠ k.pActiveTask →
      (waitForEvent cfg k eventMask all timeout).1.taskAry q = k.taskAry q) := by
  obtain ⟨h1, h2, h3, h4, h5, h6, _⟩ := waitForEvent_acquire cfg hS k eventMask all
  have hr0 : (if cfg.useSemaphore || cfg.useMutex then acquireFreeSyncObjs cfg k eventMask all
      else (k, false)).2 = false := by
    rw [waitForEvent_snd] at hs
    cases hu : (cfg.useSemaphore || cfg.useMutex)
    · simp
    · rw [hu] at hs
      simpa using hs
  unfold waitForEvent
  generalize (if cfg.useSemaphore || cfg.useMutex then acquireFreeSyncObjs cfg k eventMask all
      else (k, false)) = r0 at h1 h2 h3 h4 h5 h6 hr0 ⊢
  obtain ⟨k0, b⟩ := r0
  simp only at h1 h2 h3 h4 h5 h6 hr0 ⊢
  subst hr0
  simp only [Bool.false_eq_true, if_false, h1, h4]
  refine ⟨?_, ?_, fun q hq => ?_, ?_, fun q hq => ?_⟩
  · split <;> simp only [Kernel.setTask, Function.update_same]
  · split
    · simp only [mem_insertAt, true_or]
    · simp
  · split
    · simp only [mem_insertAt, setTask_pSuspendedTaskAry, h2]
      exact Or.inr hq
    · simp [h2, hq]
  · split <;> rfl
  · rw [← h5 q hq]
    split <;> simp only [Kernel.setTask, Function.update_noteq hq]

theorem useMutex_imp_sync (cfg : Config) (h : cfg.useMutex = true) :
    (cfg.useSemaphore || cfg.useMutex) = true := by
  rw [h, Bool.or_true]

theorem waitForEvent_globals (cfg : Config) (hS : cfg.noSemaphoreEvents ≤ 8) (k : Kernel)
    (eventMask : Nat) (all : Bool) (timeout : Nat)
    (hp : (k.taskAry k.pActiveTask).postedEventVec = 0) :
    (waitForEvent cfg k eventMask all timeout).1.mutexVec =
      (if cfg.useMutex then k.mutexVec &&& not16 eventMask else k.mutexVec) ∧
    (∀ j, (waitForEvent cfg k eventMask all timeout).1.semaphoreAry j =
      if j < cfg.noSemaphoreEvents ∧ eventMask.testBit j = true ∧ k.semaphoreAry j > 0
      then k.semaphoreAry j - 1 else k.semaphoreAry j) ∧
    (waitForEvent cfg k eventMask all timeout).1.time = k.time ∧
    (∀ j, ((waitForEvent cfg k eventMask all timeout).1.taskAry
            k.pActiveTask).postedEventVec.testBit j =
      ((cfg.useMutex && (eventMask &&& k.mutexVec).testBit j) ||
       (decide (j < cfg.noSemaphoreEvents) && eventMask.testBit j
          && decide (k.semaphoreAry j > 0)))) ∧
    (∀ q, q ≠ k.pActiveTask →
      (waitForEvent cfg k eventMask all timeout).1.taskAry q = k.taskAry q) := by
  obtain ⟨a1, _, _, _, a5, a6, _, a8, a9, a10, _⟩ := acquireFreeSyncObjs_spec cfg hS k eventMask all
  have hbits : ∀ j, ((acquireFreeSyncObjs cfg k eventMask all).1.taskAry
            k.pActiveTask).postedEventVec.testBit j =
      ((cfg.useMutex && (eventMask &&& k.mutexVec).testBit j) ||
       (decide (j < cfg.noSemaphoreEvents) && eventMask.testBit j
          && decide (k.semaphoreAry j > 0))) := by
    intro j
    rw [a8 j]
    cases hm : cfg.useMutex
    · simp only [Bool.false_eq_true, if_false, hp, Nat.zero_testBit, Bool.false_and]
    · simp only [if_true, Bool.true_and]
  by_cases hu : (cfg.useSemaphore || cfg.useMutex) = true
  · cases hfl : (waitForEvent cfg k eventMask all timeout).2
    · obtain ⟨_, hacq⟩ := (waitForEvent_false_iff cfg k eventMask all timeout).mp hfl
      rw [waitForEvent_of_acquired cfg k eventMask all timeout hu hacq]
      exact ⟨a9, a10, a5, hbits, a6⟩
    · obtain ⟨_, s2, s3, s4⟩ := waitForEvent_suspended cfg k eventMask all timeout hu hfl
      obtain ⟨_, _, _, c4, c5⟩ := waitForEvent_caller cfg hS k eventMask all timeout hfl
      refine ⟨s3.trans a9, fun j => ?_, c4, fun j => ?_, c5⟩
      · rw [s4, a10 j]
      · rw [s2, hbits j]
  · rw [Bool.not_eq_true] at hu
    have hm : cfg.useMutex = false := by
      cases h : cfg.useMutex
      · rfl
      · rw [h, Bool.or_true] at hu
        exact absurd hu (by simp)
    have hs0 : cfg.noSemaphoreEvents = 0 := by
      cases h : cfg.useSemaphore
      · simpa [Config.useSemaphore] using h
      · rw [h, Bool.true_or] at hu
        exact absurd hu (by simp)
    have hfl : (waitForEvent cfg k eventMask all timeout).2 = true := by
      rw [waitForEvent_snd, hu]
      rfl
    obtain ⟨c1, _, _, c4, c5⟩ := waitForEvent_caller cfg hS k eventMask all timeout hfl
    obtain ⟨_, f2, _⟩ := storeResumeCondition_frame cfg k.time (k.taskAry k.pActiveTask)
      eventMask all timeout
    rw [hu] at c1
    simp only [Bool.false_eq_true, if_false] at c1
    refine ⟨?_, fun j => ?_, c4, fun j => ?_, c5⟩
    · rw [hm]
      simp only [Bool.false_eq_true, if_false]
      unfold waitForEvent
      simp only [hu, Bool.false_eq_true, if_false]
      rfl
    · rw [hs0]
      simp only [Nat.not_lt_zero, false_and, if_false]
      unfold waitForEvent
      simp only [hu, Bool.false_eq_true, if_false]
      rfl
    · rw [c1, f2, hp, hm, hs0]
      simp

theorem sendEvent_mutexVec_ok {cfg : Config} (hcfg : cfg.WellFormed) {k : Kernel}
    (hI : ListsInv cfg k) (hM : MutexVecOk cfg k) (ev : Nat) :
    MutexVecOk cfg (sendEvent cfg k ev).1 := by
  obtain ⟨_, _, _, hS, hSM, _, _⟩ := hcfg
  obtain ⟨_, _, _, f4, _⟩ := sendEvent_frame cfg k ev
  have hwI := walkSuspended_listsInv cfg (SendLocalsOk cfg (sendEventInit cfg ev).postedEventVec)
    (sendEventVisit cfg (sendEventInit cfg ev).postedEventVec)
    (sendEventVisit_ok cfg hS hSM _) k.pSuspendedTaskAry { k with pSuspendedTaskAry := [] }
    ((sendEventInit cfg ev).mutexToReleaseVec, (sendEventInit cfg ev).semaphoreToReleaseVec)
    false (sendEventInit_ok cfg hS ev)
    (hI.congr (by simp) rfl rfl)
  have hJ : SendLocalsOk cfg (sendEventInit cfg ev).postedEventVec
      (sendEventVisitAll cfg k ev).2.1 := hwI.2
  intro j hj
  rw [f4] at hj
  split at hj
  · rw [Nat.testBit_or, Bool.or_eq_true] at hj
    rcases hj with h | h
    · exact hM j h
    · exact hJ.2.1 j h
  · exact hM j hj

theorem reachable_mutexVec {cfg : Config} (hcfg : cfg.WellFormed) {tasks : List TaskInit}
    (ht : TasksOk cfg tasks) {sem : Nat → Nat} {k : Kernel}
    (hr : Reachable cfg tasks sem k) : MutexVecOk cfg k := by
  induction hr with
  | init =>
    intro j hj
    rw [(rtos_initRTOS_globals cfg tasks sem).2.1, testBit_MASK_EVT_IS_MUTEX] at hj
    simpa using hj
  | timerTic hr ih =>
    intro j hj
    rw [(isrSystemTimerTic_globals cfg _).2.1] at hj
    exact ih j hj
  | sendEvent ev hr ih =>
    rename_i k0
    obtain ⟨hI, _⟩ := reachable_inv hcfg ht hr
    have h1 := sendEvent_mutexVec_ok hcfg hI ih ev
    intro j hj
    apply h1 j
    unfold rtos_sendEvent at hj
    simp only at hj
    split at hj
    · rw [(pushRetCodeOfContextSwitch_frame _).2.1] at hj
      exact hj
    · exact hj
  | waitForEvent eventMask all timeout hr hne ih =>
    rename_i k0
    obtain ⟨_, hA⟩ := reachable_inv hcfg ht hr
    intro j hj
    unfold rtos_waitForEvent at hj
    rw [(pushRetCodeOfContextSwitch_frame _).2.1,
      (waitForEvent_globals cfg hcfg.2.2.2.1 k0 eventMask all timeout hA.active_posted).1] at hj
    split at hj
    · rw [Nat.testBit_and, Bool.and_eq_true] at hj
      exact ih j hj.1
    · exact ih j hj

/-! ## The delay timer -/

theorem timerTics_reachable {cfg : Config} {tasks : List TaskInit} {sem : Nat → Nat}
    {k : Kernel} (hr : Reachable cfg tasks sem k) (n : Nat) :
    Reachable cfg tasks sem (timerTics cfg n k) := by
  induction n with
  | zero => exact hr
  | succ n ih => exact Reachable.timerTic ih

theorem storeResumeCondition_delay (cfg : Config) (time : Nat) (t : Task) (eventMask : Nat)
    (all : Bool) (timeout : Nat) (hm : eventMask &&& RTOS_EVT_ABSOLUTE_TIMER = 0) :
    (storeResumeCondition cfg time t eventMask all timeout).cntDelay =
      (if (timeout + 1) % 2 ^ cfg.timeBits ≠ 0 then timeout + 1 else timeout) ∧
    (storeResumeCondition cfg time t eventMask all timeout).timeDueAt = t.timeDueAt ∧
    (storeResumeCondition cfg time t eventMask all timeout).cntOverrun = t.cntOverrun := by
  unfold storeResumeCondition
  simp [hm]

theorem moved_is_due {cfg : Config} {k : Kernel} (hI : ListsInv cfg k) (A : Nat)
    (hlt : A < cfg.noTasks) (hns : A ∉ k.pSuspendedTaskAry) :
    A ∈ k.pDueTaskAryAry (k.taskAry A).prioClass := by
  have h1 := hI.once A hlt
  rw [List.count_eq_zero_of_not_mem hns, Nat.zero_add] at h1
  exact List.count_pos_iff.mp (by omega)

theorem walkSuspended_sublist {σ : Type} (cfg : Config) (f : σ → Task → Task × σ) :
    ∀ (rest : List Nat) (k : Kernel) (s : σ) (flag : Bool),
      List.Sublist (walkSuspended cfg f rest k s flag).1.pSuspendedTaskAry
        (k.pSuspendedTaskAry ++ rest) := by
  intro rest
  induction rest with
  | nil =>
    intro k s flag
    rw [List.append_nil]
    exact List.Sublist.refl _
  | cons p rest ih =>
    intro k s flag
    by_cases hm : ((k.taskAry p).postedEventVec != (f s (k.taskAry p)).1.postedEventVec
          && taskBecomesDue (f s (k.taskAry p)).1) = true
    · rw [walkSuspended_cons_move cfg f p rest k s flag hm]
      have h1 := ih (appendToDue cfg (k.setTask p (f s (k.taskAry p)).1) p)
        (f s (k.taskAry p)).2 true
      exact h1.trans (List.Sublist.append (List.Sublist.refl _) (List.sublist_cons_self p rest))
    · rw [walkSuspended_cons_stay cfg f p rest k s flag hm]
      have h1 := ih { k.setTask p (f s (k.taskAry p)).1 with
            pSuspendedTaskAry := k.pSuspendedTaskAry ++ [p] } (f s (k.taskAry p)).2 flag
      have e : (k.pSuspendedTaskAry ++ [p]) ++ rest = k.pSuspendedTaskAry ++ p :: rest := by
        simp
      rw [← e]
      exact h1

theorem walkSuspended_prioClass {σ : Type} (cfg : Config) {J : σ → Prop}
    {f : σ → Task → Task × σ} (hf : VisitOk J f) (rest : List Nat) (k : Kernel) (s : σ)
    (flag : Bool) (hJ : J s) :
    ∀ q, ((walkSuspended cfg f rest k s flag).1.taskAry q).prioClass = (k.taskAry q).prioClass := by
  have hr := walkSuspended_rule cfg f
    (fun _ k1 s1 _ => J s1 ∧ ∀ q, (k1.taskAry q).prioClass = (k.taskAry q).prioClass)
    ?_ ?_ rest k s flag ⟨hJ, fun _ => rfl⟩
  · exact hr.2
  · rintro p rest1 k1 s1 flag1 ⟨hJ1, hp⟩ _
    refine ⟨(hf s1 (k1.taskAry p) hJ1).1, fun q => ?_⟩
    rw [appendToDue_taskAry]
    show ((k1.setTask p (f s1 (k1.taskAry p)).1).taskAry q).prioClass = _
    by_cases hq : q = p
    · subst hq
      rw [setTask_taskAry_same, (hf.prioClass s1 (k1.taskAry q) hJ1).1]
      exact hp q
    · rw [setTask_taskAry_ne k1 p q _ hq]
      exact hp q
  · rintro p rest1 k1 s1 flag1 ⟨hJ1, hp⟩ _
    refine ⟨(hf s1 (k1.taskAry p) hJ1).1, fun q => ?_⟩
    show ((k1.setTask p (f s1 (k1.taskAry p)).1).taskAry q).prioClass = _
    by_cases hq : q = p
    · subst hq
      rw [setTask_taskAry_same, (hf.prioClass s1 (k1.taskAry q) hJ1).1]
      exact hp q
    · rw [setTask_taskAry_ne k1 p q _ hq]
      exact hp q

theorem sendEvent_order {cfg : Config} (hcfg : cfg.WellFormed) (k : Kernel) (ev : Nat) :
    List.Sublist (sendEvent cfg k ev).1.pSuspendedTaskAry k.pSuspendedTaskAry ∧
    (∀ q, ((sendEvent cfg k ev).1.taskAry q).prioClass = (k.taskAry q).prioClass) := by
  obtain ⟨_, _, _, hS, hSM, _, _⟩ := hcfg
  obtain ⟨f1, f2, _⟩ := sendEvent_frame cfg k ev
  rw [f1, f2]
  refine ⟨?_, ?_⟩
  · have := walkSuspended_sublist cfg (sendEventVisit cfg (sendEventInit cfg ev).postedEventVec)
      k.pSuspendedTaskAry { k with pSuspendedTaskAry := [] }
      ((sendEventInit cfg ev).mutexToReleaseVec, (sendEventInit cfg ev).semaphoreToReleaseVec)
      false
    simpa using this
  · exact walkSuspended_prioClass cfg (sendEventVisit_ok cfg hS hSM _) k.pSuspendedTaskAry
      { k with pSuspendedTaskAry := [] } _ false (sendEventInit_ok cfg hS ev)

theorem onTimerTic_order (cfg : Config) (k : Kernel) :
    List.Sublist (onTimerTic cfg k).1.pSuspendedTaskAry k.pSuspendedTaskAry ∧
    (∀ q, ((onTimerTic cfg k).1.taskAry q).prioClass = (k.taskAry q).prioClass) := by
  obtain ⟨f1, f2⟩ := onTimerTic_frame cfg k
  refine ⟨?_, fun q => ?_⟩
  · rw [f2]
    have := walkSuspended_sublist cfg (onTimerTicVisit ((k.time + 1) % 2 ^ cfg.timeBits))
      k.pSuspendedTaskAry
      { k with time := (k.time + 1) % 2 ^ cfg.timeBits, pSuspendedTaskAry := [] } () false
    simpa using this
  · rw [f1 q]
    exact walkSuspended_prioClass cfg (onTimerTicVisit_ok _) k.pSuspendedTaskAry
      { k with time := (k.time + 1) % 2 ^ cfg.timeBits, pSuspendedTaskAry := [] } () false
      trivial q

theorem pushRetCodeOfContextSwitch_prioClass (k : Kernel) (q : Nat) :
    ((pushRetCodeOfContextSwitch k).1.taskAry q).prioClass = (k.taskAry q).prioClass := by
  rw [(pushRetCodeOfContextSwitch_frame k).2.2.2.2.2.2.1 q]

theorem findInsertPos_congr (ta tb : Nat → Task) (prio : Nat)
    (h : ∀ q, (ta q).prioClass = (tb q).prioClass) :
    ∀ l, findInsertPos ta prio l = findInsertPos tb prio l := by
  intro l
  induction l with
  | nil => rfl
  | cons p rest ih =>
    simp only [findInsertPos, h p, ih]

theorem findInsertPos_spec (ta : Nat → Task) (prio : Nat) :
    ∀ l, findInsertPos ta prio l ≤ l.length ∧
      (∀ q ∈ l.take (findInsertPos ta prio l), prio ≤ (ta q).prioClass) ∧
      (∀ x, (l.drop (findInsertPos ta prio l)).head? = some x → (ta x).prioClass < prio) := by
  intro l
  induction l with
  | nil => simp [findInsertPos]
  | cons p rest ih =>
    obtain ⟨i1, i2, i3⟩ := ih
    by_cases hp : (ta p).prioClass < prio
    · simp only [findInsertPos, hp, if_true]
      refine ⟨Nat.zero_le _, by simp, fun x hx => ?_⟩
      simp only [List.drop_zero, List.head?_cons, Option.some.injEq] at hx
      rw [← hx]
      exact hp
    · simp only [findInsertPos, hp, if_false]
      refine ⟨by simp only [List.length_cons]; omega, fun q hq => ?_, fun x hx => ?_⟩
      · simp only [List.take_succ_cons, List.mem_cons] at hq
        rcases hq with h | h
        · rw [h]; omega
        · exact i2 q h
      · simp only [List.drop_succ_cons] at hx
        exact i3 x hx

theorem waitForEvent_prioClass (cfg : Config) (hS : cfg.noSemaphoreEvents ≤ 8) (k : Kernel)
    (eventMask : Nat) (all : Bool) (timeout : Nat) :
    ∀ q, ((waitForEvent cfg k eventMask all timeout).1.taskAry q).prioClass
      = (k.taskAry q).prioClass := by
  intro q
  obtain ⟨_, _, _, _, a5, a6, _⟩ := waitForEvent_acquire cfg hS k eventMask all
  cases hfl : (waitForEvent cfg k eventMask all timeout).2
  · obtain ⟨hu, hacq⟩ := (waitForEvent_false_iff cfg k eventMask all timeout).mp hfl
    rw [waitForEvent_of_acquired cfg k eventMask all timeout hu hacq]
    rw [hu] at a5 a6
    simp only [if_true] at a5 a6
    by_cases hq : q = k.pActiveTask
    · subst hq
      rw [a6]
    · rw [a5 q hq]
  · obtain ⟨c1, _, _, _, c5⟩ := waitForEvent_caller cfg hS k eventMask all timeout hfl
    by_cases hq : q = k.pActiveTask
    · subst hq
      rw [c1, (storeResumeCondition_frame cfg _ _ _ _ _).1, a6]
    · rw [c5 q hq]

theorem waitForEvent_insert (cfg : Config) (hS : cfg.noSemaphoreEvents ≤ 8) (k : Kernel)
    (eventMask : Nat) (all : Bool) (timeout : Nat)
    (hs : (waitForEvent cfg k eventMask all timeout).2 = true) :
    (waitForEvent cfg k eventMask all timeout).1.pSuspendedTaskAry =
      (if cfg.useSemaphore || cfg.useMutex
       then insertAt k.pSuspendedTaskAry
              (findInsertPos k.taskAry (k.taskAry k.pActiveTask).prioClass k.pSuspendedTaskAry)
              k.pActiveTask
       else k.pSuspendedTaskAry ++ [k.pActiveTask]) := by
  obtain ⟨h1, h2, h3, h4, h5, h6, _⟩ := waitForEvent_acquire cfg hS k eventMask all
  have hr0 : (if cfg.useSemaphore || cfg.useMutex then acquireFreeSyncObjs cfg k eventMask all
      else (k, false)).2 = false := by
    rw [waitForEvent_snd] at hs
    cases hu : (cfg.useSemaphore || cfg.useMutex)
    · simp
    · rw [hu] at hs
      simpa using hs
  unfold waitForEvent
  generalize (if cfg.useSemaphore || cfg.useMutex then acquireFreeSyncObjs cfg k eventMask all
      else (k, false)) = r0 at h1 h2 h3 h4 h5 h6 hr0 ⊢
  obtain ⟨k0, b⟩ := r0
  simp only at h1 h2 h3 h4 h5 h6 hr0 ⊢
  subst hr0
  simp only [Bool.false_eq_true, if_false, h1, h4]
  have hprio : (k0.taskAry k.pActiveTask).prioClass = (k.taskAry k.pActiveTask).prioClass := by
    rw [h6]
  split
  · simp only [setTask_pSuspendedTaskAry, h2, hprio]
    congr 1
    apply findInsertPos_congr
    intro q
    by_cases hq : q = k.pActiveTask
    · subst hq
      simp only [Kernel.setTask, Function.update_same]
      rw [(storeResumeCondition_frame cfg _ _ _ _ _).1, hprio]
    · simp only [Kernel.setTask, Function.update_noteq hq]
      rw [h5 q hq]
  · simp only [setTask_pSuspendedTaskAry, h2]

theorem insertAt_sorted (pr : Nat → Nat) (l : List Nat) (x : Nat)
    (hl : l.Pairwise (fun a b => pr b ≤ pr a)) (i : Nat)
    (h1 : ∀ q ∈ l.take i, pr x ≤ pr q)
    (h2 : ∀ y, (l.drop i).head? = some y → pr y < pr x) :
    (insertAt l i x).Pairwise (fun a b => pr b ≤ pr a) := by
  unfold insertAt
  have hsplit := List.take_append_drop i l
  rw [← hsplit, List.pairwise_append] at hl
  obtain ⟨p1, p2, p3⟩ := hl
  have hdrop : ∀ b ∈ l.drop i, pr b ≤ pr x := by
    intro b hb
    cases hd : l.drop i with
    | nil => rw [hd] at hb; simp at hb
    | cons y rest =>
      have hy := h2 y (by rw [hd]; rfl)
      rw [hd] at hb p2
      rcases List.mem_cons.mp hb with e | e
      · rw [e]; omega
      · have := (List.pairwise_cons.mp p2).1 b e
        omega
  rw [List.pairwise_append]
  refine ⟨p1, List.pairwise_cons.mpr ⟨hdrop, p2⟩, fun a ha b hb => ?_⟩
  rcases List.mem_cons.mp hb with e | e
  · rw [e]; exact h1 a ha
  · exact p3 a ha b e

theorem SuspendedSorted.of_sublist {k k1 : Kernel} (h : SuspendedSorted k)
    (hs : List.Sublist k1.pSuspendedTaskAry k.pSuspendedTaskAry)
    (hp : ∀ q, (k1.taskAry q).prioClass = (k.taskAry q).prioClass) : SuspendedSorted k1 := by
  unfold SuspendedSorted at h ⊢
  have := List.Pairwise.sublist hs h
  exact this.imp (fun {a b} hab => by rw [hp a, hp b]; exact hab)

theorem onTimerTic_sorted (cfg : Config) {k : Kernel} (h : SuspendedSorted k) :
    SuspendedSorted (onTimerTic cfg k).1 ∧ SuspendedSorted (isrSystemTimerTic cfg k) := by
  obtain ⟨o1, o2⟩ := onTimerTic_order cfg k
  have h1 : SuspendedSorted (onTimerTic cfg k).1 := h.of_sublist o1 o2
  refine ⟨h1, ?_⟩
  rw [isrSystemTimerTic_eq]
  split
  · exact h1.of_sublist
      (by rw [(pushRetCodeOfContextSwitch_frame _).2.2.2.1])
      (fun q => pushRetCodeOfContextSwitch_prioClass _ q)
  · exact h1

theorem sendEvent_sorted {cfg : Config} (hcfg : cfg.WellFormed) {k : Kernel}
    (h : SuspendedSorted k) (ev : Nat) :
    SuspendedSorted (sendEvent cfg k ev).1 ∧ SuspendedSorted (rtos_sendEvent cfg k ev) := by
  obtain ⟨o1, o2⟩ := sendEvent_order hcfg k ev
  have h1 : SuspendedSorted (sendEvent cfg k ev).1 := h.of_sublist o1 o2
  refine ⟨h1, ?_⟩
  unfold rtos_sendEvent
  simp only
  split
  · exact h1.of_sublist
      (by rw [(pushRetCodeOfContextSwitch_frame _).2.2.2.1])
      (fun q => pushRetCodeOfContextSwitch_prioClass _ q)
  · exact h1

theorem waitForEvent_sorted {cfg : Config} (hcfg : cfg.WellFormed) {k : Kernel}
    (hu : (cfg.useSemaphore || cfg.useMutex) = true)
    (h : SuspendedSorted k) (eventMask : Nat) (all : Bool) (timeout : Nat) :
    SuspendedSorted (waitForEvent cfg k eventMask all timeout).1 ∧
    SuspendedSorted (rtos_waitForEvent cfg k eventMask all timeout).1 := by
  have hS := hcfg.2.2.2.1
  have hp := waitForEvent_prioClass cfg hS k eventMask all timeout
  have h1 : SuspendedSorted (waitForEvent cfg k eventMask all timeout).1 := by
    cases hfl : (waitForEvent cfg k eventMask all timeout).2
    · obtain ⟨_, hacq⟩ := (waitForEvent_false_iff cfg k eventMask all timeout).mp hfl
      refine h.of_sublist ?_ hp
      rw [waitForEvent_of_acquired cfg k eventMask all timeout hu hacq,
        (acquireFreeSyncObjs_spec cfg hS k eventMask all).2.2.1]
    · have hi := waitForEvent_insert cfg hS k eventMask all timeout hfl
      rw [hu] at hi
      simp only [if_true] at hi
      unfold SuspendedSorted at h ⊢
      rw [hi]
      obtain ⟨_, s2, s3⟩ := findInsertPos_spec k.taskAry (k.taskAry k.pActiveTask).prioClass
        k.pSuspendedTaskAry
      have := insertAt_sorted (fun q => (k.taskAry q).prioClass) k.pSuspendedTaskAry
        k.pActiveTask h _ s2 s3
      exact this.imp (fun {a b} hab => by rw [hp a, hp b]; exact hab)
  refine ⟨h1, ?_⟩
  unfold rtos_waitForEvent
  exact h1.of_sublist
    (by rw [(pushRetCodeOfContextSwitch_frame _).2.2.2.1])
    (fun q => pushRetCodeOfContextSwitch_prioClass _ q)

theorem initRTOSTask_sorted (cfg : Config) (hm : cfg.useMutex = true) (k : Kernel)
    (idxTask : Nat) (h : SuspendedSorted k) : SuspendedSorted (initRTOSTask cfg k idxTask) := by
  obtain ⟨_, _, _, g4, g5, _, _⟩ := initRTOSTask_facts cfg k idxTask
  have hp : ∀ q, ((initRTOSTask cfg k idxTask).taskAry q).prioClass = (k.taskAry q).prioClass := by
    intro q
    by_cases hq : q = idxTask
    · subst hq; exact g5
    · rw [g4 q hq]
  have hsusp : (initRTOSTask cfg k idxTask).pSuspendedTaskAry =
      insertAt k.pSuspendedTaskAry
        (findInsertPos k.taskAry (k.taskAry idxTask).prioClass k.pSuspendedTaskAry) idxTask := by
    unfold initRTOSTask
    simp only [hm, if_true, setTask_pSuspendedTaskAry]
    congr 1
    have e : ∀ (p : Nat), findInsertPos
        (k.setTask idxTask
          { (if cfg.roundRobinModeSupported then { k.taskAry idxTask with cntRoundRobin := 0 }
             else k.taskAry idxTask) with postedEventVec := 0, cntOverrun := 0 }).taskAry p
        k.pSuspendedTaskAry = findInsertPos k.taskAry p k.pSuspendedTaskAry := by
      intro p
      apply findInsertPos_congr
      intro q
      by_cases hq : q = idxTask
      · subst hq
        rw [setTask_taskAry_same]
        split <;> rfl
      · rw [setTask_taskAry_ne k idxTask q _ hq]
    rw [e]
    congr 1
    split <;> rfl
  unfold SuspendedSorted at h ⊢
  rw [hsusp]
  obtain ⟨_, s2, s3⟩ := findInsertPos_spec k.taskAry (k.taskAry idxTask).prioClass
    k.pSuspendedTaskAry
  have := insertAt_sorted (fun q => (k.taskAry q).prioClass) k.pSuspendedTaskAry
    idxTask h _ s2 s3
  exact this.imp (fun {a b} hab => by rw [hp a, hp b]; exact hab)

theorem rtos_initRTOS_sorted (cfg : Config) (hm : cfg.useMutex = true) (tasks : List TaskInit)
    (sem : Nat → Nat) : SuspendedSorted (rtos_initRTOS cfg tasks sem) := by
  have h0 : (setup cfg tasks (staticData cfg sem)).pSuspendedTaskAry = [] := by
    have := foldl_range_induct
      (fun (k : Kernel) (idxTask : Nat) =>
        match tasks.get? idxTask with
        | some a => rtos_initializeTask cfg k idxTask a
        | none => k)
      (fun (_ : Nat) (k : Kernel) => k.pSuspendedTaskAry = [])
      (staticData cfg sem) rfl
      (by
        intro n k a1
        simp only
        split
        · rw [(rtos_initializeTask_facts cfg k n _).1]
          exact a1
        · exact a1)
      cfg.noTasks
    exact this
  have h1 := foldl_range_induct (initRTOSTask cfg)
    (fun (_ : Nat) (k : Kernel) => SuspendedSorted k)
    (setup cfg tasks (staticData cfg sem))
    (by
      show SuspendedSorted (setup cfg tasks (staticData cfg sem))
      unfold SuspendedSorted
      rw [h0]
      exact List.Pairwise.nil)
    (fun n k a1 => initRTOSTask_sorted cfg hm k n a1)
    cfg.noTasks
  refine h1.of_sublist (List.Sublist.refl _) (fun q => ?_)
  unfold rtos_initRTOS
  simp only
  by_cases hq : q = IDLE_TASK_ID cfg
  · subst hq
    rw [setTask_taskAry_same]
    split <;> rfl
  · rw [setTask_taskAry_ne _ _ q _ hq]

theorem reachable_sorted {cfg : Config} (hcfg : cfg.WellFormed) (hm : cfg.useMutex = true)
    {tasks : List TaskInit} {sem : Nat → Nat} {k : Kernel}
    (hr : Reachable cfg tasks sem k) : SuspendedSorted k := by
  induction hr with
  | init => exact rtos_initRTOS_sorted cfg hm tasks sem
  | timerTic _ ih => exact (onTimerTic_sorted cfg ih).2
  | sendEvent ev _ ih => exact (sendEvent_sorted hcfg ih ev).2
  | waitForEvent eventMask all timeout _ _ ih =>
    exact (waitForEvent_sorted hcfg (useMutex_imp_sync cfg hm) ih eventMask all timeout).2

theorem waitForEvent_inserts_behind_class {cfg : Config} (hcfg : cfg.WellFormed) {k : Kernel}
    (hu : (cfg.useSemaphore || cfg.useMutex) = true) (h : SuspendedSorted k)
    (eventMask : Nat) (all : Bool) (timeout : Nat)
    (hs : (waitForEvent cfg k eventMask all timeout).2 = true) :
    ∃ pre post, k.pSuspendedTaskAry = pre ++ post ∧
      (waitForEvent cfg k eventMask all timeout).1.pSuspendedTaskAry
        = pre ++ k.pActiveTask :: post ∧
      (∀ q ∈ pre, (k.taskAry k.pActiveTask).prioClass ≤ (k.taskAry q).prioClass) ∧
      (∀ q ∈ post, (k.taskAry q).prioClass < (k.taskAry k.pActiveTask).prioClass) := by
  have hi := waitForEvent_insert cfg hcfg.2.2.2.1 k eventMask all timeout hs
  rw [hu] at hi
  simp only [if_true] at hi
  obtain ⟨_, s2, s3⟩ := findInsertPos_spec k.taskAry (k.taskAry k.pActiveTask).prioClass
    k.pSuspendedTaskAry
  refine ⟨_, _, (List.take_append_drop _ _).symm, hi, s2, fun q hq => ?_⟩
  unfold SuspendedSorted at h
  have hsplit := List.take_append_drop
    (findInsertPos k.taskAry (k.taskAry k.pActiveTask).prioClass k.pSuspendedTaskAry)
    k.pSuspendedTaskAry
  rw [← hsplit, List.pairwise_append] at h
  obtain ⟨_, p2, _⟩ := h
  cases hd : k.pSuspendedTaskAry.drop
      (findInsertPos k.taskAry (k.taskAry k.pActiveTask).prioClass k.pSuspendedTaskAry) with
  | nil => rw [hd] at hq; simp at hq
  | cons y rest =>
    have hy := s3 y (by rw [hd]; rfl)
    rw [hd] at hq p2
    rcases List.mem_cons.mp hq with e | e
    · rw [e]; exact hy
    · have := (List.pairwise_cons.mp p2).1 q e
      omega

theorem tasksRising_ok : TasksOk cfgSemaphores tasksRising := by
  intro a ha
  simp only [tasksRising, List.mem_cons, List.mem_singleton, List.not_mem_nil, or_false] at ha
  rcases ha with h | h | h | h <;> subst h <;> decide

/-- C16: the list of suspended tasks built by `rtos_initRTOS` is not sorted in a configuration
with semaphores but without mutexes.  With the configuration of test case `tc15` and four
tasks of rising priority class the list is `[0, 1, 2, 3]`, i.e. in the order of rising
priority; a semaphore which is released then goes to task 0 of the lowest priority although
task 3 of the highest priority waits for it, too.  If one of the events is a mutex the same
tasks are listed in the order `[3, 2, 1, 0]` of falling priority. -/
theorem rtos_initRTOS_unsorted_without_mutex :
    cfgSemaphores.WellFormed ∧ TasksOk cfgSemaphores tasksRising ∧
    cfgSemaphores.useSemaphore = true ∧ cfgSemaphores.useMutex = false ∧
    (rtos_initRTOS cfgSemaphores tasksRising (fun _ => 0)).pSuspendedTaskAry = [0, 1, 2, 3] ∧
    ((rtos_initRTOS cfgSemaphores tasksRising (fun _ => 0)).taskAry 0).prioClass = 0 ∧
    ((rtos_initRTOS cfgSemaphores tasksRising (fun _ => 0)).taskAry 3).prioClass = 3 ∧
    ¬ SuspendedSorted (rtos_initRTOS cfgSemaphores tasksRising (fun _ => 0)) ∧
    ((sendEvent cfgSemaphores (rtos_initRTOS cfgSemaphores tasksRising (fun _ => 0))
        0x0001).1.taskAry 0).postedEventVec = 0x0001 ∧
    ((sendEvent cfgSemaphores (rtos_initRTOS cfgSemaphores tasksRising (fun _ => 0))
        0x0001).1.taskAry 3).postedEventVec = 0 ∧
    (rtos_initRTOS cfgSemaphoresAndMutex tasksRising (fun _ => 0)).pSuspendedTaskAry
      = [3, 2, 1, 0] ∧
    SuspendedSorted (rtos_initRTOS cfgSemaphoresAndMutex tasksRising (fun _ => 0)) := by
  refine ⟨by decide, tasksRising_ok, by decide, by decide, by decide, by decide, by decide,
    by decide, by decide, by decide, by decide, by decide⟩

/-! ## Round robin -/

theorem onTimerTicRoundRobin_elapsed (k : Kernel) (flag : Bool) (rest : List Nat)
    (hc : (k.taskAry k.pActiveTask).cntRoundRobin = 1)
    (hd : k.pDueTaskAryAry (k.taskAry k.pActiveTask).prioClass = k.pActiveTask :: rest) :
    (onTimerTicRoundRobin k flag).1.pDueTaskAryAry (k.taskAry k.pActiveTask).prioClass =
      (if rest = [] then [k.pActiveTask] else rest ++ [k.pActiveTask]) ∧
    (∀ c, c ≠ (k.taskAry k.pActiveTask).prioClass →
      (onTimerTicRoundRobin k flag).1.pDueTaskAryAry c = k.pDueTaskAryAry c) ∧
    (onTimerTicRoundRobin k flag).1.taskAry k.pActiveTask =
      { k.taskAry k.pActiveTask with
          cntRoundRobin := (k.taskAry k.pActiveTask).timeRoundRobin } ∧
    (onTimerTicRoundRobin k flag).2 = (if rest = [] then flag else true) := by
  by_cases hr : rest = []
  · subst hr
    unfold onTimerTicRoundRobin
    simp [hc, hd, Kernel.setTask, Kernel.noDueTasksAry]
  · have hlen : 1 < (k.pActiveTask :: rest).length := by
      cases rest with
      | nil => exact absurd rfl hr
      | cons a l => simp
    unfold onTimerTicRoundRobin
    simp only [hc, hd, Kernel.setTask, Kernel.noDueTasksAry, hlen, hr, if_false, if_true]
    refine ⟨?_, fun c hcne => ?_, ?_, ?_⟩
    · simp
    · simp [Function.update_noteq hcne]
    · simp
    · simp

theorem onTimerTicRoundRobin_running (k : Kernel) (flag : Bool) (c : Nat)
    (hc : (k.taskAry k.pActiveTask).cntRoundRobin = c + 2) :
    (onTimerTicRoundRobin k flag).1.pDueTaskAryAry = k.pDueTaskAryAry ∧
    (onTimerTicRoundRobin k flag).1.taskAry k.pActiveTask =
      { k.taskAry k.pActiveTask with cntRoundRobin := c + 1 } ∧
    (onTimerTicRoundRobin k flag).2 = flag := by
  unfold onTimerTicRoundRobin
  simp [hc, Kernel.setTask]

theorem onTimerTic_after_roundRobin (cfg : Config) (k : Kernel)
    (hrr : cfg.roundRobinModeSupported = true) :
    (onTimerTic cfg k).1.taskAry =
      (onTimerTicRoundRobin (onTimerTicVisitAll cfg k).1 (onTimerTicVisitAll cfg k).2.2).1.taskAry ∧
    (onTimerTic cfg k).1.pDueTaskAryAry =
      (onTimerTicRoundRobin (onTimerTicVisitAll cfg k).1
        (onTimerTicVisitAll cfg k).2.2).1.pDueTaskAryAry := by
  rw [onTimerTic_eq]
  simp only [hrr, if_true]
  obtain ⟨s1, _, s3, _⟩ := select_frame cfg
    (onTimerTicRoundRobin (onTimerTicVisitAll cfg k).1 (onTimerTicVisitAll cfg k).2.2).1
    (onTimerTicRoundRobin (onTimerTicVisitAll cfg k).1 (onTimerTicVisitAll cfg k).2.2).2
  exact ⟨s1, s3⟩

theorem onTimerTicRoundRobin_other (k : Kernel) (flag : Bool) :
    (onTimerTicRoundRobin k flag).1.pActiveTask = k.pActiveTask ∧
    (∀ q, q ≠ k.pActiveTask → (onTimerTicRoundRobin k flag).1.taskAry q = k.taskAry q) ∧
    (∀ q, ((onTimerTicRoundRobin k flag).1.taskAry q).timeRoundRobin
      = (k.taskAry q).timeRoundRobin) := by
  have hall := (onTimerTicRoundRobin_frame k flag).1
  refine ⟨?_, fun q hq => ?_, fun q => by rw [hall q]⟩
  · unfold onTimerTicRoundRobin
    simp only
    split
    · split
      · split <;> rfl
      · rfl
    · rfl
  · unfold onTimerTicRoundRobin
    simp only
    split
    · split
      · split <;> simp [Kernel.setTask, Function.update_noteq hq]
      · simp [Kernel.setTask, Function.update_noteq hq]
    · rfl

theorem onTimerTicVisitAll_nil (cfg : Config) (k : Kernel) (h : k.pSuspendedTaskAry = []) :
    onTimerTicVisitAll cfg k =
      ({ k with time := (k.time + 1) % 2 ^ cfg.timeBits, pSuspendedTaskAry := [] }, (), false) := by
  unfold onTimerTicVisitAll
  rw [h]
  rfl

theorem onTimerTicVisitAll_roundRobinState (k : Kernel) (a c : Nat)
    (h : RoundRobinState k a c) :
    RoundRobinState (onTimerTicVisitAll cfgRoundRobin k).1 a c ∧
    (onTimerTicVisitAll cfgRoundRobin k).2.2 = false := by
  rw [onTimerTicVisitAll_nil cfgRoundRobin k h.1]
  exact ⟨⟨rfl, h.2.1, h.2.2.1, h.2.2.2.1, h.2.2.2.2.1, h.2.2.2.2.2⟩, rfl⟩

theorem isrSystemTimerTic_roundRobin_running (k : Kernel) (a c : Nat)
    (h : RoundRobinState k a (c + 2)) :
    RoundRobinState (isrSystemTimerTic cfgRoundRobin k) a (c + 1) := by
  obtain ⟨⟨hs, hact, hdue, hcnt, hoth, hall⟩, hflag⟩ := onTimerTicVisitAll_roundRobinState k a _ h
  have hc0 : ((onTimerTicVisitAll cfgRoundRobin k).1.taskAry
      (onTimerTicVisitAll cfgRoundRobin k).1.pActiveTask).cntRoundRobin = c + 2 := by
    rw [hact]; exact hcnt
  obtain ⟨r1, r2, r3⟩ := onTimerTicRoundRobin_running _ false c hc0
  obtain ⟨f1, f2, _, _⟩ := onTimerTicRoundRobin_frame (onTimerTicVisitAll cfgRoundRobin k).1 false
  obtain ⟨o1, o2, o3⟩ := onTimerTicRoundRobin_other (onTimerTicVisitAll cfgRoundRobin k).1 false
  have hrr : cfgRoundRobin.roundRobinModeSupported = true := rfl
  have e : isrSystemTimerTic cfgRoundRobin k =
      (onTimerTicRoundRobin (onTimerTicVisitAll cfgRoundRobin k).1 false).1 := by
    rw [isrSystemTimerTic_eq, onTimerTic_eq, hflag]
    simp only [hrr, if_true, r3]
    simp
  rw [e]
  refine ⟨?_, ?_, ?_, ?_, ?_, fun q => ?_⟩
  · rw [f2]; exact hs
  · rw [o1]; exact hact
  · rw [r1]; exact hdue
  · rw [hact] at r2
    rw [r2]
  · by_cases hq : 1 - a = a
    · omega
    · rw [o2 (1 - a) (by rw [hact]; exact hq)]
      exact hoth
  · intro hq
    rw [f1 q]
    exact hall q hq

theorem isrSystemTimerTic_roundRobin_elapsed (k : Kernel) (a : Nat) (ha : a < 2)
    (h : RoundRobinState k a 1) :
    RoundRobinState (isrSystemTimerTic cfgRoundRobin k) (1 - a) 4 := by
  obtain ⟨⟨hs, hact, hdue, hcnt, hoth, hall⟩, hflag⟩ := onTimerTicVisitAll_roundRobinState k a _ h
  have hc0 : ((onTimerTicVisitAll cfgRoundRobin k).1.taskAry
      (onTimerTicVisitAll cfgRoundRobin k).1.pActiveTask).cntRoundRobin = 1 := by
    rw [hact]; exact hcnt
  have hd0 : (onTimerTicVisitAll cfgRoundRobin k).1.pDueTaskAryAry
      ((onTimerTicVisitAll cfgRoundRobin k).1.taskAry
        (onTimerTicVisitAll cfgRoundRobin k).1.pActiveTask).prioClass
        = (onTimerTicVisitAll cfgRoundRobin k).1.pActiveTask :: [1 - a] := by
    rw [hact, (hall a ha).2]; exact hdue
  obtain ⟨r1, _, r3, r4⟩ := onTimerTicRoundRobin_elapsed _ false [1 - a] hc0 hd0
  obtain ⟨f1, f2, _, _⟩ := onTimerTicRoundRobin_frame (onTimerTicVisitAll cfgRoundRobin k).1 false
  obtain ⟨o1, o2, o3⟩ := onTimerTicRoundRobin_other (onTimerTicVisitAll cfgRoundRobin k).1 false
  have hrr : cfgRoundRobin.roundRobinModeSupported = true := rfl
  rw [hact] at r1 r3
  rw [(hall a ha).2] at r1
  simp only [List.cons_ne_nil, if_false, List.singleton_append] at r1 r4
  have hna : (1 - a) ≠ a := by omega
  have hl := lookForActiveTaskLoop_found
    (onTimerTicRoundRobin (onTimerTicVisitAll cfgRoundRobin k).1 false).1 1 0 (1 - a) [a]
    (by decide) r1 (fun j h1 h2 => by omega)
  have hb : ((1 - a) !=
      (onTimerTicRoundRobin (onTimerTicVisitAll cfgRoundRobin k).1 false).1.pActiveTask) = true := by
    rw [o1, hact]
    simpa using hna
  have e : isrSystemTimerTic cfgRoundRobin k =
      (pushRetCodeOfContextSwitch (lookForActiveTaskLoop
        (onTimerTicRoundRobin (onTimerTicVisitAll cfgRoundRobin k).1 false).1 1).1).1 := by
    rw [isrSystemTimerTic_eq, onTimerTic_eq, hflag]
    simp only [hrr, if_true, r4]
    have : lookForActiveTask cfgRoundRobin
        (onTimerTicRoundRobin (onTimerTicVisitAll cfgRoundRobin k).1 false).1 =
        lookForActiveTaskLoop (onTimerTicRoundRobin (onTimerTicVisitAll cfgRoundRobin k).1 false).1 1 :=
      rfl
    rw [this, hl]
    simp only [hb, if_true]
  rw [e]
  obtain ⟨_, _, _, p4, p5, p6, p7, _⟩ := pushRetCodeOfContextSwitch_frame (lookForActiveTaskLoop
        (onTimerTicRoundRobin (onTimerTicVisitAll cfgRoundRobin k).1 false).1 1).1
  obtain ⟨l1, l2, l3, _⟩ := lookForActiveTaskLoop_frame
    (onTimerTicRoundRobin (onTimerTicVisitAll cfgRoundRobin k).1 false).1 1
  have hone : 1 - (1 - a) = a := by omega
  refine ⟨?_, ?_, ?_, ?_, ?_, fun q => ?_⟩
  · rw [p4, l2, f2]; exact hs
  · rw [p6, hl]
  · rw [p5, l3, r1, hone]
  · rw [p7, l1, o2 (1 - a) (by rw [hact]; exact hna)]
    exact hoth
  · rw [p7, l1, hone, r3]
    exact (hall a ha).1
  · intro hq
    rw [p7, l1]
    show ((onTimerTicRoundRobin _ false).1.taskAry q).timeRoundRobin = 4 ∧
      ((onTimerTicRoundRobin _ false).1.taskAry q).prioClass = 0
    rw [f1 q]
    exact hall q hq

theorem timerTics_roundRobin (n : Nat) :
    RoundRobinState
      (timerTics cfgRoundRobin (n + 1) (rtos_initRTOS cfgRoundRobin tasksRoundRobin (fun _ => 0)))
      (n / 4 % 2) (4 - n % 4) := by
  induction n with
  | zero => decide
  | succ n ih =>
    show RoundRobinState (isrSystemTimerTic cfgRoundRobin (timerTics cfgRoundRobin (n + 1) _)) _ _
    by_cases h3 : n % 4 = 3
    · have e1 : 4 - n % 4 = 1 := by omega
      rw [e1] at ih
      have := isrSystemTimerTic_roundRobin_elapsed _ _ (Nat.mod_lt _ (by decide)) ih
      have e2 : (n + 1) / 4 % 2 = 1 - n / 4 % 2 := by omega
      have e3 : 4 - (n + 1) % 4 = 4 := by omega
      rw [e2, e3]
      exact this
    · have e1 : 4 - n % 4 = (2 - n % 4) + 2 := by omega
      rw [e1] at ih
      have := isrSystemTimerTic_roundRobin_running _ _ _ ih
      have e2 : (n + 1) / 4 % 2 = n / 4 % 2 := by omega
      have e3 : 4 - (n + 1) % 4 = 2 - n % 4 + 1 := by omega
      rw [e2, e3]
      exact this

theorem onTimerTic_round_robin_check {cfg : Config} {k : Kernel}
    (hI : ListsInv cfg k) (hA : ActiveInv cfg k)
    (hrr : cfg.roundRobinModeSupported = true)
    (hne : k.pActiveTask ≠ IDLE_TASK_ID cfg)
    (hc : (k.taskAry k.pActiveTask).cntRoundRobin = 1) :
    ∃ others,
      (onTimerTicLoop cfg k.noSuspendedTasks 0
        { k with time := (k.time + 1) % 2 ^ cfg.timeBits } false).1.pDueTaskAryAry
          (k.taskAry k.pActiveTask).prioClass = k.pActiveTask :: others ∧
      (onTimerTic cfg k).1.pDueTaskAryAry (k.taskAry k.pActiveTask).prioClass =
        (if others = [] then [k.pActiveTask] else others ++ [k.pActiveTask]) ∧
      (onTimerTic cfg k).1.taskAry k.pActiveTask =
        { k.taskAry k.pActiveTask with
            cntRoundRobin := (k.taskAry k.pActiveTask).timeRoundRobin } := by
  rcases active_cases hI hA with ⟨e, _⟩ | ⟨_, _, ⟨rest, hrest⟩, _⟩
  · exact absurd e hne
  obtain ⟨_, v2, v3, _, _, v6⟩ := @onTimerTicVisitAll_inv cfg _ hI hA
  obtain ⟨l, hl⟩ := v6 (k.taskAry k.pActiveTask).prioClass
  have hc1 : ((onTimerTicVisitAll cfg k).1.taskAry
      (onTimerTicVisitAll cfg k).1.pActiveTask).cntRoundRobin = 1 := by rw [v2, v3]; exact hc
  have hd1 : (onTimerTicVisitAll cfg k).1.pDueTaskAryAry
      ((onTimerTicVisitAll cfg k).1.taskAry (onTimerTicVisitAll cfg k).1.pActiveTask).prioClass
        = (onTimerTicVisitAll cfg k).1.pActiveTask :: (rest ++ l) := by
    rw [v2, v3, hl, hrest]
    rfl
  obtain ⟨r1, _, r3, _⟩ := onTimerTicRoundRobin_elapsed (onTimerTicVisitAll cfg k).1
    (onTimerTicVisitAll cfg k).2.2 (rest ++ l) hc1 hd1
  obtain ⟨t1, t2⟩ := onTimerTic_after_roundRobin cfg k hrr
  rw [v2, v3] at r1 r3 hd1
  refine ⟨rest ++ l, ?_, ?_, ?_⟩
  · rw [onTimerTicLoop_eq]
    exact hd1
  · rw [t2]; exact r1
  · rw [t1]; exact r3

/-- C15: let round robin be compiled in and let the active task `A` (not the idle task) of a
reachable state have the round robin counter 1, so that the next `onTimerTic` counts it down to
0.  The due list of the class of `A` is `A :: others` when `onTimerTic` has visited the
suspended tasks (`others` includes the tasks of the class made due in this tic).  `onTimerTic`
reloads the counter of `A` with `timeRoundRobin`; if `others` is not empty then the list
becomes `others ++ [A]`, i.e. `A` is at the tail and every other entry is one position closer
to the head, and after the task selection the head of `others` is the active task provided
that the due lists of all higher classes are empty (in any case the active task is the head of
the highest non-empty class); if `A` is the only due task of its class then the list is
unchanged.  Two tasks with `timeRoundRobin == 4` in the same class, which never suspend: after
the first timer tic, which makes them due, the active task changes after every fourth tic (it is
task `n / 4 mod 2` after tic `n + 1`) and it is never the idle task. -/
theorem onTimerTic_round_robin_rotation {cfg : Config} (hcfg : cfg.WellFormed)
    {tasks : List TaskInit} (ht : TasksOk cfg tasks) {sem : Nat → Nat} {k : Kernel}
    (hr : Reachable cfg tasks sem k) (hrr : cfg.roundRobinModeSupported = true)
    (hne : k.pActiveTask ≠ IDLE_TASK_ID cfg)
    (hc : (k.taskAry k.pActiveTask).cntRoundRobin = 1) :
    (∃ others,
      (onTimerTicLoop cfg k.noSuspendedTasks 0
        { k with time := (k.time + 1) % 2 ^ cfg.timeBits } false).1.pDueTaskAryAry
          (k.taskAry k.pActiveTask).prioClass = k.pActiveTask :: others ∧
      (others ≠ [] →
        (onTimerTic cfg k).1.pDueTaskAryAry (k.taskAry k.pActiveTask).prioClass
          = others ++ [k.pActiveTask] ∧
        ((∀ j, (k.taskAry k.pActiveTask).prioClass < j → j < cfg.noPrioClasses →
            (onTimerTic cfg k).1.pDueTaskAryAry j = []) →
          some (onTimerTic cfg k).1.pActiveTask = others.head?)) ∧
      (others = [] →
        (onTimerTic cfg k).1.pDueTaskAryAry (k.taskAry k.pActiveTask).prioClass
          = [k.pActiveTask])) ∧
    ((onTimerTic cfg k).1.taskAry k.pActiveTask).cntRoundRobin
      = (k.taskAry k.pActiveTask).timeRoundRobin ∧
    ActiveIsHead cfg (onTimerTic cfg k).1 ∧
    (∀ n,
      (timerTics cfgRoundRobin (n + 1)
        (rtos_initRTOS cfgRoundRobin tasksRoundRobin (fun _ => 0))).pActiveTask = n / 4 % 2 ∧
      (timerTics cfgRoundRobin (n + 1)
        (rtos_initRTOS cfgRoundRobin tasksRoundRobin (fun _ => 0))).pActiveTask
          ≠ IDLE_TASK_ID cfgRoundRobin) := by
  obtain ⟨hI, hA⟩ := reachable_inv hcfg ht hr
  obtain ⟨others, h1, h2, h3⟩ := onTimerTic_round_robin_check hI hA hrr hne hc
  obtain ⟨i1, i2, _⟩ := @onTimerTic_inv cfg _ hI hA
  have hhead := activeIsHead_of_inv i1 i2
  rcases active_cases hI hA with ⟨e, _⟩ | ⟨_, hprio, _, _⟩
  · exact absurd e hne
  refine ⟨⟨others, h1, fun ho => ?_, fun ho => ?_⟩, by rw [h3], hhead, fun n => ?_⟩
  · rw [if_neg ho] at h2
    refine ⟨h2, fun hhigh => ?_⟩
    obtain ⟨a1, a2, _⟩ := hhead
    have hnidle : (onTimerTic cfg k).1.pActiveTask ≠ IDLE_TASK_ID cfg := by
      intro hid
      have := (a1.1 hid) _ hprio
      rw [Kernel.noDueTasksAry, h2] at this
      simp at this
    obtain ⟨top, t1, t2, t3, t4⟩ := a2 hnidle
    have htop : top = (k.taskAry k.pActiveTask).prioClass := by
      rcases Nat.lt_trichotomy top (k.taskAry k.pActiveTask).prioClass with hlt | heq | hgt
      · have := t4 _ hlt hprio
        rw [Kernel.noDueTasksAry, h2] at this
        simp at this
      · exact heq
      · have := hhigh top hgt t1
        rw [Kernel.noDueTasksAry, this] at t2
        simp at t2
    rw [htop, h2] at t3
    rw [← t3]
    cases others with
    | nil => exact absurd rfl ho
    | cons x xs => simp
  · rw [if_pos ho] at h2
    exact h2
  · have h := timerTics_roundRobin n
    refine ⟨h.2.1, ?_⟩
    rw [h.2.1]
    show n / 4 % 2 ≠ 2
    omega

theorem tasksRoundRobin_ok : TasksOk cfgRoundRobin tasksRoundRobin := by
  intro a ha
  simp only [tasksRoundRobin, List.mem_cons, List.mem_singleton, List.not_mem_nil, or_false] at ha
  rcases ha with rfl | rfl <;> decide

theorem roundRobin_fourth_tic :
    (timerTics cfgRoundRobin (3 + 1)
      (rtos_initRTOS cfgRoundRobin tasksRoundRobin (fun _ => 0))).pActiveTask
        ≠ IDLE_TASK_ID cfgRoundRobin ∧
    ((timerTics cfgRoundRobin (3 + 1)
      (rtos_initRTOS cfgRoundRobin tasksRoundRobin (fun _ => 0))).taskAry
        (timerTics cfgRoundRobin (3 + 1)
          (rtos_initRTOS cfgRoundRobin tasksRoundRobin (fun _ => 0))).pActiveTask).cntRoundRobin
      = 1 := by
  have hs := timerTics_roundRobin 3
  refine ⟨?_, ?_⟩
  · rw [hs.2.1]; decide
  · rw [hs.2.1]; exact hs.2.2.2.1

/-- C15, instance: in the round robin scenario the fourth timer tic leaves task 0 active with
the counter 1; the fifth tic reloads the counter of task 0 with its time slice and makes task 1
the active task. -/
theorem onTimerTic_round_robin_rotation_witness :
    cfgRoundRobin.WellFormed ∧ TasksOk cfgRoundRobin tasksRoundRobin ∧
    Reachable cfgRoundRobin tasksRoundRobin (fun _ => 0)
      (timerTics cfgRoundRobin (3 + 1)
        (rtos_initRTOS cfgRoundRobin tasksRoundRobin (fun _ => 0))) ∧
    ((onTimerTic cfgRoundRobin
      (timerTics cfgRoundRobin (3 + 1)
        (rtos_initRTOS cfgRoundRobin tasksRoundRobin (fun _ => 0)))).1.taskAry
      (timerTics cfgRoundRobin (3 + 1)
        (rtos_initRTOS cfgRoundRobin tasksRoundRobin (fun _ => 0))).pActiveTask).cntRoundRobin
      = ((timerTics cfgRoundRobin (3 + 1)
        (rtos_initRTOS cfgRoundRobin tasksRoundRobin (fun _ => 0))).taskAry
      (timerTics cfgRoundRobin (3 + 1)
        (rtos_initRTOS cfgRoundRobin tasksRoundRobin (fun _ => 0))).pActiveTask).timeRoundRobin ∧
    (timerTics cfgRoundRobin (4 + 1)
        (rtos_initRTOS cfgRoundRobin tasksRoundRobin (fun _ => 0))).pActiveTask = 4 / 4 % 2 :=
  ⟨by decide, tasksRoundRobin_ok, timerTics_reachable Reachable.init (3 + 1),
   (onTimerTic_round_robin_rotation (by decide) tasksRoundRobin_ok
      (timerTics_reachable Reachable.init (3 + 1)) rfl
      roundRobin_fourth_tic.1 roundRobin_fourth_tic.2).2.1,
   ((onTimerTic_round_robin_rotation (by decide) tasksRoundRobin_ok
      (timerTics_reachable Reachable.init (3 + 1)) rfl
      roundRobin_fourth_tic.1 roundRobin_fourth_tic.2).2.2.2 4).1⟩

theorem sendEvent_sync_bit_unposted {cfg : Config} (hcfg : cfg.WellFormed) {k : Kernel}
    (hnd : k.pSuspendedTaskAry.Nodup) (ev j : Nat)
    (hj : j < cfg.noSemaphoreEvents + cfg.noMutexEvents) (hev : ev.testBit j = false) :
    (∀ q, ((sendEvent cfg k ev).1.taskAry q).postedEventVec.testBit j =
      (k.taskAry q).postedEventVec.testBit j) ∧
    (sendEvent cfg k ev).1.mutexVec.testBit j = k.mutexVec.testBit j ∧
    (sendEvent cfg k ev).1.semaphoreAry j = k.semaphoreAry j := by
  obtain ⟨h1, h2, h3⟩ := sendEvent_bits hcfg hnd ev
  obtain ⟨i1, i2, _⟩ := sendEventInit_bits cfg hcfg.2.2.2.1 ev j
  have hb : (sendEventInit cfg ev).postedEventVec.testBit j = false := by
    cases hbb : (sendEventInit cfg ev).postedEventVec.testBit j
    · rfl
    · have := (sendEventInit_ok cfg hcfg.2.2.2.1 ev).1 j hbb
      omega
  have hmx : (sendEventInit cfg ev).mutexToReleaseVec.testBit j = false := by
    rw [i1, hev]
    simp
  have hsx : (sendEventInit cfg ev).semaphoreToReleaseVec.testBit j = false := by
    rw [i2, hev]
    simp
  refine ⟨fun q => ?_, ?_, ?_⟩
  · by_cases hq : q ∈ k.pSuspendedTaskAry
    · obtain ⟨pre, post, hdec⟩ := List.append_of_mem hq
      rw [h1 pre q post hdec j, hb, hmx, hsx]
      simp
    · rw [sendEvent_task_other cfg k ev q hq]
  · rw [h2 j, hmx]
    simp
  · rw [h3 j, hsx]
    simp

theorem sendEvent_mutex_cases {cfg : Config} (hcfg : cfg.WellFormed) {k : Kernel}
    (hnd : k.pSuspendedTaskAry.Nodup) (ev m : Nat) (hm1 : cfg.noSemaphoreEvents ≤ m)
    (hm2 : m < cfg.noSemaphoreEvents + cfg.noMutexEvents) (hev : ev.testBit m = true) :
    (∃ pre t post, k.pSuspendedTaskAry = pre ++ t :: post ∧
      (k.taskAry t).eventMask.testBit m = true ∧
      (∀ q ∈ pre, (k.taskAry q).eventMask.testBit m = false) ∧
      ((sendEvent cfg k ev).1.taskAry t).postedEventVec.testBit m = true ∧
      (∀ q, q ≠ t → ((sendEvent cfg k ev).1.taskAry q).postedEventVec.testBit m =
        (k.taskAry q).postedEventVec.testBit m) ∧
      (sendEvent cfg k ev).1.mutexVec.testBit m = k.mutexVec.testBit m) ∨
    ((∀ q ∈ k.pSuspendedTaskAry, (k.taskAry q).eventMask.testBit m = false) ∧
      (∀ q, ((sendEvent cfg k ev).1.taskAry q).postedEventVec.testBit m =
        (k.taskAry q).postedEventVec.testBit m) ∧
      (sendEvent cfg k ev).1.mutexVec.testBit m = true) := by
  obtain ⟨hF, hM⟩ := sendEvent_mutex_bit hcfg hnd ev m hm1 hm2 hev
  obtain ⟨d1, d2⟩ := deliver_first
    (fun q => ((sendEvent cfg k ev).1.taskAry q).postedEventVec.testBit m)
    (fun q => (k.taskAry q).postedEventVec.testBit m)
    (fun q => (k.taskAry q).eventMask.testBit m)
    (fun q => (k.taskAry q).eventMask.testBit m)
    k.pSuspendedTaskAry (fun _ h => h) (fun _ h _ => h) hF
    (fun q hq => by simp only [sendEvent_task_other cfg k ev q hq])
  by_cases hex : ∃ q ∈ k.pSuspendedTaskAry, (k.taskAry q).eventMask.testBit m = true
  · left
    obtain ⟨pre, t, post, hdec, hmt, hpre⟩ :=
      exists_first (fun q => (k.taskAry q).eventMask.testBit m) _ hex
    obtain ⟨e1, e2⟩ := d1 pre t post hdec hmt hpre
    have hall : k.pSuspendedTaskAry.all (fun q => !(k.taskAry q).eventMask.testBit m) = false := by
      rw [hdec]
      simp [hmt]
    refine ⟨pre, t, post, hdec, hmt, hpre, e1, e2, ?_⟩
    rw [hM, hall, Bool.or_false]
  · right
    have hnone : ∀ q ∈ k.pSuspendedTaskAry, (k.taskAry q).eventMask.testBit m = false := by
      intro q hq
      cases hb : (k.taskAry q).eventMask.testBit m
      · rfl
      · exact absurd ⟨q, hq, hb⟩ hex
    refine ⟨hnone, d2 hnone, ?_⟩
    rw [hM, all_not_eq_true.mpr hnone, Bool.or_true]

theorem sendEvent_semaphore_cases {cfg : Config} (hcfg : cfg.WellFormed) {k : Kernel}
    (hnd : k.pSuspendedTaskAry.Nodup) (ev i : Nat) (hi : i < cfg.noSemaphoreEvents)
    (hev : ev.testBit i = true) :
    (∃ pre t post, k.pSuspendedTaskAry = pre ++ t :: post ∧
      wantsSemaphore (k.taskAry t) i = true ∧
      (∀ q ∈ pre, wantsSemaphore (k.taskAry q) i = false) ∧
      ((sendEvent cfg k ev).1.taskAry t).postedEventVec.testBit i = true ∧
      (∀ q, q ≠ t → ((sendEvent cfg k ev).1.taskAry q).postedEventVec.testBit i =
        (k.taskAry q).postedEventVec.testBit i) ∧
      (sendEvent cfg k ev).1.semaphoreAry i = k.semaphoreAry i) ∨
    ((∀ q ∈ k.pSuspendedTaskAry, wantsSemaphore (k.taskAry q) i = false) ∧
      (∀ q, ((sendEvent cfg k ev).1.taskAry q).postedEventVec.testBit i =
        (k.taskAry q).postedEventVec.testBit i) ∧
      (sendEvent cfg k ev).1.semaphoreAry i = (k.semaphoreAry i + 1) % 2 ^ cfg.semaphoreBits) := by
  obtain ⟨hF, hM⟩ := sendEvent_semaphore_bit hcfg hnd ev i hi hev
  obtain ⟨d1, d2⟩ := deliver_first
    (fun q => ((sendEvent cfg k ev).1.taskAry q).postedEventVec.testBit i)
    (fun q => (k.taskAry q).postedEventVec.testBit i)
    (fun q => (k.taskAry q).eventMask.testBit i)
    (fun q => wantsSemaphore (k.taskAry q) i)
    k.pSuspendedTaskAry
    (fun q h => by
      unfold wantsSemaphore at h
      rw [Bool.and_eq_true] at h
      exact h.1)
    (fun q h1 h2 => by
      simp only at h1 h2
      simp only [wantsSemaphore, h1, h2, Bool.not_false, Bool.and_self])
    hF
    (fun q hq => by simp only [sendEvent_task_other cfg k ev q hq])
  by_cases hex : ∃ q ∈ k.pSuspendedTaskAry, wantsSemaphore (k.taskAry q) i = true
  · left
    obtain ⟨pre, t, post, hdec, hmt, hpre⟩ :=
      exists_first (fun q => wantsSemaphore (k.taskAry q) i) _ hex
    obtain ⟨e1, e2⟩ := d1 pre t post hdec hmt hpre
    have hall : k.pSuspendedTaskAry.all (fun q => !((k.taskAry q).eventMask.testBit i
        && !(k.taskAry q).postedEventVec.testBit i)) = false := by
      rw [hdec]
      have hmt1 := hmt
      unfold wantsSemaphore at hmt1
      simp only [List.all_append, List.all_cons, hmt1, Bool.not_true, Bool.false_and,
        Bool.and_false]
    refine ⟨pre, t, post, hdec, hmt, hpre, e1, e2, ?_⟩
    rw [hM, hall]
    simp
  · right
    have hnone : ∀ q ∈ k.pSuspendedTaskAry, wantsSemaphore (k.taskAry q) i = false := by
      intro q hq
      cases hb : wantsSemaphore (k.taskAry q) i
      · rfl
      · exact absurd ⟨q, hq, hb⟩ hex
    refine ⟨hnone, d2 hnone, ?_⟩
    have hall : k.pSuspendedTaskAry.all (fun q => !((k.taskAry q).eventMask.testBit i
        && !(k.taskAry q).postedEventVec.testBit i)) = true :=
      all_not_eq_true.mpr hnone
    rw [hM, hall]
    simp

theorem rtos_initRTOS_posted (cfg : Config) (tasks : List TaskInit) (sem : Nat → Nat)
    (t : Nat) (ht : t ≤ cfg.noTasks) :
    ((rtos_initRTOS cfg tasks sem).taskAry t).postedEventVec = 0 := by
  have hloop := foldl_range_induct (initRTOSTask cfg)
    (fun (n : Nat) (k : Kernel) => ∀ t, t < n → (k.taskAry t).postedEventVec = 0)
    (setup cfg tasks (staticData cfg sem))
    (fun t h => absurd h (Nat.not_lt_zero _))
    (by
      intro n k h6
      obtain ⟨_, _, _, g4, _, g6, _⟩ := initRTOSTask_facts cfg k n
      intro t htn
      by_cases hq : t = n
      · subst hq; exact g6
      · rw [g4 t hq]
        exact h6 t (by omega))
    cfg.noTasks
  by_cases hid : t = IDLE_TASK_ID cfg
  · subst hid
    unfold rtos_initRTOS
    simp only [setTask_taskAry_same]
  · have hlt : t < cfg.noTasks := by
      unfold IDLE_TASK_ID at hid
      omega
    have : (rtos_initRTOS cfg tasks sem).taskAry t =
        ((List.range cfg.noTasks).foldl (initRTOSTask cfg)
          (setup cfg tasks (staticData cfg sem))).taskAry t := by
      unfold rtos_initRTOS
      simp only [Kernel.setTask]
      rw [Function.update_noteq hid]
    rw [this]
    exact hloop t hlt

theorem MutexExclusive.mono {cfg : Config} {k k1 : Kernel} (h : MutexExclusive cfg k)
    (hs : ∀ t ∈ k1.pSuspendedTaskAry, t ∈ k.pSuspendedTaskAry)
    (hm : ∀ m, m < cfg.noSemaphoreEvents + cfg.noMutexEvents →
      k1.mutexVec.testBit m = true → k.mutexVec.testBit m = true)
    (hp : ∀ t ∈ k1.pSuspendedTaskAry, ∀ m, m < cfg.noSemaphoreEvents + cfg.noMutexEvents →
      (k1.taskAry t).postedEventVec.testBit m = true →
      (k.taskAry t).postedEventVec.testBit m = true) :
    MutexExclusive cfg k1 := by
  intro m hm1 hm2
  obtain ⟨a, b⟩ := h m hm1 hm2
  refine ⟨fun t1 h1 t2 h2 p1 p2 => a t1 (hs t1 h1) t2 (hs t2 h2) (hp t1 h1 m hm2 p1)
    (hp t2 h2 m hm2 p2), fun hv t ht => ?_⟩
  cases hb : (k1.taskAry t).postedEventVec.testBit m
  · rfl
  · have := b (hm m hm2 hv) t (hs t ht)
    rw [hp t ht m hm2 hb] at this
    exact absurd this (by simp)

theorem MutexExclusive.of_posted_zero {cfg : Config} {k : Kernel}
    (h : ∀ t ∈ k.pSuspendedTaskAry, (k.taskAry t).postedEventVec = 0) :
    MutexExclusive cfg k := by
  intro m _ _
  refine ⟨fun t1 h1 t2 _ p1 _ => ?_, fun _ t ht => ?_⟩
  · rw [h t1 h1] at p1
    simp at p1
  · rw [h t ht]
    simp

theorem MutexExclusive.pushRetCode {cfg : Config} {k : Kernel} (h : MutexExclusive cfg k) :
    MutexExclusive cfg (pushRetCodeOfContextSwitch k).1 := by
  obtain ⟨_, p2, _, p4, _, _, _, p8, _, p10⟩ := pushRetCodeOfContextSwitch_frame k
  refine h.mono (fun t ht => by rw [p4] at ht; exact ht) (fun m _ hv => by rw [p2] at hv; exact hv)
    (fun t _ m _ hb => ?_)
  by_cases hq : t = k.pActiveTask
  · subst hq
    rw [p10] at hb
    simp at hb
  · rw [p8 t hq] at hb
    exact hb

theorem onTimerTic_mutexExclusive {cfg : Config} (hcfg : cfg.WellFormed) {k : Kernel}
    (hnd : k.pSuspendedTaskAry.Nodup) (h : MutexExclusive cfg k) :
    MutexExclusive cfg (onTimerTic cfg k).1 := by
  refine h.mono (fun t ht => (onTimerTic_order cfg k).1.subset ht)
    (fun m _ hv => by rw [(onTimerTic_globals cfg k).2.1] at hv; exact hv)
    (fun t ht m hm hb => ?_)
  have hts := (onTimerTic_order cfg k).1.subset ht
  rw [(onTimerTic_task_result cfg hnd t hts).1] at hb
  have hb1 : (onTimerTicTask ((k.time + 1) % 2 ^ cfg.timeBits)
      (k.taskAry t)).postedEventVec.testBit m = true := hb
  rw [onTimerTicTask_posted] at hb1
  have h14 : m ≠ 14 := by have := hcfg.2.2.2.2.1; omega
  have h15 : m ≠ 15 := by have := hcfg.2.2.2.2.1; omega
  simpa [h14, h15] using hb1

theorem waitForEvent_mutex_facts (cfg : Config) (hS : cfg.noSemaphoreEvents ≤ 8) (k : Kernel)
    (eventMask : Nat) (all : Bool) (timeout : Nat) (hm : cfg.useMutex = true) :
    (∀ t ∈ (waitForEvent cfg k eventMask all timeout).1.pSuspendedTaskAry,
      t = k.pActiveTask ∨ t ∈ k.pSuspendedTaskAry) ∧
    (∀ q, q ≠ k.pActiveTask →
      (waitForEvent cfg k eventMask all timeout).1.taskAry q = k.taskAry q) ∧
    (waitForEvent cfg k eventMask all timeout).1.mutexVec = k.mutexVec &&& not16 eventMask ∧
    (∀ j, cfg.noSemaphoreEvents ≤ j →
      ((waitForEvent cfg k eventMask all timeout).1.taskAry k.pActiveTask).postedEventVec.testBit j
        = (eventMask &&& k.mutexVec).testBit j) := by
  have hu : (cfg.useSemaphore || cfg.useMutex) = true := by rw [hm]; simp
  obtain ⟨_, _, a3, _, _, a6, _, a8, a9, _, _⟩ := acquireFreeSyncObjs_spec cfg hS k eventMask all
  rw [if_pos hm] at a9
  have hbit : ∀ j, cfg.noSemaphoreEvents ≤ j →
      ((acquireFreeSyncObjs cfg k eventMask all).1.taskAry k.pActiveTask).postedEventVec.testBit j
        = (eventMask &&& k.mutexVec).testBit j := by
    intro j hj
    rw [a8 j, if_pos hm]
    have : ¬ j < cfg.noSemaphoreEvents := by omega
    simp [this]
  cases hs : (waitForEvent cfg k eventMask all timeout).2
  · obtain ⟨_, hacq⟩ := (waitForEvent_false_iff cfg k eventMask all timeout).mp hs
    rw [waitForEvent_of_acquired cfg k eventMask all timeout hu hacq]
    exact ⟨fun t ht => Or.inr (by rw [a3] at ht; exact ht), a6, a9, hbit⟩
  · obtain ⟨_, s2, s3, _⟩ := waitForEvent_suspended cfg k eventMask all timeout hu hs
    obtain ⟨_, _, _, _, c5⟩ := waitForEvent_caller cfg hS k eventMask all timeout hs
    refine ⟨fun t ht => ?_, c5, by rw [s3, a9], fun j hj => by rw [s2]; exact hbit j hj⟩
    rw [waitForEvent_insert cfg hS k eventMask all timeout hs, if_pos hu, mem_insertAt] at ht
    exact ht

theorem waitForEvent_mutexExclusive {cfg : Config} (hcfg : cfg.WellFormed) {k : Kernel}
    (hact : k.pActiveTask ∉ k.pSuspendedTaskAry) (h : MutexExclusive cfg k)
    (eventMask : Nat) (all : Bool) (timeout : Nat) :
    MutexExclusive cfg (waitForEvent cfg k eventMask all timeout).1 := by
  intro m hm1 hm2
  have hm : cfg.useMutex = true := by
    unfold Config.useMutex
    simp
    omega
  obtain ⟨f1, f2, f3, f4⟩ := waitForEvent_mutex_facts cfg hcfg.2.2.2.1 k eventMask all timeout hm
  obtain ⟨a, b⟩ := h m hm1 hm2
  have hold : ∀ t ∈ k.pSuspendedTaskAry,
      ((waitForEvent cfg k eventMask all timeout).1.taskAry t).postedEventVec.testBit m
        = (k.taskAry t).postedEventVec.testBit m := by
    intro t ht
    rw [f2 t (fun e => hact (e ▸ ht))]
  have hnew : ((waitForEvent cfg k eventMask all timeout).1.taskAry
      k.pActiveTask).postedEventVec.testBit m = true →
      eventMask.testBit m = true ∧ k.mutexVec.testBit m = true := by
    intro hb
    rw [f4 m hm1, Nat.testBit_and, Bool.and_eq_true] at hb
    exact hb
  refine ⟨fun t1 h1 t2 h2 p1 p2 => ?_, fun hv t ht => ?_⟩
  · rcases f1 t1 h1 with e1 | e1 <;> rcases f1 t2 h2 with e2 | e2
    · rw [e1, e2]
    · subst e1
      rw [hold t2 e2] at p2
      have := b (hnew p1).2 t2 e2
      rw [p2] at this
      exact absurd this (by simp)
    · subst e2
      rw [hold t1 e1] at p1
      have := b (hnew p2).2 t1 e1
      rw [p1] at this
      exact absurd this (by simp)
    · rw [hold t1 e1] at p1
      rw [hold t2 e2] at p2
      exact a t1 e1 t2 e2 p1 p2
  · rw [f3, Nat.testBit_and, testBit_not16, Bool.and_eq_true, Bool.and_eq_true] at hv
    obtain ⟨v1, _, v3⟩ := hv
    rcases f1 t ht with e | e
    · subst e
      cases hb : ((waitForEvent cfg k eventMask all timeout).1.taskAry
          k.pActiveTask).postedEventVec.testBit m
      · rfl
      · have := (hnew hb).1
        rw [this] at v3
        simp at v3
    · rw [hold t e]
      exact b v1 t e

theorem sendEventMutexAssertions_bit {cfg : Config} (hcfg : cfg.WellFormed) {k : Kernel}
    {ev : Nat} (ha : SendEventMutexAssertions cfg k ev) (m : Nat)
    (hm1 : cfg.noSemaphoreEvents ≤ m) (hm2 : m < cfg.noSemaphoreEvents + cfg.noMutexEvents)
    (hev : ev.testBit m = true) :
    (∀ t ∈ k.pSuspendedTaskAry, (k.taskAry t).postedEventVec.testBit m = false) ∧
    k.mutexVec.testBit m = false := by
  have hmx : (sendEventInit cfg ev).mutexToReleaseVec.testBit m = true := by
    rw [(sendEventInit_bits cfg hcfg.2.2.2.1 ev m).1, hev]
    simp [hm1, hm2]
  have key : ∀ x : Nat, x &&& (sendEventInit cfg ev).mutexToReleaseVec = 0 →
      x.testBit m = false := by
    intro x hx
    have := congrArg (fun y => y.testBit m) hx
    simp only [Nat.testBit_and, hmx, Bool.and_true, Nat.zero_testBit] at this
    exact this
  exact ⟨fun t ht => key _ (ha.1 t ht), key _ ha.2⟩

theorem sendEvent_mutexExclusive {cfg : Config} (hcfg : cfg.WellFormed) {k : Kernel}
    (hnd : k.pSuspendedTaskAry.Nodup) (h : MutexExclusive cfg k) (ev : Nat)
    (ha : SendEventMutexAssertions cfg k ev) :
    MutexExclusive cfg (sendEvent cfg k ev).1 := by
  intro m hm1 hm2
  have hsub : ∀ t ∈ (sendEvent cfg k ev).1.pSuspendedTaskAry, t ∈ k.pSuspendedTaskAry :=
    fun t ht => (sendEvent_order hcfg k ev).1.subset ht
  obtain ⟨a, b⟩ := h m hm1 hm2
  cases hev : ev.testBit m
  · obtain ⟨u1, u2, _⟩ := sendEvent_sync_bit_unposted hcfg hnd ev m hm2 hev
    refine ⟨fun t1 h1 t2 h2 p1 p2 => ?_, fun hv t ht => ?_⟩
    · rw [u1] at p1 p2
      exact a t1 (hsub t1 h1) t2 (hsub t2 h2) p1 p2
    · rw [u2] at hv
      rw [u1]
      exact b hv t (hsub t ht)
  · obtain ⟨n1, n2⟩ := sendEventMutexAssertions_bit hcfg ha m hm1 hm2 hev
    rcases sendEvent_mutex_cases hcfg hnd ev m hm1 hm2 hev with
      ⟨pre, t0, post, _, _, _, _, c5, c6⟩ | ⟨_, c2, _⟩
    · have honly : ∀ t ∈ (sendEvent cfg k ev).1.pSuspendedTaskAry,
          ((sendEvent cfg k ev).1.taskAry t).postedEventVec.testBit m = true → t = t0 := by
        intro t ht hb
        by_contra hne
        rw [c5 t hne, n1 t (hsub t ht)] at hb
        exact absurd hb (by simp)
      refine ⟨fun t1 h1 t2 h2 p1 p2 => by rw [honly t1 h1 p1, honly t2 h2 p2],
        fun hv t ht => ?_⟩
      rw [c6, n2] at hv
      exact absurd hv (by simp)
    · refine ⟨fun t1 h1 t2 h2 p1 p2 => ?_, fun hv t ht => ?_⟩
      · rw [c2, n1 t1 (hsub t1 h1)] at p1
        exact absurd p1 (by simp)
      · rw [c2]
        exact n1 t (hsub t ht)

theorem sendEvent_mutex_once {cfg : Config} (hcfg : cfg.WellFormed) {k : Kernel}
    (hnd : k.pSuspendedTaskAry.Nodup) (ev m : Nat) (hm1 : cfg.noSemaphoreEvents ≤ m)
    (hm2 : m < cfg.noSemaphoreEvents + cfg.noMutexEvents) (t1 t2 : Nat)
    (p1 : ((sendEvent cfg k ev).1.taskAry t1).postedEventVec.testBit m = true)
    (q1 : (k.taskAry t1).postedEventVec.testBit m = false)
    (p2 : ((sendEvent cfg k ev).1.taskAry t2).postedEventVec.testBit m = true)
    (q2 : (k.taskAry t2).postedEventVec.testBit m = false) : t1 = t2 := by
  cases hev : ev.testBit m
  · obtain ⟨u1, _, _⟩ := sendEvent_sync_bit_unposted hcfg hnd ev m hm2 hev
    rw [u1, q1] at p1
    exact absurd p1 (by simp)
  · rcases sendEvent_mutex_cases hcfg hnd ev m hm1 hm2 hev with
      ⟨pre, t0, post, _, _, _, _, c5, _⟩ | ⟨_, c2, _⟩
    · have e1 : t1 = t0 := by
        by_contra hne
        rw [c5 t1 hne, q1] at p1
        exact absurd p1 (by simp)
      have e2 : t2 = t0 := by
        by_contra hne
        rw [c5 t2 hne, q2] at p2
        exact absurd p2 (by simp)
      rw [e1, e2]
    · rw [c2, q1] at p1
      exact absurd p1 (by simp)

/-- C19: `MutexExclusive` says that for each mutex event `m` at most one suspended task has
`m` in its posted events and that no suspended task has it if bit `m` of `_mutexVec` is set.
It holds after `rtos_initRTOS` (the tasks being initialized with valid priority classes).  In a state in which the active task is not in the list of
suspended tasks and no task is listed twice there, it is preserved by `onTimerTic`, by
`waitForEvent` with any arguments, and by every `sendEvent` for which the two debug assertions
on the release of mutexes hold (no suspended task has got a released mutex, no released mutex is
available); the same is true for the interrupts as a whole, including the return of the posted
events to the resumed task.  One call of `sendEvent`, with or without the assertions, never
newly sets the same mutex bit in the posted events of two different tasks. -/
theorem mutexExclusive_preserved {cfg : Config} (hcfg : cfg.WellFormed) {k : Kernel}
    (hnd : k.pSuspendedTaskAry.Nodup) (hact : k.pActiveTask ∉ k.pSuspendedTaskAry)
    (hex : MutexExclusive cfg k) :
    (∀ tasks sem, TasksOk cfg tasks → MutexExclusive cfg (rtos_initRTOS cfg tasks sem)) ∧
    MutexExclusive cfg (onTimerTic cfg k).1 ∧
    MutexExclusive cfg (isrSystemTimerTic cfg k) ∧
    (∀ eventMask all timeout,
      MutexExclusive cfg (waitForEvent cfg k eventMask all timeout).1 ∧
      MutexExclusive cfg (rtos_waitForEvent cfg k eventMask all timeout).1) ∧
    (∀ ev, SendEventMutexAssertions cfg k ev →
      MutexExclusive cfg (sendEvent cfg k ev).1 ∧ MutexExclusive cfg (rtos_sendEvent cfg k ev)) ∧
    (∀ ev m t1 t2, cfg.noSemaphoreEvents ≤ m → m < cfg.noSemaphoreEvents + cfg.noMutexEvents →
      ((sendEvent cfg k ev).1.taskAry t1).postedEventVec.testBit m = true →
      (k.taskAry t1).postedEventVec.testBit m = false →
      ((sendEvent cfg k ev).1.taskAry t2).postedEventVec.testBit m = true →
      (k.taskAry t2).postedEventVec.testBit m = false → t1 = t2) := by
  have hT := onTimerTic_mutexExclusive hcfg hnd hex
  refine ⟨fun tasks sem ht => ?_, hT, ?_, fun eventMask all timeout => ?_, fun ev ha => ?_,
    fun ev m t1 t2 hm1 hm2 p1 q1 p2 q2 => sendEvent_mutex_once hcfg hnd ev m hm1 hm2 t1 t2 p1 q1 p2 q2⟩
  · have hI := (rtos_initRTOS_inv hcfg tasks ht sem).1
    exact MutexExclusive.of_posted_zero (fun t hts =>
      rtos_initRTOS_posted cfg tasks sem t (Nat.le_of_lt (hI.susp_lt t hts)))
  · rw [isrSystemTimerTic_eq]
    split
    · exact hT.pushRetCode
    · exact hT
  · have hW := waitForEvent_mutexExclusive hcfg hact hex eventMask all timeout
    exact ⟨hW, hW.pushRetCode⟩
  · have hS := sendEvent_mutexExclusive hcfg hnd hex ev ha
    refine ⟨hS, ?_⟩
    unfold rtos_sendEvent
    simp only
    split
    · exact hS.pushRetCode
    · exact hS

/-- C19, instance: in the scenario state `kMutexWait` the tasks 1 and 2 wait for the mutex
event 2, which is owned by the active task 0; the invariant holds, it holds again after the
release of the mutex by `sendEvent(0x0004)`, and after the suspension of task 0. -/
theorem mutexExclusive_preserved_witness :
    cfgScenario.WellFormed ∧ kMutexWait.pSuspendedTaskAry.Nodup ∧
    kMutexWait.pActiveTask ∉ kMutexWait.pSuspendedTaskAry ∧
    MutexExclusive cfgScenario kMutexWait ∧
    SendEventMutexAssertions cfgScenario kMutexWait 0x0004 ∧
    MutexExclusive cfgScenario (sendEvent cfgScenario kMutexWait 0x0004).1 ∧
    MutexExclusive cfgScenario (rtos_waitForEvent cfgScenario kMutexWait 0x8004 false 3).1 :=
  ⟨by decide, by decide, by decide, MutexExclusive.of_posted_zero (by decide), by decide,
   ((mutexExclusive_preserved (by decide) (by decide) (by decide)
      (MutexExclusive.of_posted_zero (by decide))).2.2.2.2.1 0x0004 (by decide)).1,
   ((mutexExclusive_preserved (by decide) (by decide) (by decide)
      (MutexExclusive.of_posted_zero (by decide))).2.2.2.1 0x8004 false 3).2⟩

theorem countP_eq_of_forall {l : List Nat} {p p1 : Nat → Bool}
    (h : ∀ t ∈ l, p1 t = p t) : l.countP p1 = l.countP p :=
  List.countP_congr (fun t ht => by rw [h t ht])

theorem countP_add_one {l : List Nat} (hnd : l.Nodup) {p p1 : Nat → Bool} {t0 : Nat}
    (ht0 : t0 ∈ l) (h0 : p t0 = false) (h1 : p1 t0 = true)
    (h : ∀ t ∈ l, t ≠ t0 → p1 t = p t) : l.countP p1 = l.countP p + 1 := by
  obtain ⟨pre, post, hdec⟩ := List.append_of_mem ht0
  subst hdec
  have hnd1 := hnd
  rw [List.nodup_append] at hnd1
  obtain ⟨_, n2, n3⟩ := hnd1
  have hpre : ∀ t ∈ pre, p1 t = p t := fun t ht =>
    h t (List.mem_append_left _ ht) (fun e => n3 ht (e ▸ List.mem_cons_self _ _) )
  have hpost : ∀ t ∈ post, p1 t = p t := fun t ht =>
    h t (List.mem_append_right _ (List.mem_cons_of_mem _ ht))
      (fun e => (List.nodup_cons.mp n2).1 (e ▸ ht))
  rw [List.countP_append, List.countP_append, List.countP_cons, List.countP_cons, h0, h1,
    countP_eq_of_forall hpre, countP_eq_of_forall hpost]
  simp
  omega

theorem countP_sub_one {l : List Nat} (hnd : l.Nodup) {p p1 : Nat → Bool} {t0 : Nat}
    (ht0 : t0 ∈ l) (h0 : p t0 = true) (h1 : p1 t0 = false)
    (h : ∀ t ∈ l, t ≠ t0 → p1 t = p t) : l.countP p1 + 1 = l.countP p :=
  (countP_add_one hnd ht0 h1 h0 (fun t ht hne => (h t ht hne).symm)).symm

theorem count_dueLists (due : Nat → List Nat) (t c0 : Nat)
    (h : ∀ c, c ≠ c0 → (due c).count t = 0) (n : Nat) :
    ((List.range n).flatMap due).count t = if c0 < n then (due c0).count t else 0 := by
  induction n with
  | zero => simp
  | succ n ih =>
    rw [List.range_succ, List.flatMap_append, List.count_append, ih]
    simp only [List.flatMap_cons, List.flatMap_nil, List.append_nil]
    by_cases h1 : c0 < n
    · have : n ≠ c0 := by omega
      have h2 : c0 < n + 1 := by omega
      rw [if_pos h1, if_pos h2, h n this]
      rfl
    · by_cases h2 : c0 = n
      · subst h2
        simp
      · have h3 : ¬ c0 < n + 1 := by omega
        rw [if_neg h1, if_neg h3, h n (fun e => h2 e.symm)]

theorem listedTasks_perm {cfg : Config} {k : Kernel} (hI : ListsInv cfg k) :
    (listedTasks cfg k).Perm (List.range cfg.noTasks) := by
  rw [List.perm_iff_count]
  intro t
  unfold listedTasks
  rw [List.count_append]
  have hother : ∀ c, c ≠ (k.taskAry t).prioClass → (k.pDueTaskAryAry c).count t = 0 := by
    intro c hc
    rw [List.count_eq_zero]
    intro hm
    exact hc (hI.due_lt c t hm).2.symm
  rw [count_dueLists k.pDueTaskAryAry t _ hother]
  by_cases ht : t < cfg.noTasks
  · rw [if_pos (hI.prio_lt t ht), hI.once t ht]
    exact (List.count_eq_one_of_mem (List.nodup_range _) (List.mem_range.mpr ht)).symm
  · have h1 : k.pSuspendedTaskAry.count t = 0 := by
      rw [List.count_eq_zero]
      exact fun hm => ht (hI.susp_lt t hm)
    have h2 : (k.pDueTaskAryAry (k.taskAry t).prioClass).count t = 0 := by
      rw [List.count_eq_zero]
      exact fun hm => ht (hI.due_lt _ t hm).1
    have h3 : (List.range cfg.noTasks).count t = 0 := by
      rw [List.count_eq_zero, List.mem_range]
      exact ht
    rw [h1, h2, h3]
    simp

theorem semaphoreUnits_eq {cfg : Config} {k : Kernel} (hI : ListsInv cfg k) (i : Nat) :
    semaphoreUnits cfg k i = k.semaphoreAry i +
      (List.range cfg.noTasks).countP (fun t => (k.taskAry t).postedEventVec.testBit i) := by
  unfold semaphoreUnits
  rw [(listedTasks_perm hI).countP_eq]

theorem onTimerTic_posted_low {cfg : Config} {k : Kernel} (hnd : k.pSuspendedTaskAry.Nodup)
    (j : Nat) (hj : j < 14) (t : Nat) :
    ((onTimerTic cfg k).1.taskAry t).postedEventVec.testBit j =
      (k.taskAry t).postedEventVec.testBit j := by
  by_cases ht : t ∈ k.pSuspendedTaskAry
  · rw [(onTimerTic_task_result cfg hnd t ht).1]
    show (onTimerTicTask ((k.time + 1) % 2 ^ cfg.timeBits)
      (k.taskAry t)).postedEventVec.testBit j = _
    rw [onTimerTicTask_posted]
    have h14 : j ≠ 14 := by omega
    have h15 : j ≠ 15 := by omega
    simp [h14, h15]
  · rw [onTimerTic_task_other cfg k t ht]

theorem sendEvent_semaphoreUnits {cfg : Config} (hcfg : cfg.WellFormed) {k : Kernel}
    (hI : ListsInv cfg k) (hA : ActiveInv cfg k) (ev i : Nat) (hi : i < cfg.noSemaphoreEvents) :
    (ev.testBit i = true → k.semaphoreAry i + 1 < 2 ^ cfg.semaphoreBits →
      semaphoreUnits cfg (sendEvent cfg k ev).1 i = semaphoreUnits cfg k i + 1) ∧
    (ev.testBit i = false →
      semaphoreUnits cfg (sendEvent cfg k ev).1 i = semaphoreUnits cfg k i) := by
  have hI1 := (sendEvent_inv hcfg hI hA ev).1
  rw [semaphoreUnits_eq hI1, semaphoreUnits_eq hI]
  refine ⟨fun hev hlt => ?_, fun hev => ?_⟩
  · rcases sendEvent_semaphore_cases hcfg hI.nodup ev i hi hev with
      ⟨pre, t0, post, hdec, hw, _, c4, c5, c6⟩ | ⟨_, c2, c3⟩
    · have ht0 : t0 ∈ k.pSuspendedTaskAry := by rw [hdec]; simp
      have hp0 : (k.taskAry t0).postedEventVec.testBit i = false := by
        unfold wantsSemaphore at hw
        rw [Bool.and_eq_true] at hw
        simpa using hw.2
      rw [c6, countP_add_one (List.nodup_range _)
        (List.mem_range.mpr (hI.susp_lt t0 ht0)) hp0 c4 (fun t _ hne => c5 t hne)]
      omega
    · rw [c3, Nat.mod_eq_of_lt hlt, countP_eq_of_forall (fun t _ => c2 t)]
      omega
  · obtain ⟨u1, _, u3⟩ := sendEvent_sync_bit_unposted hcfg hI.nodup ev i (by omega) hev
    rw [u3, countP_eq_of_forall (fun t _ => u1 t)]

theorem onTimerTic_semaphoreUnits {cfg : Config} (hcfg : cfg.WellFormed) {k : Kernel}
    (hI : ListsInv cfg k) (hA : ActiveInv cfg k) (i : Nat) (hi : i < cfg.noSemaphoreEvents) :
    semaphoreUnits cfg (onTimerTic cfg k).1 i = semaphoreUnits cfg k i := by
  have hI1 := (@onTimerTic_inv cfg _ hI hA).1
  have h8 := hcfg.2.2.2.1
  rw [semaphoreUnits_eq hI1, semaphoreUnits_eq hI, (onTimerTic_globals cfg k).2.2,
    countP_eq_of_forall (fun t _ => onTimerTic_posted_low hI.nodup i (by omega) t)]

theorem acquireFreeSyncObjs_semaphoreUnits {cfg : Config} (hcfg : cfg.WellFormed) {k : Kernel}
    (hI : ListsInv cfg k) (hA : ActiveInv cfg k) (hmv : MutexVecOk cfg k)
    (hne : k.pActiveTask ≠ IDLE_TASK_ID cfg) (eventMask : Nat) (all : Bool) (i : Nat)
    (hi : i < cfg.noSemaphoreEvents) :
    semaphoreUnits cfg (acquireFreeSyncObjs cfg k eventMask all).1 i = semaphoreUnits cfg k i ∧
    (eventMask.testBit i = true → k.semaphoreAry i > 0 →
      (acquireFreeSyncObjs cfg k eventMask all).1.semaphoreAry i = k.semaphoreAry i - 1 ∧
      ((acquireFreeSyncObjs cfg k eventMask all).1.taskAry
        k.pActiveTask).postedEventVec.testBit i = true) := by
  obtain ⟨_, _, a3, a4, _, a6, _, a8, _, a10, _⟩ :=
    acquireFreeSyncObjs_spec cfg hcfg.2.2.2.1 k eventMask all
  have hlist : listedTasks cfg (acquireFreeSyncObjs cfg k eventMask all).1 = listedTasks cfg k := by
    unfold listedTasks
    rw [a3, a4]
  have hact : k.pActiveTask < cfg.noTasks := by
    rcases active_cases hI hA with ⟨e, _⟩ | ⟨h, _⟩
    · exact absurd e hne
    · exact h
  have hbit : ((acquireFreeSyncObjs cfg k eventMask all).1.taskAry
      k.pActiveTask).postedEventVec.testBit i =
        (eventMask.testBit i && decide (k.semaphoreAry i > 0)) := by
    rw [a8 i]
    have h1 : (if cfg.useMutex then eventMask &&& k.mutexVec
        else (k.taskAry k.pActiveTask).postedEventVec).testBit i = false := by
      split
      · rw [Nat.testBit_and]
        cases hb : k.mutexVec.testBit i
        · simp
        · have := (hmv i hb).1
          omega
      · rw [hA.active_posted]
        simp
    rw [h1]
    simp [hi]
  have hold : (k.taskAry k.pActiveTask).postedEventVec.testBit i = false := by
    rw [hA.active_posted]
    simp
  have hunits : semaphoreUnits cfg (acquireFreeSyncObjs cfg k eventMask all).1 i
      = semaphoreUnits cfg k i := by
    have e1 : semaphoreUnits cfg (acquireFreeSyncObjs cfg k eventMask all).1 i =
        (acquireFreeSyncObjs cfg k eventMask all).1.semaphoreAry i +
        (List.range cfg.noTasks).countP
          (fun t => ((acquireFreeSyncObjs cfg k eventMask all).1.taskAry
            t).postedEventVec.testBit i) := by
      unfold semaphoreUnits
      rw [hlist, (listedTasks_perm hI).countP_eq]
    rw [e1, semaphoreUnits_eq hI, a10 i]
    by_cases hc : eventMask.testBit i = true ∧ k.semaphoreAry i > 0
    · have hnew : ((acquireFreeSyncObjs cfg k eventMask all).1.taskAry
          k.pActiveTask).postedEventVec.testBit i = true := by
        rw [hbit]
        simp [hc.1, hc.2]
      rw [if_pos ⟨hi, hc⟩, countP_add_one (List.nodup_range _) (List.mem_range.mpr hact) hold hnew
        (fun t _ hne1 => by rw [a6 t hne1])]
      have := hc.2
      omega
    · have hnew : ((acquireFreeSyncObjs cfg k eventMask all).1.taskAry
          k.pActiveTask).postedEventVec.testBit i = false := by
        rw [hbit]
        rw [not_and_or] at hc
        rcases hc with h | h
        · simp [h]
        · simp [h]
      have hsame : ∀ t ∈ List.range cfg.noTasks,
          ((acquireFreeSyncObjs cfg k eventMask all).1.taskAry t).postedEventVec.testBit i
            = (k.taskAry t).postedEventVec.testBit i := by
        intro t _
        by_cases hq : t = k.pActiveTask
        · rw [hq, hnew, hold]
        · rw [a6 t hq]
      rw [if_neg (fun h => hc h.2), countP_eq_of_forall hsame]
  refine ⟨hunits, fun hm hs => ?_⟩
  rw [a10 i, if_pos ⟨hi, hm, hs⟩, hbit]
  simp [hm, hs]

/-- C20: `semaphoreUnits cfg k i` is `rtos_semaphoreAry[i]` plus the number of tasks in the list
of suspended tasks and in the due lists which have bit `i` in their posted events.  In every
reachable state and for every semaphore event `i`: `sendEvent(ev)` increases it by exactly one
if bit `i` is in `ev` and the counter is below the maximum of its type, and leaves it unchanged
if bit `i` is not in `ev`; `onTimerTic` leaves it unchanged; the acquisition step
`acquireFreeSyncObjs` of a suspend command of the active task (not the idle task) leaves it
unchanged, and if the semaphore is demanded and its counter is positive then the counter is
decremented and bit `i` is set in the posted events of the caller. -/
theorem semaphore_conservation {cfg : Config} (hcfg : cfg.WellFormed) {tasks : List TaskInit}
    (ht : TasksOk cfg tasks) {sem : Nat → Nat} {k : Kernel} (hr : Reachable cfg tasks sem k)
    (i : Nat) (hi : i < cfg.noSemaphoreEvents) :
    (∀ ev, ev.testBit i = true → k.semaphoreAry i + 1 < 2 ^ cfg.semaphoreBits →
      semaphoreUnits cfg (sendEvent cfg k ev).1 i = semaphoreUnits cfg k i + 1) ∧
    (∀ ev, ev.testBit i = false →
      semaphoreUnits cfg (sendEvent cfg k ev).1 i = semaphoreUnits cfg k i) ∧
    semaphoreUnits cfg (onTimerTic cfg k).1 i = semaphoreUnits cfg k i ∧
    (k.pActiveTask ≠ IDLE_TASK_ID cfg → ∀ eventMask all,
      semaphoreUnits cfg (acquireFreeSyncObjs cfg k eventMask all).1 i = semaphoreUnits cfg k i ∧
      (eventMask.testBit i = true → k.semaphoreAry i > 0 →
        (acquireFreeSyncObjs cfg k eventMask all).1.semaphoreAry i = k.semaphoreAry i - 1 ∧
        ((acquireFreeSyncObjs cfg k eventMask all).1.taskAry
          k.pActiveTask).postedEventVec.testBit i = true)) := by
  obtain ⟨hI, hA⟩ := reachable_inv hcfg ht hr
  have hmv := reachable_mutexVec hcfg ht hr
  exact ⟨fun ev => (sendEvent_semaphoreUnits hcfg hI hA ev i hi).1,
    fun ev => (sendEvent_semaphoreUnits hcfg hI hA ev i hi).2,
    onTimerTic_semaphoreUnits hcfg hI hA i hi,
    fun hne eventMask all => acquireFreeSyncObjs_semaphoreUnits hcfg hI hA hmv hne eventMask all i hi⟩

/-- C20, instance: in the scenario state after the first timer tic no task waits for
semaphore 0 and its counter is 0; `sendEvent(0x0001)` makes the number of units 1, the counter
being 1. -/
theorem semaphore_conservation_witness :
    cfgScenario.WellFormed ∧ TasksOk cfgScenario tasksScenario ∧
    Reachable cfgScenario tasksScenario (fun _ => 0) kAfterTic ∧
    0 < cfgScenario.noSemaphoreEvents ∧
    semaphoreUnits cfgScenario kAfterTic 0 = 0 ∧
    semaphoreUnits cfgScenario (sendEvent cfgScenario kAfterTic 0x0001).1 0
      = semaphoreUnits cfgScenario kAfterTic 0 + 1 ∧
    (sendEvent cfgScenario kAfterTic 0x0001).1.semaphoreAry 0 = 1 :=
  ⟨by decide, tasksScenario_ok, kAfterTic_reachable, by decide, by decide,
   (semaphore_conservation (by decide) tasksScenario_ok kAfterTic_reachable 0 (by decide)).1
      0x0001 (by decide) (by decide),
   by decide⟩

theorem active_le_noTasks {cfg : Config} {k : Kernel} (hI : ListsInv cfg k)
    (hA : ActiveInv cfg k) : k.pActiveTask ≤ cfg.noTasks := by
  rcases active_cases hI hA with ⟨e, _⟩ | ⟨h, _⟩
  · rw [e]
    exact Nat.le_refl _
  · exact Nat.le_of_lt h

theorem rtos_initRTOS_mutexUnits (cfg : Config) (tasks : List TaskInit) (sem : Nat → Nat)
    (m : Nat) (hm1 : cfg.noSemaphoreEvents ≤ m)
    (hm2 : m < cfg.noSemaphoreEvents + cfg.noMutexEvents) :
    mutexUnits cfg (rtos_initRTOS cfg tasks sem) m = 1 := by
  unfold mutexUnits noTasksPosted
  have h0 : (List.range (cfg.noTasks + 1)).countP
      (fun t => ((rtos_initRTOS cfg tasks sem).taskAry t).postedEventVec.testBit m) = 0 := by
    rw [List.countP_eq_zero]
    intro t ht
    rw [rtos_initRTOS_posted cfg tasks sem t (Nat.le_of_lt_succ (List.mem_range.mp ht))]
    simp
  rw [h0, (rtos_initRTOS_globals cfg tasks sem).2.1, testBit_MASK_EVT_IS_MUTEX]
  simp [hm1, hm2]

theorem onTimerTic_mutexUnits {cfg : Config} (hcfg : cfg.WellFormed) {k : Kernel}
    (hnd : k.pSuspendedTaskAry.Nodup) (m : Nat)
    (hm2 : m < cfg.noSemaphoreEvents + cfg.noMutexEvents) :
    mutexUnits cfg (onTimerTic cfg k).1 m = mutexUnits cfg k m := by
  have h14 := hcfg.2.2.2.2.1
  unfold mutexUnits noTasksPosted
  rw [(onTimerTic_globals cfg k).2.1,
    countP_eq_of_forall (fun t _ => onTimerTic_posted_low hnd m (by omega) t)]

theorem waitForEvent_mutexUnits {cfg : Config} (hcfg : cfg.WellFormed) {k : Kernel}
    (hle : k.pActiveTask ≤ cfg.noTasks)
    (hp : (k.taskAry k.pActiveTask).postedEventVec = 0)
    (eventMask : Nat) (all : Bool) (timeout : Nat) (m : Nat)
    (hm1 : cfg.noSemaphoreEvents ≤ m) (hm2 : m < cfg.noSemaphoreEvents + cfg.noMutexEvents) :
    mutexUnits cfg (waitForEvent cfg k eventMask all timeout).1 m = mutexUnits cfg k m := by
  have hm : cfg.useMutex = true := by
    unfold Config.useMutex
    simp
    omega
  have h14 := hcfg.2.2.2.2.1
  obtain ⟨_, f2, f3, f4⟩ := waitForEvent_mutex_facts cfg hcfg.2.2.2.1 k eventMask all timeout hm
  have hold : (k.taskAry k.pActiveTask).postedEventVec.testBit m = false := by
    rw [hp]
    simp
  have hmem : k.pActiveTask ∈ List.range (cfg.noTasks + 1) :=
    List.mem_range.mpr (Nat.lt_succ_of_le hle)
  have hv : (waitForEvent cfg k eventMask all timeout).1.mutexVec.testBit m =
      (k.mutexVec.testBit m && !eventMask.testBit m) := by
    rw [f3, Nat.testBit_and, testBit_not16]
    have : m < 16 := by omega
    simp [this]
  have hnew := f4 m hm1
  rw [Nat.testBit_and] at hnew
  unfold mutexUnits noTasksPosted
  rw [hv]
  by_cases hc : eventMask.testBit m = true ∧ k.mutexVec.testBit m = true
  · rw [hc.1, hc.2] at hnew
    rw [countP_add_one (List.nodup_range _) hmem hold hnew (fun t _ hne => by rw [f2 t hne]),
      hc.1, hc.2]
    simp
  · have hnew1 : ((waitForEvent cfg k eventMask all timeout).1.taskAry
        k.pActiveTask).postedEventVec.testBit m = false := by
      rw [hnew]
      rw [not_and_or] at hc
      rcases hc with h | h
      · simp [h]
      · simp [h]
    have hsame : ∀ t ∈ List.range (cfg.noTasks + 1),
        ((waitForEvent cfg k eventMask all timeout).1.taskAry t).postedEventVec.testBit m
          = (k.taskAry t).postedEventVec.testBit m := by
      intro t _
      by_cases hq : t = k.pActiveTask
      · rw [hq, hnew1, hold]
      · rw [f2 t hq]
    rw [countP_eq_of_forall hsame]
    rw [not_and_or] at hc
    rcases hc with h | h
    · simp [h]
    · simp [h]

theorem sendEvent_mutexUnits {cfg : Config} (hcfg : cfg.WellFormed) {k : Kernel}
    (hI : ListsInv cfg k) (ev : Nat) (ha : SendEventMutexAssertions cfg k ev) (m : Nat)
    (hm1 : cfg.noSemaphoreEvents ≤ m) (hm2 : m < cfg.noSemaphoreEvents + cfg.noMutexEvents) :
    mutexUnits cfg (sendEvent cfg k ev).1 m =
      mutexUnits cfg k m + (if ev.testBit m then 1 else 0) := by
  unfold mutexUnits noTasksPosted
  cases hev : ev.testBit m
  · obtain ⟨u1, u2, _⟩ := sendEvent_sync_bit_unposted hcfg hI.nodup ev m hm2 hev
    rw [u2, countP_eq_of_forall (fun t _ => u1 t)]
    simp
  · obtain ⟨n1, n2⟩ := sendEventMutexAssertions_bit hcfg ha m hm1 hm2 hev
    rcases sendEvent_mutex_cases hcfg hI.nodup ev m hm1 hm2 hev with
      ⟨pre, t0, post, hdec, _, _, c4, c5, c6⟩ | ⟨_, c2, c3⟩
    · have ht0 : t0 ∈ k.pSuspendedTaskAry := by rw [hdec]; simp
      have hmem : t0 ∈ List.range (cfg.noTasks + 1) :=
        List.mem_range.mpr (Nat.lt_succ_of_lt (hI.susp_lt t0 ht0))
      rw [c6, countP_add_one (List.nodup_range _) hmem (n1 t0 ht0) c4 (fun t _ hne => c5 t hne)]
      simp
      omega
    · rw [c3, n2, countP_eq_of_forall (fun t _ => c2 t)]
      simp

theorem pushRetCodeOfContextSwitch_mutexUnits (cfg : Config) (k : Kernel)
    (hle : k.pActiveTask ≤ cfg.noTasks) (m : Nat) :
    mutexUnits cfg (pushRetCodeOfContextSwitch k).1 m +
      (if (k.taskAry k.pActiveTask).postedEventVec.testBit m then 1 else 0) =
    mutexUnits cfg k m := by
  obtain ⟨_, p2, _, _, _, _, _, p8, p9, p10⟩ := pushRetCodeOfContextSwitch_frame k
  have hmem : k.pActiveTask ∈ List.range (cfg.noTasks + 1) :=
    List.mem_range.mpr (Nat.lt_succ_of_le hle)
  have hnew : ((pushRetCodeOfContextSwitch k).1.taskAry k.pActiveTask).postedEventVec.testBit m
      = false := by
    rw [p10]
    simp
  unfold mutexUnits noTasksPosted
  rw [p2]
  cases hb : (k.taskAry k.pActiveTask).postedEventVec.testBit m
  · have hsame : ∀ t ∈ List.range (cfg.noTasks + 1),
        ((pushRetCodeOfContextSwitch k).1.taskAry t).postedEventVec.testBit m
          = (k.taskAry t).postedEventVec.testBit m := by
      intro t _
      by_cases hq : t = k.pActiveTask
      · rw [hq, hnew, hb]
      · rw [p8 t hq]
    rw [countP_eq_of_forall hsame]
    simp
  · have := @countP_sub_one (List.range (cfg.noTasks + 1))
      (List.nodup_range (cfg.noTasks + 1))
      (fun t => (k.taskAry t).postedEventVec.testBit m)
      (fun t => ((pushRetCodeOfContextSwitch k).1.taskAry t).postedEventVec.testBit m)
      k.pActiveTask hmem hb hnew
      (fun t _ hne => by simp only [p8 t hne])
    simp only [if_true]
    omega

/-- C18, counterexample: in the scenario state after the first timer tic mutex 2 is available
and no task has it in its posted events.  Task 0 calls
`rtos_waitForEvent(0x8004, all=false, 10)`: it acquires the mutex, bit 2 of `_mutexVec` is
cleared, the acquired events `0x0004` are returned to task 0 and its posted events are reset.
In the reached state no task has bit 2 in its posted events and bit 2 of `_mutexVec` is
null, the sum is 0 and not 1. -/
theorem mutexUnitsAlwaysOne_counterexample :
    mutexUnits cfgScenario kAfterTic 2 = 1 ∧
    (rtos_waitForEvent cfgScenario kAfterTic 0x8004 false 10).2 = some 0x0004 ∧
    mutexUnits cfgScenario (rtos_waitForEvent cfgScenario kAfterTic 0x8004 false 10).1 2 = 0 ∧
    ¬ MutexUnitsAlwaysOne cfgScenario tasksScenario (fun _ => 0) := by
  refine ⟨by decide, by decide, by decide, fun h => ?_⟩
  have h1 := h _ (Reachable.waitForEvent 0x8004 false 10 kAfterTic_reachable (by decide)) 2
    (by decide) (by decide)
  exact absurd h1 (by decide)

/-- C18, amended: for a mutex event `m` let `mutexUnits` be the number of task objects which
have `m` in their posted events plus the value of bit `m` of `_mutexVec`.  It is 1 after
`rtos_initRTOS`.  In every reachable state `onTimerTic` and `waitForEvent` (acquisition and
suspension, up to the return of the posted events) leave it unchanged, and a `sendEvent` whose
debug assertions on the release of mutexes hold increases it by one if `m` is in the posted
event vector and leaves it unchanged otherwise.  The return of the posted events to the resumed
task by `PUSH_RET_CODE_OF_CONTEXT_SWITCH`, which resets its posted events, decreases the sum
by one if this task has got `m` and leaves it unchanged otherwise; so for the whole suspend
command of a task the sum after the command plus one, if the task which is active at the end
has got `m`, is the sum before. -/
theorem mutex_units_account {cfg : Config} (hcfg : cfg.WellFormed) {tasks : List TaskInit}
    (ht : TasksOk cfg tasks) {sem : Nat → Nat} {k : Kernel} (hr : Reachable cfg tasks sem k)
    (m : Nat) (hm1 : cfg.noSemaphoreEvents ≤ m)
    (hm2 : m < cfg.noSemaphoreEvents + cfg.noMutexEvents) :
    mutexUnits cfg (rtos_initRTOS cfg tasks sem) m = 1 ∧
    mutexUnits cfg (onTimerTic cfg k).1 m = mutexUnits cfg k m ∧
    (∀ eventMask all timeout,
      mutexUnits cfg (waitForEvent cfg k eventMask all timeout).1 m = mutexUnits cfg k m) ∧
    (∀ ev, SendEventMutexAssertions cfg k ev →
      mutexUnits cfg (sendEvent cfg k ev).1 m =
        mutexUnits cfg k m + (if ev.testBit m then 1 else 0)) ∧
    (∀ k1 : Kernel, k1.pActiveTask ≤ cfg.noTasks →
      mutexUnits cfg (pushRetCodeOfContextSwitch k1).1 m +
        (if (k1.taskAry k1.pActiveTask).postedEventVec.testBit m then 1 else 0) =
      mutexUnits cfg k1 m) ∧
    (∀ eventMask all timeout, k.pActiveTask ≠ IDLE_TASK_ID cfg →
      mutexUnits cfg (rtos_waitForEvent cfg k eventMask all timeout).1 m +
        (if ((waitForEvent cfg k eventMask all timeout).1.taskAry
              (waitForEvent cfg k eventMask all timeout).1.pActiveTask).postedEventVec.testBit m
         then 1 else 0) =
      mutexUnits cfg k m) := by
  obtain ⟨hI, hA⟩ := reachable_inv hcfg ht hr
  have hW := fun eventMask all timeout =>
    waitForEvent_mutexUnits hcfg (active_le_noTasks hI hA) hA.active_posted eventMask all timeout
      m hm1 hm2
  refine ⟨rtos_initRTOS_mutexUnits cfg tasks sem m hm1 hm2,
    onTimerTic_mutexUnits hcfg hI.nodup m hm2, hW,
    fun ev ha => sendEvent_mutexUnits hcfg hI ev ha m hm1 hm2,
    fun k1 hle => pushRetCodeOfContextSwitch_mutexUnits cfg k1 hle m,
    fun eventMask all timeout hne => ?_⟩
  obtain ⟨w1, w2, _⟩ := waitForEvent_inv hcfg hI hA hne eventMask all timeout
  have hle : (waitForEvent cfg k eventMask all timeout).1.pActiveTask ≤ cfg.noTasks := by
    rcases active_cases_of_eq w1 w2 with ⟨e, _⟩ | ⟨h, _⟩
    · rw [e]
      exact Nat.le_refl _
    · exact Nat.le_of_lt h
  have := pushRetCodeOfContextSwitch_mutexUnits cfg (waitForEvent cfg k eventMask all timeout).1
    hle m
  rw [hW eventMask all timeout] at this
  exact this

/-- C18, amended, instance: in the scenario state after the first timer tic the sum for
mutex 2 is 1; it is still 1 when `waitForEvent(0x8004, all=false, 10)` of task 0 has acquired
the mutex, and the return of the acquired events to task 0 takes the unit out of the sum. -/
theorem mutex_units_account_witness :
    cfgScenario.WellFormed ∧ TasksOk cfgScenario tasksScenario ∧
    Reachable cfgScenario tasksScenario (fun _ => 0) kAfterTic ∧
    cfgScenario.noSemaphoreEvents ≤ 2 ∧
    2 < cfgScenario.noSemaphoreEvents + cfgScenario.noMutexEvents ∧
    mutexUnits cfgScenario kAfterTic 2 = 1 ∧
    mutexUnits cfgScenario (waitForEvent cfgScenario kAfterTic 0x8004 false 10).1 2
      = mutexUnits cfgScenario kAfterTic 2 ∧
    mutexUnits cfgScenario (rtos_waitForEvent cfgScenario kAfterTic 0x8004 false 10).1 2 +
        (if ((waitForEvent cfgScenario kAfterTic 0x8004 false 10).1.taskAry
              (waitForEvent cfgScenario kAfterTic 0x8004 false 10).1.pActiveTask
            ).postedEventVec.testBit 2
         then 1 else 0) =
      mutexUnits cfgScenario kAfterTic 2 :=
  ⟨by decide, tasksScenario_ok, kAfterTic_reachable, by decide, by decide, by decide,
   (mutex_units_account (by decide) tasksScenario_ok kAfterTic_reachable 2 (by decide)
      (by decide)).2.2.1 0x8004 false 10,
   (mutex_units_account (by decide) tasksScenario_ok kAfterTic_reachable 2 (by decide)
      (by decide)).2.2.2.2.2 0x8004 false 10 (by decide)⟩

theorem pair_sublist_of_mem {l : List Nat} {a b : Nat} (ha : a ∈ l) (hb : b ∈ l)
    (hne : a ≠ b) : List.Sublist [a, b] l ∨ List.Sublist [b, a] l := by
  induction l with
  | nil => exact absurd ha (List.not_mem_nil _)
  | cons x xs ih =>
    rcases List.mem_cons.mp ha with h1 | h1 <;> rcases List.mem_cons.mp hb with h2 | h2
    · exact absurd (h1.trans h2.symm) hne
    · left
      rw [h1]
      exact List.Sublist.cons₂ _ (List.singleton_sublist.mpr h2)
    · right
      rw [h2]
      exact List.Sublist.cons₂ _ (List.singleton_sublist.mpr h1)
    · rcases ih h1 h2 with h | h
      · exact Or.inl (List.Sublist.cons _ h)
      · exact Or.inr (List.Sublist.cons _ h)

theorem pair_sublist_asymm {l : List Nat} (hnd : l.Nodup) {a b : Nat}
    (h1 : List.Sublist [a, b] l) (h2 : List.Sublist [b, a] l) : False := by
  induction l with
  | nil => simp at h1
  | cons x xs ih =>
    obtain ⟨hx, hxs⟩ := List.nodup_cons.mp hnd
    have hab : a ≠ b := by
      have := hnd.sublist h1
      intro e
      rw [e] at this
      simp at this
    rw [List.sublist_cons_iff] at h1 h2
    rcases h1 with h1 | ⟨r1, e1, s1⟩ <;> rcases h2 with h2 | ⟨r2, e2, s2⟩
    · exact ih hxs h1 h2
    · simp only [List.cons.injEq] at e2
      obtain ⟨rfl, rfl⟩ := e2
      exact hx (h1.subset (by simp))
    · simp only [List.cons.injEq] at e1
      obtain ⟨rfl, rfl⟩ := e1
      exact hx (h2.subset (by simp))
    · simp only [List.cons.injEq] at e1 e2
      exact hab (e1.1.trans e2.1.symm)

theorem pair_sublist_of_sublist {l l1 : List Nat} (hnd : l.Nodup) (hs : List.Sublist l1 l)
    {a b : Nat} (hab : List.Sublist [a, b] l) (ha : a ∈ l1) (hb : b ∈ l1) :
    List.Sublist [a, b] l1 := by
  have hne : a ≠ b := by
    have := hnd.sublist hab
    intro e
    rw [e] at this
    simp at this
  rcases pair_sublist_of_mem ha hb hne with h | h
  · exact h
  · exact absurd (pair_sublist_asymm hnd hab (h.trans hs)) id

theorem sublist_insertAt (l : List Nat) (i x : Nat) : List.Sublist l (insertAt l i x) := by
  unfold insertAt
  conv_lhs => rw [← List.take_append_drop i l]
  exact List.Sublist.append (List.Sublist.refl _) (List.sublist_cons_self _ _)

theorem pair_sublist_insertAt {l : List Nat} {i x q a : Nat} (hx : x ∉ l)
    (h : List.Sublist [q, a] (insertAt l i x)) :
    (q ≠ x ∧ a ≠ x ∧ List.Sublist [q, a] l) ∨ (q = x ∧ a ∈ l.drop i) ∨ (a = x ∧ q ∈ l.take i) := by
  unfold insertAt at h
  have hxt : x ∉ l.take i := fun hm => hx (List.mem_of_mem_take hm)
  have hxd : x ∉ l.drop i := fun hm => hx (List.mem_of_mem_drop hm)
  rw [List.sublist_append_iff] at h
  obtain ⟨l1, l2, e, s1, s2⟩ := h
  have hback : List.Sublist (l.take i ++ l.drop i) l := by
    rw [List.take_append_drop]
  match l1, l2, e, s1, s2 with
  | [], l2, e, s1, s2 =>
    simp only [List.nil_append] at e
    subst e
    rw [List.sublist_cons_iff] at s2
    rcases s2 with s2 | ⟨r, e2, s3⟩
    · left
      refine ⟨?_, ?_, (s2.trans (List.sublist_append_right _ _)).trans hback⟩
      · intro e
        exact hxd (e ▸ s2.subset (by simp))
      · intro e
        exact hxd (e ▸ s2.subset (by simp))
    · simp only [List.cons.injEq] at e2
      obtain ⟨rfl, rfl⟩ := e2
      right; left
      exact ⟨rfl, s3.subset (by simp)⟩
  | [y], l2, e, s1, s2 =>
    simp only [List.singleton_append, List.cons.injEq] at e
    obtain ⟨rfl, rfl⟩ := e
    have hq : q ∈ l.take i := s1.subset (by simp)
    rw [List.sublist_cons_iff] at s2
    rcases s2 with s2 | ⟨r, e2, s3⟩
    · left
      have ha : a ∈ l.drop i := s2.subset (by simp)
      refine ⟨fun e => hxt (e ▸ hq), fun e => hxd (e ▸ ha), ?_⟩
      exact (List.Sublist.append s1 s2).trans hback
    · simp only [List.cons.injEq] at e2
      right; right
      exact ⟨e2.1, hq⟩
  | y :: z :: rest, l2, e, s1, s2 =>
    simp only [List.cons_append, List.cons.injEq] at e
    obtain ⟨rfl, rfl, e3⟩ := e
    have hnil : rest = [] ∧ l2 = [] := by
      cases rest with
      | nil =>
        cases l2 with
        | nil => exact ⟨rfl, rfl⟩
        | cons _ _ => simp at e3
      | cons _ _ => simp at e3
    obtain ⟨rfl, rfl⟩ := hnil
    left
    refine ⟨fun e => hxt (e ▸ s1.subset (by simp)), fun e => hxt (e ▸ s1.subset (by simp)), ?_⟩
    exact (s1.trans (List.sublist_append_left _ _)).trans hback

theorem pair_sublist_insertAt_behind {l : List Nat} {i x a : Nat} (ha : a ∈ l.take i) :
    List.Sublist [a, x] (insertAt l i x) := by
  unfold insertAt
  have h1 : List.Sublist [a] (l.take i) := List.singleton_sublist.mpr ha
  have h2 : List.Sublist [x] (x :: l.drop i) := List.singleton_sublist.mpr (by simp)
  exact List.Sublist.append h1 h2

theorem head_drop_ahead {l : List Nat} {i a : Nat} (ha : a ∈ l.drop i) :
    ∃ e, (l.drop i).head? = some e ∧ (e = a ∨ List.Sublist [e, a] l) := by
  cases hd : l.drop i with
  | nil => rw [hd] at ha; exact absurd ha (List.not_mem_nil _)
  | cons e rest =>
    refine ⟨e, rfl, ?_⟩
    rw [hd] at ha
    rcases List.mem_cons.mp ha with h | h
    · exact Or.inl h.symm
    · right
      have h1 : List.Sublist [e, a] (e :: rest) :=
        List.Sublist.cons₂ _ (List.singleton_sublist.mpr h)
      rw [← hd] at h1
      exact h1.trans (List.drop_sublist _ _)

theorem StaySuspended.reachable {cfg : Config} {S : List Nat} {tasks : List TaskInit}
    {sem : Nat → Nat} {k k1 : Kernel} (h : StaySuspended cfg S k k1)
    (hr : Reachable cfg tasks sem k) : Reachable cfg tasks sem k1 := by
  induction h with
  | refl => exact hr
  | timerTic _ _ ih => exact Reachable.timerTic ih
  | sendEvent ev _ _ ih => exact Reachable.sendEvent ev ih
  | waitForEvent m a t _ hne _ ih => exact Reachable.waitForEvent m a t ih hne

theorem visitMoves_any (t t1 : Task) (hp : t.postedEventVec = 0)
    (hany : t1.waitForAnyEvent = true) :
    visitMoves t t1 = false ↔ t1.postedEventVec = 0 := by
  unfold visitMoves taskBecomesDue
  rw [hp, hany]
  by_cases h : t1.postedEventVec = 0
  · simp [h]
  · have h1 : (0 != t1.postedEventVec) = true := by
      simpa using fun e => h e.symm
    have h2 : (t1.postedEventVec != 0) = true := by simpa using h
    simp [h, h1, h2]

theorem walkSuspended_stays {σ : Type} (cfg : Config) {J : σ → Prop} {f : σ → Task → Task × σ}
    (hf : VisitOk J f) (l : List Nat) (hnd : l.Nodup) (k0 : Kernel) (s : σ) (hJ : J s)
    (flag : Bool) (hk0 : k0.pSuspendedTaskAry = []) (t : Nat) (ht : t ∈ l)
    (hany : (k0.taskAry t).waitForAnyEvent = true)
    (hp : (k0.taskAry t).postedEventVec = 0) :
    ((walkSuspended cfg f l k0 s flag).1.taskAry t).waitForAnyEvent = true ∧
    ((walkSuspended cfg f l k0 s flag).1.taskAry t).eventMask = (k0.taskAry t).eventMask ∧
    (t ∈ (walkSuspended cfg f l k0 s flag).1.pSuspendedTaskAry ↔
      ((walkSuspended cfg f l k0 s flag).1.taskAry t).postedEventVec = 0) := by
  obtain ⟨pre, post, hdec⟩ := List.append_of_mem ht
  obtain ⟨_, r2⟩ := walkSuspended_result cfg f l k0 s flag hnd
  obtain ⟨g1, g2⟩ := r2 pre t post hdec
  obtain ⟨_, v2, _, _⟩ := hf (visitLocals f k0.taskAry pre s) (k0.taskAry t)
    (visitLocals_inv hf k0.taskAry pre s hJ)
  have hany1 : (f (visitLocals f k0.taskAry pre s) (k0.taskAry t)).1.waitForAnyEvent = true := by
    rw [v2]
    exact hany
  have hmask1 : (f (visitLocals f k0.taskAry pre s) (k0.taskAry t)).1.eventMask
      = (k0.taskAry t).eventMask := by
    rw [v2]
  have hposted : ((walkSuspended cfg f l k0 s flag).1.taskAry t).postedEventVec =
      (f (visitLocals f k0.taskAry pre s) (k0.taskAry t)).1.postedEventVec := by
    rw [g1]
  refine ⟨by rw [g1]; exact hany1, by rw [g1]; exact hmask1, ?_⟩
  rw [g2, hk0, hposted, visitMoves_any _ _ hp hany1]
  simp

theorem sendEvent_stays {cfg : Config} (hcfg : cfg.WellFormed) {k : Kernel}
    (hnd : k.pSuspendedTaskAry.Nodup) (ev : Nat) (t : Nat) (ht : t ∈ k.pSuspendedTaskAry)
    (hany : (k.taskAry t).waitForAnyEvent = true)
    (hp : (k.taskAry t).postedEventVec = 0) :
    ((sendEvent cfg k ev).1.taskAry t).waitForAnyEvent = true ∧
    ((sendEvent cfg k ev).1.taskAry t).eventMask = (k.taskAry t).eventMask ∧
    (t ∈ (sendEvent cfg k ev).1.pSuspendedTaskAry ↔
      ((sendEvent cfg k ev).1.taskAry t).postedEventVec = 0) := by
  obtain ⟨_, _, _, hS, hSM, _, _⟩ := hcfg
  obtain ⟨f1, f2, _⟩ := sendEvent_frame cfg k ev
  rw [f1, f2]
  exact walkSuspended_stays cfg (sendEventVisit_ok cfg hS hSM _) k.pSuspendedTaskAry hnd
    { k with pSuspendedTaskAry := [] } _ (sendEventInit_ok cfg hS ev) false rfl t ht hany hp

theorem onTimerTic_stays (cfg : Config) {k : Kernel}
    (hnd : k.pSuspendedTaskAry.Nodup) (t : Nat) (ht : t ∈ k.pSuspendedTaskAry)
    (hany : (k.taskAry t).waitForAnyEvent = true)
    (hp : (k.taskAry t).postedEventVec = 0) :
    ((onTimerTic cfg k).1.taskAry t).waitForAnyEvent = true ∧
    ((onTimerTic cfg k).1.taskAry t).eventMask = (k.taskAry t).eventMask ∧
    (t ∈ (onTimerTic cfg k).1.pSuspendedTaskAry ↔
      ((onTimerTic cfg k).1.taskAry t).postedEventVec = 0) := by
  obtain ⟨g1, g2⟩ := onTimerTic_task_result cfg hnd t ht
  have hfr := onTimerTicTask_frame ((k.time + 1) % 2 ^ cfg.timeBits) (k.taskAry t)
  have hany1 : (onTimerTicTask ((k.time + 1) % 2 ^ cfg.timeBits)
      (k.taskAry t)).waitForAnyEvent = true := by
    rw [hfr]; exact hany
  have hmask1 : (onTimerTicTask ((k.time + 1) % 2 ^ cfg.timeBits) (k.taskAry t)).eventMask
      = (k.taskAry t).eventMask := by
    rw [hfr]
  have hposted : ((onTimerTic cfg k).1.taskAry t).postedEventVec =
      (onTimerTicTask ((k.time + 1) % 2 ^ cfg.timeBits) (k.taskAry t)).postedEventVec := by
    rw [g1]
  refine ⟨by rw [g1]; exact hany1, by rw [g1]; exact hmask1, ?_⟩
  rw [g2, hposted, visitMoves_any _ _ hp hany1]

theorem WaitsInOrder.returnOfEvents {k : Kernel} {a : Nat} (h : WaitsInOrder k a) :
    WaitsInOrder (pushRetCodeOfContextSwitch k).1 a ∧
    (pushRetCodeOfContextSwitch k).1.taskAry a = k.taskAry a := by
  obtain ⟨h1, h2, h3, h4⟩ := h
  obtain ⟨_, _, _, p4, _, _, _, _, p9, _⟩ := pushRetCodeOfContextSwitch_frame k
  have ha := p9 a h3
  refine ⟨⟨by rw [p4]; exact h1, by rw [ha]; exact h2, by rw [ha]; exact h3, fun q hq => ?_⟩, ha⟩
  rw [p4] at hq
  rw [pushRetCodeOfContextSwitch_prioClass, pushRetCodeOfContextSwitch_prioClass]
  exact h4 q hq

theorem onTimerTic_waitsInOrder (cfg : Config) {k : Kernel} (hnd : k.pSuspendedTaskAry.Nodup)
    {a : Nat} (h : WaitsInOrder k a) (hs : a ∈ (onTimerTic cfg k).1.pSuspendedTaskAry) :
    WaitsInOrder (onTimerTic cfg k).1 a ∧
    ((onTimerTic cfg k).1.taskAry a).eventMask = (k.taskAry a).eventMask := by
  obtain ⟨h1, h2, h3, h4⟩ := h
  obtain ⟨s1, s2, s3⟩ := onTimerTic_stays cfg hnd a h1 h2 h3
  obtain ⟨o1, o2⟩ := onTimerTic_order cfg k
  refine ⟨⟨hs, s1, s3.mp hs, fun q hq => ?_⟩, s2⟩
  rw [o2, o2]
  exact h4 q (hq.trans o1)

theorem sendEvent_waitsInOrder {cfg : Config} (hcfg : cfg.WellFormed) {k : Kernel}
    (hnd : k.pSuspendedTaskAry.Nodup) (ev : Nat)
    {a : Nat} (h : WaitsInOrder k a) (hs : a ∈ (sendEvent cfg k ev).1.pSuspendedTaskAry) :
    WaitsInOrder (sendEvent cfg k ev).1 a ∧
    ((sendEvent cfg k ev).1.taskAry a).eventMask = (k.taskAry a).eventMask := by
  obtain ⟨h1, h2, h3, h4⟩ := h
  obtain ⟨s1, s2, s3⟩ := sendEvent_stays hcfg hnd ev a h1 h2 h3
  obtain ⟨o1, o2⟩ := sendEvent_order hcfg k ev
  refine ⟨⟨hs, s1, s3.mp hs, fun q hq => ?_⟩, s2⟩
  rw [o2, o2]
  exact h4 q (hq.trans o1)

theorem waitForEvent_lists {cfg : Config} (hcfg : cfg.WellFormed) (k : Kernel)
    (hu : (cfg.useSemaphore || cfg.useMutex) = true)
    (eventMask : Nat) (all : Bool) (timeout : Nat) :
    ((waitForEvent cfg k eventMask all timeout).2 = false ∧
      (waitForEvent cfg k eventMask all timeout).1.pSuspendedTaskAry = k.pSuspendedTaskAry) ∨
    ((waitForEvent cfg k eventMask all timeout).2 = true ∧
      (waitForEvent cfg k eventMask all timeout).1.pSuspendedTaskAry =
        insertAt k.pSuspendedTaskAry
          (findInsertPos k.taskAry (k.taskAry k.pActiveTask).prioClass k.pSuspendedTaskAry)
          k.pActiveTask) := by
  have hS := hcfg.2.2.2.1
  cases hfl : (waitForEvent cfg k eventMask all timeout).2
  · left
    obtain ⟨_, hacq⟩ := (waitForEvent_false_iff cfg k eventMask all timeout).mp hfl
    refine ⟨rfl, ?_⟩
    rw [waitForEvent_of_acquired cfg k eventMask all timeout hu hacq,
      (acquireFreeSyncObjs_spec cfg hS k eventMask all).2.2.1]
  · right
    have hi := waitForEvent_insert cfg hS k eventMask all timeout hfl
    rw [if_pos hu] at hi
    exact ⟨rfl, hi⟩

theorem waitForEvent_other {cfg : Config} (hcfg : cfg.WellFormed) (k : Kernel)
    (hu : (cfg.useSemaphore || cfg.useMutex) = true)
    (eventMask : Nat) (all : Bool) (timeout : Nat) (q : Nat) (hq : q ≠ k.pActiveTask) :
    (waitForEvent cfg k eventMask all timeout).1.taskAry q = k.taskAry q := by
  have hS := hcfg.2.2.2.1
  cases hfl : (waitForEvent cfg k eventMask all timeout).2
  · obtain ⟨_, hacq⟩ := (waitForEvent_false_iff cfg k eventMask all timeout).mp hfl
    rw [waitForEvent_of_acquired cfg k eventMask all timeout hu hacq]
    exact (acquireFreeSyncObjs_spec cfg hS k eventMask all).2.2.2.2.2.1 q hq
  · exact (waitForEvent_caller cfg hS k eventMask all timeout hfl).2.2.2.2 q hq

theorem waitForEvent_waitsInOrder {cfg : Config} (hcfg : cfg.WellFormed) {k : Kernel}
    (hu : (cfg.useSemaphore || cfg.useMutex) = true)
    (hact : k.pActiveTask ∉ k.pSuspendedTaskAry)
    (eventMask : Nat) (all : Bool) (timeout : Nat)
    {a : Nat} (h : WaitsInOrder k a) :
    WaitsInOrder (waitForEvent cfg k eventMask all timeout).1 a ∧
    (waitForEvent cfg k eventMask all timeout).1.taskAry a = k.taskAry a := by
  obtain ⟨h1, h2, h3, h4⟩ := h
  have hne : a ≠ k.pActiveTask := fun e => hact (e ▸ h1)
  have ha := waitForEvent_other hcfg k hu eventMask all timeout a hne
  have hp := waitForEvent_prioClass cfg hcfg.2.2.2.1 k eventMask all timeout
  refine ⟨⟨?_, by rw [ha]; exact h2, by rw [ha]; exact h3, fun q hq => ?_⟩, ha⟩
  · rcases waitForEvent_lists hcfg k hu eventMask all timeout with ⟨_, e⟩ | ⟨_, e⟩
    · rw [e]; exact h1
    · rw [e, mem_insertAt]; exact Or.inr h1
  · rw [hp, hp]
    rcases waitForEvent_lists hcfg k hu eventMask all timeout with ⟨_, e⟩ | ⟨_, e⟩
    · rw [e] at hq
      exact h4 q hq
    · rw [e] at hq
      obtain ⟨_, s2, s3⟩ := findInsertPos_spec k.taskAry (k.taskAry k.pActiveTask).prioClass
        k.pSuspendedTaskAry
      rcases pair_sublist_insertAt hact hq with ⟨_, _, hsub⟩ | ⟨hqx, hdrop⟩ | ⟨hax, _⟩
      · exact h4 q hsub
      · obtain ⟨e1, he1, hcase⟩ := head_drop_ahead hdrop
        have hlt := s3 e1 he1
        rw [hqx]
        rcases hcase with hc | hc
        · rw [hc] at hlt
          exact Nat.le_of_lt hlt
        · exact Nat.le_trans (h4 e1 hc) (Nat.le_of_lt hlt)
      · exact absurd hax hne

theorem waitForEvent_establishes {cfg : Config} (hcfg : cfg.WellFormed) {k : Kernel}
    (hu : (cfg.useSemaphore || cfg.useMutex) = true)
    (hact : k.pActiveTask ∉ k.pSuspendedTaskAry)
    (eventMask : Nat) (timeout : Nat)
    (hs : (waitForEvent cfg k eventMask false timeout).2 = true) :
    WaitsInOrder (waitForEvent cfg k eventMask false timeout).1 k.pActiveTask ∧
    ((waitForEvent cfg k eventMask false timeout).1.taskAry k.pActiveTask).eventMask
      = eventMask := by
  have hS := hcfg.2.2.2.1
  have hp := waitForEvent_prioClass cfg hS k eventMask false timeout
  obtain ⟨c1, c2, _, _, _⟩ := waitForEvent_caller cfg hS k eventMask false timeout hs
  rw [if_pos hu] at c1
  obtain ⟨f1, f2, _, _, f5, f6⟩ := storeResumeCondition_frame cfg k.time
    ((acquireFreeSyncObjs cfg k eventMask false).1.taskAry k.pActiveTask) eventMask false timeout
  have hacq : (acquireFreeSyncObjs cfg k eventMask false).2 = false := by
    cases hb : (acquireFreeSyncObjs cfg k eventMask false).2
    · rfl
    · have := (waitForEvent_false_iff cfg k eventMask false timeout).mpr ⟨hu, hb⟩
      rw [this] at hs
      exact absurd hs (by simp)
  have hposted : ((acquireFreeSyncObjs cfg k eventMask false).1.taskAry
      k.pActiveTask).postedEventVec = 0 := by
    have h11 := (acquireFreeSyncObjs_spec cfg hS k eventMask false).2.2.2.2.2.2.2.2.2.2
    rw [hacq] at h11
    simpa using h11.symm
  refine ⟨⟨c2, by rw [c1, f6]; rfl, by rw [c1, f2]; exact hposted, fun q hq => ?_⟩,
    by rw [c1, f5]⟩
  rw [hp, hp]
  rcases waitForEvent_lists hcfg k hu eventMask false timeout with ⟨e0, _⟩ | ⟨_, e⟩
  · rw [e0] at hs
    exact absurd hs (by simp)
  · rw [e] at hq
    obtain ⟨_, s2, _⟩ := findInsertPos_spec k.taskAry (k.taskAry k.pActiveTask).prioClass
      k.pSuspendedTaskAry
    rcases pair_sublist_insertAt hact hq with ⟨_, hne, _⟩ | ⟨_, hdrop⟩ | ⟨_, htake⟩
    · exact absurd rfl hne
    · exact absurd (List.mem_of_mem_drop hdrop) hact
    · exact s2 q htake

theorem waitForEvent_behind {cfg : Config} (hcfg : cfg.WellFormed) {k : Kernel}
    (hu : (cfg.useSemaphore || cfg.useMutex) = true)
    (eventMask : Nat) (all : Bool) (timeout : Nat)
    (hs : (waitForEvent cfg k eventMask all timeout).2 = true)
    {a : Nat} (h : WaitsInOrder k a)
    (hprio : (k.taskAry k.pActiveTask).prioClass = (k.taskAry a).prioClass) :
    List.Sublist [a, k.pActiveTask] (waitForEvent cfg k eventMask all timeout).1.pSuspendedTaskAry := by
  obtain ⟨h1, _, _, h4⟩ := h
  rcases waitForEvent_lists hcfg k hu eventMask all timeout with ⟨e0, _⟩ | ⟨_, e⟩
  · rw [e0] at hs
    exact absurd hs (by simp)
  · rw [e]
    obtain ⟨_, _, s3⟩ := findInsertPos_spec k.taskAry (k.taskAry k.pActiveTask).prioClass
      k.pSuspendedTaskAry
    apply pair_sublist_insertAt_behind
    have hmem := h1
    rw [← List.take_append_drop
      (findInsertPos k.taskAry (k.taskAry k.pActiveTask).prioClass k.pSuspendedTaskAry)
      k.pSuspendedTaskAry, List.mem_append] at hmem
    rcases hmem with hm | hm
    · exact hm
    · obtain ⟨e1, he1, hcase⟩ := head_drop_ahead hm
      have hlt := s3 e1 he1
      rcases hcase with hc | hc
      · rw [hc, hprio] at hlt
        exact absurd hlt (Nat.lt_irrefl _)
      · have := h4 e1 hc
        rw [hprio] at hlt
        omega

theorem isrSystemTimerTic_waitsInOrder (cfg : Config) {k : Kernel}
    (hnd : k.pSuspendedTaskAry.Nodup) :
    List.Sublist (isrSystemTimerTic cfg k).pSuspendedTaskAry k.pSuspendedTaskAry ∧
    (∀ q, ((isrSystemTimerTic cfg k).taskAry q).prioClass = (k.taskAry q).prioClass) ∧
    (∀ a, WaitsInOrder k a → a ∈ (isrSystemTimerTic cfg k).pSuspendedTaskAry →
      WaitsInOrder (isrSystemTimerTic cfg k) a ∧
      ((isrSystemTimerTic cfg k).taskAry a).eventMask = (k.taskAry a).eventMask) := by
  obtain ⟨o1, o2⟩ := onTimerTic_order cfg k
  rw [isrSystemTimerTic_eq]
  split
  · obtain ⟨_, _, _, p4, _⟩ := pushRetCodeOfContextSwitch_frame (onTimerTic cfg k).1
    refine ⟨by rw [p4]; exact o1, fun q => by rw [pushRetCodeOfContextSwitch_prioClass, o2],
      fun a h hs => ?_⟩
    rw [p4] at hs
    obtain ⟨w1, w2⟩ := onTimerTic_waitsInOrder cfg hnd h hs
    obtain ⟨w3, w4⟩ := w1.returnOfEvents
    exact ⟨w3, by rw [w4, w2]⟩
  · exact ⟨o1, o2, fun a h hs => onTimerTic_waitsInOrder cfg hnd h hs⟩

theorem rtos_sendEvent_waitsInOrder {cfg : Config} (hcfg : cfg.WellFormed) {k : Kernel}
    (hnd : k.pSuspendedTaskAry.Nodup) (ev : Nat) :
    List.Sublist (rtos_sendEvent cfg k ev).pSuspendedTaskAry k.pSuspendedTaskAry ∧
    (∀ q, ((rtos_sendEvent cfg k ev).taskAry q).prioClass = (k.taskAry q).prioClass) ∧
    (∀ a, WaitsInOrder k a → a ∈ (rtos_sendEvent cfg k ev).pSuspendedTaskAry →
      WaitsInOrder (rtos_sendEvent cfg k ev) a ∧
      ((rtos_sendEvent cfg k ev).taskAry a).eventMask = (k.taskAry a).eventMask) := by
  obtain ⟨o1, o2⟩ := sendEvent_order hcfg k ev
  unfold rtos_sendEvent
  simp only
  split
  · obtain ⟨_, _, _, p4, _⟩ := pushRetCodeOfContextSwitch_frame (sendEvent cfg k ev).1
    refine ⟨by rw [p4]; exact o1, fun q => by rw [pushRetCodeOfContextSwitch_prioClass, o2],
      fun a h hs => ?_⟩
    rw [p4] at hs
    obtain ⟨w1, w2⟩ := sendEvent_waitsInOrder hcfg hnd ev h hs
    obtain ⟨w3, w4⟩ := w1.returnOfEvents
    exact ⟨w3, by rw [w4, w2]⟩
  · exact ⟨o1, o2, fun a h hs => sendEvent_waitsInOrder hcfg hnd ev h hs⟩

theorem rtos_waitForEvent_waitsInOrder {cfg : Config} (hcfg : cfg.WellFormed) {k : Kernel}
    (hu : (cfg.useSemaphore || cfg.useMutex) = true)
    (hact : k.pActiveTask ∉ k.pSuspendedTaskAry)
    (eventMask : Nat) (all : Bool) (timeout : Nat) :
    List.Sublist k.pSuspendedTaskAry
      (rtos_waitForEvent cfg k eventMask all timeout).1.pSuspendedTaskAry ∧
    (∀ q, ((rtos_waitForEvent cfg k eventMask all timeout).1.taskAry q).prioClass
      = (k.taskAry q).prioClass) ∧
    (∀ a, WaitsInOrder k a →
      WaitsInOrder (rtos_waitForEvent cfg k eventMask all timeout).1 a ∧
      ((rtos_waitForEvent cfg k eventMask all timeout).1.taskAry a).eventMask
        = (k.taskAry a).eventMask) := by
  obtain ⟨_, _, _, p4, _⟩ :=
    pushRetCodeOfContextSwitch_frame (waitForEvent cfg k eventMask all timeout).1
  have hp := waitForEvent_prioClass cfg hcfg.2.2.2.1 k eventMask all timeout
  unfold rtos_waitForEvent
  refine ⟨?_, fun q => by rw [pushRetCodeOfContextSwitch_prioClass, hp], fun a h => ?_⟩
  · rw [p4]
    rcases waitForEvent_lists hcfg k hu eventMask all timeout with ⟨_, e⟩ | ⟨_, e⟩
    · rw [e]
    · rw [e]
      exact sublist_insertAt _ _ _
  · obtain ⟨w1, w2⟩ := waitForEvent_waitsInOrder hcfg hu hact eventMask all timeout h
    obtain ⟨w3, w4⟩ := w1.returnOfEvents
    exact ⟨w3, by rw [w4, w2]⟩

theorem StaySuspended.keeps {cfg : Config} (hcfg : cfg.WellFormed)
    (hu : (cfg.useSemaphore || cfg.useMutex) = true) {tasks : List TaskInit}
    (ht : TasksOk cfg tasks) {sem : Nat → Nat} {S : List Nat} {k k1 : Kernel}
    (hr : Reachable cfg tasks sem k) (h : StaySuspended cfg S k k1) :
    (∀ a ∈ S, WaitsInOrder k a →
      WaitsInOrder k1 a ∧ (k1.taskAry a).eventMask = (k.taskAry a).eventMask) ∧
    (∀ q, (k1.taskAry q).prioClass = (k.taskAry q).prioClass) ∧
    (∀ a ∈ S, a ∈ k.pSuspendedTaskAry → a ∈ k1.pSuspendedTaskAry) ∧
    (∀ a ∈ S, ∀ b ∈ S, List.Sublist [a, b] k.pSuspendedTaskAry →
      List.Sublist [a, b] k1.pSuspendedTaskAry) := by
  induction h with
  | refl => exact ⟨fun a _ h => ⟨h, rfl⟩, fun q => rfl, fun a _ h => h, fun a _ b _ h => h⟩
  | @timerTic k1 h1 hs ih =>
    obtain ⟨i1, i2, _, i3⟩ := ih
    have hr1 := h1.reachable hr
    have hnd := reachable_nodup hcfg ht hr1
    obtain ⟨s1, s2, s3⟩ := isrSystemTimerTic_waitsInOrder cfg hnd
    refine ⟨fun a ha hw => ?_, fun q => by rw [s2, i2], fun a ha _ => hs a ha,
      fun a ha b hb hab => ?_⟩
    · obtain ⟨w1, w2⟩ := i1 a ha hw
      obtain ⟨w3, w4⟩ := s3 a w1 (hs a ha)
      exact ⟨w3, by rw [w4, w2]⟩
    · exact pair_sublist_of_sublist hnd s1 (i3 a ha b hb hab) (hs a ha) (hs b hb)
  | @sendEvent k1 ev h1 hs ih =>
    obtain ⟨i1, i2, _, i3⟩ := ih
    have hr1 := h1.reachable hr
    have hnd := reachable_nodup hcfg ht hr1
    obtain ⟨s1, s2, s3⟩ := rtos_sendEvent_waitsInOrder hcfg hnd ev
    refine ⟨fun a ha hw => ?_, fun q => by rw [s2, i2], fun a ha _ => hs a ha,
      fun a ha b hb hab => ?_⟩
    · obtain ⟨w1, w2⟩ := i1 a ha hw
      obtain ⟨w3, w4⟩ := s3 a w1 (hs a ha)
      exact ⟨w3, by rw [w4, w2]⟩
    · exact pair_sublist_of_sublist hnd s1 (i3 a ha b hb hab) (hs a ha) (hs b hb)
  | @waitForEvent k1 eventMask all timeout h1 hne hs ih =>
    obtain ⟨i1, i2, _, i3⟩ := ih
    have hr1 := h1.reachable hr
    obtain ⟨hI, hA⟩ := reachable_inv hcfg ht hr1
    obtain ⟨s1, s2, s3⟩ := rtos_waitForEvent_waitsInOrder hcfg hu
      (active_not_suspended hI hA) eventMask all timeout
    refine ⟨fun a ha hw => ?_, fun q => by rw [s2, i2], fun a ha _ => hs a ha,
      fun a ha b hb hab => (i3 a ha b hb hab).trans s1⟩
    obtain ⟨w1, w2⟩ := i1 a ha hw
    obtain ⟨w3, w4⟩ := s3 a w1
    exact ⟨w3, by rw [w4, w2]⟩

theorem sendEventInit_posted_sub (cfg : Config) (ev j : Nat)
    (h : (sendEventInit cfg ev).postedEventVec.testBit j = true) : ev.testBit j = true := by
  unfold sendEventInit at h
  simp only at h
  split at h
  · rw [Nat.testBit_and, Bool.and_eq_true] at h
    exact h.1
  · exact h

theorem sendEvent_no_event {cfg : Config} (hcfg : cfg.WellFormed) {k : Kernel}
    (hnd : k.pSuspendedTaskAry.Nodup) (ev : Nat) (b : Nat) (hb : b ∈ k.pSuspendedTaskAry)
    (hp : (k.taskAry b).postedEventVec = 0)
    (h : ∀ i, ev.testBit i = true → (k.taskAry b).eventMask.testBit i = true →
      ((sendEvent cfg k ev).1.taskAry b).postedEventVec.testBit i = false) :
    ((sendEvent cfg k ev).1.taskAry b).postedEventVec = 0 := by
  rw [eq_zero_iff_testBit]
  intro i
  obtain ⟨pre, post, hdec⟩ := List.append_of_mem hb
  obtain ⟨h1, _, _⟩ := sendEvent_bits hcfg hnd ev
  obtain ⟨i1, i2, _⟩ := sendEventInit_bits cfg hcfg.2.2.2.1 ev i
  cases hev : ev.testBit i
  · have e0 : (sendEventInit cfg ev).postedEventVec.testBit i = false := by
      cases hx : (sendEventInit cfg ev).postedEventVec.testBit i
      · rfl
      · rw [sendEventInit_posted_sub cfg ev i hx] at hev
        exact absurd hev (by simp)
    rw [h1 pre b post hdec i, hp, e0, i1, i2, hev]
    simp
  · cases hm : (k.taskAry b).eventMask.testBit i
    · rw [h1 pre b post hdec i, hp, hm]
      simp
    · exact h i hev hm

theorem sendEvent_delivers_first {cfg : Config} (hcfg : cfg.WellFormed) {k : Kernel}
    (hI : ListsInv cfg k) (hA : ActiveInv cfg k) (ev j : Nat)
    (hj : j < cfg.noSemaphoreEvents + cfg.noMutexEvents) (hev : ev.testBit j = true)
    {a : Nat} (hw : WaitsInOrder k a) (hmask : (k.taskAry a).eventMask.testBit j = true)
    (hfirst : ∀ q, List.Sublist [q, a] k.pSuspendedTaskAry →
      waitsForObject cfg (k.taskAry q) j = false) :
    ((sendEvent cfg k ev).1.taskAry a).postedEventVec.testBit j = true ∧
    a ∉ (sendEvent cfg k ev).1.pSuspendedTaskAry ∧
    a ∈ (sendEvent cfg k ev).1.pDueTaskAryAry ((sendEvent cfg k ev).1.taskAry a).prioClass ∧
    (∀ q, q ≠ a → ((sendEvent cfg k ev).1.taskAry q).postedEventVec.testBit j =
      (k.taskAry q).postedEventVec.testBit j) := by
  obtain ⟨h1, h2, h3, _⟩ := hw
  have hnd := hI.nodup
  have hpa : (k.taskAry a).postedEventVec.testBit j = false := by rw [h3]; simp
  have hkey : ∀ pre t0 post, k.pSuspendedTaskAry = pre ++ t0 :: post →
      waitsForObject cfg (k.taskAry t0) j = true →
      (∀ q ∈ pre, waitsForObject cfg (k.taskAry q) j = false) → t0 = a := by
    intro pre t0 post hdec hw0 hpre
    have hwa : waitsForObject cfg (k.taskAry a) j = true := by
      unfold waitsForObject
      rw [hmask, hpa]
      simp
    have hmem := h1
    rw [hdec, List.mem_append, List.mem_cons] at hmem
    rcases hmem with hm | hm | hm
    · rw [hpre a hm] at hwa
      exact absurd hwa (by simp)
    · exact hm.symm
    · have hsub : List.Sublist [t0, a] k.pSuspendedTaskAry := by
        rw [hdec]
        exact (List.Sublist.cons₂ _ (List.singleton_sublist.mpr hm)).trans
          (List.sublist_append_right _ _)
      rw [hfirst t0 hsub] at hw0
      exact absurd hw0 (by simp)
  have hres : ((sendEvent cfg k ev).1.taskAry a).postedEventVec.testBit j = true ∧
      (∀ q, q ≠ a → ((sendEvent cfg k ev).1.taskAry q).postedEventVec.testBit j =
        (k.taskAry q).postedEventVec.testBit j) := by
    by_cases hs : j < cfg.noSemaphoreEvents
    · have hwant : ∀ t, wantsSemaphore (k.taskAry t) j = waitsForObject cfg (k.taskAry t) j := by
        intro t
        unfold wantsSemaphore waitsForObject
        have : ¬ cfg.noSemaphoreEvents ≤ j := by omega
        simp [this]
      rcases sendEvent_semaphore_cases hcfg hnd ev j hs hev with
        ⟨pre, t0, post, hdec, c2, c3, c4, c5, _⟩ | ⟨c1, _, _⟩
      · have e := hkey pre t0 post hdec (by rw [← hwant]; exact c2)
          (fun q hq => by rw [← hwant]; exact c3 q hq)
        subst e
        exact ⟨c4, c5⟩
      · have := c1 a h1
        unfold wantsSemaphore at this
        rw [hmask, hpa] at this
        exact absurd this (by simp)
    · have hm1 : cfg.noSemaphoreEvents ≤ j := by omega
      have hwant : ∀ t, (k.taskAry t).eventMask.testBit j = waitsForObject cfg (k.taskAry t) j := by
        intro t
        unfold waitsForObject
        simp [hm1]
      rcases sendEvent_mutex_cases hcfg hnd ev j hm1 hj hev with
        ⟨pre, t0, post, hdec, c2, c3, c4, c5, _⟩ | ⟨c1, _, _⟩
      · have e := hkey pre t0 post hdec (by rw [← hwant]; exact c2)
          (fun q hq => by rw [← hwant]; exact c3 q hq)
        subst e
        exact ⟨c4, c5⟩
      · have := c1 a h1
        rw [hmask] at this
        exact absurd this (by simp)
  obtain ⟨r1, r2⟩ := hres
  obtain ⟨_, _, s3⟩ := sendEvent_stays hcfg hnd ev a h1 h2 h3
  have hns : a ∉ (sendEvent cfg k ev).1.pSuspendedTaskAry := by
    intro hm
    have := s3.mp hm
    rw [this] at r1
    simp at r1
  exact ⟨r1, hns, moved_is_due (sendEvent_inv hcfg hI hA ev).1 a (hI.susp_lt a h1) hns, r2⟩

theorem sync_in_use (cfg : Config) (j : Nat)
    (hj : j < cfg.noSemaphoreEvents + cfg.noMutexEvents) :
    (cfg.useSemaphore || cfg.useMutex) = true := by
  unfold Config.useSemaphore Config.useMutex
  by_cases h : cfg.noSemaphoreEvents > 0
  · simp [h]
  · have : cfg.noMutexEvents > 0 := by omega
    simp [this]

theorem tasksFifo_ok : TasksOk cfgFifo tasksFifo := by
  intro a ha
  simp only [tasksFifo, List.mem_cons, List.mem_singleton, List.not_mem_nil, or_false] at ha
  rcases ha with h | h | h | h <;> subst h <;> decide

theorem kFifoA_reachable : Reachable cfgFifo tasksFifo (fun _ => 0) kFifoA :=
  Reachable.timerTic
    (Reachable.waitForEvent 0x0002 false 0 (Reachable.timerTic Reachable.init) (by decide!))

theorem kFifoB_stay :
    StaySuspended cfgFifo [kFifoA.pActiveTask]
      (rtos_waitForEvent cfgFifo kFifoA 0x0002 false 0).1 kFifoB :=
  StaySuspended.timerTic (StaySuspended.refl _) (by decide!)

theorem kFifoThird_stay :
    StaySuspended cfgFifo [kFifoA.pActiveTask, kFifoB.pActiveTask]
      (rtos_waitForEvent cfgFifo kFifoB 0x0002 false 0).1 kFifoThird :=
  StaySuspended.waitForEvent 0x0002 false 0
    (StaySuspended.timerTic (StaySuspended.refl _) (by decide!)) (by decide!) (by decide!)

/-- C17, counterexample: a run of `cfgFifo`.  Task 0 owns the mutex `0x0002`.  Task 1 and then
task 2, both of priority class 1, call `rtos_waitForEvent(0x0002, all=false, 0)` and are
suspended, neither is resumed.  Then task 3 of class 2 is started, waits for the same mutex and
is suspended ahead of them.  The following `sendEvent(0x0002)` passes the mutex to task 3;
task 1 does not get the bit and stays suspended. -/
theorem fifoWithinPriority_counterexample :
    kFifoA.pActiveTask = 1 ∧ kFifoB.pActiveTask = 2 ∧
    kFifoThird.pSuspendedTaskAry = [3, 1, 2] ∧
    ((sendEvent cfgFifo kFifoThird 0x0002).1.taskAry 3).postedEventVec = 0x0002 ∧
    ((sendEvent cfgFifo kFifoThird 0x0002).1.taskAry 1).postedEventVec = 0 ∧
    (sendEvent cfgFifo kFifoThird 0x0002).1.pSuspendedTaskAry = [1, 2] ∧
    ¬ FifoWithinPriority cfgFifo tasksFifo (fun _ => 0) := by
  refine ⟨by decide!, by decide!, by decide!, by decide!, by decide!, by decide!, fun h => ?_⟩
  have h1 := h kFifoA kFifoB kFifoThird 1 0x0002 0 0x0002 0 kFifoA_reachable (by decide!)
    (by decide!) (by decide!) (by decide!) kFifoB_stay (by decide!) (by decide!) (by decide!)
    (by decide!) kFifoThird_stay
  exact absurd h1 (by decide!)

/-- C17, amended: let `j` be a mutex or semaphore event.  In a reachable state the active task
`A` calls `rtos_waitForEvent(maskA, all=false, timeoutA)` with `j` in the mask and is suspended
(no requested object is available); kernel operations follow which do not resume `A`; then
the active task `B`, of the priority class of `A`, calls `rtos_waitForEvent(maskB, all=false,
timeoutB)` with `j` in the mask and is suspended; kernel operations follow which resume neither
`A` nor `B`.  Let no task ahead of `A` in the list of suspended tasks wait for the object `j`.
Then `A` is ahead of `B` in the list, both wait for `j`, and a `sendEvent(ev)` with `j` in `ev`
sets bit `j` in the posted events of `A` and moves `A` from the list of suspended tasks into
the due list of its priority class; bit `j` is not set in the posted events of `B`, and `B`
stays suspended without any posted event provided that `ev` contains no other event of the
mask of `B`. -/
theorem sendEvent_fifo_within_priority {cfg : Config} (hcfg : cfg.WellFormed)
    {tasks : List TaskInit} (ht : TasksOk cfg tasks) {sem : Nat → Nat} {k0 k1 k2 : Kernel}
    (hr : Reachable cfg tasks sem k0) (j : Nat)
    (hj : j < cfg.noSemaphoreEvents + cfg.noMutexEvents)
    (maskA timeoutA maskB timeoutB : Nat)
    (hA : k0.pActiveTask ≠ IDLE_TASK_ID cfg) (hAj : maskA.testBit j = true)
    (hsA : (waitForEvent cfg k0 maskA false timeoutA).2 = true)
    (h01 : StaySuspended cfg [k0.pActiveTask]
      (rtos_waitForEvent cfg k0 maskA false timeoutA).1 k1)
    (hB : k1.pActiveTask ≠ IDLE_TASK_ID cfg) (hBj : maskB.testBit j = true)
    (hprio : (k1.taskAry k1.pActiveTask).prioClass = (k1.taskAry k0.pActiveTask).prioClass)
    (hsB : (waitForEvent cfg k1 maskB false timeoutB).2 = true)
    (h12 : StaySuspended cfg [k0.pActiveTask, k1.pActiveTask]
      (rtos_waitForEvent cfg k1 maskB false timeoutB).1 k2)
    (ev : Nat) (hev : ev.testBit j = true)
    (hfirst : ∀ q, List.Sublist [q, k0.pActiveTask] k2.pSuspendedTaskAry →
      waitsForObject cfg (k2.taskAry q) j = false) :
    List.Sublist [k0.pActiveTask, k1.pActiveTask] k2.pSuspendedTaskAry ∧
    waitsForObject cfg (k2.taskAry k0.pActiveTask) j = true ∧
    waitsForObject cfg (k2.taskAry k1.pActiveTask) j = true ∧
    ((sendEvent cfg k2 ev).1.taskAry k0.pActiveTask).postedEventVec.testBit j = true ∧
    k0.pActiveTask ∉ (sendEvent cfg k2 ev).1.pSuspendedTaskAry ∧
    k0.pActiveTask ∈ (sendEvent cfg k2 ev).1.pDueTaskAryAry
      ((sendEvent cfg k2 ev).1.taskAry k0.pActiveTask).prioClass ∧
    ((sendEvent cfg k2 ev).1.taskAry k1.pActiveTask).postedEventVec.testBit j = false ∧
    ((∀ i, i ≠ j → ev.testBit i = true → maskB.testBit i = false) →
      k1.pActiveTask ∈ (sendEvent cfg k2 ev).1.pSuspendedTaskAry ∧
      ((sendEvent cfg k2 ev).1.taskAry k1.pActiveTask).postedEventVec = 0 ∧
      FifoDelivery cfg k2 ev j k0.pActiveTask k1.pActiveTask) := by
  have hu := sync_in_use cfg j hj
  -- the call of A
  obtain ⟨hI0, hA0⟩ := reachable_inv hcfg ht hr
  obtain ⟨a1, a2⟩ := waitForEvent_establishes hcfg hu (active_not_suspended hI0 hA0)
    maskA timeoutA hsA
  obtain ⟨a3, a4⟩ := a1.returnOfEvents
  have hwA : WaitsInOrder (rtos_waitForEvent cfg k0 maskA false timeoutA).1 k0.pActiveTask := a3
  have hmA : ((rtos_waitForEvent cfg k0 maskA false timeoutA).1.taskAry
      k0.pActiveTask).eventMask = maskA := by
    show ((pushRetCodeOfContextSwitch (waitForEvent cfg k0 maskA false timeoutA).1).1.taskAry
      k0.pActiveTask).eventMask = maskA
    rw [a4, a2]
  have hrA := Reachable.waitForEvent maskA false timeoutA hr hA
  -- up to the call of B
  obtain ⟨b1, _, _, _⟩ := h01.keeps hcfg hu ht hrA
  obtain ⟨hw1, hm1⟩ := b1 k0.pActiveTask (by simp) hwA
  have hr1 := h01.reachable hrA
  obtain ⟨hI1, hA1⟩ := reachable_inv hcfg ht hr1
  have hact1 := active_not_suspended hI1 hA1
  -- the call of B
  obtain ⟨c1, c2⟩ := waitForEvent_establishes hcfg hu hact1 maskB timeoutB hsB
  obtain ⟨c3, c4⟩ := c1.returnOfEvents
  have hwB : WaitsInOrder (rtos_waitForEvent cfg k1 maskB false timeoutB).1 k1.pActiveTask := c3
  have hmB : ((rtos_waitForEvent cfg k1 maskB false timeoutB).1.taskAry
      k1.pActiveTask).eventMask = maskB := by
    show ((pushRetCodeOfContextSwitch (waitForEvent cfg k1 maskB false timeoutB).1).1.taskAry
      k1.pActiveTask).eventMask = maskB
    rw [c4, c2]
  obtain ⟨_, _, d3⟩ := rtos_waitForEvent_waitsInOrder hcfg hu hact1 maskB false timeoutB
  obtain ⟨hwA2, hmA2⟩ := d3 k0.pActiveTask hw1
  have hord : List.Sublist [k0.pActiveTask, k1.pActiveTask]
      (rtos_waitForEvent cfg k1 maskB false timeoutB).1.pSuspendedTaskAry := by
    show List.Sublist _
      (pushRetCodeOfContextSwitch (waitForEvent cfg k1 maskB false timeoutB).1).1.pSuspendedTaskAry
    rw [(pushRetCodeOfContextSwitch_frame _).2.2.2.1]
    exact waitForEvent_behind hcfg hu maskB false timeoutB hsB hw1 hprio
  have hrB := Reachable.waitForEvent maskB false timeoutB hr1 hB
  -- up to the event
  obtain ⟨e1, _, _, e4⟩ := h12.keeps hcfg hu ht hrB
  obtain ⟨hwA3, hmA3⟩ := e1 k0.pActiveTask (by simp) hwA2
  obtain ⟨hwB3, hmB3⟩ := e1 k1.pActiveTask (by simp) hwB
  have hord2 := e4 k0.pActiveTask (by simp) k1.pActiveTask (by simp) hord
  have hr2 := h12.reachable hrB
  obtain ⟨hI2, hA2⟩ := reachable_inv hcfg ht hr2
  have hnd := hI2.nodup
  have hmaskA : (k2.taskAry k0.pActiveTask).eventMask.testBit j = true := by
    rw [hmA3, hmA2, hm1, hmA]
    exact hAj
  have hmaskB : (k2.taskAry k1.pActiveTask).eventMask = maskB := by
    rw [hmB3, hmB]
  obtain ⟨f1, f2, f3, f4⟩ := sendEvent_delivers_first hcfg hI2 hA2 ev j hj hev hwA3 hmaskA hfirst
  have hne : k1.pActiveTask ≠ k0.pActiveTask := by
    intro e
    have := hnd.sublist hord2
    rw [e] at this
    simp at this
  have hBbit : ((sendEvent cfg k2 ev).1.taskAry k1.pActiveTask).postedEventVec.testBit j
      = false := by
    rw [f4 _ hne, hwB3.2.2.1]
    simp
  have hwaitA : waitsForObject cfg (k2.taskAry k0.pActiveTask) j = true := by
    unfold waitsForObject
    rw [hmaskA, hwA3.2.2.1]
    simp
  have hwaitB : waitsForObject cfg (k2.taskAry k1.pActiveTask) j = true := by
    unfold waitsForObject
    rw [hmaskB, hBj, hwB3.2.2.1]
    simp
  refine ⟨hord2, hwaitA, hwaitB, f1, f2, f3, hBbit, fun hother => ?_⟩
  have hzero : ((sendEvent cfg k2 ev).1.taskAry k1.pActiveTask).postedEventVec = 0 := by
    apply sendEvent_no_event hcfg hnd ev k1.pActiveTask hwB3.1 hwB3.2.2.1
    intro i hi hm
    by_cases hij : i = j
    · rw [hij]
      exact hBbit
    · rw [hmaskB, hother i hij hi] at hm
      exact absurd hm (by simp)
  have hstay : k1.pActiveTask ∈ (sendEvent cfg k2 ev).1.pSuspendedTaskAry :=
    (sendEvent_stays hcfg hnd ev k1.pActiveTask hwB3.1 hwB3.2.1 hwB3.2.2.1).2.2.mpr hzero
  exact ⟨hstay, hzero, f1, f3, hstay, hBbit⟩

theorem kFifoWait_first :
    ∀ q, List.Sublist [q, kFifoA.pActiveTask] kFifoWait.pSuspendedTaskAry →
      waitsForObject cfgFifo (kFifoWait.taskAry q) 1 = false := by
  have h : ∀ q ∈ kFifoWait.pSuspendedTaskAry,
      List.Sublist [q, kFifoA.pActiveTask] kFifoWait.pSuspendedTaskAry →
        waitsForObject cfgFifo (kFifoWait.taskAry q) 1 = false := by decide!
  exact fun q hq => h q (hq.subset (by simp)) hq

theorem testBit_two_ne (i : Nat) (hi : i ≠ 1) : (0x0002 : Nat).testBit i = false := by
  have h : (0x0002 : Nat) = 2 ^ 1 := rfl
  rw [h, Nat.testBit_two_pow]
  simpa using fun e => hi e.symm

/-- C17, amended, instance: the run of `cfgFifo` up to the suspension of task 2.  Task 0 owns
the mutex `0x0002`; task 1 and then task 2, both of class 1, have called
`rtos_waitForEvent(0x0002, all=false, 0)`; task 3, which is ahead of them in the list of
suspended tasks, waits for its start and not for the mutex.  `sendEvent(0x0002)` passes the
mutex to task 1 and task 2 stays suspended. -/
theorem sendEvent_fifo_within_priority_witness :
    cfgFifo.WellFormed ∧ TasksOk cfgFifo tasksFifo ∧
    Reachable cfgFifo tasksFifo (fun _ => 0) kFifoA ∧
    kFifoA.pActiveTask = 1 ∧ kFifoB.pActiveTask = 2 ∧
    (waitForEvent cfgFifo kFifoA 0x0002 false 0).2 = true ∧
    (waitForEvent cfgFifo kFifoB 0x0002 false 0).2 = true ∧
    kFifoWait.pSuspendedTaskAry = [3, 1, 2] ∧
    FifoDelivery cfgFifo kFifoWait 0x0002 1 kFifoA.pActiveTask kFifoB.pActiveTask ∧
    (sendEvent cfgFifo kFifoWait 0x0002).1.pSuspendedTaskAry = [3, 2] :=
  ⟨by decide, tasksFifo_ok, kFifoA_reachable, by decide!, by decide!, by decide!, by decide!,
   by decide!,
   ((@sendEvent_fifo_within_priority cfgFifo (by decide) tasksFifo tasksFifo_ok (fun _ => 0)
      kFifoA kFifoB kFifoWait kFifoA_reachable 1 (by decide)
      0x0002 0 0x0002 0 (by decide!) (by decide) (by decide!) kFifoB_stay (by decide!)
      (by decide) (by decide!) (by decide!) (StaySuspended.refl _) 0x0002 (by decide)
      kFifoWait_first).2.2.2.2.2.2.2
        (fun i hi h => absurd h (by rw [testBit_two_ne i hi]; simp))).2.2,
   by decide!⟩

/-! ## The delay counter at the end of the range of the system time -/

theorem onTimerTicTask_cntDelay (time : Nat) (t : Task) :
    (onTimerTicTask time t).cntDelay = t.cntDelay - 1 := by
  unfold onTimerTicTask
  by_cases ht : time = t.timeDueAt <;> by_cases hc : t.cntDelay = 0 <;>
    by_cases hc1 : t.cntDelay - 1 = 0 <;> simp [ht, hc, hc1]

/-- C24, counterexample: with the eight Bit system time of `cfgSemaphores` the
timeout 255 is stored as delay counter 255, not 254. -/
theorem delayAtMaximum_counterexample : ¬ DelayAtMaximumIsDecremented cfgSemaphores := by
  intro h
  have := h 0 Task.zero RTOS_EVT_DELAY_TIMER false (by decide)
  revert this
  decide

/-- C24, amended: for a suspend command which does not use the absolute timer and whose
timeout is the maximum value of the type of the system time, so that `timeout + 1` overflows,
`storeResumeCondition` does not increment the timeout: the delay counter is the maximum
representable value `2 ^ timeBits - 1` itself (not this value minus one, if the type has at
least one bit); the next timer tic decrements it to the maximum minus one. -/
theorem storeResumeCondition_delay_at_maximum (cfg : Config) (time : Nat) (t : Task)
    (eventMask : Nat) (all : Bool) (hm : eventMask &&& RTOS_EVT_ABSOLUTE_TIMER = 0) :
    (storeResumeCondition cfg time t eventMask all (2 ^ cfg.timeBits - 1)).cntDelay
      = 2 ^ cfg.timeBits - 1 ∧
    (0 < cfg.timeBits →
      (storeResumeCondition cfg time t eventMask all (2 ^ cfg.timeBits - 1)).cntDelay
        ≠ 2 ^ cfg.timeBits - 1 - 1) ∧
    ∀ time1, (onTimerTicTask time1
      (storeResumeCondition cfg time t eventMask all (2 ^ cfg.timeBits - 1))).cntDelay
        = 2 ^ cfg.timeBits - 1 - 1 := by
  obtain ⟨h1, _, _⟩ := storeResumeCondition_delay cfg time t eventMask all
    (2 ^ cfg.timeBits - 1) hm
  have hpos : 0 < 2 ^ cfg.timeBits := Nat.pow_pos (by decide)
  have e : 2 ^ cfg.timeBits - 1 + 1 = 2 ^ cfg.timeBits := by omega
  rw [e, Nat.mod_self] at h1
  simp only [ne_eq, not_true_eq_false, if_false] at h1
  refine ⟨h1, fun hW => ?_, fun time1 => ?_⟩
  · rw [h1]
    have : 2 ≤ 2 ^ cfg.timeBits := by
      calc 2 = 2 ^ 1 := rfl
        _ ≤ 2 ^ cfg.timeBits := Nat.pow_le_pow_right (by decide) hW
    omega
  · rw [onTimerTicTask_cntDelay, h1]

/-- C24, amended, instance: with the 16 Bit system time of the scenario configuration a delay of
65535 tics is stored as delay counter 65535. -/
theorem storeResumeCondition_delay_at_maximum_witness :
    RTOS_EVT_DELAY_TIMER &&& RTOS_EVT_ABSOLUTE_TIMER = 0 ∧
    (storeResumeCondition cfgScenario 7 Task.zero RTOS_EVT_DELAY_TIMER false
      (2 ^ cfgScenario.timeBits - 1)).cntDelay = 2 ^ cfgScenario.timeBits - 1 :=
  ⟨by decide,
   (storeResumeCondition_delay_at_maximum cfgScenario 7 Task.zero RTOS_EVT_DELAY_TIMER false
      (by decide)).1⟩

theorem rtos_initializeTask_taskAry (cfg : Config) (k : Kernel) (idxTask : Nat) (a : TaskInit) :
    (rtos_initializeTask cfg k idxTask a).taskAry =
      Function.update k.taskAry idxTask
        ((rtos_initializeTask cfg k idxTask a).taskAry idxTask) ∧
    (rtos_initializeTask cfg k idxTask a).time = k.time ∧
    (rtos_initializeTask cfg k idxTask a).pSuspendedTaskAry = k.pSuspendedTaskAry ∧
    (k.taskAry idxTask = Task.zero →
      (rtos_initializeTask cfg k idxTask a).taskAry idxTask =
        { storeResumeCondition cfg k.time { Task.zero with prioClass := a.prioClass }
            a.startEventMask a.startByAllEvents a.startTimeout with
          timeRoundRobin := if cfg.roundRobinModeSupported then a.timeRoundRobin else 0 }) := by
  refine ⟨?_, rfl, rfl, fun hz => ?_⟩
  · unfold rtos_initializeTask Kernel.setTask
    simp
  · unfold rtos_initializeTask Kernel.setTask
    simp only [Function.update_same, hz]
    cases cfg.roundRobinModeSupported
    · simp only [Bool.false_eq_true, if_false]
      have := (storeResumeCondition_frame cfg k.time
        { Task.zero with prioClass := a.prioClass, cntDelay := 0, timeDueAt := 0 }
        a.startEventMask a.startByAllEvents a.startTimeout).2.2.2.1
      have e : ({ Task.zero with prioClass := a.prioClass, cntDelay := 0, timeDueAt := 0 } : Task)
          = { Task.zero with prioClass := a.prioClass } := rfl
      rw [e] at this ⊢
      cases hh : storeResumeCondition cfg k.time { Task.zero with prioClass := a.prioClass }
        a.startEventMask a.startByAllEvents a.startTimeout
      rw [hh] at this
      simp only at this
      simp only [Task.mk.injEq, true_and, and_true]
      exact this
    · rfl

theorem setup_tasks (cfg : Config) (tasks : List TaskInit) (sem : Nat → Nat) :
    (setup cfg tasks (staticData cfg sem)).pSuspendedTaskAry = [] ∧
    (∀ q, cfg.noTasks ≤ q → (setup cfg tasks (staticData cfg sem)).taskAry q = Task.zero) ∧
    (∀ q a, q < cfg.noTasks → tasks.get? q = some a →
      (setup cfg tasks (staticData cfg sem)).taskAry q =
        { storeResumeCondition cfg (2 ^ cfg.timeBits - 1)
            { Task.zero with prioClass := a.prioClass }
            a.startEventMask a.startByAllEvents a.startTimeout with
          timeRoundRobin := if cfg.roundRobinModeSupported then a.timeRoundRobin else 0 }) := by
  have h := foldl_range_induct
    (fun (k : Kernel) (idxTask : Nat) =>
      match tasks.get? idxTask with
      | some a => rtos_initializeTask cfg k idxTask a
      | none => k)
    (fun (n : Nat) (k : Kernel) =>
      k.pSuspendedTaskAry = [] ∧ k.time = 2 ^ cfg.timeBits - 1 ∧
      (∀ q, n ≤ q → k.taskAry q = Task.zero) ∧
      (∀ q a, q < n → tasks.get? q = some a →
        k.taskAry q =
          { storeResumeCondition cfg (2 ^ cfg.timeBits - 1)
              { Task.zero with prioClass := a.prioClass }
              a.startEventMask a.startByAllEvents a.startTimeout with
            timeRoundRobin := if cfg.roundRobinModeSupported then a.timeRoundRobin else 0 }))
    (staticData cfg sem)
    ⟨rfl, rfl, fun _ _ => rfl, fun q a hq => absurd hq (Nat.not_lt_zero _)⟩
    (by
      intro n k ⟨h1, h2, h3, h4⟩
      simp only
      cases hg : tasks.get? n with
      | none =>
        simp only
        refine ⟨h1, h2, fun q hq => h3 q (by omega), fun q a hq ha => ?_⟩
        by_cases hqn : q = n
        · subst hqn; rw [hg] at ha; cases ha
        · exact h4 q a (by omega) ha
      | some b =>
        simp only
        obtain ⟨g1, g2, g3, g4⟩ := rtos_initializeTask_taskAry cfg k n b
        refine ⟨g3.trans h1, g2.trans h2, fun q hq => ?_, fun q a hq ha => ?_⟩
        · rw [g1, Function.update_noteq (by omega)]
          exact h3 q (by omega)
        · by_cases hqn : q = n
          · subst hqn
            rw [hg] at ha
            cases ha
            rw [g4 (h3 q (le_refl _)), h2]
          · rw [g1, Function.update_noteq hqn]
            exact h4 q a (by omega) ha)
    cfg.noTasks
  exact ⟨h.1, h.2.2.1, h.2.2.2⟩

theorem initRTOSTask_taskAry (cfg : Config) (k : Kernel) (idxTask : Nat) :
    (initRTOSTask cfg k idxTask).taskAry =
      Function.update k.taskAry idxTask
        { k.taskAry idxTask with
          cntRoundRobin := if cfg.roundRobinModeSupported then 0
                           else (k.taskAry idxTask).cntRoundRobin,
          postedEventVec := 0, cntOverrun := 0 } := by
  unfold initRTOSTask Kernel.setTask
  cases cfg.useMutex <;> cases cfg.roundRobinModeSupported <;> rfl

theorem initRTOS_tasks (cfg : Config) (k0 : Kernel) (hs : k0.pSuspendedTaskAry = []) :
    (∀ t, ((List.range cfg.noTasks).foldl (initRTOSTask cfg) k0).pSuspendedTaskAry.count t
      = if t < cfg.noTasks then 1 else 0) ∧
    (∀ q, cfg.noTasks ≤ q →
      ((List.range cfg.noTasks).foldl (initRTOSTask cfg) k0).taskAry q = k0.taskAry q) ∧
    (∀ q, q < cfg.noTasks →
      ((List.range cfg.noTasks).foldl (initRTOSTask cfg) k0).taskAry q =
        { k0.taskAry q with
          cntRoundRobin := if cfg.roundRobinModeSupported then 0
                           else (k0.taskAry q).cntRoundRobin,
          postedEventVec := 0, cntOverrun := 0 }) := by
  exact foldl_range_induct (initRTOSTask cfg)
    (fun (n : Nat) (k : Kernel) =>
      (∀ t, k.pSuspendedTaskAry.count t = if t < n then 1 else 0) ∧
      (∀ q, n ≤ q → k.taskAry q = k0.taskAry q) ∧
      (∀ q, q < n → k.taskAry q =
        { k0.taskAry q with
          cntRoundRobin := if cfg.roundRobinModeSupported then 0
                           else (k0.taskAry q).cntRoundRobin,
          postedEventVec := 0, cntOverrun := 0 }))
    k0
    ⟨fun t => by rw [hs]; simp, fun _ _ => rfl, fun q hq => absurd hq (Nat.not_lt_zero _)⟩
    (by
      intro n k ⟨h1, h2, h3⟩
      obtain ⟨_, g2, _⟩ := initRTOSTask_facts cfg k n
      have g := initRTOSTask_taskAry cfg k n
      refine ⟨fun t => ?_, fun q hq => ?_, fun q hq => ?_⟩
      · rw [g2 t, h1 t]
        by_cases hx : n = t
        · subst hx; simp
        · by_cases hlt : t < n
          · have : t < n + 1 := by omega
            simp [hx, hlt, this]
          · have : ¬ t < n + 1 := by omega
            simp [hx, hlt, this]
      · rw [g, Function.update_noteq (by omega)]
        exact h2 q (by omega)
      · by_cases hqn : q = n
        · subst hqn
          rw [g, Function.update_same, h2 q (le_refl _)]
        · rw [g, Function.update_noteq hqn]
          exact h3 q (by omega))
    cfg.noTasks

theorem storeResumeCondition_in_time (cfg : Config) (time : Nat) (t : Task) (eventMask : Nat)
    (all : Bool) (timeout : Nat) (hm : eventMask &&& RTOS_EVT_ABSOLUTE_TIMER ≠ 0)
    (hd : 0 < toIntTime cfg ((((t.timeDueAt + timeout) % 2 ^ cfg.timeBits : Nat) : Int)
            - (time : Int))) :
    (storeResumeCondition cfg time t eventMask all timeout).timeDueAt
      = (t.timeDueAt + timeout) % 2 ^ cfg.timeBits ∧
    (storeResumeCondition cfg time t eventMask all timeout).cntDelay = t.cntDelay := by
  unfold storeResumeCondition
  have hb : (eventMask &&& RTOS_EVT_ABSOLUTE_TIMER != 0) = true := by simpa using hm
  have hn : ¬ toIntTime cfg ((((t.timeDueAt + timeout) % 2 ^ cfg.timeBits : Nat) : Int)
            - (time : Int)) ≤ 0 := by omega
  simp only [hb, if_true, hn, if_false]
  exact ⟨trivial, trivial⟩

/-- C30: the state built by `rtos_initRTOS` (after `setup` has called `rtos_initializeTask` for
the tasks), for every configuration and all arguments.  Every task index below `RTOS_NO_TASKS`
is exactly once in the list of suspended tasks and nothing else is, so that the list has
`RTOS_NO_TASKS` entries.  The task object of a task initialized with the arguments `a` is the
one which `storeResumeCondition` makes of the zero initialized object with the start event
mask, the flag `startByAllEvents` and the start timeout at the initial time `(uintTime_t)-1`,
with the round robin time slice of `a` and without posted events, overrun count and round
robin counter; in particular its event mask is the start event mask, it waits for any event if
and only if `startByAllEvents` is false, its delay counter is the timeout plus one (the
timeout if the increment wraps) if the mask does not hold the absolute timer event, and it is
due at the time `startTimeout` if the mask holds this event and this time counts as in the
future.  All due lists are empty, the idle task is the active task, the posted events and the
overrun counter of every task and of the idle task are null, and `_mutexVec` holds exactly the
mutex events. -/
theorem rtos_initRTOS_initial_state (cfg : Config) (tasks : List TaskInit) (sem : Nat → Nat) :
    (∀ t, (rtos_initRTOS cfg tasks sem).pSuspendedTaskAry.count t
      = if t < cfg.noTasks then 1 else 0) ∧
    (rtos_initRTOS cfg tasks sem).noSuspendedTasks = cfg.noTasks ∧
    (∀ idx a, idx < cfg.noTasks → tasks.get? idx = some a →
      idx ∈ (rtos_initRTOS cfg tasks sem).pSuspendedTaskAry ∧
      (rtos_initRTOS cfg tasks sem).taskAry idx =
        { storeResumeCondition cfg (2 ^ cfg.timeBits - 1)
            { Task.zero with prioClass := a.prioClass }
            a.startEventMask a.startByAllEvents a.startTimeout with
          timeRoundRobin := if cfg.roundRobinModeSupported then a.timeRoundRobin else 0,
          cntRoundRobin := 0, postedEventVec := 0, cntOverrun := 0 } ∧
      ((rtos_initRTOS cfg tasks sem).taskAry idx).eventMask = a.startEventMask ∧
      ((rtos_initRTOS cfg tasks sem).taskAry idx).waitForAnyEvent = !a.startByAllEvents ∧
      ((rtos_initRTOS cfg tasks sem).taskAry idx).prioClass = a.prioClass ∧
      (a.startEventMask &&& RTOS_EVT_ABSOLUTE_TIMER = 0 →
        ((rtos_initRTOS cfg tasks sem).taskAry idx).cntDelay =
          (if (a.startTimeout + 1) % 2 ^ cfg.timeBits ≠ 0 then a.startTimeout + 1
           else a.startTimeout)) ∧
      (a.startEventMask &&& RTOS_EVT_ABSOLUTE_TIMER ≠ 0 →
        0 < toIntTime cfg (((a.startTimeout % 2 ^ cfg.timeBits : Nat) : Int)
              - ((2 ^ cfg.timeBits - 1 : Nat) : Int)) →
        ((rtos_initRTOS cfg tasks sem).taskAry idx).timeDueAt
          = a.startTimeout % 2 ^ cfg.timeBits)) ∧
    (∀ c, c < cfg.noPrioClasses → (rtos_initRTOS cfg tasks sem).noDueTasksAry c = 0) ∧
    (rtos_initRTOS cfg tasks sem).pActiveTask = IDLE_TASK_ID cfg ∧
    (∀ t, t ≤ cfg.noTasks →
      ((rtos_initRTOS cfg tasks sem).taskAry t).postedEventVec = 0 ∧
      ((rtos_initRTOS cfg tasks sem).taskAry t).cntOverrun = 0) ∧
    (rtos_initRTOS cfg tasks sem).mutexVec = MASK_EVT_IS_MUTEX cfg ∧
    (∀ j, (rtos_initRTOS cfg tasks sem).mutexVec.testBit j =
      (decide (cfg.noSemaphoreEvents ≤ j)
        && decide (j < cfg.noSemaphoreEvents + cfg.noMutexEvents))) := by
  obtain ⟨s1, s2, s3⟩ := setup_tasks cfg tasks sem
  obtain ⟨i1, i2, i3⟩ := initRTOS_tasks cfg (setup cfg tasks (staticData cfg sem)) s1
  have hsusp : (rtos_initRTOS cfg tasks sem).pSuspendedTaskAry =
      ((List.range cfg.noTasks).foldl (initRTOSTask cfg)
        (setup cfg tasks (staticData cfg sem))).pSuspendedTaskAry := rfl
  have htask : ∀ q, q < cfg.noTasks → (rtos_initRTOS cfg tasks sem).taskAry q =
      ((List.range cfg.noTasks).foldl (initRTOSTask cfg)
        (setup cfg tasks (staticData cfg sem))).taskAry q := by
    intro q hq
    unfold rtos_initRTOS
    simp only [Kernel.setTask]
    rw [Function.update_noteq]
    unfold IDLE_TASK_ID
    omega
  have hidle : ((rtos_initRTOS cfg tasks sem).taskAry cfg.noTasks).postedEventVec = 0 ∧
      ((rtos_initRTOS cfg tasks sem).taskAry cfg.noTasks).cntOverrun = 0 := by
    unfold rtos_initRTOS
    simp only [Kernel.setTask, IDLE_TASK_ID, Function.update_same]
    exact ⟨trivial, trivial⟩
  have hcount : ∀ t, (rtos_initRTOS cfg tasks sem).pSuspendedTaskAry.count t
      = if t < cfg.noTasks then 1 else 0 := by
    intro t; rw [hsusp]; exact i1 t
  have hmem : ∀ t, t ∈ (rtos_initRTOS cfg tasks sem).pSuspendedTaskAry ↔ t < cfg.noTasks := by
    intro t
    rw [← List.count_pos_iff, hcount t]
    by_cases h : t < cfg.noTasks <;> simp [h]
  have hnd : (rtos_initRTOS cfg tasks sem).pSuspendedTaskAry.Nodup := by
    rw [List.nodup_iff_count_le_one]
    intro t
    rw [hcount t]
    split <;> omega
  have hperm : List.Perm (rtos_initRTOS cfg tasks sem).pSuspendedTaskAry
      (List.range cfg.noTasks) := by
    rw [List.perm_ext_iff_of_nodup hnd (List.nodup_range _)]
    intro t
    rw [hmem t, List.mem_range]
  have g := rtos_initRTOS_globals cfg tasks sem
  refine ⟨hcount, ?_, fun idx a hidx ha => ?_, fun c hc => ?_, rfl, fun t ht => ?_, g.2.1,
    fun j => ?_⟩
  · unfold Kernel.noSuspendedTasks
    rw [hperm.length_eq, List.length_range]
  · have hobj : (rtos_initRTOS cfg tasks sem).taskAry idx =
        { storeResumeCondition cfg (2 ^ cfg.timeBits - 1)
            { Task.zero with prioClass := a.prioClass }
            a.startEventMask a.startByAllEvents a.startTimeout with
          timeRoundRobin := if cfg.roundRobinModeSupported then a.timeRoundRobin else 0,
          cntRoundRobin := 0, postedEventVec := 0, cntOverrun := 0 } := by
      rw [htask idx hidx, i3 idx hidx, s3 idx a hidx ha]
      have := (storeResumeCondition_frame cfg (2 ^ cfg.timeBits - 1)
        { Task.zero with prioClass := a.prioClass }
        a.startEventMask a.startByAllEvents a.startTimeout).2.2.1
      cases hr : cfg.roundRobinModeSupported
      · simp only [Bool.false_eq_true, if_false, Task.mk.injEq, true_and, and_true]
        exact this
      · simp only [if_true]
    obtain ⟨f1, _, _, _, f5, f6⟩ := storeResumeCondition_frame cfg (2 ^ cfg.timeBits - 1)
      { Task.zero with prioClass := a.prioClass }
      a.startEventMask a.startByAllEvents a.startTimeout
    refine ⟨(hmem idx).mpr hidx, hobj, ?_, ?_, ?_, fun hm => ?_, fun hm hd => ?_⟩
    · rw [hobj]; exact f5
    · rw [hobj]; exact f6
    · rw [hobj]; exact f1
    · rw [hobj]
      exact (storeResumeCondition_delay cfg (2 ^ cfg.timeBits - 1)
        { Task.zero with prioClass := a.prioClass }
        a.startEventMask a.startByAllEvents a.startTimeout hm).1
    · rw [hobj]
      have := (storeResumeCondition_in_time cfg (2 ^ cfg.timeBits - 1)
        { Task.zero with prioClass := a.prioClass }
        a.startEventMask a.startByAllEvents a.startTimeout hm
        (by simpa [Task.zero] using hd)).1
      simpa [Task.zero] using this
  · unfold Kernel.noDueTasksAry rtos_initRTOS
    simp [hc]
  · by_cases hid : t = cfg.noTasks
    · subst hid; exact hidle
    · have hlt : t < cfg.noTasks := by omega
      rw [htask t hlt, i3 t hlt]
      exact ⟨rfl, rfl⟩
  · rw [g.2.1, testBit_MASK_EVT_IS_MUTEX]

/-- C30, instance: in the scenario configuration task 1, initialized with the mask `0x8000` and
the timeout 3, is suspended with these values and the delay counter 4; the due list of class 0
is empty. -/
theorem rtos_initRTOS_initial_state_witness :
    1 < cfgScenario.noTasks ∧
    tasksScenario.get? 1 = some ⟨0, 0, 0x8000, false, 3⟩ ∧
    1 ∈ (rtos_initRTOS cfgScenario tasksScenario (fun _ => 0)).pSuspendedTaskAry ∧
    ((rtos_initRTOS cfgScenario tasksScenario (fun _ => 0)).taskAry 1).eventMask = 0x8000 ∧
    0 < cfgScenario.noPrioClasses ∧
    (rtos_initRTOS cfgScenario tasksScenario (fun _ => 0)).noDueTasksAry 0 = 0 :=
  ⟨by decide, rfl,
   ((rtos_initRTOS_initial_state cfgScenario tasksScenario (fun _ => 0)).2.2.1 1 _
      (by decide) rfl).1,
   ((rtos_initRTOS_initial_state cfgScenario tasksScenario (fun _ => 0)).2.2.1 1 _
      (by decide) rfl).2.2.1,
   by decide,
   (rtos_initRTOS_initial_state cfgScenario tasksScenario (fun _ => 0)).2.2.2.1 0 (by decide)⟩

/-! ## The due lists after a visit of the suspended tasks -/

theorem walkSuspended_due {σ : Type} (cfg : Config) {J : σ → Prop}
    {f : σ → Task → Task × σ} (hf : VisitOk J f) (rest : List Nat) :
    ∀ (k : Kernel) (s : σ) (flag : Bool), rest.Nodup → J s →
      (∀ p ∈ rest, p ∉ k.pSuspendedTaskAry) → ∀ c,
      (walkSuspended cfg f rest k s flag).1.pDueTaskAryAry c =
        k.pDueTaskAryAry c ++ rest.filter (fun p =>
          decide (p ∉ (walkSuspended cfg f rest k s flag).1.pSuspendedTaskAry)
            && decide ((k.taskAry p).prioClass = c)) := by
  induction rest with
  | nil => intro k s flag _ _ _ c; simp [walkSuspended]
  | cons p rest ih =>
    intro k s flag hnd hJ hdis c
    obtain ⟨hp, hnd1⟩ := List.nodup_cons.mp hnd
    obtain ⟨hJ1, _⟩ := hf s (k.taskAry p) hJ
    have hprio := (hf.prioClass s (k.taskAry p) hJ).1
    by_cases hmv : ((k.taskAry p).postedEventVec != (f s (k.taskAry p)).1.postedEventVec
        && taskBecomesDue (f s (k.taskAry p)).1) = true
    · rw [walkSuspended_cons_move cfg f p rest k s flag hmv]
      have hdis1 : ∀ q ∈ rest,
          q ∉ (appendToDue cfg (k.setTask p (f s (k.taskAry p)).1) p).pSuspendedTaskAry :=
        fun q hq => hdis q (List.mem_cons_of_mem _ hq)
      rw [ih _ _ true hnd1 hJ1 hdis1 c]
      have hpn : p ∉ (walkSuspended cfg f rest
          (appendToDue cfg (k.setTask p (f s (k.taskAry p)).1) p)
          (f s (k.taskAry p)).2 true).1.pSuspendedTaskAry := by
        intro hin
        rcases (walkSuspended_susp cfg f rest _ _ true).2 p hin with h | h
        · exact hdis p (List.mem_cons_self _ _) h
        · exact hp h
      have hcongr : rest.filter (fun q =>
            decide (q ∉ (walkSuspended cfg f rest
              (appendToDue cfg (k.setTask p (f s (k.taskAry p)).1) p)
              (f s (k.taskAry p)).2 true).1.pSuspendedTaskAry)
            && decide (((appendToDue cfg (k.setTask p (f s (k.taskAry p)).1) p).taskAry
                q).prioClass = c))
          = rest.filter (fun q =>
            decide (q ∉ (walkSuspended cfg f rest
              (appendToDue cfg (k.setTask p (f s (k.taskAry p)).1) p)
              (f s (k.taskAry p)).2 true).1.pSuspendedTaskAry)
            && decide ((k.taskAry q).prioClass = c)) := by
        apply List.filter_congr
        intro q hq
        have hqp : q ≠ p := fun h => hp (h ▸ hq)
        rw [appendToDue_taskAry_ne cfg _ p q hqp, setTask_taskAry_ne _ _ _ _ hqp]
      rw [hcongr, appendToDue_due, setTask_taskAry_same, hprio, List.filter_cons]
      by_cases hc : c = (k.taskAry p).prioClass
      · subst hc
        simp [hpn]
      · have hc1 : ¬ (k.taskAry p).prioClass = c := fun h => hc h.symm
        simp [hc, hc1]
    · rw [walkSuspended_cons_stay cfg f p rest k s flag hmv]
      have hdis1 : ∀ q ∈ rest, q ∉ k.pSuspendedTaskAry ++ [p] := by
        intro q hq hin
        rcases List.mem_append.mp hin with h | h
        · exact hdis q (List.mem_cons_of_mem _ hq) h
        · have : q = p := by simpa using h
          exact hp (this ▸ hq)
      rw [ih _ _ flag hnd1 hJ1 hdis1 c]
      have hpin : p ∈ (walkSuspended cfg f rest
          { k.setTask p (f s (k.taskAry p)).1 with
              pSuspendedTaskAry := k.pSuspendedTaskAry ++ [p] }
          (f s (k.taskAry p)).2 flag).1.pSuspendedTaskAry :=
        (walkSuspended_susp cfg f rest _ _ flag).1 p (by simp)
      have hcongr : rest.filter (fun q =>
            decide (q ∉ (walkSuspended cfg f rest
              { k.setTask p (f s (k.taskAry p)).1 with
                  pSuspendedTaskAry := k.pSuspendedTaskAry ++ [p] }
              (f s (k.taskAry p)).2 flag).1.pSuspendedTaskAry)
            && decide ((({ k.setTask p (f s (k.taskAry p)).1 with
                  pSuspendedTaskAry := k.pSuspendedTaskAry ++ [p] } : Kernel).taskAry
                q).prioClass = c))
          = rest.filter (fun q =>
            decide (q ∉ (walkSuspended cfg f rest
              { k.setTask p (f s (k.taskAry p)).1 with
                  pSuspendedTaskAry := k.pSuspendedTaskAry ++ [p] }
              (f s (k.taskAry p)).2 flag).1.pSuspendedTaskAry)
            && decide ((k.taskAry q).prioClass = c)) := by
        apply List.filter_congr
        intro q hq
        have hqp : q ≠ p := fun h => hp (h ▸ hq)
        show (decide _ && decide (((k.setTask p (f s (k.taskAry p)).1).taskAry q).prioClass = c))
          = _
        rw [setTask_taskAry_ne _ _ _ _ hqp]
      rw [hcongr, List.filter_cons]
      split
      · rename_i h
        rw [Bool.and_eq_true, decide_eq_true_eq] at h
        exact absurd hpin h.1
      · rfl

theorem onTimerTicVisitAll_due (cfg : Config) {k : Kernel} (hnd : k.pSuspendedTaskAry.Nodup)
    (c : Nat) :
    (onTimerTicVisitAll cfg k).1.pDueTaskAryAry c =
      k.pDueTaskAryAry c ++ k.pSuspendedTaskAry.filter (fun p =>
        decide (p ∉ (onTimerTic cfg k).1.pSuspendedTaskAry)
          && decide ((k.taskAry p).prioClass = c)) := by
  rw [(onTimerTic_frame cfg k).2]
  exact walkSuspended_due cfg (onTimerTicVisit_ok ((k.time + 1) % 2 ^ cfg.timeBits))
    k.pSuspendedTaskAry _ () false hnd trivial (fun _ _ h => by cases h) c

theorem onTimerTic_due_of_no_roundRobin (cfg : Config) (k : Kernel)
    (hrr : cfg.roundRobinModeSupported = false) :
    (onTimerTic cfg k).1.pDueTaskAryAry = (onTimerTicVisitAll cfg k).1.pDueTaskAryAry := by
  rw [onTimerTic_eq]
  simp only [hrr, Bool.false_eq_true, if_false]
  exact (select_frame cfg (onTimerTicVisitAll cfg k).1 (onTimerTicVisitAll cfg k).2.2).2.2.1

theorem sendEvent_due {cfg : Config} (hcfg : cfg.WellFormed) {k : Kernel}
    (hnd : k.pSuspendedTaskAry.Nodup) (ev : Nat) (c : Nat) :
    (sendEvent cfg k ev).1.pDueTaskAryAry c =
      k.pDueTaskAryAry c ++ k.pSuspendedTaskAry.filter (fun p =>
        decide (p ∉ (sendEvent cfg k ev).1.pSuspendedTaskAry)
          && decide ((k.taskAry p).prioClass = c)) := by
  obtain ⟨_, f2, f3, _⟩ := sendEvent_frame cfg k ev
  rw [f2, f3]
  exact walkSuspended_due cfg
    (sendEventVisit_ok cfg hcfg.2.2.2.1 hcfg.2.2.2.2.1 (sendEventInit cfg ev).postedEventVec)
    k.pSuspendedTaskAry _ _ false hnd (sendEventInit_ok cfg hcfg.2.2.2.1 ev)
    (fun _ _ h => by cases h) c

theorem sendEventSemLoop_none (cfg : Config) (eventMask postedEventVec vec : Nat)
    (h : (vec &&& eventMask) &&& not16 postedEventVec = 0) :
    ∀ fuel semMask,
      sendEventSemLoop cfg eventMask fuel semMask postedEventVec vec = (postedEventVec, vec) := by
  intro fuel
  induction fuel with
  | zero => intro semMask; rfl
  | succ fuel ih =>
    intro semMask
    have hz : vec &&& semMask &&& eventMask &&& not16 postedEventVec = 0 := by
      apply Nat.eq_of_testBit_eq
      intro j
      have hj := congrArg (fun x => x.testBit j) h
      simp only [Nat.testBit_and, Nat.zero_testBit] at hj ⊢
      cases hv : vec.testBit j <;> cases hm : eventMask.testBit j <;>
        cases hn : (not16 postedEventVec).testBit j <;> simp_all
    unfold sendEventSemLoop
    split
    · rw [hz]
      simp only [bne_self_eq_false, Bool.false_eq_true, if_false]
      exact ih _
    · rfl

theorem sendEventSemLoop_mono (cfg : Config) (eventMask : Nat) (j : Nat) :
    ∀ fuel semMask postedEventVec vec, postedEventVec.testBit j = true →
      (sendEventSemLoop cfg eventMask fuel semMask postedEventVec vec).1.testBit j = true := by
  intro fuel
  induction fuel with
  | zero => intro semMask postedEventVec vec h; exact h
  | succ fuel ih =>
    intro semMask postedEventVec vec h
    unfold sendEventSemLoop
    split
    · split
      · apply ih
        rw [Nat.testBit_or, h]
        rfl
      · exact ih _ _ _ h
    · exact h

theorem sendEventTask_eventMask (cfg : Config) (t : Task) (b m v : Nat) :
    (sendEventTask cfg t b m v).1.eventMask = t.eventMask := by
  unfold sendEventTask
  cases cfg.useMutex <;> cases cfg.useSemaphore <;> rfl

theorem sendEventTask_sup (cfg : Config) (t : Task) (b m v : Nat) (j : Nat)
    (hb : b.testBit j = true) (hm : t.eventMask.testBit j = true) :
    (sendEventTask cfg t b m v).1.postedEventVec.testBit j = true := by
  unfold sendEventTask
  cases cfg.useMutex <;> cases cfg.useSemaphore <;>
    simp only [Bool.false_eq_true, if_false, if_true]
  · simp [Nat.testBit_or, Nat.testBit_and, hb, hm]
  · apply sendEventSemLoop_mono
    simp [Nat.testBit_or, Nat.testBit_and, hb, hm]
  · simp [Nat.testBit_or, Nat.testBit_and, hb, hm]
  · apply sendEventSemLoop_mono
    simp [Nat.testBit_or, Nat.testBit_and, hb, hm]

theorem sendEventTask_fix (cfg : Config) (t : Task) (b vec : Nat)
    (hb : ∀ j, b.testBit j = true → t.eventMask.testBit j = true →
      t.postedEventVec.testBit j = true)
    (hv : (vec &&& t.eventMask) &&& not16 t.postedEventVec = 0) :
    sendEventTask cfg t b 0 vec = (t, 0, vec) := by
  have e1 : t.postedEventVec ||| (b ||| 0) &&& t.eventMask = t.postedEventVec := by
    apply Nat.eq_of_testBit_eq
    intro j
    simp only [Nat.testBit_or, Nat.testBit_and, Nat.zero_testBit, Bool.or_false]
    cases hp : t.postedEventVec.testBit j
    · cases hbj : b.testBit j
      · rfl
      · cases hmj : t.eventMask.testBit j
        · rfl
        · rw [hb j hbj hmj] at hp
          cases hp
    · rfl
  have e2 : t.postedEventVec ||| b &&& t.eventMask = t.postedEventVec := by
    have := e1
    rwa [Nat.or_zero] at this
  unfold sendEventTask
  cases cfg.useMutex <;> cases cfg.useSemaphore <;>
    simp only [Bool.false_eq_true, if_false, if_true, e1, e2, Nat.zero_and] <;>
    first
      | rfl
      | (rw [sendEventSemLoop_none cfg _ _ _ hv])

theorem walkSuspended_fix {σ : Type} (cfg : Config) (f : σ → Task → Task × σ) (s : σ)
    (rest : List Nat) :
    ∀ (k : Kernel) (flag : Bool), (∀ p ∈ rest, f s (k.taskAry p) = (k.taskAry p, s)) →
      walkSuspended cfg f rest k s flag =
        ({ k with pSuspendedTaskAry := k.pSuspendedTaskAry ++ rest }, s, flag) := by
  induction rest with
  | nil => intro k flag _; simp [walkSuspended]
  | cons p rest ih =>
    intro k flag h
    have hp := h p (List.mem_cons_self _ _)
    have hstay : ¬ ((k.taskAry p).postedEventVec != (f s (k.taskAry p)).1.postedEventVec
        && taskBecomesDue (f s (k.taskAry p)).1) = true := by
      rw [hp]; simp
    rw [walkSuspended_cons_stay cfg f p rest k s flag hstay, hp]
    have hk : k.setTask p (k.taskAry p) = k := by
      unfold Kernel.setTask
      rw [Function.update_eq_self]
    simp only [hk]
    rw [ih { k with pSuspendedTaskAry := k.pSuspendedTaskAry ++ [p] } flag
      (fun q hq => h q (List.mem_cons_of_mem _ hq))]
    simp

theorem sendEventAccumulate_zero (cfg : Config) (fuel idxSem : Nat) (sem : Nat → Nat) :
    sendEventAccumulate cfg fuel 0 idxSem sem = sem := by
  cases fuel <;> simp [sendEventAccumulate]

theorem sendEvent_fix (cfg : Config) (k : Kernel) (ev : Nat)
    (hm : (sendEventInit cfg ev).mutexToReleaseVec = 0)
    (h : ∀ p ∈ k.pSuspendedTaskAry,
      sendEventTask cfg (k.taskAry p) (sendEventInit cfg ev).postedEventVec 0
          (sendEventInit cfg ev).semaphoreToReleaseVec
        = (k.taskAry p, 0, (sendEventInit cfg ev).semaphoreToReleaseVec)) :
    sendEvent cfg k ev =
      ({ k with semaphoreAry :=
                  if cfg.useSemaphore
                  then sendEventAccumulate cfg 8 (sendEventInit cfg ev).semaphoreToReleaseVec 0
                         k.semaphoreAry
                  else k.semaphoreAry }, false) := by
  have hw : sendEventVisitAll cfg k ev =
      (k, (0, (sendEventInit cfg ev).semaphoreToReleaseVec), false) := by
    unfold sendEventVisitAll
    rw [hm, walkSuspended_fix cfg _ _ k.pSuspendedTaskAry _ false (fun p hp => h p hp)]
    simp
  unfold sendEvent
  rw [sendEventDeliver_eq, hw]
  cases cfg.useMutex <;> cases cfg.useSemaphore <;> simp

theorem walkSuspended_sendEvent_sup (cfg : Config) (b : Nat) (rest : List Nat) :
    ∀ (k : Kernel) (s : Nat × Nat) (flag : Bool),
      (∀ q ∈ k.pSuspendedTaskAry, ∀ j, b.testBit j = true →
        (k.taskAry q).eventMask.testBit j = true →
        (k.taskAry q).postedEventVec.testBit j = true) →
      ∀ q ∈ (walkSuspended cfg (sendEventVisit cfg b) rest k s flag).1.pSuspendedTaskAry,
        ∀ j, b.testBit j = true →
        ((walkSuspended cfg (sendEventVisit cfg b) rest k s flag).1.taskAry q).eventMask.testBit j
          = true →
        ((walkSuspended cfg (sendEventVisit cfg b) rest k s flag).1.taskAry
          q).postedEventVec.testBit j = true := by
  induction rest with
  | nil => intro k s flag h; simpa [walkSuspended] using h
  | cons p rest ih =>
    intro k s flag h
    have hnew : ∀ j, b.testBit j = true →
        (sendEventVisit cfg b s (k.taskAry p)).1.eventMask.testBit j = true →
        (sendEventVisit cfg b s (k.taskAry p)).1.postedEventVec.testBit j = true := by
      intro j hb hmask
      unfold sendEventVisit at hmask ⊢
      rw [sendEventTask_eventMask] at hmask
      exact sendEventTask_sup cfg _ _ _ _ j hb hmask
    by_cases hmv : ((k.taskAry p).postedEventVec
          != (sendEventVisit cfg b s (k.taskAry p)).1.postedEventVec
        && taskBecomesDue (sendEventVisit cfg b s (k.taskAry p)).1) = true
    · rw [walkSuspended_cons_move cfg _ p rest k s flag hmv]
      apply ih
      intro q hq j hb hmask
      by_cases hqp : q = p
      · subst hqp
        rw [appendToDue_taskAry] at hmask ⊢
        simp only [setTask_taskAry_same] at hmask ⊢
        exact hnew j hb hmask
      · rw [appendToDue_taskAry_ne cfg _ p q hqp, setTask_taskAry_ne _ _ _ _ hqp] at hmask ⊢
        exact h q hq j hb hmask
    · rw [walkSuspended_cons_stay cfg _ p rest k s flag hmv]
      apply ih
      intro q hq j hb hmask
      by_cases hqp : q = p
      · subst hqp
        simp only [setTask_taskAry_same] at hmask ⊢
        exact hnew j hb hmask
      · have hq1 : q ∈ k.pSuspendedTaskAry := by
          rcases List.mem_append.mp hq with h1 | h1
          · exact h1
          · exact absurd (by simpa using h1) hqp
        have e : ({ k.setTask p (sendEventVisit cfg b s (k.taskAry p)).1 with
            pSuspendedTaskAry := k.pSuspendedTaskAry ++ [p] } : Kernel).taskAry q
            = k.taskAry q := setTask_taskAry_ne _ _ _ _ hqp
        rw [e] at hmask ⊢
        exact h q hq1 j hb hmask

theorem sendEventInit_broadcast (cfg : Config) (b : Nat)
    (hb : ∀ j, b.testBit j = true → cfg.noSemaphoreEvents + cfg.noMutexEvents ≤ j) :
    (sendEventInit cfg b).mutexToReleaseVec = 0 ∧
    (sendEventInit cfg b).semaphoreToReleaseVec = 0 := by
  have e1 : b &&& MASK_EVT_IS_MUTEX cfg = 0 := by
    apply Nat.eq_of_testBit_eq
    intro j
    rw [Nat.testBit_and, testBit_MASK_EVT_IS_MUTEX, Nat.zero_testBit]
    cases hj : b.testBit j
    · rfl
    · have := hb j hj
      have h2 : ¬ j < cfg.noSemaphoreEvents + cfg.noMutexEvents := by omega
      simp [h2]
  have e2 : b &&& MASK_EVT_IS_SEMAPHORE cfg = 0 := by
    apply Nat.eq_of_testBit_eq
    intro j
    rw [Nat.testBit_and, testBit_MASK_EVT_IS_SEMAPHORE, Nat.zero_testBit]
    cases hj : b.testBit j
    · rfl
    · have := hb j hj
      have h2 : ¬ j < cfg.noSemaphoreEvents := by omega
      simp [h2]
  unfold sendEventInit
  simp only [e1, e2, Nat.zero_mod, ite_self, and_self]

theorem sendEvent_fix_of_sup (cfg : Config) (k : Kernel) (b : Nat)
    (hb : ∀ j, b.testBit j = true → cfg.noSemaphoreEvents + cfg.noMutexEvents ≤ j)
    (h : ∀ q ∈ k.pSuspendedTaskAry, ∀ j, (sendEventInit cfg b).postedEventVec.testBit j = true →
        (k.taskAry q).eventMask.testBit j = true →
        (k.taskAry q).postedEventVec.testBit j = true) :
    sendEvent cfg k b = (k, false) := by
  obtain ⟨hm, hv⟩ := sendEventInit_broadcast cfg b hb
  rw [sendEvent_fix cfg k b hm, hv, sendEventAccumulate_zero]
  · simp
  · intro p hp
    rw [hv]
    exact sendEventTask_fix cfg _ _ 0 (h p hp) (by simp)

theorem sendEvent_sup (cfg : Config) (k : Kernel) (b : Nat) :
    ∀ q ∈ (sendEvent cfg k b).1.pSuspendedTaskAry, ∀ j,
      (sendEventInit cfg b).postedEventVec.testBit j = true →
      ((sendEvent cfg k b).1.taskAry q).eventMask.testBit j = true →
      ((sendEvent cfg k b).1.taskAry q).postedEventVec.testBit j = true := by
  obtain ⟨f1, f2, _⟩ := sendEvent_frame cfg k b
  rw [f1, f2]
  exact walkSuspended_sendEvent_sup cfg _ k.pSuspendedTaskAry _ _ false
    (fun q hq => by cases hq)

/-- C22: for every kernel state `k` and every event vector `b` which holds broadcasted events
only, i.e. neither a semaphore nor a mutex event, a second `sendEvent(b)` immediately after the
first one changes nothing and reports no task switch: the whole kernel state (the list of
suspended tasks, the due lists, all task objects with their posted events, the active task, the
semaphore counters and `_mutexVec`) is the state after the first call.  If `k` satisfies the
kernel invariant, the same holds for the software interrupt `rtos_sendEvent`, which hands the
return code over to a task that became active. -/
theorem sendEvent_broadcast_idempotent (cfg : Config) (k : Kernel) (b : Nat)
    (hb : ∀ j, b.testBit j = true → cfg.noSemaphoreEvents + cfg.noMutexEvents ≤ j) :
    sendEvent cfg (sendEvent cfg k b).1 b = ((sendEvent cfg k b).1, false) ∧
    (cfg.WellFormed → ListsInv cfg k → ActiveInv cfg k →
      rtos_sendEvent cfg (rtos_sendEvent cfg k b) b = rtos_sendEvent cfg k b) := by
  refine ⟨sendEvent_fix_of_sup cfg _ b hb (sendEvent_sup cfg k b), fun hcfg hI hA => ?_⟩
  obtain ⟨hI1, hA1⟩ := rtos_sendEvent_inv hcfg hI hA b
  have hns := active_not_suspended hI1 hA1
  have hsup : ∀ q ∈ (rtos_sendEvent cfg k b).pSuspendedTaskAry, ∀ j,
      (sendEventInit cfg b).postedEventVec.testBit j = true →
      ((rtos_sendEvent cfg k b).taskAry q).eventMask.testBit j = true →
      ((rtos_sendEvent cfg k b).taskAry q).postedEventVec.testBit j = true := by
    have h0 := sendEvent_sup cfg k b
    unfold rtos_sendEvent at hns ⊢
    cases hfl : (sendEvent cfg k b).2
    · simpa [hfl] using h0
    · simp only [hfl, if_true] at hns ⊢
      obtain ⟨_, _, _, p4, _, p6, _, p8, _, _⟩ :=
        pushRetCodeOfContextSwitch_frame (sendEvent cfg k b).1
      rw [p4, p6] at hns
      rw [p4]
      intro q hq j hbj hm
      have hqa : q ≠ (sendEvent cfg k b).1.pActiveTask := fun h => hns (h ▸ hq)
      rw [p8 q hqa] at hm ⊢
      exact h0 q hq j hbj hm
  have hfix := sendEvent_fix_of_sup cfg (rtos_sendEvent cfg k b) b hb hsup
  show (if (sendEvent cfg (rtos_sendEvent cfg k b) b).2
        then (pushRetCodeOfContextSwitch (sendEvent cfg (rtos_sendEvent cfg k b) b).1).1
        else (sendEvent cfg (rtos_sendEvent cfg k b) b).1) = _
  rw [hfix]
  simp

/-- C22, instance: in the scenario state after the first timer tic event 3 is a broadcasted
event, task 2 waits for it; posting `0x0008` twice gives the state after posting it once. -/
theorem sendEvent_broadcast_idempotent_witness :
    (∀ j, Nat.testBit 0x0008 j = true →
      cfgScenario.noSemaphoreEvents + cfgScenario.noMutexEvents ≤ j) ∧
    sendEvent cfgScenario (sendEvent cfgScenario kAfterTic 0x0008).1 0x0008
      = ((sendEvent cfgScenario kAfterTic 0x0008).1, false) :=
  ⟨fun j hj => by
      by_contra hlt
      have h3 : j < 3 := by
        have : cfgScenario.noSemaphoreEvents + cfgScenario.noMutexEvents = 3 := by decide
        omega
      interval_cases j <;> revert hj <;> decide,
   (sendEvent_broadcast_idempotent cfgScenario kAfterTic 0x0008
      (fun j hj => by
        by_contra hlt
        have h3 : j < 3 := by
          have : cfgScenario.noSemaphoreEvents + cfgScenario.noMutexEvents = 3 := by decide
          omega
        interval_cases j <;> revert hj <;> decide)).1⟩

/-! ## Producing and consuming a semaphore -/

theorem Kernel.eq_of_fields (a b : Kernel) (h1 : a.time = b.time) (h2 : a.taskAry = b.taskAry)
    (h3 : a.pActiveTask = b.pActiveTask) (h4 : a.pSuspendedTask = b.pSuspendedTask)
    (h5 : a.pDueTaskAryAry = b.pDueTaskAryAry) (h6 : a.pSuspendedTaskAry = b.pSuspendedTaskAry)
    (h7 : a.mutexVec = b.mutexVec) (h8 : a.semaphoreAry = b.semaphoreAry) : a = b := by
  cases a
  cases b
  simp only at h1 h2 h3 h4 h5 h6 h7 h8
  subst h1 h2 h3 h4 h5 h6 h7 h8
  rfl

theorem sendEventInit_semaphore (cfg : Config) (hS : cfg.noSemaphoreEvents ≤ 8) (i : Nat)
    (hi : i < cfg.noSemaphoreEvents) :
    (sendEventInit cfg (2 ^ i)).postedEventVec = 0 ∧
    (sendEventInit cfg (2 ^ i)).mutexToReleaseVec = 0 ∧
    (sendEventInit cfg (2 ^ i)).semaphoreToReleaseVec = 2 ^ i := by
  have hus : cfg.useSemaphore = true := by
    unfold Config.useSemaphore
    simp only [decide_eq_true_eq]
    omega
  have e0 : 2 ^ i &&& not16 (MASK_EVT_IS_MUTEX cfg ||| MASK_EVT_IS_SEMAPHORE cfg) = 0 := by
    apply Nat.eq_of_testBit_eq
    intro j
    rw [Nat.testBit_and, Nat.testBit_two_pow, testBit_not16, Nat.testBit_or,
      testBit_MASK_EVT_IS_SEMAPHORE, Nat.zero_testBit]
    by_cases hj : i = j
    · subst hj; simp [hi]
    · simp [hj]
  have e1 : 2 ^ i &&& MASK_EVT_IS_MUTEX cfg = 0 := by
    apply Nat.eq_of_testBit_eq
    intro j
    rw [Nat.testBit_and, Nat.testBit_two_pow, testBit_MASK_EVT_IS_MUTEX, Nat.zero_testBit]
    by_cases hj : i = j
    · subst hj
      have : ¬ cfg.noSemaphoreEvents ≤ i := by omega
      simp [this]
    · simp [hj]
  have e2 : 2 ^ i &&& MASK_EVT_IS_SEMAPHORE cfg = 2 ^ i := by
    apply Nat.eq_of_testBit_eq
    intro j
    rw [Nat.testBit_and, Nat.testBit_two_pow, testBit_MASK_EVT_IS_SEMAPHORE]
    by_cases hj : i = j
    · subst hj; simp [hi]
    · simp [hj]
  unfold sendEventInit
  simp only [hus, Bool.or_true, if_true, e0, e1, e2, ite_self, true_and]
  exact two_pow_mod_256 i (by omega)

theorem sendEventAccumulate_single (cfg : Config) (i : Nat) (hi : i < 8) (sem : Nat → Nat) :
    sendEventAccumulate cfg 8 (2 ^ i) 0 sem =
      Function.update sem i ((sem i + 1) % 2 ^ cfg.semaphoreBits) := by
  funext j
  have hlt : 2 ^ i < 2 ^ 8 := Nat.pow_lt_pow_right (by decide) hi
  rw [sendEventAccumulate_spec cfg 8 (2 ^ i) 0 sem hlt j, Nat.sub_zero, Nat.testBit_two_pow]
  by_cases hj : i = j
  · subst hj; simp
  · have hj1 : j ≠ i := fun h => hj h.symm
    simp [hj, Function.update_noteq hj1]

theorem sendEvent_semaphore_stored {cfg : Config} (hS : cfg.noSemaphoreEvents ≤ 8) (k : Kernel)
    (i : Nat) (hi : i < cfg.noSemaphoreEvents)
    (hw : ∀ q ∈ k.pSuspendedTaskAry, wantsSemaphore (k.taskAry q) i = false) :
    sendEvent cfg k (2 ^ i) =
      ({ k with semaphoreAry :=
                  Function.update k.semaphoreAry i
                    ((k.semaphoreAry i + 1) % 2 ^ cfg.semaphoreBits) }, false) := by
  obtain ⟨e0, e1, e2⟩ := sendEventInit_semaphore cfg hS i hi
  have hus : cfg.useSemaphore = true := by
    unfold Config.useSemaphore
    simp only [decide_eq_true_eq]
    omega
  rw [sendEvent_fix cfg k (2 ^ i) e1, e2, hus, if_pos rfl,
    sendEventAccumulate_single cfg i (by omega)]
  intro p hp
  rw [e0, e2]
  apply sendEventTask_fix
  · intro j hj
    rw [Nat.zero_testBit] at hj
    cases hj
  · have hwp := hw p hp
    unfold wantsSemaphore at hwp
    apply Nat.eq_of_testBit_eq
    intro j
    rw [Nat.testBit_and, Nat.testBit_and, Nat.testBit_two_pow, testBit_not16, Nat.zero_testBit]
    by_cases hj : i = j
    · subst hj
      cases hm : (k.taskAry p).eventMask.testBit i
      · simp
      · rw [hm] at hwp
        simp only [Bool.true_and, Bool.not_eq_false'] at hwp
        simp [hwp]
    · simp [hj]

/-- C21: in a reachable state `k` let `i` be a semaphore event whose counter is below the
maximum of its type and which no suspended task is waiting for (no suspended task has the event
in its mask without having got it).  Then `sendEvent(1 << i)` resumes no task and increments
the counter, and the following `rtos_waitForEvent(1 << i, all=false, 0)` of the active task
does not suspend the caller and returns exactly `1 << i`.  After the two calls the kernel
state is the state `k` from before: the counter of the semaphore, the list of suspended
tasks, the due lists and `_mutexVec` are unchanged (and so is everything else). -/
theorem semaphore_round_trip {cfg : Config} (hcfg : cfg.WellFormed)
    {tasks : List TaskInit} (ht : TasksOk cfg tasks) {sem : Nat → Nat} {k : Kernel}
    (hr : Reachable cfg tasks sem k) (i : Nat) (hi : i < cfg.noSemaphoreEvents)
    (hc : k.semaphoreAry i + 1 < 2 ^ cfg.semaphoreBits)
    (hw : ∀ q ∈ k.pSuspendedTaskAry, wantsSemaphore (k.taskAry q) i = false) :
    (sendEvent cfg k (2 ^ i)).2 = false ∧
    (rtos_sendEvent cfg k (2 ^ i)).semaphoreAry i = k.semaphoreAry i + 1 ∧
    (waitForEvent cfg (rtos_sendEvent cfg k (2 ^ i)) (2 ^ i) false 0).2 = false ∧
    (rtos_waitForEvent cfg (rtos_sendEvent cfg k (2 ^ i)) (2 ^ i) false 0).2 = some (2 ^ i) ∧
    (rtos_waitForEvent cfg (rtos_sendEvent cfg k (2 ^ i)) (2 ^ i) false 0).1.semaphoreAry i
      = k.semaphoreAry i ∧
    (rtos_waitForEvent cfg (rtos_sendEvent cfg k (2 ^ i)) (2 ^ i) false 0).1.pSuspendedTaskAry
      = k.pSuspendedTaskAry ∧
    (rtos_waitForEvent cfg (rtos_sendEvent cfg k (2 ^ i)) (2 ^ i) false 0).1.pDueTaskAryAry
      = k.pDueTaskAryAry ∧
    (rtos_waitForEvent cfg (rtos_sendEvent cfg k (2 ^ i)) (2 ^ i) false 0).1.mutexVec
      = k.mutexVec ∧
    (rtos_waitForEvent cfg (rtos_sendEvent cfg k (2 ^ i)) (2 ^ i) false 0).1 = k := by
  obtain ⟨hI, hA⟩ := reachable_inv hcfg ht hr
  have hM := reachable_mutexVec hcfg ht hr
  have hS := hcfg.2.2.2.1
  have hSM := hcfg.2.2.2.2.1
  have hus : (cfg.useSemaphore || cfg.useMutex) = true := by
    have : cfg.useSemaphore = true := by
      unfold Config.useSemaphore
      simp only [decide_eq_true_eq]
      omega
    rw [this]; rfl
  have hsend := sendEvent_semaphore_stored hS k i hi hw
  rw [Nat.mod_eq_of_lt hc] at hsend
  have hk1 : rtos_sendEvent cfg k (2 ^ i) =
      { k with semaphoreAry := Function.update k.semaphoreAry i (k.semaphoreAry i + 1) } := by
    unfold rtos_sendEvent
    rw [hsend]
    simp
  obtain ⟨a1, a2, a3, a4, a5, a6, a7, a8, a9, a10, a11⟩ :=
    acquireFreeSyncObjs_spec cfg hS (rtos_sendEvent cfg k (2 ^ i)) (2 ^ i) false
  have hposted : ((acquireFreeSyncObjs cfg (rtos_sendEvent cfg k (2 ^ i)) (2 ^ i) false).1.taskAry
      (rtos_sendEvent cfg k (2 ^ i)).pActiveTask).postedEventVec = 2 ^ i := by
    apply Nat.eq_of_testBit_eq
    intro j
    rw [a8 j, hk1]
    simp only
    have h1 : (if cfg.useMutex = true then 2 ^ i &&& k.mutexVec
        else (k.taskAry k.pActiveTask).postedEventVec).testBit j = false := by
      split
      · rw [Nat.testBit_and, Nat.testBit_two_pow]
        by_cases hj : i = j
        · subst hj
          cases hmv : k.mutexVec.testBit i
          · simp
          · have := hM i hmv
            omega
        · simp [hj]
      · rw [hA.active_posted, Nat.zero_testBit]
    rw [h1, Nat.testBit_two_pow]
    by_cases hj : i = j
    · subst hj; simp [hi]
    · have hj1 : j ≠ i := fun h => hj h.symm
      simp [hj]
  have hacq : (acquireFreeSyncObjs cfg (rtos_sendEvent cfg k (2 ^ i)) (2 ^ i) false).2 = true := by
    rw [a11, hposted]
    have : (2 : Nat) ^ i ≠ 0 := by positivity
    simp [this]
  have hwfe := waitForEvent_of_acquired cfg (rtos_sendEvent cfg k (2 ^ i)) (2 ^ i) false 0 hus hacq
  have hact : (rtos_sendEvent cfg k (2 ^ i)).pActiveTask = k.pActiveTask := by rw [hk1]
  have hpos : 0 < (2 : Nat) ^ i := by positivity
  have hret : rtos_waitForEvent cfg (rtos_sendEvent cfg k (2 ^ i)) (2 ^ i) false 0 =
      ((acquireFreeSyncObjs cfg (rtos_sendEvent cfg k (2 ^ i)) (2 ^ i) false).1.setTask
          k.pActiveTask
          { (acquireFreeSyncObjs cfg (rtos_sendEvent cfg k (2 ^ i)) (2 ^ i) false).1.taskAry
              k.pActiveTask with postedEventVec := 0 },
        some (2 ^ i)) := by
    unfold rtos_waitForEvent pushRetCodeOfContextSwitch
    rw [hwfe]
    simp only [a1, hact]
    rw [hact] at hposted
    rw [hposted, if_pos hpos]
  have hmv : (if cfg.useMutex = true then k.mutexVec &&& not16 (2 ^ i) else k.mutexVec)
      = k.mutexVec := by
    split
    · apply Nat.eq_of_testBit_eq
      intro j
      rw [Nat.testBit_and, testBit_not16, Nat.testBit_two_pow]
      cases hmvj : k.mutexVec.testBit j
      · rfl
      · have := hM j hmvj
        have h16 : j < 16 := by omega
        have hij : ¬ i = j := by omega
        simp [h16, hij]
    · rfl
  have hfinal : (rtos_waitForEvent cfg (rtos_sendEvent cfg k (2 ^ i)) (2 ^ i) false 0).1 = k := by
    rw [hret]
    apply Kernel.eq_of_fields
    · show (acquireFreeSyncObjs cfg (rtos_sendEvent cfg k (2 ^ i)) (2 ^ i) false).1.time = _
      rw [a5, hk1]
    · show Function.update
        (acquireFreeSyncObjs cfg (rtos_sendEvent cfg k (2 ^ i)) (2 ^ i) false).1.taskAry _ _ = _
      funext q
      by_cases hq : q = k.pActiveTask
      · subst hq
        rw [Function.update_same]
        rw [hact] at a7
        rw [a7, hk1]
        have := hA.active_posted
        cases hh : k.taskAry k.pActiveTask
        rw [hh] at this
        simp only at this
        simp only [this]
      · rw [Function.update_noteq hq, a6 q (by rw [hact]; exact hq), hk1]
    · show (acquireFreeSyncObjs cfg (rtos_sendEvent cfg k (2 ^ i)) (2 ^ i) false).1.pActiveTask = _
      rw [a1, hk1]
    · show (acquireFreeSyncObjs cfg (rtos_sendEvent cfg k (2 ^ i)) (2 ^ i) false).1.pSuspendedTask
        = _
      rw [a2, hk1]
    · show (acquireFreeSyncObjs cfg (rtos_sendEvent cfg k (2 ^ i)) (2 ^ i) false).1.pDueTaskAryAry
        = _
      rw [a4, hk1]
    · show (acquireFreeSyncObjs cfg (rtos_sendEvent cfg k (2 ^ i)) (2 ^ i)
        false).1.pSuspendedTaskAry = _
      rw [a3, hk1]
    · show (acquireFreeSyncObjs cfg (rtos_sendEvent cfg k (2 ^ i)) (2 ^ i) false).1.mutexVec = _
      rw [a9, hk1]
      exact hmv
    · show (acquireFreeSyncObjs cfg (rtos_sendEvent cfg k (2 ^ i)) (2 ^ i) false).1.semaphoreAry
        = _
      funext j
      rw [a10 j, hk1]
      simp only
      by_cases hj : j = i
      · subst hj
        rw [Function.update_same]
        simp [hi]
      · rw [Function.update_noteq hj]
        have : ¬ i = j := fun h => hj h.symm
        simp [Nat.testBit_two_pow, this]
  refine ⟨by rw [hsend], by rw [hk1]; simp, by rw [hwfe], by rw [hret], ?_, ?_, ?_, ?_, hfinal⟩
  all_goals rw [hfinal]

/-- C21, instance: in the scenario state after the first timer tic no suspended task waits for
semaphore 0, whose counter is 0; task 0 posts the semaphore and acquires it again. -/
theorem semaphore_round_trip_witness :
    cfgScenario.WellFormed ∧ TasksOk cfgScenario tasksScenario ∧
    Reachable cfgScenario tasksScenario (fun _ => 0) kAfterTic ∧
    0 < cfgScenario.noSemaphoreEvents ∧
    kAfterTic.semaphoreAry 0 + 1 < 2 ^ cfgScenario.semaphoreBits ∧
    (∀ q ∈ kAfterTic.pSuspendedTaskAry, wantsSemaphore (kAfterTic.taskAry q) 0 = false) ∧
    (rtos_waitForEvent cfgScenario (rtos_sendEvent cfgScenario kAfterTic (2 ^ 0)) (2 ^ 0)
      false 0).2 = some (2 ^ 0) ∧
    (rtos_waitForEvent cfgScenario (rtos_sendEvent cfgScenario kAfterTic (2 ^ 0)) (2 ^ 0)
      false 0).1 = kAfterTic :=
  ⟨by decide, tasksScenario_ok, kAfterTic_reachable, by decide, by decide, by decide,
   (semaphore_round_trip (by decide) tasksScenario_ok kAfterTic_reachable 0 (by decide)
      (by decide) (by decide)).2.2.2.1,
   (semaphore_round_trip (by decide) tasksScenario_ok kAfterTic_reachable 0 (by decide)
      (by decide) (by decide)).2.2.2.2.2.2.2.2⟩

/-! ## The task switch at the end of `sendEvent` -/

theorem lookForActiveTaskLoop_snd (k : Kernel) (n : Nat) :
    (lookForActiveTaskLoop k n).2 = ((lookForActiveTaskLoop k n).1.pActiveTask != k.pActiveTask) ∧
    ((lookForActiveTaskLoop k n).2 = true →
      (lookForActiveTaskLoop k n).1.pSuspendedTask = k.pActiveTask) := by
  induction n with
  | zero => simp [lookForActiveTaskLoop]
  | succ n ih =>
    unfold lookForActiveTaskLoop
    cases h : k.pDueTaskAryAry n with
    | nil => simpa using ih
    | cons pT rest => simp

theorem sendEvent_snd (cfg : Config) (k : Kernel) (ev : Nat) :
    (sendEvent cfg k ev).2 = ((sendEvent cfg k ev).1.pActiveTask != k.pActiveTask) ∧
    ((sendEvent cfg k ev).2 = true → (sendEvent cfg k ev).1.pSuspendedTask = k.pActiveTask) := by
  have hact : (sendEventDeliver cfg k ev).1.pActiveTask = k.pActiveTask := by
    rw [sendEventDeliver_eq]
    exact (walkSuspended_frame cfg _ _ _ _ _).1
  unfold sendEvent
  cases hfl : (sendEventDeliver cfg k ev).2
  · simp [hfl, hact]
  · simp only [hfl, if_true]
    obtain ⟨h1, h2⟩ := lookForActiveTaskLoop_snd (sendEventDeliver cfg k ev).1 cfg.noPrioClasses
    unfold lookForActiveTask
    rw [hact] at h1 h2
    exact ⟨h1, h2⟩

theorem sendEvent_unchanged_stays {cfg : Config} {k : Kernel}
    (hnd : k.pSuspendedTaskAry.Nodup) (ev q : Nat) (hq : q ∈ k.pSuspendedTaskAry)
    (hp : ((sendEvent cfg k ev).1.taskAry q).postedEventVec = (k.taskAry q).postedEventVec) :
    q ∈ (sendEvent cfg k ev).1.pSuspendedTaskAry := by
  obtain ⟨f1, f2, _⟩ := sendEvent_frame cfg k ev
  obtain ⟨pre, post, hsplit⟩ := List.append_of_mem hq
  obtain ⟨_, hres⟩ := walkSuspended_result cfg
    (sendEventVisit cfg (sendEventInit cfg ev).postedEventVec) k.pSuspendedTaskAry
    { k with pSuspendedTaskAry := [] }
    ((sendEventInit cfg ev).mutexToReleaseVec, (sendEventInit cfg ev).semaphoreToReleaseVec)
    false hnd
  obtain ⟨r1, r2⟩ := hres pre q post hsplit
  rw [f1] at hp
  rw [f2]
  apply r2.mpr
  right
  unfold visitMoves
  have e : ((sendEventVisitAll cfg k ev).1.taskAry q).postedEventVec
      = (sendEventVisit cfg (sendEventInit cfg ev).postedEventVec
          (visitLocals (sendEventVisit cfg (sendEventInit cfg ev).postedEventVec)
            k.taskAry pre
            ((sendEventInit cfg ev).mutexToReleaseVec,
              (sendEventInit cfg ev).semaphoreToReleaseVec))
          (k.taskAry q)).1.postedEventVec := by
    unfold sendEventVisitAll
    rw [r1]
  rw [← e, hp]
  simp

theorem sendEvent_not_addressed {cfg : Config} (hcfg : cfg.WellFormed) {k : Kernel}
    (hnd : k.pSuspendedTaskAry.Nodup) (ev q : Nat) (hq : q ∈ k.pSuspendedTaskAry)
    (hm : ∀ j, ev.testBit j = true → (k.taskAry q).eventMask.testBit j = false) :
    ((sendEvent cfg k ev).1.taskAry q).postedEventVec = (k.taskAry q).postedEventVec ∧
    q ∈ (sendEvent cfg k ev).1.pSuspendedTaskAry := by
  obtain ⟨pre, post, hsplit⟩ := List.append_of_mem hq
  obtain ⟨b1, _, _⟩ := sendEvent_bits hcfg hnd ev
  have hp : ((sendEvent cfg k ev).1.taskAry q).postedEventVec = (k.taskAry q).postedEventVec := by
    apply Nat.eq_of_testBit_eq
    intro j
    rw [b1 pre q post hsplit j]
    obtain ⟨i1, i2, _⟩ := sendEventInit_bits cfg hcfg.2.2.2.1 ev j
    cases hev : ev.testBit j
    · have h0 : (sendEventInit cfg ev).postedEventVec.testBit j = false := by
        cases hh : (sendEventInit cfg ev).postedEventVec.testBit j
        · rfl
        · rw [sendEventInit_posted_sub cfg ev j hh] at hev
          cases hev
      rw [i1, i2, hev, h0]
      simp
    · rw [hm j hev]
      simp
  exact ⟨hp, sendEvent_unchanged_stays hnd ev q hq hp⟩

theorem sendEvent_posted_from {cfg : Config} (hcfg : cfg.WellFormed) {k : Kernel}
    (hnd : k.pSuspendedTaskAry.Nodup) (ev q : Nat) (hq : q ∈ k.pSuspendedTaskAry) (j : Nat)
    (hp : ((sendEvent cfg k ev).1.taskAry q).postedEventVec.testBit j = true) :
    (k.taskAry q).postedEventVec.testBit j = true ∨
    (ev.testBit j = true ∧ (k.taskAry q).eventMask.testBit j = true) := by
  obtain ⟨pre, post, hsplit⟩ := List.append_of_mem hq
  obtain ⟨b1, _, _⟩ := sendEvent_bits hcfg hnd ev
  rw [b1 pre q post hsplit j] at hp
  obtain ⟨i1, i2, _⟩ := sendEventInit_bits cfg hcfg.2.2.2.1 ev j
  cases hold : (k.taskAry q).postedEventVec.testBit j
  · right
    rw [hold, Bool.false_or, Bool.and_eq_true] at hp
    refine ⟨?_, hp.2⟩
    cases hev : ev.testBit j
    · exfalso
      have h0 : (sendEventInit cfg ev).postedEventVec.testBit j = false := by
        cases hh : (sendEventInit cfg ev).postedEventVec.testBit j
        · rfl
        · rw [sendEventInit_posted_sub cfg ev j hh] at hev
          cases hev
      rw [i1, i2, hev, h0] at hp
      simp at hp
    · rfl
  · left; rfl

theorem sendEvent_switch {cfg : Config} (hcfg : cfg.WellFormed) {k : Kernel}
    (hI : ListsInv cfg k) (hA : ActiveInv cfg k) (hne : k.pActiveTask ≠ IDLE_TASK_ID cfg)
    (ev : Nat) :
    ((∃ t ∈ k.pSuspendedTaskAry, t ∉ (sendEvent cfg k ev).1.pSuspendedTaskAry ∧
        (k.taskAry k.pActiveTask).prioClass < (k.taskAry t).prioClass) →
      (sendEvent cfg k ev).2 = true ∧
      (sendEvent cfg k ev).1.pActiveTask ∈ k.pSuspendedTaskAry ∧
      (sendEvent cfg k ev).1.pActiveTask ∉ (sendEvent cfg k ev).1.pSuspendedTaskAry ∧
      (k.taskAry k.pActiveTask).prioClass
        < (k.taskAry (sendEvent cfg k ev).1.pActiveTask).prioClass ∧
      (sendEvent cfg k ev).1.pSuspendedTask = k.pActiveTask ∧
      ((sendEvent cfg k ev).1.taskAry (sendEvent cfg k ev).1.pActiveTask).postedEventVec ≠ 0 ∧
      (pushRetCodeOfContextSwitch (sendEvent cfg k ev).1).2 =
        some ((sendEvent cfg k ev).1.taskAry (sendEvent cfg k ev).1.pActiveTask).postedEventVec ∧
      (∀ j, ((sendEvent cfg k ev).1.taskAry
            (sendEvent cfg k ev).1.pActiveTask).postedEventVec.testBit j = true →
        (k.taskAry (sendEvent cfg k ev).1.pActiveTask).postedEventVec.testBit j = true ∨
        (ev.testBit j = true ∧
          (k.taskAry (sendEvent cfg k ev).1.pActiveTask).eventMask.testBit j = true))) ∧
    ((∀ t ∈ k.pSuspendedTaskAry, t ∉ (sendEvent cfg k ev).1.pSuspendedTaskAry →
        (k.taskAry t).prioClass ≤ (k.taskAry k.pActiveTask).prioClass) →
      (sendEvent cfg k ev).2 = false ∧ (sendEvent cfg k ev).1.pActiveTask = k.pActiveTask) ∧
    k.pActiveTask ∈
      (sendEvent cfg k ev).1.pDueTaskAryAry (k.taskAry k.pActiveTask).prioClass ∧
    k.pActiveTask ∉ (sendEvent cfg k ev).1.pSuspendedTaskAry ∧
    ActiveIsHead cfg (sendEvent cfg k ev).1 := by
  obtain ⟨hI1, heq1, _⟩ := sendEvent_inv hcfg hI hA ev
  obtain ⟨hsub, hprio⟩ := sendEvent_order hcfg k ev
  obtain ⟨s1, s2⟩ := sendEvent_snd cfg k ev
  have hnd := hI.nodup
  have hdue := sendEvent_due hcfg hnd ev
  have hBns := active_not_suspended hI hA
  obtain ⟨hBlt, hBp, ⟨restB, hBdue⟩, hBtop⟩ : k.pActiveTask < cfg.noTasks ∧
      (k.taskAry k.pActiveTask).prioClass < cfg.noPrioClasses ∧
      (∃ rest, k.pDueTaskAryAry (k.taskAry k.pActiveTask).prioClass = k.pActiveTask :: rest) ∧
      ∀ j, (k.taskAry k.pActiveTask).prioClass < j → k.pDueTaskAryAry j = [] := by
    rcases active_cases hI hA with h | h
    · exact absurd h.1 hne
    · exact h
  have hBin : k.pActiveTask ∈
      (sendEvent cfg k ev).1.pDueTaskAryAry (k.taskAry k.pActiveTask).prioClass := by
    rw [hdue, hBdue]
    simp
  have hBns1 : k.pActiveTask ∉ (sendEvent cfg k ev).1.pSuspendedTaskAry :=
    fun h => hBns (hsub.subset h)
  -- the new active task is the head of its due list
  obtain ⟨ha1, ha2, ⟨restA, haDue⟩, haTop⟩ :
      (sendEvent cfg k ev).1.pActiveTask < cfg.noTasks ∧
      ((sendEvent cfg k ev).1.taskAry (sendEvent cfg k ev).1.pActiveTask).prioClass
        < cfg.noPrioClasses ∧
      (∃ rest, (sendEvent cfg k ev).1.pDueTaskAryAry
          ((sendEvent cfg k ev).1.taskAry (sendEvent cfg k ev).1.pActiveTask).prioClass
        = (sendEvent cfg k ev).1.pActiveTask :: rest) ∧
      ∀ j, ((sendEvent cfg k ev).1.taskAry (sendEvent cfg k ev).1.pActiveTask).prioClass < j →
        (sendEvent cfg k ev).1.pDueTaskAryAry j = [] := by
    rcases active_cases_of_eq hI1 heq1 with h | h
    · exfalso
      have := h.2 (k.taskAry k.pActiveTask).prioClass
      rw [this] at hBin
      cases hBin
    · exact h
  rw [hprio] at haDue haTop
  have hle : (k.taskAry k.pActiveTask).prioClass
      ≤ (k.taskAry (sendEvent cfg k ev).1.pActiveTask).prioClass := by
    by_contra hlt
    have := haTop (k.taskAry k.pActiveTask).prioClass (by omega)
    rw [this] at hBin
    cases hBin
  have hhigher : (k.taskAry k.pActiveTask).prioClass
        < (k.taskAry (sendEvent cfg k ev).1.pActiveTask).prioClass →
      (sendEvent cfg k ev).1.pActiveTask ∈ k.pSuspendedTaskAry ∧
      (sendEvent cfg k ev).1.pActiveTask ∉ (sendEvent cfg k ev).1.pSuspendedTaskAry := by
    intro hlt
    have hmem : (sendEvent cfg k ev).1.pActiveTask ∈ (sendEvent cfg k ev).1.pDueTaskAryAry
        (k.taskAry (sendEvent cfg k ev).1.pActiveTask).prioClass := by
      rw [haDue]; simp
    rw [hdue, hBtop _ hlt, List.nil_append] at hmem
    obtain ⟨m1, m2⟩ := List.mem_filter.mp hmem
    rw [Bool.and_eq_true, decide_eq_true_eq] at m2
    exact ⟨m1, m2.1⟩
  refine ⟨fun ⟨t, ht1, ht2, ht3⟩ => ?_, fun hall => ?_, hBin, hBns1,
    activeIsHead_of_inv hI1 heq1⟩
  · have htdue := moved_is_due hI1 t (hI.susp_lt t ht1) ht2
    rw [hprio] at htdue
    have hta : (k.taskAry t).prioClass
        ≤ (k.taskAry (sendEvent cfg k ev).1.pActiveTask).prioClass := by
      by_contra hlt
      have := haTop (k.taskAry t).prioClass (by omega)
      rw [this] at htdue
      cases htdue
    have hlt : (k.taskAry k.pActiveTask).prioClass
        < (k.taskAry (sendEvent cfg k ev).1.pActiveTask).prioClass := by omega
    obtain ⟨m1, m2⟩ := hhigher hlt
    have hneq : (sendEvent cfg k ev).1.pActiveTask ≠ k.pActiveTask := by
      intro h
      rw [h] at hlt
      omega
    have h2 : (sendEvent cfg k ev).2 = true := by
      rw [s1]; simpa using hneq
    have hpost := (sendEvent_task hcfg hnd ev _ m1).2.2.2 m2
    refine ⟨h2, m1, m2, hlt, s2 h2, hpost, ?_,
      fun j hj => sendEvent_posted_from hcfg hnd ev _ m1 j hj⟩
    rw [pushRetCodeOfContextSwitch_snd, if_pos (Nat.pos_of_ne_zero hpost)]
  · have heqp : (k.taskAry (sendEvent cfg k ev).1.pActiveTask).prioClass
        = (k.taskAry k.pActiveTask).prioClass := by
      by_contra hne1
      have hlt : (k.taskAry k.pActiveTask).prioClass
          < (k.taskAry (sendEvent cfg k ev).1.pActiveTask).prioClass := by omega
      obtain ⟨m1, m2⟩ := hhigher hlt
      have := hall _ m1 m2
      omega
    have hsame : (sendEvent cfg k ev).1.pActiveTask = k.pActiveTask := by
      rw [heqp, hdue, hBdue, List.cons_append] at haDue
      exact (List.cons.inj haDue).1.symm
    refine ⟨?_, hsame⟩
    rw [s1, hsame]
    simp

/-- C27: the active task `B` (not the idle task) of a reachable state posts the events `ev`.
If a suspended task of a priority class higher than the class of `B` is resumed, i.e. leaves
the list of suspended tasks, then `sendEvent` returns true; the new active task is the head of
the due list of the highest non-empty priority class, it is one of the resumed tasks and of
higher class than `B`; `B` is recorded as the left task; the posted events of the new active
task are not null and they are the return code handed over to it, each of them is a posted
event of its event mask or an event it had got before; `B` stays in the due list of its class
and is not in the list of suspended tasks.  If no resumed task has a higher priority
class than `B`, `sendEvent` returns false and the active task is still `B`. -/
theorem sendEvent_preempts_iff_higher {cfg : Config} (hcfg : cfg.WellFormed)
    {tasks : List TaskInit} (ht : TasksOk cfg tasks) {sem : Nat → Nat} {k : Kernel}
    (hr : Reachable cfg tasks sem k) (hne : k.pActiveTask ≠ IDLE_TASK_ID cfg) (ev : Nat) :
    ((∃ t ∈ k.pSuspendedTaskAry, t ∉ (sendEvent cfg k ev).1.pSuspendedTaskAry ∧
        (k.taskAry k.pActiveTask).prioClass < (k.taskAry t).prioClass) →
      (sendEvent cfg k ev).2 = true ∧
      (sendEvent cfg k ev).1.pActiveTask ∈ k.pSuspendedTaskAry ∧
      (sendEvent cfg k ev).1.pActiveTask ∉ (sendEvent cfg k ev).1.pSuspendedTaskAry ∧
      (k.taskAry k.pActiveTask).prioClass
        < (k.taskAry (sendEvent cfg k ev).1.pActiveTask).prioClass ∧
      (sendEvent cfg k ev).1.pSuspendedTask = k.pActiveTask ∧
      ((sendEvent cfg k ev).1.taskAry (sendEvent cfg k ev).1.pActiveTask).postedEventVec ≠ 0 ∧
      (pushRetCodeOfContextSwitch (sendEvent cfg k ev).1).2 =
        some ((sendEvent cfg k ev).1.taskAry (sendEvent cfg k ev).1.pActiveTask).postedEventVec ∧
      (∀ j, ((sendEvent cfg k ev).1.taskAry
            (sendEvent cfg k ev).1.pActiveTask).postedEventVec.testBit j = true →
        (k.taskAry (sendEvent cfg k ev).1.pActiveTask).postedEventVec.testBit j = true ∨
        (ev.testBit j = true ∧
          (k.taskAry (sendEvent cfg k ev).1.pActiveTask).eventMask.testBit j = true))) ∧
    ((∀ t ∈ k.pSuspendedTaskAry, t ∉ (sendEvent cfg k ev).1.pSuspendedTaskAry →
        (k.taskAry t).prioClass ≤ (k.taskAry k.pActiveTask).prioClass) →
      (sendEvent cfg k ev).2 = false ∧ (sendEvent cfg k ev).1.pActiveTask = k.pActiveTask) ∧
    k.pActiveTask ∈
      (sendEvent cfg k ev).1.pDueTaskAryAry (k.taskAry k.pActiveTask).prioClass ∧
    k.pActiveTask ∉ (sendEvent cfg k ev).1.pSuspendedTaskAry ∧
    ActiveIsHead cfg (sendEvent cfg k ev).1 :=
  sendEvent_switch hcfg (reachable_inv hcfg ht hr).1 (reachable_inv hcfg ht hr).2 hne ev

theorem kPreempt_reachable : Reachable cfgScenario tasksScenario (fun _ => 0) kPreempt :=
  timerTics_reachable
    (Reachable.waitForEvent 0x0008 false 0 kAfterTic_reachable (by decide)) 3

/-- C27, instance: in the state `kPreempt` task 1 of class 0 is active and task 0 of class 1 is
suspended waiting for event 3; `sendEvent(0x0008)` resumes it and returns true; in `kAfterTic`
task 0 of class 1 is active and `sendEvent(0x0008)`, which resumes task 2 of class 0, returns
false. -/
theorem sendEvent_preempts_iff_higher_witness :
    cfgScenario.WellFormed ∧ TasksOk cfgScenario tasksScenario ∧
    Reachable cfgScenario tasksScenario (fun _ => 0) kPreempt ∧
    kPreempt.pActiveTask ≠ IDLE_TASK_ID cfgScenario ∧
    (∃ t ∈ kPreempt.pSuspendedTaskAry,
      t ∉ (sendEvent cfgScenario kPreempt 0x0008).1.pSuspendedTaskAry ∧
      (kPreempt.taskAry kPreempt.pActiveTask).prioClass < (kPreempt.taskAry t).prioClass) ∧
    (sendEvent cfgScenario kPreempt 0x0008).2 = true ∧
    (∀ t ∈ kAfterTic.pSuspendedTaskAry,
      t ∉ (sendEvent cfgScenario kAfterTic 0x0008).1.pSuspendedTaskAry →
      (kAfterTic.taskAry t).prioClass ≤ (kAfterTic.taskAry kAfterTic.pActiveTask).prioClass) ∧
    (sendEvent cfgScenario kAfterTic 0x0008).2 = false :=
  ⟨by decide, tasksScenario_ok, kPreempt_reachable, by decide!,
   ⟨0, by decide!, by decide!, by decide!⟩,
   ((sendEvent_preempts_iff_higher (by decide) tasksScenario_ok kPreempt_reachable (by decide!)
      0x0008).1 ⟨0, by decide!, by decide!, by decide!⟩).1,
   by decide,
   ((sendEvent_preempts_iff_higher (by decide) tasksScenario_ok kAfterTic_reachable (by decide)
      0x0008).2.1 (by decide)).1⟩

theorem filter_eq_singleton (P : Nat → Bool) (l : List Nat) (a : Nat) (hnd : l.Nodup)
    (ha : a ∈ l) (hP : P a = true) (ho : ∀ q ∈ l, q ≠ a → P q = false) :
    l.filter P = [a] := by
  induction l with
  | nil => cases ha
  | cons x xs ih =>
    obtain ⟨hx, hnd1⟩ := List.nodup_cons.mp hnd
    by_cases hxa : x = a
    · subst hxa
      rw [List.filter_cons, if_pos hP]
      congr 1
      rw [List.filter_eq_nil_iff]
      intro q hq
      have hqx : q ≠ x := fun h => hx (h ▸ hq)
      rw [ho q (List.mem_cons_of_mem _ hq) hqx]
      simp
    · have hax : a ∈ xs := by
        rcases List.mem_cons.mp ha with h | h
        · exact absurd h.symm hxa
        · exact h
      rw [List.filter_cons, ho x (List.mem_cons_self _ _) hxa]
      simp only [Bool.false_eq_true, if_false]
      exact ih hnd1 hax (fun q hq hne => ho q (List.mem_cons_of_mem _ hq) hne)

/-- C26, counterexample: with `A` of priority class 0 and `B` of priority class 1
the posted event makes `A` ready, but `B`, which has the higher class, stays the active task;
`sendEvent` returns false and no return code is handed over. -/
theorem scenarioS1_counterexample :
    ¬ ScenarioS1Expectation cfgS1 (runS1 tasksS1) 0 1 ∧
    0 ∈ (sendEvent cfgS1 (runS1 tasksS1) 0x0008).1.pDueTaskAryAry 0 ∧
    (sendEvent cfgS1 (runS1 tasksS1) 0x0008).2 = false ∧
    (sendEvent cfgS1 (runS1 tasksS1) 0x0008).1.pActiveTask = 1 := by
  decide!

/-- C26, amended: scenario S1 for every reachable state.  The active task `B` (not the idle
task) posts `0x0008`, event 3 being a broadcasted event; the suspended task `A` waits for any
event of its mask, which holds event 3, and has got no event; no other suspended task waits for
event 3.  Then `A` gets the posted events `0x0008`, leaves the list of suspended tasks and is
appended to the due list of its priority class.  If the priority class of `A` is higher than
the class of `B` (a higher value is a higher priority), `sendEvent` returns true, `A` is the
active task, `B` is the left task and stays in its due list, and `0x0008` is handed over to `A`
as return code of its suspend command.  If the class of `A` is not higher, as in the scenario
with `A` of class 0 and `B` of class 1, `sendEvent` returns false and `B` stays active. -/
theorem sendEvent_scenario_S1 {cfg : Config} (hcfg : cfg.WellFormed)
    {tasks : List TaskInit} (ht : TasksOk cfg tasks) {sem : Nat → Nat} {k : Kernel}
    (hr : Reachable cfg tasks sem k) (hne : k.pActiveTask ≠ IDLE_TASK_ID cfg)
    (hb : cfg.noSemaphoreEvents + cfg.noMutexEvents ≤ 3)
    (A : Nat) (hin : A ∈ k.pSuspendedTaskAry)
    (hany : (k.taskAry A).waitForAnyEvent = true)
    (hp0 : (k.taskAry A).postedEventVec = 0)
    (hmask : (k.taskAry A).eventMask.testBit 3 = true)
    (honly : ∀ q ∈ k.pSuspendedTaskAry, q ≠ A → (k.taskAry q).eventMask.testBit 3 = false) :
    ((sendEvent cfg k 0x0008).1.taskAry A).postedEventVec = 0x0008 ∧
    A ∉ (sendEvent cfg k 0x0008).1.pSuspendedTaskAry ∧
    (sendEvent cfg k 0x0008).1.pDueTaskAryAry (k.taskAry A).prioClass
      = k.pDueTaskAryAry (k.taskAry A).prioClass ++ [A] ∧
    ((k.taskAry k.pActiveTask).prioClass < (k.taskAry A).prioClass →
      (sendEvent cfg k 0x0008).2 = true ∧
      (sendEvent cfg k 0x0008).1.pActiveTask = A ∧
      (sendEvent cfg k 0x0008).1.pSuspendedTask = k.pActiveTask ∧
      k.pActiveTask ∈
        (sendEvent cfg k 0x0008).1.pDueTaskAryAry (k.taskAry k.pActiveTask).prioClass ∧
      (pushRetCodeOfContextSwitch (sendEvent cfg k 0x0008).1).2 = some 0x0008) ∧
    ((k.taskAry A).prioClass ≤ (k.taskAry k.pActiveTask).prioClass →
      (sendEvent cfg k 0x0008).2 = false ∧
      (sendEvent cfg k 0x0008).1.pActiveTask = k.pActiveTask) := by
  obtain ⟨hI, hA⟩ := reachable_inv hcfg ht hr
  have hnd := hI.nodup
  have hbit : ∀ j, Nat.testBit 0x0008 j = decide (3 = j) := fun j => @Nat.testBit_two_pow 3 j
  obtain ⟨pre, post, hsplit⟩ := List.append_of_mem hin
  obtain ⟨b1, _, _⟩ := sendEvent_bits hcfg hnd 0x0008
  have hposted : ((sendEvent cfg k 0x0008).1.taskAry A).postedEventVec = 0x0008 := by
    apply Nat.eq_of_testBit_eq
    intro j
    rw [b1 pre A post hsplit j, hp0, Nat.zero_testBit, Bool.false_or]
    obtain ⟨i1, i2, i3⟩ := sendEventInit_bits cfg hcfg.2.2.2.1 0x0008 j
    rw [i1, i2, hbit]
    by_cases hj : 3 = j
    · subst hj
      have hS : ¬ 3 < cfg.noSemaphoreEvents := by omega
      have hSM : ¬ 3 < cfg.noSemaphoreEvents + cfg.noMutexEvents := by omega
      rw [i3 hb (by decide), hmask, hbit]
      simp [hS, hSM]
    · have h0 : (sendEventInit cfg 0x0008).postedEventVec.testBit j = false := by
        cases hh : (sendEventInit cfg 0x0008).postedEventVec.testBit j
        · rfl
        · have := sendEventInit_posted_sub cfg 0x0008 j hh
          rw [hbit] at this
          simp [hj] at this
      rw [h0]
      simp [hj]
  have hAns : A ∉ (sendEvent cfg k 0x0008).1.pSuspendedTaskAry := by
    intro h
    have := ((sendEvent_stays hcfg hnd 0x0008 A hin hany hp0).2.2).mp h
    rw [hposted] at this
    cases this
  have hstay : ∀ q ∈ k.pSuspendedTaskAry, q ≠ A →
      q ∈ (sendEvent cfg k 0x0008).1.pSuspendedTaskAry := by
    intro q hq hqA
    refine (sendEvent_not_addressed hcfg hnd 0x0008 q hq (fun j hj => ?_)).2
    rw [hbit] at hj
    have : 3 = j := by simpa using hj
    subst this
    exact honly q hq hqA
  have hdue : (sendEvent cfg k 0x0008).1.pDueTaskAryAry (k.taskAry A).prioClass
      = k.pDueTaskAryAry (k.taskAry A).prioClass ++ [A] := by
    rw [sendEvent_due hcfg hnd 0x0008]
    congr 1
    apply filter_eq_singleton _ _ _ hnd hin
    · simp [hAns]
    · intro q hq hqA
      simp [hstay q hq hqA]
  obtain ⟨sw1, sw2, sw3, _, _⟩ := sendEvent_switch hcfg hI hA hne 0x0008
  refine ⟨hposted, hAns, hdue, fun hlt => ?_, fun hle => ?_⟩
  · obtain ⟨c1, c2, c3, _, c5, _, c7, _⟩ := sw1 ⟨A, hin, hAns, hlt⟩
    have hact : (sendEvent cfg k 0x0008).1.pActiveTask = A := by
      by_contra hneA
      exact c3 (hstay _ c2 hneA)
    refine ⟨c1, hact, c5, sw3, ?_⟩
    rw [c7, hact, hposted]
  · apply sw2
    intro t ht1 ht2
    by_cases htA : t = A
    · subst htA; exact hle
    · exact absurd (hstay t ht1 htA) ht2

theorem tasksS1Exchanged_ok : TasksOk cfgS1 tasksS1Exchanged := by
  intro a ha
  simp only [tasksS1Exchanged, List.mem_cons, List.mem_singleton, List.not_mem_nil,
    or_false] at ha
  rcases ha with h | h <;> subst h <;> decide

theorem runS1_reachable (tasks : List TaskInit)
    (h1 : (isrSystemTimerTic cfgS1 (rtos_initRTOS cfgS1 tasks (fun _ => 0))).pActiveTask
      ≠ IDLE_TASK_ID cfgS1)
    (h2 : (isrSystemTimerTic cfgS1
        (rtos_waitForEvent cfgS1
          (isrSystemTimerTic cfgS1 (rtos_initRTOS cfgS1 tasks (fun _ => 0)))
          RTOS_EVT_DELAY_TIMER false 0).1).pActiveTask ≠ IDLE_TASK_ID cfgS1) :
    Reachable cfgS1 tasks (fun _ => 0) (runS1 tasks) :=
  Reachable.timerTic
    (Reachable.waitForEvent RTOS_EVT_DELAY_TIMER false 0
      (Reachable.timerTic
        (Reachable.waitForEvent RTOS_EVT_DELAY_TIMER false 0
          (Reachable.timerTic Reachable.init) h1)) h2)

/-- C26, amended, instance: scenario S1 with `A` (task 0) of class 1 and `B` (task 1) of class 0; after
the third tic `B` posts `0x0008`, `A` becomes the active task and gets the return code
`0x0008`. -/
theorem sendEvent_scenario_S1_witness :
    cfgS1.WellFormed ∧ TasksOk cfgS1 tasksS1Exchanged ∧
    Reachable cfgS1 tasksS1Exchanged (fun _ => 0) (runS1 tasksS1Exchanged) ∧
    (runS1 tasksS1Exchanged).pActiveTask = 1 ∧
    (runS1 tasksS1Exchanged).pActiveTask ≠ IDLE_TASK_ID cfgS1 ∧
    cfgS1.noSemaphoreEvents + cfgS1.noMutexEvents ≤ 3 ∧
    0 ∈ (runS1 tasksS1Exchanged).pSuspendedTaskAry ∧
    ((runS1 tasksS1Exchanged).taskAry 0).waitForAnyEvent = true ∧
    ((runS1 tasksS1Exchanged).taskAry 0).postedEventVec = 0 ∧
    ((runS1 tasksS1Exchanged).taskAry 0).eventMask.testBit 3 = true ∧
    (∀ q ∈ (runS1 tasksS1Exchanged).pSuspendedTaskAry, q ≠ 0 →
      ((runS1 tasksS1Exchanged).taskAry q).eventMask.testBit 3 = false) ∧
    ((runS1 tasksS1Exchanged).taskAry (runS1 tasksS1Exchanged).pActiveTask).prioClass
      < ((runS1 tasksS1Exchanged).taskAry 0).prioClass ∧
    (sendEvent cfgS1 (runS1 tasksS1Exchanged) 0x0008).1.pActiveTask = 0 ∧
    (pushRetCodeOfContextSwitch (sendEvent cfgS1 (runS1 tasksS1Exchanged) 0x0008).1).2
      = some 0x0008 :=
  ⟨by decide, tasksS1Exchanged_ok,
   runS1_reachable tasksS1Exchanged (by decide!) (by decide!),
   by decide!, by decide!, by decide, by decide!, by decide!, by decide!, by decide!, by decide!,
   by decide!,
   ((sendEvent_scenario_S1 (by decide) tasksS1Exchanged_ok
      (runS1_reachable tasksS1Exchanged (by decide!) (by decide!)) (by decide!) (by decide)
      0 (by decide!) (by decide!) (by decide!) (by decide!) (by decide!)).2.2.2.1
        (by decide!)).2.1,
   ((sendEvent_scenario_S1 (by decide) tasksS1Exchanged_ok
      (runS1_reachable tasksS1Exchanged (by decide!) (by decide!)) (by decide!) (by decide)
      0 (by decide!) (by decide!) (by decide!) (by decide!) (by decide!)).2.2.2.1
        (by decide!)).2.2.2.2⟩

/-! ## The assertions of the suspend command -/

theorem storeResumeConditionAssertion_iff (eventMask : Nat) (all : Bool) :
    storeResumeConditionAssertion eventMask all = false ↔ IllFormedCondition eventMask all := by
  unfold storeResumeConditionAssertion IllFormedCondition
  by_cases h0 : eventMask = 0 <;>
    by_cases h1 : eventMask &&& MASK_EVT_IS_TIMER = MASK_EVT_IS_TIMER <;>
    by_cases h2 : eventMask &&& not16 MASK_EVT_IS_TIMER = 0 <;>
    cases all <;> simp [h0, h1, h2]

theorem waitForEventDebug_eq (cfg : Config) (k : Kernel) (eventMask : Nat) (all : Bool)
    (timeout : Nat) :
    waitForEventDebug cfg k eventMask all timeout =
      if k.pActiveTask = IDLE_TASK_ID cfg then none
      else if (cfg.useSemaphore || cfg.useMutex) = true ∧
          (acquireFreeSyncObjs cfg k eventMask all).2 = true
        then some (waitForEvent cfg k eventMask all timeout)
      else if storeResumeConditionAssertion eventMask all = true
        then some (waitForEvent cfg k eventMask all timeout)
      else none := by
  unfold waitForEventDebug waitForEvent storeResumeConditionDebug
  by_cases hid : k.pActiveTask = IDLE_TASK_ID cfg
  · simp [hid]
  · have hid1 : (k.pActiveTask == IDLE_TASK_ID cfg) = false := by simpa using hid
    simp only [hid1, Bool.false_eq_true, if_false, hid]
    cases hu : (cfg.useSemaphore || cfg.useMutex)
    · simp only [Bool.false_eq_true, if_false, false_and]
      cases hassert : storeResumeConditionAssertion eventMask all
      · simp
      · simp
    · simp only [if_true, true_and]
      cases hacq : (acquireFreeSyncObjs cfg k eventMask all).2
      · simp only [Bool.false_eq_true, if_false]
        cases hassert : storeResumeConditionAssertion eventMask all
        · simp
        · simp
      · simp

theorem waitForEventDebug_refines (cfg : Config) (k : Kernel) (eventMask : Nat) (all : Bool)
    (timeout : Nat) (r : Kernel × Bool)
    (h : waitForEventDebug cfg k eventMask all timeout = some r) :
    r = waitForEvent cfg k eventMask all timeout := by
  rw [waitForEventDebug_eq] at h
  split at h
  · cases h
  · split at h
    · exact (Option.some.inj h).symm
    · split at h
      · exact (Option.some.inj h).symm
      · cases h

theorem waitForEventDebug_idle (cfg : Config) (k : Kernel) (eventMask : Nat) (all : Bool)
    (timeout : Nat) (h : k.pActiveTask = IDLE_TASK_ID cfg) :
    waitForEventDebug cfg k eventMask all timeout = none := by
  rw [waitForEventDebug_eq, if_pos h]

theorem waitForEventDebug_none_iff (cfg : Config) (k : Kernel) (eventMask : Nat) (all : Bool)
    (timeout : Nat) :
    waitForEventDebug cfg k eventMask all timeout = none ↔
      k.pActiveTask = IDLE_TASK_ID cfg ∨
      (¬ ((cfg.useSemaphore || cfg.useMutex) = true ∧
          (acquireFreeSyncObjs cfg k eventMask all).2 = true) ∧
        IllFormedCondition eventMask all) := by
  rw [← storeResumeConditionAssertion_iff, waitForEventDebug_eq]
  by_cases hid : k.pActiveTask = IDLE_TASK_ID cfg
  · simp [hid]
  · by_cases hu : (cfg.useSemaphore || cfg.useMutex) = true ∧
        (acquireFreeSyncObjs cfg k eventMask all).2 = true
    · simp [hid, hu]
    · cases hassert : storeResumeConditionAssertion eventMask all <;> simp [hid, hu]

theorem acquireFreeSyncObjs_all_timer_only (cfg : Config) (hS : cfg.noSemaphoreEvents ≤ 8)
    (k : Kernel) (eventMask : Nat) (hmask : eventMask &&& not16 MASK_EVT_IS_TIMER = 0)
    (hp : cfg.useMutex = false → (k.taskAry k.pActiveTask).postedEventVec = 0) :
    (acquireFreeSyncObjs cfg k eventMask true).2 = true := by
  obtain ⟨_, _, _, _, _, _, _, a8, _, _, a11⟩ := acquireFreeSyncObjs_spec cfg hS k eventMask true
  rw [a11]
  simp only [Bool.not_true, Bool.false_and, Bool.false_or, Bool.true_and, beq_iff_eq]
  apply Nat.eq_of_testBit_eq
  intro j
  have hmj := congrArg (fun x => x.testBit j) hmask
  simp only [Nat.testBit_and, Nat.zero_testBit] at hmj
  rw [Nat.testBit_and, Nat.testBit_xor, a8 j, Nat.zero_testBit]
  cases hn : (not16 MASK_EVT_IS_TIMER).testBit j
  · simp
  · rw [hn, Bool.and_true] at hmj
    rw [hmj]
    have h1 : (if cfg.useMutex = true then eventMask &&& k.mutexVec
        else (k.taskAry k.pActiveTask).postedEventVec).testBit j = false := by
      split
      · rw [Nat.testBit_and, hmj]; rfl
      · rename_i hu
        rw [hp (by simpa using hu), Nat.zero_testBit]
    rw [h1]
    simp

theorem waitForEventDebug_all_timer_only (cfg : Config) (hS : cfg.noSemaphoreEvents ≤ 8)
    (hSM : cfg.noSemaphoreEvents + cfg.noMutexEvents ≤ 14)
    (hu : (cfg.useSemaphore || cfg.useMutex) = true)
    (k : Kernel) (hne : k.pActiveTask ≠ IDLE_TASK_ID cfg) (hM : MutexVecOk cfg k)
    (hp : (k.taskAry k.pActiveTask).postedEventVec = 0)
    (eventMask : Nat) (hmask : eventMask &&& not16 MASK_EVT_IS_TIMER = 0) (timeout : Nat) :
    waitForEventDebug cfg k eventMask true timeout
      = some (waitForEvent cfg k eventMask true timeout) ∧
    (waitForEvent cfg k eventMask true timeout).2 = false ∧
    (rtos_waitForEvent cfg k eventMask true timeout).2 = none := by
  have hacq := acquireFreeSyncObjs_all_timer_only cfg hS k eventMask hmask (fun _ => hp)
  have hw := waitForEvent_of_acquired cfg k eventMask true timeout hu hacq
  refine ⟨?_, by rw [hw], ?_⟩
  · rw [waitForEventDebug_eq, if_neg hne, if_pos ⟨hu, hacq⟩]
  · obtain ⟨a1, _, _, _, _, _, _, a8, _, _, _⟩ := acquireFreeSyncObjs_spec cfg hS k eventMask true
    have hlow : ∀ j, j < 14 → eventMask.testBit j = false := by
      intro j hj
      have hmj := congrArg (fun x => x.testBit j) hmask
      simp only [Nat.testBit_and, Nat.zero_testBit, testBit_not16] at hmj
      have hm : MASK_EVT_IS_TIMER.testBit j = false := by
        unfold MASK_EVT_IS_TIMER
        rw [Nat.testBit_or, testBit_RTOS_EVT_ABSOLUTE_TIMER, testBit_RTOS_EVT_DELAY_TIMER]
        have h1 : ¬ j = 14 := by omega
        have h2 : ¬ j = 15 := by omega
        simp [h1, h2]
      have h16 : j < 16 := by omega
      rw [hm] at hmj
      simpa [h16] using hmj
    have hzero : ((acquireFreeSyncObjs cfg k eventMask true).1.taskAry
        (acquireFreeSyncObjs cfg k eventMask true).1.pActiveTask).postedEventVec = 0 := by
      rw [a1]
      apply Nat.eq_of_testBit_eq
      intro j
      rw [a8 j, Nat.zero_testBit]
      have h1 : (if cfg.useMutex = true then eventMask &&& k.mutexVec
          else (k.taskAry k.pActiveTask).postedEventVec).testBit j = false := by
        split
        · rw [Nat.testBit_and]
          cases hmv : k.mutexVec.testBit j
          · simp
          · have := hM j hmv
            rw [hlow j (by omega)]
            rfl
        · rw [hp, Nat.zero_testBit]
      rw [h1]
      by_cases hj : j < cfg.noSemaphoreEvents
      · rw [hlow j (by omega)]
        simp
      · simp [hj]
    unfold rtos_waitForEvent
    rw [hw, pushRetCodeOfContextSwitch_snd, hzero]
    rfl

/-- C28: the debug compilation does not reject every ill-formed wait condition.  The
assertion on the wait condition sits in `storeResumeCondition`, which `waitForEvent` calls
only after `acquireFreeSyncObjs` has not found the resume condition fulfilled.  In the
scenario configuration (semaphores and a mutex are compiled) and the reachable state after the
first timer tic, in which task 0 is active and the mutex `0x0004` is available, the calls
`rtos_waitForEvent(0x8000, all=true, 0)` and `rtos_waitForEvent(0, all=true, 0)` (all events
demanded, no event besides a timer) and `rtos_waitForEvent(0xC004, all=false, 0)` (both timer
events) fire no assertion: `waitForEvent` returns false, the caller is not suspended and for
the first two calls no return code is handed over.  The same state rejects the masks `0`
and `0xC000` with `all=false`, and a configuration without semaphores and mutexes rejects
`rtos_waitForEvent(0x8000, all=true, 0)`. -/
theorem waitForEventDebug_misses_ill_formed :
    (cfgScenario.useSemaphore || cfgScenario.useMutex) = true ∧
    Reachable cfgScenario tasksScenario (fun _ => 0) kAfterTic ∧
    kAfterTic.pActiveTask ≠ IDLE_TASK_ID cfgScenario ∧
    IllFormedCondition 0x8000 true ∧
    (waitForEventDebug cfgScenario kAfterTic 0x8000 true 0).isSome = true ∧
    (waitForEventDebug cfgScenario kAfterTic 0x8000 true 0).map Prod.snd = some false ∧
    (rtos_waitForEvent cfgScenario kAfterTic 0x8000 true 0).2 = none ∧
    IllFormedCondition 0 true ∧
    (waitForEventDebug cfgScenario kAfterTic 0 true 0).map Prod.snd = some false ∧
    (rtos_waitForEvent cfgScenario kAfterTic 0 true 0).2 = none ∧
    IllFormedCondition 0xC004 false ∧
    (waitForEventDebug cfgScenario kAfterTic 0xC004 false 0).map Prod.snd = some false ∧
    (waitForEventDebug cfgScenario kAfterTic 0 false 0).isSome = false ∧
    (waitForEventDebug cfgScenario kAfterTic 0xC000 false 0).isSome = false ∧
    (waitForEventDebug cfgRoundRobin
      (isrSystemTimerTic cfgRoundRobin (rtos_initRTOS cfgRoundRobin tasksRoundRobin (fun _ => 0)))
      0x8000 true 0).isSome = false := by
  refine ⟨by decide, kAfterTic_reachable, by decide, by decide, by decide, by decide, by decide,
    by decide, by decide, by decide, by decide, by decide, by decide, by decide, by decide⟩

/-! ## The assertions of `sendEvent` -/

theorem sendEventLoopDebug_refines (cfg : Config) (dbg : Nat) :
    ∀ (fuel idx : Nat) (k : Kernel) (v : SendEventLocals) (r : Kernel × SendEventLocals),
      sendEventLoopDebug cfg dbg fuel idx k v = some r → r = sendEventLoop cfg fuel idx k v := by
  intro fuel
  induction fuel with
  | zero =>
    intro idx k v r h
    simp only [sendEventLoopDebug] at h
    exact (Option.some.inj h).symm
  | succ n ih =>
    intro idx k v r h
    unfold sendEventLoopDebug at h
    unfold sendEventLoop
    by_cases hlt : idx < k.noSuspendedTasks
    · simp only [hlt, if_true] at h ⊢
      split at h
      · cases h
      · split at h
        · rename_i hc
          rw [if_pos hc]
          exact ih _ _ _ _ h
        · rename_i hc
          rw [if_neg hc]
          exact ih _ _ _ _ h
    · simp only [hlt, if_false] at h ⊢
      exact (Option.some.inj h).symm

theorem sendEventAccumulateDebug_refines (cfg : Config) :
    ∀ (fuel vec idxSem : Nat) (sem s : Nat → Nat),
      sendEventAccumulateDebug cfg fuel vec idxSem sem = some s →
      s = sendEventAccumulate cfg fuel vec idxSem sem := by
  intro fuel
  induction fuel with
  | zero =>
    intro vec idxSem sem s h
    simp only [sendEventAccumulateDebug] at h
    exact (Option.some.inj h).symm
  | succ n ih =>
    intro vec idxSem sem s h
    unfold sendEventAccumulateDebug at h
    unfold sendEventAccumulate
    by_cases hv : (vec != 0) = true
    · simp only [hv, if_true] at h ⊢
      by_cases hb : (vec &&& 1 != 0) = true
      · simp only [hb, if_true] at h ⊢
        split at h
        · cases h
        · exact ih _ _ _ _ h
      · simp only [hb, if_false] at h ⊢
        exact ih _ _ _ _ h
    · simp only [hv, if_false] at h ⊢
      exact (Option.some.inj h).symm

theorem lookForActiveTaskLoopDebug_refines (k : Kernel) :
    ∀ (n : Nat) (r : Kernel × Bool),
      lookForActiveTaskLoopDebug k n = some r → r = lookForActiveTaskLoop k n := by
  intro n
  induction n with
  | zero => intro r h; simp [lookForActiveTaskLoopDebug] at h
  | succ n ih =>
    intro r h
    unfold lookForActiveTaskLoopDebug at h
    unfold lookForActiveTaskLoop
    cases hd : k.pDueTaskAryAry n with
    | nil =>
      rw [hd] at h
      exact ih r h
    | cons pT rest =>
      rw [hd] at h
      exact (Option.some.inj h).symm

theorem sendEventDebug_refines (cfg : Config) (k : Kernel) (ev : Nat) (r : Kernel × Bool)
    (h : sendEventDebug cfg k ev = some r) : r = sendEvent cfg k ev := by
  unfold sendEventDebug at h
  split at h
  · cases h
  · cases hloop : sendEventLoopDebug cfg (sendEventInit cfg ev).mutexToReleaseVec
        k.noSuspendedTasks 0 k (sendEventInit cfg ev) with
    | none => rw [hloop] at h; cases h
    | some r0 =>
      rw [hloop] at h
      have hr0 := sendEventLoopDebug_refines cfg _ _ _ _ _ _ hloop
      simp only at h
      unfold sendEvent sendEventDeliver
      simp only
      rw [← hr0]
      cases hus : cfg.useSemaphore
      · simp only [hus, Bool.false_eq_true, if_false] at h ⊢
        split at h
        · cases h
        · split at h
          · rename_i hfl
            rw [if_pos hfl]
            exact lookForActiveTaskLoopDebug_refines _ _ _ h
          · rename_i hfl
            rw [if_neg hfl]
            exact (Option.some.inj h).symm
      · simp only [hus, if_true] at h ⊢
        cases hacc : sendEventAccumulateDebug cfg 8 r0.2.semaphoreToReleaseVec 0
            r0.1.semaphoreAry with
        | none => rw [hacc] at h; cases h
        | some s =>
          rw [hacc] at h
          have hs := sendEventAccumulateDebug_refines cfg _ _ _ _ _ hacc
          simp only [Option.map_some'] at h
          rw [← hs]
          split at h
          · cases h
          · split at h
            · rename_i hfl
              rw [if_pos hfl]
              exact lookForActiveTaskLoopDebug_refines _ _ _ h
            · rename_i hfl
              rw [if_neg hfl]
              exact (Option.some.inj h).symm

theorem sendEventLoopDebug_suspended_holder (cfg : Config) (hu : cfg.useMutex = true)
    (dbg : Nat) :
    ∀ (rest kept : List Nat) (k : Kernel) (v : SendEventLocals) (fuel : Nat),
      k.pSuspendedTaskAry = kept ++ rest → rest.length ≤ fuel →
      (∃ t ∈ rest, (k.taskAry t).postedEventVec &&& dbg ≠ 0) →
      sendEventLoopDebug cfg dbg fuel kept.length k v = none := by
  intro rest
  induction rest with
  | nil =>
    intro kept k v fuel _ _ ⟨t, ht, _⟩
    cases ht
  | cons p rest ih =>
    intro kept k v fuel hk hfuel ⟨t, ht, hviol⟩
    cases fuel with
    | zero => simp at hfuel
    | succ n =>
      have hn : rest.length ≤ n := by simpa using hfuel
      have hlt : kept.length < k.noSuspendedTasks := by
        simp [Kernel.noSuspendedTasks, hk]
      have hget : k.pSuspendedTaskAry[kept.length]?.getD (IDLE_TASK_ID cfg) = p := by
        rw [hk]; exact getD_append_cons _ _ _ _
      unfold sendEventLoopDebug
      simp only [hlt, if_true, hget, hu, Bool.true_and]
      by_cases hp : ((k.taskAry p).postedEventVec &&& dbg != 0) = true
      · rw [if_pos hp]
      · rw [if_neg hp]
        have hp0 : (k.taskAry p).postedEventVec &&& dbg = 0 := by simpa using hp
        have htp : t ≠ p := by
          intro h
          rw [h] at hviol
          exact hviol hp0
        have htr : t ∈ rest := by
          rcases List.mem_cons.mp ht with h | h
          · exact absurd h htp
          · exact h
        simp only [setTask_taskAry_same, checkTaskForActivation_snd, setTask_pSuspendedTaskAry,
          hget]
        split
        · rename_i hc
          have hdue : taskBecomesDue ((k.setTask p (sendEventTask cfg (k.taskAry p)
              v.postedEventVec v.mutexToReleaseVec v.semaphoreToReleaseVec).1).taskAry
                ((k.setTask p (sendEventTask cfg (k.taskAry p) v.postedEventVec
                  v.mutexToReleaseVec v.semaphoreToReleaseVec).1).pSuspendedTaskAry[kept.length]?.getD
                    (IDLE_TASK_ID cfg))) = true := by
            rw [setTask_pSuspendedTaskAry, hget, setTask_taskAry_same]
            simp only [Bool.and_eq_true] at hc
            exact hc.2
          rw [checkTaskForActivation_fst_of_due cfg _ _ hdue]
          apply ih kept _ _ n
          · simp only [setTask_pSuspendedTaskAry, hk, eraseIdx_append_cons]
          · exact hn
          · refine ⟨t, htr, ?_⟩
            simp only [setTask_pSuspendedTaskAry, hget]
            rw [appendToDue_taskAry_ne cfg _ p t htp, setTask_taskAry_ne _ _ _ _ htp]
            exact hviol
        · have hk1 : (k.setTask p (sendEventTask cfg (k.taskAry p) v.postedEventVec
              v.mutexToReleaseVec v.semaphoreToReleaseVec).1).pSuspendedTaskAry
                = (kept ++ [p]) ++ rest := by
            simp [hk]
          have hlen : kept.length + 1 = (kept ++ [p]).length := by simp
          rw [hlen]
          apply ih (kept ++ [p]) _ _ n hk1 hn
          refine ⟨t, htr, ?_⟩
          rw [setTask_taskAry_ne _ _ _ _ htp]
          exact hviol

theorem and_ne_zero_of_testBit (a b m : Nat) (ha : a.testBit m = true)
    (hb : b.testBit m = true) : a &&& b ≠ 0 := by
  intro h
  have := congrArg (fun x => x.testBit m) h
  simp [Nat.testBit_and, ha, hb] at this

theorem sendEventLoop_mutexVec (cfg : Config) (k : Kernel) (v : SendEventLocals) :
    (sendEventLoop cfg k.noSuspendedTasks 0 k v).1.mutexVec = k.mutexVec := by
  rw [sendEventLoop_eq]
  unfold sendEventWalk
  exact (walkSuspended_frame cfg _ _ _ _ _).2.2.2.1

/-- C29, amended: in the debug compilation `sendEvent(ev)` fires an assertion whenever `ev`
holds a mutex event `m` which is available, i.e. bit `m` of `_mutexVec` is set, and whenever
`ev` holds a mutex event `m` which a task in the list of suspended tasks has in its posted
events.  (A task which has got the mutex and is in a due list is not visited by the loop of
`sendEvent`; its mutex is released a second time without assertion.) -/
theorem sendEventDebug_mutex_assertions (cfg : Config) (hS : cfg.noSemaphoreEvents ≤ 8)
    (k : Kernel) (ev m : Nat) (hm1 : cfg.noSemaphoreEvents ≤ m)
    (hm2 : m < cfg.noSemaphoreEvents + cfg.noMutexEvents) (hev : ev.testBit m = true) :
    (k.mutexVec.testBit m = true → sendEventDebug cfg k ev = none) ∧
    (∀ t ∈ k.pSuspendedTaskAry, (k.taskAry t).postedEventVec.testBit m = true →
      sendEventDebug cfg k ev = none) := by
  have hu : cfg.useMutex = true := by
    unfold Config.useMutex
    simp only [decide_eq_true_eq]
    omega
  have hdbg : (sendEventInit cfg ev).mutexToReleaseVec.testBit m = true := by
    rw [(sendEventInit_bits cfg hS ev m).1, hev]
    simp [hm1, hm2]
  refine ⟨fun hmv => ?_, fun t ht hpt => ?_⟩
  · unfold sendEventDebug
    split
    · rfl
    · cases hloop : sendEventLoopDebug cfg (sendEventInit cfg ev).mutexToReleaseVec
          k.noSuspendedTasks 0 k (sendEventInit cfg ev) with
      | none => rfl
      | some r0 =>
        have hr0 := sendEventLoopDebug_refines cfg _ _ _ _ _ _ hloop
        have hmv0 : r0.1.mutexVec = k.mutexVec := by
          rw [hr0]; exact sendEventLoop_mutexVec cfg k _
        simp only
        cases hus : cfg.useSemaphore
        · simp only [Bool.false_eq_true, if_false, hu, Bool.true_and]
          rw [if_pos]
          rw [hmv0]
          simpa using and_ne_zero_of_testBit _ _ m hmv hdbg
        · simp only [if_true]
          cases hacc : sendEventAccumulateDebug cfg 8 r0.2.semaphoreToReleaseVec 0
              r0.1.semaphoreAry with
          | none => rfl
          | some s =>
            simp only [Option.map_some', hu, Bool.true_and]
            rw [if_pos]
            rw [hmv0]
            simpa using and_ne_zero_of_testBit _ _ m hmv hdbg
  · have hloop := sendEventLoopDebug_suspended_holder cfg hu
      (sendEventInit cfg ev).mutexToReleaseVec k.pSuspendedTaskAry [] k (sendEventInit cfg ev)
      k.noSuspendedTasks (by simp) (le_refl _)
      ⟨t, ht, and_ne_zero_of_testBit _ _ m hpt hdbg⟩
    unfold sendEventDebug
    split
    · rfl
    · simp only [List.length_nil] at hloop
      rw [hloop]

/-- C29, amended, instance: in the scenario state after the first timer tic the mutex `0x0004` is
available; its release by `sendEvent(0x0004)` fires an assertion.  After task 0 has called
`rtos_waitForEvent(0x000C, all=true, 0)` it is suspended with the mutex in its posted events,
waiting for event 3; the release of the mutex fires an assertion, too. -/
theorem sendEventDebug_mutex_assertions_witness :
    cfgScenario.noSemaphoreEvents ≤ 8 ∧ cfgScenario.noSemaphoreEvents ≤ 2 ∧
    2 < cfgScenario.noSemaphoreEvents + cfgScenario.noMutexEvents ∧
    Nat.testBit 0x0004 2 = true ∧ kAfterTic.mutexVec.testBit 2 = true ∧
    sendEventDebug cfgScenario kAfterTic 0x0004 = none ∧
    0 ∈ (rtos_waitForEvent cfgScenario kAfterTic 0x000C true 0).1.pSuspendedTaskAry ∧
    ((rtos_waitForEvent cfgScenario kAfterTic 0x000C true 0).1.taskAry
      0).postedEventVec.testBit 2 = true ∧
    sendEventDebug cfgScenario (rtos_waitForEvent cfgScenario kAfterTic 0x000C true 0).1 0x0004
      = none :=
  ⟨by decide, by decide, by decide, by decide, by decide,
   (sendEventDebug_mutex_assertions cfgScenario (by decide) kAfterTic 0x0004 2 (by decide)
      (by decide) (by decide)).1 (by decide),
   by decide, by decide,
   (sendEventDebug_mutex_assertions cfgScenario (by decide)
      (rtos_waitForEvent cfgScenario kAfterTic 0x000C true 0).1 0x0004 2 (by decide)
      (by decide) (by decide)).2 0 (by decide) (by decide)⟩

theorem tasksRelease_ok : TasksOk cfgFifo tasksRelease := by
  intro a ha
  simp only [tasksRelease, List.mem_cons, List.mem_singleton, List.not_mem_nil, or_false] at ha
  rcases ha with h | h | h | h <;> subst h <;> decide

theorem kReleased_reachable : Reachable cfgFifo tasksRelease (fun _ => 0) kReleased :=
  Reachable.sendEvent 0x0002
    (Reachable.timerTic
      (Reachable.waitForEvent 0x0002 false 0
        (Reachable.waitForEvent RTOS_EVT_DELAY_TIMER false 0
          (Reachable.waitForEvent 0x0002 false 0 (Reachable.timerTic Reachable.init)
            (by decide))
          (by decide!))
        (by decide!)))

/-- C29, counterexample: in the reachable state `kReleased` of
the run of `cfgFifo` task 0 holds the mutex `0x0002` in its posted events; it is in the due
list of its class, not active.  The mutex is released a second time by `sendEvent(0x0002)` of
the debug compilation: no assertion fires, and afterwards the mutex is available in
`_mutexVec` although task 0 still has it in its posted events. -/
theorem doubleReleaseAsserted_counterexample :
    ¬ DoubleReleaseAsserted cfgFifo tasksRelease (fun _ => 0) ∧
    ((kReleased.taskAry 0).postedEventVec = 0x0002 ∧ kReleased.pDueTaskAryAry 0 = [0] ∧
      kReleased.pActiveTask = 1 ∧ kReleased.mutexVec = 0) ∧
    (sendEventDebug cfgFifo kReleased 0x0002).map
        (fun r => (r.1.mutexVec, (r.1.taskAry 0).postedEventVec, r.2))
      = some (0x0002, 0x0002, false) := by
  refine ⟨fun h => ?_, by decide!, by decide!⟩
  have := h kReleased 0x0002 1 0 kReleased_reachable (by decide) (by decide) (by decide)
    (by decide) (by decide!)
  revert this
  decide!

theorem lookForActiveTaskLoop_pSuspendedTask (k : Kernel) (n : Nat) :
    ((∀ j, j < n → k.pDueTaskAryAry j = []) →
      (lookForActiveTaskLoop k n).1.pSuspendedTask = k.pSuspendedTask) ∧
    ((∃ j, j < n ∧ k.pDueTaskAryAry j ≠ []) →
      (lookForActiveTaskLoop k n).1.pSuspendedTask = k.pActiveTask) := by
  constructor
  · intro h
    rw [lookForActiveTaskLoop_empty k n h]
  · rintro ⟨j, hj, hne⟩
    obtain ⟨top, htop, hd, hhigh⟩ := exists_highest_nonempty k.pDueTaskAryAry n j hj hne
    cases hl : k.pDueTaskAryAry top with
    | nil => exact absurd hl hd
    | cons pT rest => rw [lookForActiveTaskLoop_found k n top pT rest htop hl hhigh]

theorem sendEventDeliver_tasks (cfg : Config) (k : Kernel) (ev : Nat) :
    (sendEventDeliver cfg k ev).1.pActiveTask = k.pActiveTask ∧
    (sendEventDeliver cfg k ev).1.pSuspendedTask = k.pSuspendedTask := by
  rw [sendEventDeliver_eq]
  exact ⟨(walkSuspended_frame cfg _ _ _ _ _).1, (walkSuspended_frame cfg _ _ _ _ _).2.1⟩

/-- What holds for `sendEvent` in place of the description: a call which returns false leaves
`_pActiveTask` as it was; `_pSuspendedTask` is left as it was if no suspended task became due,
and it is overwritten with `_pActiveTask` if a task became due, since `lookForActiveTask`
writes both variables before it compares them. -/
theorem sendEvent_false_tasks (cfg : Config) (k : Kernel) (ev : Nat)
    (h : (sendEvent cfg k ev).2 = false) :
    (sendEvent cfg k ev).1.pActiveTask = k.pActiveTask ∧
    ((sendEventDeliver cfg k ev).2 = false →
      (sendEvent cfg k ev).1.pSuspendedTask = k.pSuspendedTask) ∧
    ((sendEventDeliver cfg k ev).2 = true →
      (∃ c, c < cfg.noPrioClasses ∧ (sendEvent cfg k ev).1.pDueTaskAryAry c ≠ []) →
      (sendEvent cfg k ev).1.pSuspendedTask = k.pActiveTask) := by
  have h1 := (sendEvent_snd cfg k ev).1
  rw [h] at h1
  have hact : (sendEvent cfg k ev).1.pActiveTask = k.pActiveTask := by
    by_contra hne
    have : ((sendEvent cfg k ev).1.pActiveTask != k.pActiveTask) = true := by
      simpa using hne
    rw [this] at h1
    exact Bool.false_ne_true h1
  obtain ⟨ha, hs⟩ := sendEventDeliver_tasks cfg k ev
  refine ⟨hact, ?_, ?_⟩
  · intro hfl
    unfold sendEvent
    simp only [hfl, Bool.false_eq_true, if_false]
    exact hs
  · intro hfl hex
    unfold sendEvent at hex ⊢
    simp only [hfl, if_true] at hex ⊢
    unfold lookForActiveTask at hex ⊢
    obtain ⟨c, hc, hne⟩ := hex
    rw [(lookForActiveTaskLoop_frame _ _).2.2.1] at hne
    rw [(lookForActiveTaskLoop_pSuspendedTask _ _).2 ⟨c, hc, hne⟩, ha]

/-- C32: the description of `sendEvent` (and the claim) states that a call which returns false
has touched neither `_pActiveTask` nor `_pSuspendedTask`.  The code does not keep this for
`_pSuspendedTask`.  Scenario S1 as stated (configuration with two semaphores and a mutex, task
`A` of class 0 waits for event 3, task `B` of class 1 is active after the third timer tic, the
state is reachable): before the call `_pSuspendedTask` is the idle task (index 2), which was
left at the third tic.  `sendEvent(0x0008)` makes `A` due, so `lookForActiveTask` is called; it
finds `B` at the head of the highest non-empty class, writes `_pSuspendedTask = _pActiveTask`
and returns false because the active task is still `B`.  After the call which returned false
`_pActiveTask` is unchanged, but `_pSuspendedTask` is `B` (index 1). -/
theorem sendEvent_false_writes_pSuspendedTask :
    Reachable cfgS1 tasksS1 (fun _ => 0) (runS1 tasksS1) ∧
    (sendEvent cfgS1 (runS1 tasksS1) 0x0008).2 = false ∧
    (runS1 tasksS1).pActiveTask = 1 ∧
    (sendEvent cfgS1 (runS1 tasksS1) 0x0008).1.pActiveTask = 1 ∧
    (runS1 tasksS1).pSuspendedTask = 2 ∧
    (sendEvent cfgS1 (runS1 tasksS1) 0x0008).1.pSuspendedTask = 1 ∧
    ¬ SendEventFalseKeepsTasks cfgS1 tasksS1 (fun _ => 0) := by
  have hr : Reachable cfgS1 tasksS1 (fun _ => 0) (runS1 tasksS1) :=
    runS1_reachable tasksS1 (by decide!) (by decide!)
  have h1 : (sendEvent cfgS1 (runS1 tasksS1) 0x0008).2 = false := by decide!
  have h2 : (runS1 tasksS1).pSuspendedTask = 2 := by decide!
  have h3 : (sendEvent cfgS1 (runS1 tasksS1) 0x0008).1.pSuspendedTask = 1 := by decide!
  refine ⟨hr, h1, by decide!, by decide!, h2, h3, ?_⟩
  intro hc
  have := (hc (runS1 tasksS1) 0x0008 hr h1).2
  rw [h2, h3] at this
  exact absurd this (by decide)

theorem MutexVecOk.and_not16 {cfg : Config} {k : Kernel} (h : MutexVecOk cfg k) :
    k.mutexVec &&& not16 (MASK_EVT_IS_MUTEX cfg) = 0 := by
  apply and_not16_eq_zero
  intro j hj
  rw [testBit_MASK_EVT_IS_MUTEX]
  have := h j hj
  simp [this.1, this.2]

theorem waitForEvent_mutexVec_ok (cfg : Config) (hS : cfg.noSemaphoreEvents ≤ 8) {k : Kernel}
    (hM : MutexVecOk cfg k) (hp : (k.taskAry k.pActiveTask).postedEventVec = 0)
    (eventMask : Nat) (all : Bool) (timeout : Nat) :
    MutexVecOk cfg (waitForEvent cfg k eventMask all timeout).1 := by
  intro j hj
  rw [(waitForEvent_globals cfg hS k eventMask all timeout hp).1] at hj
  split at hj
  · rw [Nat.testBit_and, Bool.and_eq_true] at hj
    exact hM j hj.1
  · exact hM j hj

/-- C39: `_mutexVec` holds mutex events only.  In the state built by `rtos_initRTOS` and in
every reachable state `_mutexVec & ~MASK_EVT_IS_MUTEX == 0`, and the same holds after
`sendEvent` for every event vector and after `waitForEvent` for every event mask, flag and
timeout.  Hence the events `eventMask & _mutexVec`, which `acquireFreeSyncObjs` hands over to
the caller of `rtos_waitForEvent` as acquired mutexes, are mutex events of the mask, whatever
the mask is: no semaphore, broadcasted event or timer event is among them. -/
theorem mutexVec_holds_mutexes_only {cfg : Config} (hcfg : cfg.WellFormed)
    {tasks : List TaskInit} (ht : TasksOk cfg tasks) {sem : Nat → Nat} {k : Kernel}
    (hr : Reachable cfg tasks sem k) :
    (rtos_initRTOS cfg tasks sem).mutexVec &&& not16 (MASK_EVT_IS_MUTEX cfg) = 0 ∧
    k.mutexVec &&& not16 (MASK_EVT_IS_MUTEX cfg) = 0 ∧
    (∀ ev, (sendEvent cfg k ev).1.mutexVec &&& not16 (MASK_EVT_IS_MUTEX cfg) = 0) ∧
    (∀ eventMask all timeout,
      (waitForEvent cfg k eventMask all timeout).1.mutexVec
        &&& not16 (MASK_EVT_IS_MUTEX cfg) = 0) ∧
    (∀ eventMask, (eventMask &&& k.mutexVec) &&& not16 (MASK_EVT_IS_MUTEX cfg) = 0) ∧
    (∀ eventMask j, (eventMask &&& k.mutexVec).testBit j = true →
      eventMask.testBit j = true ∧
      cfg.noSemaphoreEvents ≤ j ∧ j < cfg.noSemaphoreEvents + cfg.noMutexEvents) := by
  obtain ⟨hI, hA⟩ := reachable_inv hcfg ht hr
  have hM := reachable_mutexVec hcfg ht hr
  refine ⟨(reachable_mutexVec hcfg ht (Reachable.init)).and_not16, hM.and_not16,
    fun ev => (sendEvent_mutexVec_ok hcfg hI hM ev).and_not16,
    fun eventMask all timeout =>
      (waitForEvent_mutexVec_ok cfg hcfg.2.2.2.1 hM hA.active_posted eventMask all
        timeout).and_not16, ?_, ?_⟩
  · intro eventMask
    apply and_not16_eq_zero
    intro j hj
    rw [Nat.testBit_and, Bool.and_eq_true] at hj
    rw [testBit_MASK_EVT_IS_MUTEX]
    have := hM j hj.2
    simp [this.1, this.2]
  · intro eventMask j hj
    rw [Nat.testBit_and, Bool.and_eq_true] at hj
    exact ⟨hj.1, hM j hj.2⟩

/-- C39, instance: the scenario configuration (semaphores 0 and 1, mutex event 2) after the
first timer tic; `_mutexVec` is `0x0004` and a wait for all events `0xFFFF` acquires the mutex
`0x0004` only. -/
theorem mutexVec_holds_mutexes_only_witness :
    cfgScenario.WellFormed ∧ TasksOk cfgScenario tasksScenario ∧
    kAfterTic.mutexVec = 0x0004 ∧
    kAfterTic.mutexVec &&& not16 (MASK_EVT_IS_MUTEX cfgScenario) = 0 ∧
    (0xFFFF &&& kAfterTic.mutexVec) = 0x0004 ∧
    (sendEvent cfgScenario kAfterTic 0xFFFF).1.mutexVec
      &&& not16 (MASK_EVT_IS_MUTEX cfgScenario) = 0 :=
  ⟨by decide, tasksScenario_ok, by decide,
   (mutexVec_holds_mutexes_only (by decide) tasksScenario_ok kAfterTic_reachable).2.1,
   by decide,
   (mutexVec_holds_mutexes_only (by decide) tasksScenario_ok kAfterTic_reachable).2.2.1 0xFFFF⟩

theorem lookForActiveTaskLoopDebug_some (k : Kernel) :
    ∀ (n : Nat), (∃ c, c < n ∧ k.pDueTaskAryAry c ≠ []) →
      lookForActiveTaskLoopDebug k n = some (lookForActiveTaskLoop k n) := by
  intro n
  induction n with
  | zero => rintro ⟨c, hc, _⟩; exact absurd hc (Nat.not_lt_zero c)
  | succ n ih =>
    rintro ⟨c, hc, hne⟩
    unfold lookForActiveTaskLoopDebug lookForActiveTaskLoop
    cases hd : k.pDueTaskAryAry n with
    | nil =>
      simp only
      apply ih
      refine ⟨c, ?_, hne⟩
      rcases Nat.lt_succ_iff_lt_or_eq.mp hc with h | h
      · exact h
      · rw [h, hd] at hne
        exact absurd rfl hne
    | cons pT rest => rfl

theorem lookForActiveTaskLoopDebug_none (k : Kernel) :
    ∀ (n : Nat), (∀ c, c < n → k.pDueTaskAryAry c = []) →
      lookForActiveTaskLoopDebug k n = none := by
  intro n
  induction n with
  | zero => intro _; rfl
  | succ n ih =>
    intro h
    unfold lookForActiveTaskLoopDebug
    rw [h n (Nat.lt_succ_self n)]
    exact ih (fun c hc => h c (Nat.lt_succ_of_lt hc))

theorem onTimerTicDebug_eq (cfg : Config) (k : Kernel) :
    onTimerTicDebug cfg k =
      if (if cfg.roundRobinModeSupported
          then onTimerTicRoundRobin (onTimerTicVisitAll cfg k).1 (onTimerTicVisitAll cfg k).2.2
          else ((onTimerTicVisitAll cfg k).1, (onTimerTicVisitAll cfg k).2.2)).2
      then lookForActiveTaskLoopDebug
        (if cfg.roundRobinModeSupported
          then onTimerTicRoundRobin (onTimerTicVisitAll cfg k).1 (onTimerTicVisitAll cfg k).2.2
          else ((onTimerTicVisitAll cfg k).1, (onTimerTicVisitAll cfg k).2.2)).1
        cfg.noPrioClasses
      else some ((if cfg.roundRobinModeSupported
          then onTimerTicRoundRobin (onTimerTicVisitAll cfg k).1 (onTimerTicVisitAll cfg k).2.2
          else ((onTimerTicVisitAll cfg k).1, (onTimerTicVisitAll cfg k).2.2)).1, false) := by
  unfold onTimerTicDebug
  simp only
  have h := onTimerTicLoop_eq cfg k
  simp only [Kernel.noSuspendedTasks] at h ⊢
  rw [h]

/-- The state in which `onTimerTic` calls `lookForActiveTask` has a non-empty due list. -/
theorem onTimerTic_select_nonempty {cfg : Config} {k : Kernel}
    (hI : ListsInv cfg k) (hA : ActiveInv cfg k)
    (hfl : (if cfg.roundRobinModeSupported
          then onTimerTicRoundRobin (onTimerTicVisitAll cfg k).1 (onTimerTicVisitAll cfg k).2.2
          else ((onTimerTicVisitAll cfg k).1, (onTimerTicVisitAll cfg k).2.2)).2 = true) :
    ∃ c, c < cfg.noPrioClasses ∧
      (if cfg.roundRobinModeSupported
          then onTimerTicRoundRobin (onTimerTicVisitAll cfg k).1 (onTimerTicVisitAll cfg k).2.2
          else ((onTimerTicVisitAll cfg k).1, (onTimerTicVisitAll cfg k).2.2)).1.pDueTaskAryAry c
        ≠ [] := by
  obtain ⟨h1, h2, h3, h4, h5, h6⟩ := onTimerTicVisitAll_inv hI hA
  cases hrr : cfg.roundRobinModeSupported with
  | false =>
    rw [hrr] at hfl
    simp only [Bool.false_eq_true, if_false] at hfl ⊢
    obtain ⟨c, hc⟩ := h5 hfl
    exact ⟨c, h1.due_class_lt c hc, hc⟩
  | true =>
    rw [hrr] at hfl
    simp only [if_true] at hfl ⊢
    have hhead : (onTimerTicVisitAll cfg k).1.pActiveTask ≠ IDLE_TASK_ID cfg →
        ∃ rest, (onTimerTicVisitAll cfg k).1.pDueTaskAryAry
          ((onTimerTicVisitAll cfg k).1.taskAry (onTimerTicVisitAll cfg k).1.pActiveTask).prioClass
            = (onTimerTicVisitAll cfg k).1.pActiveTask :: rest := by
      intro hne
      rw [h2] at hne ⊢
      rw [h3]
      rcases active_cases hI hA with ⟨e, _⟩ | ⟨_, _, ⟨rest, hr⟩, _⟩
      · exact absurd e hne
      · obtain ⟨l, hl⟩ := h6 (k.taskAry k.pActiveTask).prioClass
        exact ⟨rest ++ l, by rw [hl, hr]; rfl⟩
    obtain ⟨g1, g2, g3, g4, g5, g6⟩ :=
      onTimerTicRoundRobin_inv (onTimerTicVisitAll cfg k).2.2 h1 hhead
    rcases g6 hfl with e | ⟨c, hc⟩
    · obtain ⟨c, hc⟩ := h5 e
      exact ⟨c, g1.due_class_lt c (g5 c hc), g5 c hc⟩
    · exact ⟨c, g1.due_class_lt c hc, hc⟩

theorem onTimerTicDebug_some {cfg : Config} {k : Kernel}
    (hI : ListsInv cfg k) (hA : ActiveInv cfg k) :
    onTimerTicDebug cfg k = some (onTimerTic cfg k) := by
  rw [onTimerTicDebug_eq, onTimerTic_eq]
  have hsel := onTimerTic_select_nonempty hI hA
  generalize (if cfg.roundRobinModeSupported
        then onTimerTicRoundRobin (onTimerTicVisitAll cfg k).1 (onTimerTicVisitAll cfg k).2.2
        else ((onTimerTicVisitAll cfg k).1, (onTimerTicVisitAll cfg k).2.2)) = r2 at hsel ⊢
  cases hfl : r2.2 with
  | false => simp only [Bool.false_eq_true, if_false]
  | true =>
    simp only [if_true]
    unfold lookForActiveTask
    exact lookForActiveTaskLoopDebug_some _ _ (hsel hfl)

/-- C38: the assertion `ASSERT(false)` at the end of `lookForActiveTask` is not reached.  In
every reachable state the timer tic compiled with `DEBUG` returns what the production code
returns, i.e. no assertion fires; and whenever `sendEvent`, for any event vector, has set
`activeTaskMayChange` and calls `lookForActiveTask`, the due list of at least one priority
class below `RTOS_NO_PRIO_CLASSES` is not empty and the search returns from inside its loop
with the result of the production code. -/
theorem lookForActiveTask_assertion_unreachable {cfg : Config} (hcfg : cfg.WellFormed)
    {tasks : List TaskInit} (ht : TasksOk cfg tasks) {sem : Nat → Nat} {k : Kernel}
    (hr : Reachable cfg tasks sem k) :
    onTimerTicDebug cfg k = some (onTimerTic cfg k) ∧
    (∀ ev, (sendEventDeliver cfg k ev).2 = true →
      (∃ c, c < cfg.noPrioClasses ∧ (sendEventDeliver cfg k ev).1.pDueTaskAryAry c ≠ []) ∧
      lookForActiveTaskLoopDebug (sendEventDeliver cfg k ev).1 cfg.noPrioClasses
        = some (sendEvent cfg k ev)) := by
  obtain ⟨hI, hA⟩ := reachable_inv hcfg ht hr
  refine ⟨onTimerTicDebug_some hI hA, ?_⟩
  intro ev hfl
  obtain ⟨g1, _, _, _, g5⟩ := sendEventDeliver_inv hcfg hI hA ev
  obtain ⟨c, hc⟩ := g5 hfl
  have hex : ∃ c, c < cfg.noPrioClasses ∧ (sendEventDeliver cfg k ev).1.pDueTaskAryAry c ≠ [] :=
    ⟨c, g1.due_class_lt c hc, hc⟩
  refine ⟨hex, ?_⟩
  rw [lookForActiveTaskLoopDebug_some _ _ hex]
  unfold sendEvent lookForActiveTask
  simp only [hfl, if_true]

/-- C38, instance: in the scenario configuration the first timer tic makes task 0 due and the
search of `lookForActiveTask` finds it; in the state after this tic the event `0x0008` makes
task 2 due, and the search finds the active task 0. -/
theorem lookForActiveTask_assertion_unreachable_witness :
    cfgScenario.WellFormed ∧ TasksOk cfgScenario tasksScenario ∧
    (onTimerTicDebug cfgScenario (rtos_initRTOS cfgScenario tasksScenario (fun _ => 0))).isSome
      = true ∧
    (onTimerTic cfgScenario (rtos_initRTOS cfgScenario tasksScenario (fun _ => 0))).2 = true ∧
    (sendEventDeliver cfgScenario kAfterTic 0x0008).2 = true ∧
    (lookForActiveTaskLoopDebug (sendEventDeliver cfgScenario kAfterTic 0x0008).1
      cfgScenario.noPrioClasses).isSome = true :=
  ⟨by decide, tasksScenario_ok,
   by rw [(lookForActiveTask_assertion_unreachable (by decide) tasksScenario_ok
        (@Reachable.init cfgScenario tasksScenario (fun _ => 0))).1]; rfl,
   by decide, by decide,
   by rw [((lookForActiveTask_assertion_unreachable (by decide) tasksScenario_ok
        kAfterTic_reachable).2 0x0008 (by decide)).2]; rfl⟩

theorem onTimerTic_posted_mono (cfg : Config) {k : Kernel} (hnd : k.pSuspendedTaskAry.Nodup)
    (a j : Nat) (h : (k.taskAry a).postedEventVec.testBit j = true) :
    ((onTimerTic cfg k).1.taskAry a).postedEventVec.testBit j = true := by
  by_cases ha : a ∈ k.pSuspendedTaskAry
  · exact (onTimerTic_task cfg hnd a ha).2.1 j h
  · rw [onTimerTic_task_other cfg k a ha]
    exact h

theorem sendEvent_posted_mono {cfg : Config} (hcfg : cfg.WellFormed) {k : Kernel}
    (hnd : k.pSuspendedTaskAry.Nodup) (ev a j : Nat)
    (h : (k.taskAry a).postedEventVec.testBit j = true) :
    ((sendEvent cfg k ev).1.taskAry a).postedEventVec.testBit j = true := by
  by_cases ha : a ∈ k.pSuspendedTaskAry
  · exact (sendEvent_task hcfg hnd ev a ha).2.1 j h
  · rw [sendEvent_task_other cfg k ev a ha]
    exact h

theorem isrSystemTimerTic_posted_mono {cfg : Config} {k : Kernel}
    (hI : ListsInv cfg k) (hA : ActiveInv cfg k) (a : Nat)
    (ha : a ∈ (isrSystemTimerTic cfg k).pSuspendedTaskAry) (j : Nat)
    (h : (k.taskAry a).postedEventVec.testBit j = true) :
    ((isrSystemTimerTic cfg k).taskAry a).postedEventVec.testBit j = true := by
  obtain ⟨hI1, hA1⟩ := isrSystemTimerTic_inv hI hA
  have hne : a ≠ (isrSystemTimerTic cfg k).pActiveTask := by
    intro e
    exact active_not_suspended hI1 hA1 (e ▸ ha)
  have h1 := onTimerTic_posted_mono cfg hI.nodup a j h
  rw [isrSystemTimerTic_eq] at hne ⊢
  split at hne
  · rw [if_pos (by assumption)]
    rw [(pushRetCodeOfContextSwitch_frame _).2.2.2.2.2.1] at hne
    rw [(pushRetCodeOfContextSwitch_frame _).2.2.2.2.2.2.2.1 a hne]
    exact h1
  · rw [if_neg (by assumption)]
    exact h1

theorem rtos_sendEvent_posted_mono {cfg : Config} (hcfg : cfg.WellFormed) {k : Kernel}
    (hI : ListsInv cfg k) (hA : ActiveInv cfg k) (ev a : Nat)
    (ha : a ∈ (rtos_sendEvent cfg k ev).pSuspendedTaskAry) (j : Nat)
    (h : (k.taskAry a).postedEventVec.testBit j = true) :
    ((rtos_sendEvent cfg k ev).taskAry a).postedEventVec.testBit j = true := by
  obtain ⟨hI1, hA1⟩ := rtos_sendEvent_inv hcfg hI hA ev
  have hne : a ≠ (rtos_sendEvent cfg k ev).pActiveTask := by
    intro e
    exact active_not_suspended hI1 hA1 (e ▸ ha)
  have h1 := sendEvent_posted_mono hcfg hI.nodup ev a j h
  unfold rtos_sendEvent at hne ⊢
  simp only at hne ⊢
  split at hne
  · rw [if_pos (by assumption)]
    rw [(pushRetCodeOfContextSwitch_frame _).2.2.2.2.2.1] at hne
    rw [(pushRetCodeOfContextSwitch_frame _).2.2.2.2.2.2.2.1 a hne]
    exact h1
  · rw [if_neg (by assumption)]
    exact h1

theorem rtos_waitForEvent_posted_mono {cfg : Config} (hcfg : cfg.WellFormed) {k : Kernel}
    (hI : ListsInv cfg k) (hA : ActiveInv cfg k) (hidle : k.pActiveTask ≠ IDLE_TASK_ID cfg)
    (eventMask : Nat) (all : Bool) (timeout : Nat) (a : Nat)
    (ha : a ∈ (rtos_waitForEvent cfg k eventMask all timeout).1.pSuspendedTaskAry) (j : Nat)
    (h : (k.taskAry a).postedEventVec.testBit j = true) :
    ((rtos_waitForEvent cfg k eventMask all timeout).1.taskAry a).postedEventVec.testBit j
      = true := by
  obtain ⟨hI1, hA1⟩ := rtos_waitForEvent_inv hcfg hI hA hidle eventMask all timeout
  have hne : a ≠ (rtos_waitForEvent cfg k eventMask all timeout).1.pActiveTask := by
    intro e
    exact active_not_suspended hI1 hA1 (e ▸ ha)
  have hak : a ≠ k.pActiveTask := by
    intro e
    rw [e, hA.active_posted] at h
    simp at h
  unfold rtos_waitForEvent at hne ⊢
  rw [(pushRetCodeOfContextSwitch_frame _).2.2.2.2.2.1] at hne
  rw [(pushRetCodeOfContextSwitch_frame _).2.2.2.2.2.2.2.1 a hne,
    (waitForEvent_globals cfg hcfg.2.2.2.1 k eventMask all timeout hA.active_posted).2.2.2.2 a hak]
  exact h

theorem StaySuspended.posted_mono {cfg : Config} (hcfg : cfg.WellFormed)
    {tasks : List TaskInit} (ht : TasksOk cfg tasks) {sem : Nat → Nat} {a : Nat} {k k1 : Kernel}
    (hr : Reachable cfg tasks sem k) (h : StaySuspended cfg [a] k k1)
    (ha : a ∈ k.pSuspendedTaskAry) :
    a ∈ k1.pSuspendedTaskAry ∧
    ∀ j, (k.taskAry a).postedEventVec.testBit j = true →
      (k1.taskAry a).postedEventVec.testBit j = true := by
  induction h with
  | refl => exact ⟨ha, fun j hj => hj⟩
  | timerTic hs hstay ih =>
    obtain ⟨hI, hA⟩ := reachable_inv hcfg ht (hs.reachable hr)
    have hin := hstay a (List.mem_singleton_self a)
    exact ⟨hin, fun j hj => isrSystemTimerTic_posted_mono hI hA a hin j (ih.2 j hj)⟩
  | sendEvent ev hs hstay ih =>
    obtain ⟨hI, hA⟩ := reachable_inv hcfg ht (hs.reachable hr)
    have hin := hstay a (List.mem_singleton_self a)
    exact ⟨hin, fun j hj => rtos_sendEvent_posted_mono hcfg hI hA ev a hin j (ih.2 j hj)⟩
  | waitForEvent eventMask all timeout hs hidle hstay ih =>
    obtain ⟨hI, hA⟩ := reachable_inv hcfg ht (hs.reachable hr)
    have hin := hstay a (List.mem_singleton_self a)
    exact ⟨hin, fun j hj =>
      rtos_waitForEvent_posted_mono hcfg hI hA hidle eventMask all timeout a hin j (ih.2 j hj)⟩

/-- C36: the posted events of a task only grow while it is suspended.  For every reachable
state `k` and every task `a`: `onTimerTic` and `sendEvent` (any event vector) keep every event
which `a` has got; if `a` is suspended in `k` (for instance with the mutexes and semaphores it
has acquired at the begin of its wait) and kernel operations follow which lead to `k1` and
after each of which `a` is still suspended, then `a` is suspended in `k1` and has all the
events it had in `k`; and if the next timer tic or the next `rtos_sendEvent` makes `a` the
active task, then the return code handed over to `a` is its vector of posted events, which is
not null and holds all the events `a` had in `k`. -/
theorem postedEventVec_grows_while_suspended {cfg : Config} (hcfg : cfg.WellFormed)
    {tasks : List TaskInit} (ht : TasksOk cfg tasks) {sem : Nat → Nat} {k : Kernel}
    (hr : Reachable cfg tasks sem k) (a : Nat) :
    (∀ j, (k.taskAry a).postedEventVec.testBit j = true →
      ((onTimerTic cfg k).1.taskAry a).postedEventVec.testBit j = true) ∧
    (∀ ev j, (k.taskAry a).postedEventVec.testBit j = true →
      ((sendEvent cfg k ev).1.taskAry a).postedEventVec.testBit j = true) ∧
    (∀ k1, StaySuspended cfg [a] k k1 → a ∈ k.pSuspendedTaskAry →
      a ∈ k1.pSuspendedTaskAry ∧
      (∀ j, (k.taskAry a).postedEventVec.testBit j = true →
        (k1.taskAry a).postedEventVec.testBit j = true) ∧
      ((onTimerTic cfg k1).1.pActiveTask = a →
        ((onTimerTic cfg k1).1.taskAry a).postedEventVec ≠ 0 ∧
        (pushRetCodeOfContextSwitch (onTimerTic cfg k1).1).2
          = some ((onTimerTic cfg k1).1.taskAry a).postedEventVec ∧
        ∀ j, (k.taskAry a).postedEventVec.testBit j = true →
          ((onTimerTic cfg k1).1.taskAry a).postedEventVec.testBit j = true) ∧
      (∀ ev, (sendEvent cfg k1 ev).1.pActiveTask = a →
        ((sendEvent cfg k1 ev).1.taskAry a).postedEventVec ≠ 0 ∧
        (pushRetCodeOfContextSwitch (sendEvent cfg k1 ev).1).2
          = some ((sendEvent cfg k1 ev).1.taskAry a).postedEventVec ∧
        ∀ j, (k.taskAry a).postedEventVec.testBit j = true →
          ((sendEvent cfg k1 ev).1.taskAry a).postedEventVec.testBit j = true)) := by
  obtain ⟨hI, hA⟩ := reachable_inv hcfg ht hr
  refine ⟨fun j hj => onTimerTic_posted_mono cfg hI.nodup a j hj,
    fun ev j hj => sendEvent_posted_mono hcfg hI.nodup ev a j hj, ?_⟩
  intro k1 hs ha
  obtain ⟨hin, hmono⟩ := StaySuspended.posted_mono hcfg ht hr hs ha
  obtain ⟨hI1, hA1⟩ := reachable_inv hcfg ht (hs.reachable hr)
  refine ⟨hin, hmono, ?_, ?_⟩
  · intro hact
    obtain ⟨g1, g2, _⟩ := onTimerTic_inv hI1 hA1
    have hnot : a ∉ (onTimerTic cfg k1).1.pSuspendedTaskAry := by
      intro hmem
      rcases active_cases_of_eq g1 g2 with ⟨e, _⟩ | ⟨_, _, ⟨rest, hd⟩, _⟩
      · rw [hact] at e
        have := g1.susp_lt a hmem
        rw [e] at this
        exact absurd this (Nat.lt_irrefl _)
      · rw [hact] at hd
        have hlt := g1.susp_lt a hmem
        have hone := g1.once a hlt
        rw [hd, List.count_cons_self] at hone
        have : 0 < (onTimerTic cfg k1).1.pSuspendedTaskAry.count a :=
          List.count_pos_iff.mpr hmem
        omega
    have hnz := (onTimerTic_task cfg hI1.nodup a hin).2.2.2 hnot
    refine ⟨hnz, ?_, fun j hj => onTimerTic_posted_mono cfg hI1.nodup a j (hmono j hj)⟩
    rw [pushRetCodeOfContextSwitch_snd, hact, if_pos (Nat.pos_of_ne_zero hnz)]
  · intro ev hact
    obtain ⟨g1, g2, _⟩ := sendEvent_inv hcfg hI1 hA1 ev
    have hnot : a ∉ (sendEvent cfg k1 ev).1.pSuspendedTaskAry := by
      intro hmem
      rcases active_cases_of_eq g1 g2 with ⟨e, _⟩ | ⟨_, _, ⟨rest, hd⟩, _⟩
      · rw [hact] at e
        have := g1.susp_lt a hmem
        rw [e] at this
        exact absurd this (Nat.lt_irrefl _)
      · rw [hact] at hd
        have hlt := g1.susp_lt a hmem
        have hone := g1.once a hlt
        rw [hd, List.count_cons_self] at hone
        have : 0 < (sendEvent cfg k1 ev).1.pSuspendedTaskAry.count a :=
          List.count_pos_iff.mpr hmem
        omega
    have hnz := (sendEvent_task hcfg hI1.nodup ev a hin).2.2.2 hnot
    refine ⟨hnz, ?_, fun j hj => sendEvent_posted_mono hcfg hI1.nodup ev a j (hmono j hj)⟩
    rw [pushRetCodeOfContextSwitch_snd, hact, if_pos (Nat.pos_of_ne_zero hnz)]

theorem kPartlyPosted_reachable :
    Reachable cfgScenario tasksScenario (fun _ => 0) kPartlyPosted :=
  Reachable.sendEvent 0x0008
    (Reachable.waitForEvent 0x0018 true 0 kAfterTic_reachable (by decide))

/-- C36, instance: in the scenario configuration task 0 waits for all of the events 3 and 4
and has got event 3; it keeps this event over the next timer tic, and when event 4 is posted
afterwards it becomes the active task and gets the return code `0x0018`. -/
theorem postedEventVec_grows_while_suspended_witness :
    cfgScenario.WellFormed ∧ TasksOk cfgScenario tasksScenario ∧
    Reachable cfgScenario tasksScenario (fun _ => 0) kPartlyPosted ∧
    0 ∈ kPartlyPosted.pSuspendedTaskAry ∧
    (kPartlyPosted.taskAry 0).postedEventVec = 0x0008 ∧
    0 ∈ (isrSystemTimerTic cfgScenario kPartlyPosted).pSuspendedTaskAry ∧
    (sendEvent cfgScenario (isrSystemTimerTic cfgScenario kPartlyPosted) 0x0010).1.pActiveTask
      = 0 ∧
    ((sendEvent cfgScenario (isrSystemTimerTic cfgScenario kPartlyPosted) 0x0010).1.taskAry
      0).postedEventVec = 0x0018 ∧
    (pushRetCodeOfContextSwitch
      (sendEvent cfgScenario (isrSystemTimerTic cfgScenario kPartlyPosted) 0x0010).1).2
      = some ((sendEvent cfgScenario (isrSystemTimerTic cfgScenario kPartlyPosted)
          0x0010).1.taskAry 0).postedEventVec :=
  ⟨by decide, tasksScenario_ok, kPartlyPosted_reachable, by decide!, by decide!, by decide!,
   by decide!, by decide!,
   (((postedEventVec_grows_while_suspended (by decide) tasksScenario_ok
      kPartlyPosted_reachable 0).2.2 (isrSystemTimerTic cfgScenario kPartlyPosted)
      (StaySuspended.timerTic (StaySuspended.refl kPartlyPosted)
        (by intro a ha; rw [List.mem_singleton] at ha; subst ha; decide!))
      (by decide!)).2.2.2 0x0010 (by decide!)).2.1⟩

theorem onTimerTicLoopVisits_eq (cfg : Config) :
    ∀ (rest kept : List Nat) (k : Kernel) (fuel : Nat),
      k.pSuspendedTaskAry = kept ++ rest → rest.length ≤ fuel →
      onTimerTicLoopVisits cfg fuel kept.length k = rest := by
  intro rest
  induction rest with
  | nil =>
    intro kept k fuel hk _
    rw [List.append_nil] at hk
    cases fuel with
    | zero => rfl
    | succ n =>
      simp only [onTimerTicLoopVisits, Kernel.noSuspendedTasks, hk, Nat.lt_irrefl, if_false]
  | cons p rest ih =>
    intro kept k fuel hk hfuel
    cases fuel with
    | zero => simp at hfuel
    | succ n =>
      have hn : rest.length ≤ n := by simpa using hfuel
      have hlt : kept.length < k.noSuspendedTasks := by
        simp [Kernel.noSuspendedTasks, hk]
      have hget : k.pSuspendedTaskAry[kept.length]?.getD (IDLE_TASK_ID cfg) = p := by
        rw [hk]; exact getD_append_cons _ _ _ _
      unfold onTimerTicLoopVisits
      simp only [hlt, if_true, hget, setTask_taskAry_same, checkTaskForActivation_snd,
        setTask_pSuspendedTaskAry]
      by_cases hc : ((k.taskAry p).postedEventVec !=
            (onTimerTicTask k.time (k.taskAry p)).postedEventVec
          && taskBecomesDue (onTimerTicTask k.time (k.taskAry p))) = true
      · rw [if_pos hc]
        have hdue : taskBecomesDue ((k.setTask p (onTimerTicTask k.time (k.taskAry p))).taskAry
              ((k.setTask p (onTimerTicTask k.time
                (k.taskAry p))).pSuspendedTaskAry[kept.length]?.getD
                  (IDLE_TASK_ID cfg))) = true := by
          rw [setTask_pSuspendedTaskAry, hget, setTask_taskAry_same]
          simp only [Bool.and_eq_true] at hc
          exact hc.2
        rw [checkTaskForActivation_fst_of_due cfg _ _ hdue]
        simp only [setTask_pSuspendedTaskAry, hk, getD_append_cons, eraseIdx_append_cons]
        rw [ih kept _ n rfl hn]
      · rw [if_neg hc]
        have hk1 : (k.setTask p (onTimerTicTask k.time (k.taskAry p))).pSuspendedTaskAry
              = (kept ++ [p]) ++ rest := by
          simp [hk]
        have hlen : kept.length + 1 = (kept ++ [p]).length := by simp
        rw [hlen, ih (kept ++ [p]) _ n hk1 hn]

theorem sendEventLoopVisits_eq (cfg : Config) :
    ∀ (rest kept : List Nat) (k : Kernel) (v : SendEventLocals) (fuel : Nat),
      k.pSuspendedTaskAry = kept ++ rest → rest.length ≤ fuel →
      sendEventLoopVisits cfg fuel kept.length k v = rest := by
  intro rest
  induction rest with
  | nil =>
    intro kept k v fuel hk _
    rw [List.append_nil] at hk
    cases fuel with
    | zero => rfl
    | succ n =>
      simp only [sendEventLoopVisits, Kernel.noSuspendedTasks, hk, Nat.lt_irrefl, if_false]
  | cons p rest ih =>
    intro kept k v fuel hk hfuel
    cases fuel with
    | zero => simp at hfuel
    | succ n =>
      have hn : rest.length ≤ n := by simpa using hfuel
      have hlt : kept.length < k.noSuspendedTasks := by
        simp [Kernel.noSuspendedTasks, hk]
      have hget : k.pSuspendedTaskAry[kept.length]?.getD (IDLE_TASK_ID cfg) = p := by
        rw [hk]; exact getD_append_cons _ _ _ _
      unfold sendEventLoopVisits
      simp only [hlt, if_true, hget, setTask_taskAry_same, checkTaskForActivation_snd,
        setTask_pSuspendedTaskAry]
      by_cases hc : ((k.taskAry p).postedEventVec !=
            (sendEventTask cfg (k.taskAry p) v.postedEventVec v.mutexToReleaseVec
              v.semaphoreToReleaseVec).1.postedEventVec
          && taskBecomesDue (sendEventTask cfg (k.taskAry p) v.postedEventVec
              v.mutexToReleaseVec v.semaphoreToReleaseVec).1) = true
      · rw [if_pos hc]
        have hdue : taskBecomesDue ((k.setTask p (sendEventTask cfg (k.taskAry p)
            v.postedEventVec v.mutexToReleaseVec v.semaphoreToReleaseVec).1).taskAry
              ((k.setTask p (sendEventTask cfg (k.taskAry p) v.postedEventVec
                v.mutexToReleaseVec v.semaphoreToReleaseVec).1).pSuspendedTaskAry[kept.length]?.getD
                  (IDLE_TASK_ID cfg))) = true := by
          rw [setTask_pSuspendedTaskAry, hget, setTask_taskAry_same]
          simp only [Bool.and_eq_true] at hc
          exact hc.2
        rw [checkTaskForActivation_fst_of_due cfg _ _ hdue]
        simp only [setTask_pSuspendedTaskAry, hk, getD_append_cons, eraseIdx_append_cons]
        rw [ih kept _ _ n rfl hn]
      · rw [if_neg hc]
        have hk1 : (k.setTask p (sendEventTask cfg (k.taskAry p) v.postedEventVec
            v.mutexToReleaseVec v.semaphoreToReleaseVec).1).pSuspendedTaskAry
              = (kept ++ [p]) ++ rest := by
          simp [hk]
        have hlen : kept.length + 1 = (kept ++ [p]).length := by simp
        rw [hlen, ih (kept ++ [p]) _ _ n hk1 hn]

theorem sendEvent_task_result {cfg : Config} {k : Kernel} (hnd : k.pSuspendedTaskAry.Nodup)
    (ev : Nat) (pre : List Nat) (p : Nat) (post : List Nat)
    (hdec : k.pSuspendedTaskAry = pre ++ p :: post) :
    (sendEvent cfg k ev).1.taskAry p =
      { (sendEventTask cfg (k.taskAry p) (sendEventInit cfg ev).postedEventVec
          (visitLocals (sendEventVisit cfg (sendEventInit cfg ev).postedEventVec) k.taskAry pre
            ((sendEventInit cfg ev).mutexToReleaseVec,
             (sendEventInit cfg ev).semaphoreToReleaseVec)).1
          (visitLocals (sendEventVisit cfg (sendEventInit cfg ev).postedEventVec) k.taskAry pre
            ((sendEventInit cfg ev).mutexToReleaseVec,
             (sendEventInit cfg ev).semaphoreToReleaseVec)).2).1 with
          cntRoundRobin := ((sendEvent cfg k ev).1.taskAry p).cntRoundRobin } := by
  obtain ⟨f1, _⟩ := sendEvent_frame cfg k ev
  obtain ⟨_, r2⟩ := walkSuspended_result cfg
    (sendEventVisit cfg (sendEventInit cfg ev).postedEventVec) k.pSuspendedTaskAry
    { k with pSuspendedTaskAry := [] }
    ((sendEventInit cfg ev).mutexToReleaseVec, (sendEventInit cfg ev).semaphoreToReleaseVec)
    false hnd
  obtain ⟨g1, _⟩ := r2 pre p post hdec
  rw [f1]
  exact g1

/-- C35: in one invocation of `onTimerTic` the loop over the suspended tasks executes its body
exactly once for each task which is in the list of suspended tasks at entry, in the order of
the list, also if tasks are taken out of the list during the loop: the sequence of the tasks
`pT` of the iterations is the list at entry, which holds no task twice.  Accordingly the task
object of each of these tasks after `onTimerTic` is the result of a single execution of the
timer checks of the loop body with the incremented time (apart from the round robin counter,
which is reloaded when the task becomes due), and its delay counter is decremented by one if
it was not null.  The same holds for the loop of `sendEvent`, for every event vector: the
task object of the task behind the tasks `pre` is the result of a single execution of the
loop body with the values the local variables have after the visits of `pre`. -/
theorem suspended_tasks_visited_once {cfg : Config} (hcfg : cfg.WellFormed)
    {tasks : List TaskInit} (ht : TasksOk cfg tasks) {sem : Nat → Nat} {k : Kernel}
    (hr : Reachable cfg tasks sem k) :
    k.pSuspendedTaskAry.Nodup ∧
    onTimerTicLoopVisits cfg k.noSuspendedTasks 0
      { k with time := (k.time + 1) % 2 ^ cfg.timeBits } = k.pSuspendedTaskAry ∧
    (∀ p ∈ k.pSuspendedTaskAry,
      (onTimerTic cfg k).1.taskAry p =
        { onTimerTicTask ((k.time + 1) % 2 ^ cfg.timeBits) (k.taskAry p) with
            cntRoundRobin := ((onTimerTic cfg k).1.taskAry p).cntRoundRobin } ∧
      ((onTimerTic cfg k).1.taskAry p).cntDelay = (k.taskAry p).cntDelay - 1) ∧
    (∀ ev,
      sendEventLoopVisits cfg k.noSuspendedTasks 0 k (sendEventInit cfg ev)
        = k.pSuspendedTaskAry ∧
      ∀ pre p post, k.pSuspendedTaskAry = pre ++ p :: post →
        (sendEvent cfg k ev).1.taskAry p =
          { (sendEventTask cfg (k.taskAry p) (sendEventInit cfg ev).postedEventVec
              (visitLocals (sendEventVisit cfg (sendEventInit cfg ev).postedEventVec) k.taskAry
                pre ((sendEventInit cfg ev).mutexToReleaseVec,
                     (sendEventInit cfg ev).semaphoreToReleaseVec)).1
              (visitLocals (sendEventVisit cfg (sendEventInit cfg ev).postedEventVec) k.taskAry
                pre ((sendEventInit cfg ev).mutexToReleaseVec,
                     (sendEventInit cfg ev).semaphoreToReleaseVec)).2).1 with
              cntRoundRobin := ((sendEvent cfg k ev).1.taskAry p).cntRoundRobin }) := by
  obtain ⟨hI, _⟩ := reachable_inv hcfg ht hr
  have hnd := hI.nodup
  refine ⟨hnd, ?_, ?_, ?_⟩
  · exact onTimerTicLoopVisits_eq cfg k.pSuspendedTaskAry []
      { k with time := (k.time + 1) % 2 ^ cfg.timeBits } k.pSuspendedTaskAry.length rfl
      (Nat.le_refl _)
  · intro p hp
    have h1 := (onTimerTic_task_result cfg hnd p hp).1
    refine ⟨h1, ?_⟩
    rw [h1]
    exact onTimerTicTask_cntDelay _ _
  · intro ev
    refine ⟨sendEventLoopVisits_eq cfg k.pSuspendedTaskAry [] k (sendEventInit cfg ev)
      k.pSuspendedTaskAry.length rfl (Nat.le_refl _), ?_⟩
    intro pre p post hdec
    exact sendEvent_task_result hnd ev pre p post hdec

/-- C35, instance: in the state `kPreempt` of the scenario configuration the tasks 0 and 2 are
suspended and both wait for event 3; the event `0x0008` resumes both: task 0 is taken out of
the list by the first iteration and task 2, which has moved to the first position, is visited
by the second iteration.  A timer tic visits both tasks and decrements the delay counter of
task 2 from 2 to 1. -/
theorem suspended_tasks_visited_once_witness :
    cfgScenario.WellFormed ∧ TasksOk cfgScenario tasksScenario ∧
    kPreempt.pSuspendedTaskAry = [0, 2] ∧
    (sendEvent cfgScenario kPreempt 0x0008).1.pSuspendedTaskAry = [] ∧
    sendEventLoopVisits cfgScenario kPreempt.noSuspendedTasks 0 kPreempt
      (sendEventInit cfgScenario 0x0008) = kPreempt.pSuspendedTaskAry ∧
    onTimerTicLoopVisits cfgScenario kPreempt.noSuspendedTasks 0
      { kPreempt with time := (kPreempt.time + 1) % 2 ^ cfgScenario.timeBits }
        = kPreempt.pSuspendedTaskAry ∧
    (kPreempt.taskAry 2).cntDelay = 2 ∧
    ((onTimerTic cfgScenario kPreempt).1.taskAry 2).cntDelay = (kPreempt.taskAry 2).cntDelay - 1 :=
  ⟨by decide, tasksScenario_ok, by decide!, by decide!,
   ((suspended_tasks_visited_once (by decide) tasksScenario_ok kPreempt_reachable).2.2.2
      0x0008).1,
   (suspended_tasks_visited_once (by decide) tasksScenario_ok kPreempt_reachable).2.1,
   by decide!,
   ((suspended_tasks_visited_once (by decide) tasksScenario_ok kPreempt_reachable).2.2.1 2
      (by decide!)).2⟩

theorem execute_append (p q : List Instr) (c : Cpu) :
    execute (p ++ q) c = execute q (execute p c) := by
  unfold execute
  rw [List.foldl_append]

theorem execute_cons (i : Instr) (p : List Instr) (c : Cpu) :
    execute (i :: p) c = execute p (i.exec c) := rfl

theorem execute_nil (c : Cpu) : execute [] c = c := rfl

theorem exec_push (r : Nat) (c : Cpu) (h1 : 1 ≤ c.sp) (h2 : c.sp < 0x10000) :
    ((Instr.push r).exec c).sp = c.sp - 1 ∧
    ((Instr.push r).exec c).ram = Function.update c.ram c.sp (c.reg r) ∧
    ((Instr.push r).exec c).reg = c.reg ∧
    ((Instr.push r).exec c).sreg = c.sreg ∧
    ((Instr.push r).exec c).tmpVarCToAsm_u16 = c.tmpVarCToAsm_u16 := by
  simp only [Instr.exec, and_true]
  omega

theorem exec_pop (r : Nat) (c : Cpu) (h2 : c.sp + 1 < 0x10000) :
    ((Instr.pop r).exec c).sp = c.sp + 1 ∧
    ((Instr.pop r).exec c).ram = c.ram ∧
    ((Instr.pop r).exec c).reg = Function.update c.reg r (c.ram (c.sp + 1)) ∧
    ((Instr.pop r).exec c).sreg = c.sreg ∧
    ((Instr.pop r).exec c).tmpVarCToAsm_u16 = c.tmpVarCToAsm_u16 := by
  have h : (c.sp + 1) % 0x10000 = c.sp + 1 := Nat.mod_eq_of_lt h2
  simp only [Instr.exec, h, and_true]

/-- A sequence of pushes, a stack neutral middle part and the pops in reverse order: the
pushed registers are restored, the other registers and the status register are as the middle
part leaves them, the stack pointer and the RAM above it are restored. -/
theorem execute_bracket (mid : List Instr) (m : Nat)
    (hmid : ∀ c : Cpu, m ≤ c.sp → c.sp < 0x10000 →
      (execute mid c).sp = c.sp ∧ ∀ a, c.sp < a → (execute mid c).ram a = c.ram a) :
    ∀ (rs : List Nat) (c : Cpu), rs.length + m ≤ c.sp → c.sp < 0x10000 →
      (execute (rs.map Instr.push ++ mid ++ rs.reverse.map Instr.pop) c).sp = c.sp ∧
      (∀ a, c.sp < a →
        (execute (rs.map Instr.push ++ mid ++ rs.reverse.map Instr.pop) c).ram a = c.ram a) ∧
      (∀ r ∈ rs,
        (execute (rs.map Instr.push ++ mid ++ rs.reverse.map Instr.pop) c).reg r = c.reg r) ∧
      (∀ r, r ∉ rs →
        (execute (rs.map Instr.push ++ mid ++ rs.reverse.map Instr.pop) c).reg r
          = (execute mid (execute (rs.map Instr.push) c)).reg r) ∧
      (execute (rs.map Instr.push ++ mid ++ rs.reverse.map Instr.pop) c).sreg
        = (execute mid (execute (rs.map Instr.push) c)).sreg ∧
      (execute (rs.map Instr.push ++ mid ++ rs.reverse.map Instr.pop) c).tmpVarCToAsm_u16
        = (execute mid (execute (rs.map Instr.push) c)).tmpVarCToAsm_u16 := by
  intro rs
  induction rs with
  | nil =>
    intro c h1 h2
    simp only [List.map_nil, List.reverse_nil, List.nil_append, List.append_nil, execute_nil,
      List.length_nil, Nat.zero_add] at h1 ⊢
    obtain ⟨e1, e2⟩ := hmid c h1 h2
    exact ⟨e1, e2, fun r hr => absurd hr (List.not_mem_nil r), fun _ _ => trivial, trivial,
      trivial⟩
  | cons r rest ih =>
    intro c h1 h2
    have hl : (r :: rest).length = rest.length + 1 := rfl
    rw [hl] at h1
    obtain ⟨p1, p2, p3, p4, p5⟩ := exec_push r c (by omega) h2
    have hprog : (r :: rest).map Instr.push ++ mid ++ (r :: rest).reverse.map Instr.pop
        = Instr.push r :: ((rest.map Instr.push ++ mid ++ rest.reverse.map Instr.pop)
            ++ [Instr.pop r]) := by
      simp [List.reverse_cons, List.map_append]
    rw [hprog, execute_cons, execute_append]
    have hpush : execute ((r :: rest).map Instr.push) c
        = execute (rest.map Instr.push) ((Instr.push r).exec c) := by
      rw [List.map_cons, execute_cons]
    rw [hpush]
    obtain ⟨i1, i2, i3, i4, i5, i6⟩ :=
      ih ((Instr.push r).exec c) (by rw [p1]; omega) (by rw [p1]; omega)
    generalize execute (rest.map Instr.push ++ mid ++ rest.reverse.map Instr.pop)
      ((Instr.push r).exec c) = c2 at i1 i2 i3 i4 i5 i6 ⊢
    rw [p1] at i1 i2
    obtain ⟨q1, q2, q3, q4, q5⟩ := exec_pop r c2 (by rw [i1]; omega)
    have hsp : c2.sp + 1 = c.sp := by rw [i1]; omega
    have hcell : c2.ram c.sp = c.reg r := by
      rw [i2 c.sp (by omega), p2, Function.update_same]
    show (execute [Instr.pop r] c2).sp = c.sp ∧ _
    have hone : execute [Instr.pop r] c2 = (Instr.pop r).exec c2 := rfl
    rw [hone, q1, q2, q3, q4, q5, hsp, hcell]
    refine ⟨rfl, ?_, ?_, ?_, i5, i6⟩
    · intro a ha
      rw [i2 a (by omega), p2, Function.update_noteq (by omega)]
    · intro r1 hr1
      by_cases e : r1 = r
      · rw [e, Function.update_same]
      · rw [Function.update_noteq e]
        rcases List.mem_cons.mp hr1 with h | h
        · exact absurd h e
        · rw [i3 r1 h, p3]
    · intro r1 hr1
      have e : r1 ≠ r := fun h => hr1 (h ▸ List.mem_cons_self _ _)
      have hn : r1 ∉ rest := fun h => hr1 (List.mem_cons_of_mem _ h)
      rw [Function.update_noteq e, i4 r1 hn]

theorem execute_pushes (rs : List Nat) :
    ∀ (c : Cpu), rs.length ≤ c.sp → c.sp < 0x10000 →
      (execute (rs.map Instr.push) c).sp = c.sp - rs.length ∧
      (execute (rs.map Instr.push) c).reg = c.reg ∧
      (execute (rs.map Instr.push) c).sreg = c.sreg ∧
      (execute (rs.map Instr.push) c).tmpVarCToAsm_u16 = c.tmpVarCToAsm_u16 ∧
      (∀ a, c.sp < a → (execute (rs.map Instr.push) c).ram a = c.ram a) := by
  induction rs with
  | nil => intro c _ _; exact ⟨rfl, rfl, rfl, rfl, fun _ _ => rfl⟩
  | cons r rest ih =>
    intro c h1 h2
    have hl : (r :: rest).length = rest.length + 1 := rfl
    rw [hl] at h1 ⊢
    obtain ⟨p1, p2, p3, p4, p5⟩ := exec_push r c (by omega) h2
    obtain ⟨i1, i2, i3, i4, i5⟩ :=
      ih ((Instr.push r).exec c) (by rw [p1]; omega) (by rw [p1]; omega)
    have hpush : execute ((r :: rest).map Instr.push) c
        = execute (rest.map Instr.push) ((Instr.push r).exec c) := by
      rw [List.map_cons, execute_cons]
    rw [hpush, i1, i2, i3, i4, p1, p3, p4, p5]
    refine ⟨by omega, rfl, rfl, rfl, ?_⟩
    intro a ha
    rw [i5 a (by rw [p1]; omega), p2, Function.update_noteq (by omega)]

theorem mem_contextRegs (r : Nat) (h : r < 32) (h0 : r ≠ 0) (h24 : r ≠ 24) (h25 : r ≠ 25) :
    r ∈ contextRegs := by
  unfold contextRegs
  interval_cases r <;> simp at h0 h24 h25 ⊢

/-- The context macros around a middle part `mid`: if `mid` followed by `pop r25`, `pop r24`
is stack neutral and takes at most `m` bytes of stack, then all registers pushed by
`PUSH_CONTEXT_WITHOUT_R24R25_ONTO_STACK`, the status register, the stack pointer and the RAM
above it are restored; the registers `r24` and `r25` are as the middle part leaves them. -/
theorem context_bracket (mid : List Instr) (m : Nat)
    (hmid : ∀ c : Cpu, m ≤ c.sp → c.sp < 0x10000 →
      (execute (mid ++ [Instr.pop 25, Instr.pop 24]) c).sp = c.sp ∧
      ∀ a, c.sp < a → (execute (mid ++ [Instr.pop 25, Instr.pop 24]) c).ram a = c.ram a)
    (c : Cpu) (h1 : 31 + m ≤ c.sp) (h2 : c.sp < 0x10000) :
    (execute (PUSH_CONTEXT_WITHOUT_R24R25_ONTO_STACK ++ mid ++ POP_CONTEXT_FROM_STACK) c).sp
      = c.sp ∧
    (execute (PUSH_CONTEXT_WITHOUT_R24R25_ONTO_STACK ++ mid ++ POP_CONTEXT_FROM_STACK) c).sreg
      = c.sreg ∧
    (∀ a, c.sp < a →
      (execute (PUSH_CONTEXT_WITHOUT_R24R25_ONTO_STACK ++ mid ++ POP_CONTEXT_FROM_STACK) c).ram a
        = c.ram a) ∧
    (∀ r, r < 32 → r ≠ 24 → r ≠ 25 →
      (execute (PUSH_CONTEXT_WITHOUT_R24R25_ONTO_STACK ++ mid ++ POP_CONTEXT_FROM_STACK) c).reg r
        = c.reg r) ∧
    (∀ r, r = 24 ∨ r = 25 →
      (execute (PUSH_CONTEXT_WITHOUT_R24R25_ONTO_STACK ++ mid ++ POP_CONTEXT_FROM_STACK) c).reg r
        = (execute (mid ++ [Instr.pop 25, Instr.pop 24])
            (execute PUSH_CONTEXT_WITHOUT_R24R25_ONTO_STACK c)).reg r) := by
  have hprog : PUSH_CONTEXT_WITHOUT_R24R25_ONTO_STACK ++ mid ++ POP_CONTEXT_FROM_STACK
      = [Instr.push 0, Instr.inSreg 0, Instr.push 0]
        ++ ((contextRegs.map Instr.push ++ (mid ++ [Instr.pop 25, Instr.pop 24])
              ++ contextRegs.reverse.map Instr.pop)
            ++ [Instr.pop 0, Instr.outSreg 0, Instr.pop 0]) := by
    simp [PUSH_CONTEXT_WITHOUT_R24R25_ONTO_STACK, POP_CONTEXT_FROM_STACK, contextRegs]
  have hpush : PUSH_CONTEXT_WITHOUT_R24R25_ONTO_STACK
      = [Instr.push 0, Instr.inSreg 0, Instr.push 0] ++ contextRegs.map Instr.push := by
    simp [PUSH_CONTEXT_WITHOUT_R24R25_ONTO_STACK, contextRegs]
  rw [hprog, hpush]
  simp only [execute_append, List.cons_append, List.nil_append, execute_cons, execute_nil]
  -- the first three instructions
  obtain ⟨a1, a2, a3, a4, _⟩ := exec_push 0 c (by omega) h2
  generalize (Instr.push 0).exec c = c1 at a1 a2 a3 a4 ⊢
  have b1 : ((Instr.inSreg 0).exec c1).sp = c1.sp := by simp only [Instr.exec]
  have b2 : ((Instr.inSreg 0).exec c1).ram = c1.ram := by simp only [Instr.exec]
  have b3 : ((Instr.inSreg 0).exec c1).reg = Function.update c1.reg 0 c1.sreg := by
    simp only [Instr.exec]
  have b4 : ((Instr.inSreg 0).exec c1).sreg = c1.sreg := by simp only [Instr.exec]
  generalize (Instr.inSreg 0).exec c1 = c2 at b1 b2 b3 b4 ⊢
  obtain ⟨d1, d2, d3, d4, _⟩ := exec_push 0 c2 (by rw [b1, a1]; omega) (by rw [b1, a1]; omega)
  generalize (Instr.push 0).exec c2 = c3 at d1 d2 d3 d4 ⊢
  have hsp3 : c3.sp = c.sp - 2 := by rw [d1, b1, a1]; omega
  have hlen : contextRegs.length = 29 := rfl
  -- the pushes, the middle part and the pops of the registers
  obtain ⟨e1, e2, e3, e4, _, _⟩ :=
    execute_bracket (mid ++ [Instr.pop 25, Instr.pop 24]) m hmid contextRegs c3
      (by rw [hlen, hsp3]; omega) (by rw [hsp3]; omega)
  simp only [execute_append, execute_cons, execute_nil] at e1 e2 e3 e4
  generalize execute (contextRegs.reverse.map Instr.pop)
    ((Instr.pop 24).exec ((Instr.pop 25).exec
      (execute mid (execute (contextRegs.map Instr.push) c3)))) = c4 at e1 e2 e3 e4 ⊢
  -- the last three instructions
  obtain ⟨f1, f2, f3, f4, _⟩ := exec_pop 0 c4 (by rw [e1, hsp3]; omega)
  generalize (Instr.pop 0).exec c4 = c5 at f1 f2 f3 f4 ⊢
  have g1 : ((Instr.outSreg 0).exec c5).sp = c5.sp := by simp only [Instr.exec]
  have g2 : ((Instr.outSreg 0).exec c5).ram = c5.ram := by simp only [Instr.exec]
  have g3 : ((Instr.outSreg 0).exec c5).reg = c5.reg := by simp only [Instr.exec]
  have g4 : ((Instr.outSreg 0).exec c5).sreg = c5.reg 0 := by simp only [Instr.exec]
  generalize (Instr.outSreg 0).exec c5 = c6 at g1 g2 g3 g4 ⊢
  obtain ⟨i1, i2, i3, i4, _⟩ := exec_pop 0 c6 (by rw [g1, f1, e1, hsp3]; omega)
  -- the cells which hold the status register and r0
  have hcellS : c4.ram (c4.sp + 1) = c.sreg := by
    rw [e2 (c4.sp + 1) (by rw [e1]; omega), d2, e1, d1]
    have : c2.sp - 1 + 1 = c2.sp := by rw [b1, a1]; omega
    rw [this, Function.update_same, b3, Function.update_same, a4]
  have hcell0 : c6.ram (c6.sp + 1) = c.reg 0 := by
    have hs : c6.sp + 1 = c.sp := by rw [g1, f1, e1, hsp3]; omega
    rw [hs, g2, f2, e2 c.sp (by rw [hsp3]; omega), d2,
      Function.update_noteq (by rw [b1, a1]; omega), b2, a2, Function.update_same]
  refine ⟨?_, ?_, ?_, ?_, ?_⟩
  · rw [i1, g1, f1, e1, hsp3]; omega
  · rw [i4, g4, f3, Function.update_same, hcellS]
  · intro a ha
    rw [i2, g2, f2, e2 a (by rw [hsp3]; omega), d2,
      Function.update_noteq (by rw [b1, a1]; omega), b2, a2, Function.update_noteq (by omega)]
  · intro r hr h24 h25
    rw [i3, hcell0]
    by_cases h0 : r = 0
    · rw [h0, Function.update_same]
    · rw [Function.update_noteq h0, g3, f3, Function.update_noteq h0,
        e3 r (mem_contextRegs r hr h0 h24 h25), d3, b3, Function.update_noteq h0, a3]
  · intro r hr
    have h0 : r ≠ 0 := by rcases hr with h | h <;> omega
    have hn : r ∉ contextRegs := by
      rcases hr with h | h <;> subst h <;> decide
    rw [i3, Function.update_noteq h0, g3, f3, Function.update_noteq h0, e4 r hn]

theorem execute_pops_reg (r : Nat) :
    ∀ (rs : List Nat) (c : Cpu), r ∉ rs → (execute (rs.map Instr.pop) c).reg r = c.reg r := by
  intro rs
  induction rs with
  | nil => intro c _; rfl
  | cons q rest ih =>
    intro c hr
    rw [List.map_cons, execute_cons, ih _ (fun h => hr (List.mem_cons_of_mem _ h))]
    have hq : r ≠ q := fun h => hr (h ▸ List.mem_cons_self _ _)
    simp only [Instr.exec, Function.update_noteq hq]

/-- The registers `r24` and `r25` after `POP_CONTEXT_FROM_STACK` are the two bytes on top of
the stack: `r25` is the byte pushed last. -/
theorem POP_CONTEXT_FROM_STACK_r24r25 (c : Cpu) (h2 : c.sp + 2 < 0x10000) :
    (execute POP_CONTEXT_FROM_STACK c).reg 24 = c.ram (c.sp + 2) ∧
    (execute POP_CONTEXT_FROM_STACK c).reg 25 = c.ram (c.sp + 1) := by
  have hprog : POP_CONTEXT_FROM_STACK
      = [Instr.pop 25, Instr.pop 24]
        ++ (([31, 30, 29, 28, 27, 26, 23, 22, 21, 20, 19, 18, 17, 16, 15, 14, 13, 12, 11, 10,
              9, 8, 7, 6, 5, 4, 3, 2, 1, 0].map Instr.pop)
            ++ [Instr.outSreg 0, Instr.pop 0]) := by
    simp [POP_CONTEXT_FROM_STACK]
  rw [hprog]
  simp only [execute_append, List.cons_append, List.nil_append, execute_cons, execute_nil]
  obtain ⟨a1, a2, a3, _, _⟩ := exec_pop 25 c (by omega)
  generalize (Instr.pop 25).exec c = c1 at a1 a2 a3 ⊢
  obtain ⟨b1, b2, b3, _, _⟩ := exec_pop 24 c1 (by rw [a1]; omega)
  generalize (Instr.pop 24).exec c1 = c2 at b1 b2 b3 ⊢
  have e24 := execute_pops_reg 24 [31, 30, 29, 28, 27, 26, 23, 22, 21, 20, 19, 18, 17, 16, 15,
    14, 13, 12, 11, 10, 9, 8, 7, 6, 5, 4, 3, 2, 1, 0] c2 (by decide)
  have e25 := execute_pops_reg 25 [31, 30, 29, 28, 27, 26, 23, 22, 21, 20, 19, 18, 17, 16, 15,
    14, 13, 12, 11, 10, 9, 8, 7, 6, 5, 4, 3, 2, 1, 0] c2 (by decide)
  generalize execute (List.map Instr.pop [31, 30, 29, 28, 27, 26, 23, 22, 21, 20, 19, 18, 17,
    16, 15, 14, 13, 12, 11, 10, 9, 8, 7, 6, 5, 4, 3, 2, 1, 0]) c2 = c3 at e24 e25 ⊢
  have h24 : (24 : Nat) ≠ 0 := by decide
  have h25 : (25 : Nat) ≠ 0 := by decide
  have h2425 : (24 : Nat) ≠ 25 := by decide
  have h2524 : (25 : Nat) ≠ 24 := by decide
  simp only [Instr.exec, Function.update_noteq h24, Function.update_noteq h25]
  rw [e24, e25, b3, Function.update_same, Function.update_noteq h2524, a3, Function.update_same,
    a2, a1]
  exact ⟨rfl, rfl⟩

/-- The assembler part of `PUSH_RET_CODE_OF_CONTEXT_SWITCH`: the low byte of
`_tmpVarCToAsm_u16` is pushed first, the high byte second; `r0` is used as scratch
register. -/
theorem execute_PUSH_RET_CODE_ASM (c : Cpu) (h1 : 2 ≤ c.sp) (h2 : c.sp < 0x10000) :
    (execute PUSH_RET_CODE_ASM c).sp = c.sp - 2 ∧
    (execute PUSH_RET_CODE_ASM c).ram c.sp = c.tmpVarCToAsm_u16 % 0x100 ∧
    (execute PUSH_RET_CODE_ASM c).ram (c.sp - 1) = c.tmpVarCToAsm_u16 / 0x100 % 0x100 ∧
    (∀ a, c.sp < a → (execute PUSH_RET_CODE_ASM c).ram a = c.ram a) ∧
    (∀ r, r ≠ 0 → (execute PUSH_RET_CODE_ASM c).reg r = c.reg r) ∧
    (execute PUSH_RET_CODE_ASM c).sreg = c.sreg ∧
    (execute PUSH_RET_CODE_ASM c).tmpVarCToAsm_u16 = c.tmpVarCToAsm_u16 := by
  unfold PUSH_RET_CODE_ASM
  simp only [execute_cons, execute_nil]
  have a1 : ((Instr.ldsLow 0).exec c).sp = c.sp := by simp only [Instr.exec]
  have a2 : ((Instr.ldsLow 0).exec c).ram = c.ram := by simp only [Instr.exec]
  have a3 : ((Instr.ldsLow 0).exec c).reg = Function.update c.reg 0 (c.tmpVarCToAsm_u16 % 0x100) := by
    simp only [Instr.exec]
  have a4 : ((Instr.ldsLow 0).exec c).sreg = c.sreg := by simp only [Instr.exec]
  have a5 : ((Instr.ldsLow 0).exec c).tmpVarCToAsm_u16 = c.tmpVarCToAsm_u16 := by
    simp only [Instr.exec]
  generalize (Instr.ldsLow 0).exec c = c1 at a1 a2 a3 a4 a5 ⊢
  obtain ⟨b1, b2, b3, b4, b5⟩ := exec_push 0 c1 (by rw [a1]; omega) (by rw [a1]; omega)
  generalize (Instr.push 0).exec c1 = c2 at b1 b2 b3 b4 b5 ⊢
  have d1 : ((Instr.ldsHigh 0).exec c2).sp = c2.sp := by simp only [Instr.exec]
  have d2 : ((Instr.ldsHigh 0).exec c2).ram = c2.ram := by simp only [Instr.exec]
  have d3 : ((Instr.ldsHigh 0).exec c2).reg
      = Function.update c2.reg 0 (c2.tmpVarCToAsm_u16 / 0x100 % 0x100) := by
    simp only [Instr.exec]
  have d4 : ((Instr.ldsHigh 0).exec c2).sreg = c2.sreg := by simp only [Instr.exec]
  have d5 : ((Instr.ldsHigh 0).exec c2).tmpVarCToAsm_u16 = c2.tmpVarCToAsm_u16 := by
    simp only [Instr.exec]
  generalize (Instr.ldsHigh 0).exec c2 = c3 at d1 d2 d3 d4 d5 ⊢
  obtain ⟨e1, e2, e3, e4, e5⟩ :=
    exec_push 0 c3 (by rw [d1, b1, a1]; omega) (by rw [d1, b1, a1]; omega)
  have hs3 : c3.sp = c.sp - 1 := by rw [d1, b1, a1]
  refine ⟨by rw [e1, hs3]; omega, ?_, ?_, ?_, ?_, by rw [e4, d4, b4, a4],
    by rw [e5, d5, b5, a5]⟩
  · rw [e2, hs3, Function.update_noteq (by omega), d2, b2, a1, Function.update_same, a3,
      Function.update_same]
  · rw [e2, hs3, Function.update_same, d3, Function.update_same, b5, a5]
  · intro a ha
    rw [e2, hs3, Function.update_noteq (by omega), d2, b2, a1, Function.update_noteq (by omega),
      a2]
  · intro r hr
    rw [e3, d3, Function.update_noteq hr, b3, a3, Function.update_noteq hr]

theorem retCode_bracket (c : Cpu) (h1 : 2 ≤ c.sp) (h2 : c.sp < 0x10000) :
    (execute (PUSH_RET_CODE_ASM ++ [Instr.pop 25, Instr.pop 24]) c).sp = c.sp ∧
    (∀ a, c.sp < a →
      (execute (PUSH_RET_CODE_ASM ++ [Instr.pop 25, Instr.pop 24]) c).ram a = c.ram a) ∧
    (execute (PUSH_RET_CODE_ASM ++ [Instr.pop 25, Instr.pop 24]) c).reg 24
      = c.tmpVarCToAsm_u16 % 0x100 ∧
    (execute (PUSH_RET_CODE_ASM ++ [Instr.pop 25, Instr.pop 24]) c).reg 25
      = c.tmpVarCToAsm_u16 / 0x100 % 0x100 := by
  obtain ⟨p1, p2, p3, p4, _⟩ := execute_PUSH_RET_CODE_ASM c h1 h2
  rw [execute_append]
  generalize execute PUSH_RET_CODE_ASM c = c1 at p1 p2 p3 p4 ⊢
  simp only [execute_cons, execute_nil]
  obtain ⟨a1, a2, a3, _, _⟩ := exec_pop 25 c1 (by rw [p1]; omega)
  generalize (Instr.pop 25).exec c1 = c2 at a1 a2 a3 ⊢
  obtain ⟨b1, b2, b3, _, _⟩ := exec_pop 24 c2 (by rw [a1, p1]; omega)
  have hs1 : c1.sp + 1 = c.sp - 1 := by rw [p1]; omega
  have hs2 : c2.sp + 1 = c.sp := by rw [a1, p1]; omega
  have h2524 : (25 : Nat) ≠ 24 := by decide
  refine ⟨by rw [b1, hs2], ?_, ?_, ?_⟩
  · intro a ha
    rw [b2, a2, p4 a ha]
  · rw [b3, Function.update_same, hs2, a2, p2]
  · rw [b3, Function.update_noteq h2524, a3, Function.update_same, hs1, p3]

theorem saveAll_bracket (c : Cpu) (h1 : 2 ≤ c.sp) (h2 : c.sp < 0x10000) :
    (execute ([Instr.push 24, Instr.push 25] ++ [Instr.pop 25, Instr.pop 24]) c).sp = c.sp ∧
    (∀ a, c.sp < a →
      (execute ([Instr.push 24, Instr.push 25] ++ [Instr.pop 25, Instr.pop 24]) c).ram a
        = c.ram a) ∧
    (∀ r, (execute ([Instr.push 24, Instr.push 25] ++ [Instr.pop 25, Instr.pop 24]) c).reg r
        = c.reg r) := by
  have hnil : ∀ c : Cpu, 0 ≤ c.sp → c.sp < 0x10000 →
      (execute [] c).sp = c.sp ∧ ∀ a, c.sp < a → (execute [] c).ram a = c.ram a :=
    fun c _ _ => ⟨rfl, fun _ _ => rfl⟩
  obtain ⟨e1, e2, e3, e4, _, _⟩ := execute_bracket [] 0 hnil [24, 25] c h1 h2
  have hp : [24, 25].map Instr.push ++ [] ++ [24, 25].reverse.map Instr.pop
      = [Instr.push 24, Instr.push 25] ++ [Instr.pop 25, Instr.pop 24] := rfl
  rw [hp] at e1 e2 e3 e4
  refine ⟨e1, e2, ?_⟩
  intro r
  by_cases hr : r ∈ [24, 25]
  · exact e3 r hr
  · rw [e4 r hr, execute_nil]
    exact congrFun (execute_pushes [24, 25] c h1 h2).2.1 r

theorem execute_PUSH_CONTEXT_WITHOUT_R24R25 (c : Cpu) (h1 : 31 ≤ c.sp) (h2 : c.sp < 0x10000) :
    (execute PUSH_CONTEXT_WITHOUT_R24R25_ONTO_STACK c).sp = c.sp - 31 ∧
    (∀ r, r ≠ 0 → (execute PUSH_CONTEXT_WITHOUT_R24R25_ONTO_STACK c).reg r = c.reg r) ∧
    (execute PUSH_CONTEXT_WITHOUT_R24R25_ONTO_STACK c).tmpVarCToAsm_u16
      = c.tmpVarCToAsm_u16 := by
  have hpush : PUSH_CONTEXT_WITHOUT_R24R25_ONTO_STACK
      = [Instr.push 0, Instr.inSreg 0, Instr.push 0] ++ contextRegs.map Instr.push := by
    simp [PUSH_CONTEXT_WITHOUT_R24R25_ONTO_STACK, contextRegs]
  rw [hpush]
  simp only [execute_append, List.cons_append, List.nil_append, execute_cons, execute_nil]
  obtain ⟨a1, _, a3, _, a5⟩ := exec_push 0 c (by omega) h2
  generalize (Instr.push 0).exec c = c1 at a1 a3 a5 ⊢
  have b1 : ((Instr.inSreg 0).exec c1).sp = c1.sp := by simp only [Instr.exec]
  have b3 : ((Instr.inSreg 0).exec c1).reg = Function.update c1.reg 0 c1.sreg := by
    simp only [Instr.exec]
  have b5 : ((Instr.inSreg 0).exec c1).tmpVarCToAsm_u16 = c1.tmpVarCToAsm_u16 := by
    simp only [Instr.exec]
  generalize (Instr.inSreg 0).exec c1 = c2 at b1 b3 b5 ⊢
  obtain ⟨d1, _, d3, _, d5⟩ := exec_push 0 c2 (by rw [b1, a1]; omega) (by rw [b1, a1]; omega)
  generalize (Instr.push 0).exec c2 = c3 at d1 d3 d5 ⊢
  have hsp3 : c3.sp = c.sp - 2 := by rw [d1, b1, a1]; omega
  have hlen : contextRegs.length = 29 := rfl
  obtain ⟨e1, e2, _, e4, _⟩ := execute_pushes contextRegs c3 (by rw [hlen, hsp3]; omega)
    (by rw [hsp3]; omega)
  refine ⟨by rw [e1, hlen, hsp3]; omega, ?_, by rw [e4, d5, b5, a5]⟩
  intro r hr
  rw [e2, d3, b3, Function.update_noteq hr, a3]

/-- C37: the macros which save and restore the context are inverse to each other.  For every
contents of the registers `r0` to `r31`, of the status register and of the RAM, with the stack
pointer in the 16 Bit address range and room for the context below it:
`PUSH_CONTEXT_ONTO_STACK` followed by `POP_CONTEXT_FROM_STACK` restores all 32 registers, the
status register, the stack pointer and the RAM above the stack pointer; and
`PUSH_CONTEXT_WITHOUT_R24R25_ONTO_STACK`, followed by the push of the two bytes of
`_tmpVarCToAsm_u16` (low byte first) and by `POP_CONTEXT_FROM_STACK`, restores the status
register, the stack pointer, the RAM above it and every register except `r24` and `r25`, which
get the low byte and the high byte. -/
theorem context_save_restore_inverse (c : Cpu) (h1 : 35 ≤ c.sp) (h2 : c.sp < 0x10000) :
    ((∀ r, r < 32 →
        (execute (PUSH_CONTEXT_ONTO_STACK ++ POP_CONTEXT_FROM_STACK) c).reg r = c.reg r) ∧
      (execute (PUSH_CONTEXT_ONTO_STACK ++ POP_CONTEXT_FROM_STACK) c).sreg = c.sreg ∧
      (execute (PUSH_CONTEXT_ONTO_STACK ++ POP_CONTEXT_FROM_STACK) c).sp = c.sp ∧
      (∀ a, c.sp < a →
        (execute (PUSH_CONTEXT_ONTO_STACK ++ POP_CONTEXT_FROM_STACK) c).ram a = c.ram a)) ∧
    ((∀ r, r < 32 → r ≠ 24 → r ≠ 25 →
        (execute (PUSH_CONTEXT_WITHOUT_R24R25_ONTO_STACK ++ PUSH_RET_CODE_ASM
          ++ POP_CONTEXT_FROM_STACK) c).reg r = c.reg r) ∧
      (execute (PUSH_CONTEXT_WITHOUT_R24R25_ONTO_STACK ++ PUSH_RET_CODE_ASM
          ++ POP_CONTEXT_FROM_STACK) c).reg 24 = c.tmpVarCToAsm_u16 % 0x100 ∧
      (execute (PUSH_CONTEXT_WITHOUT_R24R25_ONTO_STACK ++ PUSH_RET_CODE_ASM
          ++ POP_CONTEXT_FROM_STACK) c).reg 25 = c.tmpVarCToAsm_u16 / 0x100 % 0x100 ∧
      (execute (PUSH_CONTEXT_WITHOUT_R24R25_ONTO_STACK ++ PUSH_RET_CODE_ASM
          ++ POP_CONTEXT_FROM_STACK) c).sreg = c.sreg ∧
      (execute (PUSH_CONTEXT_WITHOUT_R24R25_ONTO_STACK ++ PUSH_RET_CODE_ASM
          ++ POP_CONTEXT_FROM_STACK) c).sp = c.sp ∧
      (∀ a, c.sp < a →
        (execute (PUSH_CONTEXT_WITHOUT_R24R25_ONTO_STACK ++ PUSH_RET_CODE_ASM
          ++ POP_CONTEXT_FROM_STACK) c).ram a = c.ram a)) := by
  obtain ⟨q1, q2, q3⟩ := execute_PUSH_CONTEXT_WITHOUT_R24R25 c (by omega) h2
  constructor
  · have hmid : ∀ c : Cpu, 2 ≤ c.sp → c.sp < 0x10000 →
        (execute ([Instr.push 24, Instr.push 25] ++ [Instr.pop 25, Instr.pop 24]) c).sp = c.sp ∧
        ∀ a, c.sp < a →
          (execute ([Instr.push 24, Instr.push 25] ++ [Instr.pop 25, Instr.pop 24]) c).ram a
            = c.ram a :=
      fun c h1 h2 => ⟨(saveAll_bracket c h1 h2).1, (saveAll_bracket c h1 h2).2.1⟩
    obtain ⟨e1, e2, e3, e4, e5⟩ :=
      context_bracket [Instr.push 24, Instr.push 25] 2 hmid c (by omega) h2
    have hp : PUSH_CONTEXT_ONTO_STACK ++ POP_CONTEXT_FROM_STACK
        = PUSH_CONTEXT_WITHOUT_R24R25_ONTO_STACK ++ [Instr.push 24, Instr.push 25]
            ++ POP_CONTEXT_FROM_STACK := rfl
    rw [hp]
    refine ⟨?_, e2, e1, e3⟩
    intro r hr
    by_cases h24 : r = 24
    · rw [e5 r (Or.inl h24),
        (saveAll_bracket _ (by rw [q1]; omega) (by rw [q1]; omega)).2.2 r, q2 r (by omega)]
    · by_cases h25 : r = 25
      · rw [e5 r (Or.inr h25),
          (saveAll_bracket _ (by rw [q1]; omega) (by rw [q1]; omega)).2.2 r, q2 r (by omega)]
      · exact e4 r hr h24 h25
  · have hmid : ∀ c : Cpu, 2 ≤ c.sp → c.sp < 0x10000 →
        (execute (PUSH_RET_CODE_ASM ++ [Instr.pop 25, Instr.pop 24]) c).sp = c.sp ∧
        ∀ a, c.sp < a →
          (execute (PUSH_RET_CODE_ASM ++ [Instr.pop 25, Instr.pop 24]) c).ram a = c.ram a :=
      fun c h1 h2 => ⟨(retCode_bracket c h1 h2).1, (retCode_bracket c h1 h2).2.1⟩
    obtain ⟨e1, e2, e3, e4, e5⟩ := context_bracket PUSH_RET_CODE_ASM 2 hmid c (by omega) h2
    obtain ⟨_, _, r24, r25⟩ := retCode_bracket
      (execute PUSH_CONTEXT_WITHOUT_R24R25_ONTO_STACK c) (by rw [q1]; omega) (by rw [q1]; omega)
    refine ⟨e4, ?_, ?_, e2, e1, e3⟩
    · rw [e5 24 (Or.inl rfl), r24, q3]
    · rw [e5 25 (Or.inr rfl), r25, q3]

/-- C37, instance: the registers hold `r + 1` in register `r`, the status register holds
`0x80`, the stack pointer is `0x21FF` and the return code to push is `0x1234`; after the saving
without `r24`/`r25`, the push of the return code and the restoring, `r24` is `0x34`, `r25` is
`0x12` and `r23` is 24 as before. -/
theorem context_save_restore_inverse_witness :
    35 ≤ (cpuOf (fun r => r + 1) 0x80 0x1234).sp ∧
    (cpuOf (fun r => r + 1) 0x80 0x1234).sp < 0x10000 ∧
    (execute (PUSH_CONTEXT_WITHOUT_R24R25_ONTO_STACK ++ PUSH_RET_CODE_ASM
      ++ POP_CONTEXT_FROM_STACK) (cpuOf (fun r => r + 1) 0x80 0x1234)).reg 24 = 0x34 ∧
    (execute (PUSH_CONTEXT_WITHOUT_R24R25_ONTO_STACK ++ PUSH_RET_CODE_ASM
      ++ POP_CONTEXT_FROM_STACK) (cpuOf (fun r => r + 1) 0x80 0x1234)).reg 25 = 0x12 ∧
    (execute (PUSH_CONTEXT_WITHOUT_R24R25_ONTO_STACK ++ PUSH_RET_CODE_ASM
      ++ POP_CONTEXT_FROM_STACK) (cpuOf (fun r => r + 1) 0x80 0x1234)).reg 23 = 24 ∧
    (execute (PUSH_CONTEXT_ONTO_STACK ++ POP_CONTEXT_FROM_STACK)
      (cpuOf (fun r => r + 1) 0x80 0x1234)).sreg = 0x80 :=
  ⟨by decide, by decide,
   (context_save_restore_inverse (cpuOf (fun r => r + 1) 0x80 0x1234) (by decide)
      (by decide)).2.2.1,
   (context_save_restore_inverse (cpuOf (fun r => r + 1) 0x80 0x1234) (by decide)
      (by decide)).2.2.2.1,
   (context_save_restore_inverse (cpuOf (fun r => r + 1) 0x80 0x1234) (by decide)
      (by decide)).2.1 23 (by decide) (by decide) (by decide),
   (context_save_restore_inverse (cpuOf (fun r => r + 1) 0x80 0x1234) (by decide)
      (by decide)).1.2.1⟩

theorem PUSH_RET_CODE_OF_CONTEXT_SWITCH_fst (k : Kernel) (c : Cpu) :
    (PUSH_RET_CODE_OF_CONTEXT_SWITCH k c).1 = (pushRetCodeOfContextSwitch k).1 := by
  unfold PUSH_RET_CODE_OF_CONTEXT_SWITCH pushRetCodeOfContextSwitch
  simp only
  split <;> rfl

theorem PUSH_RET_CODE_OF_CONTEXT_SWITCH_pos (k : Kernel) (c : Cpu)
    (h : 0 < (k.taskAry k.pActiveTask).postedEventVec) :
    (PUSH_RET_CODE_OF_CONTEXT_SWITCH k c).2 =
      execute PUSH_RET_CODE_ASM
        { c with tmpVarCToAsm_u16 := (k.taskAry k.pActiveTask).postedEventVec } := by
  unfold PUSH_RET_CODE_OF_CONTEXT_SWITCH
  simp only
  rw [if_pos h]

theorem PUSH_RET_CODE_OF_CONTEXT_SWITCH_zero (k : Kernel) (c : Cpu)
    (h : (k.taskAry k.pActiveTask).postedEventVec = 0) :
    PUSH_RET_CODE_OF_CONTEXT_SWITCH k c = (k, c) := by
  unfold PUSH_RET_CODE_OF_CONTEXT_SWITCH
  simp only
  rw [if_neg (by rw [h]; exact Nat.lt_irrefl 0)]

/-- C34: the injection of the return value.  `PUSH_RET_CODE_OF_CONTEXT_SWITCH`, for every state
`k0` of the kernel data and every CPU state with room for two bytes on the stack: if the posted
events of the task being switched in are not null, exactly this value is the return code, the
posted events are reset to 0, two bytes are pushed, and the following
`POP_CONTEXT_FROM_STACK` loads the low byte into `r24` and the high byte into `r25`, so that
the register pair holds the value (a 16 Bit value); if the posted events are null nothing is
pushed, the kernel data and the CPU state are unchanged and the posted events stay 0.
Consequently the active task has no posted events in every reachable state, in particular
after the system timer interrupt, after `rtos_sendEvent` and after `rtos_waitForEvent` called by
a task. -/
theorem return_code_injection {cfg : Config} (hcfg : cfg.WellFormed)
    {tasks : List TaskInit} (ht : TasksOk cfg tasks) {sem : Nat → Nat} {k : Kernel}
    (hr : Reachable cfg tasks sem k) (k0 : Kernel) (c : Cpu) (h1 : 2 ≤ c.sp)
    (h2 : c.sp < 0x10000) :
    (PUSH_RET_CODE_OF_CONTEXT_SWITCH k0 c).1 = (pushRetCodeOfContextSwitch k0).1 ∧
    (0 < (k0.taskAry k0.pActiveTask).postedEventVec →
      (pushRetCodeOfContextSwitch k0).2 = some (k0.taskAry k0.pActiveTask).postedEventVec ∧
      ((PUSH_RET_CODE_OF_CONTEXT_SWITCH k0 c).1.taskAry k0.pActiveTask).postedEventVec = 0 ∧
      (PUSH_RET_CODE_OF_CONTEXT_SWITCH k0 c).2.sp = c.sp - 2 ∧
      (execute POP_CONTEXT_FROM_STACK (PUSH_RET_CODE_OF_CONTEXT_SWITCH k0 c).2).reg 24
        = (k0.taskAry k0.pActiveTask).postedEventVec % 0x100 ∧
      (execute POP_CONTEXT_FROM_STACK (PUSH_RET_CODE_OF_CONTEXT_SWITCH k0 c).2).reg 25
        = (k0.taskAry k0.pActiveTask).postedEventVec / 0x100 % 0x100 ∧
      ((k0.taskAry k0.pActiveTask).postedEventVec < 0x10000 →
        0x100 * (execute POP_CONTEXT_FROM_STACK (PUSH_RET_CODE_OF_CONTEXT_SWITCH k0 c).2).reg 25
          + (execute POP_CONTEXT_FROM_STACK (PUSH_RET_CODE_OF_CONTEXT_SWITCH k0 c).2).reg 24
          = (k0.taskAry k0.pActiveTask).postedEventVec)) ∧
    ((k0.taskAry k0.pActiveTask).postedEventVec = 0 →
      PUSH_RET_CODE_OF_CONTEXT_SWITCH k0 c = (k0, c) ∧
      (pushRetCodeOfContextSwitch k0).2 = none) ∧
    (k.taskAry k.pActiveTask).postedEventVec = 0 ∧
    ((isrSystemTimerTic cfg k).taskAry (isrSystemTimerTic cfg k).pActiveTask).postedEventVec
      = 0 ∧
    (∀ ev, ((rtos_sendEvent cfg k ev).taskAry
      (rtos_sendEvent cfg k ev).pActiveTask).postedEventVec = 0) ∧
    (∀ eventMask all timeout, k.pActiveTask ≠ IDLE_TASK_ID cfg →
      ((rtos_waitForEvent cfg k eventMask all timeout).1.taskAry
        (rtos_waitForEvent cfg k eventMask all timeout).1.pActiveTask).postedEventVec = 0) := by
  obtain ⟨hI, hA⟩ := reachable_inv hcfg ht hr
  refine ⟨PUSH_RET_CODE_OF_CONTEXT_SWITCH_fst k0 c, ?_, ?_, hA.active_posted,
    (isrSystemTimerTic_inv hI hA).2.active_posted,
    fun ev => (rtos_sendEvent_inv hcfg hI hA ev).2.active_posted,
    fun eventMask all timeout hne =>
      (rtos_waitForEvent_inv hcfg hI hA hne eventMask all timeout).2.active_posted⟩
  · intro hpos
    have hc : PUSH_RET_CODE_OF_CONTEXT_SWITCH k0 c
        = (k0.setTask k0.pActiveTask { k0.taskAry k0.pActiveTask with postedEventVec := 0 },
           execute PUSH_RET_CODE_ASM
             { c with tmpVarCToAsm_u16 := (k0.taskAry k0.pActiveTask).postedEventVec }) := by
      unfold PUSH_RET_CODE_OF_CONTEXT_SWITCH
      simp only
      rw [if_pos hpos]
    obtain ⟨p1, p2, p3, _, _, _, _⟩ := execute_PUSH_RET_CODE_ASM
      { c with tmpVarCToAsm_u16 := (k0.taskAry k0.pActiveTask).postedEventVec } h1 h2
    obtain ⟨r24, r25⟩ := POP_CONTEXT_FROM_STACK_r24r25
      (execute PUSH_RET_CODE_ASM
        { c with tmpVarCToAsm_u16 := (k0.taskAry k0.pActiveTask).postedEventVec })
      (by rw [p1]; show c.sp - 2 + 2 < 0x10000; omega)
    have e24 : (execute POP_CONTEXT_FROM_STACK (PUSH_RET_CODE_OF_CONTEXT_SWITCH k0 c).2).reg 24
        = (k0.taskAry k0.pActiveTask).postedEventVec % 0x100 := by
      rw [hc, r24, p1]
      have : ({ c with tmpVarCToAsm_u16 := (k0.taskAry k0.pActiveTask).postedEventVec } : Cpu).sp
          - 2 + 2 = c.sp := by show c.sp - 2 + 2 = c.sp; omega
      rw [this]
      exact p2
    have e25 : (execute POP_CONTEXT_FROM_STACK (PUSH_RET_CODE_OF_CONTEXT_SWITCH k0 c).2).reg 25
        = (k0.taskAry k0.pActiveTask).postedEventVec / 0x100 % 0x100 := by
      rw [hc, r25, p1]
      have : ({ c with tmpVarCToAsm_u16 := (k0.taskAry k0.pActiveTask).postedEventVec } : Cpu).sp
          - 2 + 1 = c.sp - 1 := by show c.sp - 2 + 1 = c.sp - 1; omega
      rw [this]
      exact p3
    refine ⟨?_, ?_, ?_, e24, e25, ?_⟩
    · rw [pushRetCodeOfContextSwitch_snd, if_pos hpos]
    · rw [hc]
      simp
    · rw [hc]
      exact p1
    · intro hlt
      rw [e24, e25]
      omega
  · intro hz
    refine ⟨PUSH_RET_CODE_OF_CONTEXT_SWITCH_zero k0 c hz, ?_⟩
    rw [pushRetCodeOfContextSwitch_snd, if_neg (by rw [hz]; exact Nat.lt_irrefl 0)]

/-- C34, instance: scenario S1 with the classes exchanged; after `sendEvent(0x0008)` task 0 is
switched in with the posted events `0x0008`; the macro hands over the return code `0x0008`,
which is loaded into `r24` (8) and `r25` (0), and resets the posted events. -/
theorem return_code_injection_witness :
    cfgS1.WellFormed ∧ TasksOk cfgS1 tasksS1Exchanged ∧
    (2 ≤ (cpuOf (fun _ => 0) 0 0).sp ∧ (cpuOf (fun _ => 0) 0 0).sp < 0x10000) ∧
    ((sendEvent cfgS1 (runS1 tasksS1Exchanged) 0x0008).1.taskAry
      (sendEvent cfgS1 (runS1 tasksS1Exchanged) 0x0008).1.pActiveTask).postedEventVec = 0x0008 ∧
    (pushRetCodeOfContextSwitch (sendEvent cfgS1 (runS1 tasksS1Exchanged) 0x0008).1).2
      = some ((sendEvent cfgS1 (runS1 tasksS1Exchanged) 0x0008).1.taskAry
          (sendEvent cfgS1 (runS1 tasksS1Exchanged) 0x0008).1.pActiveTask).postedEventVec ∧
    (execute POP_CONTEXT_FROM_STACK
      (PUSH_RET_CODE_OF_CONTEXT_SWITCH (sendEvent cfgS1 (runS1 tasksS1Exchanged) 0x0008).1
        (cpuOf (fun _ => 0) 0 0)).2).reg 24
      = ((sendEvent cfgS1 (runS1 tasksS1Exchanged) 0x0008).1.taskAry
          (sendEvent cfgS1 (runS1 tasksS1Exchanged) 0x0008).1.pActiveTask).postedEventVec
        % 0x100 ∧
    ((rtos_sendEvent cfgS1 (runS1 tasksS1Exchanged) 0x0008).taskAry
      (rtos_sendEvent cfgS1 (runS1 tasksS1Exchanged) 0x0008).pActiveTask).postedEventVec = 0 :=
  ⟨by decide, tasksS1Exchanged_ok, ⟨by decide, by decide⟩, by decide!,
   ((return_code_injection (by decide) tasksS1Exchanged_ok
      (runS1_reachable tasksS1Exchanged (by decide!) (by decide!))
      (sendEvent cfgS1 (runS1 tasksS1Exchanged) 0x0008).1 (cpuOf (fun _ => 0) 0 0)
      (by decide) (by decide)).2.1 (by decide!)).1,
   ((return_code_injection (by decide) tasksS1Exchanged_ok
      (runS1_reachable tasksS1Exchanged (by decide!) (by decide!))
      (sendEvent cfgS1 (runS1 tasksS1Exchanged) 0x0008).1 (cpuOf (fun _ => 0) 0 0)
      (by decide) (by decide)).2.1 (by decide!)).2.2.2.1,
   (return_code_injection (by decide) tasksS1Exchanged_ok
      (runS1_reachable tasksS1Exchanged (by decide!) (by decide!))
      (sendEvent cfgS1 (runS1 tasksS1Exchanged) 0x0008).1 (cpuOf (fun _ => 0) 0 0)
      (by decide) (by decide)).2.2.2.2.2.1 0x0008⟩

theorem insertAt_indexOrdered (pr : Nat → Nat) (l : List Nat) (x : Nat)
    (hs : l.Pairwise (fun a b => pr b ≤ pr a))
    (ho : l.Pairwise (fun a b => pr a = pr b → a < b))
    (hlt : ∀ q ∈ l, q < x) (i : Nat)
    (h2 : ∀ y, (l.drop i).head? = some y → pr y < pr x) :
    (insertAt l i x).Pairwise (fun a b => pr a = pr b → a < b) := by
  unfold insertAt
  have hsplit : l = l.take i ++ l.drop i := (List.take_append_drop i l).symm
  rw [hsplit] at ho
  obtain ⟨o1, o2, o3⟩ := List.pairwise_append.mp ho
  refine List.pairwise_append.mpr ⟨o1, ?_, ?_⟩
  · refine List.pairwise_cons.mpr ⟨?_, o2⟩
    intro b hb he
    exfalso
    obtain ⟨e, he1, he2⟩ := head_drop_ahead hb
    have h1 := h2 e he1
    rcases he2 with h | h
    · rw [h] at h1; omega
    · have := List.pairwise_iff_forall_sublist.mp hs h
      omega
  · intro a ha b hb
    rcases List.mem_cons.mp hb with h | h
    · intro _
      rw [h]
      exact hlt a (List.mem_of_mem_take ha)
    · exact o3 a ha b h

theorem initRTOSTask_prioClass (cfg : Config) (k : Kernel) (idxTask : Nat) (q : Nat) :
    ((initRTOSTask cfg k idxTask).taskAry q).prioClass = (k.taskAry q).prioClass := by
  obtain ⟨_, _, _, g4, g5, _, _⟩ := initRTOSTask_facts cfg k idxTask
  by_cases hq : q = idxTask
  · subst hq; exact g5
  · rw [g4 q hq]

theorem initRTOSTask_susp (cfg : Config) (k : Kernel) (idxTask : Nat) :
    (initRTOSTask cfg k idxTask).pSuspendedTaskAry =
      if cfg.useMutex
      then insertAt k.pSuspendedTaskAry
        (findInsertPos k.taskAry (k.taskAry idxTask).prioClass k.pSuspendedTaskAry) idxTask
      else k.pSuspendedTaskAry ++ [idxTask] := by
  unfold initRTOSTask
  cases hm : cfg.useMutex with
  | false => simp only [Bool.false_eq_true, if_false, setTask_pSuspendedTaskAry]
  | true =>
    simp only [if_true, setTask_pSuspendedTaskAry]
    congr 1
    have e : ∀ (p : Nat), findInsertPos
        (k.setTask idxTask
          { (if cfg.roundRobinModeSupported then { k.taskAry idxTask with cntRoundRobin := 0 }
             else k.taskAry idxTask) with postedEventVec := 0, cntOverrun := 0 }).taskAry p
        k.pSuspendedTaskAry = findInsertPos k.taskAry p k.pSuspendedTaskAry := by
      intro p
      apply findInsertPos_congr
      intro q
      by_cases hq : q = idxTask
      · subst hq
        rw [setTask_taskAry_same]
        split <;> rfl
      · rw [setTask_taskAry_ne k idxTask q _ hq]
    rw [e]
    congr 1
    split <;> rfl

theorem initRTOSTask_indexOrdered (cfg : Config) (k : Kernel) (idxTask : Nat)
    (hs : cfg.useMutex = true → SuspendedSorted k) (ho : SuspendedIndexOrdered k)
    (hlt : ∀ q ∈ k.pSuspendedTaskAry, q < idxTask) :
    (cfg.useMutex = true → SuspendedSorted (initRTOSTask cfg k idxTask)) ∧
    SuspendedIndexOrdered (initRTOSTask cfg k idxTask) ∧
    (∀ q ∈ (initRTOSTask cfg k idxTask).pSuspendedTaskAry, q < idxTask + 1) := by
  refine ⟨fun hm => initRTOSTask_sorted cfg hm k idxTask (hs hm), ?_, ?_⟩
  · unfold SuspendedIndexOrdered at ho ⊢
    have hgoal : (initRTOSTask cfg k idxTask).pSuspendedTaskAry.Pairwise
        (fun a b => (k.taskAry a).prioClass = (k.taskAry b).prioClass → a < b) := by
      rw [initRTOSTask_susp]
      cases hm : cfg.useMutex with
      | false =>
        simp only [Bool.false_eq_true, if_false]
        refine List.pairwise_append.mpr ⟨ho, List.pairwise_singleton _ _, ?_⟩
        intro a ha b hb _
        rw [List.mem_singleton] at hb
        rw [hb]
        exact hlt a ha
      | true =>
        simp only [if_true]
        obtain ⟨_, _, s3⟩ := findInsertPos_spec k.taskAry (k.taskAry idxTask).prioClass
          k.pSuspendedTaskAry
        exact insertAt_indexOrdered (fun q => (k.taskAry q).prioClass) k.pSuspendedTaskAry
          idxTask (hs hm) ho hlt _ s3
    exact hgoal.imp (fun {a b} hab => by
      rw [initRTOSTask_prioClass, initRTOSTask_prioClass]; exact hab)
  · intro q hq
    rcases ((initRTOSTask_facts cfg k idxTask).1 q).mp hq with h | h
    · omega
    · exact Nat.lt_succ_of_lt (hlt q h)

theorem rtos_initRTOS_indexOrdered (cfg : Config) (tasks : List TaskInit) (sem : Nat → Nat) :
    SuspendedIndexOrdered (rtos_initRTOS cfg tasks sem) := by
  have h0 : (setup cfg tasks (staticData cfg sem)).pSuspendedTaskAry = [] :=
    (setup_tasks cfg tasks sem).1
  have h1 := foldl_range_induct (initRTOSTask cfg)
    (fun (n : Nat) (k : Kernel) =>
      (cfg.useMutex = true → SuspendedSorted k) ∧ SuspendedIndexOrdered k ∧
      ∀ q ∈ k.pSuspendedTaskAry, q < n)
    (setup cfg tasks (staticData cfg sem))
    (by
      refine ⟨fun _ => ?_, ?_, ?_⟩
      · unfold SuspendedSorted; rw [h0]; exact List.Pairwise.nil
      · unfold SuspendedIndexOrdered; rw [h0]; exact List.Pairwise.nil
      · intro q hq; rw [h0] at hq; exact absurd hq (List.not_mem_nil q))
    (fun n k a1 => initRTOSTask_indexOrdered cfg k n a1.1 a1.2.1 a1.2.2)
    cfg.noTasks
  obtain ⟨_, ho, hlt⟩ := h1
  unfold SuspendedIndexOrdered at ho ⊢
  have hsusp : (rtos_initRTOS cfg tasks sem).pSuspendedTaskAry
      = ((List.range cfg.noTasks).foldl (initRTOSTask cfg)
          (setup cfg tasks (staticData cfg sem))).pSuspendedTaskAry := rfl
  rw [hsusp]
  refine List.Pairwise.imp_of_mem ?_ ho
  intro a b ha hb hab
  have hq : ∀ q, q < cfg.noTasks → ((rtos_initRTOS cfg tasks sem).taskAry q).prioClass
      = (((List.range cfg.noTasks).foldl (initRTOSTask cfg)
          (setup cfg tasks (staticData cfg sem))).taskAry q).prioClass := by
    intro q hq
    unfold rtos_initRTOS
    simp only
    rw [setTask_taskAry_ne _ _ q _ (by unfold IDLE_TASK_ID; omega)]
  rw [hq a (hlt a ha), hq b (hlt b hb)]
  exact hab

theorem suspendedIndexOrdered_sublist {k k1 : Kernel} (h : SuspendedIndexOrdered k)
    (hs : List.Sublist k1.pSuspendedTaskAry k.pSuspendedTaskAry)
    (hp : ∀ q, (k1.taskAry q).prioClass = (k.taskAry q).prioClass) :
    SuspendedIndexOrdered k1 := by
  unfold SuspendedIndexOrdered at h ⊢
  exact (h.sublist hs).imp (fun {a b} hab => by rw [hp a, hp b]; exact hab)

theorem isrSystemTimerTic_indexOrdered (cfg : Config) {k : Kernel}
    (h : SuspendedIndexOrdered k) : SuspendedIndexOrdered (isrSystemTimerTic cfg k) := by
  obtain ⟨o1, o2⟩ := onTimerTic_order cfg k
  have h1 : SuspendedIndexOrdered (onTimerTic cfg k).1 := suspendedIndexOrdered_sublist h o1 o2
  rw [isrSystemTimerTic_eq]
  split
  · exact suspendedIndexOrdered_sublist h1
      (by rw [(pushRetCodeOfContextSwitch_frame _).2.2.2.1])
      (fun q => pushRetCodeOfContextSwitch_prioClass _ q)
  · exact h1

theorem timerTics_indexOrdered (cfg : Config) (tasks : List TaskInit) (sem : Nat → Nat) :
    ∀ n, SuspendedIndexOrdered (timerTics cfg n (rtos_initRTOS cfg tasks sem)) := by
  intro n
  induction n with
  | zero => exact rtos_initRTOS_indexOrdered cfg tasks sem
  | succ n ih => exact isrSystemTimerTic_indexOrdered cfg ih

theorem onTimerTicRoundRobin_off (k : Kernel) (flag : Bool)
    (h : (k.taskAry k.pActiveTask).cntRoundRobin = 0) : onTimerTicRoundRobin k flag = (k, flag) := by
  unfold onTimerTicRoundRobin
  simp [h]

/-- The due lists after a timer tic in a state in which the idle task is active: the due list
of a class holds the tasks of the class which have left the list of suspended tasks, in the
order of this list. -/
theorem onTimerTic_due_of_idle {cfg : Config} {k : Kernel} (hI : ListsInv cfg k)
    (hA : ActiveInv cfg k) (hidle : k.pActiveTask = IDLE_TASK_ID cfg) (c : Nat) :
    (onTimerTic cfg k).1.pDueTaskAryAry c =
      k.pSuspendedTaskAry.filter (fun p =>
        decide (p ∉ (onTimerTic cfg k).1.pSuspendedTaskAry)
          && decide ((k.taskAry p).prioClass = c)) := by
  have hempty : k.pDueTaskAryAry c = [] := by
    rcases active_cases hI hA with ⟨_, h⟩ | ⟨h, _⟩
    · exact h c
    · rw [hidle] at h
      exact absurd h (Nat.lt_irrefl _)
  have hv := onTimerTicVisitAll_due cfg hI.nodup c
  rw [hempty, List.nil_append] at hv
  rw [← hv]
  cases hrr : cfg.roundRobinModeSupported with
  | false => rw [onTimerTic_due_of_no_roundRobin cfg k hrr]
  | true =>
    rw [(onTimerTic_after_roundRobin cfg k hrr).2]
    obtain ⟨_, h2, h3, _⟩ := onTimerTicVisitAll_inv hI hA
    rw [onTimerTicRoundRobin_off]
    rw [h2, h3, hidle]
    exact hI.idle_rr

theorem onTimerTic_snd (cfg : Config) (k : Kernel) :
    (onTimerTic cfg k).2 = ((onTimerTic cfg k).1.pActiveTask != k.pActiveTask) := by
  have hact : (if cfg.roundRobinModeSupported
        then onTimerTicRoundRobin (onTimerTicVisitAll cfg k).1 (onTimerTicVisitAll cfg k).2.2
        else ((onTimerTicVisitAll cfg k).1, (onTimerTicVisitAll cfg k).2.2)).1.pActiveTask
      = k.pActiveTask := by
    have hv : (onTimerTicVisitAll cfg k).1.pActiveTask = k.pActiveTask :=
      (walkSuspended_frame cfg _ _ _ _ _).1
    split
    · rw [(onTimerTicRoundRobin_other _ _).1, hv]
    · exact hv
  rw [onTimerTic_eq]
  generalize (if cfg.roundRobinModeSupported
        then onTimerTicRoundRobin (onTimerTicVisitAll cfg k).1 (onTimerTicVisitAll cfg k).2.2
        else ((onTimerTicVisitAll cfg k).1, (onTimerTicVisitAll cfg k).2.2)) = r2 at hact ⊢
  cases hfl : r2.2 with
  | false => simp [hact]
  | true =>
    simp only [if_true]
    have := (lookForActiveTaskLoop_snd r2.1 cfg.noPrioClasses).1
    unfold lookForActiveTask
    rw [this, hact]

/-- The task which a timer tic makes active while the idle task is active: it has become due
by this tic, no task which has become due has a higher priority class, and it is ahead of all
other tasks of its class which have become due in the list of suspended tasks. -/
theorem onTimerTic_idle_first {cfg : Config} {k : Kernel} (hI : ListsInv cfg k)
    (hA : ActiveInv cfg k) (hidle : k.pActiveTask = IDLE_TASK_ID cfg)
    (b : Nat) (hb : b ∈ k.pSuspendedTaskAry)
    (hdue : b ∉ (onTimerTic cfg k).1.pSuspendedTaskAry) :
    (onTimerTic cfg k).2 = true ∧
    (onTimerTic cfg k).1.pActiveTask ∈ k.pSuspendedTaskAry ∧
    (onTimerTic cfg k).1.pActiveTask ∉ (onTimerTic cfg k).1.pSuspendedTaskAry ∧
    (k.taskAry b).prioClass ≤ (k.taskAry (onTimerTic cfg k).1.pActiveTask).prioClass ∧
    ((k.taskAry b).prioClass = (k.taskAry (onTimerTic cfg k).1.pActiveTask).prioClass →
      b ≠ (onTimerTic cfg k).1.pActiveTask →
      List.Sublist [(onTimerTic cfg k).1.pActiveTask, b] k.pSuspendedTaskAry) := by
  obtain ⟨g1, g2, _⟩ := onTimerTic_inv hI hA
  have hcls := (onTimerTic_order cfg k).2
  have hbdue : b ∈ (onTimerTic cfg k).1.pDueTaskAryAry (k.taskAry b).prioClass := by
    rw [onTimerTic_due_of_idle hI hA hidle, List.mem_filter]
    exact ⟨hb, by simp [hdue]⟩
  have hbc : (k.taskAry b).prioClass < cfg.noPrioClasses :=
    g1.due_class_lt _ (List.ne_nil_of_mem hbdue)
  rcases active_cases_of_eq g1 g2 with ⟨_, h2⟩ | ⟨h1, _, ⟨rest, h3⟩, h4⟩
  · rw [h2] at hbdue
    exact absurd hbdue (List.not_mem_nil b)
  · rw [hcls] at h3 h4
    have hAin : (onTimerTic cfg k).1.pActiveTask ∈
        k.pSuspendedTaskAry.filter (fun p =>
          decide (p ∉ (onTimerTic cfg k).1.pSuspendedTaskAry)
            && decide ((k.taskAry p).prioClass
                = (k.taskAry (onTimerTic cfg k).1.pActiveTask).prioClass)) := by
      rw [← onTimerTic_due_of_idle hI hA hidle, h3]
      exact List.mem_cons_self _ _
    rw [List.mem_filter] at hAin
    obtain ⟨hA1, hA2⟩ := hAin
    simp only [Bool.and_eq_true, decide_eq_true_eq] at hA2
    have hle : (k.taskAry b).prioClass ≤ (k.taskAry (onTimerTic cfg k).1.pActiveTask).prioClass := by
      by_contra hlt
      rw [h4 _ (by omega)] at hbdue
      exact absurd hbdue (List.not_mem_nil b)
    refine ⟨?_, hA1, hA2.1, hle, ?_⟩
    · rw [onTimerTic_snd, hidle]
      have : (onTimerTic cfg k).1.pActiveTask ≠ IDLE_TASK_ID cfg := by
        unfold IDLE_TASK_ID; omega
      simpa using this
    · intro he hne
      rw [he, h3] at hbdue
      rcases List.mem_cons.mp hbdue with h | h
      · exact absurd h hne
      · have hsub : List.Sublist [(onTimerTic cfg k).1.pActiveTask, b]
            ((onTimerTic cfg k).1.pActiveTask :: rest) :=
          List.Sublist.cons₂ _ (List.singleton_sublist.mpr h)
        rw [← h3, onTimerTic_due_of_idle hI hA hidle] at hsub
        exact hsub.trans (List.filter_sublist _)

theorem kBothDelayed_reachable :
    Reachable cfgTwoTasks tasksStaggered (fun _ => 0) kBothDelayed :=
  timerTics_reachable
    (Reachable.waitForEvent RTOS_EVT_DELAY_TIMER false 2
      (Reachable.timerTic
        (Reachable.waitForEvent RTOS_EVT_DELAY_TIMER false 3
          (Reachable.timerTic Reachable.init) (by decide!)))
      (by decide!)) 2

/-- C31, counterexample: the task made active is not always the one with the lowest index.
Two tasks of the same priority class, task 1 starts at the first tic and calls
`rtos_delay(3)`, task 0 starts at the second tic and calls `rtos_delay(2)`.  After the fourth
tic the idle task is active and task 1 is ahead of task 0 in the list of suspended tasks; the
fifth tic makes both due and task 1 becomes the active task. -/
theorem idleTicStartsLowestIndex_counterexample :
    kBothDelayed.pActiveTask = IDLE_TASK_ID cfgTwoTasks ∧
    kBothDelayed.pSuspendedTaskAry = [1, 0] ∧
    (onTimerTic cfgTwoTasks kBothDelayed).1.pSuspendedTaskAry = [] ∧
    (onTimerTic cfgTwoTasks kBothDelayed).1.pActiveTask = 1 ∧
    ¬ IdleTicStartsLowestIndex cfgTwoTasks tasksStaggered (fun _ => 0) := by
  have h1 : kBothDelayed.pActiveTask = IDLE_TASK_ID cfgTwoTasks := by decide!
  have h2 : kBothDelayed.pSuspendedTaskAry = [1, 0] := by decide!
  have h3 : (onTimerTic cfgTwoTasks kBothDelayed).1.pSuspendedTaskAry = [] := by decide!
  have h4 : (onTimerTic cfgTwoTasks kBothDelayed).1.pActiveTask = 1 := by decide!
  refine ⟨h1, h2, h3, h4, ?_⟩
  intro hc
  have := (hc kBothDelayed 0 kBothDelayed_reachable h1 (by rw [h2]; decide)
    (by rw [h3]; decide)).2
  rw [h4] at this
  have h5 : (kBothDelayed.taskAry 0).prioClass = (kBothDelayed.taskAry 1).prioClass := by decide!
  exact absurd (this h5) (by decide)

/-- C31, amended: a timer tic in a reachable state in which the idle task is active, and a
task `b` which becomes due by this tic.  Then the tic switches to a task which has become due
by this tic, too; no task which has become due has a higher priority class than this task;
and among the tasks of its class which have become due it is the first one in the list of
suspended tasks.  At start-up, i.e. in the state built by `rtos_initRTOS` and after any number
of timer tics which follow it directly, the list of suspended tasks holds the tasks of a
class in the order of rising task index, and the task made active is the one with the lowest
index among the tasks of its class which have become due. -/
theorem onTimerTic_idle_selects_first {cfg : Config} (hcfg : cfg.WellFormed)
    {tasks : List TaskInit} (ht : TasksOk cfg tasks) {sem : Nat → Nat} {k : Kernel}
    (hr : Reachable cfg tasks sem k) (hidle : k.pActiveTask = IDLE_TASK_ID cfg)
    (b : Nat) (hb : b ∈ k.pSuspendedTaskAry)
    (hdue : b ∉ (onTimerTic cfg k).1.pSuspendedTaskAry) :
    (onTimerTic cfg k).2 = true ∧
    (onTimerTic cfg k).1.pActiveTask ∈ k.pSuspendedTaskAry ∧
    (onTimerTic cfg k).1.pActiveTask ∉ (onTimerTic cfg k).1.pSuspendedTaskAry ∧
    (k.taskAry b).prioClass ≤ (k.taskAry (onTimerTic cfg k).1.pActiveTask).prioClass ∧
    ((k.taskAry b).prioClass = (k.taskAry (onTimerTic cfg k).1.pActiveTask).prioClass →
      b ≠ (onTimerTic cfg k).1.pActiveTask →
      List.Sublist [(onTimerTic cfg k).1.pActiveTask, b] k.pSuspendedTaskAry) ∧
    ((∃ n, k = timerTics cfg n (rtos_initRTOS cfg tasks sem)) →
      (k.taskAry b).prioClass = (k.taskAry (onTimerTic cfg k).1.pActiveTask).prioClass →
      (onTimerTic cfg k).1.pActiveTask ≤ b) := by
  obtain ⟨hI, hA⟩ := reachable_inv hcfg ht hr
  obtain ⟨e1, e2, e3, e4, e5⟩ := onTimerTic_idle_first hI hA hidle b hb hdue
  refine ⟨e1, e2, e3, e4, e5, ?_⟩
  rintro ⟨n, hn⟩ hc
  by_cases hne : b = (onTimerTic cfg k).1.pActiveTask
  · rw [← hne]
  · have ho : SuspendedIndexOrdered k := by
      rw [hn]; exact timerTics_indexOrdered cfg tasks sem n
    have := List.pairwise_iff_forall_sublist.mp ho (e5 hc hne)
    exact Nat.le_of_lt (this hc.symm)

/-- C31, amended, instance: two tasks of class 0 which both start at the first timer tic
(`tasksRoundRobin` in the configuration `cfgTwoTasks`); the first tic after `rtos_initRTOS`
makes both due and task 0, which has the lower index, active. -/
theorem onTimerTic_idle_selects_first_witness :
    cfgTwoTasks.WellFormed ∧ TasksOk cfgTwoTasks tasksRoundRobin ∧
    (rtos_initRTOS cfgTwoTasks tasksRoundRobin (fun _ => 0)).pActiveTask
      = IDLE_TASK_ID cfgTwoTasks ∧
    (rtos_initRTOS cfgTwoTasks tasksRoundRobin (fun _ => 0)).pSuspendedTaskAry = [0, 1] ∧
    (onTimerTic cfgTwoTasks
      (rtos_initRTOS cfgTwoTasks tasksRoundRobin (fun _ => 0))).1.pSuspendedTaskAry = [] ∧
    (onTimerTic cfgTwoTasks
      (rtos_initRTOS cfgTwoTasks tasksRoundRobin (fun _ => 0))).1.pActiveTask = 0 ∧
    (onTimerTic cfgTwoTasks
      (rtos_initRTOS cfgTwoTasks tasksRoundRobin (fun _ => 0))).1.pActiveTask ≤ 1 :=
  ⟨by decide, by intro a ha; simp only [tasksRoundRobin, List.mem_cons, List.mem_singleton,
      List.not_mem_nil, or_false] at ha; rcases ha with h | h <;> subst h <;> decide,
   by decide, by decide, by decide, by decide,
   (onTimerTic_idle_selects_first (by decide)
      (by intro a ha; simp only [tasksRoundRobin, List.mem_cons, List.mem_singleton,
        List.not_mem_nil, or_false] at ha; rcases ha with h | h <;> subst h <;> decide)
      (@Reachable.init cfgTwoTasks tasksRoundRobin (fun _ => 0)) (by decide) 1 (by decide)
      (by decide)).2.2.2.2.2 ⟨0, rfl⟩ (by decide)⟩

theorem storeDec_fst (s : (Nat → Nat) × Nat) (v : Nat) :
    (storeDec s v).1 = Function.update s.1 s.2 v := by
  simp only [storeDec]

theorem storeDec_snd (s : (Nat → Nat) × Nat) (v : Nat) (h1 : 1 ≤ s.2) (h2 : s.2 < 0x10000) :
    (storeDec s v).2 = s.2 - 1 := by
  simp only [storeDec]
  omega

/-- A sequence of statements `* sp-- = v`: the values are stored from `sp` downwards. -/
theorem foldl_storeDec (vs : List Nat) :
    ∀ (s : (Nat → Nat) × Nat), vs.length ≤ s.2 → s.2 < 0x10000 →
      (vs.foldl storeDec s).2 = s.2 - vs.length ∧
      (∀ i, i < vs.length → (vs.foldl storeDec s).1 (s.2 - i) = vs.getD i 0) ∧
      (∀ a, a ≤ s.2 - vs.length ∨ s.2 < a → (vs.foldl storeDec s).1 a = s.1 a) := by
  induction vs with
  | nil =>
    intro s _ _
    exact ⟨rfl, fun i hi => absurd hi (Nat.not_lt_zero i), fun _ _ => rfl⟩
  | cons v rest ih =>
    intro s h1 h2
    have hl : (v :: rest).length = rest.length + 1 := rfl
    rw [hl] at h1 ⊢
    have e2 := storeDec_snd s v (by omega) h2
    obtain ⟨i1, i2, i3⟩ := ih (storeDec s v) (by rw [e2]; omega) (by rw [e2]; omega)
    rw [List.foldl_cons]
    rw [e2] at i1 i2 i3
    refine ⟨by rw [i1]; omega, ?_, ?_⟩
    · intro i hi
      cases i with
      | zero =>
        rw [i3 (s.2 - 0) (Or.inr (by omega)), storeDec_fst, Nat.sub_zero, Function.update_same]
        rfl
      | succ j =>
        have := i2 j (by omega)
        have e : s.2 - 1 - j = s.2 - (j + 1) := by omega
        rw [e] at this
        rw [this]
        rfl
    · intro a ha
      rw [i3 a (by omega), storeDec_fst, Function.update_noteq (by omega)]

theorem foldl_const_storeDec (l : List Nat) (v : Nat) :
    ∀ (s : (Nat → Nat) × Nat),
      l.foldl (fun s _ => storeDec s v) s = (List.replicate l.length v).foldl storeDec s := by
  induction l with
  | nil => intro s; rfl
  | cons a rest ih =>
    intro s
    rw [List.foldl_cons, ih]
    rfl

/-- The state of `prepareTaskStack` for the ATmega2560 before the fill loop: the bytes of
`initialStackImage` have been stored from the end of the area downwards. -/
theorem prepareTaskStack_eq (fuel : Nat) (ram : Nat → Nat) (base n entry : Nat) :
    prepareTaskStack true fuel ram base n entry =
      (prepareTaskStackFill base fuel
        ((initialStackImage entry).foldl storeDec (ram, (base + n + 0xFFFF) % 0x10000))).map
        (fun ram1 => (ram1,
          ((initialStackImage entry).foldl storeDec
            (ram, (base + n + 0xFFFF) % 0x10000)).2)) := by
  unfold prepareTaskStack initialStackImage
  simp only [if_true, foldl_const_storeDec, List.length_range', List.foldl_append,
    List.foldl_cons, List.foldl_nil]
  have h28 : List.replicate 28 0 = List.replicate 22 0 ++ List.replicate 6 0 := by decide
  rw [h28, List.foldl_append]

theorem prepareTaskStackFill_spec (base : Nat) (hb : 0 < base) :
    ∀ (fuel : Nat) (s : (Nat → Nat) × Nat), base ≤ s.2 + 1 → s.2 < 0x10000 →
      s.2 + 1 - base < fuel →
      ∃ ram1, prepareTaskStackFill base fuel s = some ram1 ∧
        (∀ a, base ≤ a → a ≤ s.2 → ram1 a = UNUSED_STACK_PATTERN) ∧
        (∀ a, a < base ∨ s.2 < a → ram1 a = s.1 a) := by
  intro fuel
  induction fuel with
  | zero => intro s _ _ h; exact absurd h (Nat.not_lt_zero _)
  | succ fuel ih =>
    intro s h1 h2 h3
    unfold prepareTaskStackFill
    by_cases hge : s.2 ≥ base
    · rw [if_pos hge]
      have e2 := storeDec_snd s UNUSED_STACK_PATTERN (by omega) h2
      obtain ⟨ram1, r1, r2, r3⟩ := ih (storeDec s UNUSED_STACK_PATTERN) (by rw [e2]; omega)
        (by rw [e2]; omega) (by rw [e2]; omega)
      rw [e2] at r2 r3
      refine ⟨ram1, r1, ?_, ?_⟩
      · intro a ha1 ha2
        by_cases hlast : a = s.2
        · rw [r3 a (Or.inr (by omega)), storeDec_fst, hlast, Function.update_same]
        · exact r2 a ha1 (by omega)
      · intro a ha
        rw [r3 a (by omega), storeDec_fst, Function.update_noteq (by omega)]
    · rw [if_neg hge]
      exact ⟨s.1, rfl, fun a ha1 ha2 => absurd ha2 (by omega), fun _ _ => rfl⟩

theorem getStackReserveLoop_spec (ram : Nat → Nat) :
    ∀ (c fuel sp : Nat), (∀ i, i < c → ram (sp + i) = UNUSED_STACK_PATTERN) →
      ram (sp + c) ≠ UNUSED_STACK_PATTERN → sp + c < 0x10000 → c < fuel →
      getStackReserveLoop ram fuel sp = some (sp + c) := by
  intro c
  induction c with
  | zero =>
    intro fuel sp _ hne _ hf
    cases fuel with
    | zero => exact absurd hf (Nat.lt_irrefl 0)
    | succ fuel =>
      unfold getStackReserveLoop
      rw [Nat.add_zero] at hne
      rw [if_neg (by simpa using hne)]
      rfl
  | succ c ih =>
    intro fuel sp hall hne hlt hf
    cases fuel with
    | zero => exact absurd hf (Nat.not_lt_zero _)
    | succ fuel =>
      unfold getStackReserveLoop
      have h0 := hall 0 (Nat.succ_pos c)
      rw [Nat.add_zero] at h0
      rw [if_pos (by simpa using h0)]
      have hm : (sp + 1) % 0x10000 = sp + 1 := Nat.mod_eq_of_lt (by omega)
      rw [hm, ih fuel (sp + 1) ?_ ?_ (by omega) (by omega)]
      · congr 1; omega
      · intro i hi
        have := hall (i + 1) (by omega)
        rw [← this]; congr 1; omega
      · intro h
        apply hne
        rw [← h]; congr 1; omega

/-- The stack reserve is the number of pattern bytes counted from the lowest address of the
stack area up to the first other byte. -/
theorem rtos_getStackReserve_spec (ram : Nat → Nat) (base c fuel : Nat)
    (hall : ∀ i, i < c → ram (base + i) = UNUSED_STACK_PATTERN)
    (hne : ram (base + c) ≠ UNUSED_STACK_PATTERN) (hlt : base + c < 0x10000) (hf : c < fuel) :
    rtos_getStackReserve fuel ram base = some c := by
  unfold rtos_getStackReserve
  rw [getStackReserveLoop_spec ram c fuel base hall hne hlt hf]
  simp only [Option.map_some']
  congr 1
  omega

theorem initialStackImage_length (entry : Nat) : (initialStackImage entry).length = 37 := rfl

/-- The result of `prepareTaskStack` for the ATmega2560 and a stack area of `n ≥ 37` bytes at
`base > 0` within the 16 Bit address range. -/
theorem prepareTaskStack_spec (fuel : Nat) (ram : Nat → Nat) (base n entry : Nat)
    (hn : 37 ≤ n) (hb : 0 < base) (hr : base + n ≤ 0x10000) (hf : n - 37 < fuel) :
    ∃ ram1, prepareTaskStack true fuel ram base n entry = some (ram1, base + n - 38) ∧
      (∀ i, i < 37 → ram1 (base + n - 1 - i) = (initialStackImage entry).getD i 0) ∧
      (∀ a, base ≤ a → a < base + (n - 37) → ram1 a = UNUSED_STACK_PATTERN) ∧
      (∀ a, a < base ∨ base + n ≤ a → ram1 a = ram a) := by
  have htop : (base + n + 0xFFFF) % 0x10000 = base + n - 1 := by omega
  obtain ⟨s1, s2, s3⟩ := foldl_storeDec (initialStackImage entry) (ram, base + n - 1)
    (by rw [initialStackImage_length]; show 37 ≤ base + n - 1; omega)
    (by show base + n - 1 < 0x10000; omega)
  rw [initialStackImage_length] at s1 s2 s3
  have s1a : ((initialStackImage entry).foldl storeDec (ram, base + n - 1)).2 = base + n - 38 := by
    rw [s1]; show base + n - 1 - 37 = base + n - 38; omega
  obtain ⟨ram1, r1, r2, r3⟩ := prepareTaskStackFill_spec base hb fuel
    ((initialStackImage entry).foldl storeDec (ram, base + n - 1))
    (by rw [s1a]; omega) (by rw [s1a]; omega) (by rw [s1a]; omega)
  rw [s1a] at r2 r3
  refine ⟨ram1, ?_, ?_, ?_, ?_⟩
  · rw [prepareTaskStack_eq, htop, r1, s1a]
    rfl
  · intro i hi
    rw [r3 _ (Or.inr (by omega))]
    exact s2 i hi
  · intro a ha1 ha2
    exact r2 a ha1 (by omega)
  · intro a ha
    rw [r3 a (by omega)]
    exact s3 a (by
      rcases ha with h | h
      · left; show a ≤ base + n - 1 - 37; omega
      · right; show base + n - 1 < a; omega)

theorem initialStackImage_registers (entry i : Nat) (h1 : 9 ≤ i) (h2 : i < 37) :
    (initialStackImage entry).getD i 0 = 0 := by
  interval_cases i <;> rfl

/-- C33, counterexample: for a stack area of 50 bytes at the address `0x200`, cleared RAM and
the entry point `0x1234` the call of `prepareTaskStack` returns the pointer `0x20C`, which is
`base + n - 38` and not `base + n - 37`; the byte at `0x20D` belongs to the image (it is 0, not
the pattern), and `rtos_getStackReserve` returns 13 and not 14.  The image written by
`prepareTaskStack` has 37 bytes (3 + 3 + 1 + 1 + 1 + 28), not 36. -/
theorem stackPrimedAsStated_counterexample :
    (prepareTaskStack true 51 (fun _ => 0) 0x200 50 0x1234).map Prod.snd = some 0x20C ∧
    (prepareTaskStack true 51 (fun _ => 0) 0x200 50 0x1234).map (fun r => r.1 0x20C)
      = some UNUSED_STACK_PATTERN ∧
    (prepareTaskStack true 51 (fun _ => 0) 0x200 50 0x1234).map (fun r => r.1 0x20D) = some 0 ∧
    (prepareTaskStack true 51 (fun _ => 0) 0x200 50 0x1234).bind
      (fun r => rtos_getStackReserve 51 r.1 0x200) = some 13 ∧
    ¬ StackPrimedAsStated (fun _ => 0) 0x200 50 0x1234 := by
  refine ⟨by decide, by decide, by decide, by decide, ?_⟩
  rintro ⟨ram1, h, _⟩
  obtain ⟨ram2, h2, _⟩ := prepareTaskStack_spec 51 (fun _ => 0) 0x200 50 0x1234
    (by decide) (by decide) (by decide) (by decide)
  rw [h2] at h
  have hp : (0x200 + 50 - 38 : Nat) = 0x200 + 50 - 37 :=
    congrArg Prod.snd (Option.some.inj h)
  exact absurd hp (by decide)

/-- C33, amended: `prepareTaskStack` in the compilation for the ATmega2560 (program counter of
three bytes), for every stack area of `n ≥ 37` bytes (in particular `n ≥ 50`) at an address
`base > 0` within the 16 Bit address range, every contents of the RAM and every entry point.
The function writes an image of 37 bytes at the end of the area: three null guard bytes, the
three bytes of the entry point, `r0 = 0`, the status register `0x80`, `r1 = 0` and 28 null
bytes for `r2` to `r23` and `r26` to `r31` (none for `r24`/`r25`); it fills the `n - 37` bytes
below with the pattern `0x29`, leaves the RAM outside of the area as it is and returns the
address `base + n - 38`.  Called directly afterwards `rtos_getStackReserve` ends its search at
the last byte of the image and returns `n - 37`; in general it returns the number of pattern
bytes counted from the lowest address of the area up to the first other byte. -/
theorem prepareTaskStack_initial_image (fuel : Nat) (ram : Nat → Nat) (base n entry : Nat)
    (hn : 37 ≤ n) (hb : 0 < base) (hr : base + n ≤ 0x10000) (hf : n - 37 < fuel) :
    (∃ ram1, prepareTaskStack true fuel ram base n entry = some (ram1, base + n - 38) ∧
      ram1 (base + n - 1) = 0 ∧ ram1 (base + n - 2) = 0 ∧ ram1 (base + n - 3) = 0 ∧
      ram1 (base + n - 4) = entry &&& 0x0000ff ∧
      ram1 (base + n - 5) = (entry &&& 0x00ff00) >>> 8 ∧
      ram1 (base + n - 6) = (entry &&& 0xff0000) >>> 16 ∧
      ram1 (base + n - 7) = 0 ∧ ram1 (base + n - 8) = 0x80 ∧ ram1 (base + n - 9) = 0 ∧
      (∀ a, base + n - 37 ≤ a → a < base + n - 9 → ram1 a = 0) ∧
      (∀ a, base ≤ a → a < base + (n - 37) → ram1 a = UNUSED_STACK_PATTERN) ∧
      (∀ a, a < base ∨ base + n ≤ a → ram1 a = ram a) ∧
      rtos_getStackReserve fuel ram1 base = some (n - 37)) ∧
    (∀ (ram2 : Nat → Nat) (c fuel2 : Nat),
      (∀ i, i < c → ram2 (base + i) = UNUSED_STACK_PATTERN) →
      ram2 (base + c) ≠ UNUSED_STACK_PATTERN → base + c < 0x10000 → c < fuel2 →
      rtos_getStackReserve fuel2 ram2 base = some c) := by
  refine ⟨?_, fun ram2 c fuel2 hall hne hlt hf2 =>
    rtos_getStackReserve_spec ram2 base c fuel2 hall hne hlt hf2⟩
  obtain ⟨ram1, p1, p2, p3, p4⟩ := prepareTaskStack_spec fuel ram base n entry hn hb hr hf
  have hi : ∀ i, i < 37 → ram1 (base + n - (i + 1)) = (initialStackImage entry).getD i 0 := by
    intro i hi
    have := p2 i hi
    have e : base + n - 1 - i = base + n - (i + 1) := by omega
    rw [e] at this
    exact this
  have hreg : ∀ a, base + n - 37 ≤ a → a < base + n - 9 → ram1 a = 0 := by
    intro a ha1 ha2
    have := p2 (base + n - 1 - a) (by omega)
    have e : base + n - 1 - (base + n - 1 - a) = a := by omega
    rw [e] at this
    rw [this]
    exact initialStackImage_registers entry _ (by omega) (by omega)
  refine ⟨ram1, p1, hi 0 (by decide), hi 1 (by decide), hi 2 (by decide), hi 3 (by decide),
    hi 4 (by decide), hi 5 (by decide), hi 6 (by decide), hi 7 (by decide), hi 8 (by decide),
    hreg, p3, p4, ?_⟩
  apply rtos_getStackReserve_spec ram1 base (n - 37) fuel
  · intro i hi
    exact p3 (base + i) (by omega) (by omega)
  · have := hreg (base + (n - 37)) (by omega) (by omega)
    rw [this]
    decide
  · omega
  · exact hf

/-- C33, amended, instance: a stack area of 50 bytes at the address `0x200` in a cleared RAM,
entry point `0x1234`; the returned pointer is `0x20C = 0x200 + 50 - 38`, the byte at this
address holds the pattern, the byte above it is the last byte of the image, and the stack
reserve is 13. -/
theorem prepareTaskStack_initial_image_witness :
    (37 ≤ 50 ∧ 0 < 0x200 ∧ 0x200 + 50 ≤ 0x10000 ∧ 50 - 37 < 64) ∧
    ∃ ram1, prepareTaskStack true 64 (fun _ => 0) 0x200 50 0x1234 = some (ram1, 0x20C) ∧
      ram1 (0x200 + 50 - 4) = 0x34 ∧ ram1 (0x200 + 50 - 5) = 0x12 ∧
      ram1 (0x200 + 50 - 8) = 0x80 ∧
      rtos_getStackReserve 64 ram1 0x200 = some 13 :=
  ⟨⟨by decide, by decide, by decide, by decide⟩,
   (prepareTaskStack_initial_image 64 (fun _ => 0) 0x200 50 0x1234 (by decide) (by decide)
      (by decide) (by decide)).1.elim
    (fun ram1 h => ⟨ram1, h.1, h.2.2.2.2.1, h.2.2.2.2.2.1, h.2.2.2.2.2.2.2.2.1,
      h.2.2.2.2.2.2.2.2.2.2.2.2.2⟩)⟩

/-! ## The indices of the task arrays are in bounds -/

theorem countP_eraseIdx_pos (p : Nat → Bool) (d : Nat) :
    ∀ (l : List Nat) (i : Nat), i < l.length → p (l[i]?.getD d) = true →
      (l.eraseIdx i).countP p + 1 = l.countP p := by
  intro l
  induction l with
  | nil => intro i hi; exact absurd hi (Nat.not_lt_zero _)
  | cons a l ih =>
    intro i hi hp
    cases i with
    | zero =>
      simp only [List.getElem?_cons_zero, Option.getD_some] at hp
      rw [List.eraseIdx_cons_zero, List.countP_cons_of_pos _ _ hp]
    | succ j =>
      simp only [List.getElem?_cons_succ] at hp
      have hj : j < l.length := by simpa using hi
      have := ih j hj hp
      rw [List.eraseIdx_cons_succ, List.countP_cons, List.countP_cons]
      omega

theorem countP_eraseIdx_le (p : Nat → Bool) (l : List Nat) (i : Nat) :
    (l.eraseIdx i).countP p ≤ l.countP p :=
  (List.eraseIdx_sublist l i).countP_le p

theorem getD_mem_of_lt (l : List Nat) (i d : Nat) (h : i < l.length) :
    l[i]?.getD d ∈ l := by
  rw [List.getElem?_eq_getElem h, Option.getD_some]
  exact List.getElem_mem h

theorem capacity_congr {cfg : Config} {k k1 : Kernel} (h : Capacity cfg k)
    (h1 : k1.pSuspendedTaskAry = k.pSuspendedTaskAry)
    (h2 : k1.pDueTaskAryAry = k.pDueTaskAryAry)
    (h3 : ∀ q, (k1.taskAry q).prioClass = (k.taskAry q).prioClass) : Capacity cfg k1 := by
  obtain ⟨a, b, c⟩ := h
  refine ⟨?_, ?_, ?_⟩
  · intro t ht
    rw [h1] at ht
    rw [h3]
    exact a t ht
  · unfold Kernel.noSuspendedTasks at b ⊢
    rw [h1]
    exact b
  · intro c0 hc0
    have := c c0 hc0
    unfold Kernel.noDueTasksAry at this ⊢
    rw [h1, h2]
    have e : (fun t => decide ((k1.taskAry t).prioClass = c0))
        = (fun t => decide ((k.taskAry t).prioClass = c0)) := by
      funext t
      rw [h3]
    rw [e]
    exact this

theorem capacity_setTask {cfg : Config} {k : Kernel} (h : Capacity cfg k) (pT : Nat) (t : Task)
    (ht : t.prioClass = (k.taskAry pT).prioClass) : Capacity cfg (k.setTask pT t) := by
  refine capacity_congr h rfl rfl (fun q => ?_)
  show (Function.update k.taskAry pT t q).prioClass = _
  by_cases hq : q = pT
  · subst hq
    rw [Function.update_same, ht]
  · rw [Function.update_noteq hq]

/-- In a state which fulfills the capacity condition the indices used by
`checkTaskForActivation` for a suspended task are in bounds, and the condition holds
afterwards. -/
theorem checkTaskForActivationChecked_eq {cfg : Config} {k : Kernel} (h : Capacity cfg k)
    (idxSuspTask : Nat) (hi : idxSuspTask < k.noSuspendedTasks) :
    checkTaskForActivationChecked cfg k idxSuspTask
      = some (checkTaskForActivation cfg k idxSuspTask) ∧
    Capacity cfg (checkTaskForActivation cfg k idxSuspTask).1 := by
  obtain ⟨a, b, c⟩ := h
  have hmem := getD_mem_of_lt k.pSuspendedTaskAry idxSuspTask (IDLE_TASK_ID cfg) hi
  have hprio := a _ hmem
  unfold checkTaskForActivationChecked checkTaskForActivation
  simp only
  rw [if_pos (lt_of_lt_of_le hi b)]
  cases hdue : taskBecomesDue
      (k.taskAry (k.pSuspendedTaskAry[idxSuspTask]?.getD (IDLE_TASK_ID cfg))) with
  | false =>
    simp only [Bool.false_eq_true, if_false]
    exact ⟨trivial, a, b, c⟩
  | true =>
    simp only [if_true]
    have hc := c _ hprio
    have hcnt := countP_eraseIdx_pos
      (fun t => decide ((k.taskAry t).prioClass
        = (k.taskAry (k.pSuspendedTaskAry[idxSuspTask]?.getD (IDLE_TASK_ID cfg))).prioClass))
      (IDLE_TASK_ID cfg) k.pSuspendedTaskAry idxSuspTask hi (by simp)
    have hclass : ∀ (t1 : Task), t1.prioClass
        = (k.taskAry (k.pSuspendedTaskAry[idxSuspTask]?.getD (IDLE_TASK_ID cfg))).prioClass →
        ∀ q, (Function.update k.taskAry
          (k.pSuspendedTaskAry[idxSuspTask]?.getD (IDLE_TASK_ID cfg)) t1 q).prioClass
          = (k.taskAry q).prioClass := by
      intro t1 ht1 q
      by_cases hq : q = k.pSuspendedTaskAry[idxSuspTask]?.getD (IDLE_TASK_ID cfg)
      · rw [hq, Function.update_same, ht1]
      · rw [Function.update_noteq hq]
    have ht1 : (if cfg.roundRobinModeSupported then
          { k.taskAry (k.pSuspendedTaskAry[idxSuspTask]?.getD (IDLE_TASK_ID cfg)) with
            cntRoundRobin := (k.taskAry
              (k.pSuspendedTaskAry[idxSuspTask]?.getD (IDLE_TASK_ID cfg))).timeRoundRobin }
        else k.taskAry (k.pSuspendedTaskAry[idxSuspTask]?.getD (IDLE_TASK_ID cfg))).prioClass
        = (k.taskAry (k.pSuspendedTaskAry[idxSuspTask]?.getD (IDLE_TASK_ID cfg))).prioClass := by
      split <;> rfl
    refine ⟨?_, ?_, ?_, ?_⟩
    · rw [if_pos, if_pos]
      · unfold Kernel.noSuspendedTasks at hi b ⊢
        exact ⟨by omega, fun _ => by omega⟩
      · refine ⟨hprio, ?_⟩
        omega
    · intro t ht
      simp only at ht ⊢
      rw [hclass _ ht1]
      exact a t ((List.eraseIdx_sublist _ _).subset ht)
    · unfold Kernel.noSuspendedTasks at b ⊢
      exact le_trans (List.eraseIdx_sublist _ _).length_le b
    · intro c0 hc0
      have hc1 := c c0 hc0
      unfold Kernel.noDueTasksAry at hc hc1 ⊢
      simp only
      have e : (fun t => decide ((Function.update k.taskAry
            (k.pSuspendedTaskAry[idxSuspTask]?.getD (IDLE_TASK_ID cfg))
            (if cfg.roundRobinModeSupported then
              { k.taskAry (k.pSuspendedTaskAry[idxSuspTask]?.getD (IDLE_TASK_ID cfg)) with
                cntRoundRobin := (k.taskAry
                  (k.pSuspendedTaskAry[idxSuspTask]?.getD (IDLE_TASK_ID cfg))).timeRoundRobin }
            else k.taskAry (k.pSuspendedTaskAry[idxSuspTask]?.getD (IDLE_TASK_ID cfg)))
            t).prioClass = c0))
          = (fun t => decide ((k.taskAry t).prioClass = c0)) := by
        funext t
        rw [hclass _ ht1]
      rw [e]
      by_cases hcc : c0
          = (k.taskAry (k.pSuspendedTaskAry[idxSuspTask]?.getD (IDLE_TASK_ID cfg))).prioClass
      · rw [hcc, Function.update_same, List.length_append, List.length_singleton]
        omega
      · rw [Function.update_noteq hcc]
        have := countP_eraseIdx_le (fun t => decide ((k.taskAry t).prioClass = c0))
          k.pSuspendedTaskAry idxSuspTask
        omega

/-- The loop of `onTimerTic` keeps the indices in bounds. -/
theorem onTimerTicLoopChecked_eq (cfg : Config) :
    ∀ (fuel idxSuspTask : Nat) (k : Kernel) (flag : Bool), Capacity cfg k →
      onTimerTicLoopChecked cfg fuel idxSuspTask k flag
        = some (onTimerTicLoop cfg fuel idxSuspTask k flag) ∧
      Capacity cfg (onTimerTicLoop cfg fuel idxSuspTask k flag).1 := by
  intro fuel
  induction fuel with
  | zero => intro i k flag h; exact ⟨rfl, h⟩
  | succ fuel ih =>
    intro i k flag h
    unfold onTimerTicLoopChecked onTimerTicLoop
    by_cases hi : i < k.noSuspendedTasks
    · simp only [hi, if_true]
      rw [if_pos (lt_of_lt_of_le hi h.2.1)]
      have h1 : Capacity cfg (k.setTask (k.pSuspendedTaskAry[i]?.getD (IDLE_TASK_ID cfg))
          (onTimerTicTask k.time
            (k.taskAry (k.pSuspendedTaskAry[i]?.getD (IDLE_TASK_ID cfg))))) :=
        capacity_setTask h _ _ (by rw [onTimerTicTask_frame])
      obtain ⟨e1, e2⟩ := checkTaskForActivationChecked_eq h1 i hi
      cases hp : ((k.taskAry (k.pSuspendedTaskAry[i]?.getD (IDLE_TASK_ID cfg))).postedEventVec
          != ((k.setTask (k.pSuspendedTaskAry[i]?.getD (IDLE_TASK_ID cfg))
            (onTimerTicTask k.time
              (k.taskAry (k.pSuspendedTaskAry[i]?.getD (IDLE_TASK_ID cfg))))).taskAry
            (k.pSuspendedTaskAry[i]?.getD (IDLE_TASK_ID cfg))).postedEventVec) with
      | false =>
        simp only [Bool.false_and, Bool.false_eq_true, if_false]
        exact ih _ _ _ h1
      | true =>
        simp only [Bool.true_and, if_true]
        rw [e1]
        simp only
        cases hd : (checkTaskForActivation cfg
            (k.setTask (k.pSuspendedTaskAry[i]?.getD (IDLE_TASK_ID cfg))
              (onTimerTicTask k.time
                (k.taskAry (k.pSuspendedTaskAry[i]?.getD (IDLE_TASK_ID cfg))))) i).2 with
        | false =>
          simp only [Bool.false_eq_true, if_false]
          exact ih _ _ _ h1
        | true =>
          simp only [if_true]
          exact ih _ _ _ e2
    · simp only [hi, if_false]
      exact ⟨trivial, h⟩

theorem sendEventTask_prioClass (cfg : Config) (t : Task) (b m v : Nat) :
    (sendEventTask cfg t b m v).1.prioClass = t.prioClass := by
  unfold sendEventTask
  simp only
  split <;> (try split) <;> rfl

/-- The loop of `sendEvent` keeps the indices in bounds. -/
theorem sendEventLoopChecked_eq (cfg : Config) :
    ∀ (fuel idxSuspTask : Nat) (k : Kernel) (v : SendEventLocals), Capacity cfg k →
      sendEventLoopChecked cfg fuel idxSuspTask k v
        = some (sendEventLoop cfg fuel idxSuspTask k v) ∧
      Capacity cfg (sendEventLoop cfg fuel idxSuspTask k v).1 := by
  intro fuel
  induction fuel with
  | zero => intro i k v h; exact ⟨rfl, h⟩
  | succ fuel ih =>
    intro i k v h
    unfold sendEventLoopChecked sendEventLoop
    by_cases hi : i < k.noSuspendedTasks
    · simp only [hi, if_true]
      rw [if_pos (lt_of_lt_of_le hi h.2.1)]
      have h1 : Capacity cfg (k.setTask (k.pSuspendedTaskAry[i]?.getD (IDLE_TASK_ID cfg))
          (sendEventTask cfg (k.taskAry (k.pSuspendedTaskAry[i]?.getD (IDLE_TASK_ID cfg)))
            v.postedEventVec v.mutexToReleaseVec v.semaphoreToReleaseVec).1) :=
        capacity_setTask h _ _ (sendEventTask_prioClass _ _ _ _ _)
      obtain ⟨e1, e2⟩ := checkTaskForActivationChecked_eq h1 i hi
      cases hp : ((k.taskAry (k.pSuspendedTaskAry[i]?.getD (IDLE_TASK_ID cfg))).postedEventVec
          != ((k.setTask (k.pSuspendedTaskAry[i]?.getD (IDLE_TASK_ID cfg))
            (sendEventTask cfg (k.taskAry (k.pSuspendedTaskAry[i]?.getD (IDLE_TASK_ID cfg)))
              v.postedEventVec v.mutexToReleaseVec v.semaphoreToReleaseVec).1).taskAry
            (k.pSuspendedTaskAry[i]?.getD (IDLE_TASK_ID cfg))).postedEventVec) with
      | false =>
        simp only [Bool.false_and, Bool.false_eq_true, if_false]
        exact ih _ _ _ h1
      | true =>
        simp only [Bool.true_and, if_true]
        rw [e1]
        simp only
        cases hd : (checkTaskForActivation cfg
            (k.setTask (k.pSuspendedTaskAry[i]?.getD (IDLE_TASK_ID cfg))
              (sendEventTask cfg (k.taskAry (k.pSuspendedTaskAry[i]?.getD (IDLE_TASK_ID cfg)))
                v.postedEventVec v.mutexToReleaseVec v.semaphoreToReleaseVec).1) i).2 with
        | false =>
          simp only [Bool.false_eq_true, if_false]
          exact ih _ _ _ h1
        | true =>
          simp only [if_true]
          exact ih _ _ _ e2
    · simp only [hi, if_false]
      exact ⟨trivial, h⟩

/-- The search of `lookForActiveTask` keeps the indices in bounds if a non-empty due list
implies that the capacity of the due lists is not null. -/
theorem lookForActiveTaskLoopChecked_eq (cfg : Config) (k : Kernel)
    (h : ∀ c, c < cfg.noPrioClasses → k.pDueTaskAryAry c ≠ [] → 0 < cfg.maxNoTasksInPrioClass) :
    ∀ n, n ≤ cfg.noPrioClasses →
      lookForActiveTaskLoopChecked cfg k n = some (lookForActiveTaskLoop k n) := by
  intro n
  induction n with
  | zero => intro _; rfl
  | succ n ih =>
    intro hn
    unfold lookForActiveTaskLoopChecked lookForActiveTaskLoop
    rw [if_pos (by omega)]
    cases hd : k.pDueTaskAryAry n with
    | nil => exact ih (by omega)
    | cons pT rest =>
      simp only
      rw [if_pos (h n (by omega) (by rw [hd]; exact List.cons_ne_nil _ _))]

theorem Capacity.due_pos {cfg : Config} {k : Kernel} (h : Capacity cfg k) :
    ∀ c, c < cfg.noPrioClasses → k.pDueTaskAryAry c ≠ [] → 0 < cfg.maxNoTasksInPrioClass := by
  intro c hc hne
  have := h.2.2 c hc
  have hl : 0 < (k.pDueTaskAryAry c).length := List.length_pos.mpr hne
  unfold Kernel.noDueTasksAry at this
  omega

/-- The due tasks of a class together with the suspended tasks of this class are not more
than the tasks of this class. -/
theorem capacity_of_inv {cfg : Config} {k : Kernel} (hI : ListsInv cfg k) (c : Nat) :
    k.noDueTasksAry c
      + k.pSuspendedTaskAry.countP (fun t => decide ((k.taskAry t).prioClass = c))
      ≤ (List.range cfg.noTasks).countP (fun t => decide ((k.taskAry t).prioClass = c)) := by
  have hdue : (k.pDueTaskAryAry c).countP (fun t => decide ((k.taskAry t).prioClass = c))
      = (k.pDueTaskAryAry c).length := by
    rw [List.countP_eq_length]
    intro t ht
    simp only [decide_eq_true_eq]
    exact (hI.due_lt c t ht).2
  have hnd : ((k.pDueTaskAryAry c ++ k.pSuspendedTaskAry).filter
      (fun t => decide ((k.taskAry t).prioClass = c))).Nodup := by
    rw [List.nodup_iff_count_le_one]
    intro t
    by_cases hp : (k.taskAry t).prioClass = c
    · rw [List.count_filter (by simp only [decide_eq_true_eq]; exact hp), List.count_append]
      by_cases ht : t < cfg.noTasks
      · have := hI.once t ht
        rw [hp] at this
        omega
      · have h1 : (k.pDueTaskAryAry c).count t = 0 :=
          List.count_eq_zero_of_not_mem (fun hm => ht (hI.due_lt c t hm).1)
        have h2 : k.pSuspendedTaskAry.count t = 0 :=
          List.count_eq_zero_of_not_mem (fun hm => ht (hI.susp_lt t hm))
        omega
    · have : List.count t ((k.pDueTaskAryAry c ++ k.pSuspendedTaskAry).filter
          (fun t => decide ((k.taskAry t).prioClass = c))) = 0 := by
        apply List.count_eq_zero_of_not_mem
        intro hm
        have := (List.mem_filter.mp hm).2
        simp only [decide_eq_true_eq] at this
        exact hp this
      omega
  have hsub : (k.pDueTaskAryAry c ++ k.pSuspendedTaskAry).filter
      (fun t => decide ((k.taskAry t).prioClass = c))
      ⊆ (List.range cfg.noTasks).filter (fun t => decide ((k.taskAry t).prioClass = c)) := by
    intro t hm
    obtain ⟨h1, h2⟩ := List.mem_filter.mp hm
    refine List.mem_filter.mpr ⟨?_, h2⟩
    rw [List.mem_range]
    rcases List.mem_append.mp h1 with h | h
    · exact (hI.due_lt c t h).1
    · exact hI.susp_lt t h
  have hle := (List.subperm_of_subset hnd hsub).length_le
  rw [← List.countP_eq_length_filter, ← List.countP_eq_length_filter, List.countP_append,
    hdue] at hle
  exact hle

theorem countP_range_prioClass (c : Nat) :
    ∀ (tasks : List TaskInit) (f : Nat → Nat),
      (∀ q a, tasks.get? q = some a → f q = a.prioClass) →
      (List.range tasks.length).countP (fun t => decide (f t = c))
        = tasks.countP (fun a => decide (a.prioClass = c)) := by
  intro tasks
  induction tasks with
  | nil => intro f _; rfl
  | cons a rest ih =>
    intro f h
    rw [List.length_cons, List.range_succ_eq_map, List.countP_cons, List.countP_cons,
      List.countP_map]
    have h0 : f 0 = a.prioClass := h 0 a rfl
    have := ih (fun q => f (q + 1)) (fun q b hb => h (q + 1) b (by simpa using hb))
    have e : ((fun t => decide (f t = c)) ∘ Nat.succ)
        = (fun t => decide ((fun q => f (q + 1)) t = c)) := rfl
    rw [e, this, h0]

/-- The priority class of a task in the state built by `rtos_initRTOS` is the argument of
`rtos_initializeTask`. -/
theorem rtos_initRTOS_prioClass (cfg : Config) (tasks : List TaskInit) (sem : Nat → Nat)
    (q : Nat) (a : TaskInit) (hq : q < cfg.noTasks) (ha : tasks.get? q = some a) :
    ((rtos_initRTOS cfg tasks sem).taskAry q).prioClass = a.prioClass := by
  obtain ⟨s1, _, s3⟩ := setup_tasks cfg tasks sem
  obtain ⟨_, _, i3⟩ := initRTOS_tasks cfg (setup cfg tasks (staticData cfg sem)) s1
  have hne : q ≠ IDLE_TASK_ID cfg := by unfold IDLE_TASK_ID; omega
  have e : (rtos_initRTOS cfg tasks sem).taskAry q
      = ((List.range cfg.noTasks).foldl (initRTOSTask cfg)
          (setup cfg tasks (staticData cfg sem))).taskAry q := by
    unfold rtos_initRTOS
    simp only [Kernel.setTask]
    rw [Function.update_noteq hne]
  rw [e, i3 q hq, s3 q a hq ha]
  exact (storeResumeCondition_frame cfg (2 ^ cfg.timeBits - 1)
    { Task.zero with prioClass := a.prioClass } a.startEventMask a.startByAllEvents
    a.startTimeout).1

theorem isrSystemTimerTic_prioClass (cfg : Config) (k : Kernel) (q : Nat) :
    ((isrSystemTimerTic cfg k).taskAry q).prioClass = (k.taskAry q).prioClass := by
  rw [isrSystemTimerTic_eq]
  split
  · rw [pushRetCodeOfContextSwitch_prioClass, (onTimerTic_order cfg k).2]
  · exact (onTimerTic_order cfg k).2 q

theorem rtos_sendEvent_prioClass {cfg : Config} (hcfg : cfg.WellFormed) (k : Kernel)
    (ev : Nat) (q : Nat) :
    ((rtos_sendEvent cfg k ev).taskAry q).prioClass = (k.taskAry q).prioClass := by
  unfold rtos_sendEvent
  simp only
  split
  · rw [pushRetCodeOfContextSwitch_prioClass, (sendEvent_order hcfg k ev).2]
  · exact (sendEvent_order hcfg k ev).2 q

theorem rtos_waitForEvent_prioClass {cfg : Config} (hcfg : cfg.WellFormed) (k : Kernel)
    (eventMask : Nat) (all : Bool) (timeout : Nat) (q : Nat) :
    ((rtos_waitForEvent cfg k eventMask all timeout).1.taskAry q).prioClass
      = (k.taskAry q).prioClass := by
  unfold rtos_waitForEvent
  rw [pushRetCodeOfContextSwitch_prioClass]
  exact waitForEvent_prioClass cfg hcfg.2.2.2.1 k eventMask all timeout q

/-- The priority class of a task never changes. -/
theorem reachable_prioClass {cfg : Config} (hcfg : cfg.WellFormed) {tasks : List TaskInit}
    {sem : Nat → Nat} {k : Kernel} (hr : Reachable cfg tasks sem k) (q : Nat) :
    (k.taskAry q).prioClass = ((rtos_initRTOS cfg tasks sem).taskAry q).prioClass := by
  induction hr with
  | init => rfl
  | timerTic _ ih => rw [isrSystemTimerTic_prioClass, ih]
  | sendEvent ev _ ih => rw [rtos_sendEvent_prioClass hcfg, ih]
  | waitForEvent m a t _ _ ih => rw [rtos_waitForEvent_prioClass hcfg, ih]

/-- The capacity condition holds in every reachable state if the configuration fits to the
tasks. -/
theorem reachable_capacity {cfg : Config} (hcfg : cfg.WellFormed) {tasks : List TaskInit}
    (ht : TasksOk cfg tasks) (hfit : ClassesFit cfg tasks) {sem : Nat → Nat} {k : Kernel}
    (hr : Reachable cfg tasks sem k) : Capacity cfg k := by
  obtain ⟨hI, _⟩ := reachable_inv hcfg ht hr
  refine ⟨fun t htm => hI.prio_lt t (hI.susp_lt t htm), ?_, fun c hc => ?_⟩
  · have := (tasksListedOnce_of_inv hI).2.2.2
    omega
  · refine le_trans (capacity_of_inv hI c) ?_
    have e : (fun t => decide ((k.taskAry t).prioClass = c))
        = (fun t => decide (((rtos_initRTOS cfg tasks sem).taskAry t).prioClass = c)) := by
      funext t
      rw [reachable_prioClass hcfg hr t]
    rw [e, ← hfit.1]
    have hcount : (List.range tasks.length).countP
        (fun t => decide (((rtos_initRTOS cfg tasks sem).taskAry t).prioClass = c))
        = (List.range tasks.length).countP
          (fun t => decide ((tasks.get? t).elim 0 (fun a => a.prioClass) = c)) := by
      apply List.countP_congr
      intro t htm
      rw [List.mem_range] at htm
      have hsome : tasks.get? t = some (tasks.get ⟨t, htm⟩) := List.get?_eq_get htm
      rw [rtos_initRTOS_prioClass cfg tasks sem t _ (by rw [← hfit.1]; exact htm) hsome, hsome]
      rfl
    rw [hcount, countP_range_prioClass c tasks
      (fun t => (tasks.get? t).elim 0 (fun a => a.prioClass))
      (fun q a hqa => by simp only [hqa, Option.elim])]
    exact hfit.2 c hc

theorem onTimerTicRoundRobin_due_length (k : Kernel) (flag : Bool) (c : Nat) :
    ((onTimerTicRoundRobin k flag).1.pDueTaskAryAry c).length = (k.pDueTaskAryAry c).length := by
  unfold onTimerTicRoundRobin
  simp only
  split
  · split
    · split
      · rename_i h
        simp only [Kernel.noDueTasksAry, Kernel.setTask] at h ⊢
        by_cases hc : c = (k.taskAry k.pActiveTask).prioClass
        · subst hc
          rw [Function.update_same, List.length_append, List.length_drop, List.length_singleton]
          omega
        · rw [Function.update_noteq hc]
      · rfl
    · rfl
  · rfl

/-- In a reachable state of a configuration which fits to the tasks `onTimerTic` keeps all
indices in bounds. -/
theorem onTimerTicChecked_eq {cfg : Config} {k : Kernel} (hI : ListsInv cfg k)
    (hA : ActiveInv cfg k) (hC : Capacity cfg k) :
    onTimerTicChecked cfg k = some (onTimerTic cfg k) := by
  have hC0 : Capacity cfg { k with time := (k.time + 1) % 2 ^ cfg.timeBits } :=
    capacity_congr hC rfl rfl (fun _ => rfl)
  obtain ⟨e1, hC1⟩ := onTimerTicLoopChecked_eq cfg k.noSuspendedTasks 0
    { k with time := (k.time + 1) % 2 ^ cfg.timeBits } false hC0
  have hrr : onTimerTicRoundRobinChecked cfg
      (onTimerTicLoop cfg k.noSuspendedTasks 0
        { k with time := (k.time + 1) % 2 ^ cfg.timeBits } false).1
      (onTimerTicLoop cfg k.noSuspendedTasks 0
        { k with time := (k.time + 1) % 2 ^ cfg.timeBits } false).2
      = some (onTimerTicRoundRobin
        (onTimerTicLoop cfg k.noSuspendedTasks 0
          { k with time := (k.time + 1) % 2 ^ cfg.timeBits } false).1
        (onTimerTicLoop cfg k.noSuspendedTasks 0
          { k with time := (k.time + 1) % 2 ^ cfg.timeBits } false).2) := by
    obtain ⟨_, v2, v3, _⟩ := onTimerTicVisitAll_inv hI hA
    rw [onTimerTicLoop_eq] at hC1 ⊢
    simp only at hC1 ⊢
    unfold onTimerTicRoundRobinChecked
    simp only
    rw [v2, v3]
    split
    · rename_i hel
      have hne : k.pActiveTask ≠ IDLE_TASK_ID cfg := by
        intro heq
        rw [heq, hI.idle_rr] at hel
        simp at hel
      rcases active_cases hI hA with ⟨e, _⟩ | ⟨_, hp, _, _⟩
      · exact absurd e hne
      · rw [if_pos hp, if_pos]
        intro _
        have := hC1.2.2 _ hp
        omega
    · rfl
  have hlook : ∀ (r : Kernel × Bool), Capacity cfg r.1 ∨
      (∃ k1 flag, Capacity cfg k1 ∧ r = onTimerTicRoundRobin k1 flag) →
      lookForActiveTaskLoopChecked cfg r.1 cfg.noPrioClasses
        = some (lookForActiveTaskLoop r.1 cfg.noPrioClasses) := by
    intro r hr
    refine lookForActiveTaskLoopChecked_eq cfg r.1 ?_ _ (le_refl _)
    rcases hr with h | ⟨k1, flag, h, rfl⟩
    · exact h.due_pos
    · intro c hc hne
      refine h.due_pos c hc ?_
      intro he
      have := onTimerTicRoundRobin_due_length k1 flag c
      rw [he, List.length_nil, List.length_eq_zero] at this
      exact hne this
  unfold onTimerTicChecked onTimerTic
  simp only
  have hn : ({ k with time := (k.time + 1) % 2 ^ cfg.timeBits } : Kernel).noSuspendedTasks
      = k.noSuspendedTasks := rfl
  rw [hn, e1]
  simp only
  cases hm : cfg.roundRobinModeSupported with
  | false =>
    simp only [Bool.false_eq_true, if_false]
    split
    · rw [hlook _ (Or.inl hC1)]
      rfl
    · rfl
  | true =>
    simp only [if_true]
    rw [hrr]
    simp only
    split
    · rw [hlook _ (Or.inr ⟨_, _, hC1, rfl⟩)]
      rfl
    · rfl

/-- In a state which fulfills the capacity condition `sendEvent` keeps all indices of the task
arrays in bounds. -/
theorem sendEventChecked_eq {cfg : Config} {k : Kernel} (hC : Capacity cfg k) (ev : Nat) :
    sendEventChecked cfg k ev = some (sendEvent cfg k ev) := by
  obtain ⟨e1, hC1⟩ := sendEventLoopChecked_eq cfg k.noSuspendedTasks 0 k
    (sendEventInit cfg ev) hC
  unfold sendEventChecked sendEvent sendEventDeliver
  simp only
  rw [e1]
  simp only
  split
  · rw [lookForActiveTaskLoopChecked_eq cfg _ ?_ _ (le_refl _)]
    · rfl
    · refine Capacity.due_pos (capacity_congr hC1 ?_ ?_ ?_)
      · split <;> split <;> rfl
      · split <;> split <;> rfl
      · intro q
        split <;> split <;> rfl
  · rfl

theorem waitForEventLookLoopChecked_eq (cfg : Config) (k : Kernel)
    (h : 0 < cfg.maxNoTasksInPrioClass) :
    ∀ n, n ≤ cfg.noPrioClasses →
      waitForEventLookLoopChecked cfg k n = some (waitForEventLookLoop cfg k n) := by
  intro n
  induction n with
  | zero => intro _; rfl
  | succ n ih =>
    intro hn
    unfold waitForEventLookLoopChecked waitForEventLookLoop
    rw [if_pos (by omega)]
    cases hd : k.pDueTaskAryAry n with
    | nil => exact ih (by omega)
    | cons pT rest =>
      simp only
      rw [if_pos h]

/-- In a reachable state of a configuration which fits to the tasks `waitForEvent`, called by
a task, keeps all indices in bounds. -/
theorem waitForEventChecked_eq {cfg : Config} (hcfg : cfg.WellFormed) {k : Kernel}
    (hI : ListsInv cfg k) (hA : ActiveInv cfg k) (hC : Capacity cfg k)
    (hne : k.pActiveTask ≠ IDLE_TASK_ID cfg) (eventMask : Nat) (all : Bool) (timeout : Nat) :
    waitForEventChecked cfg k eventMask all timeout
      = some (waitForEvent cfg k eventMask all timeout) := by
  obtain ⟨a1, a2, a3, _, _, a6, _⟩ := waitForEvent_acquire cfg hcfg.2.2.2.1 k eventMask all
  rcases active_cases hI hA with ⟨e, _⟩ | ⟨hlt, hp, ⟨rest, hrest⟩, _⟩
  · exact absurd e hne
  have hcap := hC.2.2 _ hp
  have hsum := (tasksListedOnce_of_inv hI).2.2.2
  have hone : k.noDueTasksAry (k.taskAry k.pActiveTask).prioClass
      ≤ Finset.sum (Finset.range cfg.noPrioClasses) (fun c => k.noDueTasksAry c) :=
    Finset.single_le_sum (f := fun c => k.noDueTasksAry c) (fun _ _ => Nat.zero_le _)
      (Finset.mem_range.mpr hp)
  have hlen : k.noDueTasksAry (k.taskAry k.pActiveTask).prioClass = rest.length + 1 := by
    unfold Kernel.noDueTasksAry
    rw [hrest, List.length_cons]
  unfold waitForEventChecked waitForEvent
  simp only
  generalize (if (cfg.useSemaphore || cfg.useMutex) = true
    then acquireFreeSyncObjs cfg k eventMask all else (k, false)) = r0 at a1 a2 a3 a6 ⊢
  have hprio : (r0.1.taskAry r0.1.pActiveTask).prioClass
      = (k.taskAry k.pActiveTask).prioClass := by
    rw [a1, a6]
  cases hfl : r0.2 with
  | true => simp only [if_true]
  | false =>
    simp only [Bool.false_eq_true, if_false]
    rw [if_pos, if_pos]
    · rw [waitForEventLookLoopChecked_eq cfg _ (by omega) _ (le_refl _)]
    · simp only [Kernel.noSuspendedTasks, Kernel.setTask, a2]
      unfold Kernel.noSuspendedTasks at hsum
      omega
    · simp only [Kernel.noDueTasksAry, a3]
      rw [hprio]
      unfold Kernel.noDueTasksAry at hcap hlen
      exact ⟨hp, by omega, fun _ => by omega⟩

/-- The index checks are effective: in the configuration `cfgShortDueList`, which the tasks
do not fit to, the first timer tic makes both tasks of class 0 due and the second one is
written behind the end of the due list of capacity one. -/
theorem onTimerTicChecked_short_due_list :
    ¬ ClassesFit cfgShortDueList tasksRoundRobin ∧
    (onTimerTicChecked cfgShortDueList
      (rtos_initRTOS cfgShortDueList tasksRoundRobin (fun _ => 0))).isSome = false ∧
    (onTimerTic cfgShortDueList
      (rtos_initRTOS cfgShortDueList tasksRoundRobin (fun _ => 0))).1.noDueTasksAry 0 = 2 := by
  refine ⟨by decide, by decide, by decide⟩

/-- C40: the indices of the task arrays stay in bounds.  Precondition: the configuration is
well-formed (in particular `RTOS_NO_TASKS <= 127`), `rtos_initializeTask` is called for each
task with a priority class below `RTOS_NO_PRIO_CLASSES`, no more than
`RTOS_MAX_NO_TASKS_IN_PRIO_CLASS` tasks have the same class, and `waitForEvent` is called by
tasks only, not by the idle task.  Then in every reachable state the counter of each due list
is at most `RTOS_MAX_NO_TASKS_IN_PRIO_CLASS` and the counter of the suspended tasks is at most
`RTOS_NO_TASKS`, and every index which `checkTaskForActivation` (for any suspended task),
`onTimerTic`, `sendEvent` (for any event vector) and `waitForEvent` (for any arguments) apply
to the arrays of due tasks, to their counters and to the array of suspended tasks is within
the array: the functions with the index checks return the result of the functions
themselves. -/
theorem task_array_indices_in_bounds {cfg : Config} (hcfg : cfg.WellFormed)
    {tasks : List TaskInit} (ht : TasksOk cfg tasks) (hfit : ClassesFit cfg tasks)
    {sem : Nat → Nat} {k : Kernel} (hr : Reachable cfg tasks sem k) :
    (∀ c, c < cfg.noPrioClasses → k.noDueTasksAry c ≤ cfg.maxNoTasksInPrioClass) ∧
    k.noSuspendedTasks ≤ cfg.noTasks ∧
    (∀ idxSuspTask, idxSuspTask < k.noSuspendedTasks →
      checkTaskForActivationChecked cfg k idxSuspTask
        = some (checkTaskForActivation cfg k idxSuspTask)) ∧
    onTimerTicChecked cfg k = some (onTimerTic cfg k) ∧
    (∀ ev, sendEventChecked cfg k ev = some (sendEvent cfg k ev)) ∧
    (∀ eventMask all timeout, k.pActiveTask ≠ IDLE_TASK_ID cfg →
      waitForEventChecked cfg k eventMask all timeout
        = some (waitForEvent cfg k eventMask all timeout)) := by
  obtain ⟨hI, hA⟩ := reachable_inv hcfg ht hr
  have hC := reachable_capacity hcfg ht hfit hr
  refine ⟨fun c hc => ?_, hC.2.1, fun i hi => (checkTaskForActivationChecked_eq hC i hi).1,
    onTimerTicChecked_eq hI hA hC, fun ev => sendEventChecked_eq hC ev,
    fun eventMask all timeout hne => waitForEventChecked_eq hcfg hI hA hC hne eventMask all timeout⟩
  have := hC.2.2 c hc
  omega

/-- C40, instance: the scenario configuration has two tasks of class 0 and due lists of
capacity two.  In the state `kPreempt` (task 1 active, tasks 0 and 2 suspended) the index
checks of the timer tic, of `sendEvent(0x0008)`, which makes both suspended tasks due, and of
a suspend command of the active task succeed. -/
theorem task_array_indices_in_bounds_witness :
    cfgScenario.WellFormed ∧ TasksOk cfgScenario tasksScenario ∧
    ClassesFit cfgScenario tasksScenario ∧
    Reachable cfgScenario tasksScenario (fun _ => 0) kPreempt ∧
    kPreempt.pActiveTask ≠ IDLE_TASK_ID cfgScenario ∧
    kPreempt.noSuspendedTasks ≤ cfgScenario.noTasks ∧
    kPreempt.noDueTasksAry 0 ≤ cfgScenario.maxNoTasksInPrioClass ∧
    onTimerTicChecked cfgScenario kPreempt = some (onTimerTic cfgScenario kPreempt) ∧
    sendEventChecked cfgScenario kPreempt 0x0008 = some (sendEvent cfgScenario kPreempt 0x0008) ∧
    (sendEvent cfgScenario kPreempt 0x0008).1.noDueTasksAry 0 = 2 ∧
    waitForEventChecked cfgScenario kPreempt 0x8000 false 5
      = some (waitForEvent cfgScenario kPreempt 0x8000 false 5) :=
  ⟨by decide, tasksScenario_ok, by decide, kPreempt_reachable, by decide!,
   (task_array_indices_in_bounds (by decide) tasksScenario_ok (by decide)
      kPreempt_reachable).2.1,
   (task_array_indices_in_bounds (by decide) tasksScenario_ok (by decide)
      kPreempt_reachable).1 0 (by decide),
   (task_array_indices_in_bounds (by decide) tasksScenario_ok (by decide)
      kPreempt_reachable).2.2.2.1,
   (task_array_indices_in_bounds (by decide) tasksScenario_ok (by decide)
      kPreempt_reachable).2.2.2.2.1 0x0008,
   by decide!,
   (task_array_indices_in_bounds (by decide) tasksScenario_ok (by decide)
      kPreempt_reachable).2.2.2.2.2 0x8000 false 5 (by decide!)⟩

end RTuinOS
